import Mathlib

/-! # selfie32: encoder/decoder, library primitives, code generator and the RISC-U machine

A shallow embedding of parts of `src/selfie.c`.  Machine words (`uint32_t`) are
natural numbers below `2^32`; every arithmetic operation of the C code that can
wrap is reduced modulo `2^32` explicitly.  Procedures that may call `exit` return
`Except Nat _`, the error being the exit code.  Console output (`print...`) is
not part of the model.
-/

namespace Selfie

set_option autoImplicit false

/-! ## Machine-word arithmetic (`uint32_t` operators of C) -/

/-- Addition `a + b` on `uint32_t`. -/
def add32 (a b : Nat) : Nat := (a + b) % 4294967296

/-- Subtraction `a - b` on `uint32_t`. -/
def sub32 (a b : Nat) : Nat := (a + (4294967296 - b % 4294967296)) % 4294967296

/-- Multiplication `a * b` on `uint32_t`. -/
def mul32 (a b : Nat) : Nat := (a * b) % 4294967296

/-- Unary minus `-a` on `uint32_t`. -/
def neg32 (a : Nat) : Nat := (4294967296 - a % 4294967296) % 4294967296

/-! ## Constants -/

def CPUBITWIDTH : Nat := 32
def SIZEOFUINT32 : Nat := 4

def EXITCODE_NOERROR : Nat := 0
def EXITCODE_BADARGUMENTS : Nat := 1
def EXITCODE_IOERROR : Nat := 2
def EXITCODE_SCANNERERROR : Nat := 3
def EXITCODE_COMPILERERROR : Nat := 5
def EXITCODE_DIVISIONBYZERO : Nat := 8
def EXITCODE_UNKNOWNINSTRUCTION : Nat := 9
def EXITCODE_UNKNOWNSYSCALL : Nat := 10
def EXITCODE_MULTIPLEEXCEPTIONERROR : Nat := 11
def EXITCODE_OUTOFTRACEMEMORY : Nat := 13
def EXITCODE_UNCAUGHTEXCEPTION : Nat := 14

/-! ## Library -/

/-- The loop of `init_library` after `i` iterations: entry `0` is `1`, entry `i`
is twice entry `i - 1` (as a `uint32_t`). -/
def init_power_of_two_table : Nat → List Nat
  | 0 => [1]
  | i + 1 =>
    let t := init_power_of_two_table i
    t ++ [mul32 (t.getD i 0) 2]

/-- The table `power_of_two_table` once `init_library` has run: `CPUBITWIDTH`
entries for `2^0` to `2^(CPUBITWIDTH - 1)`. -/
def power_of_two_table : List Nat := init_power_of_two_table 31

/-- Table lookup `*(power_of_two_table + p)`.  The source asserts
`0 <= p < CPUBITWIDTH`; outside the table the model reads `0`. -/
def two_to_the_power_of (p : Nat) : Nat := power_of_two_table.getD p 0

def left_shift (n b : Nat) : Nat := mul32 n (two_to_the_power_of b)

def right_shift (n b : Nat) : Nat := n / two_to_the_power_of b

def get_bits (n i b : Nat) : Nat :=
  if i = 0 then
    n % two_to_the_power_of b
  else
    right_shift (left_shift n (sub32 CPUBITWIDTH (add32 i b))) (sub32 CPUBITWIDTH b)

def is_signed_integer (n b : Nat) : Nat :=
  if n < two_to_the_power_of (sub32 b 1) then 1
  else if n ≥ neg32 (two_to_the_power_of (sub32 b 1)) then 1
  else 0

def sign_extend (n b : Nat) : Nat :=
  if n < two_to_the_power_of (sub32 b 1) then n
  else sub32 n (two_to_the_power_of b)

def sign_shrink (n b : Nat) : Nat := get_bits n 0 b

/-! ## Encoder / decoder -/

/-- The procedure `check_immediate_range`: `exit(EXITCODE_COMPILERERROR)` when the
immediate is not a signed integer of the given width. -/
def check_immediate_range (immediate bits : Nat) : Except Nat Unit :=
  if is_signed_integer immediate bits = 0 then
    .error EXITCODE_COMPILERERROR
  else
    .ok ()

def encode_r_format (funct7 rs2 rs1 funct3 rd opcode : Nat) : Nat :=
  add32 (left_shift (add32 (left_shift (add32 (left_shift (add32 (left_shift
    (add32 (left_shift funct7 5) rs2) 5) rs1) 3) funct3) 5) rd) 7) opcode

def get_funct7 (instruction : Nat) : Nat := get_bits instruction 25 7
def get_rs2 (instruction : Nat) : Nat := get_bits instruction 20 5
def get_rs1 (instruction : Nat) : Nat := get_bits instruction 15 5
def get_funct3 (instruction : Nat) : Nat := get_bits instruction 12 3
def get_rd (instruction : Nat) : Nat := get_bits instruction 7 5
def get_opcode (instruction : Nat) : Nat := get_bits instruction 0 7

def encode_i_format (immediate rs1 funct3 rd opcode : Nat) : Except Nat Nat := do
  check_immediate_range immediate 12
  let immediate := sign_shrink immediate 12
  pure (add32 (left_shift (add32 (left_shift (add32 (left_shift
    (add32 (left_shift immediate 5) rs1) 3) funct3) 5) rd) 7) opcode)

def get_immediate_i_format (instruction : Nat) : Nat :=
  sign_extend (get_bits instruction 20 12) 12

def encode_s_format (immediate rs2 rs1 funct3 opcode : Nat) : Except Nat Nat := do
  check_immediate_range immediate 12
  let immediate := sign_shrink immediate 12
  let imm1 := get_bits immediate 5 7
  let imm2 := get_bits immediate 0 5
  pure (add32 (left_shift (add32 (left_shift (add32 (left_shift (add32 (left_shift
    (add32 (left_shift imm1 5) rs2) 5) rs1) 3) funct3) 5) imm2) 7) opcode)

def get_immediate_s_format (instruction : Nat) : Nat :=
  let imm1 := get_bits instruction 25 7
  let imm2 := get_bits instruction 7 5
  sign_extend (add32 (left_shift imm1 5) imm2) 12

def encode_b_format (immediate rs2 rs1 funct3 opcode : Nat) : Except Nat Nat := do
  check_immediate_range immediate 13
  let immediate := sign_shrink immediate 13
  let imm1 := get_bits immediate 12 1
  let imm2 := get_bits immediate 5 6
  let imm3 := get_bits immediate 1 4
  let imm4 := get_bits immediate 11 1
  pure (add32 (left_shift (add32 (left_shift (add32 (left_shift (add32 (left_shift
    (add32 (left_shift (add32 (left_shift (add32 (left_shift imm1 6) imm2) 5) rs2) 5) rs1) 3)
      funct3) 4) imm3) 1) imm4) 7) opcode)

def get_immediate_b_format (instruction : Nat) : Nat :=
  let imm1 := get_bits instruction 31 1
  let imm2 := get_bits instruction 25 6
  let imm3 := get_bits instruction 8 4
  let imm4 := get_bits instruction 7 1
  sign_extend (left_shift (add32 (left_shift (add32 (left_shift
    (add32 (left_shift imm1 1) imm4) 6) imm2) 4) imm3) 1) 13

def encode_j_format (immediate rd opcode : Nat) : Except Nat Nat := do
  check_immediate_range immediate 21
  let immediate := sign_shrink immediate 21
  let imm1 := get_bits immediate 20 1
  let imm2 := get_bits immediate 1 10
  let imm3 := get_bits immediate 11 1
  let imm4 := get_bits immediate 12 8
  pure (add32 (left_shift (add32 (left_shift (add32 (left_shift (add32 (left_shift
    (add32 (left_shift imm1 10) imm2) 1) imm3) 8) imm4) 5) rd) 7) opcode)

def get_immediate_j_format (instruction : Nat) : Nat :=
  let imm1 := get_bits instruction 31 1
  let imm2 := get_bits instruction 21 10
  let imm3 := get_bits instruction 20 1
  let imm4 := get_bits instruction 12 8
  sign_extend (left_shift (add32 (left_shift (add32 (left_shift
    (add32 (left_shift imm1 8) imm4) 1) imm3) 10) imm2) 1) 21

def encode_u_format (immediate rd opcode : Nat) : Except Nat Nat := do
  check_immediate_range immediate 20
  let immediate := sign_shrink immediate 20
  pure (add32 (left_shift (add32 (left_shift immediate 5) rd) 7) opcode)

def get_immediate_u_format (instruction : Nat) : Nat :=
  sign_extend (get_bits instruction 12 20) 20

/-! ## Two's-complement reading of machine words -/

/-- The two's-complement value of a machine word. -/
def signed_value (w : Nat) : Int :=
  if w < 2147483648 then (w : Int) else (w : Int) - 4294967296

/-- The word `w` is a machine word whose two's-complement value lies in
`[-2^(b-1), 2^(b-1))`, that is, a signed integer of `b` bits. -/
def in_signed_range (w b : Nat) : Prop :=
  w < 4294967296 ∧ -(2 : Int) ^ (b - 1) ≤ signed_value w ∧ signed_value w < (2 : Int) ^ (b - 1)

/-! ## Constants of the compiler and of the machine -/

def INT32_MAX : Nat := sub32 (two_to_the_power_of (sub32 CPUBITWIDTH 1)) 1
def INT32_MIN : Nat := add32 INT32_MAX 1

def SYM_EQUALITY : Nat := 11
def SYM_LT : Nat := 20
def SYM_LEQ : Nat := 21
def SYM_GT : Nat := 22
def SYM_GEQ : Nat := 23
def SYM_NOTEQ : Nat := 24

def NUMBEROFREGISTERS : Nat := 32
def NUMBEROFTEMPORARIES : Nat := 7

def REG_ZR : Nat := 0
def REG_RA : Nat := 1
def REG_SP : Nat := 2
def REG_GP : Nat := 3
def REG_TP : Nat := 4
def REG_T2 : Nat := 7
def REG_A0 : Nat := 10
def REG_A1 : Nat := 11
def REG_A2 : Nat := 12
def REG_A7 : Nat := 17
def REG_S11 : Nat := 27

def OP_LW : Nat := 3
def OP_IMM : Nat := 19
def OP_SW : Nat := 35
def OP_OP : Nat := 51
def OP_LUI : Nat := 55
def OP_BRANCH : Nat := 99
def OP_JALR : Nat := 103
def OP_JAL : Nat := 111
def OP_SYSTEM : Nat := 115

def F3_ADDI : Nat := 0
def F3_ADD : Nat := 0
def F3_SUB : Nat := 0
def F3_MUL : Nat := 0
def F3_DIVU : Nat := 5
def F3_REMU : Nat := 7
def F3_SLTU : Nat := 3
def F3_LW : Nat := 2
def F3_SW : Nat := 2
def F3_BEQ : Nat := 0
def F3_JALR : Nat := 0
def F3_ECALL : Nat := 0

def F7_ADD : Nat := 0
def F7_MUL : Nat := 1
def F7_SUB : Nat := 32
def F7_DIVU : Nat := 1
def F7_REMU : Nat := 1
def F7_SLTU : Nat := 0

def SYSCALL_EXIT : Nat := 93
def SYSCALL_READ : Nat := 63
def SYSCALL_WRITE : Nat := 64
def SYSCALL_OPEN : Nat := 1024
def SYSCALL_BRK : Nat := 214
def SYSCALL_SWITCH : Nat := 401

def VIRTUALMEMORYSIZE : Nat := 2147483648
def INSTRUCTIONSIZE : Nat := 4
def REGISTERSIZE : Nat := 4
def PAGESIZE : Nat := 4096

def MAX_REPLAY_LENGTH : Nat := 100

def EXCEPTION_NOEXCEPTION : Nat := 0
def EXCEPTION_PAGEFAULT : Nat := 1
def EXCEPTION_SYSCALL : Nat := 2
def EXCEPTION_TIMER : Nat := 3
def EXCEPTION_INVALIDADDRESS : Nat := 4
def EXCEPTION_DIVISIONBYZERO : Nat := 5
def EXCEPTION_UNKNOWNINSTRUCTION : Nat := 6
def EXCEPTION_MAXTRACE : Nat := 7

def TIMESLICE : Nat := 10000000
def TIMEROFF : Nat := 0

def DONOTEXIT : Nat := 0
def EXIT : Nat := 1

/-- The null context pointer `MY_CONTEXT`. -/
def MY_CONTEXT : Nat := 0

def signed_less_than (a b : Nat) : Nat :=
  if add32 a INT32_MIN < add32 b INT32_MIN then 1 else 0

/-! ## Temporaries and the code emitted for comparisons -/

/-- The procedure `current_temporary` for a given value of `allocated_temporaries`;
register access without an allocated temporary is `exit(EXITCODE_COMPILERERROR)`. -/
def current_temporary (allocated_temporaries : Nat) : Except Nat Nat :=
  if allocated_temporaries > 0 then
    if allocated_temporaries < 4 then
      .ok (add32 REG_TP allocated_temporaries)
    else
      .ok (sub32 (add32 REG_S11 allocated_temporaries) 3)
  else
    .error EXITCODE_COMPILERERROR

def previous_temporary (allocated_temporaries : Nat) : Except Nat Nat :=
  if allocated_temporaries > 1 then
    if allocated_temporaries = 4 then
      .ok REG_T2
    else do
      let t ← current_temporary allocated_temporaries
      pure (sub32 t 1)
  else
    .error EXITCODE_COMPILERERROR

def MAX_CODE_LENGTH : Nat := 245760

/-- The state of the code generator as far as emitting instructions touches it:
the binary buffer (by word index), its length in bytes, the source-line table, the
scanner's line number, the number of allocated temporaries and the instruction
counters that the `emit_` procedures increment, and the number `allocated_memory` of
bytes of global variables and strings. -/
structure Compiler where
  binary : Nat → Nat
  binary_length : Nat
  code_line_number : Nat → Nat
  line_number : Nat
  allocated_temporaries : Nat
  ic_addi : Nat
  ic_sub : Nat
  ic_sltu : Nat
  ic_add : Nat
  ic_remu : Nat
  ic_lw : Nat
  ic_sw : Nat
  ic_beq : Nat
  ic_jalr : Nat
  ic_ecall : Nat
  allocated_memory : Nat
  ic_lui : Nat
  ic_mul : Nat
  ic_divu : Nat
  ic_jal : Nat

def load_instruction (c : Compiler) (baddr : Nat) : Nat :=
  c.binary (baddr / REGISTERSIZE)

def store_instruction (c : Compiler) (baddr instruction : Nat) : Except Nat Compiler :=
  if baddr ≥ MAX_CODE_LENGTH then
    .error EXITCODE_COMPILERERROR
  else
    .ok { c with binary := fun i => if i = baddr / REGISTERSIZE then instruction else c.binary i }

def emit_instruction (c : Compiler) (instruction : Nat) : Except Nat Compiler := do
  let c ← store_instruction c c.binary_length instruction
  let c :=
    if c.code_line_number (c.binary_length / INSTRUCTIONSIZE) = 0 then
      { c with code_line_number := fun i =>
          if i = c.binary_length / INSTRUCTIONSIZE then c.line_number else c.code_line_number i }
    else c
  pure { c with binary_length := add32 c.binary_length INSTRUCTIONSIZE }

def emit_addi (c : Compiler) (rd rs1 immediate : Nat) : Except Nat Compiler := do
  let w ← encode_i_format immediate rs1 F3_ADDI rd OP_IMM
  let c ← emit_instruction c w
  pure { c with ic_addi := add32 c.ic_addi 1 }

def emit_sub (c : Compiler) (rd rs1 rs2 : Nat) : Except Nat Compiler := do
  let c ← emit_instruction c (encode_r_format F7_SUB rs2 rs1 F3_SUB rd OP_OP)
  pure { c with ic_sub := add32 c.ic_sub 1 }

def emit_sltu (c : Compiler) (rd rs1 rs2 : Nat) : Except Nat Compiler := do
  let c ← emit_instruction c (encode_r_format F7_SLTU rs2 rs1 F3_SLTU rd OP_OP)
  pure { c with ic_sltu := add32 c.ic_sltu 1 }

/-- The procedure `tfree` on the compiler state. -/
def tfree (c : Compiler) (number_of_temporaries : Nat) : Except Nat Compiler :=
  if c.allocated_temporaries ≥ number_of_temporaries then
    .ok { c with allocated_temporaries := sub32 c.allocated_temporaries number_of_temporaries }
  else
    .error EXITCODE_COMPILERERROR

/-- The part of `compile_expression` that follows the compilation of the two
operands of a comparison, for the comparison symbol `operator_symbol`: the right
operand is in the current temporary, the left one in the previous.  For a symbol
that is no comparison nothing is emitted. -/
def compile_comparison (operator_symbol : Nat) (c : Compiler) : Except Nat Compiler :=
  if operator_symbol = SYM_EQUALITY then do
    let prev ← previous_temporary c.allocated_temporaries
    let cur ← current_temporary c.allocated_temporaries
    let c ← emit_sub c prev cur prev
    let c ← emit_addi c cur REG_ZR 1
    let c ← emit_sltu c prev prev cur
    tfree c 1
  else if operator_symbol = SYM_NOTEQ then do
    let prev ← previous_temporary c.allocated_temporaries
    let cur ← current_temporary c.allocated_temporaries
    let c ← emit_sub c prev cur prev
    let c ← tfree c 1
    let cur ← current_temporary c.allocated_temporaries
    emit_sltu c cur REG_ZR cur
  else if operator_symbol = SYM_LT then do
    let prev ← previous_temporary c.allocated_temporaries
    let cur ← current_temporary c.allocated_temporaries
    let c ← emit_sltu c prev prev cur
    tfree c 1
  else if operator_symbol = SYM_GT then do
    let prev ← previous_temporary c.allocated_temporaries
    let cur ← current_temporary c.allocated_temporaries
    let c ← emit_sltu c prev cur prev
    tfree c 1
  else if operator_symbol = SYM_LEQ then do
    let prev ← previous_temporary c.allocated_temporaries
    let cur ← current_temporary c.allocated_temporaries
    let c ← emit_sltu c prev cur prev
    let c ← emit_addi c cur REG_ZR 1
    let c ← emit_sub c prev cur prev
    tfree c 1
  else if operator_symbol = SYM_GEQ then do
    let prev ← previous_temporary c.allocated_temporaries
    let cur ← current_temporary c.allocated_temporaries
    let c ← emit_sltu c prev prev cur
    let c ← emit_addi c cur REG_ZR 1
    let c ← emit_sub c prev cur prev
    tfree c 1
  else
    pure c

/-! ## The code emitted for `malloc` -/

def F12_ECALL : Nat := 0

/-- The procedure `talloc` on the compiler state. -/
def talloc (c : Compiler) : Except Nat Compiler :=
  if c.allocated_temporaries < NUMBEROFTEMPORARIES then
    .ok { c with allocated_temporaries := add32 c.allocated_temporaries 1 }
  else
    .error EXITCODE_COMPILERERROR

def emit_add (c : Compiler) (rd rs1 rs2 : Nat) : Except Nat Compiler := do
  let c ← emit_instruction c (encode_r_format F7_ADD rs2 rs1 F3_ADD rd OP_OP)
  pure { c with ic_add := add32 c.ic_add 1 }

def emit_remu (c : Compiler) (rd rs1 rs2 : Nat) : Except Nat Compiler := do
  let c ← emit_instruction c (encode_r_format F7_REMU rs2 rs1 F3_REMU rd OP_OP)
  pure { c with ic_remu := add32 c.ic_remu 1 }

def emit_lw (c : Compiler) (rd rs1 immediate : Nat) : Except Nat Compiler := do
  let w ← encode_i_format immediate rs1 F3_LW rd OP_LW
  let c ← emit_instruction c w
  pure { c with ic_lw := add32 c.ic_lw 1 }

def emit_sw (c : Compiler) (rs1 immediate rs2 : Nat) : Except Nat Compiler := do
  let w ← encode_s_format immediate rs2 rs1 F3_SW OP_SW
  let c ← emit_instruction c w
  pure { c with ic_sw := add32 c.ic_sw 1 }

def emit_beq (c : Compiler) (rs1 rs2 immediate : Nat) : Except Nat Compiler := do
  let w ← encode_b_format immediate rs2 rs1 F3_BEQ OP_BRANCH
  let c ← emit_instruction c w
  pure { c with ic_beq := add32 c.ic_beq 1 }

def emit_jalr (c : Compiler) (rd rs1 immediate : Nat) : Except Nat Compiler := do
  let w ← encode_i_format immediate rs1 F3_JALR rd OP_JALR
  let c ← emit_instruction c w
  pure { c with ic_jalr := add32 c.ic_jalr 1 }

def emit_ecall (c : Compiler) : Except Nat Compiler := do
  let w ← encode_i_format F12_ECALL REG_ZR F3_ECALL REG_ZR OP_SYSTEM
  let c ← emit_instruction c w
  pure { c with ic_ecall := add32 c.ic_ecall 1 }

/-- The procedure `emit_round_up(reg, m)`: code that computes
`value(reg) + m - 1 - (value(reg) + m - 1) % m` in `reg`. -/
def emit_round_up (c : Compiler) (reg m : Nat) : Except Nat Compiler := do
  let c ← talloc c
  let c ← emit_addi c reg reg (sub32 m 1)
  let t ← current_temporary c.allocated_temporaries
  let c ← emit_addi c t REG_ZR m
  let t ← current_temporary c.allocated_temporaries
  let c ← emit_remu c t reg t
  let t ← current_temporary c.allocated_temporaries
  let c ← emit_sub c reg reg t
  tfree c 1

/-- The procedure `emit_malloc`.  Of the symbol table only the entry of `_bump` is
kept, which `emit_malloc` creates in the global table and looks up right away: its
scope is `REG_GP` (set by `create_symbol_table_entry` for the global table) and its
address is `-allocated_memory`, after `allocated_memory` has grown by one word.  The
library entries of `malloc` and `zalloc` and the counter of global variables do not
touch the code emitted. -/
def emit_malloc (c : Compiler) : Except Nat Compiler := do
  let c := { c with allocated_memory := add32 c.allocated_memory REGISTERSIZE }
  let entry_scope := REG_GP
  let entry_address := neg32 c.allocated_memory
  let c ← talloc c
  let t ← current_temporary c.allocated_temporaries
  let c ← emit_lw c t REG_SP 0
  let c ← emit_addi c REG_SP REG_SP REGISTERSIZE
  let t ← current_temporary c.allocated_temporaries
  let c ← emit_round_up c t SIZEOFUINT32
  let c ← talloc c
  let t ← current_temporary c.allocated_temporaries
  let c ← emit_lw c t entry_scope entry_address
  let t ← current_temporary c.allocated_temporaries
  let p ← previous_temporary c.allocated_temporaries
  let c ← emit_add c REG_A0 t p
  let c ← emit_addi c REG_A7 REG_ZR SYSCALL_BRK
  let c ← emit_ecall c
  let t ← current_temporary c.allocated_temporaries
  let c ← emit_beq c REG_A0 t (mul32 2 INSTRUCTIONSIZE)
  let c ← emit_beq c REG_ZR REG_ZR (mul32 4 INSTRUCTIONSIZE)
  let p ← previous_temporary c.allocated_temporaries
  let c ← emit_beq c REG_ZR p (mul32 3 INSTRUCTIONSIZE)
  let c ← emit_addi c REG_A0 REG_ZR 0
  let c ← emit_beq c REG_ZR REG_ZR (mul32 3 INSTRUCTIONSIZE)
  let c ← emit_sw c entry_scope entry_address REG_A0
  let t ← current_temporary c.allocated_temporaries
  let c ← emit_addi c REG_A0 t 0
  let c ← tfree c 2
  emit_jalr c REG_ZR REG_RA 0

/-! ## The machine -/

/-- The arrays and counters of the symbolic execution engine that the interpreter
touches besides `values`, `pcs` and `tc`: the trace (`tcs`, `types`, `los`, `ups`,
`vaddrs`), the type, the bounds and the constraint of each register, and the most
recent constraint counter `mrcc`. -/
structure SymbolicEngine where
  tcs : Nat → Nat
  types : Nat → Nat
  los : Nat → Nat
  ups : Nat → Nat
  vaddrs : Nat → Nat
  reg_typ : Nat → Nat
  reg_los : Nat → Nat
  reg_ups : Nat → Nat
  reg_hasco : Nat → Nat
  reg_vaddr : Nat → Nat
  reg_hasmn : Nat → Nat
  reg_colos : Nat → Nat
  reg_coups : Nat → Nat
  mrcc : Nat

/-- The globals of the page frame allocator `palloc`. -/
structure PageFrames where
  page_frame_memory : Nat
  free_page_frame_memory : Nat
  allocated_page_frame_memory : Nat
  next_page_frame : Nat

/-- The state of the emulator as far as the interpreter touches it.  The arrays
`registers` and `pt` are those of the context `current_context`; that context's
other fields are part of the record (`context_pc` is the `pc` saved in the context,
`exception`, `faulting_page`, `exit_code`, `parent` its fields of the same name).
`memory` is the host memory that page frames live in, by address.  A register
index outside `0..31` cannot come out of the decoder. -/
structure Machine where
  pc : Nat
  ir : Nat
  opcode : Nat
  rs1 : Nat
  rs2 : Nat
  rd : Nat
  imm : Nat
  funct3 : Nat
  funct7 : Nat
  registers : Nat → Nat
  pt : Nat → Nat
  memory : Nat → Nat
  timer : Nat
  trap : Nat
  current_context : Nat
  context_pc : Nat
  exception : Nat
  faulting_page : Nat
  exit_code : Nat
  parent : Nat
  execute : Nat
  record : Nat
  redo : Nat
  symbolic : Nat
  values : Nat → Nat
  tc : Nat
  entry_point : Nat
  ic_lui : Nat
  ic_addi : Nat
  ic_add : Nat
  ic_sub : Nat
  ic_mul : Nat
  ic_divu : Nat
  ic_remu : Nat
  ic_sltu : Nat
  ic_lw : Nat
  ic_sw : Nat
  ic_beq : Nat
  ic_jal : Nat
  ic_jalr : Nat
  ic_ecall : Nat
  calls : Nat
  iterations : Nat
  calls_per_procedure : Nat → Nat
  iterations_per_loop : Nat → Nat
  loads_per_instruction : Nat → Nat
  stores_per_instruction : Nat → Nat
  debug : Nat
  undo : Nat
  disassemble : Nat
  pcs : Nat → Nat
  program_break : Nat
  engine : SymbolicEngine
  frames : PageFrames

/-- The array `a` after the assignment `*(a + i) = v`. -/
def store_word (a : Nat → Nat) (i v : Nat) : Nat → Nat :=
  fun j => if j = i then v else a j

/-! ### Memory -/

def get_frame_for_page (table : Nat → Nat) (page : Nat) : Nat := table page

def is_page_mapped (table : Nat → Nat) (page : Nat) : Nat :=
  if get_frame_for_page table page ≠ 0 then 1 else 0

def is_valid_virtual_address (vaddr : Nat) : Nat :=
  if vaddr < VIRTUALMEMORYSIZE then
    if vaddr % REGISTERSIZE = 0 then 1 else 0
  else 0

def get_page_of_virtual_address (vaddr : Nat) : Nat := vaddr / PAGESIZE

def is_virtual_address_mapped (table : Nat → Nat) (vaddr : Nat) : Nat :=
  is_page_mapped table (get_page_of_virtual_address vaddr)

def tlb (table : Nat → Nat) (vaddr : Nat) : Nat :=
  let page := get_page_of_virtual_address vaddr
  let frame := get_frame_for_page table page
  add32 (sub32 vaddr (mul32 page PAGESIZE)) frame

def load_virtual_memory (memory : Nat → Nat) (table : Nat → Nat) (vaddr : Nat) : Nat :=
  memory (tlb table vaddr)

def store_virtual_memory (memory : Nat → Nat) (table : Nat → Nat) (vaddr data : Nat) :
    Nat → Nat :=
  store_word memory (tlb table vaddr) data

/-! ### Exceptions -/

/-- The procedure `throw_exception`: fatal when a different exception is pending
in the current context, otherwise the exception and the faulting page are recorded
in the context and `trap` is set. -/
def throw_exception (exception faulting_page : Nat) (m : Machine) : Except Nat Machine :=
  if m.exception ≠ EXCEPTION_NOEXCEPTION then
    if m.exception ≠ exception then
      .error EXITCODE_MULTIPLEEXCEPTIONERROR
    else
      .ok { m with exception := exception, faulting_page := faulting_page, trap := 1 }
  else
    .ok { m with exception := exception, faulting_page := faulting_page, trap := 1 }

/-! ### Decoding -/

def decode_r_format (m : Machine) : Machine :=
  { m with funct7 := get_funct7 m.ir, rs2 := get_rs2 m.ir, rs1 := get_rs1 m.ir,
           funct3 := get_funct3 m.ir, rd := get_rd m.ir, imm := 0 }

def decode_i_format (m : Machine) : Machine :=
  { m with funct7 := 0, rs2 := 0, rs1 := get_rs1 m.ir, funct3 := get_funct3 m.ir,
           rd := get_rd m.ir, imm := get_immediate_i_format m.ir }

def decode_s_format (m : Machine) : Machine :=
  { m with funct7 := 0, rs2 := get_rs2 m.ir, rs1 := get_rs1 m.ir, funct3 := get_funct3 m.ir,
           rd := 0, imm := get_immediate_s_format m.ir }

def decode_b_format (m : Machine) : Machine :=
  { m with funct7 := 0, rs2 := get_rs2 m.ir, rs1 := get_rs1 m.ir, funct3 := get_funct3 m.ir,
           rd := 0, imm := get_immediate_b_format m.ir }

def decode_j_format (m : Machine) : Machine :=
  { m with funct7 := 0, rs2 := 0, rs1 := 0, funct3 := 0, rd := get_rd m.ir,
           imm := get_immediate_j_format m.ir }

def decode_u_format (m : Machine) : Machine :=
  { m with funct7 := 0, rs2 := 0, rs1 := 0, funct3 := 0, rd := get_rd m.ir,
           imm := get_immediate_u_format m.ir }

/-! ### Instructions -/

def do_lui (m : Machine) : Machine :=
  let m := if m.rd ≠ REG_ZR then
      { m with registers := store_word m.registers m.rd (left_shift m.imm 12) }
    else m
  { m with pc := add32 m.pc INSTRUCTIONSIZE, ic_lui := add32 m.ic_lui 1 }

def do_addi (m : Machine) : Machine :=
  let m := if m.rd ≠ REG_ZR then
      { m with registers := store_word m.registers m.rd (add32 (m.registers m.rs1) m.imm) }
    else m
  { m with pc := add32 m.pc INSTRUCTIONSIZE, ic_addi := add32 m.ic_addi 1 }

def do_add (m : Machine) : Machine :=
  let m := if m.rd ≠ REG_ZR then
      { m with registers :=
          store_word m.registers m.rd (add32 (m.registers m.rs1) (m.registers m.rs2)) }
    else m
  { m with pc := add32 m.pc INSTRUCTIONSIZE, ic_add := add32 m.ic_add 1 }

def do_sub (m : Machine) : Machine :=
  let m := if m.rd ≠ REG_ZR then
      { m with registers :=
          store_word m.registers m.rd (sub32 (m.registers m.rs1) (m.registers m.rs2)) }
    else m
  { m with pc := add32 m.pc INSTRUCTIONSIZE, ic_sub := add32 m.ic_sub 1 }

def do_mul (m : Machine) : Machine :=
  let m := if m.rd ≠ REG_ZR then
      { m with registers :=
          store_word m.registers m.rd (mul32 (m.registers m.rs1) (m.registers m.rs2)) }
    else m
  { m with pc := add32 m.pc INSTRUCTIONSIZE, ic_mul := add32 m.ic_mul 1 }

def do_divu (m : Machine) : Except Nat Machine :=
  if m.registers m.rs2 ≠ 0 then
    let m := if m.rd ≠ REG_ZR then
        { m with registers :=
            store_word m.registers m.rd (m.registers m.rs1 / m.registers m.rs2) }
      else m
    .ok { m with pc := add32 m.pc INSTRUCTIONSIZE, ic_divu := add32 m.ic_divu 1 }
  else
    throw_exception EXCEPTION_DIVISIONBYZERO 0 m

def do_remu (m : Machine) : Except Nat Machine :=
  if m.registers m.rs2 ≠ 0 then
    let m := if m.rd ≠ REG_ZR then
        { m with registers :=
            store_word m.registers m.rd (m.registers m.rs1 % m.registers m.rs2) }
      else m
    .ok { m with pc := add32 m.pc INSTRUCTIONSIZE, ic_remu := add32 m.ic_remu 1 }
  else
    throw_exception EXCEPTION_DIVISIONBYZERO 0 m

def do_sltu (m : Machine) : Machine :=
  let m := if m.rd ≠ REG_ZR then
      if m.registers m.rs1 < m.registers m.rs2 then
        { m with registers := store_word m.registers m.rd 1 }
      else
        { m with registers := store_word m.registers m.rd 0 }
    else m
  { m with pc := add32 m.pc INSTRUCTIONSIZE, ic_sltu := add32 m.ic_sltu 1 }

/-- The procedure `do_lw`; the first component of the result is the returned
`vaddr`. -/
def do_lw (m : Machine) : Except Nat (Nat × Machine) :=
  let vaddr := add32 (m.registers m.rs1) m.imm
  if is_valid_virtual_address vaddr ≠ 0 then
    if is_virtual_address_mapped m.pt vaddr ≠ 0 then
      let m := if m.rd ≠ REG_ZR then
          { m with registers :=
              store_word m.registers m.rd (load_virtual_memory m.memory m.pt vaddr) }
        else m
      let a := sub32 m.pc m.entry_point / INSTRUCTIONSIZE
      .ok (vaddr,
        { m with pc := add32 m.pc INSTRUCTIONSIZE, ic_lw := add32 m.ic_lw 1,
                 loads_per_instruction :=
                   store_word m.loads_per_instruction a (add32 (m.loads_per_instruction a) 1) })
    else do
      let m ← throw_exception EXCEPTION_PAGEFAULT (get_page_of_virtual_address vaddr) m
      pure (vaddr, m)
  else do
    let m ← throw_exception EXCEPTION_INVALIDADDRESS vaddr m
    pure (vaddr, m)

/-- The procedure `do_sw`; the first component of the result is the returned
`vaddr`. -/
def do_sw (m : Machine) : Except Nat (Nat × Machine) :=
  let vaddr := add32 (m.registers m.rs1) m.imm
  if is_valid_virtual_address vaddr ≠ 0 then
    if is_virtual_address_mapped m.pt vaddr ≠ 0 then
      let m := { m with memory := store_virtual_memory m.memory m.pt vaddr (m.registers m.rs2) }
      let a := sub32 m.pc m.entry_point / INSTRUCTIONSIZE
      .ok (vaddr,
        { m with pc := add32 m.pc INSTRUCTIONSIZE, ic_sw := add32 m.ic_sw 1,
                 stores_per_instruction :=
                   store_word m.stores_per_instruction a (add32 (m.stores_per_instruction a) 1) })
    else do
      let m ← throw_exception EXCEPTION_PAGEFAULT (get_page_of_virtual_address vaddr) m
      pure (vaddr, m)
  else do
    let m ← throw_exception EXCEPTION_INVALIDADDRESS vaddr m
    pure (vaddr, m)

def do_beq (m : Machine) : Machine :=
  let m := if m.registers m.rs1 = m.registers m.rs2 then
      { m with pc := add32 m.pc m.imm }
    else
      { m with pc := add32 m.pc INSTRUCTIONSIZE }
  { m with ic_beq := add32 m.ic_beq 1 }

def do_jal (m : Machine) : Machine :=
  let m := if m.rd ≠ REG_ZR then
      let m := { m with registers := store_word m.registers m.rd (add32 m.pc INSTRUCTIONSIZE) }
      let m := { m with pc := add32 m.pc m.imm }
      let a := sub32 m.pc m.entry_point / INSTRUCTIONSIZE
      { m with calls := add32 m.calls 1,
               calls_per_procedure :=
                 store_word m.calls_per_procedure a (add32 (m.calls_per_procedure a) 1) }
    else if signed_less_than m.imm 0 ≠ 0 then
      let m := { m with pc := add32 m.pc m.imm }
      let a := sub32 m.pc m.entry_point / INSTRUCTIONSIZE
      { m with iterations := add32 m.iterations 1,
               iterations_per_loop :=
                 store_word m.iterations_per_loop a (add32 (m.iterations_per_loop a) 1) }
    else
      { m with pc := add32 m.pc m.imm }
  { m with ic_jal := add32 m.ic_jal 1 }

def do_jalr (m : Machine) : Machine :=
  let m := if m.rd = REG_ZR then
      { m with pc := left_shift (right_shift (add32 (m.registers m.rs1) m.imm) 1) 1 }
    else
      let next_pc := left_shift (right_shift (add32 (m.registers m.rs1) m.imm) 1) 1
      let m := { m with registers := store_word m.registers m.rd (add32 m.pc INSTRUCTIONSIZE) }
      { m with pc := next_pc }
  { m with ic_jalr := add32 m.ic_jalr 1 }

/-- The procedure `do_ecall`.  The context switch `implement_switch` involves
contexts other than the current one and is a parameter. -/
def do_ecall (implement_switch : Machine → Except Nat Machine) (m : Machine) :
    Except Nat Machine :=
  let m := { m with ic_ecall := add32 m.ic_ecall 1 }
  if m.redo ≠ 0 then
    let m := { m with
      registers := store_word m.registers REG_A0 (m.values (m.tc % MAX_REPLAY_LENGTH)) }
    .ok { m with pc := add32 m.pc INSTRUCTIONSIZE }
  else if m.registers REG_A7 = SYSCALL_SWITCH then
    if m.record ≠ 0 then
      .error EXITCODE_BADARGUMENTS
    else if m.symbolic ≠ 0 then
      .error EXITCODE_BADARGUMENTS
    else
      implement_switch { m with pc := add32 m.pc INSTRUCTIONSIZE }
  else
    throw_exception EXCEPTION_SYSCALL 0 m

/-! ### The interpreter -/

def fetch (m : Machine) : Machine :=
  { m with ir := load_virtual_memory m.memory m.pt m.pc }

/-- The end of `decode_execute`, reached when no instruction was recognised. -/
def unknown_instruction (m : Machine) : Except Nat Machine :=
  if m.execute ≠ 0 then
    throw_exception EXCEPTION_UNKNOWNINSTRUCTION 0 m
  else
    .error EXITCODE_UNKNOWNINSTRUCTION

/-- The procedure `decode_execute` with `debug == 0`, that is, without recording,
disassembling or symbolic execution: each recognised instruction runs its `do_`
procedure. -/
def decode_execute (implement_switch : Machine → Except Nat Machine) (m : Machine) :
    Except Nat Machine :=
  let m := { m with opcode := get_opcode m.ir }
  if m.opcode = OP_IMM then
    let m := decode_i_format m
    if m.funct3 = F3_ADDI then .ok (do_addi m) else unknown_instruction m
  else if m.opcode = OP_LW then
    let m := decode_i_format m
    if m.funct3 = F3_LW then do
      let r ← do_lw m
      pure r.2
    else unknown_instruction m
  else if m.opcode = OP_SW then
    let m := decode_s_format m
    if m.funct3 = F3_SW then do
      let r ← do_sw m
      pure r.2
    else unknown_instruction m
  else if m.opcode = OP_OP then
    let m := decode_r_format m
    if m.funct3 = F3_ADD then
      if m.funct7 = F7_ADD then .ok (do_add m)
      else if m.funct7 = F7_SUB then .ok (do_sub m)
      else if m.funct7 = F7_MUL then .ok (do_mul m)
      else unknown_instruction m
    else if m.funct3 = F3_DIVU then
      if m.funct7 = F7_DIVU then do_divu m else unknown_instruction m
    else if m.funct3 = F3_REMU then
      if m.funct7 = F7_REMU then do_remu m else unknown_instruction m
    else if m.funct3 = F3_SLTU then
      if m.funct7 = F7_SLTU then .ok (do_sltu m) else unknown_instruction m
    else unknown_instruction m
  else if m.opcode = OP_BRANCH then
    let m := decode_b_format m
    if m.funct3 = F3_BEQ then .ok (do_beq m) else unknown_instruction m
  else if m.opcode = OP_JAL then
    .ok (do_jal (decode_j_format m))
  else if m.opcode = OP_JALR then
    let m := decode_i_format m
    if m.funct3 = F3_JALR then .ok (do_jalr m) else unknown_instruction m
  else if m.opcode = OP_LUI then
    .ok (do_lui (decode_u_format m))
  else if m.opcode = OP_SYSTEM then
    let m := decode_i_format m
    if m.funct3 = F3_ECALL then do_ecall implement_switch m else unknown_instruction m
  else
    unknown_instruction m

def interrupt (m : Machine) : Except Nat Machine :=
  if m.timer ≠ TIMEROFF then
    let m := { m with timer := sub32 m.timer 1 }
    if m.timer = 0 then
      if m.exception = EXCEPTION_NOEXCEPTION then
        throw_exception EXCEPTION_TIMER 0 m
      else
        .ok { m with timer := 1 }
    else .ok m
  else .ok m

/-- The loop of `run_until_exception`, for at most `fuel` instructions; `none`
when the loop is still running after `fuel` instructions. -/
def run_loop (implement_switch : Machine → Except Nat Machine) :
    Nat → Machine → Except Nat (Option Machine)
  | 0, m => if m.trap = 0 then .ok none else .ok (some m)
  | fuel + 1, m =>
    if m.trap = 0 then do
      let m ← decode_execute implement_switch (fetch m)
      let m ← interrupt m
      run_loop implement_switch fuel m
    else .ok (some m)

def run_until_exception (implement_switch : Machine → Except Nat Machine) (fuel : Nat)
    (m : Machine) : Except Nat (Option Machine) := do
  match ← run_loop implement_switch fuel { m with trap := 0 } with
  | none => pure none
  | some m => pure (some { m with trap := 0 })

/-! ### The replay engine -/

def record_state (value : Nat) (m : Machine) : Machine :=
  { m with pcs := store_word m.pcs (m.tc % MAX_REPLAY_LENGTH) m.pc,
           values := store_word m.values (m.tc % MAX_REPLAY_LENGTH) value,
           tc := add32 m.tc 1 }

def record_lui_addi_add_sub_mul_sltu_jal_jalr (m : Machine) : Machine :=
  record_state (m.registers m.rd) m

def undo_lui_addi_add_sub_mul_divu_remu_sltu_lw_jal_jalr (m : Machine) : Machine :=
  { m with registers := store_word m.registers m.rd (m.values (m.tc % MAX_REPLAY_LENGTH)) }

def record_divu_remu (m : Machine) : Machine :=
  record_state (m.registers m.rd) m

def record_lw (m : Machine) : Machine :=
  let vaddr := add32 (m.registers m.rs1) m.imm
  if is_valid_virtual_address vaddr ≠ 0 then
    if is_virtual_address_mapped m.pt vaddr ≠ 0 then
      record_state (m.registers m.rd) m
    else m
  else m

def record_sw (m : Machine) : Machine :=
  let vaddr := add32 (m.registers m.rs1) m.imm
  if is_valid_virtual_address vaddr ≠ 0 then
    if is_virtual_address_mapped m.pt vaddr ≠ 0 then
      record_state (load_virtual_memory m.memory m.pt vaddr) m
    else m
  else m

def undo_sw (m : Machine) : Machine :=
  let vaddr := add32 (m.registers m.rs1) m.imm
  { m with memory :=
      store_virtual_memory m.memory m.pt vaddr (m.values (m.tc % MAX_REPLAY_LENGTH)) }

def record_beq (m : Machine) : Machine :=
  record_state 0 m

def record_ecall (m : Machine) : Machine :=
  record_state (m.registers REG_A0) m

def undo_ecall (m : Machine) : Machine :=
  let a0 := m.registers REG_A0
  let m := { m with
    registers := store_word m.registers REG_A0 (m.values (m.tc % MAX_REPLAY_LENGTH)) }
  { m with values := store_word m.values (m.tc % MAX_REPLAY_LENGTH) a0 }

/-- The branches of `decode_execute` under `if (debug)` that an instruction with the
`record_`, `undo_` and `do_` procedures given takes outside symbolic execution
(`symbolic == 0`, `backtrack == 0`): recording runs `record_` and `do_`, undoing
runs `undo_`, disassembling runs `do_` when `execute` is set (the rest of that
branch prints), and nothing happens otherwise. -/
def debug_branches (record_it undo_it : Machine → Machine)
    (do_it : Machine → Except Nat Machine) (m : Machine) : Except Nat Machine :=
  if m.record ≠ 0 then do_it (record_it m)
  else if m.undo ≠ 0 then .ok (undo_it m)
  else if m.disassemble ≠ 0 then
    if m.execute ≠ 0 then do_it m else .ok m
  else .ok m

/-- The procedure `decode_execute` with `debug != 0` outside symbolic execution
(`symbolic == 0` and `backtrack == 0`; the branches for these two modes are not
part of the model).  Printing is not modelled.  `add` has no branch for undoing,
and `beq` tests `disassemble` also after recording. -/
def decode_execute_debug (implement_switch : Machine → Except Nat Machine) (m : Machine) :
    Except Nat Machine :=
  let m := { m with opcode := get_opcode m.ir }
  if m.opcode = OP_IMM then
    let m := decode_i_format m
    if m.funct3 = F3_ADDI then
      debug_branches record_lui_addi_add_sub_mul_sltu_jal_jalr
        undo_lui_addi_add_sub_mul_divu_remu_sltu_lw_jal_jalr (fun m => .ok (do_addi m)) m
    else unknown_instruction m
  else if m.opcode = OP_LW then
    let m := decode_i_format m
    if m.funct3 = F3_LW then
      debug_branches record_lw undo_lui_addi_add_sub_mul_divu_remu_sltu_lw_jal_jalr
        (fun m => do
          let r ← do_lw m
          pure r.2) m
    else unknown_instruction m
  else if m.opcode = OP_SW then
    let m := decode_s_format m
    if m.funct3 = F3_SW then
      debug_branches record_sw undo_sw
        (fun m => do
          let r ← do_sw m
          pure r.2) m
    else unknown_instruction m
  else if m.opcode = OP_OP then
    let m := decode_r_format m
    if m.funct3 = F3_ADD then
      if m.funct7 = F7_ADD then
        if m.record ≠ 0 then .ok (do_add (record_lui_addi_add_sub_mul_sltu_jal_jalr m))
        else if m.disassemble ≠ 0 then
          if m.execute ≠ 0 then .ok (do_add m) else .ok m
        else .ok m
      else if m.funct7 = F7_SUB then
        debug_branches record_lui_addi_add_sub_mul_sltu_jal_jalr
          undo_lui_addi_add_sub_mul_divu_remu_sltu_lw_jal_jalr (fun m => .ok (do_sub m)) m
      else if m.funct7 = F7_MUL then
        debug_branches record_lui_addi_add_sub_mul_sltu_jal_jalr
          undo_lui_addi_add_sub_mul_divu_remu_sltu_lw_jal_jalr (fun m => .ok (do_mul m)) m
      else unknown_instruction m
    else if m.funct3 = F3_DIVU then
      if m.funct7 = F7_DIVU then
        debug_branches record_divu_remu undo_lui_addi_add_sub_mul_divu_remu_sltu_lw_jal_jalr
          do_divu m
      else unknown_instruction m
    else if m.funct3 = F3_REMU then
      if m.funct7 = F7_REMU then
        debug_branches record_divu_remu undo_lui_addi_add_sub_mul_divu_remu_sltu_lw_jal_jalr
          do_remu m
      else unknown_instruction m
    else if m.funct3 = F3_SLTU then
      if m.funct7 = F7_SLTU then
        debug_branches record_lui_addi_add_sub_mul_sltu_jal_jalr
          undo_lui_addi_add_sub_mul_divu_remu_sltu_lw_jal_jalr (fun m => .ok (do_sltu m)) m
      else unknown_instruction m
    else unknown_instruction m
  else if m.opcode = OP_BRANCH then
    let m := decode_b_format m
    if m.funct3 = F3_BEQ then
      let m := if m.record ≠ 0 then do_beq (record_beq m) else m
      if m.disassemble ≠ 0 then
        if m.execute ≠ 0 then .ok (do_beq m) else .ok m
      else .ok m
    else unknown_instruction m
  else if m.opcode = OP_JAL then
    debug_branches record_lui_addi_add_sub_mul_sltu_jal_jalr
      undo_lui_addi_add_sub_mul_divu_remu_sltu_lw_jal_jalr (fun m => .ok (do_jal m))
      (decode_j_format m)
  else if m.opcode = OP_JALR then
    let m := decode_i_format m
    if m.funct3 = F3_JALR then
      debug_branches record_lui_addi_add_sub_mul_sltu_jal_jalr
        undo_lui_addi_add_sub_mul_divu_remu_sltu_lw_jal_jalr (fun m => .ok (do_jalr m)) m
    else unknown_instruction m
  else if m.opcode = OP_LUI then
    debug_branches record_lui_addi_add_sub_mul_sltu_jal_jalr
      undo_lui_addi_add_sub_mul_divu_remu_sltu_lw_jal_jalr (fun m => .ok (do_lui m))
      (decode_u_format m)
  else if m.opcode = OP_SYSTEM then
    let m := decode_i_format m
    if m.funct3 = F3_ECALL then
      debug_branches record_ecall undo_ecall (do_ecall implement_switch) m
    else unknown_instruction m
  else
    unknown_instruction m

/-- The procedure `decode_execute` for either value of `debug`. -/
def decode_execute_with_debug (implement_switch : Machine → Except Nat Machine)
    (m : Machine) : Except Nat Machine :=
  if m.debug ≠ 0 then decode_execute_debug implement_switch m
  else decode_execute implement_switch m

/-- The first loop of `replay_trace`: undo `tl` instructions. -/
def replay_undo (implement_switch : Machine → Except Nat Machine) :
    Nat → Machine → Except Nat Machine
  | 0, m => .ok m
  | tl + 1, m => do
    let m := { m with tc := sub32 m.tc 1 }
    let m := { m with pc := m.pcs (m.tc % MAX_REPLAY_LENGTH) }
    let m ← decode_execute_with_debug implement_switch (fetch m)
    replay_undo implement_switch tl m

/-- The second loop of `replay_trace`: redo `tl` instructions. -/
def replay_redo (implement_switch : Machine → Except Nat Machine) :
    Nat → Machine → Except Nat Machine
  | 0, m => .ok m
  | tl + 1, m => do
    let m ← decode_execute_with_debug implement_switch (fetch m)
    replay_redo implement_switch tl { m with tc := add32 m.tc 1 }

def replay_trace (implement_switch : Machine → Except Nat Machine) (m : Machine) :
    Except Nat Machine := do
  let trace_length := if m.tc < MAX_REPLAY_LENGTH then m.tc else MAX_REPLAY_LENGTH
  let m := { m with record := 0, undo := 1 }
  let m ← replay_undo implement_switch trace_length m
  let m := { m with undo := 0, redo := 1, disassemble := 1 }
  let m ← replay_redo implement_switch trace_length m
  pure { m with disassemble := 0, redo := 0, record := 1 }

/-! ### System calls -/

/-- The procedure `implement_brk(context)` for the current context outside symbolic
execution (`symbolic == 0`): `registers` are the context's registers, `context_pc`
its program counter and `program_break` its program break. -/
def implement_brk (m : Machine) : Machine :=
  let program_break := m.registers REG_A0
  let previous_program_break := m.program_break
  let valid :=
    if program_break ≥ previous_program_break then
      if program_break < m.registers REG_SP then
        if program_break % SIZEOFUINT32 = 0 then 1 else 0
      else 0
    else 0
  let m :=
    if valid ≠ 0 then
      { m with program_break := program_break }
    else
      { m with registers := store_word m.registers REG_A0 previous_program_break }
  { m with context_pc := add32 m.context_pc INSTRUCTIONSIZE }

/-- The local variables of `implement_read` that its loop changes, with the host
memory and the state `host` of the host's files. -/
structure Reading (σ : Type) where
  vbuffer : Nat
  size : Nat
  read_total : Nat
  bytes_to_read : Nat
  failed : Nat
  memory : Nat → Nat
  host : σ

/-- The loop `while (size > 0)` of `implement_read` outside symbolic execution, for
at most `fuel` iterations (`none` when it is still running then).  The host's
`read(fd, buffer, bytes_to_read)` is the parameter `read`: from the state of the
host, `fd`, the address `buffer`, `bytes_to_read` and the memory it gives the
returned word, the memory after the transfer and the next state of the host. -/
def implement_read_loop {σ : Type}
    (read : σ → Nat → Nat → Nat → (Nat → Nat) → Nat × (Nat → Nat) × σ)
    (fd : Nat) (pt : Nat → Nat) : Nat → Reading σ → Option (Reading σ)
  | 0, s => if s.size > 0 then none else some s
  | fuel + 1, s =>
    if s.size > 0 then
      if is_valid_virtual_address s.vbuffer ≠ 0 then
        if is_virtual_address_mapped pt s.vbuffer ≠ 0 then
          let buffer := tlb pt s.vbuffer
          let s := if s.size < s.bytes_to_read then { s with bytes_to_read := s.size } else s
          let r := read s.host fd buffer s.bytes_to_read s.memory
          let actually_read := r.1
          let s := { s with memory := r.2.1, host := r.2.2 }
          if actually_read = s.bytes_to_read then
            let s := { s with read_total := add32 s.read_total actually_read,
                              size := sub32 s.size actually_read }
            let s := if s.size > 0 then { s with vbuffer := add32 s.vbuffer SIZEOFUINT32 } else s
            implement_read_loop read fd pt fuel s
          else
            let s := if signed_less_than 0 actually_read ≠ 0 then
                { s with read_total := add32 s.read_total actually_read }
              else s
            implement_read_loop read fd pt fuel { s with size := 0 }
        else
          implement_read_loop read fd pt fuel { s with failed := 1, size := 0 }
      else
        implement_read_loop read fd pt fuel { s with failed := 1, size := 0 }
    else some s

/-- The procedure `implement_read(context)` for the current context outside symbolic
execution, its loop running for at most `fuel` iterations. -/
def implement_read {σ : Type}
    (read : σ → Nat → Nat → Nat → (Nat → Nat) → Nat × (Nat → Nat) × σ)
    (fuel : Nat) (host : σ) (m : Machine) : Option (σ × Machine) :=
  let fd := m.registers REG_A0
  let vbuffer := m.registers REG_A1
  let size := m.registers REG_A2
  match implement_read_loop read fd m.pt fuel
      { vbuffer := vbuffer, size := size, read_total := 0, bytes_to_read := SIZEOFUINT32,
        failed := 0, memory := m.memory, host := host } with
  | none => none
  | some s =>
    let m := { m with memory := s.memory }
    let m :=
      if s.failed = 0 then
        { m with registers := store_word m.registers REG_A0 s.read_total }
      else
        { m with registers := store_word m.registers REG_A0 (neg32 1) }
    some (s.host, { m with context_pc := add32 m.context_pc INSTRUCTIONSIZE })

/-- The contract of `read` in words: walk the destination words `vaddr`, `vaddr + 4`,
... for the `size` bytes still to read, at most `chunks` of them.  A destination
word that is not a valid, mapped virtual address ends the walk with a failure
(`none`, whatever was read before).  Otherwise the host reads `min 4 size` bytes
into the word; a full read goes on with the next word, a short read ends the walk,
its bytes counted when their number is positive.  The result is the total number
of bytes read, the memory and the state of the host. -/
def read_words {σ : Type}
    (read : σ → Nat → Nat → Nat → (Nat → Nat) → Nat × (Nat → Nat) × σ)
    (fd : Nat) (pt : Nat → Nat) :
    Nat → Nat → Nat → Nat → (Nat → Nat) → σ → Option Nat × (Nat → Nat) × σ
  | 0, _, _, total, memory, host => (some total, memory, host)
  | chunks + 1, vaddr, size, total, memory, host =>
    if size = 0 then (some total, memory, host)
    else if is_valid_virtual_address vaddr = 0 ∨ is_virtual_address_mapped pt vaddr = 0 then
      (none, memory, host)
    else
      let r := read host fd (tlb pt vaddr) (min 4 size) memory
      if r.1 = min 4 size then
        read_words read fd pt chunks (vaddr + 4) (size - min 4 size) (total + min 4 size)
          r.2.1 r.2.2
      else
        (some (if 0 < r.1 ∧ r.1 < 2147483648 then total + r.1 else total), r.2.1, r.2.2)

/-! ### The kernel loop of mipster -/

/-- The procedures of the emulator that deal with the host's files, the exit of a
context, physical memory and contexts other than the current boot-level one.  They are
parameters of the model of `mipster`; each may exit. -/
structure Kernel where
  implement_switch : Machine → Except Nat Machine
  /-- `do_switch(to_context, timeout)` when the target is not the current
  boot-level context. -/
  switch_context : Machine → Nat → Nat → Except Nat Machine
  /-- The part of `save_context` that copies the state into the parent's memory. -/
  save_shadow : Machine → Except Nat Machine
  implement_read : Machine → Except Nat Machine
  implement_write : Machine → Except Nat Machine
  implement_open : Machine → Except Nat Machine
  implement_exit : Machine → Except Nat Machine
  handle_page_fault : Machine → Except Nat (Nat × Machine)

/-- The procedure `do_switch`.  For the current context at boot level
(`parent == MY_CONTEXT`, for which `restore_context` does nothing) the machine
state is reloaded from the context, `a1` receives the address of the context
switched from, and the timer is set. -/
def do_switch (k : Kernel) (m : Machine) (to_context timeout : Nat) : Except Nat Machine :=
  if to_context = m.current_context ∧ m.parent = MY_CONTEXT then
    .ok { m with pc := m.context_pc,
                 registers := store_word m.registers REG_A1 m.current_context,
                 timer := timeout }
  else
    k.switch_context m to_context timeout

def save_context (k : Kernel) (m : Machine) : Except Nat Machine :=
  let m := { m with context_pc := m.pc }
  if m.parent ≠ MY_CONTEXT then k.save_shadow m else .ok m

def mipster_switch (k : Kernel) (fuel : Nat) (m : Machine) (to_context timeout : Nat) :
    Except Nat (Option Machine) := do
  let m ← do_switch k m to_context timeout
  match ← run_until_exception k.implement_switch fuel m with
  | none => pure none
  | some m => do
    let m ← save_context k m
    pure (some m)

def handle_division_by_zero (k : Kernel) (m : Machine) : Except Nat (Nat × Machine) :=
  let m := { m with exception := EXCEPTION_NOEXCEPTION }
  if m.record ≠ 0 then do
    let m ← replay_trace k.implement_switch m
    pure (EXIT, { m with exit_code := EXITCODE_NOERROR })
  else
    pure (EXIT, { m with exit_code := EXITCODE_DIVISIONBYZERO })

def handle_max_trace (m : Machine) : Nat × Machine :=
  (EXIT, { m with exception := EXCEPTION_NOEXCEPTION, exit_code := EXITCODE_OUTOFTRACEMEMORY })

def handle_timer (m : Machine) : Nat × Machine :=
  (DONOTEXIT, { m with exception := EXCEPTION_NOEXCEPTION })

/-- The procedure `handle_system_call` applied to the current context.  The system
calls that involve the host (`read`, `write`, `open`) and `exit` are parameters. -/
def handle_system_call (k : Kernel) (m : Machine) : Except Nat (Nat × Machine) :=
  let m := { m with exception := EXCEPTION_NOEXCEPTION }
  let a7 := m.registers REG_A7
  let done := fun (m : Machine) =>
    if m.exception = EXCEPTION_MAXTRACE then
      (EXIT, { m with exception := EXCEPTION_NOEXCEPTION })
    else
      (DONOTEXIT, m)
  if a7 = SYSCALL_BRK then pure (done (implement_brk m))
  else if a7 = SYSCALL_READ then do
    let m ← k.implement_read m
    pure (done m)
  else if a7 = SYSCALL_WRITE then do
    let m ← k.implement_write m
    pure (done m)
  else if a7 = SYSCALL_OPEN then do
    let m ← k.implement_open m
    pure (done m)
  else if a7 = SYSCALL_EXIT then do
    let m ← k.implement_exit m
    pure (EXIT, m)
  else
    pure (EXIT, { m with exit_code := EXITCODE_UNKNOWNSYSCALL })

/-- The procedure `handle_exception` applied to the current context. -/
def handle_exception (k : Kernel) (m : Machine) : Except Nat (Nat × Machine) :=
  if m.exception = EXCEPTION_SYSCALL then handle_system_call k m
  else if m.exception = EXCEPTION_PAGEFAULT then k.handle_page_fault m
  else if m.exception = EXCEPTION_DIVISIONBYZERO then handle_division_by_zero k m
  else if m.exception = EXCEPTION_MAXTRACE then pure (handle_max_trace m)
  else if m.exception = EXCEPTION_TIMER then pure (handle_timer m)
  else pure (EXIT, { m with exit_code := EXITCODE_UNCAUGHTEXCEPTION })

/-- The loop of `mipster`, for at most `fuel` rounds of at most `fuel` instructions
each: `some code` when `mipster` returns the exit code `code` of the context,
`none` when it is still running. -/
def mipster_loop (k : Kernel) (fuel : Nat) :
    Nat → Machine → Nat → Nat → Except Nat (Option Nat)
  | 0, _, _, _ => .ok none
  | rounds + 1, m, to_context, timeout => do
    match ← mipster_switch k fuel m to_context timeout with
    | none => pure none
    | some m =>
      if m.parent ≠ MY_CONTEXT then
        mipster_loop k fuel rounds m m.parent TIMEROFF
      else do
        let r ← handle_exception k m
        if r.1 = EXIT then
          pure (some r.2.exit_code)
        else
          mipster_loop k fuel rounds r.2 r.2.current_context TIMESLICE

/-- The procedure `mipster(to_context)`. -/
def mipster (k : Kernel) (fuel : Nat) (m : Machine) (to_context : Nat) :
    Except Nat (Option Nat) :=
  mipster_loop k fuel fuel m to_context TIMESLICE

/-! ### Running emitted code -/

/-- One round of the loop of `run_until_exception`: `fetch`, `decode_execute`,
`interrupt`. -/
def step (implement_switch : Machine → Except Nat Machine) (m : Machine) :
    Except Nat Machine := do
  let m ← decode_execute implement_switch (fetch m)
  interrupt m

/-- The next `n` instructions that the machine executes, in order of execution
(a trap raised by the timer in between only suspends the sequence). -/
def steps (implement_switch : Machine → Except Nat Machine) : Nat → Machine → Except Nat Machine
  | 0, m => .ok m
  | n + 1, m => do
    let m ← step implement_switch m
    steps implement_switch n m

/-- One instruction of the current context under `mipster`: a round of the loop of
`run_until_exception` and, when the instruction traps, what `mipster` does until
the next instruction is fetched: the end of `run_until_exception` (`trap = 0`),
`save_context` in `mipster_switch`, `handle_exception` for a boot-level context,
and the `do_switch` of the next call of `mipster_switch`.  The result is
`.inl code` when `mipster` returns the exit code `code`. -/
def mipster_step (k : Kernel) (m : Machine) : Except Nat (Nat ⊕ Machine) := do
  let m ← step k.implement_switch m
  if m.trap = 0 then
    pure (.inr m)
  else do
    let m ← save_context k { m with trap := 0 }
    if m.parent ≠ MY_CONTEXT then do
      let m ← do_switch k m m.parent TIMEROFF
      pure (.inr m)
    else do
      let r ← handle_exception k m
      if r.1 = EXIT then
        pure (.inl r.2.exit_code)
      else do
        let m ← do_switch k r.2 r.2.current_context TIMESLICE
        pure (.inr m)

/-- The next `n` instructions of the current context under `mipster`. -/
def mipster_steps (k : Kernel) : Nat → Machine → Except Nat (Nat ⊕ Machine)
  | 0, m => .ok (.inr m)
  | n + 1, m => do
    match ← mipster_step k m with
    | .inl code => pure (.inl code)
    | .inr m => mipster_steps k n m

/-- The `count` instruction words of the binary of `c` from code address `baddr` on
are what the machine `m` fetches at `pc`, `pc + 4`, ... -/
def code_loaded (c : Compiler) (baddr count : Nat) (m : Machine) : Prop :=
  ∀ i, i < count →
    load_virtual_memory m.memory m.pt (add32 m.pc (4 * i)) = load_instruction c (baddr + 4 * i)

/-- The machine `m` is about to run a comparison of the words in the registers `p`
and `q`: register 0 reads 0 and `pc` and both operands are machine words. -/
def operands_ready (p q : Nat) (m : Machine) : Prop :=
  m.registers REG_ZR = 0 ∧ m.pc < 4294967296 ∧
    m.registers p < 4294967296 ∧ m.registers q < 4294967296

/-- The code that `compile_expression` emits for the comparison `operator_symbol`
consists of `k` instructions and computes the relation `rel`: compilation succeeds,
appends `k` instructions to the binary, frees one temporary and leaves the result in
the remaining current temporary, which is the previous temporary `p` that held the
left operand (the right operand was in the current temporary `q`); and on every
machine with `x0 = 0` that has the emitted `k` instructions loaded at `pc`,
executing them leaves 1 in `p` when `rel` holds between the words in `p` and `q`
and 0 otherwise. -/
def comparison_correct (implement_switch : Machine → Except Nat Machine)
    (operator_symbol : Nat) (rel : Nat → Nat → Prop) [DecidableRel rel] (k : Nat)
    (c : Compiler) : Prop :=
  ∃ c' p q,
    previous_temporary c.allocated_temporaries = .ok p ∧
    current_temporary c.allocated_temporaries = .ok q ∧
    compile_comparison operator_symbol c = .ok c' ∧
    c'.binary_length = c.binary_length + 4 * k ∧
    c'.allocated_temporaries + 1 = c.allocated_temporaries ∧
    current_temporary c'.allocated_temporaries = .ok p ∧
    ∀ m : Machine, operands_ready p q m → code_loaded c' c.binary_length k m →
      ∃ m', steps implement_switch k m = .ok m' ∧
        m'.registers p = (if rel (m.registers p) (m.registers q) then 1 else 0) ∧
        m'.pc = add32 m.pc (4 * k)

/-- The results of the code emitted for `<`, `>` and `==`, run on machines that hold
the same two operand words and have the respective code loaded, add up to 1. -/
def comparisons_sum_to_one (implement_switch : Machine → Except Nat Machine)
    (c : Compiler) : Prop :=
  ∃ c_lt c_gt c_eq p q,
    previous_temporary c.allocated_temporaries = .ok p ∧
    current_temporary c.allocated_temporaries = .ok q ∧
    compile_comparison SYM_LT c = .ok c_lt ∧
    compile_comparison SYM_GT c = .ok c_gt ∧
    compile_comparison SYM_EQUALITY c = .ok c_eq ∧
    ∀ m_lt m_gt m_eq : Machine,
      operands_ready p q m_lt → operands_ready p q m_gt → operands_ready p q m_eq →
      m_gt.registers p = m_lt.registers p → m_gt.registers q = m_lt.registers q →
      m_eq.registers p = m_lt.registers p → m_eq.registers q = m_lt.registers q →
      code_loaded c_lt c.binary_length 1 m_lt → code_loaded c_gt c.binary_length 1 m_gt →
      code_loaded c_eq c.binary_length 3 m_eq →
      ∃ r_lt r_gt r_eq, steps implement_switch 1 m_lt = .ok r_lt ∧
        steps implement_switch 1 m_gt = .ok r_gt ∧ steps implement_switch 3 m_eq = .ok r_eq ∧
        r_lt.registers p + r_gt.registers p + r_eq.registers p = 1

/-! ## The scanner -/

def UINT32_MAX : Nat := sub32 (mul32 (two_to_the_power_of 31) 2) 1

def CHAR_EOF : Nat := neg32 1
def CHAR_BACKSPACE : Nat := 8
def CHAR_TAB : Nat := 9
def CHAR_LF : Nat := 10
def CHAR_CR : Nat := 13
def CHAR_SPACE : Nat := 32
def CHAR_SEMICOLON : Nat := 59
def CHAR_PLUS : Nat := 43
def CHAR_DASH : Nat := 45
def CHAR_ASTERISK : Nat := 42
def CHAR_SLASH : Nat := 47
def CHAR_UNDERSCORE : Nat := 95
def CHAR_EQUAL : Nat := 61
def CHAR_LPARENTHESIS : Nat := 40
def CHAR_RPARENTHESIS : Nat := 41
def CHAR_LBRACE : Nat := 123
def CHAR_RBRACE : Nat := 125
def CHAR_COMMA : Nat := 44
def CHAR_LT : Nat := 60
def CHAR_GT : Nat := 62
def CHAR_EXCLAMATION : Nat := 33
def CHAR_PERCENTAGE : Nat := 37
def CHAR_SINGLEQUOTE : Nat := 39
def CHAR_DOUBLEQUOTE : Nat := 34
def CHAR_BACKSLASH : Nat := 92

def SYM_EOF : Nat := neg32 1
def SYM_IDENTIFIER : Nat := 0
def SYM_INTEGER : Nat := 1
def SYM_VOID : Nat := 2
def SYM_UINT32 : Nat := 3
def SYM_SEMICOLON : Nat := 4
def SYM_IF : Nat := 5
def SYM_ELSE : Nat := 6
def SYM_PLUS : Nat := 7
def SYM_MINUS : Nat := 8
def SYM_ASTERISK : Nat := 9
def SYM_DIV : Nat := 10
def SYM_ASSIGN : Nat := 12
def SYM_LPARENTHESIS : Nat := 13
def SYM_RPARENTHESIS : Nat := 14
def SYM_LBRACE : Nat := 15
def SYM_RBRACE : Nat := 16
def SYM_WHILE : Nat := 17
def SYM_RETURN : Nat := 18
def SYM_COMMA : Nat := 19
def SYM_MOD : Nat := 25
def SYM_CHARACTER : Nat := 26
def SYM_STRING : Nat := 27

def MAX_IDENTIFIER_LENGTH : Nat := 64
def MAX_INTEGER_LENGTH : Nat := 20
def MAX_STRING_LENGTH : Nat := 128

/-- The strings of the table `SYMBOLS` that `identifier_or_keyword` looks up, as
lists of character codes: `while`, `if`, `uint32_t`, `else`, `return`, `void`. -/
def SYMBOLS (symbol : Nat) : List Nat :=
  if symbol = SYM_WHILE then [119, 104, 105, 108, 101]
  else if symbol = SYM_IF then [105, 102]
  else if symbol = SYM_UINT32 then [117, 105, 110, 116, 51, 50, 95, 116]
  else if symbol = SYM_ELSE then [101, 108, 115, 101]
  else if symbol = SYM_RETURN then [114, 101, 116, 117, 114, 110]
  else if symbol = SYM_VOID then [118, 111, 105, 100]
  else []

/-- The state of the scanner.  `source` holds the bytes of the source file that have
not been read yet; `identifier`, `integer` and `string` are the characters stored
in the strings of the same name, without the terminating null. -/
structure Scanner where
  character : Nat
  source : List Nat
  line_number : Nat
  symbol : Nat
  literal : Nat
  identifier : List Nat
  integer : List Nat
  string : List Nat
  integer_is_signed : Nat
  number_of_read_characters : Nat
  number_of_ignored_characters : Nat
  number_of_comments : Nat
  number_of_scanned_symbols : Nat

/-- The procedure `get_character`: the host's `read` of one byte takes the next byte
of `source` and returns 0 at its end (a `read` that fails is not modelled). -/
def get_character (s : Scanner) : Scanner :=
  match s.source with
  | c :: rest =>
    { s with character := c, source := rest,
             number_of_read_characters := add32 s.number_of_read_characters 1 }
  | [] => { s with character := CHAR_EOF }

def is_character_new_line (s : Scanner) : Nat :=
  if s.character = CHAR_LF then 1
  else if s.character = CHAR_CR then 1
  else 0

def is_character_whitespace (s : Scanner) : Nat :=
  if s.character = CHAR_SPACE then 1
  else if s.character = CHAR_TAB then 1
  else is_character_new_line s

/-- The loop of `find_next_character` with its two local flags, for at most `fuel`
iterations (`none` when it is still running then).  The value returned by the
procedure is the `character` of the resulting state. -/
def find_next_character_loop :
    Nat → Nat → Nat → Scanner → Except Nat (Option Scanner)
  | 0, _, _, _ => .ok none
  | fuel + 1, in_single_line_comment, in_multi_line_comment, s =>
    if in_single_line_comment ≠ 0 then
      let s := get_character s
      if is_character_new_line s ≠ 0 then
        find_next_character_loop fuel 0 in_multi_line_comment s
      else if s.character = CHAR_EOF then
        .ok (some s)
      else
        find_next_character_loop fuel in_single_line_comment in_multi_line_comment
          { s with number_of_ignored_characters := add32 s.number_of_ignored_characters 1 }
    else if in_multi_line_comment ≠ 0 then
      let s := get_character s
      let r : Nat × Scanner :=
        if s.character = CHAR_ASTERISK then
          let s := { s with number_of_ignored_characters := add32 s.number_of_ignored_characters 1 }
          let s := get_character s
          if s.character = CHAR_SLASH then (0, get_character s)
          else (in_multi_line_comment, s)
        else (in_multi_line_comment, s)
      let in_multi_line_comment := r.1
      let s := r.2
      if in_multi_line_comment ≠ 0 then
        if s.character = CHAR_LF then
          find_next_character_loop fuel in_single_line_comment in_multi_line_comment
            { s with line_number := add32 s.line_number 1,
                     number_of_ignored_characters := add32 s.number_of_ignored_characters 1 }
        else if s.character = CHAR_EOF then
          .error EXITCODE_SCANNERERROR
        else
          find_next_character_loop fuel in_single_line_comment in_multi_line_comment
            { s with number_of_ignored_characters := add32 s.number_of_ignored_characters 1 }
      else
        find_next_character_loop fuel in_single_line_comment in_multi_line_comment
          { s with number_of_ignored_characters := add32 s.number_of_ignored_characters 1 }
    else if is_character_whitespace s ≠ 0 then
      let s := if s.character = CHAR_LF then { s with line_number := add32 s.line_number 1 } else s
      let s := { s with number_of_ignored_characters := add32 s.number_of_ignored_characters 1 }
      find_next_character_loop fuel in_single_line_comment in_multi_line_comment (get_character s)
    else if s.character = CHAR_SLASH then
      let s := get_character s
      if s.character = CHAR_SLASH then
        find_next_character_loop fuel 1 in_multi_line_comment
          { s with number_of_ignored_characters := add32 s.number_of_ignored_characters 2,
                   number_of_comments := add32 s.number_of_comments 1 }
      else if s.character = CHAR_ASTERISK then
        find_next_character_loop fuel in_single_line_comment 1
          { s with number_of_ignored_characters := add32 s.number_of_ignored_characters 2,
                   number_of_comments := add32 s.number_of_comments 1 }
      else
        .ok (some { s with symbol := SYM_DIV })
    else
      .ok (some s)

def find_next_character (fuel : Nat) (s : Scanner) : Except Nat (Option Scanner) :=
  find_next_character_loop fuel 0 0 s

def is_character_letter (s : Scanner) : Nat :=
  if s.character ≥ 97 then
    if s.character ≤ 122 then 1 else 0
  else if s.character ≥ 65 then
    if s.character ≤ 90 then 1 else 0
  else 0

def is_character_digit (s : Scanner) : Nat :=
  if s.character ≥ 48 then
    if s.character ≤ 57 then 1 else 0
  else 0

def is_character_letter_or_digit_or_underscore (s : Scanner) : Nat :=
  if is_character_letter s ≠ 0 then 1
  else if is_character_digit s ≠ 0 then 1
  else if s.character = CHAR_UNDERSCORE then 1
  else 0

def is_character_not_double_quote_or_new_line_or_eof (s : Scanner) : Nat :=
  if s.character = CHAR_DOUBLEQUOTE then 0
  else if is_character_new_line s ≠ 0 then 0
  else if s.character = CHAR_EOF then 0
  else 1

/-- The procedure `identifier_string_match`: `string_compare` of the identifier with
the keyword's string. -/
def identifier_string_match (s : Scanner) (keyword : Nat) : Nat :=
  if s.identifier = SYMBOLS keyword then 1 else 0

def identifier_or_keyword (s : Scanner) : Nat :=
  if identifier_string_match s SYM_WHILE ≠ 0 then SYM_WHILE
  else if identifier_string_match s SYM_IF ≠ 0 then SYM_IF
  else if identifier_string_match s SYM_UINT32 ≠ 0 then SYM_UINT32
  else if identifier_string_match s SYM_ELSE ≠ 0 then SYM_ELSE
  else if identifier_string_match s SYM_RETURN ≠ 0 then SYM_RETURN
  else if identifier_string_match s SYM_VOID ≠ 0 then SYM_VOID
  else SYM_IDENTIFIER

/-- The loop of `atoi` over the characters of the string that are still to convert
(the string ends at its first null character), `n` being the value so far. -/
def atoi_loop : Nat → List Nat → Except Nat Nat
  | n, [] => .ok n
  | n, c :: rest =>
    if c = 0 then .ok n
    else
      let c := sub32 c 48
      if c > 9 then .error EXITCODE_BADARGUMENTS
      else if n < UINT32_MAX / 10 then atoi_loop (add32 (mul32 n 10) c) rest
      else if n = UINT32_MAX / 10 then
        if c ≤ UINT32_MAX % 10 then atoi_loop (add32 (mul32 n 10) c) rest
        else .error EXITCODE_BADARGUMENTS
      else .error EXITCODE_BADARGUMENTS

def atoi (s : List Nat) : Except Nat Nat :=
  atoi_loop 0 s

def handle_escape_sequence (s : Scanner) : Except Nat Scanner :=
  let s := { s with number_of_ignored_characters := add32 s.number_of_ignored_characters 1 }
  let s := get_character s
  if s.character = 110 then .ok { s with character := CHAR_LF }
  else if s.character = 116 then .ok { s with character := CHAR_TAB }
  else if s.character = 98 then .ok { s with character := CHAR_BACKSPACE }
  else if s.character = CHAR_SINGLEQUOTE then .ok { s with character := CHAR_SINGLEQUOTE }
  else if s.character = CHAR_DOUBLEQUOTE then .ok { s with character := CHAR_DOUBLEQUOTE }
  else if s.character = CHAR_PERCENTAGE then .ok { s with character := CHAR_PERCENTAGE }
  else if s.character = CHAR_BACKSLASH then .ok { s with character := CHAR_BACKSLASH }
  else .error EXITCODE_SCANNERERROR

/-- The loop of `get_symbol` that collects an identifier, `i` characters stored so
far, for at most `fuel` iterations. -/
def scan_identifier : Nat → Nat → Scanner → Except Nat (Option Scanner)
  | 0, _, _ => .ok none
  | fuel + 1, i, s =>
    if is_character_letter_or_digit_or_underscore s ≠ 0 then
      if i ≥ MAX_IDENTIFIER_LENGTH then .error EXITCODE_SCANNERERROR
      else
        scan_identifier fuel (add32 i 1)
          (get_character { s with identifier := s.identifier ++ [s.character] })
    else .ok (some s)

/-- The loop of `get_symbol` that collects the digits of an integer literal. -/
def scan_integer : Nat → Nat → Scanner → Except Nat (Option Scanner)
  | 0, _, _ => .ok none
  | fuel + 1, i, s =>
    if is_character_digit s ≠ 0 then
      if i ≥ MAX_INTEGER_LENGTH then .error EXITCODE_SCANNERERROR
      else
        scan_integer fuel (add32 i 1)
          (get_character { s with integer := s.integer ++ [s.character] })
    else .ok (some s)

/-- The loop of `get_symbol` that collects the characters of a string literal. -/
def scan_string : Nat → Nat → Scanner → Except Nat (Option Scanner)
  | 0, _, _ => .ok none
  | fuel + 1, i, s =>
    if is_character_not_double_quote_or_new_line_or_eof s ≠ 0 then
      if i ≥ MAX_STRING_LENGTH then .error EXITCODE_SCANNERERROR
      else do
        let s ← if s.character = CHAR_BACKSLASH then handle_escape_sequence s else pure s
        scan_string fuel (add32 i 1) (get_character { s with string := s.string ++ [s.character] })
    else .ok (some s)

/-- The branches of `get_symbol` for the symbol that begins with the current
character. -/
def scan_symbol (fuel : Nat) (s : Scanner) : Except Nat (Option Scanner) :=
  if is_character_letter s ≠ 0 then do
    match ← scan_identifier fuel 0 { s with identifier := [] } with
    | none => pure none
    | some s => pure (some { s with symbol := identifier_or_keyword s })
  else if is_character_digit s ≠ 0 then do
    match ← scan_integer fuel 0 { s with integer := [] } with
    | none => pure none
    | some s =>
      let literal ← atoi s.integer
      let s := { s with literal := literal }
      if s.integer_is_signed ≠ 0 then
        if s.literal > INT32_MIN then .error EXITCODE_SCANNERERROR
        else pure (some { s with symbol := SYM_INTEGER })
      else pure (some { s with symbol := SYM_INTEGER })
  else if s.character = CHAR_SINGLEQUOTE then
    let s := get_character s
    let s := { s with literal := 0 }
    if s.character = CHAR_EOF then .error EXITCODE_SCANNERERROR
    else
      let s := { s with literal := s.character }
      let s := get_character s
      if s.character = CHAR_SINGLEQUOTE then
        pure (some { get_character s with symbol := SYM_CHARACTER })
      else if s.character = CHAR_EOF then .error EXITCODE_SCANNERERROR
      else pure (some { s with symbol := SYM_CHARACTER })
  else if s.character = CHAR_DOUBLEQUOTE then do
    let s := get_character s
    match ← scan_string fuel 0 { s with string := [] } with
    | none => pure none
    | some s =>
      if s.character = CHAR_DOUBLEQUOTE then
        pure (some { get_character s with symbol := SYM_STRING })
      else .error EXITCODE_SCANNERERROR
  else if s.character = CHAR_SEMICOLON then
    pure (some { get_character s with symbol := SYM_SEMICOLON })
  else if s.character = CHAR_PLUS then
    pure (some { get_character s with symbol := SYM_PLUS })
  else if s.character = CHAR_DASH then
    pure (some { get_character s with symbol := SYM_MINUS })
  else if s.character = CHAR_ASTERISK then
    pure (some { get_character s with symbol := SYM_ASTERISK })
  else if s.character = CHAR_EQUAL then
    let s := get_character s
    if s.character = CHAR_EQUAL then pure (some { get_character s with symbol := SYM_EQUALITY })
    else pure (some { s with symbol := SYM_ASSIGN })
  else if s.character = CHAR_LPARENTHESIS then
    pure (some { get_character s with symbol := SYM_LPARENTHESIS })
  else if s.character = CHAR_RPARENTHESIS then
    pure (some { get_character s with symbol := SYM_RPARENTHESIS })
  else if s.character = CHAR_LBRACE then
    pure (some { get_character s with symbol := SYM_LBRACE })
  else if s.character = CHAR_RBRACE then
    pure (some { get_character s with symbol := SYM_RBRACE })
  else if s.character = CHAR_COMMA then
    pure (some { get_character s with symbol := SYM_COMMA })
  else if s.character = CHAR_LT then
    let s := get_character s
    if s.character = CHAR_EQUAL then pure (some { get_character s with symbol := SYM_LEQ })
    else pure (some { s with symbol := SYM_LT })
  else if s.character = CHAR_GT then
    let s := get_character s
    if s.character = CHAR_EQUAL then pure (some { get_character s with symbol := SYM_GEQ })
    else pure (some { s with symbol := SYM_GT })
  else if s.character = CHAR_EXCLAMATION then
    let s := get_character s
    if s.character = CHAR_EQUAL then pure (some { get_character s with symbol := SYM_NOTEQ })
    else pure (some { s with symbol := SYM_NOTEQ })
  else if s.character = CHAR_PERCENTAGE then
    pure (some { get_character s with symbol := SYM_MOD })
  else .error EXITCODE_SCANNERERROR

/-- The procedure `get_symbol`, each of its loops running for at most `fuel`
iterations (`none` when one is still running then). -/
def get_symbol (fuel : Nat) (s : Scanner) : Except Nat (Option Scanner) := do
  let s := { s with symbol := SYM_EOF }
  match ← find_next_character fuel s with
  | none => pure none
  | some s =>
    if s.character ≠ CHAR_EOF then do
      let r ← if s.symbol ≠ SYM_DIV then scan_symbol fuel s else pure (some s)
      match r with
      | none => pure none
      | some s =>
        pure (some { s with number_of_scanned_symbols := add32 s.number_of_scanned_symbols 1 })
    else pure (some s)

/-- The value of a string of decimal digits (character codes `48` to `57`). -/
def decimal_value (digits : List Nat) : Nat :=
  digits.foldl (fun n c => 10 * n + (c - 48)) 0

/-- The characters of `cs` are decimal digits. -/
def all_digits (cs : List Nat) : Prop :=
  ∀ c ∈ cs, 48 ≤ c ∧ c ≤ 57

/-! ## The ELF header -/

def ELF_HEADER_LEN : Nat := 84

def ELF_ENTRY_POINT : Nat := 65536

/-- The procedure `create_elf_header`; the result is the array of the 21 words of
the header, by word index. -/
def create_elf_header (binary_length : Nat) : Nat → Nat :=
  fun position =>
    [ add32 (add32 (add32 127 (left_shift 69 8)) (left_shift 76 16)) (left_shift 70 24),
      add32 (add32 (left_shift 1 0) (left_shift 1 8)) (left_shift 1 16),
      0,
      0,
      add32 2 (left_shift 243 16),
      1,
      ELF_ENTRY_POINT,
      mul32 13 SIZEOFUINT32,
      0,
      0,
      add32 (left_shift (mul32 13 SIZEOFUINT32) 0) (left_shift (mul32 8 SIZEOFUINT32) 16),
      1,
      0,
      1,
      add32 ELF_HEADER_LEN SIZEOFUINT32,
      ELF_ENTRY_POINT,
      0,
      binary_length,
      binary_length,
      7,
      PAGESIZE ].getD position 0

/-- The loop of `validate_elf_header` with `words` words still to compare from
`position` on: 0 at the first word that differs, 1 when none does. -/
def compare_elf_headers (header valid_header : Nat → Nat) : Nat → Nat → Nat
  | _, 0 => 1
  | position, words + 1 =>
    if header position ≠ valid_header position then 0
    else compare_elf_headers header valid_header (position + 1) words

/-- The procedure `validate_elf_header`; the result is the returned value with the
values of `entry_point` and `binary_length` after the call. -/
def validate_elf_header (header : Nat → Nat) (entry_point binary_length : Nat) :
    Nat × Nat × Nat :=
  let new_entry_point := header 15
  let new_binary_length := header 17
  if new_binary_length ≠ header 18 then
    (0, entry_point, binary_length)
  else if new_entry_point > sub32 (sub32 VIRTUALMEMORYSIZE PAGESIZE) new_binary_length then
    (0, entry_point, binary_length)
  else
    let valid_header := create_elf_header new_binary_length
    if compare_elf_headers header valid_header 0 (ELF_HEADER_LEN / SIZEOFUINT32) = 0 then
      (0, entry_point, binary_length)
    else
      (1, new_entry_point, new_binary_length)

def MAX_BINARY_LENGTH : Nat := 262144

/-- The globals that `selfie_load` sets, with the arrays it reads into
(`binary_buffer` is the one-word buffer of the same name). -/
structure Loader where
  binary : Nat → Nat
  binary_length : Nat
  code_length : Nat
  entry_point : Nat
  ELF_header : Nat → Nat
  binary_buffer : Nat → Nat

/-- The procedure `selfie_load`.  The host's `open` and `read` are parameters:
`open_file` gives the file descriptor for the name of the binary, and
`read host fd buffer n` gives the returned word, the array `buffer` after the
transfer and the next state of the host.  The arrays of the argument state stand
for the freshly allocated memory. -/
def selfie_load {σ : Type} (open_file : σ → Nat × σ)
    (read : σ → Nat → (Nat → Nat) → Nat → Nat × (Nat → Nat) × σ)
    (host : σ) (l : Loader) : Except Nat (Loader × σ) :=
  let o := open_file host
  let fd := o.1
  let host := o.2
  if signed_less_than fd 0 ≠ 0 then .error EXITCODE_IOERROR
  else
    let l := { l with binary_length := 0, code_length := 0, entry_point := 0 }
    let r := read host fd l.ELF_header ELF_HEADER_LEN
    let l := { l with ELF_header := r.2.1 }
    let host := r.2.2
    if r.1 = ELF_HEADER_LEN then
      let v := validate_elf_header l.ELF_header l.entry_point l.binary_length
      let l := { l with entry_point := v.2.1, binary_length := v.2.2 }
      if v.1 ≠ 0 then
        let r := read host fd l.binary_buffer SIZEOFUINT32
        let l := { l with binary_buffer := r.2.1 }
        let host := r.2.2
        if r.1 = SIZEOFUINT32 then
          let l := { l with code_length := l.binary_buffer 0 }
          if l.binary_length ≤ MAX_BINARY_LENGTH then
            let r := read host fd l.binary l.binary_length
            let l := { l with binary := r.2.1 }
            let host := r.2.2
            if signed_less_than 0 r.1 ≠ 0 then
              let r := read host fd l.binary_buffer SIZEOFUINT32
              let l := { l with binary_buffer := r.2.1 }
              let host := r.2.2
              if r.1 = 0 then .ok (l, host)
              else .error EXITCODE_IOERROR
            else .error EXITCODE_IOERROR
          else .error EXITCODE_IOERROR
        else .error EXITCODE_IOERROR
      else .error EXITCODE_IOERROR
    else .error EXITCODE_IOERROR

/-! ## Signed arithmetic of the library -/

def selfie_abs (n : Nat) : Nat :=
  if signed_less_than n 0 ≠ 0 then neg32 n else n

/-- The procedure `signed_division`; the source asserts `b != 0` and
`a == INT32_MIN -> b != -1`. -/
def signed_division (a b : Nat) : Nat :=
  if a = INT32_MIN then
    if b = INT32_MIN then 1
    else if signed_less_than b 0 ≠ 0 then INT32_MIN / selfie_abs b
    else neg32 (INT32_MIN / b)
  else if b = INT32_MIN then 0
  else if signed_less_than a 0 ≠ 0 then
    if signed_less_than b 0 ≠ 0 then selfie_abs a / selfie_abs b
    else neg32 (selfie_abs a / b)
  else if signed_less_than b 0 ≠ 0 then neg32 (a / selfie_abs b)
  else a / b

/-! ## Fuzzing of read values -/

/-- The procedure `fuzz_lo` for the value `fuzz` of the global variable of that
name. -/
def fuzz_lo (fuzz value : Nat) : Nat :=
  if fuzz ≥ CPUBITWIDTH then 0
  else if value > sub32 (two_to_the_power_of fuzz) 1 / 2 then
    sub32 value (sub32 (two_to_the_power_of fuzz) 1 / 2)
  else 0

/-- The procedure `fuzz_up` for the value `fuzz` of the global variable of that
name. -/
def fuzz_up (fuzz value : Nat) : Nat :=
  if fuzz ≥ CPUBITWIDTH then UINT32_MAX
  else if sub32 UINT32_MAX value < two_to_the_power_of fuzz / 2 then UINT32_MAX
  else if value > sub32 (two_to_the_power_of fuzz) 1 / 2 then
    add32 value (two_to_the_power_of fuzz / 2)
  else sub32 (two_to_the_power_of fuzz) 1

/-! ## Strings of the library -/

/-- The procedure `load_character`; a string is an array of machine words. -/
def load_character (s : Nat → Nat) (i : Nat) : Nat :=
  get_bits (s (i / SIZEOFUINT32)) (mul32 (i % SIZEOFUINT32) 8) 8

/-- The procedure `store_character`; the result is the array after the
assignment. -/
def store_character (s : Nat → Nat) (i c : Nat) : Nat → Nat :=
  store_word s (i / SIZEOFUINT32)
    (add32 (sub32 (s (i / SIZEOFUINT32))
        (left_shift (load_character s i) (mul32 (i % SIZEOFUINT32) 8)))
      (left_shift c (mul32 (i % SIZEOFUINT32) 8)))

/-- The loop of `string_compare` from index `i` on, for at most `fuel` characters;
`none` when it is still running after `fuel` characters. -/
def string_compare_loop (s t : Nat → Nat) : Nat → Nat → Option Nat
  | 0, _ => none
  | fuel + 1, i =>
    if load_character s i = 0 then
      if load_character t i = 0 then some 1 else some 0
    else if load_character s i = load_character t i then
      string_compare_loop s t fuel (add32 i 1)
    else some 0

def string_compare (fuel : Nat) (s t : Nat → Nat) : Option Nat :=
  string_compare_loop s t fuel 0

/-! ## The symbol table -/

def HASH_TABLE_SIZE : Nat := 1024

def VARIABLE : Nat := 1
def BIGINT : Nat := 2
def STRING : Nat := 3
def PROCEDURE : Nat := 4

def GLOBAL_TABLE : Nat := 1
def LOCAL_TABLE : Nat := 2
def LIBRARY_TABLE : Nat := 3

def REG_FP : Nat := 8

/-- A symbol table entry without its `next` pointer: a table is the list of the
entries that the pointers chain, the head first.  The field `pointer` is the
address of the entry, which identifies it: the entry created as the `k`-th has the
pointer `k`. -/
structure SymbolTableEntry where
  pointer : Nat
  string : Nat → Nat
  line_number : Nat
  entry_class : Nat
  entry_type : Nat
  value : Nat
  address : Nat
  scope : Nat

/-- The three symbol tables, the global one by hash bucket, and the counters of
`create_symbol_table_entry`; `number_of_entries` counts the entries allocated.  The
search statistics `number_of_searches` and `total_search_time`, which are only
printed, are left out. -/
structure SymbolTables where
  global_symbol_table : Nat → List SymbolTableEntry
  local_symbol_table : List SymbolTableEntry
  library_symbol_table : List SymbolTableEntry
  number_of_global_variables : Nat
  number_of_procedures : Nat
  number_of_strings : Nat
  number_of_entries : Nat

/-- The procedure `hash`: it reads the first word of the key. -/
def hash (key : Nat → Nat) : Nat :=
  add32 (key 0) (add32 (key 0) (add32 (key 0) (add32 (key 0) (add32 (key 0)
    (key 0 / HASH_TABLE_SIZE) / HASH_TABLE_SIZE) / HASH_TABLE_SIZE) / HASH_TABLE_SIZE) /
    HASH_TABLE_SIZE) % HASH_TABLE_SIZE

def create_symbol_table_entry (t : SymbolTables) (which_table : Nat) (string : Nat → Nat)
    (line entry_class entry_type value address : Nat) : SymbolTables :=
  let new_entry : SymbolTableEntry :=
    { pointer := t.number_of_entries + 1, string := string, line_number := line,
      entry_class := entry_class, entry_type := entry_type, value := value,
      address := address, scope := 0 }
  let t := { t with number_of_entries := t.number_of_entries + 1 }
  if which_table = GLOBAL_TABLE then
    let new_entry := { new_entry with scope := REG_GP }
    let t :=
      { t with global_symbol_table := fun b =>
          if b = hash string then new_entry :: t.global_symbol_table b
          else t.global_symbol_table b }
    if entry_class = VARIABLE then
      { t with number_of_global_variables := add32 t.number_of_global_variables 1 }
    else if entry_class = PROCEDURE then
      { t with number_of_procedures := add32 t.number_of_procedures 1 }
    else if entry_class = STRING then
      { t with number_of_strings := add32 t.number_of_strings 1 }
    else t
  else if which_table = LOCAL_TABLE then
    { t with local_symbol_table := { new_entry with scope := REG_FP } :: t.local_symbol_table }
  else
    { t with library_symbol_table :=
        { new_entry with scope := REG_GP } :: t.library_symbol_table }

/-- The procedure `search_symbol_table` on the list that starts at `entry`: `none`
when a string comparison is still running after `fuel` characters, `some none` for
the null pointer. -/
def search_symbol_table (fuel : Nat) :
    List SymbolTableEntry → (Nat → Nat) → Nat → Option (Option SymbolTableEntry)
  | [], _, _ => some none
  | entry :: next, string, entry_class =>
    match string_compare fuel string entry.string with
    | none => none
    | some r =>
      if r ≠ 0 then
        if entry_class = entry.entry_class then some (some entry)
        else search_symbol_table fuel next string entry_class
      else search_symbol_table fuel next string entry_class

def search_global_symbol_table (fuel : Nat) (t : SymbolTables) (string : Nat → Nat)
    (entry_class : Nat) : Option (Option SymbolTableEntry) :=
  search_symbol_table fuel (t.global_symbol_table (hash string)) string entry_class

def get_scoped_symbol_table_entry (fuel : Nat) (t : SymbolTables) (string : Nat → Nat)
    (entry_class : Nat) : Option (Option SymbolTableEntry) :=
  let entry :=
    if entry_class = VARIABLE then
      search_symbol_table fuel t.local_symbol_table string VARIABLE
    else if entry_class = PROCEDURE then
      search_symbol_table fuel t.library_symbol_table string PROCEDURE
    else some none
  match entry with
  | none => none
  | some none => search_global_symbol_table fuel t string entry_class
  | some (some e) => some (some e)

/-- The procedure `reset_symbol_tables`. -/
def reset_symbol_tables : SymbolTables :=
  { global_symbol_table := fun _ => [], local_symbol_table := [],
    library_symbol_table := [], number_of_global_variables := 0,
    number_of_procedures := 0, number_of_strings := 0, number_of_entries := 0 }

/-- The strings `s` and `t` hold the same characters up to and including the
terminating null character. -/
def same_string (s t : Nat → Nat) : Prop :=
  ∃ l, (∀ i, i < l → load_character s i ≠ 0 ∧ load_character s i = load_character t i) ∧
    load_character s l = 0 ∧ load_character t l = 0

/-- The entry `e` is an entry for the name `name` in the class `entry_class`. -/
def entry_matches (name : Nat → Nat) (entry_class : Nat) (e : SymbolTableEntry) : Prop :=
  same_string name e.string ∧ e.entry_class = entry_class

/-- The optional entry `r` is the first entry of the list `l`, that is, the most
recently created one, that matches `name` and `entry_class`; `none` when no entry
of the list matches. -/
def first_match (name : Nat → Nat) (entry_class : Nat) (l : List SymbolTableEntry)
    (r : Option SymbolTableEntry) : Prop :=
  match r with
  | some e => ∃ before after, l = before ++ e :: after ∧ entry_matches name entry_class e ∧
      ∀ x, x ∈ before → ¬ entry_matches name entry_class x
  | none => ∀ x, x ∈ l → ¬ entry_matches name entry_class x

/-- The first word of the string `s` is a machine word and holds no character
other than null after the first null character: the string was written into zeroed
memory. -/
def zero_padded (s : Nat → Nat) : Prop :=
  s 0 < 4294967296 ∧
    ∀ i j, i < j → j < 4 → load_character s i = 0 → load_character s j = 0

/-- Every entry of the global table is in the bucket of its hash, and its name is
zero padded. -/
def global_table_hashed (t : SymbolTables) : Prop :=
  ∀ b e, e ∈ t.global_symbol_table b → hash e.string = b ∧ zero_padded e.string

/-- The loop of `string_length` from index `i` on; `none` when it is still running
after `fuel` characters. -/
def string_length_loop (s : Nat → Nat) : Nat → Nat → Option Nat
  | 0, _ => none
  | fuel + 1, i =>
    if load_character s i ≠ 0 then string_length_loop s fuel (add32 i 1) else some i

def string_length (fuel : Nat) (s : Nat → Nat) : Option Nat :=
  string_length_loop s fuel 0

/-- The loop of `string_reverse`. -/
def string_reverse_loop : Nat → (Nat → Nat) → Nat → Nat → Option (Nat → Nat)
  | 0, _, _, _ => none
  | fuel + 1, s, i, j =>
    if i < j then
      let tmp := load_character s i
      let s := store_character s i (load_character s j)
      let s := store_character s j tmp
      string_reverse_loop fuel s (add32 i 1) (sub32 j 1)
    else some s

def string_reverse (fuel : Nat) (s : Nat → Nat) : Option (Nat → Nat) :=
  match string_length fuel s with
  | none => none
  | some l => string_reverse_loop fuel s 0 (sub32 l 1)

/-- The loop of `itoa` that stores the digits of `n` in base `b` from index `i` on,
the least significant first. -/
def itoa_digits : Nat → Nat → (Nat → Nat) → Nat → Nat → Option ((Nat → Nat) × Nat)
  | 0, _, _, _, _ => none
  | fuel + 1, n, s, i, b =>
    if n ≠ 0 then
      let s :=
        if n % b > 9 then store_character s i (add32 (sub32 (n % b) 10) 65)
        else store_character s i (add32 (n % b) 48)
      itoa_digits fuel (n / b) s (add32 i 1) b
    else some (s, i)

/-- The loops of `itoa` that align the numeral with the character `c`. -/
def itoa_align : Nat → (Nat → Nat) → Nat → Nat → Nat → Option ((Nat → Nat) × Nat)
  | 0, _, _, _, _ => none
  | fuel + 1, s, i, a, c =>
    if i < a then itoa_align fuel (store_character s i c) (add32 i 1) a c
    else some (s, i)

/-- The part of `itoa` after the loop over the digits: the sign, the alignment, the
prefix of octal and hexadecimal numerals, the terminating null character and the
reversal of the string. -/
def itoa_finish (fuel : Nat) (s : Nat → Nat) (i b a sign : Nat) : Option (Nat → Nat) :=
  if b = 10 then
    let signed : (Nat → Nat) × Nat :=
      if sign ≠ 0 then (store_character s i 45, add32 i 1) else (s, i)
    match itoa_align fuel signed.1 signed.2 a 32 with
    | none => none
    | some (s, i) => string_reverse fuel (store_character s i 0)
  else
    match itoa_align fuel s i a 48 with
    | none => none
    | some (s, i) =>
      let prefixed : (Nat → Nat) × Nat :=
        if b = 8 then (store_character (store_character s i 48) (add32 i 1) 48, add32 i 2)
        else if b = 16 then
          (store_character (store_character s i 120) (add32 i 1) 48, add32 i 2)
        else (s, i)
      string_reverse fuel (store_character prefixed.1 prefixed.2 0)

/-- The procedure `itoa(n, s, b, a)`; the result is the array `s` after the call,
`none` when a loop is still running after `fuel` iterations.  The source asserts
that `b` is one of 2, 4, 8, 10, 16. -/
def itoa (fuel n : Nat) (s : Nat → Nat) (b a : Nat) : Option (Nat → Nat) :=
  let start : Nat × (Nat → Nat) × Nat × Nat :=
    if n = 0 then (n, store_character s 0 48, 1, 0)
    else if signed_less_than n 0 ≠ 0 then
      if b = 10 then (neg32 n, s, 0, 1) else (n, s, 0, 0)
    else (n, s, 0, 0)
  match itoa_digits fuel start.1 start.2.1 start.2.2.1 b with
  | none => none
  | some (s, i) => itoa_finish fuel s i b a start.2.2.2

/-- The character of the digit `d`: `0` to `9`, then `A` to `F`. -/
def digit_character (d : Nat) : Nat := if d > 9 then d - 10 + 65 else d + 48

/-- The numeral of `n` in base `b`, the most significant digit first; the digit `0`
for `n = 0`. -/
def numeral (b n : Nat) : List Nat :=
  if n = 0 then [48] else ((Nat.digits b n).map digit_character).reverse

/-- The list `l` padded on the left with the character `c` to at least `a`
characters. -/
def pad_left (c a : Nat) (l : List Nat) : List Nat :=
  List.replicate (a - l.length) c ++ l

/-- The string that C24 describes for `itoa(n, s, b, a)`: for base 10 the numeral of
the two's-complement value of `n`, with `-` (45) in front of a negative one, padded
with spaces (32) to at least `a` characters; for base 16 `0x` (48, 120) and for base
8 `00` in front of the numeral of `n` padded with zeros (48) to at least `a` digits;
otherwise the numeral padded with zeros. -/
def itoa_string (n b a : Nat) : List Nat :=
  if b = 10 then
    pad_left 32 a (if 2147483648 ≤ n then 45 :: numeral 10 (4294967296 - n) else numeral 10 n)
  else if b = 16 then [48, 120] ++ pad_left 48 a (numeral 16 n)
  else if b = 8 then [48, 48] ++ pad_left 48 a (numeral 8 n)
  else pad_left 48 a (numeral b n)

/-- The array `s` holds the characters of the list `l` followed by the null
character. -/
def holds_string (s : Nat → Nat) (l : List Nat) : Prop :=
  (∀ k, k < l.length → load_character s k = l.getD k 0) ∧ load_character s l.length = 0

/-- Every word of the array is a machine word. -/
def machine_words (s : Nat → Nat) : Prop := ∀ k, s k < 4294967296

/-- The array `s` after the characters of `l` have been stored from index `i`
on. -/
def write_characters (s : Nat → Nat) (i : Nat) : List Nat → (Nat → Nat)
  | [] => s
  | c :: l => write_characters (store_character s i c) (i + 1) l

/-! ## The compiler

The state of `starc` is the emitter state `Compiler`, the scanner, the symbol
tables and the globals of the parser.  A procedure returns
`OptionT (Except Nat)`: `.error code` for `exit(code)`, `.ok none` when a loop is
still running after `fuel` iterations.  What the compiler prints (syntax errors,
warnings) is not part of the model. -/

def UINT32_T : Nat := 1
def UINT32STAR_T : Nat := 2
def VOID_T : Nat := 3

def REG_T3 : Nat := 28
def F3_NOP : Nat := 0
def EXITCODE_PARSERERROR : Nat := 4

/-- The words of the string that holds the characters `cs` in zeroed memory: four
characters to a word, the first in the lowest byte, null bytes after the last. -/
def string_words (cs : List Nat) : Nat → Nat :=
  fun a => cs.getD (4 * a) 0 + 256 * cs.getD (4 * a + 1) 0 + 65536 * cs.getD (4 * a + 2) 0 +
    16777216 * cs.getD (4 * a + 3) 0

def round_up (n m : Nat) : Nat :=
  if n % m = 0 then n else add32 (sub32 n (n % m)) m

def emit_nop (c : Compiler) : Except Nat Compiler := do
  let w ← encode_i_format 0 REG_ZR F3_NOP REG_ZR OP_IMM
  let c ← emit_instruction c w
  pure { c with ic_addi := add32 c.ic_addi 1 }

def emit_lui (c : Compiler) (rd immediate : Nat) : Except Nat Compiler := do
  let w ← encode_u_format immediate rd OP_LUI
  let c ← emit_instruction c w
  pure { c with ic_lui := add32 c.ic_lui 1 }

def emit_mul (c : Compiler) (rd rs1 rs2 : Nat) : Except Nat Compiler := do
  let c ← emit_instruction c (encode_r_format F7_MUL rs2 rs1 F3_MUL rd OP_OP)
  pure { c with ic_mul := add32 c.ic_mul 1 }

def emit_divu (c : Compiler) (rd rs1 rs2 : Nat) : Except Nat Compiler := do
  let c ← emit_instruction c (encode_r_format F7_DIVU rs2 rs1 F3_DIVU rd OP_OP)
  pure { c with ic_divu := add32 c.ic_divu 1 }

def emit_jal (c : Compiler) (rd immediate : Nat) : Except Nat Compiler := do
  let w ← encode_j_format immediate rd OP_JAL
  let c ← emit_instruction c w
  pure { c with ic_jal := add32 c.ic_jal 1 }

def fixup_relative_BFormat (c : Compiler) (from_address : Nat) : Except Nat Compiler := do
  let instruction := load_instruction c from_address
  let w ← encode_b_format (sub32 c.binary_length from_address) (get_rs2 instruction)
    (get_rs1 instruction) (get_funct3 instruction) (get_opcode instruction)
  store_instruction c from_address w

def fixup_relative_JFormat (c : Compiler) (from_address to_address : Nat) :
    Except Nat Compiler := do
  let instruction := load_instruction c from_address
  let w ← encode_j_format (sub32 to_address from_address) (get_rd instruction)
    (get_opcode instruction)
  store_instruction c from_address w

/-- The procedure `fixlink_relative`; `none` when the chain is still being followed
after `fuel` links. -/
def fixlink_relative : Nat → Compiler → Nat → Nat → Except Nat (Option Compiler)
  | 0, _, _, _ => .ok none
  | fuel + 1, c, from_address, to_address =>
    if from_address ≠ 0 then do
      let previous_address := get_immediate_j_format (load_instruction c from_address)
      let c ← fixup_relative_JFormat c from_address to_address
      fixlink_relative fuel c previous_address to_address
    else .ok (some c)

def next_temporary (allocated_temporaries : Nat) : Except Nat Nat :=
  if allocated_temporaries < NUMBEROFTEMPORARIES then
    if allocated_temporaries = 3 then .ok REG_T3
    else do
      let t ← current_temporary allocated_temporaries
      pure (add32 t 1)
  else .error EXITCODE_COMPILERERROR

def emit_left_shift_by (c : Compiler) (reg b : Nat) : Except Nat Compiler := do
  let t ← next_temporary c.allocated_temporaries
  let c ← emit_addi c t REG_ZR (two_to_the_power_of b)
  let t ← next_temporary c.allocated_temporaries
  emit_mul c reg reg t

/-- The loop of `save_temporaries`. -/
def save_temporaries : Nat → Compiler → Except Nat (Option Compiler)
  | 0, _ => .ok none
  | fuel + 1, c =>
    if c.allocated_temporaries > 0 then do
      let c ← emit_addi c REG_SP REG_SP (neg32 REGISTERSIZE)
      let t ← current_temporary c.allocated_temporaries
      let c ← emit_sw c REG_SP 0 t
      let c ← tfree c 1
      save_temporaries fuel c
    else .ok (some c)

/-- The loop of `restore_temporaries`. -/
def restore_temporaries : Nat → Compiler → Nat → Except Nat (Option Compiler)
  | 0, _, _ => .ok none
  | fuel + 1, c, number_of_temporaries =>
    if c.allocated_temporaries < number_of_temporaries then do
      let c ← talloc c
      let t ← current_temporary c.allocated_temporaries
      let c ← emit_lw c t REG_SP 0
      let c ← emit_addi c REG_SP REG_SP REGISTERSIZE
      restore_temporaries fuel c number_of_temporaries
    else .ok (some c)

def help_procedure_epilogue (c : Compiler) (number_of_parameter_bytes : Nat) :
    Except Nat Compiler := do
  let c ← emit_addi c REG_SP REG_FP 0
  let c ← emit_lw c REG_FP REG_SP 0
  let c ← emit_addi c REG_SP REG_SP REGISTERSIZE
  let c ← emit_lw c REG_RA REG_SP 0
  let c ← emit_addi c REG_SP REG_SP (add32 REGISTERSIZE number_of_parameter_bytes)
  emit_jalr c REG_ZR REG_RA 0

/-- The state of the compiler. -/
structure Starc where
  compiler : Compiler
  scanner : Scanner
  tables : SymbolTables
  code_length : Nat
  data_line_number : Nat → Nat
  return_branches : Nat
  return_type : Nat
  number_of_calls : Nat
  number_of_assignments : Nat
  number_of_while : Nat
  number_of_if : Nat
  number_of_return : Nat

/-- A step of the emitter within the state of the compiler. -/
def emit (s : Starc) (f : Compiler → Except Nat Compiler) : Except Nat Starc := do
  let c ← f s.compiler
  pure { s with compiler := c }

/-- A step of the emitter that has a loop. -/
def emit_loop (s : Starc) (f : Compiler → Except Nat (Option Compiler)) :
    OptionT (Except Nat) Starc := do
  let c ← OptionT.mk (f s.compiler)
  pure { s with compiler := c }

/-- The procedure `exit`. -/
def exit_program {α : Type} (code : Nat) : OptionT (Except Nat) α :=
  OptionT.lift (.error code)

/-- The procedure `get_symbol` within the state of the compiler; the emitter's copy
of the global `line_number` follows the scanner's. -/
def parser_get_symbol (fuel : Nat) (s : Starc) : OptionT (Except Nat) Starc := do
  let scanner ← OptionT.mk (get_symbol fuel s.scanner)
  pure { s with scanner := scanner,
                compiler := { s.compiler with line_number := scanner.line_number } }

/-- The entry with the pointer `pointer` after `f` has been applied to it. -/
def update_entry (t : SymbolTables) (pointer : Nat)
    (f : SymbolTableEntry → SymbolTableEntry) : SymbolTables :=
  let g := fun (e : SymbolTableEntry) => if e.pointer = pointer then f e else e
  { t with global_symbol_table := fun b => (t.global_symbol_table b).map g,
           local_symbol_table := t.local_symbol_table.map g,
           library_symbol_table := t.library_symbol_table.map g }

def set_address (t : SymbolTables) (entry : SymbolTableEntry) (address : Nat) :
    SymbolTables :=
  update_entry t entry.pointer (fun e => { e with address := address })

def set_type (t : SymbolTables) (entry : SymbolTableEntry) (entry_type : Nat) :
    SymbolTables :=
  update_entry t entry.pointer (fun e => { e with entry_type := entry_type })

def set_line_number (t : SymbolTables) (entry : SymbolTableEntry) (line : Nat) :
    SymbolTables :=
  update_entry t entry.pointer (fun e => { e with line_number := line })

/-- What a read through the null pointer returns in the model: an entry of zero
fields. -/
def null_entry : SymbolTableEntry :=
  { pointer := 0, string := fun _ => 0, line_number := 0, entry_class := 0, entry_type := 0,
    value := 0, address := 0, scope := 0 }

/-- The entry that the pointer of `entry` points to, with the fields it has in the
tables `t` now. -/
def current_entry (t : SymbolTables) (entry : SymbolTableEntry) : SymbolTableEntry :=
  match (t.global_symbol_table (hash entry.string) ++ t.local_symbol_table ++
      t.library_symbol_table).find? (fun e => e.pointer = entry.pointer) with
  | some e => e
  | none => entry

def is_undefined_procedure (fuel : Nat) (s : Starc) (entry : SymbolTableEntry) :
    Option Nat :=
  if entry.entry_class = PROCEDURE then
    match search_symbol_table fuel s.tables.library_symbol_table entry.string PROCEDURE with
    | none => none
    | some (some _) => some 0
    | some none =>
      if entry.address = 0 then some 1
      else if get_opcode (load_instruction s.compiler entry.address) = OP_JAL then some 1
      else some 0
  else some 0

/-- The loop of `report_undefined_procedures` over the entries of one bucket. -/
def report_undefined_entries (fuel : Nat) (s : Starc) :
    List SymbolTableEntry → Nat → Option Nat
  | [], undefined => some undefined
  | entry :: next, undefined =>
    match is_undefined_procedure fuel s entry with
    | none => none
    | some r =>
      report_undefined_entries fuel s next (if r ≠ 0 then 1 else undefined)

/-- The loop of `report_undefined_procedures` over the buckets from `i` on. -/
def report_undefined_buckets (fuel : Nat) (s : Starc) : Nat → Nat → Nat → Option Nat
  | 0, _, undefined => some undefined
  | buckets + 1, i, undefined =>
    match report_undefined_entries fuel s (s.tables.global_symbol_table i) undefined with
    | none => none
    | some undefined => report_undefined_buckets fuel s buckets (i + 1) undefined

def report_undefined_procedures (fuel : Nat) (s : Starc) : Option Nat :=
  report_undefined_buckets fuel s HASH_TABLE_SIZE 0 0

def get_variable_or_big_int (fuel : Nat) (s : Starc) (variable_or_big_int : Nat → Nat)
    (entry_class : Nat) : OptionT (Except Nat) (Option SymbolTableEntry) := do
  if entry_class = BIGINT then
    OptionT.mk (pure (search_global_symbol_table fuel s.tables variable_or_big_int entry_class))
  else
    let entry ← OptionT.mk
      (pure (get_scoped_symbol_table_entry fuel s.tables variable_or_big_int entry_class))
    match entry with
    | none => exit_program EXITCODE_PARSERERROR
    | some e => pure (some e)

def load_upper_base_address (s : Starc) (entry : SymbolTableEntry) : Except Nat Starc := do
  let lower := get_bits entry.address 0 12
  let upper := get_bits entry.address 12 20
  let upper := if lower ≥ two_to_the_power_of 11 then add32 upper 1 else upper
  let s ← emit s talloc
  let t ← current_temporary s.compiler.allocated_temporaries
  let s ← emit s (fun c => emit_lui c t (sign_extend upper 20))
  let t ← current_temporary s.compiler.allocated_temporaries
  emit s (fun c => emit_add c t entry.scope t)

/-- The procedure `load_variable_or_big_int`; the result is the type of the
entry. -/
def load_variable_or_big_int (fuel : Nat) (s : Starc) (variable_or_big_int : Nat → Nat)
    (entry_class : Nat) : OptionT (Except Nat) (Nat × Starc) := do
  let found ← get_variable_or_big_int fuel s variable_or_big_int entry_class
  let entry := found.getD null_entry
  let offset := entry.address
  if is_signed_integer offset 12 ≠ 0 then
    let s ← emit s talloc
    let t ← current_temporary s.compiler.allocated_temporaries
    let s ← emit s (fun c => emit_lw c t entry.scope offset)
    pure (entry.entry_type, s)
  else
    let s ← load_upper_base_address s entry
    let t ← current_temporary s.compiler.allocated_temporaries
    let s ← emit s (fun c => emit_lw c t t (sign_extend (get_bits offset 0 12) 12))
    pure (entry.entry_type, s)

def load_integer (fuel : Nat) (s : Starc) (value : Nat) : OptionT (Except Nat) Starc := do
  if is_signed_integer value 12 ≠ 0 then
    let s ← emit s talloc
    let t ← current_temporary s.compiler.allocated_temporaries
    emit s (fun c => emit_addi c t REG_ZR value)
  else if is_signed_integer value 32 ≠ 0 then
    let lower := get_bits value 0 12
    let upper := get_bits value 12 20
    let s ← emit s talloc
    let t ← current_temporary s.compiler.allocated_temporaries
    if lower ≥ two_to_the_power_of 11 then
      let upper := add32 upper 1
      let s ← emit s (fun c => emit_lui c t (sign_extend upper 20))
      let s ← if upper = two_to_the_power_of 19 then emit s (fun c => emit_sub c t REG_ZR t)
        else pure s
      emit s (fun c => emit_addi c t t (sign_extend lower 12))
    else
      let s ← emit s (fun c => emit_lui c t (sign_extend upper 20))
      emit s (fun c => emit_addi c t t (sign_extend lower 12))
  else
    let integer := string_words s.scanner.integer
    let entry ← OptionT.mk (pure (search_global_symbol_table fuel s.tables integer BIGINT))
    let s :=
      match entry with
      | some _ => s
      | none =>
        let allocated_memory := add32 s.compiler.allocated_memory REGISTERSIZE
        { s with
            compiler := { s.compiler with allocated_memory := allocated_memory },
            tables := create_symbol_table_entry s.tables GLOBAL_TABLE integer
              s.compiler.line_number BIGINT UINT32_T value (neg32 allocated_memory) }
    let r ← load_variable_or_big_int fuel s integer BIGINT
    pure r.2

def load_string (fuel : Nat) (s : Starc) (string : Nat → Nat) :
    OptionT (Except Nat) Starc := do
  let l ← OptionT.mk (pure (string_length fuel string))
  let length := add32 l 1
  let allocated_memory := add32 s.compiler.allocated_memory (round_up length REGISTERSIZE)
  let s :=
    { s with
        compiler := { s.compiler with allocated_memory := allocated_memory },
        tables := create_symbol_table_entry s.tables GLOBAL_TABLE string
          s.compiler.line_number STRING UINT32STAR_T 0 (neg32 allocated_memory) }
  let s ← load_integer fuel s (neg32 s.compiler.allocated_memory)
  let t ← current_temporary s.compiler.allocated_temporaries
  emit s (fun c => emit_add c t REG_GP t)

/-- The procedure `help_call_codegen`; the result is the type of the procedure. -/
def help_call_codegen (s : Starc) (entry : Option SymbolTableEntry) (procedure : Nat → Nat) :
    Except Nat (Nat × Starc) :=
  match entry with
  | none => do
    let s :=
      { s with
          tables := create_symbol_table_entry s.tables GLOBAL_TABLE procedure
            s.compiler.line_number PROCEDURE UINT32_T 0 s.compiler.binary_length }
    let s ← emit s (fun c => emit_jal c REG_RA 0)
    pure (UINT32_T, s)
  | some entry => do
    let entry := current_entry s.tables entry
    if entry.address = 0 then
      let s := { s with tables := set_address s.tables entry s.compiler.binary_length }
      let s ← emit s (fun c => emit_jal c REG_RA 0)
      pure (entry.entry_type, s)
    else if get_opcode (load_instruction s.compiler entry.address) = OP_JAL then
      let s ← emit s (fun c => emit_jal c REG_RA entry.address)
      let address := sub32 s.compiler.binary_length INSTRUCTIONSIZE
      let s := { s with tables := set_address s.tables entry address }
      pure (entry.entry_type, s)
    else
      let s ← emit s (fun c => emit_jal c REG_RA (sub32 entry.address s.compiler.binary_length))
      pure (entry.entry_type, s)

def help_procedure_prologue (fuel : Nat) (s : Starc) (number_of_local_variable_bytes : Nat) :
    OptionT (Except Nat) Starc := do
  let s ← emit s (fun c => emit_addi c REG_SP REG_SP (neg32 REGISTERSIZE))
  let s ← emit s (fun c => emit_sw c REG_SP 0 REG_RA)
  let s ← emit s (fun c => emit_addi c REG_SP REG_SP (neg32 REGISTERSIZE))
  let s ← emit s (fun c => emit_sw c REG_SP 0 REG_FP)
  let s ← emit s (fun c => emit_addi c REG_FP REG_SP 0)
  if number_of_local_variable_bytes > 0 then
    if is_signed_integer (neg32 number_of_local_variable_bytes) 12 ≠ 0 then
      emit s (fun c => emit_addi c REG_SP REG_SP (neg32 number_of_local_variable_bytes))
    else
      let s ← load_integer fuel s (neg32 number_of_local_variable_bytes)
      let t ← current_temporary s.compiler.allocated_temporaries
      let s ← emit s (fun c => emit_add c REG_SP REG_SP t)
      emit s (fun c => tfree c 1)
  else pure s

/-! ### The parser -/

def is_not_rbrace_or_eof (s : Starc) : Nat :=
  if s.scanner.symbol = SYM_RBRACE then 0
  else if s.scanner.symbol = SYM_EOF then 0
  else 1

def is_expression (s : Starc) : Nat :=
  if s.scanner.symbol = SYM_MINUS then 1
  else if s.scanner.symbol = SYM_LPARENTHESIS then 1
  else if s.scanner.symbol = SYM_IDENTIFIER then 1
  else if s.scanner.symbol = SYM_INTEGER then 1
  else if s.scanner.symbol = SYM_ASTERISK then 1
  else if s.scanner.symbol = SYM_STRING then 1
  else if s.scanner.symbol = SYM_CHARACTER then 1
  else 0

def is_literal (s : Starc) : Nat :=
  if s.scanner.symbol = SYM_INTEGER then 1
  else if s.scanner.symbol = SYM_CHARACTER then 1
  else 0

def is_star_or_div_or_modulo (s : Starc) : Nat :=
  if s.scanner.symbol = SYM_ASTERISK then 1
  else if s.scanner.symbol = SYM_DIV then 1
  else if s.scanner.symbol = SYM_MOD then 1
  else 0

def is_plus_or_minus (s : Starc) : Nat :=
  if s.scanner.symbol = SYM_MINUS then 1
  else if s.scanner.symbol = SYM_PLUS then 1
  else 0

def is_comparison (s : Starc) : Nat :=
  if s.scanner.symbol = SYM_EQUALITY then 1
  else if s.scanner.symbol = SYM_NOTEQ then 1
  else if s.scanner.symbol = SYM_LT then 1
  else if s.scanner.symbol = SYM_GT then 1
  else if s.scanner.symbol = SYM_LEQ then 1
  else if s.scanner.symbol = SYM_GEQ then 1
  else 0

def look_for_factor (s : Starc) : Nat :=
  if s.scanner.symbol = SYM_ASTERISK then 0
  else if s.scanner.symbol = SYM_MINUS then 0
  else if s.scanner.symbol = SYM_IDENTIFIER then 0
  else if s.scanner.symbol = SYM_INTEGER then 0
  else if s.scanner.symbol = SYM_CHARACTER then 0
  else if s.scanner.symbol = SYM_STRING then 0
  else if s.scanner.symbol = SYM_LPARENTHESIS then 0
  else if s.scanner.symbol = SYM_EOF then 0
  else 1

def look_for_statement (s : Starc) : Nat :=
  if s.scanner.symbol = SYM_ASTERISK then 0
  else if s.scanner.symbol = SYM_IDENTIFIER then 0
  else if s.scanner.symbol = SYM_WHILE then 0
  else if s.scanner.symbol = SYM_IF then 0
  else if s.scanner.symbol = SYM_RETURN then 0
  else if s.scanner.symbol = SYM_EOF then 0
  else 1

def look_for_type (s : Starc) : Nat :=
  if s.scanner.symbol = SYM_UINT32 then 0
  else if s.scanner.symbol = SYM_VOID then 0
  else if s.scanner.symbol = SYM_EOF then 0
  else 1

/-- The loops of the parser that skip unexpected symbols, `look_for` being
`look_for_factor`, `look_for_statement` or `look_for_type`. -/
def skip_unexpected (look_for : Starc → Nat) : Nat → Starc → OptionT (Except Nat) Starc
  | 0, _ => OptionT.mk (pure none)
  | fuel + 1, s =>
    if look_for s ≠ 0 then
      if s.scanner.symbol = SYM_EOF then exit_program EXITCODE_PARSERERROR
      else do
        let s ← parser_get_symbol fuel s
        skip_unexpected look_for fuel s
    else pure s

/-- The symbol `expected` is read over if it is the current one; otherwise
`syntax_error_symbol(expected)` only prints. -/
def expect_symbol (fuel : Nat) (s : Starc) (expected : Nat) : OptionT (Except Nat) Starc :=
  if s.scanner.symbol = expected then parser_get_symbol fuel s else pure s

/-- The two instructions that push the current temporary onto the stack, and its
release. -/
def push_temporary (c : Compiler) : Except Nat Compiler := do
  let c ← emit_addi c REG_SP REG_SP (neg32 REGISTERSIZE)
  let t ← current_temporary c.allocated_temporaries
  let c ← emit_sw c REG_SP 0 t
  tfree c 1

/-- The loop of `compile_call` over the arguments after the first. -/
def compile_call_arguments (compile_expression : Starc → OptionT (Except Nat) (Nat × Starc)) :
    Nat → Starc → OptionT (Except Nat) Starc
  | 0, _ => OptionT.mk (pure none)
  | fuel + 1, s =>
    if s.scanner.symbol = SYM_COMMA then do
      let s ← parser_get_symbol fuel s
      let r ← compile_expression s
      let s ← emit r.2 push_temporary
      compile_call_arguments compile_expression fuel s
    else pure s

/-- The procedure `compile_call`; `compile_expression` is the procedure of that
name.  The result is the type of the procedure called. -/
def compile_call (fuel : Nat)
    (compile_expression : Starc → OptionT (Except Nat) (Nat × Starc))
    (procedure : Nat → Nat) (s : Starc) : OptionT (Except Nat) (Nat × Starc) := do
  let entry ← OptionT.mk (pure (get_scoped_symbol_table_entry fuel s.tables procedure PROCEDURE))
  let number_of_temporaries := s.compiler.allocated_temporaries
  let s ← emit_loop s (save_temporaries fuel)
  let r ←
    if is_expression s ≠ 0 then do
      let r ← compile_expression s
      let s ← emit r.2 push_temporary
      let s ← compile_call_arguments compile_expression fuel s
      if s.scanner.symbol = SYM_RPARENTHESIS then do
        let s ← parser_get_symbol fuel s
        help_call_codegen s entry procedure
      else pure (UINT32_T, s)
    else if s.scanner.symbol = SYM_RPARENTHESIS then do
      let s ← parser_get_symbol fuel s
      help_call_codegen s entry procedure
    else pure (UINT32_T, s)
  let s ← emit_loop r.2 (fun c => restore_temporaries fuel c number_of_temporaries)
  pure (r.1, { s with number_of_calls := add32 s.number_of_calls 1 })

def compile_type (fuel : Nat) (s : Starc) : OptionT (Except Nat) (Nat × Starc) := do
  if s.scanner.symbol = SYM_UINT32 then
    let s ← parser_get_symbol fuel s
    if s.scanner.symbol = SYM_ASTERISK then
      let s ← parser_get_symbol fuel s
      pure (UINT32STAR_T, s)
    else pure (UINT32_T, s)
  else pure (UINT32_T, s)

/-- The end of `compile_factor`: the dereference, the negation and the cast. -/
def compile_factor_end (s : Starc) (has_cast cast type negative dereference : Nat) :
    Except Nat (Nat × Starc) := do
  let r ←
    if dereference ≠ 0 then do
      let t ← current_temporary s.compiler.allocated_temporaries
      let s ← emit s (fun c => emit_lw c t t 0)
      pure (UINT32_T, s)
    else pure (type, s)
  let r ←
    if negative ≠ 0 then do
      let t ← current_temporary r.2.compiler.allocated_temporaries
      let s ← emit r.2 (fun c => emit_sub c t REG_ZR t)
      pure (UINT32_T, s)
    else pure r
  if has_cast ≠ 0 then pure (cast, r.2) else pure r

/-- The procedure `compile_factor`; `compile_expression` is the procedure of that
name.  The result is the type of the factor. -/
def compile_factor (fuel : Nat)
    (compile_expression : Starc → OptionT (Except Nat) (Nat × Starc)) (s : Starc) :
    OptionT (Except Nat) (Nat × Starc) := do
  let s ← skip_unexpected look_for_factor fuel s
  -- optional cast, or an expression in parentheses
  let cast_or_done : (Nat × Nat × Starc) ⊕ (Nat × Starc) ←
    if s.scanner.symbol = SYM_LPARENTHESIS then do
      let s ← parser_get_symbol fuel s
      if s.scanner.symbol = SYM_UINT32 then do
        let r ← compile_type fuel s
        let s ← expect_symbol fuel r.2 SYM_RPARENTHESIS
        pure (Sum.inl (1, r.1, s))
      else do
        let r ← compile_expression s
        let s ← expect_symbol fuel r.2 SYM_RPARENTHESIS
        pure (Sum.inr (r.1, s))
    else pure (Sum.inl (0, 0, s))
  match cast_or_done with
  | Sum.inr r => pure r
  | Sum.inl (has_cast, cast, s) =>
    let negative_s : Nat × Starc ←
      if s.scanner.symbol = SYM_MINUS then do
        let s := { s with scanner := { s.scanner with integer_is_signed := 1 } }
        let s ← parser_get_symbol fuel s
        pure (1, { s with scanner := { s.scanner with integer_is_signed := 0 } })
      else pure (0, s)
    let negative := negative_s.1
    let s := negative_s.2
    let dereference_s : Nat × Starc ←
      if s.scanner.symbol = SYM_ASTERISK then do
        let s ← parser_get_symbol fuel s
        pure (1, s)
      else pure (0, s)
    let dereference := dereference_s.1
    let s := dereference_s.2
    let r : Nat × Starc ←
      if s.scanner.symbol = SYM_IDENTIFIER then do
        let variable_or_procedure_name := string_words s.scanner.identifier
        let s ← parser_get_symbol fuel s
        if s.scanner.symbol = SYM_LPARENTHESIS then do
          let s ← parser_get_symbol fuel s
          let r ← compile_call fuel compile_expression variable_or_procedure_name s
          let s ← emit r.2 talloc
          let t ← current_temporary s.compiler.allocated_temporaries
          let s ← emit s (fun c => emit_addi c t REG_A0 0)
          let s ← emit s (fun c => emit_addi c REG_A0 REG_ZR 0)
          pure (r.1, s)
        else load_variable_or_big_int fuel s variable_or_procedure_name VARIABLE
      else if s.scanner.symbol = SYM_INTEGER then do
        let s ← load_integer fuel s s.scanner.literal
        let s ← parser_get_symbol fuel s
        pure (UINT32_T, s)
      else if s.scanner.symbol = SYM_CHARACTER then do
        let s ← emit s talloc
        let t ← current_temporary s.compiler.allocated_temporaries
        let s ← emit s (fun c => emit_addi c t REG_ZR s.scanner.literal)
        let s ← parser_get_symbol fuel s
        pure (UINT32_T, s)
      else if s.scanner.symbol = SYM_STRING then do
        let s ← load_string fuel s (string_words s.scanner.string)
        let s ← parser_get_symbol fuel s
        pure (UINT32STAR_T, s)
      else if s.scanner.symbol = SYM_LPARENTHESIS then do
        let s ← parser_get_symbol fuel s
        let r ← compile_expression s
        let s ← expect_symbol fuel r.2 SYM_RPARENTHESIS
        pure (r.1, s)
      else pure (UINT32_T, s)
    compile_factor_end r.2 has_cast cast r.1 negative dereference

/-- The loop of `compile_term`. -/
def compile_term_loop (compile_factor : Starc → OptionT (Except Nat) (Nat × Starc)) :
    Nat → Nat → Starc → OptionT (Except Nat) (Nat × Starc)
  | 0, _, _ => OptionT.mk (pure none)
  | fuel + 1, ltype, s =>
    if is_star_or_div_or_modulo s ≠ 0 then do
      let operator_symbol := s.scanner.symbol
      let s ← parser_get_symbol fuel s
      let r ← compile_factor s
      let s := r.2
      let p ← previous_temporary s.compiler.allocated_temporaries
      let t ← current_temporary s.compiler.allocated_temporaries
      let s ←
        if operator_symbol = SYM_ASTERISK then emit s (fun c => emit_mul c p p t)
        else if operator_symbol = SYM_DIV then emit s (fun c => emit_divu c p p t)
        else if operator_symbol = SYM_MOD then emit s (fun c => emit_remu c p p t)
        else pure s
      let s ← emit s (fun c => tfree c 1)
      compile_term_loop compile_factor fuel ltype s
    else pure (ltype, s)

def compile_term (fuel : Nat)
    (compile_expression : Starc → OptionT (Except Nat) (Nat × Starc)) (s : Starc) :
    OptionT (Except Nat) (Nat × Starc) := do
  let r ← compile_factor fuel compile_expression s
  compile_term_loop (compile_factor fuel compile_expression) fuel r.1 r.2

/-- The code that `compile_simple_expression` emits for `+` and `-`; the result is
the type of the left operand afterwards. -/
def compile_plus_or_minus (s : Starc) (operator_symbol ltype rtype : Nat) :
    Except Nat (Nat × Starc) := do
  let p ← previous_temporary s.compiler.allocated_temporaries
  let t ← current_temporary s.compiler.allocated_temporaries
  if operator_symbol = SYM_PLUS then
    let r : Nat × Starc ←
      if ltype = UINT32STAR_T then
        if rtype = UINT32_T then do
          let s ← emit s (fun c => emit_left_shift_by c t 2)
          pure (ltype, s)
        else pure (ltype, s)
      else if rtype = UINT32STAR_T then do
        let s ← emit s (fun c => emit_left_shift_by c p 2)
        pure (UINT32STAR_T, s)
      else pure (ltype, s)
    let s ← emit r.2 (fun c => emit_add c p p t)
    pure (r.1, s)
  else if operator_symbol = SYM_MINUS then
    if ltype = UINT32STAR_T then
      if rtype = UINT32_T then do
        let s ← emit s (fun c => emit_left_shift_by c t 2)
        let s ← emit s (fun c => emit_sub c p p t)
        pure (ltype, s)
      else do
        let s ← emit s (fun c => emit_sub c p p t)
        let s ← emit s (fun c => emit_addi c t REG_ZR SIZEOFUINT32)
        let s ← emit s (fun c => emit_divu c p p t)
        pure (UINT32_T, s)
    else if rtype = UINT32STAR_T then pure (ltype, s)
    else do
      let s ← emit s (fun c => emit_sub c p p t)
      pure (ltype, s)
  else pure (ltype, s)

/-- The loop of `compile_simple_expression`. -/
def compile_simple_expression_loop
    (compile_term : Starc → OptionT (Except Nat) (Nat × Starc)) :
    Nat → Nat → Starc → OptionT (Except Nat) (Nat × Starc)
  | 0, _, _ => OptionT.mk (pure none)
  | fuel + 1, ltype, s =>
    if is_plus_or_minus s ≠ 0 then do
      let operator_symbol := s.scanner.symbol
      let s ← parser_get_symbol fuel s
      let r ← compile_term s
      let r ← compile_plus_or_minus r.2 operator_symbol ltype r.1
      let s ← emit r.2 (fun c => tfree c 1)
      compile_simple_expression_loop compile_term fuel r.1 s
    else pure (ltype, s)

def compile_simple_expression (fuel : Nat)
    (compile_expression : Starc → OptionT (Except Nat) (Nat × Starc)) (s : Starc) :
    OptionT (Except Nat) (Nat × Starc) := do
  let r ← compile_term fuel compile_expression s
  compile_simple_expression_loop (compile_term fuel compile_expression) fuel r.1 r.2

/-- The procedure `compile_expression` with `compile_expression` as the procedure
that its factors call. -/
def compile_expression_with (fuel : Nat)
    (compile_expression : Starc → OptionT (Except Nat) (Nat × Starc)) (s : Starc) :
    OptionT (Except Nat) (Nat × Starc) := do
  let r ← compile_simple_expression fuel compile_expression s
  let ltype := r.1
  let s := r.2
  if is_comparison s ≠ 0 then
    let operator_symbol := s.scanner.symbol
    let s ← parser_get_symbol fuel s
    let r ← compile_simple_expression fuel compile_expression s
    let s ← emit r.2 (compile_comparison operator_symbol)
    pure (ltype, s)
  else pure (ltype, s)

/-- The procedure `compile_expression`, its recursion through the factors limited
to the depth `fuel`. -/
def compile_expression : Nat → Starc → OptionT (Except Nat) (Nat × Starc)
  | 0, _ => OptionT.mk (pure none)
  | fuel + 1, s => compile_expression_with fuel (compile_expression fuel) s

/-- The loops `while (is_not_rbrace_or_eof()) compile_statement();`. -/
def compile_statements (compile_statement : Starc → OptionT (Except Nat) Starc) :
    Nat → Starc → OptionT (Except Nat) Starc
  | 0, _ => OptionT.mk (pure none)
  | fuel + 1, s =>
    if is_not_rbrace_or_eof s ≠ 0 then do
      let s ← compile_statement s
      compile_statements compile_statement fuel s
    else pure s

/-- The statements of a `while`, `if` or `else`: a block in braces, whose closing
brace must follow, or one statement. -/
def compile_block (fuel : Nat) (compile_statement : Starc → OptionT (Except Nat) Starc)
    (s : Starc) : OptionT (Except Nat) Starc := do
  if s.scanner.symbol = SYM_LBRACE then
    let s ← parser_get_symbol fuel s
    let s ← compile_statements compile_statement fuel s
    if s.scanner.symbol = SYM_RBRACE then parser_get_symbol fuel s
    else exit_program EXITCODE_PARSERERROR
  else compile_statement s

def compile_while (fuel : Nat) (compile_statement : Starc → OptionT (Except Nat) Starc)
    (s : Starc) : OptionT (Except Nat) Starc := do
  let jump_back_to_while := s.compiler.binary_length
  let r : Nat × Starc ←
    if s.scanner.symbol = SYM_WHILE then do
      let s ← parser_get_symbol fuel s
      if s.scanner.symbol = SYM_LPARENTHESIS then do
        let s ← parser_get_symbol fuel s
        let r ← compile_expression fuel s
        let s := r.2
        let branch_forward_to_end := s.compiler.binary_length
        let t ← current_temporary s.compiler.allocated_temporaries
        let s ← emit s (fun c => emit_beq c t REG_ZR 0)
        let s ← emit s (fun c => tfree c 1)
        if s.scanner.symbol = SYM_RPARENTHESIS then do
          let s ← parser_get_symbol fuel s
          let s ← compile_block fuel compile_statement s
          pure (branch_forward_to_end, s)
        else pure (branch_forward_to_end, s)
      else pure (0, s)
    else pure (0, s)
  let branch_forward_to_end := r.1
  let s := r.2
  let s ← emit s (fun c => emit_jal c REG_ZR (sub32 jump_back_to_while c.binary_length))
  let s ←
    if branch_forward_to_end ≠ 0 then
      emit s (fun c => fixup_relative_BFormat c branch_forward_to_end)
    else pure s
  pure { s with number_of_while := add32 s.number_of_while 1 }

def compile_if (fuel : Nat) (compile_statement : Starc → OptionT (Except Nat) Starc)
    (s : Starc) : OptionT (Except Nat) Starc := do
  let s ←
    if s.scanner.symbol = SYM_IF then do
      let s ← parser_get_symbol fuel s
      if s.scanner.symbol = SYM_LPARENTHESIS then do
        let s ← parser_get_symbol fuel s
        let r ← compile_expression fuel s
        let s := r.2
        let branch_forward_to_else_or_end := s.compiler.binary_length
        let t ← current_temporary s.compiler.allocated_temporaries
        let s ← emit s (fun c => emit_beq c t REG_ZR 0)
        let s ← emit s (fun c => tfree c 1)
        if s.scanner.symbol = SYM_RPARENTHESIS then do
          let s ← parser_get_symbol fuel s
          let s ← compile_block fuel compile_statement s
          if s.scanner.symbol = SYM_ELSE then do
            let s ← parser_get_symbol fuel s
            let jump_forward_to_end := s.compiler.binary_length
            let s ← emit s (fun c => emit_jal c REG_ZR 0)
            let s ← emit s (fun c => fixup_relative_BFormat c branch_forward_to_else_or_end)
            let s ← compile_block fuel compile_statement s
            emit s (fun c => fixup_relative_JFormat c jump_forward_to_end c.binary_length)
          else
            emit s (fun c => fixup_relative_BFormat c branch_forward_to_else_or_end)
        else pure s
      else pure s
    else pure s
  pure { s with number_of_if := add32 s.number_of_if 1 }

def compile_return (fuel : Nat) (s : Starc) : OptionT (Except Nat) Starc := do
  let s ← expect_symbol fuel s SYM_RETURN
  let s ←
    if s.scanner.symbol ≠ SYM_SEMICOLON then do
      let r ← compile_expression fuel s
      let s := r.2
      let t ← current_temporary s.compiler.allocated_temporaries
      let s ← emit s (fun c => emit_addi c REG_A0 t 0)
      emit s (fun c => tfree c 1)
    else pure s
  let s ← emit s (fun c => emit_jal c REG_ZR s.return_branches)
  pure { s with return_branches := sub32 s.compiler.binary_length INSTRUCTIONSIZE,
                number_of_return := add32 s.number_of_return 1 }

/-- The end of the two assignments through a pointer in `compile_statement`, from
the symbol `=` on. -/
def compile_store (fuel : Nat) (s : Starc) : OptionT (Except Nat) Starc := do
  if s.scanner.symbol = SYM_ASSIGN then
    let s ← parser_get_symbol fuel s
    let r ← compile_expression fuel s
    let s := r.2
    let p ← previous_temporary s.compiler.allocated_temporaries
    let t ← current_temporary s.compiler.allocated_temporaries
    let s ← emit s (fun c => emit_sw c p 0 t)
    let s ← emit s (fun c => tfree c 2)
    pure { s with number_of_assignments := add32 s.number_of_assignments 1 }
  else
    emit s (fun c => tfree c 1)

/-- The procedure `compile_statement` with `compile_statement` as the procedure
that the statements of its `while` and `if` call. -/
def compile_statement_with (fuel : Nat)
    (compile_statement : Starc → OptionT (Except Nat) Starc) (s : Starc) :
    OptionT (Except Nat) Starc := do
  let s ← skip_unexpected look_for_statement fuel s
  if s.scanner.symbol = SYM_ASTERISK then
    let s ← parser_get_symbol fuel s
    if s.scanner.symbol = SYM_IDENTIFIER then
      let r ← load_variable_or_big_int fuel s (string_words s.scanner.identifier) VARIABLE
      let s ← parser_get_symbol fuel r.2
      let s ← compile_store fuel s
      expect_symbol fuel s SYM_SEMICOLON
    else if s.scanner.symbol = SYM_LPARENTHESIS then
      let s ← parser_get_symbol fuel s
      let r ← compile_expression fuel s
      let s := r.2
      if s.scanner.symbol = SYM_RPARENTHESIS then
        let s ← parser_get_symbol fuel s
        let s ← compile_store fuel s
        expect_symbol fuel s SYM_SEMICOLON
      else pure s
    else pure s
  else if s.scanner.symbol = SYM_IDENTIFIER then
    let variable_or_procedure_name := string_words s.scanner.identifier
    let s ← parser_get_symbol fuel s
    if s.scanner.symbol = SYM_LPARENTHESIS then
      let s ← parser_get_symbol fuel s
      let r ← compile_call fuel (compile_expression fuel) variable_or_procedure_name s
      let s ← emit r.2 (fun c => emit_addi c REG_A0 REG_ZR 0)
      expect_symbol fuel s SYM_SEMICOLON
    else if s.scanner.symbol = SYM_ASSIGN then
      let found ← get_variable_or_big_int fuel s variable_or_procedure_name VARIABLE
      let entry := found.getD null_entry
      let s ← parser_get_symbol fuel s
      let r ← compile_expression fuel s
      let s := r.2
      let entry := current_entry s.tables entry
      let offset := entry.address
      let s ←
        if is_signed_integer offset 12 ≠ 0 then do
          let t ← current_temporary s.compiler.allocated_temporaries
          let s ← emit s (fun c => emit_sw c entry.scope offset t)
          emit s (fun c => tfree c 1)
        else do
          let s ← load_upper_base_address s entry
          let t ← current_temporary s.compiler.allocated_temporaries
          let p ← previous_temporary s.compiler.allocated_temporaries
          let s ← emit s (fun c => emit_sw c t (sign_extend (get_bits offset 0 12) 12) p)
          emit s (fun c => tfree c 2)
      let s := { s with number_of_assignments := add32 s.number_of_assignments 1 }
      expect_symbol fuel s SYM_SEMICOLON
    else pure s
  else if s.scanner.symbol = SYM_WHILE then
    compile_while fuel compile_statement s
  else if s.scanner.symbol = SYM_IF then
    compile_if fuel compile_statement s
  else if s.scanner.symbol = SYM_RETURN then
    let s ← compile_return fuel s
    expect_symbol fuel s SYM_SEMICOLON
  else pure s

/-- The procedure `compile_statement`, the nesting of statements limited to the
depth `fuel`. -/
def compile_statement : Nat → Starc → OptionT (Except Nat) Starc
  | 0, _ => OptionT.mk (pure none)
  | fuel + 1, s => compile_statement_with fuel (compile_statement fuel) s

/-- The characters of the string literal `missing variable name`. -/
def missing_variable_name : List Nat :=
  [109, 105, 115, 115, 105, 110, 103, 32, 118, 97, 114, 105, 97, 98, 108, 101, 32, 110, 97,
    109, 101]

def compile_variable (fuel : Nat) (s : Starc) (offset : Nat) : OptionT (Except Nat) Starc := do
  let r ← compile_type fuel s
  let type := r.1
  let s := r.2
  if s.scanner.symbol = SYM_IDENTIFIER then
    let s :=
      { s with
          tables := create_symbol_table_entry s.tables LOCAL_TABLE
            (string_words s.scanner.identifier) s.compiler.line_number VARIABLE type 0 offset }
    parser_get_symbol fuel s
  else
    pure
      { s with
          tables := create_symbol_table_entry s.tables LOCAL_TABLE
            (string_words missing_variable_name) s.compiler.line_number VARIABLE type 0 offset }

/-- The procedure `compile_initialization`; the result is the initial value. -/
def compile_initialization (fuel : Nat) (s : Starc) : OptionT (Except Nat) (Nat × Starc) := do
  if s.scanner.symbol = SYM_ASSIGN then
    let s ← parser_get_symbol fuel s
    let s ←
      if s.scanner.symbol = SYM_LPARENTHESIS then do
        let s ← parser_get_symbol fuel s
        let r ← compile_type fuel s
        expect_symbol fuel r.2 SYM_RPARENTHESIS
      else pure s
    let r : Nat × Starc ←
      if s.scanner.symbol = SYM_MINUS then do
        let s := { s with scanner := { s.scanner with integer_is_signed := 1 } }
        let s ← parser_get_symbol fuel s
        let s := { s with scanner := { s.scanner with integer_is_signed := 0 } }
        pure (neg32 s.scanner.literal, s)
      else pure (s.scanner.literal, s)
    let s ← if is_literal r.2 ≠ 0 then parser_get_symbol fuel r.2 else pure r.2
    let s ← expect_symbol fuel s SYM_SEMICOLON
    pure (r.1, s)
  else pure (0, s)

/-- The loop of `compile_procedure` over the parameters after the first; the
result counts the parameters. -/
def compile_parameters : Nat → Nat → Starc → OptionT (Except Nat) (Nat × Starc)
  | 0, _, _ => OptionT.mk (pure none)
  | fuel + 1, number_of_parameters, s =>
    if s.scanner.symbol = SYM_COMMA then do
      let s ← parser_get_symbol fuel s
      let s ← compile_variable fuel s 0
      compile_parameters fuel (add32 number_of_parameters 1) s
    else pure (number_of_parameters, s)

/-- The loop of `compile_procedure` that sets the addresses of the parameters,
from the head of the local table on. -/
def set_parameter_addresses (t : SymbolTables) :
    List SymbolTableEntry → Nat → Nat → SymbolTables
  | [], _, _ => t
  | entry :: next, parameters, number_of_parameters =>
    if parameters < number_of_parameters then
      set_parameter_addresses
        (set_address t entry (add32 (mul32 parameters REGISTERSIZE) (mul32 2 REGISTERSIZE)))
        next (add32 parameters 1) number_of_parameters
    else t

/-- The loop of `compile_procedure` over the declarations of local variables; the
result is the number of bytes of the local variables. -/
def compile_local_variables : Nat → Nat → Starc → OptionT (Except Nat) (Nat × Starc)
  | 0, _, _ => OptionT.mk (pure none)
  | fuel + 1, number_of_local_variable_bytes, s =>
    if s.scanner.symbol = SYM_UINT32 then do
      let number_of_local_variable_bytes := add32 number_of_local_variable_bytes REGISTERSIZE
      let s ← compile_variable fuel s (neg32 number_of_local_variable_bytes)
      let s ← expect_symbol fuel s SYM_SEMICOLON
      compile_local_variables fuel number_of_local_variable_bytes s
    else pure (number_of_local_variable_bytes, s)

/-- The characters of the string literal `main`. -/
def main_name : List Nat := [109, 97, 105, 110]

def compile_procedure (fuel : Nat) (s : Starc) (procedure : Nat → Nat) (type : Nat) :
    OptionT (Except Nat) Starc := do
  let r : Nat × Starc ←
    if s.scanner.symbol = SYM_LPARENTHESIS then do
      let s ← parser_get_symbol fuel s
      if s.scanner.symbol ≠ SYM_RPARENTHESIS then do
        let s ← compile_variable fuel s 0
        let r ← compile_parameters fuel 1 s
        let s := r.2
        let s :=
          { s with
              tables := set_parameter_addresses s.tables s.tables.local_symbol_table 0 r.1 }
        let s ← expect_symbol fuel s SYM_RPARENTHESIS
        pure (r.1, s)
      else do
        let s ← parser_get_symbol fuel s
        pure (0, s)
    else pure (0, s)
  let number_of_parameters := r.1
  let s := r.2
  let entry ← OptionT.mk (pure (search_global_symbol_table fuel s.tables procedure PROCEDURE))
  let s ←
    if s.scanner.symbol = SYM_SEMICOLON then do
      let s :=
        match entry with
        | none =>
          { s with
              tables := create_symbol_table_entry s.tables GLOBAL_TABLE procedure
                s.compiler.line_number PROCEDURE type 0 0 }
        | some _ => s
      parser_get_symbol fuel s
    else if s.scanner.symbol = SYM_LBRACE then do
      let s ←
        match entry with
        | none =>
          pure
            { s with
                tables := create_symbol_table_entry s.tables GLOBAL_TABLE procedure
                  s.compiler.line_number PROCEDURE type 0 s.compiler.binary_length }
        | some entry => do
          let called : Nat × Starc ←
            if entry.address ≠ 0 then
              if get_opcode (load_instruction s.compiler entry.address) = OP_JAL then do
                let s ← emit_loop s
                  (fun c => fixlink_relative fuel c entry.address c.binary_length)
                pure (1, s)
              else pure (0, s)
            else pure (1, s)
          let is_undefined := called.1
          let s := called.2
          if is_undefined ≠ 0 then do
            let t := set_line_number s.tables entry s.compiler.line_number
            let t := set_type t entry type
            let t := set_address t entry s.compiler.binary_length
            let s := { s with tables := t }
            let same ← OptionT.mk (pure (string_compare fuel procedure (string_words main_name)))
            if same ≠ 0 then pure { s with number_of_calls := add32 s.number_of_calls 1 }
            else pure s
          else pure s
      let s ← parser_get_symbol fuel s
      let r ← compile_local_variables fuel 0 s
      let s ← help_procedure_prologue fuel r.2 r.1
      let s := { s with return_branches := 0, return_type := type }
      let s ← compile_statements (compile_statement fuel) fuel s
      let s := { s with return_type := 0 }
      let s ←
        if s.scanner.symbol = SYM_RBRACE then parser_get_symbol fuel s
        else exit_program EXITCODE_PARSERERROR
      let s ← emit_loop s (fun c => fixlink_relative fuel c s.return_branches c.binary_length)
      let s := { s with return_branches := 0 }
      emit s (fun c => help_procedure_epilogue c (mul32 number_of_parameters REGISTERSIZE))
    else pure s
  pure { s with tables := { s.tables with local_symbol_table := [] } }

/-- The loop of `compile_cstar`. -/
def compile_cstar : Nat → Starc → OptionT (Except Nat) Starc
  | 0, _ => OptionT.mk (pure none)
  | fuel + 1, s =>
    if s.scanner.symbol ≠ SYM_EOF then do
      let s ← skip_unexpected look_for_type fuel s
      let s ←
        if s.scanner.symbol = SYM_VOID then do
          let s ← parser_get_symbol fuel s
          if s.scanner.symbol = SYM_IDENTIFIER then do
            let variable_or_procedure_name := string_words s.scanner.identifier
            let s ← parser_get_symbol fuel s
            compile_procedure fuel s variable_or_procedure_name VOID_T
          else pure s
        else do
          let r ← compile_type fuel s
          let type := r.1
          let s := r.2
          if s.scanner.symbol = SYM_IDENTIFIER then do
            let variable_or_procedure_name := string_words s.scanner.identifier
            let s ← parser_get_symbol fuel s
            if s.scanner.symbol = SYM_LPARENTHESIS then
              compile_procedure fuel s variable_or_procedure_name type
            else do
              let current_line_number := s.compiler.line_number
              let r : Nat × Starc ←
                if s.scanner.symbol = SYM_SEMICOLON then do
                  let s ← parser_get_symbol fuel s
                  pure (0, s)
                else compile_initialization fuel s
              let initial_value := r.1
              let s := r.2
              let entry ← OptionT.mk
                (pure (search_global_symbol_table fuel s.tables variable_or_procedure_name
                  VARIABLE))
              match entry with
              | none =>
                let allocated_memory := add32 s.compiler.allocated_memory REGISTERSIZE
                pure
                  { s with
                      compiler := { s.compiler with allocated_memory := allocated_memory },
                      tables := create_symbol_table_entry s.tables GLOBAL_TABLE
                        variable_or_procedure_name current_line_number VARIABLE type
                        initial_value (neg32 allocated_memory) }
              | some _ => pure s
          else pure s
      compile_cstar fuel s
    else pure s

/-! ### Library procedures, bootstrapping and the data segment -/

def MAX_DATA_LENGTH : Nat := 16384

def store_data (c : Compiler) (baddr data : Nat) : Except Nat Compiler :=
  if baddr ≥ add32 MAX_CODE_LENGTH MAX_DATA_LENGTH then
    .error EXITCODE_COMPILERERROR
  else
    .ok { c with binary := fun i => if i = baddr / REGISTERSIZE then data else c.binary i }

def emit_data_word (s : Starc) (data offset source_line_number : Nat) : Except Nat Starc := do
  let s ← emit s (fun c => store_data c (add32 c.binary_length offset) data)
  let index := add32 s.compiler.allocated_memory offset / REGISTERSIZE
  pure { s with data_line_number := store_word s.data_line_number index source_line_number }

/-- The loop of `emit_string_data`: `w` is the index of the word that the pointer
`s` of the source has reached. -/
def emit_string_data_loop (entry : SymbolTableEntry) (l : Nat) :
    Nat → Starc → Nat → Nat → Except Nat (Option Starc)
  | 0, _, _, _ => .ok none
  | fuel + 1, s, w, i =>
    if i < l then do
      let s ← emit_data_word s (entry.string w) (add32 entry.address i) entry.line_number
      emit_string_data_loop entry l fuel s (w + 1) (add32 i REGISTERSIZE)
    else .ok (some s)

def emit_string_data (fuel : Nat) (s : Starc) (entry : SymbolTableEntry) :
    OptionT (Except Nat) Starc := do
  let length ← OptionT.mk (pure (string_length fuel entry.string))
  let l := round_up (add32 length 1) REGISTERSIZE
  OptionT.mk (emit_string_data_loop entry l fuel s 0 0)

/-- The loop of `emit_data_segment` over the entries of one bucket. -/
def emit_data_entries (fuel : Nat) : List SymbolTableEntry → Starc → OptionT (Except Nat) Starc
  | [], s => pure s
  | entry :: next, s => do
    let s ←
      if entry.entry_class = VARIABLE then
        OptionT.lift (emit_data_word s entry.value entry.address entry.line_number)
      else if entry.entry_class = BIGINT then
        OptionT.lift (emit_data_word s entry.value entry.address entry.line_number)
      else if entry.entry_class = STRING then emit_string_data fuel s entry
      else pure s
    emit_data_entries fuel next s

/-- The loop of `emit_data_segment` over the buckets from `i` on. -/
def emit_data_buckets (fuel : Nat) : Nat → Nat → Starc → OptionT (Except Nat) Starc
  | 0, _, s => pure s
  | buckets + 1, i, s => do
    let s ← emit_data_entries fuel (s.tables.global_symbol_table i) s
    emit_data_buckets fuel buckets (i + 1) s

def emit_data_segment (fuel : Nat) (s : Starc) : OptionT (Except Nat) Starc := do
  let binary_length := add32 s.compiler.binary_length s.compiler.allocated_memory
  let s := { s with compiler := { s.compiler with binary_length := binary_length } }
  let s ← emit_data_buckets fuel HASH_TABLE_SIZE 0 s
  pure { s with compiler := { s.compiler with allocated_memory := 0 } }

/-- The loop of `emit_program_entry`. -/
def emit_program_entry_loop : Nat → Compiler → Nat → Except Nat Compiler
  | 0, c, _ => .ok c
  | n + 1, c, i =>
    if i < 20 then do
      let c ← emit_nop c
      emit_program_entry_loop n c (add32 i 1)
    else .ok c

def emit_program_entry (c : Compiler) : Except Nat Compiler :=
  emit_program_entry_loop 20 c 0

/-- The characters of the names of the library procedures and of `_bump`. -/
def exit_name : List Nat := [101, 120, 105, 116]

def read_name : List Nat := [114, 101, 97, 100]

def write_name : List Nat := [119, 114, 105, 116, 101]

def open_name : List Nat := [111, 112, 101, 110]

def malloc_name : List Nat := [109, 97, 108, 108, 111, 99]

def zalloc_name : List Nat := [122, 97, 108, 108, 111, 99]

def hypster_switch_name : List Nat :=
  [104, 121, 112, 115, 116, 101, 114, 95, 115, 119, 105, 116, 99, 104]

def bump_name : List Nat := [95, 98, 117, 109, 112]

/-- The creation of the entry of a library procedure at the current binary
length. -/
def create_library_entry (s : Starc) (name : List Nat) (type : Nat) : Starc :=
  { s with
      tables := create_symbol_table_entry s.tables LIBRARY_TABLE (string_words name) 0
        PROCEDURE type 0 s.compiler.binary_length }

def emit_exit (s : Starc) : Except Nat Starc := do
  let s := create_library_entry s exit_name VOID_T
  let s ← emit s (fun c => emit_lw c REG_A0 REG_SP 0)
  let s ← emit s (fun c => emit_addi c REG_SP REG_SP REGISTERSIZE)
  let s ← emit s (fun c => emit_addi c REG_A7 REG_ZR SYSCALL_EXIT)
  emit s emit_ecall

/-- The code of the wrappers of `read`, `write` and `open`, which differ in the
number of the system call. -/
def emit_three_argument_wrapper (c : Compiler) (syscall : Nat) : Except Nat Compiler := do
  let c ← emit_lw c REG_A2 REG_SP 0
  let c ← emit_addi c REG_SP REG_SP REGISTERSIZE
  let c ← emit_lw c REG_A1 REG_SP 0
  let c ← emit_addi c REG_SP REG_SP REGISTERSIZE
  let c ← emit_lw c REG_A0 REG_SP 0
  let c ← emit_addi c REG_SP REG_SP REGISTERSIZE
  let c ← emit_addi c REG_A7 REG_ZR syscall
  let c ← emit_ecall c
  emit_jalr c REG_ZR REG_RA 0

def emit_read (s : Starc) : Except Nat Starc :=
  emit (create_library_entry s read_name UINT32_T)
    (fun c => emit_three_argument_wrapper c SYSCALL_READ)

def emit_write (s : Starc) : Except Nat Starc :=
  emit (create_library_entry s write_name UINT32_T)
    (fun c => emit_three_argument_wrapper c SYSCALL_WRITE)

def emit_open (s : Starc) : Except Nat Starc :=
  emit (create_library_entry s open_name UINT32_T)
    (fun c => emit_three_argument_wrapper c SYSCALL_OPEN)

/-- The procedure `emit_malloc` with the symbol table: the entries of `malloc`,
`zalloc` and `_bump` are created, then the code is emitted (`emit_malloc` on the
emitter state, which takes the scope and the address of `_bump` as those of the
entry just created). -/
def emit_malloc_with_entries (s : Starc) : Except Nat Starc := do
  let s := create_library_entry s malloc_name UINT32STAR_T
  let s := create_library_entry s zalloc_name UINT32STAR_T
  let t := create_symbol_table_entry s.tables GLOBAL_TABLE (string_words bump_name) 1 VARIABLE
    UINT32_T 0 (neg32 (add32 s.compiler.allocated_memory REGISTERSIZE))
  let t := { t with number_of_global_variables := sub32 t.number_of_global_variables 1 }
  emit { s with tables := t } emit_malloc

def emit_switch (s : Starc) : Except Nat Starc := do
  let s := create_library_entry s hypster_switch_name UINT32STAR_T
  let s ← emit s (fun c => emit_lw c REG_A1 REG_SP 0)
  let s ← emit s (fun c => emit_addi c REG_SP REG_SP REGISTERSIZE)
  let s ← emit s (fun c => emit_lw c REG_A0 REG_SP 0)
  let s ← emit s (fun c => emit_addi c REG_SP REG_SP REGISTERSIZE)
  let s ← emit s (fun c => emit_addi c REG_A7 REG_ZR SYSCALL_SWITCH)
  let s ← emit s emit_ecall
  let s ← emit s (fun c => emit_addi c REG_A0 REG_A1 0)
  emit s (fun c => emit_jalr c REG_ZR REG_RA 0)

/-- The part of `emit_bootstrapping` that is emitted when no procedure is
undefined: the global pointer, the program break, `_bump`, the pointer to `argv`
and the call of `main`. -/
def emit_bootstrapping_main (fuel : Nat) (s : Starc) (gp : Nat) :
    OptionT (Except Nat) Starc := do
  let s ←
    if gp < sub32 (two_to_the_power_of 31) (two_to_the_power_of 11) then load_integer fuel s gp
    else exit_program EXITCODE_COMPILERERROR
  let t ← current_temporary s.compiler.allocated_temporaries
  let s ← emit s (fun c => emit_addi c REG_GP t 0)
  let s ← emit s (fun c => tfree c 1)
  let s ← emit s (fun c => emit_addi c REG_A0 REG_ZR 0)
  let s ← emit s (fun c => emit_addi c REG_A7 REG_ZR SYSCALL_BRK)
  let s ← emit s emit_ecall
  let s ← emit s (fun c => emit_round_up c REG_A0 SIZEOFUINT32)
  let s ← emit s (fun c => emit_addi c REG_A7 REG_ZR SYSCALL_BRK)
  let s ← emit s emit_ecall
  let found ← OptionT.mk
    (pure (search_global_symbol_table fuel s.tables (string_words bump_name) VARIABLE))
  let entry := found.getD null_entry
  let s ← emit s (fun c => emit_sw c entry.scope entry.address REG_A0)
  let s ← emit s (fun c => emit_addi c REG_A0 REG_ZR 0)
  let s ← emit s talloc
  let t ← current_temporary s.compiler.allocated_temporaries
  let s ← emit s (fun c => emit_addi c t REG_SP REGISTERSIZE)
  let s ← emit s (fun c => emit_addi c REG_SP REG_SP (neg32 REGISTERSIZE))
  let t ← current_temporary s.compiler.allocated_temporaries
  let s ← emit s (fun c => emit_sw c REG_SP 0 t)
  let s ← emit s (fun c => tfree c 1)
  let entry ← OptionT.mk
    (pure (get_scoped_symbol_table_entry fuel s.tables (string_words main_name) PROCEDURE))
  let r ← help_call_codegen s entry (string_words main_name)
  pure r.2

/-- The start of `emit_bootstrapping`: the value of the global pointer, and the
state in which the program entry is rewritten: an NOP has been appended when the
global pointer was not word-aligned, `code_length` is the binary length and
`binary_length` is reset to the program entry. -/
def emit_bootstrapping_start (s : Starc) : Except Nat (Nat × Starc) := do
  let gp := add32 (add32 ELF_ENTRY_POINT s.compiler.binary_length) s.compiler.allocated_memory
  let padding := gp % REGISTERSIZE
  let gp := add32 gp padding
  let s ← if padding ≠ 0 then emit s emit_nop else pure s
  let s := { s with code_length := s.compiler.binary_length }
  pure (gp, { s with compiler := { s.compiler with binary_length := 0 } })

/-- The part of `emit_bootstrapping` that emits the code of the program entry. -/
def emit_bootstrapping_entry (fuel : Nat) (s : Starc) (gp : Nat) :
    OptionT (Except Nat) Starc := do
  let undefined ← OptionT.mk (pure (report_undefined_procedures fuel s))
  let s ←
    if undefined ≠ 0 then OptionT.lift (emit s (fun c => emit_addi c REG_A0 REG_ZR 0))
    else emit_bootstrapping_main fuel s gp
  let s ← emit s (fun c => emit_addi c REG_SP REG_SP (neg32 REGISTERSIZE))
  emit s (fun c => emit_sw c REG_SP 0 REG_A0)

def emit_bootstrapping (fuel : Nat) (s : Starc) : OptionT (Except Nat) Starc := do
  let r ← emit_bootstrapping_start s
  let s ← emit_bootstrapping_entry fuel r.2 r.1
  let ic_addi := sub32 s.compiler.ic_addi (s.compiler.binary_length / INSTRUCTIONSIZE)
  pure { s with compiler := { s.compiler with ic_addi := ic_addi,
                                              binary_length := s.code_length } }

/-! ### The compiler as a whole -/

/-- The state of the scanner after `reset_scanner` on the source text `source`. -/
def reset_scanner (source : List Nat) (s : Scanner) : Scanner :=
  let s := { s with source := source, line_number := 1, number_of_read_characters := 0 }
  let s := get_character s
  { s with number_of_ignored_characters := 0, number_of_comments := 0,
           number_of_scanned_symbols := 0 }

/-- The procedure `reset_parser` of the source: the counters of the parser are cleared
and the first symbol is read. -/
def reset_parser_globals (fuel : Nat) (s : Starc) : OptionT (Except Nat) Starc :=
  parser_get_symbol fuel
    { s with number_of_calls := 0, number_of_assignments := 0, number_of_while := 0,
             number_of_if := 0, number_of_return := 0 }

/-- The state in which `selfie_compile` starts to emit: an empty binary, zeroed
line-number tables, reset symbol tables and instruction counters.  The variables
that are not reset (the scanner, the temporaries, `allocated_memory`, the globals of
the parser) have their initial values. -/
def initial_starc : Starc :=
  { compiler :=
      { binary := fun _ => 0, binary_length := 0, code_line_number := fun _ => 0,
        line_number := 1, allocated_temporaries := 0, ic_addi := 0, ic_sub := 0, ic_sltu := 0,
        ic_add := 0, ic_remu := 0, ic_lw := 0, ic_sw := 0, ic_beq := 0, ic_jalr := 0,
        ic_ecall := 0, allocated_memory := 0, ic_lui := 0, ic_mul := 0, ic_divu := 0,
        ic_jal := 0 },
    scanner :=
      { character := 0, source := [], line_number := 1, symbol := 0, literal := 0,
        identifier := [], integer := [], string := [], integer_is_signed := 0,
        number_of_read_characters := 0, number_of_ignored_characters := 0,
        number_of_comments := 0, number_of_scanned_symbols := 0 },
    tables := reset_symbol_tables,
    code_length := 0, data_line_number := fun _ => 0, return_branches := 0,
    return_type := 0, number_of_calls := 0, number_of_assignments := 0,
    number_of_while := 0, number_of_if := 0, number_of_return := 0 }

/-- The loop of `selfie_compile` over the source files, each given by its text. -/
def compile_sources (fuel : Nat) : List (List Nat) → Starc → OptionT (Except Nat) Starc
  | [], s => pure s
  | source :: sources, s => do
    let scanner := reset_scanner source s.scanner
    let s := { s with scanner := scanner,
                      compiler := { s.compiler with line_number := scanner.line_number } }
    let s ← reset_parser_globals fuel s
    let s ← compile_cstar fuel s
    compile_sources fuel sources s

/-- The part of `selfie_compile` before the loop over the source files: the program
entry, the wrappers of the library procedures and the implicit declaration of
`main`. -/
def selfie_compile_library : Except Nat Starc := do
  let s := initial_starc
  let s ← emit s emit_program_entry
  let s ← emit_exit s
  let s ← emit_read s
  let s ← emit_write s
  let s ← emit_open s
  let s ← emit_malloc_with_entries s
  let s ← emit_switch s
  pure
    { s with
        tables := create_symbol_table_entry s.tables GLOBAL_TABLE (string_words main_name) 0
          PROCEDURE UINT32_T 0 0 }

/-- The procedure `selfie_compile` for the source files with the texts `sources`
(the files can be opened); the binary is in the emitter state of the result. -/
def selfie_compile (fuel : Nat) (sources : List (List Nat)) : OptionT (Except Nat) Starc := do
  let s ← selfie_compile_library
  let s ← compile_sources fuel sources s
  let s ← emit_bootstrapping fuel s
  emit_data_segment fuel s

/-! ### What the emitter appends -/

/-- The emitter state `c'` is `c` with the instruction words `ws` appended at the
binary length of `c`: the binary is longer by four bytes for each word, holds the
words in order and is unchanged elsewhere, and no memory has been allocated for
data. -/
def emits (c c' : Compiler) (ws : List Nat) : Prop :=
  c'.binary_length = c.binary_length + 4 * ws.length ∧
  c'.allocated_memory = c.allocated_memory ∧
  (∀ i, i < ws.length → c'.binary (c.binary_length / 4 + i) = ws.getD i 0) ∧
  ∀ i, (i < c.binary_length / 4 ∨ c.binary_length / 4 + ws.length ≤ i) →
    c'.binary i = c.binary i

/-- The instructions that load the word `v` into the register `t`, as the
specification of `load_integer` describes them: one `addi t,zero,v` for a 12-bit
signed `v`; otherwise `lui t,upper` and `addi t,t,lower` for the sign-extended lower
12 bits and the upper 20 bits, the latter incremented when the lower part is
negative, with `sub t,zero,t` in between when the incremented upper part is
`2^19`. -/
def load_integer_code (v t : Nat) : Except Nat (List Nat) :=
  if v < 2048 ∨ 4294965248 ≤ v then do
    let addi ← encode_i_format v REG_ZR F3_ADDI t OP_IMM
    pure [addi]
  else do
    let lower := v % 4096
    let upper := if lower < 2048 then v / 4096 else v / 4096 + 1
    let lui ← encode_u_format (sign_extend upper 20) t OP_LUI
    let addi ← encode_i_format (sign_extend lower 12) t F3_ADDI t OP_IMM
    if 2048 ≤ lower ∧ upper = 524288 then
      pure [lui, encode_r_format F7_SUB t REG_ZR F3_SUB t OP_OP, addi]
    else pure [lui, addi]

/-- The procedure `load_integer` is correct for the word `v` in the state `s`: it
returns, leaves the symbol tables and the allocated data memory as they are (the
value is not stored as a big integer in the data segment), allocates one temporary
`t`, appends the instructions `load_integer_code v t`, and on every machine with
`x0 = 0` that has these instructions loaded at `pc`, executing them leaves `v` in
`t`. -/
def load_integer_correct (implement_switch : Machine → Except Nat Machine) (fuel : Nat)
    (s : Starc) (v : Nat) : Prop :=
  ∃ s' t ws,
    load_integer fuel s v = pure s' ∧
    s'.tables = s.tables ∧
    s'.compiler.allocated_temporaries = s.compiler.allocated_temporaries + 1 ∧
    current_temporary s'.compiler.allocated_temporaries = .ok t ∧
    load_integer_code v t = .ok ws ∧
    emits s.compiler s'.compiler ws ∧
    ∀ m : Machine, m.registers REG_ZR = 0 → m.pc < 4294967296 →
      code_loaded s'.compiler s.compiler.binary_length ws.length m →
      ∃ m', steps implement_switch ws.length m = .ok m' ∧ m'.registers t = v ∧
        m'.pc = add32 m.pc (4 * ws.length)

/-- The procedure `emit_bootstrapping` has turned `s` into `s'` with a program entry
of `k` instructions, where `k` is 20 when `report_undefined_procedures` returns 0
and 3 otherwise: the code of the entry is emitted from binary length 0 to binary
length `4 * k`, it ends with the push of the return register
(`addi sp,sp,-4; sw a0,0(sp)`), the binary of `s'` is the one with this code, and
every slot from `k` on that is code of `s` holds what it held in `s`. -/
def program_entry_rewritten (fuel : Nat) (s s' : Starc) : Prop :=
  ∃ gp s0 s1 w_addi w_sw k,
    emit_bootstrapping_start s = .ok (gp, s0) ∧
    s0.compiler.binary_length = 0 ∧
    emit_bootstrapping_entry fuel s0 gp = pure s1 ∧
    k = (if report_undefined_procedures fuel s0 = some 0 then 20 else 3) ∧
    s1.compiler.binary_length = 4 * k ∧
    s'.compiler.binary = s1.compiler.binary ∧
    encode_i_format (neg32 REGISTERSIZE) REG_SP F3_ADDI REG_SP OP_IMM = .ok w_addi ∧
    encode_s_format 0 REG_A0 REG_SP F3_SW OP_SW = .ok w_sw ∧
    s'.compiler.binary (k - 2) = w_addi ∧ s'.compiler.binary (k - 1) = w_sw ∧
    ∀ i, k ≤ i → i < s.compiler.binary_length / 4 →
      s'.compiler.binary i = s.compiler.binary i

/-- The entry `e` of the global symbol table is no string, and when it is a variable
or a big integer its address is `-k` for an offset `0 < k ≤ allocated_memory` into
the data that has been allocated. -/
def data_entry_in_range (allocated_memory : Nat) (e : SymbolTableEntry) : Prop :=
  e.entry_class ≠ STRING ∧
    ((e.entry_class = VARIABLE ∨ e.entry_class = BIGINT) →
      0 < neg32 e.address ∧ neg32 e.address ≤ allocated_memory ∧ e.address < 4294967296)

/-! ## Loads and stores of the symbolic execution engine -/

def EXITCODE_SYMBOLICEXECUTIONERROR : Nat := 12

def MAX_TRACE_LENGTH : Nat := 100000

def is_symbolic_value (type lo up : Nat) : Nat :=
  if type ≠ 0 then 0
  else if lo = up then 0
  else 1

/-- The procedure `is_safe_address(vaddr, reg)`; an access through a register that
holds a non-singleton interval is `exit(EXITCODE_SYMBOLICEXECUTIONERROR)`. -/
def is_safe_address (m : Machine) (vaddr reg : Nat) : Except Nat Nat :=
  if m.engine.reg_typ reg ≠ 0 then
    if vaddr < m.engine.reg_los reg then .ok 0
    else if sub32 vaddr (m.engine.reg_los reg) ≥ m.engine.reg_ups reg then .ok 0
    else .ok 1
  else if m.engine.reg_los reg = m.engine.reg_ups reg then .ok 1
  else .error EXITCODE_SYMBOLICEXECUTIONERROR

def load_symbolic_memory (m : Machine) (vaddr : Nat) : Except Nat Nat :=
  let mrvc := load_virtual_memory m.memory m.pt vaddr
  if mrvc ≤ m.tc then .ok mrvc
  else .error EXITCODE_SYMBOLICEXECUTIONERROR

def is_trace_space_available (m : Machine) : Nat :=
  if add32 m.tc 1 < MAX_TRACE_LENGTH then 1 else 0

/-- The part of `store_symbolic_memory` after the most recent value counter `mrvc`
of the address has been determined. -/
def store_symbolic_memory_at (m : Machine) (vaddr value type lo up trb mrvc : Nat) :
    Except Nat Machine :=
  if trb < mrvc then
    .ok { m with
      values := store_word m.values mrvc value,
      engine := { m.engine with types := store_word m.engine.types mrvc type,
                                los := store_word m.engine.los mrvc lo,
                                ups := store_word m.engine.ups mrvc up } }
  else if is_trace_space_available m ≠ 0 then
    let tc := add32 m.tc 1
    let m := { m with
      tc := tc,
      pcs := store_word m.pcs tc m.pc,
      values := store_word m.values tc value,
      engine := { m.engine with tcs := store_word m.engine.tcs tc mrvc,
                                types := store_word m.engine.types tc type,
                                los := store_word m.engine.los tc lo,
                                ups := store_word m.engine.ups tc up,
                                vaddrs := store_word m.engine.vaddrs tc vaddr } }
    if vaddr < NUMBEROFREGISTERS then
      if vaddr > 0 then .ok { m with engine := { m.engine with mrcc := tc } }
      else .ok m
    else
      .ok { m with memory := store_virtual_memory m.memory m.pt vaddr tc }
  else throw_exception EXCEPTION_MAXTRACE 0 m

def store_symbolic_memory (m : Machine) (vaddr value type lo up trb : Nat) :
    Except Nat Machine :=
  if vaddr = 0 then store_symbolic_memory_at m vaddr value type lo up trb 0
  else if vaddr < NUMBEROFREGISTERS then
    store_symbolic_memory_at m vaddr value type lo up trb m.engine.mrcc
  else do
    let mrvc ← load_symbolic_memory m vaddr
    if value = m.values mrvc ∧ type = m.engine.types mrvc ∧ lo = m.engine.los mrvc ∧
        up = m.engine.ups mrvc then
      pure m
    else store_symbolic_memory_at m vaddr value type lo up trb mrvc

def set_constraint (m : Machine) (reg hasco vaddr hasmn colos coups : Nat) : Machine :=
  { m with engine := { m.engine with
      reg_hasco := store_word m.engine.reg_hasco reg hasco,
      reg_vaddr := store_word m.engine.reg_vaddr reg vaddr,
      reg_hasmn := store_word m.engine.reg_hasmn reg hasmn,
      reg_colos := store_word m.engine.reg_colos reg colos,
      reg_coups := store_word m.engine.reg_coups reg coups } }

/-- The procedure `constrain_lw`; the first component of the result is the returned
`vaddr`. -/
def constrain_lw (m : Machine) : Except Nat (Nat × Machine) := do
  let vaddr := add32 (m.registers m.rs1) m.imm
  let safe ← is_safe_address m vaddr m.rs1
  if safe ≠ 0 then
    if is_virtual_address_mapped m.pt vaddr ≠ 0 then do
      let m ←
        if m.rd ≠ REG_ZR then do
          let mrvc ← load_symbolic_memory m vaddr
          let m := { m with
            registers := store_word m.registers m.rd (m.values mrvc),
            engine := { m.engine with
              reg_typ := store_word m.engine.reg_typ m.rd (m.engine.types mrvc),
              reg_los := store_word m.engine.reg_los m.rd (m.engine.los mrvc),
              reg_ups := store_word m.engine.reg_ups m.rd (m.engine.ups mrvc) } }
          if is_symbolic_value (m.engine.reg_typ m.rd) (m.engine.reg_los m.rd)
              (m.engine.reg_ups m.rd) ≠ 0 then
            pure (set_constraint m m.rd 1 vaddr 0 0 0)
          else pure (set_constraint m m.rd 0 0 0 0 0)
        else pure m
      let a := sub32 m.pc m.entry_point / INSTRUCTIONSIZE
      pure (vaddr,
        { m with pc := add32 m.pc INSTRUCTIONSIZE, ic_lw := add32 m.ic_lw 1,
                 loads_per_instruction :=
                   store_word m.loads_per_instruction a (add32 (m.loads_per_instruction a) 1) })
    else do
      let m ← throw_exception EXCEPTION_PAGEFAULT (get_page_of_virtual_address vaddr) m
      pure (vaddr, m)
  else do
    let m ← throw_exception EXCEPTION_INVALIDADDRESS vaddr m
    pure (vaddr, m)

/-- The procedure `constrain_sw`; the first component of the result is the returned
`vaddr`. -/
def constrain_sw (m : Machine) : Except Nat (Nat × Machine) := do
  let vaddr := add32 (m.registers m.rs1) m.imm
  let safe ← is_safe_address m vaddr m.rs1
  if safe ≠ 0 then
    if is_virtual_address_mapped m.pt vaddr ≠ 0 then do
      let m ← store_symbolic_memory m vaddr (m.registers m.rs2) (m.engine.reg_typ m.rs2)
        (m.engine.reg_los m.rs2) (m.engine.reg_ups m.rs2) m.engine.mrcc
      let a := sub32 m.pc m.entry_point / INSTRUCTIONSIZE
      pure (vaddr,
        { m with pc := add32 m.pc INSTRUCTIONSIZE, ic_sw := add32 m.ic_sw 1,
                 stores_per_instruction :=
                   store_word m.stores_per_instruction a (add32 (m.stores_per_instruction a) 1) })
    else do
      let m ← throw_exception EXCEPTION_PAGEFAULT (get_page_of_virtual_address vaddr) m
      pure (vaddr, m)
  else do
    let m ← throw_exception EXCEPTION_INVALIDADDRESS vaddr m
    pure (vaddr, m)

/-! ## Loading and running a binary -/

def MEGABYTE : Nat := 1048576

def EXITCODE_OUTOFPHYSICALMEMORY : Nat := 7

/-- What the allocator of the host returns to the emulator: the address `context` of
the memory for the context, and the address `block n` of the zeroed megabyte that
`palloc` asks for when `n` bytes of page frame memory have been allocated before. -/
structure Host where
  context : Nat
  block : Nat → Nat

def init_memory (megabytes : Nat) (m : Machine) : Machine :=
  let megabytes := if megabytes > 4096 then 4096 else megabytes
  { m with frames := { m.frames with page_frame_memory := mul32 megabytes MEGABYTE } }

def pavailable (f : PageFrames) : Nat :=
  if f.free_page_frame_memory > 0 then 1
  else if add32 f.allocated_page_frame_memory MEGABYTE ≤ f.page_frame_memory then 1
  else 0

def pexcess (f : PageFrames) : Nat :=
  if pavailable f ≠ 0 then 1
  else if add32 f.allocated_page_frame_memory MEGABYTE ≤ mul32 2 f.page_frame_memory then 1
  else 0

/-- The procedure `palloc`; the first component of the result is the frame.  The
megabyte that `zalloc` returns is zeroed. -/
def palloc (host : Host) (m : Machine) : Except Nat (Nat × Machine) := do
  let m ←
    if m.frames.free_page_frame_memory = 0 then
      if pexcess m.frames ≠ 0 then
        let block := host.block m.frames.allocated_page_frame_memory
        let allocated := add32 m.frames.allocated_page_frame_memory MEGABYTE
        let next := round_up block PAGESIZE
        let free := if next > block then sub32 MEGABYTE PAGESIZE else MEGABYTE
        pure { m with
          memory := fun a => if block ≤ a ∧ a < block + MEGABYTE then 0 else m.memory a,
          frames := { m.frames with free_page_frame_memory := free,
                                    allocated_page_frame_memory := allocated,
                                    next_page_frame := next } }
      else .error EXITCODE_OUTOFPHYSICALMEMORY
    else pure m
  let frame := m.frames.next_page_frame
  pure (frame,
    { m with frames := { m.frames with
        next_page_frame := add32 frame PAGESIZE,
        free_page_frame_memory := sub32 m.frames.free_page_frame_memory PAGESIZE } })

/-- The procedure `map_page` for the current context; the range of recently mapped
pages that it keeps in the context is read by `hypster` only and not part of the
model. -/
def map_page (m : Machine) (page frame : Nat) : Machine :=
  { m with pt := store_word m.pt page frame }

def map_and_store (host : Host) (m : Machine) (vaddr data : Nat) : Except Nat Machine := do
  let m ←
    if is_virtual_address_mapped m.pt vaddr = 0 then do
      let r ← palloc host m
      pure (map_page r.2 (get_page_of_virtual_address vaddr) r.1)
    else pure m
  if m.symbolic ≠ 0 then
    if is_trace_space_available m ≠ 0 then
      store_symbolic_memory m vaddr data 0 data data m.tc
    else .error EXITCODE_OUTOFTRACEMEMORY
  else pure { m with memory := store_virtual_memory m.memory m.pt vaddr data }

/-- A loop of `up_load_binary`: the words of the binary from `baddr` up to `limit`
are stored; the result has the new `baddr`. -/
def up_load_words (host : Host) (binary : Nat → Nat) (limit : Nat) :
    Nat → Machine → Nat → Except Nat (Option (Nat × Machine))
  | 0, _, _ => .ok none
  | fuel + 1, m, baddr =>
    if baddr < limit then do
      let m ← map_and_store host m (add32 m.entry_point baddr) (binary (baddr / REGISTERSIZE))
      up_load_words host binary limit fuel m (add32 baddr REGISTERSIZE)
    else .ok (some (baddr, m))

/-- The procedure `up_load_binary` for the current context and the binary in the
state `s` of the compiler. -/
def up_load_binary (host : Host) (fuel : Nat) (s : Starc) (m : Machine) :
    OptionT (Except Nat) Machine := do
  let m := { m with context_pc := m.entry_point,
                    program_break := add32 m.entry_point s.compiler.binary_length }
  let r : Nat × Machine ←
    if m.symbolic ≠ 0 then do
      let r ← OptionT.mk
        (up_load_words host s.compiler.binary s.code_length fuel { m with symbolic := 0 } 0)
      pure (r.1, { r.2 with symbolic := 1 })
    else pure (0, m)
  let r ← OptionT.mk
    (up_load_words host s.compiler.binary s.compiler.binary_length fuel r.2 r.1)
  pure r.2

/-- The loop of `up_load_string`: `w` is the index of the word that the pointer `s`
has reached. -/
def up_load_string_loop (host : Host) (s : Nat → Nat) (sp bytes : Nat) :
    Nat → Machine → Nat → Nat → Except Nat (Option Machine)
  | 0, _, _, _ => .ok none
  | fuel + 1, m, w, i =>
    if i < bytes then do
      let m ← map_and_store host m (add32 sp i) (s w)
      up_load_string_loop host s sp bytes fuel m (w + 1) (add32 i REGISTERSIZE)
    else .ok (some m)

/-- The procedure `up_load_string`; the first component of the result is the new
stack pointer. -/
def up_load_string (host : Host) (fuel : Nat) (m : Machine) (s : Nat → Nat) (sp : Nat) :
    OptionT (Except Nat) (Nat × Machine) := do
  let length ← OptionT.mk (pure (string_length fuel s))
  let bytes := round_up (add32 length 1) REGISTERSIZE
  let sp := sub32 sp bytes
  let m ← OptionT.mk (up_load_string_loop host s sp bytes fuel m 0 0)
  pure (sp, m)

/-- The first loop of `up_load_arguments`: the strings are stored from the first
argument on; the result has the stack pointer and the pointers of `vargv` in
reverse order. -/
def up_load_strings (host : Host) (fuel : Nat) :
    List (Nat → Nat) → Machine → Nat → List Nat → OptionT (Except Nat) (Nat × List Nat × Machine)
  | [], m, sp, vargv => pure (sp, vargv, m)
  | s :: rest, m, sp, vargv => do
    let r ← up_load_string host fuel m s sp
    up_load_strings host fuel rest r.2 r.1 (r.1 :: vargv)

/-- The last loop of `up_load_arguments`: the pointers of `vargv` are pushed from the
last on. -/
def up_load_pointers (host : Host) : List Nat → Machine → Nat → Except Nat (Nat × Machine)
  | [], m, sp => pure (sp, m)
  | p :: rest, m, sp => do
    let sp := sub32 sp REGISTERSIZE
    let m ← map_and_store host m sp p
    up_load_pointers host rest m sp

/-- The procedure `up_load_arguments` for the current context; `argv` are the
strings of the arguments. -/
def up_load_arguments (host : Host) (fuel : Nat) (m : Machine) (argv : List (Nat → Nat)) :
    OptionT (Except Nat) Machine := do
  let r ← up_load_strings host fuel argv m VIRTUALMEMORYSIZE []
  let sp := sub32 r.1 REGISTERSIZE
  let m ← map_and_store host r.2.2 sp 0
  let sp := sub32 sp REGISTERSIZE
  let m ← map_and_store host m sp 0
  let r ← up_load_pointers host r.2.1 m sp
  let sp := sub32 r.1 REGISTERSIZE
  let m ← map_and_store host r.2 sp argv.length
  let m := { m with registers := store_word m.registers REG_SP sp }
  if m.symbolic ≠ 0 then
    pure { m with engine := { m.engine with
      reg_typ := store_word m.engine.reg_typ REG_SP 0,
      reg_los := store_word m.engine.reg_los REG_SP sp,
      reg_ups := store_word m.engine.reg_ups REG_SP sp } }
  else pure m

/-- The procedure `reset_interpreter`; the arrays of the profile are zeroed. -/
def reset_interpreter (m : Machine) : Machine :=
  let m := { m with pc := 0, ir := 0, registers := fun _ => 0, pt := fun _ => 0, trap := 0,
                    timer := TIMEROFF }
  if m.execute ≠ 0 then
    { m with ic_lui := 0, ic_addi := 0, ic_add := 0, ic_sub := 0, ic_mul := 0, ic_divu := 0,
             ic_remu := 0, ic_sltu := 0, ic_lw := 0, ic_sw := 0, ic_beq := 0, ic_jal := 0,
             ic_jalr := 0, ic_ecall := 0, calls := 0, iterations := 0,
             calls_per_procedure := fun _ => 0, iterations_per_loop := fun _ => 0,
             loads_per_instruction := fun _ => 0, stores_per_instruction := fun _ => 0 }
  else m

/-- The call `create_context(MY_CONTEXT, 0)` after `reset_microkernel`: the new
context, at the address that the host gives, is the current one; its registers and
its page table are zeroed. -/
def create_context (host : Host) (m : Machine) : Machine :=
  { m with current_context := host.context, context_pc := 0, registers := fun _ => 0,
           pt := fun _ => 0, exception := EXCEPTION_NOEXCEPTION, faulting_page := 0,
           exit_code := EXITCODE_NOERROR, parent := MY_CONTEXT }

/-- The procedure `implement_exit` outside symbolic execution; what it prints is not
part of the model. -/
def implement_exit (m : Machine) : Machine :=
  { m with exit_code := m.registers REG_A0 }

def handle_page_fault (host : Host) (m : Machine) : Except Nat (Nat × Machine) := do
  let m := { m with exception := EXCEPTION_NOEXCEPTION }
  let r ← palloc host m
  pure (DONOTEXIT, map_page r.2 m.faulting_page r.1)

/-- The kernel of `mipster` on the host `host`: `implement_exit` and
`handle_page_fault` are those of the source, the other parameters those of `k`. -/
def boot_kernel (host : Host) (k : Kernel) : Kernel :=
  { k with implement_exit := fun m => .ok (implement_exit m),
           handle_page_fault := handle_page_fault host }

/-- The part of `selfie_run(MIPSTER)` before the call of `mipster`, for a binary that
is not empty: the state of the emulator with the context created and the binary and
the arguments loaded.  `megabytes` is the number given with the option, `argv` are
the name of the binary and the remaining arguments, `m` the state of the emulator
before. -/
def selfie_run_boot (host : Host) (fuel : Nat) (s : Starc) (m : Machine)
    (megabytes : Nat) (argv : List (Nat → Nat)) : OptionT (Except Nat) Machine := do
  let m := init_memory megabytes m
  let m := { m with execute := 1, entry_point := ELF_ENTRY_POINT }
  let m := reset_interpreter m
  let m := create_context host m
  let m ← up_load_binary host fuel s m
  up_load_arguments host fuel m argv

/-- The procedure `selfie_run(MIPSTER)` for the binary in the state `s` of the
compiler.  The result is the exit code that `mipster` returns. -/
def selfie_run_mipster (host : Host) (k : Kernel) (fuel : Nat) (s : Starc) (m : Machine)
    (megabytes : Nat) (argv : List (Nat → Nat)) : OptionT (Except Nat) Nat :=
  if s.compiler.binary_length = 0 then pure EXITCODE_BADARGUMENTS
  else do
    let m ← selfie_run_boot host fuel s m megabytes argv
    OptionT.mk (mipster (boot_kernel host k) fuel m m.current_context)

/-! ## The system call `open` -/

def MAX_FILENAME_LENGTH : Nat := 128

/-- The loop `while (j < SIZEOFUINT32)` of `down_load_string` over the characters of
the word `w`, with `n` characters to go from `j` on: 1 when one of them is zero
(the procedure returns 1 there), 0 when the loop ends. -/
def string_ends_in_word (w : Nat → Nat) : Nat → Nat → Nat
  | 0, _ => 0
  | n + 1, j =>
    if load_character w j = 0 then 1 else string_ends_in_word w n (add32 j 1)

/-- The loop of `down_load_string(table, vaddr, s)` from the word `i` on, for at
most `fuel` iterations (`none` when it is still running then).  The result is the
returned word and the buffer `s`. -/
def down_load_string_loop (m : Machine) :
    Nat → Nat → (Nat → Nat) → Nat → Except Nat (Option (Nat × (Nat → Nat)))
  | 0, _, _, _ => .ok none
  | fuel + 1, vaddr, s, i =>
    if i < MAX_FILENAME_LENGTH / SIZEOFUINT32 then
      if is_valid_virtual_address vaddr ≠ 0 then
        if is_virtual_address_mapped m.pt vaddr ≠ 0 then do
          let s ←
            if m.symbolic ≠ 0 then do
              let mrvc ← load_symbolic_memory m vaddr
              let s := store_word s i (m.values mrvc)
              if is_symbolic_value (m.engine.types mrvc) (m.engine.los mrvc)
                  (m.engine.ups mrvc) ≠ 0 then
                .error EXITCODE_SYMBOLICEXECUTIONERROR
              else pure s
            else pure (store_word s i (load_virtual_memory m.memory m.pt vaddr))
          if string_ends_in_word (fun k => s (i + k)) SIZEOFUINT32 0 ≠ 0 then
            pure (some (1, s))
          else down_load_string_loop m fuel (add32 vaddr SIZEOFUINT32) s (add32 i 1)
        else down_load_string_loop m fuel vaddr s i
      else down_load_string_loop m fuel vaddr s i
    else .ok (some (0, s))

/-- The procedure `down_load_string`. -/
def down_load_string (m : Machine) (fuel vaddr : Nat) (s : Nat → Nat) :
    Except Nat (Option (Nat × (Nat → Nat))) :=
  down_load_string_loop m fuel vaddr s 0

/-- The procedure `implement_open(context)` for the current context.  The host's
`open(filename, flags, mode)` is the parameter `open_file`; the result is the
machine and the array `filename_buffer`. -/
def implement_open (open_file : (Nat → Nat) → Nat → Nat → Nat) (fuel : Nat) (m : Machine)
    (filename_buffer : Nat → Nat) : Except Nat (Option (Machine × (Nat → Nat))) := do
  let vfilename := m.registers REG_A0
  let flags := m.registers REG_A1
  let mode := m.registers REG_A2
  match ← down_load_string m fuel vfilename filename_buffer with
  | none => pure none
  | some (found, filename_buffer) =>
    let m :=
      if found ≠ 0 then
        { m with registers := store_word m.registers REG_A0 (open_file filename_buffer flags mode) }
      else
        { m with registers := store_word m.registers REG_A0 (neg32 1) }
    let m :=
      if m.symbolic ≠ 0 then
        { m with engine := { m.engine with
            reg_typ := store_word m.engine.reg_typ REG_A0 0,
            reg_los := store_word m.engine.reg_los REG_A0 (m.registers REG_A0),
            reg_ups := store_word m.engine.reg_ups REG_A0 (m.registers REG_A0) } }
      else m
    pure (some ({ m with context_pc := add32 m.context_pc INSTRUCTIONSIZE }, filename_buffer))

/-! ## Interval arithmetic of the symbolic execution engine -/

def cardinality (lo up : Nat) : Nat := add32 (sub32 up lo) 1

def combined_cardinality (lo1 up1 lo2 up2 : Nat) : Nat :=
  let c1 := cardinality lo1 up1
  let c2 := cardinality lo2 up2
  if add32 c1 c2 ≤ c1 then 0
  else if add32 c1 c2 ≤ c2 then 0
  else add32 c1 c2

/-- The assignments `*(reg_typ + rd) = type; *(reg_los + rd) = lo; *(reg_ups + rd) = up`
for the register `reg`. -/
def set_interval (m : Machine) (reg type lo up : Nat) : Machine :=
  { m with engine := { m.engine with
      reg_typ := store_word m.engine.reg_typ reg type,
      reg_los := store_word m.engine.reg_los reg lo,
      reg_ups := store_word m.engine.reg_ups reg up } }

/-- The procedure `constrain_add`, which follows `do_add` in symbolic execution. -/
def constrain_add (m : Machine) : Except Nat Machine :=
  if m.rd ≠ REG_ZR then
    if m.engine.reg_typ m.rs1 ≠ 0 then
      if m.engine.reg_typ m.rs2 ≠ 0 then .error EXITCODE_SYMBOLICEXECUTIONERROR
      else
        let m := set_interval m m.rd (m.engine.reg_typ m.rs1) (m.engine.reg_los m.rs1)
          (m.engine.reg_ups m.rs1)
        .ok (set_constraint m m.rd 0 0 0 0 0)
    else if m.engine.reg_typ m.rs2 ≠ 0 then
      let m := set_interval m m.rd (m.engine.reg_typ m.rs2) (m.engine.reg_los m.rs2)
        (m.engine.reg_ups m.rs2)
      .ok (set_constraint m m.rd 0 0 0 0 0)
    else
      let m :=
        if combined_cardinality (m.engine.reg_los m.rs1) (m.engine.reg_ups m.rs1)
            (m.engine.reg_los m.rs2) (m.engine.reg_ups m.rs2) = 0 then
          set_interval m m.rd 0 0 UINT32_MAX
        else
          set_interval m m.rd 0 (add32 (m.engine.reg_los m.rs1) (m.engine.reg_los m.rs2))
            (add32 (m.engine.reg_ups m.rs1) (m.engine.reg_ups m.rs2))
      if m.engine.reg_hasco m.rs1 ≠ 0 then
        if m.engine.reg_hasco m.rs2 ≠ 0 then
          .ok (set_constraint m m.rd
            (add32 (m.engine.reg_hasco m.rs1) (m.engine.reg_hasco m.rs2)) 0 0 0 0)
        else if m.engine.reg_hasmn m.rs1 ≠ 0 then .error EXITCODE_SYMBOLICEXECUTIONERROR
        else
          .ok (set_constraint m m.rd (m.engine.reg_hasco m.rs1) (m.engine.reg_vaddr m.rs1) 0
            (add32 (m.engine.reg_colos m.rs1) (m.engine.reg_los m.rs2))
            (add32 (m.engine.reg_coups m.rs1) (m.engine.reg_ups m.rs2)))
      else if m.engine.reg_hasco m.rs2 ≠ 0 then
        if m.engine.reg_hasmn m.rs2 ≠ 0 then .error EXITCODE_SYMBOLICEXECUTIONERROR
        else
          .ok (set_constraint m m.rd (m.engine.reg_hasco m.rs2) (m.engine.reg_vaddr m.rs2) 0
            (add32 (m.engine.reg_los m.rs1) (m.engine.reg_colos m.rs2))
            (add32 (m.engine.reg_ups m.rs1) (m.engine.reg_coups m.rs2)))
      else .ok (set_constraint m m.rd 0 0 0 0 0)
  else .ok m

/-- The procedure `constrain_sub`, which follows `do_sub` in symbolic execution. -/
def constrain_sub (m : Machine) : Except Nat Machine :=
  if m.rd ≠ REG_ZR then
    if m.engine.reg_typ m.rs1 ≠ 0 then
      if m.engine.reg_typ m.rs2 ≠ 0 then
        if m.engine.reg_los m.rs1 = m.engine.reg_los m.rs2 ∧
            m.engine.reg_ups m.rs1 = m.engine.reg_ups m.rs2 then
          let m := set_interval m m.rd 0 (m.registers m.rd) (m.registers m.rd)
          .ok (set_constraint m m.rd 0 0 0 0 0)
        else throw_exception EXCEPTION_INVALIDADDRESS 0 m
      else
        let m := set_interval m m.rd (m.engine.reg_typ m.rs1) (m.engine.reg_los m.rs1)
          (m.engine.reg_ups m.rs1)
        .ok (set_constraint m m.rd 0 0 0 0 0)
    else if m.engine.reg_typ m.rs2 ≠ 0 then
      let m := set_interval m m.rd (m.engine.reg_typ m.rs2) (m.engine.reg_los m.rs2)
        (m.engine.reg_ups m.rs2)
      .ok (set_constraint m m.rd 0 0 0 0 0)
    else
      let m :=
        if combined_cardinality (m.engine.reg_los m.rs1) (m.engine.reg_ups m.rs1)
            (m.engine.reg_los m.rs2) (m.engine.reg_ups m.rs2) = 0 then
          set_interval m m.rd 0 0 UINT32_MAX
        else
          set_interval m m.rd 0 (sub32 (m.engine.reg_los m.rs1) (m.engine.reg_ups m.rs2))
            (sub32 (m.engine.reg_ups m.rs1) (m.engine.reg_los m.rs2))
      if m.engine.reg_hasco m.rs1 ≠ 0 then
        if m.engine.reg_hasco m.rs2 ≠ 0 then
          .ok (set_constraint m m.rd
            (add32 (m.engine.reg_hasco m.rs1) (m.engine.reg_hasco m.rs2)) 0 0 0 0)
        else if m.engine.reg_hasmn m.rs1 ≠ 0 then .error EXITCODE_SYMBOLICEXECUTIONERROR
        else
          .ok (set_constraint m m.rd (m.engine.reg_hasco m.rs1) (m.engine.reg_vaddr m.rs1) 0
            (sub32 (m.engine.reg_colos m.rs1) (m.engine.reg_ups m.rs2))
            (sub32 (m.engine.reg_coups m.rs1) (m.engine.reg_los m.rs2)))
      else if m.engine.reg_hasco m.rs2 ≠ 0 then
        if m.engine.reg_hasmn m.rs2 ≠ 0 then .error EXITCODE_SYMBOLICEXECUTIONERROR
        else
          .ok (set_constraint m m.rd (m.engine.reg_hasco m.rs2) (m.engine.reg_vaddr m.rs2) 1
            (sub32 (m.engine.reg_los m.rs1) (m.engine.reg_coups m.rs2))
            (sub32 (m.engine.reg_ups m.rs1) (m.engine.reg_colos m.rs2)))
      else .ok (set_constraint m m.rd 0 0 0 0 0)
  else .ok m

/-- The procedure `constrain_mul`, which follows `do_mul` in symbolic execution. -/
def constrain_mul (m : Machine) : Except Nat Machine :=
  if m.rd ≠ REG_ZR then
    let m := set_interval m m.rd 0 (mul32 (m.engine.reg_los m.rs1) (m.engine.reg_los m.rs2))
      (mul32 (m.engine.reg_ups m.rs1) (m.engine.reg_ups m.rs2))
    if m.engine.reg_hasco m.rs1 ≠ 0 then
      if m.engine.reg_hasco m.rs2 ≠ 0 then .error EXITCODE_SYMBOLICEXECUTIONERROR
      else if m.engine.reg_hasmn m.rs1 ≠ 0 then .error EXITCODE_SYMBOLICEXECUTIONERROR
      else
        .ok (set_constraint m m.rd (m.engine.reg_hasco m.rs1) (m.engine.reg_vaddr m.rs1) 0
          (add32 (m.engine.reg_colos m.rs1)
            (mul32 (m.engine.reg_los m.rs1) (sub32 (m.engine.reg_los m.rs2) 1)))
          (add32 (m.engine.reg_coups m.rs1)
            (mul32 (m.engine.reg_ups m.rs1) (sub32 (m.engine.reg_ups m.rs2) 1))))
    else if m.engine.reg_hasco m.rs2 ≠ 0 then
      if m.engine.reg_hasmn m.rs2 ≠ 0 then .error EXITCODE_SYMBOLICEXECUTIONERROR
      else
        .ok (set_constraint m m.rd (m.engine.reg_hasco m.rs2) (m.engine.reg_vaddr m.rs2) 0
          (add32 (mul32 (sub32 (m.engine.reg_los m.rs1) 1) (m.engine.reg_los m.rs2))
            (m.engine.reg_colos m.rs2))
          (add32 (mul32 (sub32 (m.engine.reg_ups m.rs1) 1) (m.engine.reg_ups m.rs2))
            (m.engine.reg_coups m.rs2)))
    else .ok (set_constraint m m.rd 0 0 0 0 0)
  else .ok m

/-- The word `x` lies in the interval `[lo, up]` of the engine; an interval with
`lo > up` is wrapped around: it holds the words from `lo` up and the words up to
`up`. -/
def interval_contains (lo up x : Nat) : Prop :=
  if lo ≤ up then lo ≤ x ∧ x ≤ up else lo ≤ x ∨ x ≤ up

/-- The number of words in the interval `[lo, up]`, between 1 and `2^32`. -/
def interval_size (lo up : Nat) : Nat := sub32 up lo + 1

/-! ## Backtracking a store -/

def efree (m : Machine) : Machine := { m with tc := sub32 m.tc 1 }

def backtrack_sw (m : Machine) : Machine :=
  efree { m with
    memory := store_virtual_memory m.memory m.pt (m.engine.vaddrs m.tc) (m.engine.tcs m.tc) }

/-! ## The case split of `sltu` in symbolic execution -/

def store_constrained_memory (m : Machine) (vaddr lo up trb : Nat) : Except Nat Machine :=
  if vaddr ≥ m.program_break ∧ vaddr < m.registers REG_SP then .ok m
  else
    let mrvc := load_virtual_memory m.memory m.pt vaddr
    if mrvc < trb then .error EXITCODE_SYMBOLICEXECUTIONERROR
    else store_symbolic_memory m vaddr lo 0 lo up m.tc

def store_register_memory (m : Machine) (reg value : Nat) : Except Nat Machine :=
  store_symbolic_memory m reg value 0 value value m.tc

def constrain_memory (m : Machine) (reg lo up trb : Nat) : Except Nat Machine :=
  if m.engine.reg_hasco reg ≠ 0 then
    if m.engine.reg_hasmn reg ≠ 0 then
      store_constrained_memory m (m.engine.reg_vaddr reg) (sub32 (m.engine.reg_colos reg) lo)
        (sub32 (m.engine.reg_coups reg) up) trb
    else
      store_constrained_memory m (m.engine.reg_vaddr reg) (sub32 lo (m.engine.reg_colos reg))
        (sub32 up (m.engine.reg_coups reg)) trb
  else .ok m

def take_branch (m : Machine) (b how_many_more : Nat) : Except Nat Machine :=
  if how_many_more > 0 then do
    let m ← store_register_memory m m.rd b
    let m ← store_register_memory m REG_FP (m.registers REG_FP)
    store_register_memory m REG_SP (m.registers REG_SP)
  else
    let m := { m with registers := store_word m.registers m.rd b }
    let m := set_interval m m.rd 0 b b
    .ok (set_constraint m m.rd 0 0 0 0 0)

/-- The part of `create_constraints` for two intervals that are not wrapped around
(`lo1 <= up1` and `lo2 <= up2`), in which the procedure does not call itself. -/
def create_constraints_intervals (m : Machine) (lo1 up1 lo2 up2 trb how_many_more : Nat) :
    Except Nat Machine :=
  if up1 < lo2 then do
    let m ← constrain_memory m m.rs1 lo1 up1 trb
    let m ← constrain_memory m m.rs2 lo2 up2 trb
    take_branch m 1 how_many_more
  else if up2 ≤ lo1 then do
    let m ← constrain_memory m m.rs1 lo1 up1 trb
    let m ← constrain_memory m m.rs2 lo2 up2 trb
    take_branch m 0 how_many_more
  else if lo2 = up2 then do
    let m ← constrain_memory m m.rs1 lo2 up1 trb
    let m ← constrain_memory m m.rs2 lo2 up2 trb
    let m ← store_register_memory m m.rd 0
    let m ← store_register_memory m REG_FP (m.registers REG_FP)
    let m ← store_register_memory m REG_SP (m.registers REG_SP)
    let m ← constrain_memory m m.rs1 lo1 (sub32 lo2 1) trb
    let m ← constrain_memory m m.rs2 lo2 up2 trb
    take_branch m 1 how_many_more
  else if lo1 = up1 then do
    let m ← constrain_memory m m.rs1 lo1 up1 trb
    let m ← constrain_memory m m.rs2 lo2 lo1 trb
    let m ← store_register_memory m m.rd 0
    let m ← store_register_memory m REG_FP (m.registers REG_FP)
    let m ← store_register_memory m REG_SP (m.registers REG_SP)
    let m ← constrain_memory m m.rs1 lo1 up1 trb
    let m ← constrain_memory m m.rs2 (add32 lo1 1) up2 trb
    take_branch m 1 how_many_more
  else .error EXITCODE_SYMBOLICEXECUTIONERROR

/-- The procedure `create_constraints`, which calls itself for intervals that are
wrapped around, to a depth of at most `fuel` calls (`none` beyond that). -/
def create_constraints :
    Nat → Machine → Nat → Nat → Nat → Nat → Nat → Nat → OptionT (Except Nat) Machine
  | 0, _, _, _, _, _, _, _ => OptionT.mk (pure none)
  | fuel + 1, m, lo1, up1, lo2, up2, trb, how_many_more =>
    if lo1 ≤ up1 then
      if lo2 ≤ up2 then
        liftM (create_constraints_intervals m lo1 up1 lo2 up2 trb how_many_more)
      else do
        let m ← create_constraints fuel m lo1 up1 lo2 UINT32_MAX trb 1
        create_constraints fuel m lo1 up1 0 up2 trb 0
    else if lo2 ≤ up2 then do
      let m ← create_constraints fuel m lo1 UINT32_MAX lo2 up2 trb 1
      create_constraints fuel m 0 up1 lo2 up2 trb 0
    else do
      let m ← create_constraints fuel m lo1 UINT32_MAX lo2 UINT32_MAX trb 3
      let m ← create_constraints fuel m lo1 UINT32_MAX 0 up2 trb 2
      let m ← create_constraints fuel m 0 up1 0 up2 trb 1
      create_constraints fuel m 0 up1 lo2 UINT32_MAX trb 0

/-- The procedure `constrain_sltu`. -/
def constrain_sltu (fuel : Nat) (m : Machine) : OptionT (Except Nat) Machine := do
  let m ←
    if m.rd ≠ REG_ZR then
      if m.engine.reg_hasco m.rs1 ≠ 0 ∧ m.engine.reg_vaddr m.rs1 = 0 then
        exit_program EXITCODE_SYMBOLICEXECUTIONERROR
      else if m.engine.reg_hasco m.rs2 ≠ 0 ∧ m.engine.reg_vaddr m.rs2 = 0 then
        exit_program EXITCODE_SYMBOLICEXECUTIONERROR
      else if m.engine.reg_typ m.rs1 ≠ 0 then
        if m.engine.reg_typ m.rs2 ≠ 0 then
          create_constraints fuel m (m.registers m.rs1) (m.registers m.rs1)
            (m.registers m.rs2) (m.registers m.rs2) m.engine.mrcc 0
        else
          create_constraints fuel m (m.registers m.rs1) (m.registers m.rs1)
            (m.engine.reg_los m.rs2) (m.engine.reg_ups m.rs2) m.engine.mrcc 0
      else if m.engine.reg_typ m.rs2 ≠ 0 then
        create_constraints fuel m (m.engine.reg_los m.rs1) (m.engine.reg_ups m.rs1)
          (m.registers m.rs2) (m.registers m.rs2) m.engine.mrcc 0
      else
        create_constraints fuel m (m.engine.reg_los m.rs1) (m.engine.reg_ups m.rs1)
          (m.engine.reg_los m.rs2) (m.engine.reg_ups m.rs2) m.engine.mrcc 0
    else pure m
  pure { m with pc := add32 m.pc INSTRUCTIONSIZE, ic_sltu := add32 m.ic_sltu 1 }

/-- The registers, their types, bounds and constraints, and the decoded register
fields of the instruction are the same in `m` and `m'`. -/
def same_registers (m m' : Machine) : Prop :=
  m'.registers = m.registers ∧ m'.rd = m.rd ∧ m'.rs1 = m.rs1 ∧ m'.rs2 = m.rs2 ∧
  m'.engine.reg_typ = m.engine.reg_typ ∧ m'.engine.reg_los = m.engine.reg_los ∧
  m'.engine.reg_ups = m.engine.reg_ups ∧ m'.engine.reg_hasco = m.engine.reg_hasco ∧
  m'.engine.reg_vaddr = m.engine.reg_vaddr ∧ m'.engine.reg_hasmn = m.engine.reg_hasmn ∧
  m'.engine.reg_colos = m.engine.reg_colos ∧ m'.engine.reg_coups = m.engine.reg_coups

/-! ### Chains of calls to a procedure that is not yet defined -/

/-- The code addresses `sites`, from the most recent call back to the first, are a
chain of calls as `help_call_codegen` emits them for a procedure that is not yet
defined: each is the address of an instruction `jal ra, previous` below
`MAX_CODE_LENGTH`, where `previous` is the address of the call before it, a lower
address, and 0 for the first call. -/
def call_chain (c : Compiler) : List Nat → Prop
  | [] => True
  | a :: rest =>
    rest.headD 0 < a ∧ a % 4 = 0 ∧ a < MAX_CODE_LENGTH ∧
    encode_j_format (rest.headD 0) REG_RA OP_JAL = .ok (load_instruction c a) ∧
    call_chain c rest

/-! ### The frame that the prologue of a procedure builds -/

/-- The machine `m` is about to run `count` instructions of procedure code that set
up a frame on a mapped, aligned stack: `sp` is a multiple of 4 between 8 and the
size of virtual memory, the two words below it are on mapped pages and at different
addresses of physical memory, and none of the `count` instruction words at `pc` is
one of them. -/
def frame_ready (m : Machine) (count : Nat) : Prop :=
  m.pc < 4294967296 ∧ 8 ≤ m.registers REG_SP ∧ m.registers REG_SP ≤ VIRTUALMEMORYSIZE ∧
  m.registers REG_SP % 4 = 0 ∧
  m.pt ((m.registers REG_SP - 4) / PAGESIZE) ≠ 0 ∧
  m.pt ((m.registers REG_SP - 8) / PAGESIZE) ≠ 0 ∧
  tlb m.pt (m.registers REG_SP - 4) ≠ tlb m.pt (m.registers REG_SP - 8) ∧
  ∀ i, i < count →
    tlb m.pt (add32 m.pc (4 * i)) ≠ tlb m.pt (m.registers REG_SP - 4) ∧
    tlb m.pt (add32 m.pc (4 * i)) ≠ tlb m.pt (m.registers REG_SP - 8)

/-! ### Running with the debugger -/

/-- One round of the loop of `run_until_exception` for either value of `debug`:
`fetch`, `decode_execute`, `interrupt`. -/
def step_with_debug (implement_switch : Machine → Except Nat Machine) (m : Machine) :
    Except Nat Machine := do
  let m ← decode_execute_with_debug implement_switch (fetch m)
  interrupt m

/-- The next `n` rounds of the loop of `run_until_exception` for either value of
`debug`. -/
def steps_with_debug (implement_switch : Machine → Except Nat Machine) :
    Nat → Machine → Except Nat Machine
  | 0, m => .ok m
  | n + 1, m => do
    let m ← step_with_debug implement_switch m
    steps_with_debug implement_switch n m

/-- The switches of the debugger in the state `m`: `debug`, `execute`, `record`,
`undo` and `redo`. -/
def debugger_switches (m : Machine) : Nat × Nat × Nat × Nat × Nat :=
  (m.debug, m.execute, m.record, m.undo, m.redo)

/-! ### The arguments of a call -/

def REG_T0 : Nat := 5

/-- The binary of `c'` is the binary of `c` with the instruction words `ws` added
at its end: it is longer by four bytes for each word, holds the words in order and
is unchanged elsewhere.  (Other than `emits`, this allows that memory for data has
been allocated.) -/
def appends_code (c c' : Compiler) (ws : List Nat) : Prop :=
  c'.binary_length = c.binary_length + 4 * ws.length ∧
  (∀ i, i < ws.length → c'.binary (c.binary_length / 4 + i) = ws.getD i 0) ∧
  ∀ i, (i < c.binary_length / 4 ∨ c.binary_length / 4 + ws.length ≤ i) →
    c'.binary i = c.binary i

/-- The state of the compiler after `push_temporary` in the state `a`; the state `a`
itself when `push_temporary` exits. -/
def after_push (a : Starc) : Starc :=
  match emit a push_temporary with
  | .ok p => p
  | .error _ => a

/-- The expression compiler `ce` compiles one argument of a call: called in the
state `b` it returns with the state `a`, it has added the instruction words `ws` to
the binary and changed no other word of it, the value of the argument is in the
only allocated temporary, and the binary has room for the two instructions that
push it. -/
def compiles_argument (ce : Starc → OptionT (Except Nat) (Nat × Starc)) (b a : Starc)
    (ws : List Nat) : Prop :=
  (∃ ty, ce b = pure (ty, a)) ∧ appends_code b.compiler a.compiler ws ∧
  a.compiler.allocated_temporaries = 1 ∧ a.compiler.binary_length + 8 ≤ MAX_CODE_LENGTH

/-- The arguments of a call after the first, as the loop of `compile_call` with
`fuel` rounds left meets them in the state `p`, in which the argument before has
just been pushed: each is preceded by a comma, and after `get_symbol` the
expression compiler `ce` compiles it.  The list holds, for each of these arguments,
the state after `ce` and the code of the argument; `e` is the state in which the
loop ends, at a symbol that is no comma. -/
def more_arguments (ce : Starc → OptionT (Except Nat) (Nat × Starc)) :
    Nat → Starc → List (Starc × List Nat) → Starc → Prop
  | 0, _, _, _ => False
  | _ + 1, p, [], e => p.scanner.symbol ≠ SYM_COMMA ∧ e = p
  | fuel + 1, p, (a, ws) :: rest, e =>
    p.scanner.symbol = SYM_COMMA ∧
    (∃ b, parser_get_symbol fuel p = pure b ∧ compiles_argument ce b a ws) ∧
    more_arguments ce fuel (after_push a) rest e

/-- The immediate of the `jal` that `help_call_codegen` emits in the state `s` for
the procedure with the entry `entry`: 0 for a procedure without entry or without
address, the address of the last call for a procedure that has been called but not
defined, and the offset from the call to the procedure for one that is defined. -/
def call_offset (s : Starc) (entry : Option SymbolTableEntry) : Nat :=
  match entry with
  | none => 0
  | some entry =>
    if (current_entry s.tables entry).address = 0 then 0
    else if get_opcode (load_instruction s.compiler (current_entry s.tables entry).address) =
        OP_JAL then
      (current_entry s.tables entry).address
    else sub32 (current_entry s.tables entry).address s.compiler.binary_length

/-- The code of the arguments of a call: the code of each argument, in the order of
the list, followed by the two instruction words `w_addi` and `w_sw`. -/
def argument_pushes (w_addi w_sw : Nat) : List (List Nat) → List Nat
  | [] => []
  | ws :: rest => ws ++ [w_addi, w_sw] ++ argument_pushes w_addi w_sw rest

/-- The machine `m`, about to fetch `count` instruction words from `pc` on, has room
for `n` more words on its stack: `pc` is a machine word, the stack pointer is a
multiple of 4, at least `4 * n` and at most the size of virtual memory, the `n`
words below it are on mapped pages and at `n` different addresses of physical
memory, and none of the `count` instruction words is one of them. -/
def stack_room (m : Machine) (count n : Nat) : Prop :=
  m.pc < 4294967296 ∧ 4 * n ≤ m.registers REG_SP ∧
  m.registers REG_SP ≤ VIRTUALMEMORYSIZE ∧ m.registers REG_SP % 4 = 0 ∧
  (∀ j, 1 ≤ j → j ≤ n → m.pt ((m.registers REG_SP - 4 * j) / PAGESIZE) ≠ 0) ∧
  (∀ j j', 1 ≤ j → j < j' → j' ≤ n →
    tlb m.pt (m.registers REG_SP - 4 * j) ≠ tlb m.pt (m.registers REG_SP - 4 * j')) ∧
  ∀ i j, i < count → 1 ≤ j → j ≤ n →
    tlb m.pt (add32 m.pc (4 * i)) ≠ tlb m.pt (m.registers REG_SP - 4 * j)

/-- The code of the arguments of a call evaluates them on the machine `m`, which is
about to fetch the code of the first argument of the list `codes`: after some
number of instructions the machine is at the push that follows the code of the
argument, with the value `v` of the argument in the temporary `t0`, the stack
pointer and the page table as before, every word at or above the stack pointer as
before, and the instruction words that follow (the pushes, the code of the other
arguments, and `after` more words) as before; and whatever state the two
instructions of the push lead to from there, the same holds for the other
arguments from that state on.  The list `vs` holds the values of the arguments.
The words `w_addi` and `w_sw` only count. -/
def arguments_evaluated (isw : Machine → Except Nat Machine) (w_addi w_sw : Nat)
    (after : Nat) : List (List Nat) → List Nat → Machine → Prop
  | [], [], _ => True
  | ws :: rest, v :: vs, m =>
    ∃ k ma, steps isw k m = .ok ma ∧ ma.pc = add32 m.pc (4 * ws.length) ∧
      ma.registers REG_T0 = v ∧
      ma.registers REG_SP = m.registers REG_SP ∧ ma.pt = m.pt ∧
      (∀ x, m.registers REG_SP ≤ x →
        load_virtual_memory ma.memory ma.pt x = load_virtual_memory m.memory m.pt x) ∧
      (∀ i, i < 2 + (argument_pushes w_addi w_sw rest).length + after →
        load_virtual_memory ma.memory ma.pt (add32 ma.pc (4 * i)) =
          load_virtual_memory m.memory m.pt (add32 ma.pc (4 * i))) ∧
      ∀ mp, steps isw 2 ma = .ok mp →
        arguments_evaluated isw w_addi w_sw after rest vs mp
  | _, _, _ => False

/-! ## States for examples -/

/-- A machine state in which every word is zero. -/
def zero_machine : Machine :=
  { pc := 0, ir := 0, opcode := 0, rs1 := 0, rs2 := 0, rd := 0, imm := 0, funct3 := 0,
    funct7 := 0, registers := fun _ => 0, pt := fun _ => 0, memory := fun _ => 0, timer := 0,
    trap := 0, current_context := 0, context_pc := 0, exception := 0, faulting_page := 0,
    exit_code := 0, parent := 0, execute := 0, record := 0, redo := 0, symbolic := 0,
    values := fun _ => 0, tc := 0, entry_point := 0, ic_lui := 0, ic_addi := 0, ic_add := 0,
    ic_sub := 0, ic_mul := 0, ic_divu := 0, ic_remu := 0, ic_sltu := 0, ic_lw := 0, ic_sw := 0,
    ic_beq := 0, ic_jal := 0, ic_jalr := 0, ic_ecall := 0, calls := 0, iterations := 0,
    calls_per_procedure := fun _ => 0, iterations_per_loop := fun _ => 0,
    loads_per_instruction := fun _ => 0, stores_per_instruction := fun _ => 0,
    debug := 0, undo := 0, disassemble := 0, pcs := fun _ => 0, program_break := 0,
    engine :=
      { tcs := fun _ => 0, types := fun _ => 0, los := fun _ => 0, ups := fun _ => 0,
        vaddrs := fun _ => 0, reg_typ := fun _ => 0, reg_los := fun _ => 0,
        reg_ups := fun _ => 0, reg_hasco := fun _ => 0, reg_vaddr := fun _ => 0,
        reg_hasmn := fun _ => 0, reg_colos := fun _ => 0, reg_coups := fun _ => 0, mrcc := 0 },
    frames :=
      { page_frame_memory := 0, free_page_frame_memory := 0,
        allocated_page_frame_memory := 0, next_page_frame := 0 } }

/-- A kernel whose parameters do nothing; page faults are handled by continuing. -/
def idle_kernel : Kernel :=
  { implement_switch := fun m => .ok m,
    switch_context := fun m _ _ => .ok m,
    save_shadow := fun m => .ok m,
    implement_read := fun m => .ok m,
    implement_write := fun m => .ok m,
    implement_open := fun m => .ok m,
    implement_exit := fun m => .ok m,
    handle_page_fault := fun m => .ok (DONOTEXIT, m) }

/-- The state of the emulator when `mipster` is entered with a loaded binary whose
first instruction word is `0x00000000`: the context is a boot-level context
(`parent == MY_CONTEXT`) at address 4096 without pending exception, its `pc` is the
entry point `0x10000`, page 16 is mapped to the frame at host address 8192, which
is all zero, and `execute` is set. -/
def unknown_opcode_machine : Machine :=
  { zero_machine with
    current_context := 4096, context_pc := 65536, entry_point := 65536, execute := 1,
    pt := fun page => if page = 16 then 8192 else 0 }

/-- The state in which `handle_exception` is entered after the first instruction
of a binary, `divu t0,t0,t1` at `0x10000` with `t1 = 0`, has been recorded and
executed while recording (`debug` and `record` set): the trace holds that one
instruction, and the context has the exception DIVISIONBYZERO pending. -/
def recorded_division_machine : Machine :=
  { zero_machine with
    pc := 65536, context_pc := 65536, entry_point := 65536, current_context := 4096,
    execute := 1, debug := 1, record := 1, exception := EXCEPTION_DIVISIONBYZERO,
    tc := 1, pcs := fun i => if i = 0 then 65536 else 0,
    pt := fun page => if page = 16 then 8192 else 0,
    memory := fun a => if a = 8192 then encode_r_format F7_DIVU 6 5 F3_DIVU 5 OP_OP else 0 }

/-- A host file of which `bytes_left` bytes are left: `read` returns as many bytes
as asked for while they last (the data is not modelled, the memory stays). -/
def file_read (bytes_left _fd _buffer n : Nat) (memory : Nat → Nat) : Nat × (Nat → Nat) × Nat :=
  (min n bytes_left, memory, bytes_left - min n bytes_left)

/-- A context that asks to read 6 bytes to address `0x10000`, on a mapped page. -/
def reading_machine : Machine :=
  { zero_machine with registers := fun r => if r = 11 then 65536 else if r = 12 then 6 else 0,
                      pt := fun page => if page = 16 then 8192 else 0 }

/-- The scanner on the source `source` after `reset_scanner`: line 1, no character
counted, the first character read. -/
def scanner_on (source : List Nat) : Scanner :=
  get_character
    { character := 0, source := source, line_number := 1, symbol := SYM_EOF, literal := 0,
      identifier := [], integer := [], string := [], integer_is_signed := 0,
      number_of_read_characters := 0, number_of_ignored_characters := 0,
      number_of_comments := 0, number_of_scanned_symbols := 0 }

/-- The four bytes of a word, least significant first. -/
def word_bytes (w : Nat) : List Nat :=
  [w % 256, w / 256 % 256, w / 65536 % 256, w / 16777216 % 256]

/-- The array `buffer` after the bytes `bytes` have been stored from byte offset
`offset` on, four bytes to a word, least significant first. -/
def store_bytes (buffer : Nat → Nat) : List Nat → Nat → Nat → Nat
  | [], _ => buffer
  | b :: rest, offset =>
    let shift := 256 ^ (offset % 4)
    let old := buffer (offset / 4)
    store_bytes
      (fun i => if i = offset / 4 then old - old / shift % 256 * shift + b * shift else buffer i)
      rest (offset + 1)

/-- A host whose only file holds the bytes `file` that are still to read: `read`
transfers as many bytes as asked for while they last. -/
def bytes_read (file : List Nat) (_fd : Nat) (buffer : Nat → Nat) (n : Nat) :
    Nat × (Nat → Nat) × List Nat :=
  ((file.take n).length, store_bytes buffer (file.take n) 0, file.drop n)

/-- The bytes of a binary file: the ELF header for `binary_length`, the word
`code_length` and the bytes `code_and_data`. -/
def binary_file (binary_length code_length : Nat) (code_and_data : List Nat) : List Nat :=
  (List.range 21).flatMap (fun i => word_bytes (create_elf_header binary_length i)) ++
    word_bytes code_length ++ code_and_data

def empty_loader : Loader :=
  { binary := fun _ => 0, binary_length := 0, code_length := 0, entry_point := 0,
    ELF_header := fun _ => 0, binary_buffer := fun _ => 0 }

/-- A code generator that has compiled the two operands of a comparison into the
first two temporaries, at the start of an empty binary. -/
def two_operands_compiler : Compiler :=
  { binary := fun _ => 0, binary_length := 0, code_line_number := fun _ => 0,
    line_number := 1, allocated_temporaries := 2, ic_addi := 0, ic_sub := 0, ic_sltu := 0,
    ic_add := 0, ic_remu := 0, ic_lw := 0, ic_sw := 0, ic_beq := 0, ic_jalr := 0,
    ic_ecall := 0, allocated_memory := 0, ic_lui := 0, ic_mul := 0, ic_divu := 0, ic_jal := 0 }

/-- The binary of a compilation result; all zero when compilation failed. -/
def binary_of (r : Except Nat Compiler) : Nat → Nat :=
  match r with
  | .ok c => c.binary
  | .error _ => fun _ => 0

/-- A machine that has the code emitted for `==` by `two_operands_compiler` loaded
at address 0 (every page on frame 0), `pc = 0`, and the word 7 in both operand
registers `t0` and `t1`. -/
def loaded_equality_machine : Machine :=
  { zero_machine with registers := fun r => if r = 5 then 7 else if r = 6 then 7 else 0,
                      memory := fun a =>
                        binary_of (compile_comparison SYM_EQUALITY two_operands_compiler) (a / 4) }

/-- A code generator at the start of an empty binary, without temporaries and
without global variables. -/
def empty_compiler : Compiler :=
  { binary := fun _ => 0, binary_length := 0, code_line_number := fun _ => 0,
    line_number := 1, allocated_temporaries := 0, ic_addi := 0, ic_sub := 0, ic_sltu := 0,
    ic_add := 0, ic_remu := 0, ic_lw := 0, ic_sw := 0, ic_beq := 0, ic_jalr := 0,
    ic_ecall := 0, allocated_memory := 0, ic_lui := 0, ic_mul := 0, ic_divu := 0, ic_jal := 0 }

/-- A boot-level context about to execute the call `malloc(size)`.  The 18
instructions that `emit_malloc` emits into the empty binary are loaded at the entry
point `0x10000`, where `pc` is; `ra` is `0x10100`; the argument `size` is on top of
the stack at `sp = 0x7FFFF000`; `gp` is `0x11000`, so that `_bump` is the word at
`0x10FFC`; `_bump` and the program break are both `0x12000` (73728).  Every page
`p` is mapped to the frame at host address `4096 * (p + 256)`, no exception is
pending and the timer is at `TIMESLICE`. -/
def malloc_machine (size : Nat) : Machine :=
  { zero_machine with
      pc := 65536, entry_point := 65536, context_pc := 65536, current_context := 4096,
      execute := 1, timer := TIMESLICE, program_break := 73728,
      registers := fun r =>
        if r = REG_RA then 65792 else if r = REG_SP then 2147479552
        else if r = REG_GP then 69632 else 0,
      pt := fun page => 4096 * (page + 256),
      memory := fun a =>
        if a = 1048576 + 2147479552 then size
        else if a = 1048576 + 69628 then 73728
        else if 1048576 + 65536 ≤ a ∧ a < 1048576 + 65536 + 72 then
          binary_of (emit_malloc empty_compiler) ((a - (1048576 + 65536)) / 4)
        else 0 }

/-- The name `x` in zeroed memory: the bytes `x`, 0, 0, 0. -/
def name_x : Nat → Nat := fun i => if i = 0 then 120 else 0

/-- The name `x` in memory that is not zeroed: the bytes `x`, 0, 1, 0. -/
def name_x_unpadded : Nat → Nat := fun i => if i = 0 then 65656 else 0

/-- The tables after the declaration of a global variable `x` (at `gp - 4`) and of a
local variable `x` (at `fp - 4`). -/
def tables_with_x : SymbolTables :=
  create_symbol_table_entry
    (create_symbol_table_entry reset_symbol_tables GLOBAL_TABLE name_x 1 VARIABLE 0 0
      (neg32 4))
    LOCAL_TABLE name_x 2 VARIABLE 0 0 (neg32 4)

/-- The tables after the declaration of a global variable `x` at `gp - 4`. -/
def tables_with_global_x : SymbolTables :=
  create_symbol_table_entry reset_symbol_tables GLOBAL_TABLE name_x 1 VARIABLE 0 0 (neg32 4)

/-- An array of zero words. -/
def zeroed_memory : Nat → Nat := fun _ => 0

/-- The bytes of the source file `manuscript/code/countdown.c`. -/
def countdown_source : List Nat :=
  [47, 47, 32, 100, 101, 99, 108, 97, 114, 105, 110, 103, 32, 98, 97, 114, 32, 97, 115, 32, 97,
    32, 103, 108, 111, 98, 97, 108, 32, 118, 97, 114, 105, 97, 98, 108, 101, 32, 111, 102, 32,
    116, 121, 112, 101, 32, 117, 105, 110, 116, 51, 50, 95, 116, 32, 97, 110, 100, 10, 47, 47,
    32, 100, 101, 102, 105, 110, 105, 110, 103, 32, 116, 104, 101, 32, 100, 101, 99, 105, 109,
    97, 108, 32, 118, 97, 108, 117, 101, 32, 49, 48, 32, 97, 115, 32, 105, 110, 105, 116, 105,
    97, 108, 32, 118, 97, 108, 117, 101, 32, 111, 102, 32, 98, 97, 114, 10, 117, 105, 110, 116,
    51, 50, 95, 116, 32, 98, 97, 114, 32, 61, 32, 49, 48, 59, 10, 10, 47, 47, 32, 100, 101, 99,
    108, 97, 114, 105, 110, 103, 32, 109, 97, 105, 110, 32, 97, 115, 32, 97, 32, 112, 114, 111,
    99, 101, 100, 117, 114, 101, 32, 119, 105, 116, 104, 32, 110, 111, 32, 97, 114, 103, 117,
    109, 101, 110, 116, 115, 32, 97, 110, 100, 32, 114, 101, 116, 117, 114, 110, 32, 116, 121,
    112, 101, 32, 117, 105, 110, 116, 51, 50, 95, 116, 10, 117, 105, 110, 116, 51, 50, 95, 116,
    32, 109, 97, 105, 110, 40, 41, 32, 123, 10, 32, 32, 47, 47, 32, 100, 101, 102, 105, 110, 105,
    110, 103, 32, 109, 97, 105, 110, 32, 116, 111, 32, 98, 101, 32, 116, 104, 101, 32, 102, 111,
    108, 108, 111, 119, 105, 110, 103, 32, 99, 111, 100, 101, 10, 10, 32, 32, 47, 47, 32, 119,
    104, 105, 108, 101, 32, 98, 97, 114, 32, 105, 115, 32, 103, 114, 101, 97, 116, 101, 114, 32,
    116, 104, 97, 110, 32, 116, 104, 101, 32, 100, 101, 99, 105, 109, 97, 108, 32, 118, 97, 108,
    117, 101, 32, 48, 32, 46, 46, 46, 10, 32, 32, 47, 47, 32, 111, 116, 104, 101, 114, 119, 105,
    115, 101, 32, 99, 111, 110, 116, 105, 110, 117, 101, 32, 116, 111, 32, 116, 104, 101, 32,
    114, 101, 116, 117, 114, 110, 32, 115, 116, 97, 116, 101, 109, 101, 110, 116, 32, 98, 101,
    108, 111, 119, 10, 32, 32, 119, 104, 105, 108, 101, 32, 40, 98, 97, 114, 32, 62, 32, 48, 41,
    32, 123, 10, 32, 32, 32, 32, 47, 47, 32, 46, 46, 46, 32, 115, 117, 98, 116, 114, 97, 99, 116,
    32, 116, 104, 101, 32, 100, 101, 99, 105, 109, 97, 108, 32, 118, 97, 108, 117, 101, 32, 49,
    32, 102, 114, 111, 109, 32, 98, 97, 114, 32, 97, 110, 100, 32, 97, 115, 115, 105, 103, 110,
    32, 116, 104, 101, 32, 114, 101, 115, 117, 108, 116, 32, 116, 111, 32, 98, 97, 114, 10, 32,
    32, 32, 32, 98, 97, 114, 32, 61, 32, 98, 97, 114, 32, 45, 32, 49, 59, 10, 10, 32, 32, 32, 32,
    47, 47, 32, 103, 111, 32, 98, 97, 99, 107, 32, 116, 111, 32, 116, 104, 101, 32, 119, 104,
    105, 108, 101, 32, 115, 116, 97, 116, 101, 109, 101, 110, 116, 32, 97, 110, 100, 32, 99, 104,
    101, 99, 107, 32, 97, 103, 97, 105, 110, 10, 32, 32, 125, 10, 10, 32, 32, 47, 47, 32, 114,
    101, 116, 117, 114, 110, 32, 116, 104, 101, 32, 118, 97, 108, 117, 101, 32, 111, 102, 32, 98,
    97, 114, 32, 97, 115, 32, 116, 104, 101, 32, 114, 101, 115, 117, 108, 116, 32, 111, 102, 32,
    116, 104, 101, 32, 105, 110, 118, 111, 99, 97, 116, 105, 111, 110, 32, 111, 102, 32, 109, 97,
    105, 110, 10, 32, 32, 114, 101, 116, 117, 114, 110, 32, 98, 97, 114, 59, 10, 125, 10]

/-- The binary of a result of the compiler; all zero without a result. -/
def starc_binary_of (r : OptionT (Except Nat) Starc) : Nat → Nat :=
  match r.run with
  | .ok (some s) => s.compiler.binary
  | _ => fun _ => 0

/-- The state that a run of the compiler returns; the initial state without a
result. -/
def starc_of (r : OptionT (Except Nat) Starc) : Starc :=
  match r.run with
  | .ok (some s) => s
  | _ => initial_starc

/-- A machine that has the code that `load_integer` emits for `2^31 - 1` in the
initial state of the compiler loaded at address 0 (every page on frame 0),
`pc = 0`, and zeroed registers. -/
def loaded_integer_machine : Machine :=
  { zero_machine with
    memory := fun a => starc_binary_of (load_integer 0 initial_starc 2147483647) (a / 4) }

/-- The state of the compiler when only the library has been generated. -/
def library_starc : Starc := starc_of (liftM selfie_compile_library)

/-- The state of the compiler when `countdown.c` has been compiled, before
`emit_bootstrapping`. -/
def countdown_starc : Starc :=
  starc_of (liftM selfie_compile_library >>= compile_sources 1000 [countdown_source])

/-- The decimal digits of `n` as characters, most significant first (at most `fuel`
of them). -/
def decimal_characters : Nat → Nat → List Nat
  | 0, _ => []
  | fuel + 1, n =>
    if n < 10 then [48 + n] else decimal_characters fuel (n / 10) ++ [48 + n % 10]

/-- What `compile_cstar` does to the symbol table and to `allocated_memory` for the
`n` declarations `uint32_t g1; ... uint32_t g<n>;` of global variables that are not
yet declared: for each, `allocated_memory` grows by `REGISTERSIZE` and an entry with
the address `-allocated_memory` is created. -/
def declare_globals : Nat → Starc → Starc
  | 0, s => s
  | n + 1, s =>
    let s := declare_globals n s
    let allocated_memory := add32 s.compiler.allocated_memory REGISTERSIZE
    { s with
        compiler := { s.compiler with allocated_memory := allocated_memory },
        tables := create_symbol_table_entry s.tables GLOBAL_TABLE
          (string_words (103 :: decimal_characters 10 (n + 1))) 1 VARIABLE UINT32_T 0
          (neg32 allocated_memory) }

/-- The state in which `emit_data_segment` is called for a program that consists of
4096 declarations of global variables: the code is that of the library, and the
global table holds `_bump`, `main` and the 4096 variables. -/
def many_globals_starc : Starc :=
  declare_globals 4096 (starc_of (emit_bootstrapping 100 library_starc))

/-- A machine in symbolic mode about to execute `lw t0,2(t1)` or `sw t0,2(t1)`: the
base register `t1` holds the concrete value `65536` (type 0, bounds `65536` and
`65536`), page 16 is mapped to the frame at 8192, and the trace is empty. -/
def misaligned_access_machine : Machine :=
  { zero_machine with
    pc := 65536, entry_point := 65536, symbolic := 1, execute := 1, debug := 1,
    rs1 := 6, rs2 := 5, rd := 5, imm := 2,
    registers := fun r => if r = 6 then 65536 else 0,
    pt := fun p => if p = 16 then 8192 else 0,
    engine := { zero_machine.engine with
      reg_los := fun r => if r = 6 then 65536 else 0,
      reg_ups := fun r => if r = 6 then 65536 else 0 } }

/-- The same machine with the base register at `2^31 - 4` and the immediate 4, so
that `vaddr` is `2^31`. -/
def out_of_range_access_machine : Machine :=
  { zero_machine with
    pc := 65536, entry_point := 65536, symbolic := 1, execute := 1, debug := 1,
    rs1 := 6, rs2 := 5, rd := 5, imm := 4,
    registers := fun r => if r = 6 then 2147483644 else 0,
    pt := fun p => if p = 16 then 8192 else 0,
    engine := { zero_machine.engine with
      reg_los := fun r => if r = 6 then 2147483644 else 0,
      reg_ups := fun r => if r = 6 then 2147483644 else 0 } }

/-- A host whose allocator returns the address `4096` for the context and the
addresses `16 MiB + 16 + n` for the megabytes of page frames (so that a page frame
is lost to alignment). -/
def example_host : Host :=
  { context := 4096, block := fun n => 16777232 + n }

/-- The characters of the name `countdown.c`. -/
def countdown_name : List Nat := [99, 111, 117, 110, 116, 100, 111, 119, 110, 46, 99]

/-- The text of the program
`uint32_t f(uint32_t a, uint32_t b) { return a; } uint32_t main() { return f(1, 2); }`. -/
def two_arguments_source : List Nat :=
  [117, 105, 110, 116, 51, 50, 95, 116, 32, 102, 40, 117, 105, 110, 116, 51, 50, 95, 116, 32,
    97, 44, 32, 117, 105, 110, 116, 51, 50, 95, 116, 32, 98, 41, 32, 123, 10, 32, 32, 114, 101,
    116, 117, 114, 110, 32, 97, 59, 10, 125, 10, 117, 105, 110, 116, 51, 50, 95, 116, 32, 109,
    97, 105, 110, 40, 41, 32, 123, 10, 32, 32, 114, 101, 116, 117, 114, 110, 32, 102, 40, 49,
    44, 32, 50, 41, 59, 10, 125, 10]

/-- The same program with the call `f(1, 2, 3)`. -/
def three_arguments_source : List Nat :=
  [117, 105, 110, 116, 51, 50, 95, 116, 32, 102, 40, 117, 105, 110, 116, 51, 50, 95, 116, 32,
    97, 44, 32, 117, 105, 110, 116, 51, 50, 95, 116, 32, 98, 41, 32, 123, 10, 32, 32, 114, 101,
    116, 117, 114, 110, 32, 97, 59, 10, 125, 10, 117, 105, 110, 116, 51, 50, 95, 116, 32, 109,
    97, 105, 110, 40, 41, 32, 123, 10, 32, 32, 114, 101, 116, 117, 114, 110, 32, 102, 40, 49,
    44, 32, 50, 44, 32, 51, 41, 59, 10, 125, 10]

/-- The machine on which `mipster` starts the binary compiled from the text
`source`: the binary and the argument `countdown.c` are loaded on `example_host`,
and the first `do_switch` has been done.  The zeroed machine when compilation or
loading fails. -/
def started_machine (source : List Nat) : Machine :=
  match (selfie_compile 1000 [source] >>= fun s =>
      selfie_run_boot example_host 1000 s zero_machine 1 [string_words countdown_name]).run with
  | .ok (some m) =>
    match do_switch (boot_kernel example_host idle_kernel) m m.current_context TIMESLICE with
    | .ok m => m
    | .error _ => zero_machine
  | _ => zero_machine

/-- The machine after the first `n` instructions of the binary compiled from
`source`; the zeroed machine when the run fails or has ended. -/
def machine_after (source : List Nat) (n : Nat) : Machine :=
  match mipster_steps (boot_kernel example_host idle_kernel) n (started_machine source) with
  | .ok (.inr m) => m
  | _ => zero_machine


/-- The registers `pc`, `sp` and `ra` of the machine `m` and the three words on top
of its stack, at `sp`, `sp + 4` and `sp + 8`. -/
def show_call (m : Machine) : List Nat :=
  [m.pc, m.registers REG_SP, m.registers REG_RA,
   load_virtual_memory m.memory m.pt (m.registers REG_SP),
   load_virtual_memory m.memory m.pt (m.registers REG_SP + 4),
   load_virtual_memory m.memory m.pt (m.registers REG_SP + 8)]

/-- A machine in which `open` is called with the misaligned address `65537` in
`a0`; page 16 is mapped. -/
def open_misaligned_machine : Machine :=
  { zero_machine with
    registers := fun r => if r = 10 then 65537 else 0,
    pt := fun p => if p = 16 then 8192 else 0 }

/-- A machine in which `open` is called with the address `65536` of the name `x`
in `a0`; page 16 is mapped to the frame at 8192. -/
def open_name_machine : Machine :=
  { zero_machine with
    registers := fun r => if r = 10 then 65536 else 0,
    pt := fun p => if p = 16 then 8192 else 0,
    memory := fun a => if a = 8192 then 120 else 0 }

/-- A machine in symbolic execution at an instruction with `rd = t0`, `rs1 = t1`,
`rs2 = t2`, where `t1` holds the wrapped interval `[2^32 - 6, 5]` and `t2` the
interval `[10, 20]`, both without a constraint. -/
def interval_operands_machine : Machine :=
  { zero_machine with
    rd := 5, rs1 := 6, rs2 := 7, symbolic := 1,
    engine := { zero_machine.engine with
      reg_los := fun r => if r = 6 then 4294967290 else if r = 7 then 10 else 0,
      reg_ups := fun r => if r = 6 then 5 else if r = 7 then 20 else 0 } }

/-- A machine in symbolic execution at an instruction with `rd = t0`, `rs1 = t1`,
`rs2 = t2`, where `t1` holds the interval `[0, 2]` and `t2` the single value
`3 * 2^30`, both without a constraint. -/
def product_operands_machine : Machine :=
  { zero_machine with
    rd := 5, rs1 := 6, rs2 := 7, symbolic := 1,
    engine := { zero_machine.engine with
      reg_los := fun r => if r = 7 then 3221225472 else 0,
      reg_ups := fun r => if r = 6 then 2 else if r = 7 then 3221225472 else 0 } }

/-- A machine in symbolic execution with `tc = 5` at `pc = 65540`, page 16 mapped
to the frame at 8192, where the slot of the address `65536` holds the trace index 3,
and entry 3 of the trace holds the value 7 with the interval `[7, 7]`. -/
def symbolic_store_machine : Machine :=
  { zero_machine with
    pc := 65540, symbolic := 1, tc := 5,
    pt := fun p => if p = 16 then 8192 else 0,
    memory := fun a => if a = 8192 then 3 else 0,
    values := fun i => if i = 3 then 7 else 0,
    engine := { zero_machine.engine with
      los := fun i => if i = 3 then 7 else 0,
      ups := fun i => if i = 3 then 7 else 0,
      vaddrs := fun i => if i = 3 then 65536 else 0 } }

/-- A machine in symbolic execution at `sltu t0,t1,t2` with `tc = 5` and
`mrcc = 2`: `t1` holds the interval `[0, 10]` and the constraint that it is the
value at the address `65536`, whose slot holds the trace index 3, and `t2` holds
the single value 5.  Page 16 is mapped to the frame at 8192, the program break is
`70000`, `fp` and `sp` are `2147483600` and `2147483000`. -/
def sltu_split_machine : Machine :=
  { zero_machine with
    pc := 65540, symbolic := 1, tc := 5, rd := 5, rs1 := 6, rs2 := 7,
    program_break := 70000,
    registers := fun r => if r = 8 then 2147483600 else if r = 2 then 2147483000 else 0,
    pt := fun p => if p = 16 then 8192 else 0,
    memory := fun a => if a = 8192 then 3 else 0,
    values := fun i => if i = 3 then 7 else 0,
    engine := { zero_machine.engine with
      mrcc := 2,
      los := fun _ => 0,
      ups := fun i => if i = 3 then 10 else 0,
      vaddrs := fun i => if i = 3 then 65536 else 0,
      reg_los := fun r => if r = 7 then 5 else 0,
      reg_ups := fun r => if r = 6 then 10 else if r = 7 then 5 else 0,
      reg_hasco := fun r => if r = 6 then 1 else 0,
      reg_vaddr := fun r => if r = 6 then 65536 else 0 } }

/-- An emitter state with the three calls `jal ra,0`, `jal ra,8` and `jal ra,16` of
a procedure that is not yet defined at the code addresses 8, 16 and 28. -/
def chained_calls_compiler : Compiler :=
  { empty_compiler with
    binary := fun i =>
      if i = 2 then 239 else if i = 4 then 8388847 else if i = 7 then 16777455 else 0,
    binary_length := 40 }

/-- The registers `pc`, `sp`, `ra` and `fp` of the machine `m`. -/
def show_frame (m : Machine) : List Nat :=
  [m.pc, m.registers REG_SP, m.registers REG_RA, m.registers REG_FP]

/-- The state of the emulator when a boot-level context starts, while recording
(`debug`, `record` and `execute` set, the timer at `TIMESLICE`), a binary loaded at
`0x10000` (page 16, mapped to the frame at host address 8192) that begins with the
five instructions

    0x10000: lui  t1,0x10       (0x00010337)
    0x10004: add  t0,t0,t1      (0x006282B3)
    0x10008: lw   t2,0(t0)      (0x0002A383)
    0x1000C: sw   zero,12(t1)   (0x00032623)
    0x10010: divu t2,t2,zero    (0x0203D3B3)

The store overwrites its own instruction word with 0, the division divides by the
register `zero`. -/
def self_overwriting_machine : Machine :=
  { zero_machine with
    pc := 65536, context_pc := 65536, entry_point := 65536, current_context := 4096,
    execute := 1, debug := 1, record := 1, timer := TIMESLICE,
    pt := fun page => if page = 16 then 8192 else 0,
    memory := fun a =>
      if a = 8192 then 66359
      else if a = 8196 then 6455987
      else if a = 8200 then 172931
      else if a = 8204 then 206371
      else if a = 8208 then 33805235
      else 0 }

/-- The state in which `handle_exception` is entered for the binary of
`self_overwriting_machine`: the state after its five instructions have run while
recording, with the exception DIVISIONBYZERO pending (the zeroed machine if the run
had ended the emulator). -/
def self_overwritten_machine : Machine :=
  match steps_with_debug idle_kernel.implement_switch 5 self_overwriting_machine with
  | .ok m => m
  | .error _ => zero_machine

/-- The name `f` of the procedure called in the examples. -/
def f_name : Nat → Nat := string_words [102]

/-- The state of the compiler at the arguments of a call of `f`: the library has
been generated, and the scanner has read the first symbol of the remaining text
`1, 2)`. -/
def call_starc : Starc :=
  starc_of (parser_get_symbol 1000
    { library_starc with scanner := reset_scanner [49, 44, 32, 50, 41] library_starc.scanner })

/-- The state after the first argument of `call_starc` has been compiled. -/
def first_compiled_starc : Starc :=
  starc_of (compile_expression 1000 call_starc >>= fun r => pure r.2)

/-- The state after the first argument has been pushed and the comma has been
consumed. -/
def second_starc : Starc :=
  starc_of (parser_get_symbol 999 (after_push first_compiled_starc))

/-- The state after the second argument has been compiled. -/
def second_compiled_starc : Starc :=
  starc_of (compile_expression 1000 second_starc >>= fun r => pure r.2)

/-- The state after the second argument has been pushed and `)` has been consumed. -/
def call_end_starc : Starc :=
  starc_of (parser_get_symbol 1000 (after_push second_compiled_starc))

/-- The state after the `jal` of the call has been emitted. -/
def call_done_starc : Starc :=
  match help_call_codegen call_end_starc none f_name with
  | .ok r => r.2
  | .error _ => call_end_starc

/-- The state of the compiler at the parameter list of a definition of `f`: the
library has been generated, and the scanner has read the first symbol of the
remaining text `(uint32_t a, uint32_t b) { return a; }`. -/
def procedure_starc : Starc :=
  starc_of (parser_get_symbol 1000
    { library_starc with
        scanner := reset_scanner
          [40, 117, 105, 110, 116, 51, 50, 95, 116, 32, 97, 44, 32, 117, 105, 110, 116, 51, 50,
            95, 116, 32, 98, 41, 32, 123, 32, 114, 101, 116, 117, 114, 110, 32, 97, 59, 32, 125]
          library_starc.scanner })

/-- The state after `compile_procedure` has compiled the definition of `f` from
`procedure_starc` on. -/
def procedure_done_starc : Starc :=
  starc_of (compile_procedure 1000 procedure_starc f_name UINT32_T)

/-- The state after `(` of `procedure_starc` has been consumed. -/
def parameters_starc : Starc := starc_of (parser_get_symbol 1000 procedure_starc)

/-- A machine that is about to run the code of the call that `call_done_starc`
holds: the binary is in the frame at host address 8192, to which page 16 (virtual
address `0x10000`) is mapped, `pc` is at the code of the first argument, and the
stack pointer is `0x7FFFFFF8` on page 524287, which is mapped to the frame at
16384. -/
def call_machine : Machine :=
  { zero_machine with
    pc := 65536 + 308,
    registers := fun r => if r = REG_SP then 2147483640 else 0,
    pt := fun page => if page = 16 then 8192 else if page = 524287 then 16384 else 0,
    memory := fun a =>
      if 8192 ≤ a ∧ a < 12288 then call_done_starc.compiler.binary ((a - 8192) / 4) else 0 }

/-- The machine `call_machine` after its next `n` instructions. -/
def call_machine_after (n : Nat) : Machine :=
  match steps (fun m => .ok m) n call_machine with
  | .ok m => m
  | .error _ => zero_machine

/-! ## Basic facts about the library -/

theorem two_to_the_power_of_eq : ∀ p, p < 32 → two_to_the_power_of p = 2 ^ p := by
  decide

theorem get_bits_pos (n i b : Nat) (hi : i ≠ 0) (hib : i + b ≤ 32) (hb : 0 < b) :
    get_bits n i b = (n * 2 ^ (32 - (i + b))) % 4294967296 / 2 ^ (32 - b) := by
  have h1 : sub32 CPUBITWIDTH (add32 i b) = 32 - (i + b) := by
    unfold sub32 add32 CPUBITWIDTH; omega
  have h2 : sub32 CPUBITWIDTH b = 32 - b := by
    unfold sub32 CPUBITWIDTH; omega
  unfold get_bits
  rw [if_neg hi, h1, h2]
  unfold right_shift left_shift mul32
  rw [two_to_the_power_of_eq _ (by omega), two_to_the_power_of_eq _ (by omega)]

theorem get_bits_zero (n b : Nat) (hb : b < 32) : get_bits n 0 b = n % 2 ^ b := by
  unfold get_bits
  rw [if_pos rfl, two_to_the_power_of_eq _ hb]

theorem left_shift_eq (n b : Nat) (hb : b < 32) :
    left_shift n b = (n * 2 ^ b) % 4294967296 := by
  unfold left_shift mul32
  rw [two_to_the_power_of_eq _ hb]

theorem right_shift_eq (n b : Nat) (hb : b < 32) : right_shift n b = n / 2 ^ b := by
  unfold right_shift
  rw [two_to_the_power_of_eq _ hb]

theorem is_signed_integer_eq (n b : Nat) (hb : 0 < b) (hb32 : b ≤ 32) :
    is_signed_integer n b =
      if n < 2 ^ (b - 1) ∨ 4294967296 - 2 ^ (b - 1) ≤ n then 1 else 0 := by
  have h1 : sub32 b 1 = b - 1 := by unfold sub32; omega
  have hlt : (2 : Nat) ^ (b - 1) < 4294967296 := by
    calc (2 : Nat) ^ (b - 1) < 2 ^ 32 := Nat.pow_lt_pow_right (by decide) (by omega)
      _ = 4294967296 := by norm_num
  have hpos : 0 < (2 : Nat) ^ (b - 1) := Nat.two_pow_pos _
  unfold is_signed_integer
  rw [h1, two_to_the_power_of_eq _ (by omega)]
  have h2 : neg32 (2 ^ (b - 1)) = 4294967296 - 2 ^ (b - 1) := by unfold neg32; omega
  rw [h2]
  by_cases c1 : n < 2 ^ (b - 1)
  · simp [c1]
  · by_cases c2 : 4294967296 - 2 ^ (b - 1) ≤ n
    · simp [c1, c2]
    · simp [c1, c2]

theorem in_signed_range_iff (w b : Nat) (hb : 0 < b) (hb32 : b ≤ 32) :
    in_signed_range w b ↔
      w < 4294967296 ∧ (w < 2 ^ (b - 1) ∨ 4294967296 - 2 ^ (b - 1) ≤ w) := by
  have hle : (2 : Nat) ^ (b - 1) ≤ 2147483648 := by
    calc (2 : Nat) ^ (b - 1) ≤ 2 ^ 31 := Nat.pow_le_pow_right (by decide) (by omega)
      _ = 2147483648 := by norm_num
  have hpos : 0 < (2 : Nat) ^ (b - 1) := Nat.two_pow_pos _
  have hc : ((2 : Int) ^ (b - 1)) = (((2 : Nat) ^ (b - 1) : Nat) : Int) := by push_cast; rfl
  unfold in_signed_range signed_value
  rw [hc]
  generalize (2 : Nat) ^ (b - 1) = k at *
  split <;> omega

theorem check_immediate_range_ok (imm b : Nat) (hb : 0 < b) (hb32 : b ≤ 32)
    (h : in_signed_range imm b) : check_immediate_range imm b = .ok () := by
  have h' := (in_signed_range_iff imm b hb hb32).1 h
  unfold check_immediate_range
  rw [is_signed_integer_eq imm b hb hb32, if_pos h'.2]
  simp

theorem check_immediate_range_error (imm b : Nat) (hb : 0 < b) (hb32 : b ≤ 32)
    (h32 : imm < 4294967296) (h : ¬ in_signed_range imm b) :
    check_immediate_range imm b = .error EXITCODE_COMPILERERROR := by
  have h' : ¬ (imm < 2 ^ (b - 1) ∨ 4294967296 - 2 ^ (b - 1) ≤ imm) := by
    intro hc
    exact h ((in_signed_range_iff imm b hb hb32).2 ⟨h32, hc⟩)
  unfold check_immediate_range
  rw [is_signed_integer_eq imm b hb hb32, if_neg h']
  simp

theorem sign_extend_eq (n b : Nat) (hb : 0 < b) (hb32 : b < 32) :
    sign_extend n b =
      if n < 2 ^ (b - 1) then n else (n + (4294967296 - 2 ^ b)) % 4294967296 := by
  have h1 : sub32 b 1 = b - 1 := by unfold sub32; omega
  have hlt : (2 : Nat) ^ b < 4294967296 := by
    calc (2 : Nat) ^ b < 2 ^ 32 := Nat.pow_lt_pow_right (by decide) (by omega)
      _ = 4294967296 := by norm_num
  unfold sign_extend
  rw [h1, two_to_the_power_of_eq _ (by omega), two_to_the_power_of_eq _ (by omega)]
  unfold sub32
  rw [Nat.mod_eq_of_lt hlt]

/-! ## Results of the encoders on immediates in and out of range -/

theorem encode_i_format_ok (imm rs1 funct3 rd opcode : Nat) (hi : in_signed_range imm 12) :
    encode_i_format imm rs1 funct3 rd opcode =
      .ok (add32 (left_shift (add32 (left_shift (add32 (left_shift
        (add32 (left_shift (sign_shrink imm 12) 5) rs1) 3) funct3) 5) rd) 7) opcode) := by
  unfold encode_i_format
  rw [check_immediate_range_ok imm 12 (by decide) (by decide) hi]
  rfl

theorem encode_s_format_ok (imm rs2 rs1 funct3 opcode : Nat) (hi : in_signed_range imm 12) :
    encode_s_format imm rs2 rs1 funct3 opcode =
      .ok (add32 (left_shift (add32 (left_shift (add32 (left_shift (add32 (left_shift
        (add32 (left_shift (get_bits (sign_shrink imm 12) 5 7) 5) rs2) 5) rs1) 3) funct3) 5)
          (get_bits (sign_shrink imm 12) 0 5)) 7) opcode) := by
  unfold encode_s_format
  rw [check_immediate_range_ok imm 12 (by decide) (by decide) hi]
  rfl

theorem encode_b_format_ok (imm rs2 rs1 funct3 opcode : Nat) (hi : in_signed_range imm 13) :
    encode_b_format imm rs2 rs1 funct3 opcode =
      .ok (add32 (left_shift (add32 (left_shift (add32 (left_shift (add32 (left_shift
        (add32 (left_shift (add32 (left_shift (add32 (left_shift
          (get_bits (sign_shrink imm 13) 12 1) 6) (get_bits (sign_shrink imm 13) 5 6)) 5) rs2) 5)
            rs1) 3) funct3) 4) (get_bits (sign_shrink imm 13) 1 4)) 1)
              (get_bits (sign_shrink imm 13) 11 1)) 7) opcode) := by
  unfold encode_b_format
  rw [check_immediate_range_ok imm 13 (by decide) (by decide) hi]
  rfl

theorem encode_j_format_ok (imm rd opcode : Nat) (hi : in_signed_range imm 21) :
    encode_j_format imm rd opcode =
      .ok (add32 (left_shift (add32 (left_shift (add32 (left_shift (add32 (left_shift
        (add32 (left_shift (get_bits (sign_shrink imm 21) 20 1) 10)
          (get_bits (sign_shrink imm 21) 1 10)) 1) (get_bits (sign_shrink imm 21) 11 1)) 8)
            (get_bits (sign_shrink imm 21) 12 8)) 5) rd) 7) opcode) := by
  unfold encode_j_format
  rw [check_immediate_range_ok imm 21 (by decide) (by decide) hi]
  rfl

theorem encode_u_format_ok (imm rd opcode : Nat) (hi : in_signed_range imm 20) :
    encode_u_format imm rd opcode =
      .ok (add32 (left_shift (add32 (left_shift (sign_shrink imm 20) 5) rd) 7) opcode) := by
  unfold encode_u_format
  rw [check_immediate_range_ok imm 20 (by decide) (by decide) hi]
  rfl

/-! ## Round trips of the encoder and the decoder -/

theorem get_bits_eq (n i b : Nat) (hib : i + b ≤ 32) (hb : 0 < b) (hb32 : b < 32) :
    get_bits n i b = n / 2 ^ i % 2 ^ b := by
  by_cases hi : i = 0
  · subst hi
    rw [get_bits_zero n b hb32]
    simp
  · rw [get_bits_pos n i b hi hib hb]
    have h32 : (4294967296 : Nat) = 2 ^ (i + b) * 2 ^ (32 - (i + b)) := by
      rw [← pow_add]
      have : i + b + (32 - (i + b)) = 32 := by omega
      rw [this]
      norm_num
    have h2 : (2 : Nat) ^ (32 - b) = 2 ^ (32 - (i + b)) * 2 ^ i := by
      rw [← pow_add]
      congr 1
      omega
    rw [h32, Nat.mul_mod_mul_right, h2, Nat.mul_comm (n % 2 ^ (i + b)),
      Nat.mul_div_mul_left _ _ (Nat.two_pow_pos _), pow_add, Nat.mod_mul_right_div_self]

theorem pack_field (x y b : Nat) (hb : b < 32) (hy : y < 2 ^ b)
    (hx : x * 2 ^ b + 2 ^ b ≤ 4294967296) :
    add32 (left_shift x b) y = x * 2 ^ b + y := by
  rw [left_shift_eq x b hb]
  unfold add32
  generalize x * 2 ^ b = q at *
  generalize 2 ^ b = p at *
  omega

theorem get_funct7_eq (w : Nat) : get_funct7 w = w / 33554432 % 128 := by
  unfold get_funct7
  rw [get_bits_eq w 25 7 (by decide) (by decide) (by decide)]
  simp only [Nat.reducePow]

theorem get_rs2_eq (w : Nat) : get_rs2 w = w / 1048576 % 32 := by
  unfold get_rs2
  rw [get_bits_eq w 20 5 (by decide) (by decide) (by decide)]
  simp only [Nat.reducePow]

theorem get_rs1_eq (w : Nat) : get_rs1 w = w / 32768 % 32 := by
  unfold get_rs1
  rw [get_bits_eq w 15 5 (by decide) (by decide) (by decide)]
  simp only [Nat.reducePow]

theorem get_funct3_eq (w : Nat) : get_funct3 w = w / 4096 % 8 := by
  unfold get_funct3
  rw [get_bits_eq w 12 3 (by decide) (by decide) (by decide)]
  simp only [Nat.reducePow]

theorem get_rd_eq (w : Nat) : get_rd w = w / 128 % 32 := by
  unfold get_rd
  rw [get_bits_eq w 7 5 (by decide) (by decide) (by decide)]
  simp only [Nat.reducePow]

theorem get_opcode_eq (w : Nat) : get_opcode w = w % 128 := by
  unfold get_opcode
  rw [get_bits_zero w 7 (by decide)]
  simp only [Nat.reducePow]

/-- The word that `encode_b_format` assembles, as a sum of its fields. -/
theorem b_word_eq (m rs2 rs1 funct3 opcode : Nat) (h2 : rs2 < 32) (h1 : rs1 < 32)
    (h3 : funct3 < 8) (ho : opcode < 128) :
    add32 (left_shift (add32 (left_shift (add32 (left_shift (add32 (left_shift
      (add32 (left_shift (add32 (left_shift (add32 (left_shift
        (get_bits m 12 1) 6) (get_bits m 5 6)) 5) rs2) 5)
          rs1) 3) funct3) 4) (get_bits m 1 4)) 1) (get_bits m 11 1)) 7) opcode =
    (((((((m / 4096 % 2) * 64 + m / 32 % 64) * 32 + rs2) * 32 + rs1) * 8 + funct3) * 16 +
      m / 2 % 16) * 2 + m / 2048 % 2) * 128 + opcode := by
  rw [get_bits_eq m 12 1 (by decide) (by decide) (by decide),
    get_bits_eq m 5 6 (by decide) (by decide) (by decide),
    get_bits_eq m 1 4 (by decide) (by decide) (by decide),
    get_bits_eq m 11 1 (by decide) (by decide) (by decide)]
  simp only [Nat.reducePow]
  have d1 : m / 4096 % 2 < 2 := Nat.mod_lt _ (by decide)
  have d2 : m / 32 % 64 < 64 := Nat.mod_lt _ (by decide)
  have d3 : m / 2 % 16 < 16 := Nat.mod_lt _ (by decide)
  have d4 : m / 2048 % 2 < 2 := Nat.mod_lt _ (by decide)
  generalize m / 4096 % 2 = a1 at d1 ⊢
  generalize m / 32 % 64 = a2 at d2 ⊢
  generalize m / 2 % 16 = a3 at d3 ⊢
  generalize m / 2048 % 2 = a4 at d4 ⊢
  rw [pack_field a1 a2 6 (by decide) (by norm_num; omega) (by norm_num; omega),
    pack_field _ rs2 5 (by decide) (by norm_num; omega) (by norm_num; omega),
    pack_field _ rs1 5 (by decide) (by norm_num; omega) (by norm_num; omega),
    pack_field _ funct3 3 (by decide) (by norm_num; omega) (by norm_num; omega),
    pack_field _ a3 4 (by decide) (by norm_num; omega) (by norm_num; omega),
    pack_field _ a4 1 (by decide) (by norm_num; omega) (by norm_num; omega),
    pack_field _ opcode 7 (by decide) (by norm_num; omega) (by norm_num; omega)]
  simp only [Nat.reducePow]

/-- The immediate that `get_immediate_b_format` reassembles, in terms of the
fields of the word. -/
theorem get_immediate_b_format_eq (w : Nat) :
    get_immediate_b_format w =
      if (((w / 2147483648 % 2 * 2 + w / 128 % 2) * 64 + w / 33554432 % 64) * 16 +
          w / 256 % 16) * 2 < 4096 then
        (((w / 2147483648 % 2 * 2 + w / 128 % 2) * 64 + w / 33554432 % 64) * 16 +
          w / 256 % 16) * 2
      else ((((w / 2147483648 % 2 * 2 + w / 128 % 2) * 64 + w / 33554432 % 64) * 16 +
          w / 256 % 16) * 2 + 4294959104) % 4294967296 := by
  unfold get_immediate_b_format
  simp only []
  rw [get_bits_eq w 31 1 (by decide) (by decide) (by decide),
    get_bits_eq w 25 6 (by decide) (by decide) (by decide),
    get_bits_eq w 8 4 (by decide) (by decide) (by decide),
    get_bits_eq w 7 1 (by decide) (by decide) (by decide)]
  simp only [Nat.reducePow]
  have d1 : w / 2147483648 % 2 < 2 := Nat.mod_lt _ (by decide)
  have d2 : w / 33554432 % 64 < 64 := Nat.mod_lt _ (by decide)
  have d3 : w / 256 % 16 < 16 := Nat.mod_lt _ (by decide)
  have d4 : w / 128 % 2 < 2 := Nat.mod_lt _ (by decide)
  generalize w / 2147483648 % 2 = a1 at d1 ⊢
  generalize w / 33554432 % 64 = a2 at d2 ⊢
  generalize w / 256 % 16 = a3 at d3 ⊢
  generalize w / 128 % 2 = a4 at d4 ⊢
  rw [pack_field a1 a4 1 (by decide) (by norm_num; omega) (by norm_num; omega),
    pack_field _ a2 6 (by decide) (by norm_num; omega) (by norm_num; omega),
    pack_field _ a3 4 (by decide) (by norm_num; omega) (by norm_num; omega),
    left_shift_eq _ 1 (by decide), sign_extend_eq _ 13 (by decide) (by decide)]
  simp only [Nat.reducePow, Nat.reduceSub]
  have e : (((a1 * 2 + a4) * 64 + a2) * 16 + a3) * 2 % 4294967296 =
      (((a1 * 2 + a4) * 64 + a2) * 16 + a3) * 2 := by omega
  rw [e]

theorem b_unpack_arith (a1 a2 rs2 rs1 f3 a3 a4 op : Nat)
    (h1 : a1 < 2) (h2 : a2 < 64) (h3 : rs2 < 32) (h4 : rs1 < 32) (h5 : f3 < 8) (h6 : a3 < 16)
    (h7 : a4 < 2) (h8 : op < 128) :
    (((((((a1 * 64 + a2) * 32 + rs2) * 32 + rs1) * 8 + f3) * 16 + a3) * 2 + a4) * 128 + op) / 2147483648 % 2 = a1 ∧
    (((((((a1 * 64 + a2) * 32 + rs2) * 32 + rs1) * 8 + f3) * 16 + a3) * 2 + a4) * 128 + op) / 33554432 % 64 = a2 ∧
    (((((((a1 * 64 + a2) * 32 + rs2) * 32 + rs1) * 8 + f3) * 16 + a3) * 2 + a4) * 128 + op) / 1048576 % 32 = rs2 ∧
    (((((((a1 * 64 + a2) * 32 + rs2) * 32 + rs1) * 8 + f3) * 16 + a3) * 2 + a4) * 128 + op) / 32768 % 32 = rs1 ∧
    (((((((a1 * 64 + a2) * 32 + rs2) * 32 + rs1) * 8 + f3) * 16 + a3) * 2 + a4) * 128 + op) / 4096 % 8 = f3 ∧
    (((((((a1 * 64 + a2) * 32 + rs2) * 32 + rs1) * 8 + f3) * 16 + a3) * 2 + a4) * 128 + op) / 256 % 16 = a3 ∧
    (((((((a1 * 64 + a2) * 32 + rs2) * 32 + rs1) * 8 + f3) * 16 + a3) * 2 + a4) * 128 + op) / 128 % 2 = a4 ∧
    (((((((a1 * 64 + a2) * 32 + rs2) * 32 + rs1) * 8 + f3) * 16 + a3) * 2 + a4) * 128 + op) % 128 = op := by
  refine ⟨?_, ?_, ?_, ?_, ?_, ?_, ?_, ?_⟩ <;> omega

theorem b_immediate_arith (imm : Nat) (h : imm < 4294967296)
    (hr : imm < 4096 ∨ 4294963200 ≤ imm) :
    (if (((imm % 8192 / 4096 % 2 * 2 + imm % 8192 / 2048 % 2) * 64 +
          imm % 8192 / 32 % 64) * 16 + imm % 8192 / 2 % 16) * 2 < 4096 then
        (((imm % 8192 / 4096 % 2 * 2 + imm % 8192 / 2048 % 2) * 64 +
          imm % 8192 / 32 % 64) * 16 + imm % 8192 / 2 % 16) * 2
      else ((((imm % 8192 / 4096 % 2 * 2 + imm % 8192 / 2048 % 2) * 64 +
          imm % 8192 / 32 % 64) * 16 + imm % 8192 / 2 % 16) * 2 +
            4294959104) % 4294967296) = imm - imm % 2 := by
  have e : (((imm % 8192 / 4096 % 2 * 2 + imm % 8192 / 2048 % 2) * 64 +
      imm % 8192 / 32 % 64) * 16 + imm % 8192 / 2 % 16) * 2 = imm % 8192 - imm % 2 := by
    omega
  rw [e]
  split <;> omega

theorem b_format_round_trip (imm rs2 rs1 funct3 opcode : Nat)
    (hi : in_signed_range imm 13) (h2 : rs2 < 32) (h1 : rs1 < 32) (h3 : funct3 < 8)
    (ho : opcode < 128) :
    ∃ w, encode_b_format imm rs2 rs1 funct3 opcode = .ok w ∧
      get_immediate_b_format w = imm - imm % 2 ∧ get_rs2 w = rs2 ∧ get_rs1 w = rs1 ∧
      get_funct3 w = funct3 ∧ get_opcode w = opcode := by
  have hr := (in_signed_range_iff imm 13 (by decide) (by decide)).1 hi
  simp only [Nat.reducePow, Nat.reduceSub] at hr
  refine ⟨_, encode_b_format_ok imm rs2 rs1 funct3 opcode hi, ?_⟩
  rw [b_word_eq _ rs2 rs1 funct3 opcode h2 h1 h3 ho, get_immediate_b_format_eq, get_rs2_eq,
    get_rs1_eq, get_funct3_eq, get_opcode_eq]
  unfold sign_shrink
  rw [get_bits_zero imm 13 (by decide)]
  simp only [Nat.reducePow]
  obtain ⟨u1, u2, u3, u4, u5, u6, u7, u8⟩ := b_unpack_arith (imm % 8192 / 4096 % 2)
    (imm % 8192 / 32 % 64) rs2 rs1 funct3 (imm % 8192 / 2 % 16) (imm % 8192 / 2048 % 2) opcode
    (Nat.mod_lt _ (by decide)) (Nat.mod_lt _ (by decide)) h2 h1 h3 (Nat.mod_lt _ (by decide))
    (Nat.mod_lt _ (by decide)) ho
  rw [u1, u2, u3, u4, u5, u6, u7, u8]
  exact ⟨b_immediate_arith imm hr.1 hr.2, rfl, rfl, rfl, rfl⟩

/-- The word that `encode_j_format` assembles, as a sum of its fields. -/
theorem j_word_eq (m rd opcode : Nat) (hd : rd < 32) (ho : opcode < 128) :
    add32 (left_shift (add32 (left_shift (add32 (left_shift (add32 (left_shift
      (add32 (left_shift (get_bits m 20 1) 10) (get_bits m 1 10)) 1) (get_bits m 11 1)) 8)
        (get_bits m 12 8)) 5) rd) 7) opcode =
    (((((m / 1048576 % 2) * 1024 + m / 2 % 1024) * 2 + m / 2048 % 2) * 256 +
      m / 4096 % 256) * 32 + rd) * 128 + opcode := by
  rw [get_bits_eq m 20 1 (by decide) (by decide) (by decide),
    get_bits_eq m 1 10 (by decide) (by decide) (by decide),
    get_bits_eq m 11 1 (by decide) (by decide) (by decide),
    get_bits_eq m 12 8 (by decide) (by decide) (by decide)]
  simp only [Nat.reducePow]
  have d1 : m / 1048576 % 2 < 2 := Nat.mod_lt _ (by decide)
  have d2 : m / 2 % 1024 < 1024 := Nat.mod_lt _ (by decide)
  have d3 : m / 2048 % 2 < 2 := Nat.mod_lt _ (by decide)
  have d4 : m / 4096 % 256 < 256 := Nat.mod_lt _ (by decide)
  generalize m / 1048576 % 2 = a1 at d1 ⊢
  generalize m / 2 % 1024 = a2 at d2 ⊢
  generalize m / 2048 % 2 = a3 at d3 ⊢
  generalize m / 4096 % 256 = a4 at d4 ⊢
  rw [pack_field a1 a2 10 (by decide) (by norm_num; omega) (by norm_num; omega),
    pack_field _ a3 1 (by decide) (by norm_num; omega) (by norm_num; omega),
    pack_field _ a4 8 (by decide) (by norm_num; omega) (by norm_num; omega),
    pack_field _ rd 5 (by decide) (by norm_num; omega) (by norm_num; omega),
    pack_field _ opcode 7 (by decide) (by norm_num; omega) (by norm_num; omega)]
  simp only [Nat.reducePow]

/-- The immediate that `get_immediate_j_format` reassembles, in terms of the
fields of the word. -/
theorem get_immediate_j_format_eq (w : Nat) :
    get_immediate_j_format w =
      if (((w / 2147483648 % 2 * 256 + w / 4096 % 256) * 2 + w / 1048576 % 2) * 1024 +
          w / 2097152 % 1024) * 2 < 1048576 then
        (((w / 2147483648 % 2 * 256 + w / 4096 % 256) * 2 + w / 1048576 % 2) * 1024 +
          w / 2097152 % 1024) * 2
      else ((((w / 2147483648 % 2 * 256 + w / 4096 % 256) * 2 + w / 1048576 % 2) * 1024 +
          w / 2097152 % 1024) * 2 + 4292870144) % 4294967296 := by
  unfold get_immediate_j_format
  simp only []
  rw [get_bits_eq w 31 1 (by decide) (by decide) (by decide),
    get_bits_eq w 21 10 (by decide) (by decide) (by decide),
    get_bits_eq w 20 1 (by decide) (by decide) (by decide),
    get_bits_eq w 12 8 (by decide) (by decide) (by decide)]
  simp only [Nat.reducePow]
  have d1 : w / 2147483648 % 2 < 2 := Nat.mod_lt _ (by decide)
  have d2 : w / 2097152 % 1024 < 1024 := Nat.mod_lt _ (by decide)
  have d3 : w / 1048576 % 2 < 2 := Nat.mod_lt _ (by decide)
  have d4 : w / 4096 % 256 < 256 := Nat.mod_lt _ (by decide)
  generalize w / 2147483648 % 2 = a1 at d1 ⊢
  generalize w / 2097152 % 1024 = a2 at d2 ⊢
  generalize w / 1048576 % 2 = a3 at d3 ⊢
  generalize w / 4096 % 256 = a4 at d4 ⊢
  rw [pack_field a1 a4 8 (by decide) (by norm_num; omega) (by norm_num; omega),
    pack_field _ a3 1 (by decide) (by norm_num; omega) (by norm_num; omega),
    pack_field _ a2 10 (by decide) (by norm_num; omega) (by norm_num; omega),
    left_shift_eq _ 1 (by decide), sign_extend_eq _ 21 (by decide) (by decide)]
  simp only [Nat.reducePow, Nat.reduceSub]
  have e : (((a1 * 256 + a4) * 2 + a3) * 1024 + a2) * 2 % 4294967296 =
      (((a1 * 256 + a4) * 2 + a3) * 1024 + a2) * 2 := by omega
  rw [e]

theorem j_unpack_arith (a1 a2 a3 a4 rd op : Nat)
    (h1 : a1 < 2) (h2 : a2 < 1024) (h3 : a3 < 2) (h4 : a4 < 256) (h5 : rd < 32)
    (h6 : op < 128) :
    (((((a1 * 1024 + a2) * 2 + a3) * 256 + a4) * 32 + rd) * 128 + op) / 2147483648 % 2 = a1 ∧
    (((((a1 * 1024 + a2) * 2 + a3) * 256 + a4) * 32 + rd) * 128 + op) / 2097152 % 1024 = a2 ∧
    (((((a1 * 1024 + a2) * 2 + a3) * 256 + a4) * 32 + rd) * 128 + op) / 1048576 % 2 = a3 ∧
    (((((a1 * 1024 + a2) * 2 + a3) * 256 + a4) * 32 + rd) * 128 + op) / 4096 % 256 = a4 ∧
    (((((a1 * 1024 + a2) * 2 + a3) * 256 + a4) * 32 + rd) * 128 + op) / 128 % 32 = rd ∧
    (((((a1 * 1024 + a2) * 2 + a3) * 256 + a4) * 32 + rd) * 128 + op) % 128 = op := by
  refine ⟨?_, ?_, ?_, ?_, ?_, ?_⟩ <;> omega

theorem j_immediate_arith (imm : Nat) (h : imm < 4294967296)
    (hr : imm < 1048576 ∨ 4293918720 ≤ imm) :
    (if (((imm % 2097152 / 1048576 % 2 * 256 + imm % 2097152 / 4096 % 256) * 2 +
          imm % 2097152 / 2048 % 2) * 1024 + imm % 2097152 / 2 % 1024) * 2 < 1048576 then
        (((imm % 2097152 / 1048576 % 2 * 256 + imm % 2097152 / 4096 % 256) * 2 +
          imm % 2097152 / 2048 % 2) * 1024 + imm % 2097152 / 2 % 1024) * 2
      else ((((imm % 2097152 / 1048576 % 2 * 256 + imm % 2097152 / 4096 % 256) * 2 +
          imm % 2097152 / 2048 % 2) * 1024 + imm % 2097152 / 2 % 1024) * 2 +
            4292870144) % 4294967296) = imm - imm % 2 := by
  have e : (((imm % 2097152 / 1048576 % 2 * 256 + imm % 2097152 / 4096 % 256) * 2 +
      imm % 2097152 / 2048 % 2) * 1024 + imm % 2097152 / 2 % 1024) * 2 =
        imm % 2097152 - imm % 2 := by
    omega
  rw [e]
  split <;> omega

theorem j_format_round_trip (imm rd opcode : Nat)
    (hi : in_signed_range imm 21) (hd : rd < 32) (ho : opcode < 128) :
    ∃ w, encode_j_format imm rd opcode = .ok w ∧
      get_immediate_j_format w = imm - imm % 2 ∧ get_rd w = rd ∧ get_opcode w = opcode := by
  have hr := (in_signed_range_iff imm 21 (by decide) (by decide)).1 hi
  simp only [Nat.reducePow, Nat.reduceSub] at hr
  refine ⟨_, encode_j_format_ok imm rd opcode hi, ?_⟩
  rw [j_word_eq _ rd opcode hd ho, get_immediate_j_format_eq, get_rd_eq, get_opcode_eq]
  unfold sign_shrink
  rw [get_bits_zero imm 21 (by decide)]
  simp only [Nat.reducePow]
  obtain ⟨u1, u2, u3, u4, u5, u6⟩ := j_unpack_arith (imm % 2097152 / 1048576 % 2)
    (imm % 2097152 / 2 % 1024) (imm % 2097152 / 2048 % 2) (imm % 2097152 / 4096 % 256) rd opcode
    (Nat.mod_lt _ (by decide)) (Nat.mod_lt _ (by decide)) (Nat.mod_lt _ (by decide))
    (Nat.mod_lt _ (by decide)) hd ho
  rw [u1, u2, u3, u4, u5, u6]
  exact ⟨j_immediate_arith imm hr.1 hr.2, rfl, rfl⟩

/-- The word that `encode_s_format` assembles, as a sum of its fields. -/
theorem s_word_eq (m rs2 rs1 funct3 opcode : Nat) (h2 : rs2 < 32) (h1 : rs1 < 32)
    (h3 : funct3 < 8) (ho : opcode < 128) :
    add32 (left_shift (add32 (left_shift (add32 (left_shift (add32 (left_shift
      (add32 (left_shift (get_bits m 5 7) 5) rs2) 5) rs1) 3) funct3) 5)
        (get_bits m 0 5)) 7) opcode =
    (((((m / 32 % 128) * 32 + rs2) * 32 + rs1) * 8 + funct3) * 32 + m % 32) * 128 +
      opcode := by
  rw [get_bits_eq m 5 7 (by decide) (by decide) (by decide), get_bits_zero m 5 (by decide)]
  simp only [Nat.reducePow]
  have d1 : m / 32 % 128 < 128 := Nat.mod_lt _ (by decide)
  have d2 : m % 32 < 32 := Nat.mod_lt _ (by decide)
  generalize m / 32 % 128 = a1 at d1 ⊢
  generalize m % 32 = a2 at d2 ⊢
  rw [pack_field a1 rs2 5 (by decide) (by norm_num; omega) (by norm_num; omega),
    pack_field _ rs1 5 (by decide) (by norm_num; omega) (by norm_num; omega),
    pack_field _ funct3 3 (by decide) (by norm_num; omega) (by norm_num; omega),
    pack_field _ a2 5 (by decide) (by norm_num; omega) (by norm_num; omega),
    pack_field _ opcode 7 (by decide) (by norm_num; omega) (by norm_num; omega)]
  simp only [Nat.reducePow]

/-- The immediate that `get_immediate_s_format` reassembles, in terms of the
fields of the word. -/
theorem get_immediate_s_format_eq (w : Nat) :
    get_immediate_s_format w =
      if w / 33554432 % 128 * 32 + w / 128 % 32 < 2048 then
        w / 33554432 % 128 * 32 + w / 128 % 32
      else (w / 33554432 % 128 * 32 + w / 128 % 32 + 4294963200) % 4294967296 := by
  unfold get_immediate_s_format
  simp only []
  rw [get_bits_eq w 25 7 (by decide) (by decide) (by decide),
    get_bits_eq w 7 5 (by decide) (by decide) (by decide)]
  simp only [Nat.reducePow]
  have d1 : w / 33554432 % 128 < 128 := Nat.mod_lt _ (by decide)
  have d2 : w / 128 % 32 < 32 := Nat.mod_lt _ (by decide)
  generalize w / 33554432 % 128 = a1 at d1 ⊢
  generalize w / 128 % 32 = a2 at d2 ⊢
  rw [pack_field a1 a2 5 (by decide) (by norm_num; omega) (by norm_num; omega),
    sign_extend_eq _ 12 (by decide) (by decide)]
  simp only [Nat.reducePow, Nat.reduceSub]

theorem s_unpack_arith (a1 rs2 rs1 f3 a2 op : Nat)
    (h1 : a1 < 128) (h2 : rs2 < 32) (h3 : rs1 < 32) (h4 : f3 < 8) (h5 : a2 < 32)
    (h6 : op < 128) :
    (((((a1 * 32 + rs2) * 32 + rs1) * 8 + f3) * 32 + a2) * 128 + op) / 33554432 % 128 = a1 ∧
    (((((a1 * 32 + rs2) * 32 + rs1) * 8 + f3) * 32 + a2) * 128 + op) / 1048576 % 32 = rs2 ∧
    (((((a1 * 32 + rs2) * 32 + rs1) * 8 + f3) * 32 + a2) * 128 + op) / 32768 % 32 = rs1 ∧
    (((((a1 * 32 + rs2) * 32 + rs1) * 8 + f3) * 32 + a2) * 128 + op) / 4096 % 8 = f3 ∧
    (((((a1 * 32 + rs2) * 32 + rs1) * 8 + f3) * 32 + a2) * 128 + op) / 128 % 32 = a2 ∧
    (((((a1 * 32 + rs2) * 32 + rs1) * 8 + f3) * 32 + a2) * 128 + op) % 128 = op := by
  refine ⟨?_, ?_, ?_, ?_, ?_, ?_⟩ <;> omega

theorem s_immediate_arith (imm : Nat) (h : imm < 4294967296)
    (hr : imm < 2048 ∨ 4294965248 ≤ imm) :
    (if imm % 4096 / 32 % 128 * 32 + imm % 4096 % 32 < 2048 then
        imm % 4096 / 32 % 128 * 32 + imm % 4096 % 32
      else (imm % 4096 / 32 % 128 * 32 + imm % 4096 % 32 + 4294963200) % 4294967296) =
        imm := by
  have e : imm % 4096 / 32 % 128 * 32 + imm % 4096 % 32 = imm % 4096 := by omega
  rw [e]
  split <;> omega

theorem s_format_round_trip (imm rs2 rs1 funct3 opcode : Nat)
    (hi : in_signed_range imm 12) (h2 : rs2 < 32) (h1 : rs1 < 32) (h3 : funct3 < 8)
    (ho : opcode < 128) :
    ∃ w, encode_s_format imm rs2 rs1 funct3 opcode = .ok w ∧
      get_immediate_s_format w = imm ∧ get_rs2 w = rs2 ∧ get_rs1 w = rs1 ∧
      get_funct3 w = funct3 ∧ get_opcode w = opcode := by
  have hr := (in_signed_range_iff imm 12 (by decide) (by decide)).1 hi
  simp only [Nat.reducePow, Nat.reduceSub] at hr
  refine ⟨_, encode_s_format_ok imm rs2 rs1 funct3 opcode hi, ?_⟩
  rw [s_word_eq _ rs2 rs1 funct3 opcode h2 h1 h3 ho, get_immediate_s_format_eq, get_rs2_eq,
    get_rs1_eq, get_funct3_eq, get_opcode_eq]
  unfold sign_shrink
  rw [get_bits_zero imm 12 (by decide)]
  simp only [Nat.reducePow]
  obtain ⟨u1, u2, u3, u4, u5, u6⟩ := s_unpack_arith (imm % 4096 / 32 % 128) rs2 rs1 funct3
    (imm % 4096 % 32) opcode (Nat.mod_lt _ (by decide)) h2 h1 h3 (Nat.mod_lt _ (by decide)) ho
  rw [u1, u2, u3, u4, u5, u6]
  exact ⟨s_immediate_arith imm hr.1 hr.2, rfl, rfl, rfl, rfl⟩

theorem r_format_round_trip (funct7 rs2 rs1 funct3 rd opcode : Nat)
    (h7 : funct7 < 128) (h2 : rs2 < 32) (h1 : rs1 < 32) (h3 : funct3 < 8) (hd : rd < 32)
    (ho : opcode < 128) :
    get_funct7 (encode_r_format funct7 rs2 rs1 funct3 rd opcode) = funct7 ∧
    get_rs2 (encode_r_format funct7 rs2 rs1 funct3 rd opcode) = rs2 ∧
    get_rs1 (encode_r_format funct7 rs2 rs1 funct3 rd opcode) = rs1 ∧
    get_funct3 (encode_r_format funct7 rs2 rs1 funct3 rd opcode) = funct3 ∧
    get_rd (encode_r_format funct7 rs2 rs1 funct3 rd opcode) = rd ∧
    get_opcode (encode_r_format funct7 rs2 rs1 funct3 rd opcode) = opcode := by
  simp only [get_funct7, get_rs2, get_rs1, get_funct3, get_rd, get_opcode, encode_r_format,
    get_bits_pos _ 25 7 (by decide) (by decide) (by decide),
    get_bits_pos _ 20 5 (by decide) (by decide) (by decide),
    get_bits_pos _ 15 5 (by decide) (by decide) (by decide),
    get_bits_pos _ 12 3 (by decide) (by decide) (by decide),
    get_bits_pos _ 7 5 (by decide) (by decide) (by decide),
    get_bits_zero _ 7 (by decide),
    left_shift_eq _ 5 (by decide), left_shift_eq _ 3 (by decide), left_shift_eq _ 7 (by decide),
    add32]
  norm_num
  refine ⟨?_, ?_, ?_, ?_, ?_, ?_⟩ <;> omega

theorem i_format_round_trip (imm rs1 funct3 rd opcode : Nat)
    (hi : in_signed_range imm 12) (h1 : rs1 < 32) (h3 : funct3 < 8) (hd : rd < 32)
    (ho : opcode < 128) :
    ∃ w, encode_i_format imm rs1 funct3 rd opcode = .ok w ∧
      get_immediate_i_format w = imm ∧ get_rs1 w = rs1 ∧ get_funct3 w = funct3 ∧
      get_rd w = rd ∧ get_opcode w = opcode := by
  have hr := (in_signed_range_iff imm 12 (by decide) (by decide)).1 hi
  norm_num at hr
  refine ⟨_, encode_i_format_ok imm rs1 funct3 rd opcode hi, ?_⟩
  simp only [get_immediate_i_format, get_rs1, get_funct3, get_rd, get_opcode, sign_shrink,
    sign_extend_eq _ 12 (by decide) (by decide),
    get_bits_pos _ 20 12 (by decide) (by decide) (by decide),
    get_bits_pos _ 15 5 (by decide) (by decide) (by decide),
    get_bits_pos _ 12 3 (by decide) (by decide) (by decide),
    get_bits_pos _ 7 5 (by decide) (by decide) (by decide),
    get_bits_zero _ 7 (by decide), get_bits_zero _ 12 (by decide),
    left_shift_eq _ 5 (by decide), left_shift_eq _ 3 (by decide), left_shift_eq _ 7 (by decide),
    add32]
  norm_num
  refine ⟨?_, ?_, ?_, ?_, ?_⟩
  · split <;> omega
  all_goals omega

theorem u_format_round_trip (imm rd opcode : Nat)
    (hi : in_signed_range imm 20) (hd : rd < 32) (ho : opcode < 128) :
    ∃ w, encode_u_format imm rd opcode = .ok w ∧
      get_immediate_u_format w = imm ∧ get_rd w = rd ∧ get_opcode w = opcode := by
  have hr := (in_signed_range_iff imm 20 (by decide) (by decide)).1 hi
  norm_num at hr
  refine ⟨_, encode_u_format_ok imm rd opcode hi, ?_⟩
  simp only [get_immediate_u_format, get_rd, get_opcode, sign_shrink,
    sign_extend_eq _ 20 (by decide) (by decide),
    get_bits_pos _ 12 20 (by decide) (by decide) (by decide),
    get_bits_pos _ 7 5 (by decide) (by decide) (by decide),
    get_bits_zero _ 7 (by decide), get_bits_zero _ 20 (by decide),
    left_shift_eq _ 5 (by decide), left_shift_eq _ 7 (by decide),
    add32]
  norm_num
  refine ⟨?_, ?_, ?_⟩
  · split <;> omega
  all_goals omega

theorem encode_i_format_error (imm rs1 funct3 rd opcode : Nat) (h32 : imm < 4294967296)
    (hi : ¬ in_signed_range imm 12) :
    encode_i_format imm rs1 funct3 rd opcode = .error EXITCODE_COMPILERERROR := by
  unfold encode_i_format
  rw [check_immediate_range_error imm 12 (by decide) (by decide) h32 hi]
  rfl

theorem encode_s_format_error (imm rs2 rs1 funct3 opcode : Nat) (h32 : imm < 4294967296)
    (hi : ¬ in_signed_range imm 12) :
    encode_s_format imm rs2 rs1 funct3 opcode = .error EXITCODE_COMPILERERROR := by
  unfold encode_s_format
  rw [check_immediate_range_error imm 12 (by decide) (by decide) h32 hi]
  rfl

theorem encode_b_format_error (imm rs2 rs1 funct3 opcode : Nat) (h32 : imm < 4294967296)
    (hi : ¬ in_signed_range imm 13) :
    encode_b_format imm rs2 rs1 funct3 opcode = .error EXITCODE_COMPILERERROR := by
  unfold encode_b_format
  rw [check_immediate_range_error imm 13 (by decide) (by decide) h32 hi]
  rfl

theorem encode_j_format_error (imm rd opcode : Nat) (h32 : imm < 4294967296)
    (hi : ¬ in_signed_range imm 21) :
    encode_j_format imm rd opcode = .error EXITCODE_COMPILERERROR := by
  unfold encode_j_format
  rw [check_immediate_range_error imm 21 (by decide) (by decide) h32 hi]
  rfl

theorem encode_u_format_error (imm rd opcode : Nat) (h32 : imm < 4294967296)
    (hi : ¬ in_signed_range imm 20) :
    encode_u_format imm rd opcode = .error EXITCODE_COMPILERERROR := by
  unfold encode_u_format
  rw [check_immediate_range_error imm 20 (by decide) (by decide) h32 hi]
  rfl

theorem add32_lt (a b : Nat) : add32 a b < 4294967296 := Nat.mod_lt _ (by decide)

/-! ## Claims -/

/-- C1: for all field values in range and immediates in the signed range of the
format (12 bits for I and S, 20 bits for U), the decoders applied to the word that
`encode_r_format`, `encode_i_format`, `encode_s_format` and `encode_u_format` produce
return exactly the encoded fields; the immediate comes back as the same 32-bit
two's-complement word, that is, sign-extended. -/
theorem encoder_round_trip (funct7 rs2 rs1 funct3 rd opcode imm12 imm20 : Nat)
    (h7 : funct7 < 2 ^ 7) (h2 : rs2 < 2 ^ 5) (h1 : rs1 < 2 ^ 5) (h3 : funct3 < 2 ^ 3)
    (hd : rd < 2 ^ 5) (ho : opcode < 2 ^ 7)
    (hi12 : in_signed_range imm12 12) (hi20 : in_signed_range imm20 20) :
    (get_funct7 (encode_r_format funct7 rs2 rs1 funct3 rd opcode) = funct7 ∧
      get_rs2 (encode_r_format funct7 rs2 rs1 funct3 rd opcode) = rs2 ∧
      get_rs1 (encode_r_format funct7 rs2 rs1 funct3 rd opcode) = rs1 ∧
      get_funct3 (encode_r_format funct7 rs2 rs1 funct3 rd opcode) = funct3 ∧
      get_rd (encode_r_format funct7 rs2 rs1 funct3 rd opcode) = rd ∧
      get_opcode (encode_r_format funct7 rs2 rs1 funct3 rd opcode) = opcode) ∧
    (∃ w, encode_i_format imm12 rs1 funct3 rd opcode = .ok w ∧
      get_immediate_i_format w = imm12 ∧ get_rs1 w = rs1 ∧ get_funct3 w = funct3 ∧
      get_rd w = rd ∧ get_opcode w = opcode) ∧
    (∃ w, encode_s_format imm12 rs2 rs1 funct3 opcode = .ok w ∧
      get_immediate_s_format w = imm12 ∧ get_rs2 w = rs2 ∧ get_rs1 w = rs1 ∧
      get_funct3 w = funct3 ∧ get_opcode w = opcode) ∧
    (∃ w, encode_u_format imm20 rd opcode = .ok w ∧
      get_immediate_u_format w = imm20 ∧ get_rd w = rd ∧ get_opcode w = opcode) := by
  simp only [Nat.reducePow] at h7 h2 h1 h3 hd ho
  exact ⟨r_format_round_trip funct7 rs2 rs1 funct3 rd opcode h7 h2 h1 h3 hd ho,
    i_format_round_trip imm12 rs1 funct3 rd opcode hi12 h1 h3 hd ho,
    s_format_round_trip imm12 rs2 rs1 funct3 opcode hi12 h2 h1 h3 ho,
    u_format_round_trip imm20 rd opcode hi20 hd ho⟩

/-- Witness for C1: `sub t0,t1,t0`-like fields, the immediate `-1` for I and S and
`-2^19` for U. -/
theorem encoder_round_trip_witness :
    (get_funct7 (encode_r_format 32 6 5 0 5 51) = 32 ∧
      get_rs2 (encode_r_format 32 6 5 0 5 51) = 6 ∧
      get_rs1 (encode_r_format 32 6 5 0 5 51) = 5 ∧
      get_funct3 (encode_r_format 32 6 5 0 5 51) = 0 ∧
      get_rd (encode_r_format 32 6 5 0 5 51) = 5 ∧
      get_opcode (encode_r_format 32 6 5 0 5 51) = 51) ∧
    (∃ w, encode_i_format 4294967295 5 0 5 51 = .ok w ∧
      get_immediate_i_format w = 4294967295 ∧ get_rs1 w = 5 ∧ get_funct3 w = 0 ∧
      get_rd w = 5 ∧ get_opcode w = 51) ∧
    (∃ w, encode_s_format 4294967295 6 5 0 51 = .ok w ∧
      get_immediate_s_format w = 4294967295 ∧ get_rs2 w = 6 ∧ get_rs1 w = 5 ∧
      get_funct3 w = 0 ∧ get_opcode w = 51) ∧
    (∃ w, encode_u_format 4294443008 5 51 = .ok w ∧
      get_immediate_u_format w = 4294443008 ∧ get_rd w = 5 ∧ get_opcode w = 51) :=
  encoder_round_trip 32 6 5 0 5 51 4294967295 4294443008 (by decide) (by decide) (by decide)
    (by decide) (by decide) (by decide)
    ((in_signed_range_iff _ _ (by decide) (by decide)).2 (by decide))
    ((in_signed_range_iff _ _ (by decide) (by decide)).2 (by decide))

/-- C2: for every immediate in the signed range of 13 bits (B) respectively 21 bits
(J) and all in-range fields, the decoded immediate of the encoded word is the
immediate with bit 0 cleared (hence the immediate itself when it is even), and
`rs1`, `rs2`, `funct3`, `rd` and `opcode` are recovered unchanged. -/
theorem b_j_format_round_trip (imm13 imm21 rs2 rs1 funct3 rd opcode : Nat)
    (h2 : rs2 < 2 ^ 5) (h1 : rs1 < 2 ^ 5) (h3 : funct3 < 2 ^ 3) (hd : rd < 2 ^ 5)
    (ho : opcode < 2 ^ 7)
    (hi13 : in_signed_range imm13 13) (hi21 : in_signed_range imm21 21) :
    (∃ w, encode_b_format imm13 rs2 rs1 funct3 opcode = .ok w ∧
      get_immediate_b_format w = imm13 - imm13 % 2 ∧
      (imm13 % 2 = 0 → get_immediate_b_format w = imm13) ∧
      get_rs2 w = rs2 ∧ get_rs1 w = rs1 ∧ get_funct3 w = funct3 ∧ get_opcode w = opcode) ∧
    (∃ w, encode_j_format imm21 rd opcode = .ok w ∧
      get_immediate_j_format w = imm21 - imm21 % 2 ∧
      (imm21 % 2 = 0 → get_immediate_j_format w = imm21) ∧
      get_rd w = rd ∧ get_opcode w = opcode) := by
  simp only [Nat.reducePow] at h2 h1 h3 hd ho
  obtain ⟨wb, eb, ib, fb⟩ := b_format_round_trip imm13 rs2 rs1 funct3 opcode hi13 h2 h1 h3 ho
  obtain ⟨wj, ej, ij, fj⟩ := j_format_round_trip imm21 rd opcode hi21 hd ho
  refine ⟨⟨wb, eb, ib, ?_, fb⟩, ⟨wj, ej, ij, ?_, fj⟩⟩
  · intro he
    rw [ib, he]
    rfl
  · intro he
    rw [ij, he]
    rfl

/-- Witness for C2: the odd immediate `-3` loses its bit 0 in both formats. -/
theorem b_j_format_round_trip_witness :
    (∃ w, encode_b_format 4294967293 6 5 0 99 = .ok w ∧
      get_immediate_b_format w = 4294967293 - 4294967293 % 2 ∧
      (4294967293 % 2 = 0 → get_immediate_b_format w = 4294967293) ∧
      get_rs2 w = 6 ∧ get_rs1 w = 5 ∧ get_funct3 w = 0 ∧ get_opcode w = 99) ∧
    (∃ w, encode_j_format 4294967293 1 99 = .ok w ∧
      get_immediate_j_format w = 4294967293 - 4294967293 % 2 ∧
      (4294967293 % 2 = 0 → get_immediate_j_format w = 4294967293) ∧
      get_rd w = 1 ∧ get_opcode w = 99) :=
  b_j_format_round_trip 4294967293 4294967293 6 5 0 1 99 (by decide) (by decide) (by decide)
    (by decide) (by decide)
    ((in_signed_range_iff _ _ (by decide) (by decide)).2 (by decide))
    ((in_signed_range_iff _ _ (by decide) (by decide)).2 (by decide))

/-- C3: for every 32-bit immediate, each of `encode_i_format`, `encode_s_format`,
`encode_b_format`, `encode_j_format` and `encode_u_format` returns a machine word
when the immediate is a signed integer of the format's width (12, 12, 13, 21, 20
bits) and exits with `EXITCODE_COMPILERERROR` when it is not, whatever the other
fields are. -/
theorem encode_checks_immediate_range (imm rs2 rs1 funct3 rd opcode : Nat)
    (h32 : imm < 2 ^ 32) :
    ((in_signed_range imm 12 →
        ∃ w, w < 2 ^ 32 ∧ encode_i_format imm rs1 funct3 rd opcode = .ok w) ∧
      (¬ in_signed_range imm 12 →
        encode_i_format imm rs1 funct3 rd opcode = .error EXITCODE_COMPILERERROR)) ∧
    ((in_signed_range imm 12 →
        ∃ w, w < 2 ^ 32 ∧ encode_s_format imm rs2 rs1 funct3 opcode = .ok w) ∧
      (¬ in_signed_range imm 12 →
        encode_s_format imm rs2 rs1 funct3 opcode = .error EXITCODE_COMPILERERROR)) ∧
    ((in_signed_range imm 13 →
        ∃ w, w < 2 ^ 32 ∧ encode_b_format imm rs2 rs1 funct3 opcode = .ok w) ∧
      (¬ in_signed_range imm 13 →
        encode_b_format imm rs2 rs1 funct3 opcode = .error EXITCODE_COMPILERERROR)) ∧
    ((in_signed_range imm 21 →
        ∃ w, w < 2 ^ 32 ∧ encode_j_format imm rd opcode = .ok w) ∧
      (¬ in_signed_range imm 21 →
        encode_j_format imm rd opcode = .error EXITCODE_COMPILERERROR)) ∧
    ((in_signed_range imm 20 →
        ∃ w, w < 2 ^ 32 ∧ encode_u_format imm rd opcode = .ok w) ∧
      (¬ in_signed_range imm 20 →
        encode_u_format imm rd opcode = .error EXITCODE_COMPILERERROR)) := by
  simp only [Nat.reducePow] at h32 ⊢
  refine ⟨⟨fun h => ⟨_, add32_lt _ _, encode_i_format_ok imm rs1 funct3 rd opcode h⟩,
      encode_i_format_error imm rs1 funct3 rd opcode h32⟩,
    ⟨fun h => ⟨_, add32_lt _ _, encode_s_format_ok imm rs2 rs1 funct3 opcode h⟩,
      encode_s_format_error imm rs2 rs1 funct3 opcode h32⟩,
    ⟨fun h => ⟨_, add32_lt _ _, encode_b_format_ok imm rs2 rs1 funct3 opcode h⟩,
      encode_b_format_error imm rs2 rs1 funct3 opcode h32⟩,
    ⟨fun h => ⟨_, add32_lt _ _, encode_j_format_ok imm rd opcode h⟩,
      encode_j_format_error imm rd opcode h32⟩,
    ⟨fun h => ⟨_, add32_lt _ _, encode_u_format_ok imm rd opcode h⟩,
      encode_u_format_error imm rd opcode h32⟩⟩

/-- Witness for C3: the immediate `2048` is rejected by the 12-bit formats and
accepted by the wider ones. -/
theorem encode_checks_immediate_range_witness :
    encode_i_format 2048 5 0 5 19 = .error EXITCODE_COMPILERERROR ∧
    encode_s_format 2048 6 5 2 35 = .error EXITCODE_COMPILERERROR ∧
    (∃ w, w < 2 ^ 32 ∧ encode_b_format 2048 6 5 2 35 = .ok w) ∧
    (∃ w, w < 2 ^ 32 ∧ encode_j_format 2048 5 19 = .ok w) ∧
    (∃ w, w < 2 ^ 32 ∧ encode_u_format 2048 5 19 = .ok w) := by
  have h := encode_checks_immediate_range 2048 6 5 0 5 19 (by decide)
  have h' := encode_checks_immediate_range 2048 6 5 2 5 35 (by decide)
  have n12 : ¬ in_signed_range 2048 12 := fun c =>
    absurd ((in_signed_range_iff _ _ (by decide) (by decide)).1 c) (by decide)
  exact ⟨h.1.2 n12, h'.2.1.2 n12,
    h'.2.2.1.1 ((in_signed_range_iff _ _ (by decide) (by decide)).2 (by decide)),
    h.2.2.2.1.1 ((in_signed_range_iff _ _ (by decide) (by decide)).2 (by decide)),
    h.2.2.2.2.1 ((in_signed_range_iff _ _ (by decide) (by decide)).2 (by decide))⟩

/-- C4: for every bit width `0 < b < 32` and every machine word `n` whose
two's-complement value lies in `[-2^(b-1), 2^(b-1))`,
`sign_extend (sign_shrink n b) b = n`. -/
theorem sign_shrink_extend_round_trip (n b : Nat) (hb : 0 < b) (hb32 : b < 32)
    (hn : in_signed_range n b) : sign_extend (sign_shrink n b) b = n := by
  have hr := (in_signed_range_iff n b hb (by omega)).1 hn
  rw [sign_shrink, get_bits_zero n b hb32, sign_extend_eq _ b hb hb32]
  interval_cases b <;> simp only [Nat.reducePow, Nat.reduceSub] at hr ⊢ <;> split <;> omega

/-- Witness for C4: the word of `-2048` at width 12. -/
theorem sign_shrink_extend_round_trip_witness :
    sign_extend (sign_shrink 4294965248 12) 12 = 4294965248 :=
  sign_shrink_extend_round_trip 4294965248 12 (by decide) (by decide)
    ((in_signed_range_iff _ _ (by decide) (by decide)).2 (by decide))

/-! ## The machine: exceptions, jumps, division, loads and stores -/

theorem throw_exception_ok (e p : Nat) (m : Machine)
    (h : m.exception = EXCEPTION_NOEXCEPTION ∨ m.exception = e) :
    throw_exception e p m = .ok { m with exception := e, faulting_page := p, trap := 1 } := by
  unfold throw_exception
  by_cases h0 : m.exception = EXCEPTION_NOEXCEPTION
  · simp [h0]
  · have he : m.exception = e := h.resolve_left h0
    simp [h0, he]

theorem throw_exception_fatal (e p : Nat) (m : Machine)
    (h0 : m.exception ≠ EXCEPTION_NOEXCEPTION) (he : m.exception ≠ e) :
    throw_exception e p m = .error EXITCODE_MULTIPLEEXCEPTIONERROR := by
  unfold throw_exception
  simp [h0, he]

theorem throw_exception_result (e p : Nat) (m m' : Machine)
    (h : throw_exception e p m = .ok m') :
    m' = { m with exception := e, faulting_page := p, trap := 1 } := by
  by_cases hc : m.exception = EXCEPTION_NOEXCEPTION ∨ m.exception = e
  · rw [throw_exception_ok e p m hc] at h
    exact (Except.ok.inj h).symm
  · rw [throw_exception_fatal e p m (fun c => hc (Or.inl c)) (fun c => hc (Or.inr c))] at h
    cases h

theorem clear_bit_zero (v : Nat) (hv : v < 4294967296) :
    left_shift (right_shift v 1) 1 = v - v % 2 := by
  rw [right_shift_eq v 1 (by decide), left_shift_eq _ 1 (by decide)]
  omega

/-- C7: `do_jal` sets `pc` to `pc + imm` (mod `2^32`) and, unless `rd` is `x0`,
stores the old `pc + 4` in `rd`; `do_jalr` sets `pc` to the old value of `rs1` plus
`imm` with bit 0 cleared and, unless `rd` is `x0`, stores the old `pc + 4` in `rd`;
the target is computed from the value `rs1` had before the link is written, also
when `rd = rs1`.  No other register changes. -/
theorem jump_semantics (m : Machine) :
    ((do_jal m).pc = add32 m.pc m.imm ∧
      (m.rd ≠ REG_ZR →
        (do_jal m).registers = store_word m.registers m.rd (add32 m.pc INSTRUCTIONSIZE)) ∧
      (m.rd = REG_ZR → (do_jal m).registers = m.registers)) ∧
    ((do_jalr m).pc =
        add32 (m.registers m.rs1) m.imm - add32 (m.registers m.rs1) m.imm % 2 ∧
      (m.rd ≠ REG_ZR →
        (do_jalr m).registers = store_word m.registers m.rd (add32 m.pc INSTRUCTIONSIZE)) ∧
      (m.rd = REG_ZR → (do_jalr m).registers = m.registers)) := by
  have hv : add32 (m.registers m.rs1) m.imm < 4294967296 := add32_lt _ _
  have hc := clear_bit_zero _ hv
  refine ⟨⟨?_, ?_, ?_⟩, ⟨?_, ?_, ?_⟩⟩
  · unfold do_jal
    by_cases hrd : m.rd = REG_ZR
    · by_cases hs : signed_less_than m.imm 0 = 0 <;> simp [hrd, hs]
    · simp [hrd]
  · intro hrd
    unfold do_jal
    simp [hrd]
  · intro hrd
    unfold do_jal
    by_cases hs : signed_less_than m.imm 0 = 0 <;> simp [hrd, hs]
  · unfold do_jalr
    by_cases hrd : m.rd = REG_ZR <;> simp [hrd, hc]
  · intro hrd
    unfold do_jalr
    simp [hrd]
  · intro hrd
    unfold do_jalr
    simp [hrd]

/-- C8: with the value of `rs2` equal to 0, `do_divu` and `do_remu` are exactly
`throw_exception(EXCEPTION_DIVISIONBYZERO, 0)`: the exception is recorded (or, when
a different exception is already pending, the emulator exits with the
multiple-exception error), and in a resulting state `pc` and all registers are
unchanged.  With `rs2` non-zero they raise nothing, advance `pc` by 4 and write the
unsigned quotient respectively remainder of `rs1` by `rs2` to `rd` unless `rd` is
`x0`. -/
theorem division_semantics (m : Machine) :
    (m.registers m.rs2 = 0 →
      do_divu m = throw_exception EXCEPTION_DIVISIONBYZERO 0 m ∧
      do_remu m = throw_exception EXCEPTION_DIVISIONBYZERO 0 m ∧
      ((m.exception = EXCEPTION_NOEXCEPTION ∨ m.exception = EXCEPTION_DIVISIONBYZERO) →
        ∃ m', do_divu m = .ok m' ∧ do_remu m = .ok m' ∧
          m'.exception = EXCEPTION_DIVISIONBYZERO ∧ m'.trap = 1) ∧
      (¬ (m.exception = EXCEPTION_NOEXCEPTION ∨ m.exception = EXCEPTION_DIVISIONBYZERO) →
        do_divu m = .error EXITCODE_MULTIPLEEXCEPTIONERROR ∧
        do_remu m = .error EXITCODE_MULTIPLEEXCEPTIONERROR) ∧
      (∀ m', do_divu m = .ok m' ∨ do_remu m = .ok m' →
        m'.pc = m.pc ∧ m'.registers = m.registers ∧ m'.memory = m.memory ∧
        m'.exception = EXCEPTION_DIVISIONBYZERO)) ∧
    (m.registers m.rs2 ≠ 0 →
      (∃ m', do_divu m = .ok m' ∧ m'.pc = add32 m.pc 4 ∧
        m'.registers = (if m.rd = REG_ZR then m.registers
          else store_word m.registers m.rd (m.registers m.rs1 / m.registers m.rs2)) ∧
        m'.exception = m.exception ∧ m'.faulting_page = m.faulting_page ∧
        m'.trap = m.trap) ∧
      (∃ m', do_remu m = .ok m' ∧ m'.pc = add32 m.pc 4 ∧
        m'.registers = (if m.rd = REG_ZR then m.registers
          else store_word m.registers m.rd (m.registers m.rs1 % m.registers m.rs2)) ∧
        m'.exception = m.exception ∧ m'.faulting_page = m.faulting_page ∧
        m'.trap = m.trap)) := by
  constructor
  · intro hz
    have hd : do_divu m = throw_exception EXCEPTION_DIVISIONBYZERO 0 m := by
      unfold do_divu
      simp [hz]
    have hr : do_remu m = throw_exception EXCEPTION_DIVISIONBYZERO 0 m := by
      unfold do_remu
      simp [hz]
    refine ⟨hd, hr, ?_, ?_, ?_⟩
    · intro hp
      refine ⟨{ m with exception := EXCEPTION_DIVISIONBYZERO, faulting_page := 0, trap := 1 },
        ?_, ?_, rfl, rfl⟩
      · rw [hd]
        exact throw_exception_ok _ _ m hp
      · rw [hr]
        exact throw_exception_ok _ _ m hp
    · intro hp
      have h := throw_exception_fatal EXCEPTION_DIVISIONBYZERO 0 m
        (fun c => hp (Or.inl c)) (fun c => hp (Or.inr c))
      rw [hd, hr]
      exact ⟨h, h⟩
    · intro m' hm
      rw [hd, hr, or_self] at hm
      rw [throw_exception_result _ _ m m' hm]
      exact ⟨rfl, rfl, rfl, rfl⟩
  · intro hnz
    constructor
    · unfold do_divu
      rw [if_pos hnz]
      refine ⟨_, rfl, ?_⟩
      by_cases hrd : m.rd = REG_ZR <;> simp [hrd, INSTRUCTIONSIZE]
    · unfold do_remu
      rw [if_pos hnz]
      refine ⟨_, rfl, ?_⟩
      by_cases hrd : m.rd = REG_ZR <;> simp [hrd, INSTRUCTIONSIZE]

theorem is_valid_virtual_address_eq (vaddr : Nat) :
    is_valid_virtual_address vaddr ≠ 0 ↔ vaddr < 2147483648 ∧ vaddr % 4 = 0 := by
  unfold is_valid_virtual_address VIRTUALMEMORYSIZE REGISTERSIZE
  by_cases h1 : vaddr < 2147483648
  · by_cases h2 : vaddr % 4 = 0 <;> simp [h1, h2]
  · simp [h1]

theorem is_virtual_address_mapped_eq (table : Nat → Nat) (vaddr : Nat) :
    is_virtual_address_mapped table vaddr ≠ 0 ↔ table (vaddr / 4096) ≠ 0 := by
  unfold is_virtual_address_mapped is_page_mapped get_frame_for_page
    get_page_of_virtual_address PAGESIZE
  by_cases h : table (vaddr / 4096) = 0 <;> simp [h]

theorem tlb_eq (table : Nat → Nat) (vaddr : Nat) :
    tlb table vaddr = add32 (vaddr % 4096) (table (vaddr / 4096)) := by
  unfold tlb get_frame_for_page get_page_of_virtual_address PAGESIZE
  have h : sub32 vaddr (mul32 (vaddr / 4096) 4096) = vaddr % 4096 := by
    unfold sub32 mul32
    omega
  simp only [h]

theorem tlb_eq_of_frame (table : Nat → Nat) (vaddr : Nat)
    (hf : table (vaddr / 4096) + 4096 ≤ 4294967296) :
    tlb table vaddr = table (vaddr / 4096) + vaddr % 4096 := by
  rw [tlb_eq table vaddr]
  unfold add32
  omega

/-- C9: for `vaddr = rs1 + imm` (mod `2^32`), `do_lw` and `do_sw` are
`throw_exception(EXCEPTION_INVALIDADDRESS, vaddr)` exactly when `vaddr >= 2 GiB` or
`vaddr mod 4 != 0`, otherwise `throw_exception(EXCEPTION_PAGEFAULT, vaddr / 4096)`
exactly when the page-table entry of page `vaddr / 4096` is 0, and a state that
results from either exception has `pc`, registers and memory unchanged; in the
remaining case, and only then, they access the word at
`tlb(pt, vaddr) = frame(vaddr / 4096) + vaddr mod 4096` and advance `pc` by 4. -/
theorem load_store_semantics (m : Machine) :
    (¬ (add32 (m.registers m.rs1) m.imm < 2147483648 ∧
        add32 (m.registers m.rs1) m.imm % 4 = 0) →
      do_lw m = (throw_exception EXCEPTION_INVALIDADDRESS (add32 (m.registers m.rs1) m.imm) m
        ).map (fun m' => (add32 (m.registers m.rs1) m.imm, m')) ∧
      do_sw m = (throw_exception EXCEPTION_INVALIDADDRESS (add32 (m.registers m.rs1) m.imm) m
        ).map (fun m' => (add32 (m.registers m.rs1) m.imm, m')) ∧
      (∀ r, do_lw m = .ok r ∨ do_sw m = .ok r →
        r.2.exception = EXCEPTION_INVALIDADDRESS ∧
        r.2.faulting_page = add32 (m.registers m.rs1) m.imm ∧ r.2.trap = 1 ∧
        r.2.pc = m.pc ∧ r.2.registers = m.registers ∧ r.2.memory = m.memory)) ∧
    ((add32 (m.registers m.rs1) m.imm < 2147483648 ∧
        add32 (m.registers m.rs1) m.imm % 4 = 0) ∧
      m.pt (add32 (m.registers m.rs1) m.imm / 4096) = 0 →
      do_lw m = (throw_exception EXCEPTION_PAGEFAULT
        (add32 (m.registers m.rs1) m.imm / 4096) m
        ).map (fun m' => (add32 (m.registers m.rs1) m.imm, m')) ∧
      do_sw m = (throw_exception EXCEPTION_PAGEFAULT
        (add32 (m.registers m.rs1) m.imm / 4096) m
        ).map (fun m' => (add32 (m.registers m.rs1) m.imm, m')) ∧
      (∀ r, do_lw m = .ok r ∨ do_sw m = .ok r →
        r.2.exception = EXCEPTION_PAGEFAULT ∧
        r.2.faulting_page = add32 (m.registers m.rs1) m.imm / 4096 ∧ r.2.trap = 1 ∧
        r.2.pc = m.pc ∧ r.2.registers = m.registers ∧ r.2.memory = m.memory)) ∧
    ((add32 (m.registers m.rs1) m.imm < 2147483648 ∧
        add32 (m.registers m.rs1) m.imm % 4 = 0) ∧
      m.pt (add32 (m.registers m.rs1) m.imm / 4096) ≠ 0 →
      is_valid_virtual_address (add32 (m.registers m.rs1) m.imm) = 1 ∧
      is_virtual_address_mapped m.pt (add32 (m.registers m.rs1) m.imm) = 1 ∧
      tlb m.pt (add32 (m.registers m.rs1) m.imm) =
        add32 (add32 (m.registers m.rs1) m.imm % 4096)
          (m.pt (add32 (m.registers m.rs1) m.imm / 4096)) ∧
      (∃ m', do_lw m = .ok (add32 (m.registers m.rs1) m.imm, m') ∧
        m'.pc = add32 m.pc 4 ∧
        m'.registers = (if m.rd = REG_ZR then m.registers
          else store_word m.registers m.rd
            (m.memory (tlb m.pt (add32 (m.registers m.rs1) m.imm)))) ∧
        m'.memory = m.memory ∧ m'.exception = m.exception ∧ m'.trap = m.trap) ∧
      (∃ m', do_sw m = .ok (add32 (m.registers m.rs1) m.imm, m') ∧
        m'.pc = add32 m.pc 4 ∧ m'.registers = m.registers ∧
        m'.memory = store_word m.memory (tlb m.pt (add32 (m.registers m.rs1) m.imm))
          (m.registers m.rs2) ∧
        m'.exception = m.exception ∧ m'.trap = m.trap)) := by
  generalize hva : add32 (m.registers m.rs1) m.imm = vaddr
  refine ⟨?_, ?_, ?_⟩
  · intro hinv
    have hv : ¬ is_valid_virtual_address vaddr ≠ 0 :=
      fun c => hinv ((is_valid_virtual_address_eq vaddr).1 c)
    have hl : do_lw m = (throw_exception EXCEPTION_INVALIDADDRESS vaddr m).map
        (fun m' => (vaddr, m')) := by
      unfold do_lw
      simp only [hva]
      rw [if_neg hv]
      rfl
    have hs : do_sw m = (throw_exception EXCEPTION_INVALIDADDRESS vaddr m).map
        (fun m' => (vaddr, m')) := by
      unfold do_sw
      simp only [hva]
      rw [if_neg hv]
      rfl
    refine ⟨hl, hs, ?_⟩
    intro r hr
    rw [hl, hs, or_self] at hr
    cases ht : throw_exception EXCEPTION_INVALIDADDRESS vaddr m with
    | error e => rw [ht] at hr; cases hr
    | ok m' =>
      rw [ht] at hr
      have hr' : r = (vaddr, m') := (Except.ok.inj hr).symm
      rw [hr', throw_exception_result _ _ m m' ht]
      exact ⟨rfl, rfl, rfl, rfl, rfl, rfl⟩
  · intro hc
    have hv : is_valid_virtual_address vaddr ≠ 0 := (is_valid_virtual_address_eq vaddr).2 hc.1
    have hm : ¬ is_virtual_address_mapped m.pt vaddr ≠ 0 :=
      fun c => (is_virtual_address_mapped_eq m.pt vaddr).1 c hc.2
    have hl : do_lw m = (throw_exception EXCEPTION_PAGEFAULT (vaddr / 4096) m).map
        (fun m' => (vaddr, m')) := by
      unfold do_lw
      simp only [hva]
      rw [if_pos hv, if_neg hm]
      rfl
    have hs : do_sw m = (throw_exception EXCEPTION_PAGEFAULT (vaddr / 4096) m).map
        (fun m' => (vaddr, m')) := by
      unfold do_sw
      simp only [hva]
      rw [if_pos hv, if_neg hm]
      rfl
    refine ⟨hl, hs, ?_⟩
    intro r hr
    rw [hl, hs, or_self] at hr
    cases ht : throw_exception EXCEPTION_PAGEFAULT (vaddr / 4096) m with
    | error e => rw [ht] at hr; cases hr
    | ok m' =>
      rw [ht] at hr
      have hr' : r = (vaddr, m') := (Except.ok.inj hr).symm
      rw [hr', throw_exception_result _ _ m m' ht]
      exact ⟨rfl, rfl, rfl, rfl, rfl, rfl⟩
  · intro hc
    have hv : is_valid_virtual_address vaddr ≠ 0 := (is_valid_virtual_address_eq vaddr).2 hc.1
    have hm : is_virtual_address_mapped m.pt vaddr ≠ 0 :=
      (is_virtual_address_mapped_eq m.pt vaddr).2 hc.2
    refine ⟨?_, ?_, tlb_eq m.pt vaddr, ?_, ?_⟩
    · unfold is_valid_virtual_address VIRTUALMEMORYSIZE REGISTERSIZE
      simp [hc.1.1, hc.1.2]
    · unfold is_virtual_address_mapped is_page_mapped get_frame_for_page
        get_page_of_virtual_address PAGESIZE
      simp [hc.2]
    · unfold do_lw
      simp only [hva]
      rw [if_pos hv, if_pos hm]
      refine ⟨_, rfl, ?_⟩
      by_cases hrd : m.rd = REG_ZR <;>
        simp [hrd, INSTRUCTIONSIZE, load_virtual_memory]
    · unfold do_sw
      simp only [hva]
      rw [if_pos hv, if_pos hm]
      refine ⟨_, rfl, ?_⟩
      simp [INSTRUCTIONSIZE, store_virtual_memory]

/-! ## Register 0 -/

theorem store_word_ne (a : Nat → Nat) (i v j : Nat) (h : j ≠ i) : store_word a i v j = a j := by
  unfold store_word
  rw [if_neg h]

theorem do_lui_zero (m : Machine) :
    (do_lui m).registers REG_ZR = m.registers REG_ZR ∧
      (m.rd = REG_ZR → (do_lui m).registers = m.registers) := by
  unfold do_lui
  by_cases h : m.rd = REG_ZR
  · simp [h]
  · simp [h, store_word_ne _ _ _ _ (Ne.symm h)]

theorem do_addi_zero (m : Machine) :
    (do_addi m).registers REG_ZR = m.registers REG_ZR ∧
      (m.rd = REG_ZR → (do_addi m).registers = m.registers) := by
  unfold do_addi
  by_cases h : m.rd = REG_ZR
  · simp [h]
  · simp [h, store_word_ne _ _ _ _ (Ne.symm h)]

theorem do_add_zero (m : Machine) :
    (do_add m).registers REG_ZR = m.registers REG_ZR ∧
      (m.rd = REG_ZR → (do_add m).registers = m.registers) := by
  unfold do_add
  by_cases h : m.rd = REG_ZR
  · simp [h]
  · simp [h, store_word_ne _ _ _ _ (Ne.symm h)]

theorem do_sub_zero (m : Machine) :
    (do_sub m).registers REG_ZR = m.registers REG_ZR ∧
      (m.rd = REG_ZR → (do_sub m).registers = m.registers) := by
  unfold do_sub
  by_cases h : m.rd = REG_ZR
  · simp [h]
  · simp [h, store_word_ne _ _ _ _ (Ne.symm h)]

theorem do_mul_zero (m : Machine) :
    (do_mul m).registers REG_ZR = m.registers REG_ZR ∧
      (m.rd = REG_ZR → (do_mul m).registers = m.registers) := by
  unfold do_mul
  by_cases h : m.rd = REG_ZR
  · simp [h]
  · simp [h, store_word_ne _ _ _ _ (Ne.symm h)]

theorem do_sltu_zero (m : Machine) :
    (do_sltu m).registers REG_ZR = m.registers REG_ZR ∧
      (m.rd = REG_ZR → (do_sltu m).registers = m.registers) := by
  unfold do_sltu
  by_cases h : m.rd = REG_ZR
  · simp [h]
  · by_cases c : m.registers m.rs1 < m.registers m.rs2 <;>
      simp [h, c, store_word_ne _ _ _ _ (Ne.symm h)]

theorem do_jal_zero (m : Machine) :
    (do_jal m).registers REG_ZR = m.registers REG_ZR ∧
      (m.rd = REG_ZR → (do_jal m).registers = m.registers) := by
  unfold do_jal
  by_cases h : m.rd = REG_ZR
  · by_cases c : signed_less_than m.imm 0 = 0 <;> simp [h, c]
  · simp [h, store_word_ne _ _ _ _ (Ne.symm h)]

theorem do_jalr_zero (m : Machine) :
    (do_jalr m).registers REG_ZR = m.registers REG_ZR ∧
      (m.rd = REG_ZR → (do_jalr m).registers = m.registers) := by
  unfold do_jalr
  by_cases h : m.rd = REG_ZR
  · simp [h]
  · simp [h, store_word_ne _ _ _ _ (Ne.symm h)]

theorem do_beq_registers (m : Machine) : (do_beq m).registers = m.registers := by
  unfold do_beq
  by_cases c : m.registers m.rs1 = m.registers m.rs2 <;> simp [c]

theorem throw_exception_registers (e p : Nat) (m m' : Machine)
    (h : throw_exception e p m = .ok m') : m'.registers = m.registers := by
  rw [throw_exception_result e p m m' h]

theorem unknown_instruction_registers (m m' : Machine)
    (h : unknown_instruction m = .ok m') : m'.registers = m.registers := by
  unfold unknown_instruction at h
  by_cases c : m.execute ≠ 0
  · rw [if_pos c] at h
    exact throw_exception_registers _ _ m m' h
  · rw [if_neg c] at h
    cases h

theorem do_divu_zero (m m' : Machine) (h : do_divu m = .ok m') :
    m'.registers REG_ZR = m.registers REG_ZR ∧
      (m.rd = REG_ZR → m'.registers = m.registers) := by
  unfold do_divu at h
  by_cases c : m.registers m.rs2 ≠ 0
  · rw [if_pos c] at h
    have h' := (Except.ok.inj h).symm
    subst h'
    by_cases hrd : m.rd = REG_ZR
    · simp [hrd]
    · simp [hrd, store_word_ne _ _ _ _ (Ne.symm hrd)]
  · rw [if_neg c] at h
    rw [throw_exception_registers _ _ m m' h]
    exact ⟨rfl, fun _ => rfl⟩

theorem do_remu_zero (m m' : Machine) (h : do_remu m = .ok m') :
    m'.registers REG_ZR = m.registers REG_ZR ∧
      (m.rd = REG_ZR → m'.registers = m.registers) := by
  unfold do_remu at h
  by_cases c : m.registers m.rs2 ≠ 0
  · rw [if_pos c] at h
    have h' := (Except.ok.inj h).symm
    subst h'
    by_cases hrd : m.rd = REG_ZR
    · simp [hrd]
    · simp [hrd, store_word_ne _ _ _ _ (Ne.symm hrd)]
  · rw [if_neg c] at h
    rw [throw_exception_registers _ _ m m' h]
    exact ⟨rfl, fun _ => rfl⟩

theorem map_ok_inv {α β : Type} (f : α → β) (x : Except Nat α) (b : β)
    (h : x.map f = .ok b) : ∃ a, x = .ok a ∧ f a = b := by
  cases x with
  | error e => cases h
  | ok a => exact ⟨a, rfl, Except.ok.inj h⟩

theorem do_lw_zero (m : Machine) (r : Nat × Machine) (h : do_lw m = .ok r) :
    r.2.registers REG_ZR = m.registers REG_ZR ∧
      (m.rd = REG_ZR → r.2.registers = m.registers) := by
  unfold do_lw at h
  simp only [] at h
  by_cases hv : is_valid_virtual_address (add32 (m.registers m.rs1) m.imm) ≠ 0
  · rw [if_pos hv] at h
    by_cases hm : is_virtual_address_mapped m.pt (add32 (m.registers m.rs1) m.imm) ≠ 0
    · rw [if_pos hm] at h
      have h' := (Except.ok.inj h).symm
      subst h'
      by_cases hrd : m.rd = REG_ZR
      · simp [hrd]
      · simp [hrd, store_word_ne _ _ _ _ (Ne.symm hrd)]
    · rw [if_neg hm] at h
      cases ht : throw_exception EXCEPTION_PAGEFAULT
          (get_page_of_virtual_address (add32 (m.registers m.rs1) m.imm)) m with
      | error e => rw [ht] at h; cases h
      | ok m'' =>
        rw [ht] at h
        have h' : r = (add32 (m.registers m.rs1) m.imm, m'') := (Except.ok.inj h).symm
        rw [h', throw_exception_registers _ _ m m'' ht]
        exact ⟨rfl, fun _ => rfl⟩
  · rw [if_neg hv] at h
    cases ht : throw_exception EXCEPTION_INVALIDADDRESS (add32 (m.registers m.rs1) m.imm) m with
    | error e => rw [ht] at h; cases h
    | ok m'' =>
      rw [ht] at h
      have h' : r = (add32 (m.registers m.rs1) m.imm, m'') := (Except.ok.inj h).symm
      rw [h', throw_exception_registers _ _ m m'' ht]
      exact ⟨rfl, fun _ => rfl⟩

theorem do_sw_registers (m : Machine) (r : Nat × Machine) (h : do_sw m = .ok r) :
    r.2.registers = m.registers := by
  unfold do_sw at h
  simp only [] at h
  by_cases hv : is_valid_virtual_address (add32 (m.registers m.rs1) m.imm) ≠ 0
  · rw [if_pos hv] at h
    by_cases hm : is_virtual_address_mapped m.pt (add32 (m.registers m.rs1) m.imm) ≠ 0
    · rw [if_pos hm] at h
      have h' := (Except.ok.inj h).symm
      subst h'
      rfl
    · rw [if_neg hm] at h
      cases ht : throw_exception EXCEPTION_PAGEFAULT
          (get_page_of_virtual_address (add32 (m.registers m.rs1) m.imm)) m with
      | error e => rw [ht] at h; cases h
      | ok m'' =>
        rw [ht] at h
        have h' : r = (add32 (m.registers m.rs1) m.imm, m'') := (Except.ok.inj h).symm
        rw [h', throw_exception_registers _ _ m m'' ht]
  · rw [if_neg hv] at h
    cases ht : throw_exception EXCEPTION_INVALIDADDRESS (add32 (m.registers m.rs1) m.imm) m with
    | error e => rw [ht] at h; cases h
    | ok m'' =>
      rw [ht] at h
      have h' : r = (add32 (m.registers m.rs1) m.imm, m'') := (Except.ok.inj h).symm
      rw [h', throw_exception_registers _ _ m m'' ht]

theorem bind_snd_ok_inv (x : Except Nat (Nat × Machine)) (m' : Machine)
    (h : (do let r ← x; pure r.2) = Except.ok m') : ∃ r, x = .ok r ∧ r.2 = m' := by
  cases x with
  | error e => cases h
  | ok r => exact ⟨r, rfl, Except.ok.inj h⟩

theorem decode_execute_imm (isw : Machine → Except Nat Machine) (m : Machine)
    (h : get_opcode m.ir = OP_IMM) :
    decode_execute isw m =
      if get_funct3 m.ir = F3_ADDI then
        .ok (do_addi (decode_i_format { m with opcode := OP_IMM }))
      else unknown_instruction (decode_i_format { m with opcode := OP_IMM }) := by
  unfold decode_execute
  simp only [h]
  rfl

theorem decode_execute_lw (isw : Machine → Except Nat Machine) (m : Machine)
    (h : get_opcode m.ir = OP_LW) :
    decode_execute isw m =
      if get_funct3 m.ir = F3_LW then
        (do let r ← do_lw (decode_i_format { m with opcode := OP_LW }); pure r.2)
      else unknown_instruction (decode_i_format { m with opcode := OP_LW }) := by
  unfold decode_execute
  simp only [h]
  rfl

theorem decode_execute_sw (isw : Machine → Except Nat Machine) (m : Machine)
    (h : get_opcode m.ir = OP_SW) :
    decode_execute isw m =
      if get_funct3 m.ir = F3_SW then
        (do let r ← do_sw (decode_s_format { m with opcode := OP_SW }); pure r.2)
      else unknown_instruction (decode_s_format { m with opcode := OP_SW }) := by
  unfold decode_execute
  simp only [h]
  rfl

theorem decode_execute_op (isw : Machine → Except Nat Machine) (m : Machine)
    (h : get_opcode m.ir = OP_OP) :
    decode_execute isw m =
      if get_funct3 m.ir = F3_ADD then
        if get_funct7 m.ir = F7_ADD then .ok (do_add (decode_r_format { m with opcode := OP_OP }))
        else if get_funct7 m.ir = F7_SUB then
          .ok (do_sub (decode_r_format { m with opcode := OP_OP }))
        else if get_funct7 m.ir = F7_MUL then
          .ok (do_mul (decode_r_format { m with opcode := OP_OP }))
        else unknown_instruction (decode_r_format { m with opcode := OP_OP })
      else if get_funct3 m.ir = F3_DIVU then
        if get_funct7 m.ir = F7_DIVU then do_divu (decode_r_format { m with opcode := OP_OP })
        else unknown_instruction (decode_r_format { m with opcode := OP_OP })
      else if get_funct3 m.ir = F3_REMU then
        if get_funct7 m.ir = F7_REMU then do_remu (decode_r_format { m with opcode := OP_OP })
        else unknown_instruction (decode_r_format { m with opcode := OP_OP })
      else if get_funct3 m.ir = F3_SLTU then
        if get_funct7 m.ir = F7_SLTU then
          .ok (do_sltu (decode_r_format { m with opcode := OP_OP }))
        else unknown_instruction (decode_r_format { m with opcode := OP_OP })
      else unknown_instruction (decode_r_format { m with opcode := OP_OP }) := by
  unfold decode_execute
  simp only [h]
  rfl

theorem decode_execute_branch (isw : Machine → Except Nat Machine) (m : Machine)
    (h : get_opcode m.ir = OP_BRANCH) :
    decode_execute isw m =
      if get_funct3 m.ir = F3_BEQ then
        .ok (do_beq (decode_b_format { m with opcode := OP_BRANCH }))
      else unknown_instruction (decode_b_format { m with opcode := OP_BRANCH }) := by
  unfold decode_execute
  simp only [h]
  rfl

theorem decode_execute_jal (isw : Machine → Except Nat Machine) (m : Machine)
    (h : get_opcode m.ir = OP_JAL) :
    decode_execute isw m = .ok (do_jal (decode_j_format { m with opcode := OP_JAL })) := by
  unfold decode_execute
  simp only [h]
  rfl

theorem decode_execute_jalr (isw : Machine → Except Nat Machine) (m : Machine)
    (h : get_opcode m.ir = OP_JALR) :
    decode_execute isw m =
      if get_funct3 m.ir = F3_JALR then
        .ok (do_jalr (decode_i_format { m with opcode := OP_JALR }))
      else unknown_instruction (decode_i_format { m with opcode := OP_JALR }) := by
  unfold decode_execute
  simp only [h]
  rfl

theorem decode_execute_lui (isw : Machine → Except Nat Machine) (m : Machine)
    (h : get_opcode m.ir = OP_LUI) :
    decode_execute isw m = .ok (do_lui (decode_u_format { m with opcode := OP_LUI })) := by
  unfold decode_execute
  simp only [h]
  rfl

theorem decode_execute_system (isw : Machine → Except Nat Machine) (m : Machine)
    (h : get_opcode m.ir = OP_SYSTEM) :
    decode_execute isw m =
      if get_funct3 m.ir = F3_ECALL then
        do_ecall isw (decode_i_format { m with opcode := OP_SYSTEM })
      else unknown_instruction (decode_i_format { m with opcode := OP_SYSTEM }) := by
  unfold decode_execute
  simp only [h]
  rfl

theorem decode_execute_other (isw : Machine → Except Nat Machine) (m : Machine)
    (h1 : get_opcode m.ir ≠ OP_IMM) (h2 : get_opcode m.ir ≠ OP_LW)
    (h3 : get_opcode m.ir ≠ OP_SW) (h4 : get_opcode m.ir ≠ OP_OP)
    (h5 : get_opcode m.ir ≠ OP_BRANCH) (h6 : get_opcode m.ir ≠ OP_JAL)
    (h7 : get_opcode m.ir ≠ OP_JALR) (h8 : get_opcode m.ir ≠ OP_LUI)
    (h9 : get_opcode m.ir ≠ OP_SYSTEM) :
    decode_execute isw m = unknown_instruction { m with opcode := get_opcode m.ir } := by
  unfold decode_execute
  simp only [h1, h2, h3, h4, h5, h6, h7, h8, h9, if_false]

/-- One step of `decode_execute` on an instruction word other than `ecall`: register
0 keeps its value and, when the `rd` field of the word is 0, no register changes. -/
theorem decode_execute_zero (isw : Machine → Except Nat Machine) (m m' : Machine)
    (hop : get_opcode m.ir ≠ OP_SYSTEM) (h : decode_execute isw m = .ok m') :
    m'.registers REG_ZR = m.registers REG_ZR ∧
      (get_rd m.ir = REG_ZR → m'.registers = m.registers) := by
  have hu : ∀ m1 : Machine, unknown_instruction m1 = .ok m' → m1.registers = m.registers →
      m'.registers REG_ZR = m.registers REG_ZR ∧
        (get_rd m.ir = REG_ZR → m'.registers = m.registers) := by
    intro m1 h2 h1
    rw [unknown_instruction_registers m1 m' h2, h1]
    exact ⟨rfl, fun _ => rfl⟩
  by_cases c1 : get_opcode m.ir = OP_IMM
  · rw [decode_execute_imm isw m c1] at h
    split at h
    · rw [← Except.ok.inj h]
      exact do_addi_zero _
    · exact hu _ h rfl
  by_cases c2 : get_opcode m.ir = OP_LW
  · rw [decode_execute_lw isw m c2] at h
    split at h
    · obtain ⟨r, hr, e⟩ := bind_snd_ok_inv _ m' h
      rw [← e]
      exact do_lw_zero _ r hr
    · exact hu _ h rfl
  by_cases c3 : get_opcode m.ir = OP_SW
  · rw [decode_execute_sw isw m c3] at h
    split at h
    · obtain ⟨r, hr, e⟩ := bind_snd_ok_inv _ m' h
      rw [← e, do_sw_registers _ r hr]
      exact ⟨rfl, fun _ => rfl⟩
    · exact hu _ h rfl
  by_cases c4 : get_opcode m.ir = OP_OP
  · rw [decode_execute_op isw m c4] at h
    split at h
    · split at h
      · rw [← Except.ok.inj h]
        exact do_add_zero _
      · split at h
        · rw [← Except.ok.inj h]
          exact do_sub_zero _
        · split at h
          · rw [← Except.ok.inj h]
            exact do_mul_zero _
          · exact hu _ h rfl
    · split at h
      · split at h
        · exact do_divu_zero _ m' h
        · exact hu _ h rfl
      · split at h
        · split at h
          · exact do_remu_zero _ m' h
          · exact hu _ h rfl
        · split at h
          · split at h
            · rw [← Except.ok.inj h]
              exact do_sltu_zero _
            · exact hu _ h rfl
          · exact hu _ h rfl
  by_cases c5 : get_opcode m.ir = OP_BRANCH
  · rw [decode_execute_branch isw m c5] at h
    split at h
    · rw [← Except.ok.inj h, do_beq_registers]
      exact ⟨rfl, fun _ => rfl⟩
    · exact hu _ h rfl
  by_cases c6 : get_opcode m.ir = OP_JAL
  · rw [decode_execute_jal isw m c6] at h
    rw [← Except.ok.inj h]
    exact do_jal_zero _
  by_cases c7 : get_opcode m.ir = OP_JALR
  · rw [decode_execute_jalr isw m c7] at h
    split at h
    · rw [← Except.ok.inj h]
      exact do_jalr_zero _
    · exact hu _ h rfl
  by_cases c8 : get_opcode m.ir = OP_LUI
  · rw [decode_execute_lui isw m c8] at h
    rw [← Except.ok.inj h]
    exact do_lui_zero _
  rw [decode_execute_other isw m c1 c2 c3 c4 c5 c6 c7 c8 hop] at h
  exact hu _ h rfl

theorem throw_exception_total (e p : Nat) (m : Machine)
    (h : m.exception = EXCEPTION_NOEXCEPTION) : ∃ m', throw_exception e p m = .ok m' :=
  ⟨_, throw_exception_ok e p m (Or.inl h)⟩

theorem unknown_instruction_total (m : Machine) (h : m.exception = EXCEPTION_NOEXCEPTION)
    (he : m.execute ≠ 0) : ∃ m', unknown_instruction m = .ok m' := by
  unfold unknown_instruction
  rw [if_pos he]
  exact throw_exception_total _ _ m h

theorem do_lw_total (m : Machine) (h : m.exception = EXCEPTION_NOEXCEPTION) :
    ∃ m', (do let r ← do_lw m; pure r.2) = Except.ok m' := by
  unfold do_lw
  simp only []
  split
  · split
    · exact ⟨_, rfl⟩
    · obtain ⟨m', hm'⟩ := throw_exception_total EXCEPTION_PAGEFAULT
        (get_page_of_virtual_address (add32 (m.registers m.rs1) m.imm)) m h
      rw [hm']
      exact ⟨_, rfl⟩
  · obtain ⟨m', hm'⟩ := throw_exception_total EXCEPTION_INVALIDADDRESS
      (add32 (m.registers m.rs1) m.imm) m h
    rw [hm']
    exact ⟨_, rfl⟩

theorem do_sw_total (m : Machine) (h : m.exception = EXCEPTION_NOEXCEPTION) :
    ∃ m', (do let r ← do_sw m; pure r.2) = Except.ok m' := by
  unfold do_sw
  simp only []
  split
  · split
    · exact ⟨_, rfl⟩
    · obtain ⟨m', hm'⟩ := throw_exception_total EXCEPTION_PAGEFAULT
        (get_page_of_virtual_address (add32 (m.registers m.rs1) m.imm)) m h
      rw [hm']
      exact ⟨_, rfl⟩
  · obtain ⟨m', hm'⟩ := throw_exception_total EXCEPTION_INVALIDADDRESS
      (add32 (m.registers m.rs1) m.imm) m h
    rw [hm']
    exact ⟨_, rfl⟩

theorem do_divu_total (m : Machine) (h : m.exception = EXCEPTION_NOEXCEPTION) :
    ∃ m', do_divu m = .ok m' := by
  unfold do_divu
  split
  · exact ⟨_, rfl⟩
  · exact throw_exception_total _ _ m h

theorem do_remu_total (m : Machine) (h : m.exception = EXCEPTION_NOEXCEPTION) :
    ∃ m', do_remu m = .ok m' := by
  unfold do_remu
  split
  · exact ⟨_, rfl⟩
  · exact throw_exception_total _ _ m h

/-- One step of `decode_execute` on an instruction word other than `ecall` returns
when no exception is pending and the emulator is executing. -/
theorem decode_execute_total (isw : Machine → Except Nat Machine) (m : Machine)
    (hop : get_opcode m.ir ≠ OP_SYSTEM) (h : m.exception = EXCEPTION_NOEXCEPTION)
    (he : m.execute ≠ 0) : ∃ m', decode_execute isw m = .ok m' := by
  by_cases c1 : get_opcode m.ir = OP_IMM
  · rw [decode_execute_imm isw m c1]
    split
    · exact ⟨_, rfl⟩
    · exact unknown_instruction_total _ h he
  by_cases c2 : get_opcode m.ir = OP_LW
  · rw [decode_execute_lw isw m c2]
    split
    · exact do_lw_total _ h
    · exact unknown_instruction_total _ h he
  by_cases c3 : get_opcode m.ir = OP_SW
  · rw [decode_execute_sw isw m c3]
    split
    · exact do_sw_total _ h
    · exact unknown_instruction_total _ h he
  by_cases c4 : get_opcode m.ir = OP_OP
  · rw [decode_execute_op isw m c4]
    split
    · split
      · exact ⟨_, rfl⟩
      · split
        · exact ⟨_, rfl⟩
        · split
          · exact ⟨_, rfl⟩
          · exact unknown_instruction_total _ h he
    · split
      · split
        · exact do_divu_total _ h
        · exact unknown_instruction_total _ h he
      · split
        · split
          · exact do_remu_total _ h
          · exact unknown_instruction_total _ h he
        · split
          · split
            · exact ⟨_, rfl⟩
            · exact unknown_instruction_total _ h he
          · exact unknown_instruction_total _ h he
  by_cases c5 : get_opcode m.ir = OP_BRANCH
  · rw [decode_execute_branch isw m c5]
    split
    · exact ⟨_, rfl⟩
    · exact unknown_instruction_total _ h he
  by_cases c6 : get_opcode m.ir = OP_JAL
  · rw [decode_execute_jal isw m c6]
    exact ⟨_, rfl⟩
  by_cases c7 : get_opcode m.ir = OP_JALR
  · rw [decode_execute_jalr isw m c7]
    split
    · exact ⟨_, rfl⟩
    · exact unknown_instruction_total _ h he
  by_cases c8 : get_opcode m.ir = OP_LUI
  · rw [decode_execute_lui isw m c8]
    exact ⟨_, rfl⟩
  rw [decode_execute_other isw m c1 c2 c3 c4 c5 c6 c7 c8 hop]
  exact unknown_instruction_total _ h he

/-- C6: for every machine state in which register `x0` holds 0 and every
instruction word that is not an `ecall`, one step of `decode_execute` without
debugging (`do_lui`, `do_addi`, `do_add`, `do_sub`, `do_mul`, `do_divu`, `do_remu`,
`do_sltu`, `do_lw`, `do_jal`, `do_jalr`, also `do_sw`, `do_beq` and an unknown
instruction) leaves `x0` equal to 0 and, when the `rd` field of the word is 0,
leaves every register unchanged; the step returns whenever no exception is pending
and the emulator is executing. -/
theorem register_zero_is_hard_zero (isw : Machine → Except Nat Machine) (m : Machine)
    (h0 : m.registers REG_ZR = 0) (hop : get_opcode m.ir ≠ OP_SYSTEM) :
    (∀ m', decode_execute isw m = .ok m' →
      m'.registers REG_ZR = 0 ∧ (get_rd m.ir = REG_ZR → m'.registers = m.registers)) ∧
    (m.exception = EXCEPTION_NOEXCEPTION → m.execute ≠ 0 →
      ∃ m', decode_execute isw m = .ok m') := by
  refine ⟨fun m' h => ?_, fun hx he => decode_execute_total isw m hop hx he⟩
  obtain ⟨h1, h2⟩ := decode_execute_zero isw m m' hop h
  exact ⟨h1.trans h0, h2⟩

/-- Witness for C6: `addi x0,x0,1` (word `0x00100013`) with 7 in every register but
`x0` changes no register. -/
theorem register_zero_is_hard_zero_witness :
    ∃ m', decode_execute (fun m => .ok m)
        { zero_machine with ir := 1048595, execute := 1,
                            registers := fun r => if r = 0 then 0 else 7 } = .ok m' ∧
      m'.registers REG_ZR = 0 ∧
      m'.registers = fun r => if r = 0 then 0 else 7 := by
  have h := register_zero_is_hard_zero (fun m => .ok m)
    { zero_machine with ir := 1048595, execute := 1,
                        registers := fun r => if r = 0 then 0 else 7 } rfl (by decide)
  obtain ⟨m', hm'⟩ := h.2 rfl (by decide)
  exact ⟨m', hm', (h.1 m' hm').1, (h.1 m' hm').2 (by decide)⟩

/-! ## The kernel loop on an unknown instruction -/

theorem run_loop_trapped (isw : Machine → Except Nat Machine) (fuel : Nat) (m : Machine)
    (h : m.trap ≠ 0) : run_loop isw fuel m = .ok (some m) := by
  cases fuel with
  | zero => unfold run_loop; rw [if_neg h]
  | succ n => unfold run_loop; rw [if_neg h]

theorem decode_execute_zero_word (isw : Machine → Except Nat Machine) (m : Machine)
    (hir : m.ir = 0) (he : m.execute ≠ 0) (hx : m.exception = EXCEPTION_NOEXCEPTION) :
    ∃ m', decode_execute isw m = .ok m' ∧ m'.exception = EXCEPTION_UNKNOWNINSTRUCTION ∧
      m'.trap = 1 ∧ m'.timer = m.timer ∧ m'.parent = m.parent ∧
      m'.registers = m.registers ∧ m'.pc = m.pc := by
  have hop : get_opcode m.ir = 0 := by rw [hir]; decide
  rw [decode_execute_other isw m (by rw [hop]; decide) (by rw [hop]; decide)
    (by rw [hop]; decide) (by rw [hop]; decide) (by rw [hop]; decide) (by rw [hop]; decide)
    (by rw [hop]; decide) (by rw [hop]; decide) (by rw [hop]; decide)]
  unfold unknown_instruction
  rw [if_pos he]
  exact ⟨_, throw_exception_ok _ _ _ (Or.inl hx), rfl, rfl, rfl, rfl, rfl, rfl⟩

theorem interrupt_timeslice (m : Machine) (ht : m.timer = TIMESLICE) :
    ∃ m', interrupt m = .ok m' ∧ m'.exception = m.exception ∧ m'.trap = m.trap ∧
      m'.parent = m.parent ∧ m'.registers = m.registers ∧ m'.pc = m.pc := by
  unfold interrupt
  rw [if_pos (by rw [ht]; decide)]
  simp only []
  have h1 : sub32 m.timer 1 = 9999999 := by rw [ht]; decide
  rw [h1, if_neg (by decide)]
  exact ⟨_, rfl, rfl, rfl, rfl, rfl, rfl⟩

theorem run_until_exception_zero_word (isw : Machine → Except Nat Machine) (fuel : Nat)
    (m : Machine) (hx : m.exception = EXCEPTION_NOEXCEPTION) (he : m.execute ≠ 0)
    (ht : m.timer = TIMESLICE) (hw : load_virtual_memory m.memory m.pt m.pc = 0) :
    ∃ m', run_until_exception isw (fuel + 1) m = .ok (some m') ∧
      m'.exception = EXCEPTION_UNKNOWNINSTRUCTION ∧ m'.parent = m.parent ∧
      m'.registers = m.registers ∧ m'.pc = m.pc := by
  obtain ⟨m1, hd, x1, t1, ti1, p1, r1, c1⟩ :=
    decode_execute_zero_word isw (fetch { m with trap := 0 }) hw he hx
  obtain ⟨m2, hi, x2, t2, p2, r2, c2⟩ := interrupt_timeslice m1 (ti1.trans ht)
  have hl : run_loop isw (fuel + 1) { m with trap := 0 } = .ok (some m2) := by
    unfold run_loop
    rw [if_pos rfl]
    show (decode_execute isw (fetch { m with trap := 0 }) >>= fun m1 =>
      interrupt m1 >>= fun m2 => run_loop isw fuel m2) = _
    rw [hd]
    show (interrupt m1 >>= fun m2 => run_loop isw fuel m2) = _
    rw [hi]
    show run_loop isw fuel m2 = _
    exact run_loop_trapped isw fuel m2 (by rw [t2, t1]; decide)
  refine ⟨{ m2 with trap := 0 }, ?_, x2.trans x1, p2.trans p1, r2.trans r1, c2.trans c1⟩
  unfold run_until_exception
  rw [hl]
  rfl

theorem handle_exception_unknown_instruction (k : Kernel) (m : Machine)
    (h : m.exception = EXCEPTION_UNKNOWNINSTRUCTION) :
    ∃ m', handle_exception k m = .ok (EXIT, m') ∧
      m'.exit_code = EXITCODE_UNCAUGHTEXCEPTION := by
  unfold handle_exception
  rw [h]
  exact ⟨_, rfl, rfl⟩

theorem mipster_switch_eq (k : Kernel) (fuel : Nat) (m m0 m1 m2 : Machine)
    (to_context timeout : Nat) (hs : do_switch k m to_context timeout = .ok m0)
    (hr : run_until_exception k.implement_switch fuel m0 = .ok (some m1))
    (hc : save_context k m1 = .ok m2) :
    mipster_switch k fuel m to_context timeout = .ok (some m2) := by
  unfold mipster_switch
  rw [hs]
  show (run_until_exception k.implement_switch fuel m0 >>= _) = _
  rw [hr]
  show (save_context k m1 >>= _) = _
  rw [hc]
  rfl

theorem mipster_loop_exit (k : Kernel) (fuel rounds : Nat) (m m1 m2 : Machine)
    (to_context timeout : Nat)
    (hsw : mipster_switch k fuel m to_context timeout = .ok (some m1))
    (hp : m1.parent = MY_CONTEXT) (hh : handle_exception k m1 = .ok (EXIT, m2)) :
    mipster_loop k fuel (rounds + 1) m to_context timeout = .ok (some m2.exit_code) := by
  unfold mipster_loop
  rw [hsw]
  show (if ¬ m1.parent = MY_CONTEXT then _ else _) = _
  rw [if_neg (fun c => c hp)]
  show (handle_exception k m1 >>= _) = _
  rw [hh]
  rfl

theorem save_context_boot (k : Kernel) (m : Machine) (hp : m.parent = MY_CONTEXT) :
    ∃ m', save_context k m = .ok m' ∧ m'.exception = m.exception ∧ m'.parent = m.parent := by
  unfold save_context
  simp only []
  rw [if_neg (fun c => c hp)]
  exact ⟨_, rfl, rfl, rfl⟩

theorem do_switch_boot (k : Kernel) (m : Machine) (timeout : Nat)
    (hp : m.parent = MY_CONTEXT) :
    ∃ m', do_switch k m m.current_context timeout = .ok m' ∧ m'.pc = m.context_pc ∧
      m'.timer = timeout ∧ m'.memory = m.memory ∧ m'.pt = m.pt ∧
      m'.exception = m.exception ∧ m'.parent = m.parent ∧ m'.execute = m.execute := by
  unfold do_switch
  rw [if_pos ⟨rfl, hp⟩]
  exact ⟨_, rfl, rfl, rfl, rfl, rfl, rfl, rfl, rfl⟩

/-- On a boot-level context without pending exception whose next instruction word
is `0x00000000`, `mipster` returns `EXITCODE_UNCAUGHTEXCEPTION`. -/
theorem mipster_zero_word (k : Kernel) (fuel : Nat) (m : Machine)
    (hpar : m.parent = MY_CONTEXT) (hx : m.exception = EXCEPTION_NOEXCEPTION)
    (he : m.execute ≠ 0)
    (hw : load_virtual_memory m.memory m.pt m.context_pc = 0) :
    mipster k (fuel + 1) m m.current_context = .ok (some EXITCODE_UNCAUGHTEXCEPTION) := by
  obtain ⟨m0, hs, pc0, t0, mem0, pt0, x0, p0, e0⟩ := do_switch_boot k m TIMESLICE hpar
  obtain ⟨m1, hr, x1, p1, -, -⟩ := run_until_exception_zero_word k.implement_switch fuel m0
    (x0.trans hx) (by rw [e0]; exact he) t0 (by rw [mem0, pt0, pc0]; exact hw)
  have hp1 : m1.parent = MY_CONTEXT := p1.trans (p0.trans hpar)
  obtain ⟨m2, hc, x2, p2⟩ := save_context_boot k m1 hp1
  obtain ⟨m3, hh, c3⟩ := handle_exception_unknown_instruction k m2 (x2.trans x1)
  have h := mipster_loop_exit k (fuel + 1) fuel m m2 m3 m.current_context TIMESLICE
    (mipster_switch_eq k (fuel + 1) m m0 m1 m2 _ _ hs hr hc) (p2.trans hp1) hh
  unfold mipster
  rw [h, c3]

/-- C10 (as amended): when the first instruction word of the loaded binary is
`0x00000000`, that is, the word at the `pc` of a boot-level context without pending
exception, `mipster` (`decode_execute` raising `UNKNOWNINSTRUCTION`, then
`handle_exception`, which has no handler for it) returns the exit code
`EXITCODE_UNCAUGHTEXCEPTION` (14), whatever the parameters of the kernel do. -/
theorem mipster_unknown_instruction_exit_code (k : Kernel) (fuel : Nat) (m : Machine)
    (hpar : m.parent = MY_CONTEXT) (hx : m.exception = EXCEPTION_NOEXCEPTION)
    (he : m.execute ≠ 0)
    (hw : load_virtual_memory m.memory m.pt m.context_pc = 0) :
    mipster k (fuel + 1) m m.current_context = .ok (some EXITCODE_UNCAUGHTEXCEPTION) ∧
      EXITCODE_UNCAUGHTEXCEPTION = 14 :=
  ⟨mipster_zero_word k fuel m hpar hx he hw, rfl⟩

/-- Witness for C10 (as amended): the binary whose code page is all zero. -/
theorem mipster_unknown_instruction_exit_code_witness :
    mipster idle_kernel 1 unknown_opcode_machine 4096 = .ok (some 14) :=
  (mipster_unknown_instruction_exit_code idle_kernel 0 unknown_opcode_machine rfl rfl
    (by decide) (by decide)).1

/-- Counterexample to C10 as stated: on the binary whose code page is all zero,
`mipster` returns `EXITCODE_UNCAUGHTEXCEPTION`, which is not
`EXITCODE_UNKNOWNINSTRUCTION`. -/
theorem mipster_unknown_instruction_not_exit_code_9 :
    get_opcode (load_virtual_memory unknown_opcode_machine.memory unknown_opcode_machine.pt
      unknown_opcode_machine.entry_point) = 0 ∧
    mipster idle_kernel 1 unknown_opcode_machine unknown_opcode_machine.current_context ≠
      .ok (some EXITCODE_UNKNOWNINSTRUCTION) := by
  refine ⟨by decide, ?_⟩
  rw [mipster_zero_word idle_kernel 0 unknown_opcode_machine rfl rfl (by decide) (by decide)]
  intro h
  exact absurd (Option.some.inj (Except.ok.inj h)) (by decide)

/-! ## The code emitted for comparisons -/

theorem interrupt_preserves (m : Machine) :
    ∃ m', interrupt m = .ok m' ∧ m'.registers = m.registers ∧ m'.pc = m.pc ∧
      m'.memory = m.memory ∧ m'.pt = m.pt := by
  by_cases h1 : m.timer ≠ TIMEROFF
  · by_cases h2 : sub32 m.timer 1 = 0
    · by_cases h3 : m.exception = EXCEPTION_NOEXCEPTION
      · have e : interrupt m =
            throw_exception EXCEPTION_TIMER 0 { m with timer := sub32 m.timer 1 } := by
          unfold interrupt
          rw [if_pos h1]
          show (if sub32 m.timer 1 = 0 then
            if m.exception = EXCEPTION_NOEXCEPTION then _ else _ else _) = _
          rw [if_pos h2, if_pos h3]
        rw [e, throw_exception_ok EXCEPTION_TIMER 0 { m with timer := sub32 m.timer 1 } (Or.inl h3)]
        exact ⟨_, rfl, rfl, rfl, rfl, rfl⟩
      · have e : interrupt m =
            .ok { { m with timer := sub32 m.timer 1 } with timer := 1 } := by
          unfold interrupt
          rw [if_pos h1]
          show (if sub32 m.timer 1 = 0 then
            if m.exception = EXCEPTION_NOEXCEPTION then _ else _ else _) = _
          rw [if_pos h2, if_neg h3]
        rw [e]
        exact ⟨_, rfl, rfl, rfl, rfl, rfl⟩
    · have e : interrupt m = .ok { m with timer := sub32 m.timer 1 } := by
        unfold interrupt
        rw [if_pos h1]
        show (if sub32 m.timer 1 = 0 then _ else _) = _
        rw [if_neg h2]
      rw [e]
      exact ⟨_, rfl, rfl, rfl, rfl, rfl⟩
  · have e : interrupt m = .ok m := by
      unfold interrupt
      rw [if_neg h1]
    rw [e]
    exact ⟨_, rfl, rfl, rfl, rfl, rfl⟩

theorem step_of_decode_execute (isw : Machine → Except Nat Machine) (m m1 : Machine)
    (h : decode_execute isw (fetch m) = .ok m1) :
    ∃ m', step isw m = .ok m' ∧ m'.registers = m1.registers ∧ m'.pc = m1.pc ∧
      m'.memory = m1.memory ∧ m'.pt = m1.pt := by
  obtain ⟨m2, hi, r2, p2, mem2, pt2⟩ := interrupt_preserves m1
  refine ⟨m2, ?_, r2, p2, mem2, pt2⟩
  unfold step
  show (decode_execute isw (fetch m) >>= _) = _
  rw [h]
  exact hi

theorem do_sub_eq (m : Machine) :
    (do_sub m).registers = (if m.rd ≠ REG_ZR then
        store_word m.registers m.rd (sub32 (m.registers m.rs1) (m.registers m.rs2))
      else m.registers) ∧
    (do_sub m).pc = add32 m.pc 4 ∧ (do_sub m).memory = m.memory ∧ (do_sub m).pt = m.pt := by
  unfold do_sub
  by_cases h : m.rd = REG_ZR <;> simp [h, INSTRUCTIONSIZE]

theorem do_addi_eq (m : Machine) :
    (do_addi m).registers = (if m.rd ≠ REG_ZR then
        store_word m.registers m.rd (add32 (m.registers m.rs1) m.imm)
      else m.registers) ∧
    (do_addi m).pc = add32 m.pc 4 ∧ (do_addi m).memory = m.memory ∧
      (do_addi m).pt = m.pt := by
  unfold do_addi
  by_cases h : m.rd = REG_ZR <;> simp [h, INSTRUCTIONSIZE]

theorem do_sltu_eq (m : Machine) :
    (do_sltu m).registers = (if m.rd ≠ REG_ZR then
        store_word m.registers m.rd (if m.registers m.rs1 < m.registers m.rs2 then 1 else 0)
      else m.registers) ∧
    (do_sltu m).pc = add32 m.pc 4 ∧ (do_sltu m).memory = m.memory ∧
      (do_sltu m).pt = m.pt := by
  unfold do_sltu
  by_cases h : m.rd = REG_ZR
  · simp [h, INSTRUCTIONSIZE]
  · by_cases c : m.registers m.rs1 < m.registers m.rs2 <;> simp [h, c, INSTRUCTIONSIZE]

theorem step_sub (isw : Machine → Except Nat Machine) (m : Machine) (rd rs1 rs2 : Nat)
    (hd : rd < 32) (h1 : rs1 < 32) (h2 : rs2 < 32) (hz : rd ≠ REG_ZR)
    (hw : load_virtual_memory m.memory m.pt m.pc =
      encode_r_format F7_SUB rs2 rs1 F3_SUB rd OP_OP) :
    ∃ m', step isw m = .ok m' ∧
      m'.registers = store_word m.registers rd (sub32 (m.registers rs1) (m.registers rs2)) ∧
      m'.pc = add32 m.pc 4 ∧ m'.memory = m.memory ∧ m'.pt = m.pt := by
  obtain ⟨e7, e2, e1, e3, ed, eo⟩ := r_format_round_trip F7_SUB rs2 rs1 F3_SUB rd OP_OP
    (by decide) h2 h1 (by decide) hd (by decide)
  have hir : (fetch m).ir = encode_r_format F7_SUB rs2 rs1 F3_SUB rd OP_OP := hw
  have f3 : get_funct3 (fetch m).ir = F3_SUB := by rw [hir]; exact e3
  have f7 : get_funct7 (fetch m).ir = F7_SUB := by rw [hir]; exact e7
  have hX : ∃ X : Machine, decode_execute isw (fetch m) = .ok (do_sub X) ∧ X.rd = rd ∧
      X.rs1 = rs1 ∧ X.rs2 = rs2 ∧ X.registers = m.registers ∧ X.pc = m.pc ∧
      X.memory = m.memory ∧ X.pt = m.pt := by
    refine ⟨decode_r_format { fetch m with opcode := OP_OP }, ?_, ?_, ?_, ?_, rfl, rfl, rfl, rfl⟩
    · rw [decode_execute_op isw (fetch m) (by rw [hir]; exact eo),
        f3,
        f7,
        if_pos (show F3_SUB = F3_ADD by decide), if_neg (show F7_SUB ≠ F7_ADD by decide),
        if_pos (show F7_SUB = F7_SUB from rfl)]
    · show get_rd (fetch m).ir = rd
      rw [hir]; exact ed
    · show get_rs1 (fetch m).ir = rs1
      rw [hir]; exact e1
    · show get_rs2 (fetch m).ir = rs2
      rw [hir]; exact e2
  obtain ⟨X, hde, xd, x1, x2, xr, xp, xm, xt⟩ := hX
  obtain ⟨dr, dp, dm, dt⟩ := do_sub_eq X
  obtain ⟨m', hs, r', p', mem', pt'⟩ := step_of_decode_execute isw m _ hde
  refine ⟨m', hs, ?_, by rw [p', dp, xp], by rw [mem', dm, xm], by rw [pt', dt, xt]⟩
  rw [r', dr, xd, x1, x2, xr, if_pos hz]

theorem step_sltu (isw : Machine → Except Nat Machine) (m : Machine) (rd rs1 rs2 : Nat)
    (hd : rd < 32) (h1 : rs1 < 32) (h2 : rs2 < 32) (hz : rd ≠ REG_ZR)
    (hw : load_virtual_memory m.memory m.pt m.pc =
      encode_r_format F7_SLTU rs2 rs1 F3_SLTU rd OP_OP) :
    ∃ m', step isw m = .ok m' ∧
      m'.registers =
        store_word m.registers rd (if m.registers rs1 < m.registers rs2 then 1 else 0) ∧
      m'.pc = add32 m.pc 4 ∧ m'.memory = m.memory ∧ m'.pt = m.pt := by
  obtain ⟨e7, e2, e1, e3, ed, eo⟩ := r_format_round_trip F7_SLTU rs2 rs1 F3_SLTU rd OP_OP
    (by decide) h2 h1 (by decide) hd (by decide)
  have hir : (fetch m).ir = encode_r_format F7_SLTU rs2 rs1 F3_SLTU rd OP_OP := hw
  have f3 : get_funct3 (fetch m).ir = F3_SLTU := by rw [hir]; exact e3
  have f7 : get_funct7 (fetch m).ir = F7_SLTU := by rw [hir]; exact e7
  have hX : ∃ X : Machine, decode_execute isw (fetch m) = .ok (do_sltu X) ∧ X.rd = rd ∧
      X.rs1 = rs1 ∧ X.rs2 = rs2 ∧ X.registers = m.registers ∧ X.pc = m.pc ∧
      X.memory = m.memory ∧ X.pt = m.pt := by
    refine ⟨decode_r_format { fetch m with opcode := OP_OP }, ?_, ?_, ?_, ?_, rfl, rfl, rfl, rfl⟩
    · rw [decode_execute_op isw (fetch m) (by rw [hir]; exact eo),
        f3,
        f7,
        if_neg (show F3_SLTU ≠ F3_ADD by decide), if_neg (show F3_SLTU ≠ F3_DIVU by decide),
        if_neg (show F3_SLTU ≠ F3_REMU by decide), if_pos (show F3_SLTU = F3_SLTU from rfl),
        if_pos (show F7_SLTU = F7_SLTU from rfl)]
    · show get_rd (fetch m).ir = rd
      rw [hir]; exact ed
    · show get_rs1 (fetch m).ir = rs1
      rw [hir]; exact e1
    · show get_rs2 (fetch m).ir = rs2
      rw [hir]; exact e2
  obtain ⟨X, hde, xd, x1, x2, xr, xp, xm, xt⟩ := hX
  obtain ⟨dr, dp, dm, dt⟩ := do_sltu_eq X
  obtain ⟨m', hs, r', p', mem', pt'⟩ := step_of_decode_execute isw m _ hde
  refine ⟨m', hs, ?_, by rw [p', dp, xp], by rw [mem', dm, xm], by rw [pt', dt, xt]⟩
  rw [r', dr, xd, x1, x2, xr, if_pos hz]

theorem step_addi (isw : Machine → Except Nat Machine) (m : Machine) (rd rs1 imm w : Nat)
    (hd : rd < 32) (h1 : rs1 < 32) (hi : in_signed_range imm 12) (hz : rd ≠ REG_ZR)
    (he : encode_i_format imm rs1 F3_ADDI rd OP_IMM = .ok w)
    (hw : load_virtual_memory m.memory m.pt m.pc = w) :
    ∃ m', step isw m = .ok m' ∧
      m'.registers = store_word m.registers rd (add32 (m.registers rs1) imm) ∧
      m'.pc = add32 m.pc 4 ∧ m'.memory = m.memory ∧ m'.pt = m.pt := by
  obtain ⟨w', he', ei, e1, e3, ed, eo⟩ := i_format_round_trip imm rs1 F3_ADDI rd OP_IMM hi h1
    (by decide) hd (by decide)
  have hww : w' = w := Except.ok.inj (he'.symm.trans he)
  rw [hww] at ei e1 e3 ed eo
  have hir : (fetch m).ir = w := hw
  have f3 : get_funct3 (fetch m).ir = F3_ADDI := by rw [hir]; exact e3
  have hX : ∃ X : Machine, decode_execute isw (fetch m) = .ok (do_addi X) ∧ X.rd = rd ∧
      X.rs1 = rs1 ∧ X.imm = imm ∧ X.registers = m.registers ∧ X.pc = m.pc ∧
      X.memory = m.memory ∧ X.pt = m.pt := by
    refine ⟨decode_i_format { fetch m with opcode := OP_IMM }, ?_, ?_, ?_, ?_, rfl, rfl, rfl, rfl⟩
    · rw [decode_execute_imm isw (fetch m) (by rw [hir]; exact eo),
        f3,
        if_pos (show F3_ADDI = F3_ADDI from rfl)]
    · show get_rd (fetch m).ir = rd
      rw [hir]; exact ed
    · show get_rs1 (fetch m).ir = rs1
      rw [hir]; exact e1
    · show get_immediate_i_format (fetch m).ir = imm
      rw [hir]; exact ei
  obtain ⟨X, hde, xd, x1, x2, xr, xp, xm, xt⟩ := hX
  obtain ⟨dr, dp, dm, dt⟩ := do_addi_eq X
  obtain ⟨m', hs, r', p', mem', pt'⟩ := step_of_decode_execute isw m _ hde
  refine ⟨m', hs, ?_, by rw [p', dp, xp], by rw [mem', dm, xm], by rw [pt', dt, xt]⟩
  rw [r', dr, xd, x1, x2, xr, if_pos hz]

theorem temporaries_eq (n : Nat) (h2 : 2 ≤ n) (h7 : n ≤ 7) :
    ∃ p q, previous_temporary n = .ok p ∧ current_temporary n = .ok q ∧
      current_temporary (n - 1) = .ok p ∧ p < 32 ∧ q < 32 ∧ p ≠ REG_ZR ∧ q ≠ REG_ZR ∧
      p ≠ q := by
  interval_cases n
  · exact ⟨5, 6, rfl, rfl, rfl, by decide, by decide, by decide, by decide, by decide⟩
  · exact ⟨6, 7, rfl, rfl, rfl, by decide, by decide, by decide, by decide, by decide⟩
  · exact ⟨7, 28, rfl, rfl, rfl, by decide, by decide, by decide, by decide, by decide⟩
  · exact ⟨28, 29, rfl, rfl, rfl, by decide, by decide, by decide, by decide, by decide⟩
  · exact ⟨29, 30, rfl, rfl, rfl, by decide, by decide, by decide, by decide, by decide⟩
  · exact ⟨30, 31, rfl, rfl, rfl, by decide, by decide, by decide, by decide, by decide⟩

theorem emit_instruction_ok (c : Compiler) (w : Nat) (h : c.binary_length < MAX_CODE_LENGTH) :
    ∃ c', emit_instruction c w = .ok c' ∧ c'.binary_length = c.binary_length + 4 ∧
      c'.allocated_temporaries = c.allocated_temporaries ∧
      c'.binary (c.binary_length / 4) = w ∧
      ∀ i, i ≠ c.binary_length / 4 → c'.binary i = c.binary i := by
  have hs : store_instruction c c.binary_length w =
      .ok { c with binary := fun i => if i = c.binary_length / REGISTERSIZE then w
                                      else c.binary i } := by
    unfold store_instruction
    rw [if_neg (Nat.not_le.2 h)]
  have hl : add32 c.binary_length INSTRUCTIONSIZE = c.binary_length + 4 := by
    unfold MAX_CODE_LENGTH at h
    unfold add32 INSTRUCTIONSIZE
    omega
  unfold emit_instruction
  rw [hs]
  refine ⟨_, rfl, ?_, ?_, ?_, ?_⟩
  · split <;> exact hl
  · split <;> rfl
  · split <;> simp [REGISTERSIZE]
  · intro i hi
    split <;> simp [REGISTERSIZE, hi]

theorem emit_sub_ok (c : Compiler) (rd rs1 rs2 : Nat) (h : c.binary_length < MAX_CODE_LENGTH) :
    ∃ c', emit_sub c rd rs1 rs2 = .ok c' ∧ c'.binary_length = c.binary_length + 4 ∧
      c'.allocated_temporaries = c.allocated_temporaries ∧
      c'.binary (c.binary_length / 4) = encode_r_format F7_SUB rs2 rs1 F3_SUB rd OP_OP ∧
      ∀ i, i ≠ c.binary_length / 4 → c'.binary i = c.binary i := by
  obtain ⟨c1, he, hl, ht, hb, ho⟩ :=
    emit_instruction_ok c (encode_r_format F7_SUB rs2 rs1 F3_SUB rd OP_OP) h
  unfold emit_sub
  rw [he]
  exact ⟨_, rfl, hl, ht, hb, ho⟩

theorem emit_sltu_ok (c : Compiler) (rd rs1 rs2 : Nat) (h : c.binary_length < MAX_CODE_LENGTH) :
    ∃ c', emit_sltu c rd rs1 rs2 = .ok c' ∧ c'.binary_length = c.binary_length + 4 ∧
      c'.allocated_temporaries = c.allocated_temporaries ∧
      c'.binary (c.binary_length / 4) = encode_r_format F7_SLTU rs2 rs1 F3_SLTU rd OP_OP ∧
      ∀ i, i ≠ c.binary_length / 4 → c'.binary i = c.binary i := by
  obtain ⟨c1, he, hl, ht, hb, ho⟩ :=
    emit_instruction_ok c (encode_r_format F7_SLTU rs2 rs1 F3_SLTU rd OP_OP) h
  unfold emit_sltu
  rw [he]
  exact ⟨_, rfl, hl, ht, hb, ho⟩

theorem emit_addi_ok (c : Compiler) (rd rs1 immediate w : Nat)
    (hw : encode_i_format immediate rs1 F3_ADDI rd OP_IMM = .ok w)
    (h : c.binary_length < MAX_CODE_LENGTH) :
    ∃ c', emit_addi c rd rs1 immediate = .ok c' ∧ c'.binary_length = c.binary_length + 4 ∧
      c'.allocated_temporaries = c.allocated_temporaries ∧
      c'.binary (c.binary_length / 4) = w ∧
      ∀ i, i ≠ c.binary_length / 4 → c'.binary i = c.binary i := by
  obtain ⟨c1, he, hl, ht, hb, ho⟩ := emit_instruction_ok c w h
  unfold emit_addi
  rw [hw]
  show ∃ c', (emit_instruction c w >>= _) = Except.ok c' ∧ _
  rw [he]
  exact ⟨_, rfl, hl, ht, hb, ho⟩

theorem tfree_ok (c : Compiler) (h1 : 1 ≤ c.allocated_temporaries)
    (h7 : c.allocated_temporaries ≤ 7) :
    ∃ c', tfree c 1 = .ok c' ∧ c'.binary_length = c.binary_length ∧
      c'.allocated_temporaries = c.allocated_temporaries - 1 ∧ c'.binary = c.binary := by
  have hs : sub32 c.allocated_temporaries 1 = c.allocated_temporaries - 1 := by
    unfold sub32
    omega
  unfold tfree
  rw [if_pos h1]
  exact ⟨_, rfl, rfl, hs, rfl⟩

theorem one_in_signed_range : in_signed_range 1 12 :=
  (in_signed_range_iff 1 12 (by decide) (by decide)).2 ⟨by decide, Or.inl (by decide)⟩

theorem add32_zero (a : Nat) (h : a < 4294967296) : add32 a 0 = a := by
  unfold add32
  omega

theorem add32_add32 (a b c : Nat) : add32 (add32 a b) c = add32 a (b + c) := by
  unfold add32
  omega

theorem sub32_lt_one (a b : Nat) (ha : a < 4294967296) (hb : b < 4294967296) :
    sub32 b a < 1 ↔ a = b := by
  unfold sub32
  omega

theorem sub32_pos (a b : Nat) (ha : a < 4294967296) (hb : b < 4294967296) :
    0 < sub32 b a ↔ a ≠ b := by
  unfold sub32
  omega

theorem steps_succ (isw : Machine → Except Nat Machine) (n : Nat) (m m1 : Machine)
    (h : step isw m = .ok m1) : steps isw (n + 1) m = steps isw n m1 := by
  show (step isw m >>= fun m => steps isw n m) = _
  rw [h]
  rfl

theorem run_sltu (isw : Machine → Except Nat Machine) (m : Machine) (rd rs1 rs2 : Nat)
    (hd : rd < 32) (h1 : rs1 < 32) (h2 : rs2 < 32) (hz : rd ≠ REG_ZR)
    (hw : load_virtual_memory m.memory m.pt m.pc =
      encode_r_format F7_SLTU rs2 rs1 F3_SLTU rd OP_OP) :
    ∃ m', steps isw 1 m = .ok m' ∧
      m'.registers rd = (if m.registers rs1 < m.registers rs2 then 1 else 0) ∧
      m'.pc = add32 m.pc 4 := by
  obtain ⟨m1, s1, r1, p1, _, _⟩ := step_sltu isw m rd rs1 rs2 hd h1 h2 hz hw
  refine ⟨m1, ?_, ?_, p1⟩
  · rw [steps_succ isw 0 m m1 s1]
    rfl
  · rw [r1]
    unfold store_word
    rw [if_pos rfl]

theorem run_equality (isw : Machine → Except Nat Machine) (m : Machine) (p q w : Nat)
    (hp : p < 32) (hq : q < 32) (hp0 : p ≠ REG_ZR) (hq0 : q ≠ REG_ZR) (hpq : p ≠ q)
    (hr : operands_ready p q m)
    (he : encode_i_format 1 REG_ZR F3_ADDI q OP_IMM = .ok w)
    (h0 : load_virtual_memory m.memory m.pt m.pc =
      encode_r_format F7_SUB p q F3_SUB p OP_OP)
    (h1 : load_virtual_memory m.memory m.pt (add32 m.pc 4) = w)
    (h2 : load_virtual_memory m.memory m.pt (add32 m.pc 8) =
      encode_r_format F7_SLTU q p F3_SLTU p OP_OP) :
    ∃ m', steps isw 3 m = .ok m' ∧
      m'.registers p = (if m.registers p = m.registers q then 1 else 0) ∧
      m'.pc = add32 m.pc 12 := by
  obtain ⟨hz, hpc, ha, hb⟩ := hr
  obtain ⟨m1, s1, r1, p1, me1, pt1⟩ := step_sub isw m p q p hp hq hp hp0 h0
  have h1' : load_virtual_memory m1.memory m1.pt m1.pc = w := by
    rw [me1, pt1, p1]
    exact h1
  obtain ⟨m2, s2, r2, p2, me2, pt2⟩ :=
    step_addi isw m1 q REG_ZR 1 w hq (by decide) one_in_signed_range hq0 he h1'
  have h2' : load_virtual_memory m2.memory m2.pt m2.pc =
      encode_r_format F7_SLTU q p F3_SLTU p OP_OP := by
    rw [me2, pt2, p2, me1, pt1, p1, add32_add32]
    exact h2
  obtain ⟨m3, s3, r3, p3, _, _⟩ := step_sltu isw m2 p p q hp hp hq hp0 h2'
  refine ⟨m3, ?_, ?_, ?_⟩
  · rw [steps_succ isw 2 m m1 s1, steps_succ isw 1 m1 m2 s2, steps_succ isw 0 m2 m3 s3]
    rfl
  · have e1 : m2.registers p = sub32 (m.registers q) (m.registers p) := by
      rw [r2, store_word_ne _ _ _ _ hpq, r1]
      unfold store_word
      rw [if_pos rfl]
    have e2 : m2.registers q = 1 := by
      rw [r2]
      unfold store_word
      rw [if_pos rfl, r1, store_word_ne _ _ _ _ (Ne.symm hp0), hz]
      rfl
    rw [r3]
    unfold store_word
    rw [if_pos rfl, e1, e2]
    by_cases c : m.registers p = m.registers q
    · rw [if_pos c, if_pos ((sub32_lt_one _ _ ha hb).2 c)]
    · rw [if_neg c, if_neg (fun h => c ((sub32_lt_one _ _ ha hb).1 h))]
  · rw [p3, p2, p1, add32_add32, add32_add32]

theorem run_notequal (isw : Machine → Except Nat Machine) (m : Machine) (p q : Nat)
    (hp : p < 32) (hq : q < 32) (hp0 : p ≠ REG_ZR)
    (hr : operands_ready p q m)
    (h0 : load_virtual_memory m.memory m.pt m.pc =
      encode_r_format F7_SUB p q F3_SUB p OP_OP)
    (h1 : load_virtual_memory m.memory m.pt (add32 m.pc 4) =
      encode_r_format F7_SLTU p REG_ZR F3_SLTU p OP_OP) :
    ∃ m', steps isw 2 m = .ok m' ∧
      m'.registers p = (if m.registers p ≠ m.registers q then 1 else 0) ∧
      m'.pc = add32 m.pc 8 := by
  obtain ⟨hz, hpc, ha, hb⟩ := hr
  obtain ⟨m1, s1, r1, p1, me1, pt1⟩ := step_sub isw m p q p hp hq hp hp0 h0
  have h1' : load_virtual_memory m1.memory m1.pt m1.pc =
      encode_r_format F7_SLTU p REG_ZR F3_SLTU p OP_OP := by
    rw [me1, pt1, p1]
    exact h1
  obtain ⟨m2, s2, r2, p2, _, _⟩ := step_sltu isw m1 p REG_ZR p hp (by decide) hp hp0 h1'
  refine ⟨m2, ?_, ?_, ?_⟩
  · rw [steps_succ isw 1 m m1 s1, steps_succ isw 0 m1 m2 s2]
    rfl
  · have e1 : m1.registers p = sub32 (m.registers q) (m.registers p) := by
      rw [r1]
      unfold store_word
      rw [if_pos rfl]
    have e2 : m1.registers REG_ZR = 0 := by
      rw [r1, store_word_ne _ _ _ _ (Ne.symm hp0), hz]
    rw [r2]
    unfold store_word
    rw [if_pos rfl, e1, e2]
    by_cases c : m.registers p ≠ m.registers q
    · rw [if_pos c, if_pos ((sub32_pos _ _ ha hb).2 c)]
    · rw [if_neg c, if_neg (fun h => c ((sub32_pos _ _ ha hb).1 h))]
  · rw [p2, p1, add32_add32]

theorem run_negated_sltu (isw : Machine → Except Nat Machine) (m : Machine)
    (p q rs1 rs2 w : Nat)
    (hp : p < 32) (hq : q < 32) (h1 : rs1 < 32) (h2 : rs2 < 32)
    (hp0 : p ≠ REG_ZR) (hq0 : q ≠ REG_ZR) (hpq : p ≠ q)
    (hz : m.registers REG_ZR = 0)
    (he : encode_i_format 1 REG_ZR F3_ADDI q OP_IMM = .ok w)
    (w0 : load_virtual_memory m.memory m.pt m.pc =
      encode_r_format F7_SLTU rs2 rs1 F3_SLTU p OP_OP)
    (w1 : load_virtual_memory m.memory m.pt (add32 m.pc 4) = w)
    (w2 : load_virtual_memory m.memory m.pt (add32 m.pc 8) =
      encode_r_format F7_SUB p q F3_SUB p OP_OP) :
    ∃ m', steps isw 3 m = .ok m' ∧
      m'.registers p = (if m.registers rs1 < m.registers rs2 then 0 else 1) ∧
      m'.pc = add32 m.pc 12 := by
  obtain ⟨m1, s1, r1, p1, me1, pt1⟩ := step_sltu isw m p rs1 rs2 hp h1 h2 hp0 w0
  have w1' : load_virtual_memory m1.memory m1.pt m1.pc = w := by
    rw [me1, pt1, p1]
    exact w1
  obtain ⟨m2, s2, r2, p2, me2, pt2⟩ :=
    step_addi isw m1 q REG_ZR 1 w hq (by decide) one_in_signed_range hq0 he w1'
  have w2' : load_virtual_memory m2.memory m2.pt m2.pc =
      encode_r_format F7_SUB p q F3_SUB p OP_OP := by
    rw [me2, pt2, p2, me1, pt1, p1, add32_add32]
    exact w2
  obtain ⟨m3, s3, r3, p3, _, _⟩ := step_sub isw m2 p q p hp hq hp hp0 w2'
  refine ⟨m3, ?_, ?_, ?_⟩
  · rw [steps_succ isw 2 m m1 s1, steps_succ isw 1 m1 m2 s2, steps_succ isw 0 m2 m3 s3]
    rfl
  · have e1 : m2.registers p = (if m.registers rs1 < m.registers rs2 then 1 else 0) := by
      rw [r2, store_word_ne _ _ _ _ hpq, r1]
      unfold store_word
      rw [if_pos rfl]
    have e2 : m2.registers q = 1 := by
      rw [r2]
      unfold store_word
      rw [if_pos rfl, r1, store_word_ne _ _ _ _ (Ne.symm hp0), hz]
      rfl
    rw [r3]
    unfold store_word
    rw [if_pos rfl, e1, e2]
    by_cases c : m.registers rs1 < m.registers rs2
    · rw [if_pos c, if_pos c]
      rfl
    · rw [if_neg c, if_neg c]
      rfl
  · rw [p3, p2, p1, add32_add32, add32_add32]

theorem ok_bind {α β : Type} (a : α) (f : α → Except Nat β) :
    (Except.ok a >>= f) = f a := rfl

theorem compile_equality_code (c : Compiler) (p q w : Nat)
    (hp : previous_temporary c.allocated_temporaries = .ok p)
    (hq : current_temporary c.allocated_temporaries = .ok q)
    (he : encode_i_format 1 REG_ZR F3_ADDI q OP_IMM = .ok w)
    (h2 : 2 ≤ c.allocated_temporaries) (h7 : c.allocated_temporaries ≤ 7)
    (hl : c.binary_length + 12 ≤ MAX_CODE_LENGTH) :
    ∃ c', compile_comparison SYM_EQUALITY c = .ok c' ∧
      c'.binary_length = c.binary_length + 12 ∧
      c'.allocated_temporaries = c.allocated_temporaries - 1 ∧
      load_instruction c' c.binary_length = encode_r_format F7_SUB p q F3_SUB p OP_OP ∧
      load_instruction c' (c.binary_length + 4) = w ∧
      load_instruction c' (c.binary_length + 8) = encode_r_format F7_SLTU q p F3_SLTU p OP_OP := by
  obtain ⟨c1, e1, l1, t1, b1, _⟩ := emit_sub_ok c p q p (by omega)
  obtain ⟨c2, e2, l2, t2, b2, o2⟩ := emit_addi_ok c1 q REG_ZR 1 w he (by omega)
  obtain ⟨c3, e3, l3, t3, b3, o3⟩ := emit_sltu_ok c2 p p q (by omega)
  obtain ⟨c4, e4, l4, t4, b4⟩ := tfree_ok c3 (by omega) (by omega)
  have i2 : c2.binary_length = c.binary_length + 8 := by omega
  refine ⟨c4, ?_, by omega, by omega, ?_, ?_, ?_⟩
  · unfold compile_comparison
    rw [if_pos (show SYM_EQUALITY = SYM_EQUALITY from rfl)]
    simp only [hp, hq, ok_bind, e1, e2, e3]
    exact e4
  · unfold load_instruction REGISTERSIZE
    rw [b4, o3 _ (by omega), o2 _ (by omega)]
    exact b1
  · unfold load_instruction REGISTERSIZE
    rw [b4, o3 _ (by omega), ← l1]
    exact b2
  · unfold load_instruction REGISTERSIZE
    rw [b4, ← i2]
    exact b3

theorem compile_leq_code (c : Compiler) (p q w : Nat)
    (hp : previous_temporary c.allocated_temporaries = .ok p)
    (hq : current_temporary c.allocated_temporaries = .ok q)
    (he : encode_i_format 1 REG_ZR F3_ADDI q OP_IMM = .ok w)
    (h2 : 2 ≤ c.allocated_temporaries) (h7 : c.allocated_temporaries ≤ 7)
    (hl : c.binary_length + 12 ≤ MAX_CODE_LENGTH) :
    ∃ c', compile_comparison SYM_LEQ c = .ok c' ∧
      c'.binary_length = c.binary_length + 12 ∧
      c'.allocated_temporaries = c.allocated_temporaries - 1 ∧
      load_instruction c' c.binary_length = encode_r_format F7_SLTU p q F3_SLTU p OP_OP ∧
      load_instruction c' (c.binary_length + 4) = w ∧
      load_instruction c' (c.binary_length + 8) = encode_r_format F7_SUB p q F3_SUB p OP_OP := by
  obtain ⟨c1, e1, l1, t1, b1, _⟩ := emit_sltu_ok c p q p (by omega)
  obtain ⟨c2, e2, l2, t2, b2, o2⟩ := emit_addi_ok c1 q REG_ZR 1 w he (by omega)
  obtain ⟨c3, e3, l3, t3, b3, o3⟩ := emit_sub_ok c2 p q p (by omega)
  obtain ⟨c4, e4, l4, t4, b4⟩ := tfree_ok c3 (by omega) (by omega)
  have i2 : c2.binary_length = c.binary_length + 8 := by omega
  refine ⟨c4, ?_, by omega, by omega, ?_, ?_, ?_⟩
  · unfold compile_comparison
    rw [if_neg (show SYM_LEQ ≠ SYM_EQUALITY by decide), if_neg (show SYM_LEQ ≠ SYM_NOTEQ by decide), if_neg (show SYM_LEQ ≠ SYM_LT by decide), if_neg (show SYM_LEQ ≠ SYM_GT by decide), if_pos (show SYM_LEQ = SYM_LEQ from rfl)]
    simp only [hp, hq, ok_bind, e1, e2, e3]
    exact e4
  · unfold load_instruction REGISTERSIZE
    rw [b4, o3 _ (by omega), o2 _ (by omega)]
    exact b1
  · unfold load_instruction REGISTERSIZE
    rw [b4, o3 _ (by omega), ← l1]
    exact b2
  · unfold load_instruction REGISTERSIZE
    rw [b4, ← i2]
    exact b3

theorem compile_geq_code (c : Compiler) (p q w : Nat)
    (hp : previous_temporary c.allocated_temporaries = .ok p)
    (hq : current_temporary c.allocated_temporaries = .ok q)
    (he : encode_i_format 1 REG_ZR F3_ADDI q OP_IMM = .ok w)
    (h2 : 2 ≤ c.allocated_temporaries) (h7 : c.allocated_temporaries ≤ 7)
    (hl : c.binary_length + 12 ≤ MAX_CODE_LENGTH) :
    ∃ c', compile_comparison SYM_GEQ c = .ok c' ∧
      c'.binary_length = c.binary_length + 12 ∧
      c'.allocated_temporaries = c.allocated_temporaries - 1 ∧
      load_instruction c' c.binary_length = encode_r_format F7_SLTU q p F3_SLTU p OP_OP ∧
      load_instruction c' (c.binary_length + 4) = w ∧
      load_instruction c' (c.binary_length + 8) = encode_r_format F7_SUB p q F3_SUB p OP_OP := by
  obtain ⟨c1, e1, l1, t1, b1, _⟩ := emit_sltu_ok c p p q (by omega)
  obtain ⟨c2, e2, l2, t2, b2, o2⟩ := emit_addi_ok c1 q REG_ZR 1 w he (by omega)
  obtain ⟨c3, e3, l3, t3, b3, o3⟩ := emit_sub_ok c2 p q p (by omega)
  obtain ⟨c4, e4, l4, t4, b4⟩ := tfree_ok c3 (by omega) (by omega)
  have i2 : c2.binary_length = c.binary_length + 8 := by omega
  refine ⟨c4, ?_, by omega, by omega, ?_, ?_, ?_⟩
  · unfold compile_comparison
    rw [if_neg (show SYM_GEQ ≠ SYM_EQUALITY by decide), if_neg (show SYM_GEQ ≠ SYM_NOTEQ by decide), if_neg (show SYM_GEQ ≠ SYM_LT by decide), if_neg (show SYM_GEQ ≠ SYM_GT by decide), if_neg (show SYM_GEQ ≠ SYM_LEQ by decide), if_pos (show SYM_GEQ = SYM_GEQ from rfl)]
    simp only [hp, hq, ok_bind, e1, e2, e3]
    exact e4
  · unfold load_instruction REGISTERSIZE
    rw [b4, o3 _ (by omega), o2 _ (by omega)]
    exact b1
  · unfold load_instruction REGISTERSIZE
    rw [b4, o3 _ (by omega), ← l1]
    exact b2
  · unfold load_instruction REGISTERSIZE
    rw [b4, ← i2]
    exact b3

theorem compile_lt_code (c : Compiler) (p q : Nat)
    (hp : previous_temporary c.allocated_temporaries = .ok p)
    (hq : current_temporary c.allocated_temporaries = .ok q)
    (h2 : 2 ≤ c.allocated_temporaries) (h7 : c.allocated_temporaries ≤ 7)
    (hl : c.binary_length + 12 ≤ MAX_CODE_LENGTH) :
    ∃ c', compile_comparison SYM_LT c = .ok c' ∧
      c'.binary_length = c.binary_length + 4 ∧
      c'.allocated_temporaries = c.allocated_temporaries - 1 ∧
      load_instruction c' c.binary_length = encode_r_format F7_SLTU q p F3_SLTU p OP_OP := by
  obtain ⟨c1, e1, l1, t1, b1, _⟩ := emit_sltu_ok c p p q (by omega)
  obtain ⟨c2, e2, l2, t2, b2⟩ := tfree_ok c1 (by omega) (by omega)
  refine ⟨c2, ?_, by omega, by omega, ?_⟩
  · unfold compile_comparison
    rw [if_neg (show SYM_LT ≠ SYM_EQUALITY by decide), if_neg (show SYM_LT ≠ SYM_NOTEQ by decide), if_pos (show SYM_LT = SYM_LT from rfl)]
    simp only [hp, hq, ok_bind, e1]
    exact e2
  · unfold load_instruction REGISTERSIZE
    rw [b2]
    exact b1

theorem compile_gt_code (c : Compiler) (p q : Nat)
    (hp : previous_temporary c.allocated_temporaries = .ok p)
    (hq : current_temporary c.allocated_temporaries = .ok q)
    (h2 : 2 ≤ c.allocated_temporaries) (h7 : c.allocated_temporaries ≤ 7)
    (hl : c.binary_length + 12 ≤ MAX_CODE_LENGTH) :
    ∃ c', compile_comparison SYM_GT c = .ok c' ∧
      c'.binary_length = c.binary_length + 4 ∧
      c'.allocated_temporaries = c.allocated_temporaries - 1 ∧
      load_instruction c' c.binary_length = encode_r_format F7_SLTU p q F3_SLTU p OP_OP := by
  obtain ⟨c1, e1, l1, t1, b1, _⟩ := emit_sltu_ok c p q p (by omega)
  obtain ⟨c2, e2, l2, t2, b2⟩ := tfree_ok c1 (by omega) (by omega)
  refine ⟨c2, ?_, by omega, by omega, ?_⟩
  · unfold compile_comparison
    rw [if_neg (show SYM_GT ≠ SYM_EQUALITY by decide), if_neg (show SYM_GT ≠ SYM_NOTEQ by decide), if_neg (show SYM_GT ≠ SYM_LT by decide), if_pos (show SYM_GT = SYM_GT from rfl)]
    simp only [hp, hq, ok_bind, e1]
    exact e2
  · unfold load_instruction REGISTERSIZE
    rw [b2]
    exact b1

theorem compile_notequal_code (c : Compiler) (p q : Nat)
    (hp : previous_temporary c.allocated_temporaries = .ok p)
    (hq : current_temporary c.allocated_temporaries = .ok q)
    (hc : current_temporary (c.allocated_temporaries - 1) = .ok p)
    (h2 : 2 ≤ c.allocated_temporaries) (h7 : c.allocated_temporaries ≤ 7)
    (hl : c.binary_length + 12 ≤ MAX_CODE_LENGTH) :
    ∃ c', compile_comparison SYM_NOTEQ c = .ok c' ∧
      c'.binary_length = c.binary_length + 8 ∧
      c'.allocated_temporaries = c.allocated_temporaries - 1 ∧
      load_instruction c' c.binary_length = encode_r_format F7_SUB p q F3_SUB p OP_OP ∧
      load_instruction c' (c.binary_length + 4) = encode_r_format F7_SLTU p REG_ZR F3_SLTU p OP_OP := by
  obtain ⟨c1, e1, l1, t1, b1, _⟩ := emit_sub_ok c p q p (by omega)
  obtain ⟨c2, e2, l2, t2, b2⟩ := tfree_ok c1 (by omega) (by omega)
  obtain ⟨c3, e3, l3, t3, b3, o3⟩ := emit_sltu_ok c2 p REG_ZR p (by omega)
  have hc2 : current_temporary c2.allocated_temporaries = .ok p := by
    rw [t2, t1]
    exact hc
  have i2 : c2.binary_length = c.binary_length + 4 := by omega
  refine ⟨c3, ?_, by omega, by omega, ?_, ?_⟩
  · unfold compile_comparison
    rw [if_neg (show SYM_NOTEQ ≠ SYM_EQUALITY by decide), if_pos (show SYM_NOTEQ = SYM_NOTEQ from rfl)]
    simp only [hp, hq, ok_bind, e1, e2, hc2]
    exact e3
  · unfold load_instruction REGISTERSIZE
    rw [o3 _ (by omega), b2]
    exact b1
  · unfold load_instruction REGISTERSIZE
    rw [← i2]
    exact b3

theorem code_loaded_zero (c : Compiler) (baddr k : Nat) (m : Machine) (hk : 0 < k)
    (hpc : m.pc < 4294967296) (h : code_loaded c baddr k m) :
    load_virtual_memory m.memory m.pt m.pc = load_instruction c baddr := by
  have h0 := h 0 hk
  rw [Nat.mul_zero, Nat.add_zero, add32_zero _ hpc] at h0
  exact h0

theorem code_loaded_one (c : Compiler) (baddr k : Nat) (m : Machine) (hk : 1 < k)
    (h : code_loaded c baddr k m) :
    load_virtual_memory m.memory m.pt (add32 m.pc 4) = load_instruction c (baddr + 4) :=
  h 1 hk

theorem code_loaded_two (c : Compiler) (baddr k : Nat) (m : Machine) (hk : 2 < k)
    (h : code_loaded c baddr k m) :
    load_virtual_memory m.memory m.pt (add32 m.pc 8) = load_instruction c (baddr + 8) :=
  h 2 hk

theorem equality_correct (isw : Machine → Except Nat Machine) (c : Compiler)
    (h2 : 2 ≤ c.allocated_temporaries) (h7 : c.allocated_temporaries ≤ 7)
    (hl : c.binary_length + 12 ≤ MAX_CODE_LENGTH) :
    comparison_correct isw SYM_EQUALITY (fun a b => a = b) 3 c := by
  obtain ⟨p, q, hp, hq, hc, p32, q32, p0, q0, pq⟩ :=
    temporaries_eq c.allocated_temporaries h2 h7
  obtain ⟨w, he⟩ : ∃ w, encode_i_format 1 REG_ZR F3_ADDI q OP_IMM = .ok w :=
    ⟨_, encode_i_format_ok _ _ _ _ _ one_in_signed_range⟩
  obtain ⟨c', hcmp, hlen, htmp, w0, w1, w2⟩ := compile_equality_code c p q w hp hq he h2 h7 hl
  refine ⟨c', p, q, hp, hq, hcmp, hlen, by omega, by rw [htmp]; exact hc, ?_⟩
  intro m hr hcl
  exact run_equality isw m p q w p32 q32 p0 q0 pq hr he
    ((code_loaded_zero c' _ 3 m (by decide) hr.2.1 hcl).trans w0)
    ((code_loaded_one c' _ 3 m (by decide) hcl).trans w1)
    ((code_loaded_two c' _ 3 m (by decide) hcl).trans w2)

theorem notequal_correct (isw : Machine → Except Nat Machine) (c : Compiler)
    (h2 : 2 ≤ c.allocated_temporaries) (h7 : c.allocated_temporaries ≤ 7)
    (hl : c.binary_length + 12 ≤ MAX_CODE_LENGTH) :
    comparison_correct isw SYM_NOTEQ (fun a b => a ≠ b) 2 c := by
  obtain ⟨p, q, hp, hq, hc, p32, q32, p0, q0, pq⟩ :=
    temporaries_eq c.allocated_temporaries h2 h7
  obtain ⟨c', hcmp, hlen, htmp, w0, w1⟩ := compile_notequal_code c p q hp hq hc h2 h7 hl
  refine ⟨c', p, q, hp, hq, hcmp, hlen, by omega, by rw [htmp]; exact hc, ?_⟩
  intro m hr hcl
  exact run_notequal isw m p q p32 q32 p0 hr
    ((code_loaded_zero c' _ 2 m (by decide) hr.2.1 hcl).trans w0)
    ((code_loaded_one c' _ 2 m (by decide) hcl).trans w1)

theorem lt_correct (isw : Machine → Except Nat Machine) (c : Compiler)
    (h2 : 2 ≤ c.allocated_temporaries) (h7 : c.allocated_temporaries ≤ 7)
    (hl : c.binary_length + 12 ≤ MAX_CODE_LENGTH) :
    comparison_correct isw SYM_LT (fun a b => a < b) 1 c := by
  obtain ⟨p, q, hp, hq, hc, p32, q32, p0, q0, pq⟩ :=
    temporaries_eq c.allocated_temporaries h2 h7
  obtain ⟨c', hcmp, hlen, htmp, w0⟩ := compile_lt_code c p q hp hq h2 h7 hl
  refine ⟨c', p, q, hp, hq, hcmp, hlen, by omega, by rw [htmp]; exact hc, ?_⟩
  intro m hr hcl
  exact run_sltu isw m p p q p32 p32 q32 p0
    ((code_loaded_zero c' _ 1 m (by decide) hr.2.1 hcl).trans w0)

theorem gt_correct (isw : Machine → Except Nat Machine) (c : Compiler)
    (h2 : 2 ≤ c.allocated_temporaries) (h7 : c.allocated_temporaries ≤ 7)
    (hl : c.binary_length + 12 ≤ MAX_CODE_LENGTH) :
    comparison_correct isw SYM_GT (fun a b => a > b) 1 c := by
  obtain ⟨p, q, hp, hq, hc, p32, q32, p0, q0, pq⟩ :=
    temporaries_eq c.allocated_temporaries h2 h7
  obtain ⟨c', hcmp, hlen, htmp, w0⟩ := compile_gt_code c p q hp hq h2 h7 hl
  refine ⟨c', p, q, hp, hq, hcmp, hlen, by omega, by rw [htmp]; exact hc, ?_⟩
  intro m hr hcl
  exact run_sltu isw m p q p p32 q32 p32 p0
    ((code_loaded_zero c' _ 1 m (by decide) hr.2.1 hcl).trans w0)

theorem leq_correct (isw : Machine → Except Nat Machine) (c : Compiler)
    (h2 : 2 ≤ c.allocated_temporaries) (h7 : c.allocated_temporaries ≤ 7)
    (hl : c.binary_length + 12 ≤ MAX_CODE_LENGTH) :
    comparison_correct isw SYM_LEQ (fun a b => a ≤ b) 3 c := by
  obtain ⟨p, q, hp, hq, hc, p32, q32, p0, q0, pq⟩ :=
    temporaries_eq c.allocated_temporaries h2 h7
  obtain ⟨w, he⟩ : ∃ w, encode_i_format 1 REG_ZR F3_ADDI q OP_IMM = .ok w :=
    ⟨_, encode_i_format_ok _ _ _ _ _ one_in_signed_range⟩
  obtain ⟨c', hcmp, hlen, htmp, w0, w1, w2⟩ := compile_leq_code c p q w hp hq he h2 h7 hl
  refine ⟨c', p, q, hp, hq, hcmp, hlen, by omega, by rw [htmp]; exact hc, ?_⟩
  intro m hr hcl
  obtain ⟨m', hs, hres, hpc⟩ := run_negated_sltu isw m p q q p w p32 q32 q32 p32 p0 q0 pq
    hr.1 he
    ((code_loaded_zero c' _ 3 m (by decide) hr.2.1 hcl).trans w0)
    ((code_loaded_one c' _ 3 m (by decide) hcl).trans w1)
    ((code_loaded_two c' _ 3 m (by decide) hcl).trans w2)
  refine ⟨m', hs, ?_, hpc⟩
  rw [hres]
  by_cases h : m.registers q < m.registers p
  · rw [if_pos h, if_neg (Nat.not_le.2 h)]
  · rw [if_neg h, if_pos (Nat.not_lt.1 h)]

theorem geq_correct (isw : Machine → Except Nat Machine) (c : Compiler)
    (h2 : 2 ≤ c.allocated_temporaries) (h7 : c.allocated_temporaries ≤ 7)
    (hl : c.binary_length + 12 ≤ MAX_CODE_LENGTH) :
    comparison_correct isw SYM_GEQ (fun a b => a ≥ b) 3 c := by
  obtain ⟨p, q, hp, hq, hc, p32, q32, p0, q0, pq⟩ :=
    temporaries_eq c.allocated_temporaries h2 h7
  obtain ⟨w, he⟩ : ∃ w, encode_i_format 1 REG_ZR F3_ADDI q OP_IMM = .ok w :=
    ⟨_, encode_i_format_ok _ _ _ _ _ one_in_signed_range⟩
  obtain ⟨c', hcmp, hlen, htmp, w0, w1, w2⟩ := compile_geq_code c p q w hp hq he h2 h7 hl
  refine ⟨c', p, q, hp, hq, hcmp, hlen, by omega, by rw [htmp]; exact hc, ?_⟩
  intro m hr hcl
  obtain ⟨m', hs, hres, hpc⟩ := run_negated_sltu isw m p q p q w p32 q32 p32 q32 p0 q0 pq
    hr.1 he
    ((code_loaded_zero c' _ 3 m (by decide) hr.2.1 hcl).trans w0)
    ((code_loaded_one c' _ 3 m (by decide) hcl).trans w1)
    ((code_loaded_two c' _ 3 m (by decide) hcl).trans w2)
  refine ⟨m', hs, ?_, hpc⟩
  rw [hres]
  by_cases h : m.registers p < m.registers q
  · rw [if_pos h, if_neg (Nat.not_le.2 h)]
  · rw [if_neg h, if_pos (Nat.not_lt.1 h)]

theorem sum_to_one (isw : Machine → Except Nat Machine) (c : Compiler)
    (h2 : 2 ≤ c.allocated_temporaries) (h7 : c.allocated_temporaries ≤ 7)
    (hl : c.binary_length + 12 ≤ MAX_CODE_LENGTH) :
    comparisons_sum_to_one isw c := by
  obtain ⟨p, q, hp, hq, hc, p32, q32, p0, q0, pq⟩ :=
    temporaries_eq c.allocated_temporaries h2 h7
  obtain ⟨w, he⟩ : ∃ w, encode_i_format 1 REG_ZR F3_ADDI q OP_IMM = .ok w :=
    ⟨_, encode_i_format_ok _ _ _ _ _ one_in_signed_range⟩
  obtain ⟨c_lt, hlt, _, _, wl⟩ := compile_lt_code c p q hp hq h2 h7 hl
  obtain ⟨c_gt, hgt, _, _, wg⟩ := compile_gt_code c p q hp hq h2 h7 hl
  obtain ⟨c_eq, heq, _, _, w0, w1, w2⟩ := compile_equality_code c p q w hp hq he h2 h7 hl
  refine ⟨c_lt, c_gt, c_eq, p, q, hp, hq, hlt, hgt, heq, ?_⟩
  intro m_lt m_gt m_eq rl rg re gp gq ep eq ll lg le
  obtain ⟨r_lt, sl, vl, _⟩ := run_sltu isw m_lt p p q p32 p32 q32 p0
    ((code_loaded_zero c_lt _ 1 m_lt (by decide) rl.2.1 ll).trans wl)
  obtain ⟨r_gt, sg, vg, _⟩ := run_sltu isw m_gt p q p p32 q32 p32 p0
    ((code_loaded_zero c_gt _ 1 m_gt (by decide) rg.2.1 lg).trans wg)
  obtain ⟨r_eq, se, ve, _⟩ := run_equality isw m_eq p q w p32 q32 p0 q0 pq re he
    ((code_loaded_zero c_eq _ 3 m_eq (by decide) re.2.1 le).trans w0)
    ((code_loaded_one c_eq _ 3 m_eq (by decide) le).trans w1)
    ((code_loaded_two c_eq _ 3 m_eq (by decide) le).trans w2)
  refine ⟨r_lt, r_gt, r_eq, sl, sg, se, ?_⟩
  rw [vl, vg, ve, gp, gq, ep, eq]
  generalize m_lt.registers p = a
  generalize m_lt.registers q = b
  split_ifs <;> omega

/-- C5: the six comparison translations are correct on all inputs.  For every code
generator state with the two operands in temporaries (`2 ≤ allocated_temporaries ≤ 7`)
and room for three instructions, the code that `compile_expression` emits for `==`
(3 instructions), `!=` (2), `<` (1), `>` (1), `<=` (3) and `>=` (3), executed by
`decode_execute` under the `do_sub`, `do_addi`, `do_sltu` semantics on any machine
with `x0 = 0` and 32-bit words `a`, `b` in the operand temporaries, leaves 1 in the
result temporary when the unsigned relation holds between `a` and `b` and 0
otherwise; and the results of the emitted `<`, `>` and `==` code on the same operands
add up to 1. -/
theorem comparison_translations_correct (isw : Machine → Except Nat Machine) (c : Compiler)
    (h2 : 2 ≤ c.allocated_temporaries) (h7 : c.allocated_temporaries ≤ 7)
    (hl : c.binary_length + 12 ≤ MAX_CODE_LENGTH) :
    comparison_correct isw SYM_EQUALITY (fun a b => a = b) 3 c ∧
    comparison_correct isw SYM_NOTEQ (fun a b => a ≠ b) 2 c ∧
    comparison_correct isw SYM_LT (fun a b => a < b) 1 c ∧
    comparison_correct isw SYM_GT (fun a b => a > b) 1 c ∧
    comparison_correct isw SYM_LEQ (fun a b => a ≤ b) 3 c ∧
    comparison_correct isw SYM_GEQ (fun a b => a ≥ b) 3 c ∧
    comparisons_sum_to_one isw c :=
  ⟨equality_correct isw c h2 h7 hl, notequal_correct isw c h2 h7 hl,
    lt_correct isw c h2 h7 hl, gt_correct isw c h2 h7 hl, leq_correct isw c h2 h7 hl,
    geq_correct isw c h2 h7 hl, sum_to_one isw c h2 h7 hl⟩

/-- Witness for C5: with two temporaries allocated and an empty binary the
hypotheses hold, and the three instructions emitted for `==`, loaded at address 0
and run on the operands `7` and `7`, leave 1 in `t0`. -/
theorem comparison_translations_correct_witness :
    (2 ≤ two_operands_compiler.allocated_temporaries ∧
      two_operands_compiler.allocated_temporaries ≤ 7 ∧
      two_operands_compiler.binary_length + 12 ≤ MAX_CODE_LENGTH) ∧
    ∃ m', steps (fun m => .ok m) 3 loaded_equality_machine = .ok m' ∧
      m'.registers 5 = 1 := by
  have h := comparison_translations_correct (fun m => .ok m) two_operands_compiler
    (by decide) (by decide) (by decide)
  obtain ⟨c', p, q, hp, hq, hcmp, _, _, _, hrun⟩ := h.1
  have ep : 5 = p := Except.ok.inj hp
  have eq : 6 = q := Except.ok.inj hq
  subst ep
  subst eq
  have hb : binary_of (compile_comparison SYM_EQUALITY two_operands_compiler) = c'.binary := by
    rw [hcmp]
    rfl
  have hcl : code_loaded c' two_operands_compiler.binary_length 3 loaded_equality_machine := by
    intro i hi
    show binary_of (compile_comparison SYM_EQUALITY two_operands_compiler) _ = c'.binary _
    rw [hb]
    interval_cases i
    · exact congrArg c'.binary (by decide)
    · exact congrArg c'.binary (by decide)
    · exact congrArg c'.binary (by decide)
  obtain ⟨m', hs, hres, _⟩ :=
    hrun loaded_equality_machine ⟨rfl, by decide, by decide, by decide⟩ hcl
  exact ⟨⟨by decide, by decide, by decide⟩, m', hs, hres⟩

/-! ## Exceptions and the timer -/

/-- C12: `interrupt()` does nothing when `timer = TIMEROFF`; otherwise it decrements
`timer`, and when the counter reaches zero it raises TIMER (the state of
`throw_exception(EXCEPTION_TIMER, 0)`) if no exception is pending, and if one is
pending it raises nothing and sets the counter to 1; the counter reaches zero
exactly from 1; `interrupt()` always returns, so it never ends in the
multiple-exception fatal error. -/
theorem interrupt_semantics (m : Machine) :
    (m.timer = TIMEROFF → interrupt m = .ok m) ∧
    (m.timer ≠ TIMEROFF → sub32 m.timer 1 ≠ 0 →
      interrupt m = .ok { m with timer := sub32 m.timer 1 }) ∧
    (m.timer ≠ TIMEROFF → sub32 m.timer 1 = 0 → m.exception = EXCEPTION_NOEXCEPTION →
      interrupt m = .ok { m with timer := 0, exception := EXCEPTION_TIMER,
                                 faulting_page := 0, trap := 1 }) ∧
    (m.timer ≠ TIMEROFF → sub32 m.timer 1 = 0 → m.exception ≠ EXCEPTION_NOEXCEPTION →
      interrupt m = .ok { m with timer := 1 }) ∧
    (m.timer < 4294967296 → (sub32 m.timer 1 = 0 ↔ m.timer = 1)) ∧
    (∃ m', interrupt m = .ok m') ∧
    interrupt m ≠ .error EXITCODE_MULTIPLEEXCEPTIONERROR := by
  have c1 : m.timer = TIMEROFF → interrupt m = .ok m := by
    intro h1
    unfold interrupt
    rw [if_neg (not_not.2 h1)]
  have c2 : m.timer ≠ TIMEROFF → sub32 m.timer 1 ≠ 0 →
      interrupt m = .ok { m with timer := sub32 m.timer 1 } := by
    intro h1 h2
    unfold interrupt
    rw [if_pos h1]
    show (if sub32 m.timer 1 = 0 then _ else _) = _
    rw [if_neg h2]
  have c3 : m.timer ≠ TIMEROFF → sub32 m.timer 1 = 0 →
      m.exception = EXCEPTION_NOEXCEPTION →
      interrupt m = .ok { m with timer := 0, exception := EXCEPTION_TIMER,
                                 faulting_page := 0, trap := 1 } := by
    intro h1 h2 h3
    have e : interrupt m =
        throw_exception EXCEPTION_TIMER 0 { m with timer := sub32 m.timer 1 } := by
      unfold interrupt
      rw [if_pos h1]
      show (if sub32 m.timer 1 = 0 then
        if m.exception = EXCEPTION_NOEXCEPTION then _ else _ else _) = _
      rw [if_pos h2, if_pos h3]
    rw [e, throw_exception_ok EXCEPTION_TIMER 0 { m with timer := sub32 m.timer 1 }
      (Or.inl h3), h2]
  have c4 : m.timer ≠ TIMEROFF → sub32 m.timer 1 = 0 →
      m.exception ≠ EXCEPTION_NOEXCEPTION → interrupt m = .ok { m with timer := 1 } := by
    intro h1 h2 h3
    unfold interrupt
    rw [if_pos h1]
    show (if sub32 m.timer 1 = 0 then
      if m.exception = EXCEPTION_NOEXCEPTION then _ else _ else _) = _
    rw [if_pos h2, if_neg h3]
  have c6 : ∃ m', interrupt m = .ok m' := by
    by_cases h1 : m.timer = TIMEROFF
    · exact ⟨_, c1 h1⟩
    · by_cases h2 : sub32 m.timer 1 = 0
      · by_cases h3 : m.exception = EXCEPTION_NOEXCEPTION
        · exact ⟨_, c3 h1 h2 h3⟩
        · exact ⟨_, c4 h1 h2 h3⟩
      · exact ⟨_, c2 h1 h2⟩
  refine ⟨c1, c2, c3, c4, ?_, c6, ?_⟩
  · intro hlt
    unfold sub32
    omega
  · obtain ⟨m', hm'⟩ := c6
    rw [hm']
    intro h
    cases h

/-! ## System calls -/

/-- C13: `implement_brk` with `a0 = n` (concrete mode).  When `n >= ` the current
break, `n < sp` and `n mod 4 = 0`, the program break becomes `n` and no register
changes (so `a0 = n`); in every other case the program break is unchanged and `a0`
becomes the current break, all other registers unchanged.  In both cases the pc of
the context advances by 4. -/
theorem implement_brk_contract (m : Machine) :
    (m.program_break ≤ m.registers REG_A0 ∧ m.registers REG_A0 < m.registers REG_SP ∧
        m.registers REG_A0 % 4 = 0 →
      (implement_brk m).program_break = m.registers REG_A0 ∧
      (implement_brk m).registers = m.registers) ∧
    (¬ (m.program_break ≤ m.registers REG_A0 ∧ m.registers REG_A0 < m.registers REG_SP ∧
        m.registers REG_A0 % 4 = 0) →
      (implement_brk m).program_break = m.program_break ∧
      (implement_brk m).registers REG_A0 = m.program_break ∧
      ∀ r, r ≠ REG_A0 → (implement_brk m).registers r = m.registers r) ∧
    (implement_brk m).context_pc = add32 m.context_pc 4 ∧
    (implement_brk m).memory = m.memory ∧ (implement_brk m).pt = m.pt := by
  by_cases h : m.program_break ≤ m.registers REG_A0 ∧
      m.registers REG_A0 < m.registers REG_SP ∧ m.registers REG_A0 % 4 = 0
  · have e : implement_brk m =
        { m with program_break := m.registers REG_A0,
                 context_pc := add32 m.context_pc INSTRUCTIONSIZE } := by
      obtain ⟨h1, h2, h3⟩ := h
      unfold implement_brk
      simp only [ge_iff_le, h1, h2, SIZEOFUINT32, h3, if_true]
      rfl
    rw [e]
    exact ⟨fun _ => ⟨rfl, rfl⟩, fun h' => absurd h h', rfl, rfl, rfl⟩
  · have hv : (if m.registers REG_A0 ≥ m.program_break then
        if m.registers REG_A0 < m.registers REG_SP then
          if m.registers REG_A0 % SIZEOFUINT32 = 0 then 1 else 0
        else 0
      else 0) = 0 := by
      unfold SIZEOFUINT32
      split_ifs with a b c
      · exact absurd ⟨a, b, c⟩ h
      · rfl
      · rfl
      · rfl
    have e : implement_brk m =
        { m with registers := store_word m.registers REG_A0 m.program_break,
                 context_pc := add32 m.context_pc INSTRUCTIONSIZE } := by
      unfold implement_brk
      simp only [hv]
      rfl
    rw [e]
    refine ⟨fun h' => absurd h' h, fun _ => ⟨rfl, ?_, ?_⟩, rfl, rfl, rfl⟩
    · show store_word m.registers REG_A0 m.program_break REG_A0 = _
      unfold store_word
      rw [if_pos rfl]
    · intro r hr
      exact store_word_ne _ _ _ _ hr

theorem implement_read_loop_done {σ : Type}
    (read : σ → Nat → Nat → Nat → (Nat → Nat) → Nat × (Nat → Nat) × σ)
    (fd : Nat) (pt : Nat → Nat) (k : Nat) (s : Reading σ) (h : s.size = 0) :
    implement_read_loop read fd pt k s = some s := by
  cases k <;> simp [implement_read_loop, h]

theorem read_words_done {σ : Type}
    (read : σ → Nat → Nat → Nat → (Nat → Nat) → Nat × (Nat → Nat) × σ)
    (fd : Nat) (pt : Nat → Nat) (k vaddr total : Nat) (memory : Nat → Nat) (host : σ) :
    read_words read fd pt k vaddr 0 total memory host = (some total, memory, host) := by
  cases k <;> simp [read_words]

theorem signed_less_than_zero (r : Nat) (hr : r < 4294967296) :
    signed_less_than 0 r ≠ 0 ↔ 0 < r ∧ r < 2147483648 := by
  have h : INT32_MIN = 2147483648 := by decide
  unfold signed_less_than
  rw [h]
  unfold add32
  split_ifs with c <;> simp <;> omega

theorem valid_address_lt (vaddr : Nat) (h : is_valid_virtual_address vaddr ≠ 0) :
    vaddr < 2147483648 := by
  unfold is_valid_virtual_address VIRTUALMEMORYSIZE at h
  by_contra c
  rw [if_neg c] at h
  exact h rfl

theorem read_words_step {σ : Type}
    (read : σ → Nat → Nat → Nat → (Nat → Nat) → Nat × (Nat → Nat) × σ)
    (fd : Nat) (pt : Nat → Nat) (k vaddr size total : Nat) (memory : Nat → Nat) (host : σ)
    (h0 : size ≠ 0) (hv : is_valid_virtual_address vaddr ≠ 0)
    (hm : is_virtual_address_mapped pt vaddr ≠ 0) :
    read_words read fd pt (k + 1) vaddr size total memory host =
      if (read host fd (tlb pt vaddr) (min 4 size) memory).1 = min 4 size then
        read_words read fd pt k (vaddr + 4) (size - min 4 size) (total + min 4 size)
          (read host fd (tlb pt vaddr) (min 4 size) memory).2.1
          (read host fd (tlb pt vaddr) (min 4 size) memory).2.2
      else
        (some (if 0 < (read host fd (tlb pt vaddr) (min 4 size) memory).1 ∧
              (read host fd (tlb pt vaddr) (min 4 size) memory).1 < 2147483648 then
            total + (read host fd (tlb pt vaddr) (min 4 size) memory).1
          else total),
          (read host fd (tlb pt vaddr) (min 4 size) memory).2.1,
          (read host fd (tlb pt vaddr) (min 4 size) memory).2.2) := by
  rw [read_words]
  simp only [h0, hv, hm, if_false, or_self]

theorem read_words_fail {σ : Type}
    (read : σ → Nat → Nat → Nat → (Nat → Nat) → Nat × (Nat → Nat) × σ)
    (fd : Nat) (pt : Nat → Nat) (k vaddr size total : Nat) (memory : Nat → Nat) (host : σ)
    (h0 : size ≠ 0)
    (h : is_valid_virtual_address vaddr = 0 ∨ is_virtual_address_mapped pt vaddr = 0) :
    read_words read fd pt (k + 1) vaddr size total memory host = (none, memory, host) := by
  rw [read_words]
  simp only [h0, h, if_false, if_true]

theorem sub32_eq (a b : Nat) (ha : a < 4294967296) (hb : b ≤ a) : sub32 a b = a - b := by
  unfold sub32
  omega

theorem add32_eq (a b : Nat) (h : a + b < 4294967296) : add32 a b = a + b := by
  unfold add32
  omega

theorem implement_read_loop_refines {σ : Type}
    (read : σ → Nat → Nat → Nat → (Nat → Nat) → Nat × (Nat → Nat) × σ)
    (hread : ∀ h fd b n mem, (read h fd b n mem).1 ≤ n ∨
      (2147483648 ≤ (read h fd b n mem).1 ∧ (read h fd b n mem).1 < 4294967296))
    (fd : Nat) (pt : Nat → Nat) :
    ∀ (k : Nat) (s : Reading σ), (0 < s.size → s.bytes_to_read = 4) → s.size ≤ 4 * k →
      s.failed = 0 → s.read_total + s.size < 4294967296 →
      ∃ s', implement_read_loop read fd pt k s = some s' ∧
        s'.memory = (read_words read fd pt k s.vbuffer s.size s.read_total s.memory s.host).2.1 ∧
        s'.host = (read_words read fd pt k s.vbuffer s.size s.read_total s.memory s.host).2.2 ∧
        ((read_words read fd pt k s.vbuffer s.size s.read_total s.memory s.host).1 = none →
          s'.failed = 1) ∧
        ∀ t, (read_words read fd pt k s.vbuffer s.size s.read_total s.memory s.host).1 = some t →
          s'.failed = 0 ∧ s'.read_total = t ∧ t ≤ s.read_total + s.size := by
  intro k
  induction k with
  | zero =>
    intro s _ hk hf _
    have h0 : s.size = 0 := by omega
    refine ⟨s, implement_read_loop_done read fd pt 0 s h0, rfl, rfl, ?_, ?_⟩
    · intro h
      simp [read_words] at h
    · intro t h
      simp only [read_words, Option.some.injEq] at h
      exact ⟨hf, h, by rw [← h]; omega⟩
  | succ k ih =>
    intro s hb hk hf ht
    by_cases h0 : s.size = 0
    · refine ⟨s, implement_read_loop_done read fd pt _ s h0, ?_, ?_, ?_, ?_⟩
      · rw [h0, read_words_done]
      · rw [h0, read_words_done]
      · rw [h0, read_words_done]
        intro h
        cases h
      · rw [h0, read_words_done]
        intro t h
        have e := Option.some.inj h
        exact ⟨hf, e, by omega⟩
    · have hpos : 0 < s.size := Nat.pos_of_ne_zero h0
      have hb4 : s.bytes_to_read = 4 := hb hpos
      by_cases hv : is_valid_virtual_address s.vbuffer ≠ 0
      · by_cases hm : is_virtual_address_mapped pt s.vbuffer ≠ 0
        · have hmin : min 4 s.size = if s.size < 4 then s.size else 4 := by
            split_ifs <;> omega
          by_cases hfull : (read s.host fd (tlb pt s.vbuffer) (min 4 s.size) s.memory).1 =
              min 4 s.size
          · have hl : implement_read_loop read fd pt (k + 1) s =
                implement_read_loop read fd pt k { s with
                  bytes_to_read := min 4 s.size,
                  memory := (read s.host fd (tlb pt s.vbuffer) (min 4 s.size) s.memory).2.1,
                  host := (read s.host fd (tlb pt s.vbuffer) (min 4 s.size) s.memory).2.2,
                  read_total := s.read_total + min 4 s.size,
                  size := s.size - min 4 s.size,
                  vbuffer := if 0 < s.size - min 4 s.size then s.vbuffer + 4 else s.vbuffer } := by
              have hvb : add32 s.vbuffer SIZEOFUINT32 = s.vbuffer + 4 := by
                have := valid_address_lt _ hv
                show add32 s.vbuffer 4 = _
                exact add32_eq _ _ (by omega)
              rw [implement_read_loop]
              simp only [hpos, hv, hm, if_true, ne_eq, not_false_eq_true, hb4]
              by_cases hs : s.size < 4
              · rw [hmin, if_pos hs] at hfull ⊢
                simp only [hs, if_true, hfull, hvb]
                rw [sub32_eq _ _ (by omega) (le_refl _), add32_eq _ _ (by omega)]
                congr 1
                split_ifs <;> rfl
              · rw [hmin, if_neg hs] at hfull ⊢
                simp only [hs, if_false, hfull, hb4, if_true, hvb]
                rw [sub32_eq _ _ (by omega) (by omega), add32_eq _ _ (by omega)]
                congr 1
                split_ifs <;> rfl
            obtain ⟨s', hs', hmem, hhost, hnone, hsome⟩ := ih { s with
                  bytes_to_read := min 4 s.size,
                  memory := (read s.host fd (tlb pt s.vbuffer) (min 4 s.size) s.memory).2.1,
                  host := (read s.host fd (tlb pt s.vbuffer) (min 4 s.size) s.memory).2.2,
                  read_total := s.read_total + min 4 s.size,
                  size := s.size - min 4 s.size,
                  vbuffer := if 0 < s.size - min 4 s.size then s.vbuffer + 4 else s.vbuffer }
              (by
                show 0 < s.size - min 4 s.size → min 4 s.size = 4
                omega)
              (by
                show s.size - min 4 s.size ≤ 4 * k
                omega)
              hf
              (by
                show s.read_total + min 4 s.size + (s.size - min 4 s.size) < 4294967296
                omega)
            have hspec : read_words read fd pt (k + 1) s.vbuffer s.size s.read_total s.memory
                  s.host =
                read_words read fd pt k
                  (if 0 < s.size - min 4 s.size then s.vbuffer + 4 else s.vbuffer)
                  (s.size - min 4 s.size) (s.read_total + min 4 s.size)
                  (read s.host fd (tlb pt s.vbuffer) (min 4 s.size) s.memory).2.1
                  (read s.host fd (tlb pt s.vbuffer) (min 4 s.size) s.memory).2.2 := by
              rw [read_words_step read fd pt k _ _ _ _ _ h0 hv hm, if_pos hfull]
              by_cases hz : 0 < s.size - min 4 s.size
              · rw [if_pos hz]
              · have hz0 : s.size - min 4 s.size = 0 := by omega
                rw [hz0, read_words_done, read_words_done]
            rw [hspec]
            refine ⟨s', hl.trans hs', hmem, hhost, hnone, ?_⟩
            intro t ht'
            obtain ⟨a, b, c⟩ := hsome t ht'
            refine ⟨a, b, ?_⟩
            have c' : t ≤ s.read_total + min 4 s.size + (s.size - min 4 s.size) := c
            omega
          · have hl : implement_read_loop read fd pt (k + 1) s =
                some { s with
                  bytes_to_read := min 4 s.size,
                  memory := (read s.host fd (tlb pt s.vbuffer) (min 4 s.size) s.memory).2.1,
                  host := (read s.host fd (tlb pt s.vbuffer) (min 4 s.size) s.memory).2.2,
                  read_total :=
                    if signed_less_than 0
                        (read s.host fd (tlb pt s.vbuffer) (min 4 s.size) s.memory).1 ≠ 0 then
                      add32 s.read_total
                        (read s.host fd (tlb pt s.vbuffer) (min 4 s.size) s.memory).1
                    else s.read_total,
                  size := 0 } := by
              rw [implement_read_loop]
              simp only [hpos, hv, hm, if_true, ne_eq, not_false_eq_true, hb4]
              by_cases hs : s.size < 4
              · rw [hmin, if_pos hs] at hfull ⊢
                simp only [hs, if_true, hfull, if_false]
                rw [implement_read_loop_done read fd pt k _ (by split_ifs <;> rfl)]
                split_ifs <;> rfl
              · rw [hmin, if_neg hs] at hfull ⊢
                simp only [hs, if_false, hfull, hb4]
                rw [implement_read_loop_done read fd pt k _ (by split_ifs <;> rfl)]
                split_ifs <;> rfl
            rw [read_words_step read fd pt k _ _ _ _ _ h0 hv hm, if_neg hfull]
            refine ⟨_, hl, rfl, rfl, ?_, ?_⟩
            · intro h
              cases h
            · intro t ht'
              have e := Option.some.inj ht'
              refine ⟨hf, ?_, ?_⟩
              · dsimp only
                rw [← e]
                rcases hread s.host fd (tlb pt s.vbuffer) (min 4 s.size) s.memory with hle | hneg
                · have hlt : (read s.host fd (tlb pt s.vbuffer) (min 4 s.size) s.memory).1 <
                      4294967296 := by omega
                  by_cases hc : signed_less_than 0
                      (read s.host fd (tlb pt s.vbuffer) (min 4 s.size) s.memory).1 ≠ 0
                  · rw [if_pos hc, if_pos ((signed_less_than_zero _ hlt).1 hc),
                      add32_eq _ _ (by omega)]
                  · rw [if_neg hc,
                      if_neg (fun h => hc ((signed_less_than_zero _ hlt).2 h))]
                · by_cases hc : signed_less_than 0
                      (read s.host fd (tlb pt s.vbuffer) (min 4 s.size) s.memory).1 ≠ 0
                  · have := (signed_less_than_zero _ hneg.2).1 hc
                    omega
                  · rw [if_neg hc,
                      if_neg (fun h => hc ((signed_less_than_zero _ hneg.2).2 h))]
              · rw [← e]
                split_ifs with hc
                · rcases hread s.host fd (tlb pt s.vbuffer) (min 4 s.size) s.memory with
                    hle | hneg
                  · omega
                  · omega
                · omega
        · refine ⟨{ s with failed := 1, size := 0 }, ?_, ?_, ?_, ?_, ?_⟩
          · rw [implement_read_loop]
            simp only [hpos, hv, hm, if_true, if_false, ne_eq, not_false_eq_true, not_true_eq_false]
            exact implement_read_loop_done read fd pt k _ rfl
          · simp [read_words, h0, not_not.1 hm]
          · simp [read_words, h0, not_not.1 hm]
          · intro _
            rfl
          · intro t h
            simp [read_words, h0, not_not.1 hm] at h
      · refine ⟨{ s with failed := 1, size := 0 }, ?_, ?_, ?_, ?_, ?_⟩
        · rw [implement_read_loop]
          simp only [hpos, hv, if_true, if_false, ne_eq, not_false_eq_true, not_true_eq_false]
          exact implement_read_loop_done read fd pt k _ rfl
        · simp [read_words, h0, not_not.1 hv]
        · simp [read_words, h0, not_not.1 hv]
        · intro _
          rfl
        · intro t h
          simp [read_words, h0, not_not.1 hv] at h

theorem read_words_all_valid {σ : Type}
    (read : σ → Nat → Nat → Nat → (Nat → Nat) → Nat × (Nat → Nat) × σ)
    (fd : Nat) (pt : Nat → Nat) :
    ∀ (k vaddr size total : Nat) (memory : Nat → Nat) (host : σ),
      (∀ i, 4 * i < size → is_valid_virtual_address (vaddr + 4 * i) ≠ 0 ∧
        is_virtual_address_mapped pt (vaddr + 4 * i) ≠ 0) →
      (read_words read fd pt k vaddr size total memory host).1 ≠ none := by
  intro k
  induction k with
  | zero =>
    intro vaddr size total memory host _
    simp [read_words]
  | succ k ih =>
    intro vaddr size total memory host hall
    by_cases h0 : size = 0
    · rw [h0, read_words_done]
      simp
    · have h1 := hall 0 (by omega)
      rw [Nat.mul_zero, Nat.add_zero] at h1
      rw [read_words_step read fd pt k _ _ _ _ _ h0 h1.1 h1.2]
      by_cases hfull : (read host fd (tlb pt vaddr) (min 4 size) memory).1 = min 4 size
      · rw [if_pos hfull]
        apply ih
        intro i hi
        have h2 := hall (i + 1) (by omega)
        have e : vaddr + 4 * (i + 1) = vaddr + 4 + 4 * i := by ring
        rw [e] at h2
        exact h2
      · rw [if_neg hfull]
        exact Option.some_ne_none _

theorem read_words_invalid {σ : Type}
    (read : σ → Nat → Nat → Nat → (Nat → Nat) → Nat × (Nat → Nat) × σ)
    (hfull : ∀ h fd b n mem, (read h fd b n mem).1 = n)
    (fd : Nat) (pt : Nat → Nat) :
    ∀ (k vaddr size total : Nat) (memory : Nat → Nat) (host : σ), size ≤ 4 * k →
      (∃ j, 4 * j < size ∧ (is_valid_virtual_address (vaddr + 4 * j) = 0 ∨
        is_virtual_address_mapped pt (vaddr + 4 * j) = 0)) →
      (read_words read fd pt k vaddr size total memory host).1 = none := by
  intro k
  induction k with
  | zero =>
    intro vaddr size total memory host hk hex
    obtain ⟨j, hj, _⟩ := hex
    omega
  | succ k ih =>
    intro vaddr size total memory host hk hex
    obtain ⟨j, hj, hbad⟩ := hex
    have h0 : size ≠ 0 := by omega
    by_cases hok : is_valid_virtual_address vaddr = 0 ∨ is_virtual_address_mapped pt vaddr = 0
    · rw [read_words_fail read fd pt k _ _ _ _ _ h0 hok]
    · have hv : is_valid_virtual_address vaddr ≠ 0 := fun h => hok (Or.inl h)
      have hm : is_virtual_address_mapped pt vaddr ≠ 0 := fun h => hok (Or.inr h)
      rw [read_words_step read fd pt k _ _ _ _ _ h0 hv hm, if_pos (hfull _ _ _ _ _)]
      have hj0 : j ≠ 0 := by
        intro hj0
        rw [hj0, Nat.mul_zero, Nat.add_zero] at hbad
        exact hok hbad
      obtain ⟨j', rfl⟩ := Nat.exists_eq_succ_of_ne_zero hj0
      apply ih _ _ _ _ _ (by omega)
      refine ⟨j', by omega, ?_⟩
      have e : vaddr + 4 * (j' + 1) = vaddr + 4 + 4 * j' := by ring
      rw [← e]
      exact hbad

theorem read_words_total {σ : Type}
    (read : σ → Nat → Nat → Nat → (Nat → Nat) → Nat × (Nat → Nat) × σ)
    (hfull : ∀ h fd b n mem, (read h fd b n mem).1 = n)
    (fd : Nat) (pt : Nat → Nat) :
    ∀ (k vaddr size total : Nat) (memory : Nat → Nat) (host : σ), size ≤ 4 * k →
      (∀ i, 4 * i < size → is_valid_virtual_address (vaddr + 4 * i) ≠ 0 ∧
        is_virtual_address_mapped pt (vaddr + 4 * i) ≠ 0) →
      (read_words read fd pt k vaddr size total memory host).1 = some (total + size) := by
  intro k
  induction k with
  | zero =>
    intro vaddr size total memory host hk _
    have h0 : size = 0 := by omega
    rw [h0]
    rfl
  | succ k ih =>
    intro vaddr size total memory host hk hall
    by_cases h0 : size = 0
    · rw [h0, read_words_done]
      rfl
    · have h1 := hall 0 (by omega)
      rw [Nat.mul_zero, Nat.add_zero] at h1
      rw [read_words_step read fd pt k _ _ _ _ _ h0 h1.1 h1.2, if_pos (hfull _ _ _ _ _),
        ih _ _ _ _ _ (by omega)]
      · congr 1
        omega
      · intro i hi
        have h2 := hall (i + 1) (by omega)
        have e : vaddr + 4 * (i + 1) = vaddr + 4 + 4 * i := by ring
        rw [e] at h2
        exact h2

/-- C14: `implement_read` (concrete mode) with a host whose `read` returns at most
the number of bytes asked for or a negative word.  With enough iterations for the
`size` in `a2` the procedure returns; `a0`, the memory and the state of the host are
those of the walk `read_words` over the destination words `a1`, `a1 + 4`, ...: the
total number of bytes read, at most `size`, when the walk meets no invalid or
unmapped word, and `-1` (`2^32 - 1`) when it does.  The pc of the context advances
by 4, and no register but `a0` and no page table entry changes.  If every
destination word is valid and mapped the result is a total, and when the host
never reads short it is `size` if all destination words are valid and mapped and
`-1` if one of them is not. -/
theorem implement_read_contract {σ : Type}
    (read : σ → Nat → Nat → Nat → (Nat → Nat) → Nat × (Nat → Nat) × σ)
    (hread : ∀ h fd b n mem, (read h fd b n mem).1 ≤ n ∨
      (2147483648 ≤ (read h fd b n mem).1 ∧ (read h fd b n mem).1 < 4294967296))
    (fuel : Nat) (host : σ) (m : Machine)
    (hsize : m.registers REG_A2 < 4294967296) (hfuel : m.registers REG_A2 ≤ 4 * fuel) :
    ∃ host' m', implement_read read fuel host m = some (host', m') ∧
      (∀ t, (read_words read (m.registers REG_A0) m.pt fuel (m.registers REG_A1)
          (m.registers REG_A2) 0 m.memory host).1 = some t →
        m'.registers REG_A0 = t ∧ t ≤ m.registers REG_A2) ∧
      ((read_words read (m.registers REG_A0) m.pt fuel (m.registers REG_A1)
          (m.registers REG_A2) 0 m.memory host).1 = none →
        m'.registers REG_A0 = 4294967295) ∧
      m'.memory = (read_words read (m.registers REG_A0) m.pt fuel (m.registers REG_A1)
          (m.registers REG_A2) 0 m.memory host).2.1 ∧
      host' = (read_words read (m.registers REG_A0) m.pt fuel (m.registers REG_A1)
          (m.registers REG_A2) 0 m.memory host).2.2 ∧
      m'.context_pc = add32 m.context_pc 4 ∧
      (∀ r, r ≠ REG_A0 → m'.registers r = m.registers r) ∧ m'.pt = m.pt ∧
      ((∀ i, 4 * i < m.registers REG_A2 →
          is_valid_virtual_address (m.registers REG_A1 + 4 * i) ≠ 0 ∧
          is_virtual_address_mapped m.pt (m.registers REG_A1 + 4 * i) ≠ 0) →
        m'.registers REG_A0 ≤ m.registers REG_A2 ∧
        ((∀ h fd b n mem, (read h fd b n mem).1 = n) →
          m'.registers REG_A0 = m.registers REG_A2)) ∧
      ((∀ h fd b n mem, (read h fd b n mem).1 = n) →
        (∃ j, 4 * j < m.registers REG_A2 ∧
          (is_valid_virtual_address (m.registers REG_A1 + 4 * j) = 0 ∨
            is_virtual_address_mapped m.pt (m.registers REG_A1 + 4 * j) = 0)) →
        m'.registers REG_A0 = 4294967295) := by
  obtain ⟨s', hs', hmem, hhost, hnone, hsome⟩ :=
    implement_read_loop_refines read hread (m.registers REG_A0) m.pt fuel
      { vbuffer := m.registers REG_A1, size := m.registers REG_A2, read_total := 0,
        bytes_to_read := SIZEOFUINT32, failed := 0, memory := m.memory, host := host }
      (fun _ => rfl) hfuel rfl (by
        show 0 + m.registers REG_A2 < 4294967296
        omega)
  have hsome' : ∀ t, (read_words read (m.registers REG_A0) m.pt fuel (m.registers REG_A1)
      (m.registers REG_A2) 0 m.memory host).1 = some t →
      s'.failed = 0 ∧ s'.read_total = t ∧ t ≤ m.registers REG_A2 := by
    intro t ht
    obtain ⟨a, b, c⟩ := hsome t ht
    refine ⟨a, b, ?_⟩
    have c' : t ≤ 0 + m.registers REG_A2 := c
    omega
  have hres : implement_read read fuel host m = some (s'.host,
      { m with memory := s'.memory,
               registers := store_word m.registers REG_A0
                 (if s'.failed = 0 then s'.read_total else neg32 1),
               context_pc := add32 m.context_pc INSTRUCTIONSIZE }) := by
    unfold implement_read
    simp only [hs']
    split_ifs <;> rfl
  have ha0 : ∀ v, store_word m.registers REG_A0 v REG_A0 = v := by
    intro v
    unfold store_word
    rw [if_pos rfl]
  have hv1 : ∀ t, (read_words read (m.registers REG_A0) m.pt fuel (m.registers REG_A1)
      (m.registers REG_A2) 0 m.memory host).1 = some t →
      store_word m.registers REG_A0 (if s'.failed = 0 then s'.read_total else neg32 1) REG_A0 =
        t ∧ t ≤ m.registers REG_A2 := by
    intro t ht
    obtain ⟨a, b, c⟩ := hsome' t ht
    rw [ha0, if_pos a]
    exact ⟨b, c⟩
  have hv2 : (read_words read (m.registers REG_A0) m.pt fuel (m.registers REG_A1)
      (m.registers REG_A2) 0 m.memory host).1 = none →
      store_word m.registers REG_A0 (if s'.failed = 0 then s'.read_total else neg32 1) REG_A0 =
        4294967295 := by
    intro hn
    rw [ha0, hnone hn, if_neg (by decide)]
    rfl
  refine ⟨s'.host, _, hres, hv1, hv2, hmem, hhost, rfl,
    fun r hr => store_word_ne _ _ _ _ hr, rfl, ?_, ?_⟩
  · intro hall
    have hnn := read_words_all_valid read (m.registers REG_A0) m.pt fuel (m.registers REG_A1)
      (m.registers REG_A2) 0 m.memory host hall
    obtain ⟨t, ht⟩ := Option.ne_none_iff_exists'.1 hnn
    obtain ⟨e, le⟩ := hv1 t ht
    refine ⟨le_of_eq_of_le e le, ?_⟩
    intro hfull
    have htot := read_words_total read hfull (m.registers REG_A0) m.pt fuel
      (m.registers REG_A1) (m.registers REG_A2) 0 m.memory host hfuel hall
    rw [ht] at htot
    have e2 : t = 0 + m.registers REG_A2 := Option.some.inj htot
    exact e.trans (by omega)
  · intro hfull hex
    exact hv2 (read_words_invalid read hfull (m.registers REG_A0) m.pt fuel
      (m.registers REG_A1) (m.registers REG_A2) 0 m.memory host hfuel hex)

/-- Witness for C14: 6 bytes asked for from a file with 5 bytes left, into a mapped
buffer: the second chunk is short and `a0` is 5. -/
theorem implement_read_contract_witness :
    (∀ h fd b n mem, (file_read h fd b n mem).1 ≤ n ∨
      (2147483648 ≤ (file_read h fd b n mem).1 ∧ (file_read h fd b n mem).1 < 4294967296)) ∧
    reading_machine.registers REG_A2 < 4294967296 ∧
    reading_machine.registers REG_A2 ≤ 4 * 2 ∧
    ∃ host' m', implement_read file_read 2 5 reading_machine = some (host', m') ∧
      m'.registers REG_A0 = 5 ∧ host' = 0 ∧ m'.context_pc = 4 := by
  have hread : ∀ h fd b n mem, (file_read h fd b n mem).1 ≤ n ∨
      (2147483648 ≤ (file_read h fd b n mem).1 ∧ (file_read h fd b n mem).1 < 4294967296) :=
    fun h _ _ n _ => Or.inl (Nat.min_le_left n h)
  obtain ⟨host', m', hr, hsome, _, _, hhost, hpc, _⟩ :=
    implement_read_contract file_read hread 2 5 reading_machine (by decide) (by decide)
  exact ⟨hread, by decide, by decide, host', m', hr, (hsome 5 rfl).1, hhost.trans rfl,
    hpc.trans rfl⟩

/-! ## The scanner: literals and comments -/

theorem foldl_decimal_ge (ds : List Nat) :
    ∀ n, n ≤ ds.foldl (fun n c => 10 * n + (c - 48)) n := by
  induction ds with
  | nil =>
    intro n
    exact le_refl n
  | cons c rest ih =>
    intro n
    have h := ih (10 * n + (c - 48))
    simp only [List.foldl_cons]
    omega

theorem atoi_loop_eq (ds : List Nat) :
    ∀ n, all_digits ds → n ≤ 4294967295 →
      atoi_loop n ds =
        if ds.foldl (fun n c => 10 * n + (c - 48)) n ≤ 4294967295 then
          .ok (ds.foldl (fun n c => 10 * n + (c - 48)) n)
        else .error EXITCODE_BADARGUMENTS := by
  have hmax : UINT32_MAX = 4294967295 := by decide
  induction ds with
  | nil =>
    intro n _ hn
    rw [atoi_loop, List.foldl_nil, if_pos hn]
  | cons c rest ih =>
    intro n hd hn
    have hc := hd c (List.mem_cons_self c rest)
    have hrest : all_digits rest := fun x hx => hd x (List.mem_cons_of_mem c hx)
    have hsub : sub32 c 48 = c - 48 := by
      unfold sub32
      omega
    have hge := foldl_decimal_ge rest (10 * n + (c - 48))
    rw [atoi_loop, if_neg (by omega), List.foldl_cons, hmax]
    simp only [hsub]
    rw [if_neg (by omega)]
    by_cases h1 : n < 4294967295 / 10
    · have e : add32 (mul32 n 10) (c - 48) = 10 * n + (c - 48) := by
        unfold add32 mul32
        omega
      rw [if_pos h1, e, ih _ hrest (by omega)]
    · rw [if_neg h1]
      by_cases h2 : n = 4294967295 / 10
      · rw [if_pos h2]
        by_cases h3 : c - 48 ≤ 4294967295 % 10
        · have e : add32 (mul32 n 10) (c - 48) = 10 * n + (c - 48) := by
            unfold add32 mul32
            omega
          rw [if_pos h3, e, ih _ hrest (by omega)]
        · rw [if_neg h3, if_neg (by omega)]
      · rw [if_neg h2, if_neg (by omega)]

theorem atoi_eq (ds : List Nat) (hd : all_digits ds) :
    atoi ds =
      if decimal_value ds ≤ 4294967295 then .ok (decimal_value ds)
      else .error EXITCODE_BADARGUMENTS :=
  atoi_loop_eq ds 0 hd (by omega)

theorem is_character_digit_iff (s : Scanner) :
    is_character_digit s ≠ 0 ↔ 48 ≤ s.character ∧ s.character ≤ 57 := by
  unfold is_character_digit
  split_ifs with h1 h2
  · simp
    omega
  · simp
    omega
  · simp
    omega

theorem get_character_cons (s : Scanner) (c : Nat) (rest : List Nat) (h : s.source = c :: rest) :
    get_character s =
      { s with character := c, source := rest,
               number_of_read_characters := add32 s.number_of_read_characters 1 } := by
  unfold get_character
  rw [h]

theorem get_character_nil (s : Scanner) (h : s.source = []) :
    get_character s = { s with character := CHAR_EOF } := by
  unfold get_character
  rw [h]

theorem get_character_fields (s : Scanner) :
    (get_character s).character = s.source.headD CHAR_EOF ∧
    (get_character s).source = s.source.tail ∧
    (get_character s).line_number = s.line_number ∧
    (get_character s).symbol = s.symbol ∧
    (get_character s).literal = s.literal ∧
    (get_character s).identifier = s.identifier ∧
    (get_character s).integer = s.integer ∧
    (get_character s).string = s.string ∧
    (get_character s).integer_is_signed = s.integer_is_signed ∧
    (get_character s).number_of_scanned_symbols = s.number_of_scanned_symbols := by
  cases hs : s.source with
  | nil =>
    rw [get_character_nil s hs]
    simp [hs]
  | cons c rest =>
    rw [get_character_cons s c rest hs]
    simp [hs]

theorem scan_integer_digits (rest : List Nat)
    (hrest : ∀ c, rest.head? = some c → ¬ (48 ≤ c ∧ c ≤ 57)) (ds : List Nat) :
    ∀ (fuel i d : Nat) (s : Scanner), all_digits (d :: ds) → s.character = d →
      s.source = ds ++ rest → i + (ds.length + 1) ≤ 20 → ds.length + 1 < fuel →
      ∃ s', scan_integer fuel i s = .ok (some s') ∧
        s'.integer = s.integer ++ d :: ds ∧
        s'.character = rest.headD CHAR_EOF ∧ s'.source = rest.tail ∧
        s'.integer_is_signed = s.integer_is_signed ∧ s'.line_number = s.line_number ∧
        s'.number_of_scanned_symbols = s.number_of_scanned_symbols := by
  induction ds with
  | nil =>
    intro fuel i d s hd hc hs hi hf
    obtain ⟨f, rfl⟩ : ∃ f, fuel = f + 2 := ⟨fuel - 2, by simp at hf; omega⟩
    have hdig : is_character_digit s ≠ 0 :=
      (is_character_digit_iff s).2 (hc ▸ hd d (List.mem_cons_self d []))
    obtain ⟨g1, g2, g3, g4, g5, g6, g7, g8, g9, g10⟩ :=
      get_character_fields { s with integer := s.integer ++ [s.character] }
    have hnd : ¬ is_character_digit
        (get_character { s with integer := s.integer ++ [s.character] }) ≠ 0 := by
      rw [is_character_digit_iff, g1]
      show ¬ (48 ≤ s.source.headD CHAR_EOF ∧ s.source.headD CHAR_EOF ≤ 57)
      rw [hs]
      cases rest with
      | nil =>
        have e : CHAR_EOF = 4294967295 := by decide
        simp only [List.nil_append, List.headD_nil, e]
        omega
      | cons c rest' =>
        exact hrest c rfl
    refine ⟨get_character { s with integer := s.integer ++ [s.character] }, ?_, ?_, ?_, ?_,
      g9, g3, g10⟩
    · rw [scan_integer, if_pos hdig, if_neg (by unfold MAX_INTEGER_LENGTH; omega), scan_integer,
        if_neg hnd]
    · rw [g7, ← hc]
    · rw [g1]
      show s.source.headD CHAR_EOF = _
      rw [hs]
      rfl
    · rw [g2]
      show s.source.tail = _
      rw [hs]
      rfl
  | cons d2 ds ih =>
    intro fuel i d s hd hc hs hi hf
    obtain ⟨f, rfl⟩ : ∃ f, fuel = f + 1 := ⟨fuel - 1, by omega⟩
    have hdig : is_character_digit s ≠ 0 :=
      (is_character_digit_iff s).2 (hc ▸ hd d (List.mem_cons_self d _))
    obtain ⟨g1, g2, g3, g4, g5, g6, g7, g8, g9, g10⟩ :=
      get_character_fields { s with integer := s.integer ++ [s.character] }
    have hi1 : add32 i 1 = i + 1 := by
      unfold add32
      simp only [List.length_cons] at hi
      omega
    obtain ⟨s', h1, h2, h3, h4, h5, h6, h7⟩ := ih f (i + 1) d2
      (get_character { s with integer := s.integer ++ [s.character] })
      (fun x hx => hd x (List.mem_cons_of_mem d hx))
      (by
        rw [g1]
        show s.source.headD CHAR_EOF = d2
        rw [hs]
        rfl)
      (by
        rw [g2]
        show s.source.tail = _
        rw [hs]
        rfl)
      (by simp only [List.length_cons] at hi ⊢; omega)
      (by simp only [List.length_cons] at hf ⊢; omega)
    refine ⟨s', ?_, ?_, h3, h4, h5.trans g9, h6.trans g3, h7.trans g10⟩
    · rw [scan_integer, if_pos hdig,
        if_neg (by unfold MAX_INTEGER_LENGTH; simp only [List.length_cons] at hi; omega), hi1]
      exact h1
    · rw [h2, g7, ← hc]
      simp

theorem find_next_character_here (fuel : Nat) (s : Scanner)
    (hw : is_character_whitespace s = 0) (hs : s.character ≠ CHAR_SLASH) :
    find_next_character (fuel + 1) s = .ok (some s) := by
  unfold find_next_character
  rw [find_next_character_loop]
  simp only [ne_eq, not_true_eq_false, if_false, hw, hs]

theorem not_whitespace_of_digit (s : Scanner) (h : 48 ≤ s.character ∧ s.character ≤ 57) :
    is_character_whitespace s = 0 ∧ s.character ≠ CHAR_SLASH ∧ s.character ≠ CHAR_EOF ∧
      is_character_letter s = 0 := by
  have e : CHAR_EOF = 4294967295 := by decide
  unfold is_character_whitespace is_character_new_line is_character_letter CHAR_SPACE CHAR_TAB
    CHAR_LF CHAR_CR CHAR_SLASH
  rw [e]
  refine ⟨?_, by omega, by omega, ?_⟩
  · rw [if_neg (by omega), if_neg (by omega), if_neg (by omega), if_neg (by omega)]
  · rw [if_neg (by omega), if_neg (by omega)]

theorem get_symbol_integer_eq (fuel : Nat) (s s2 : Scanner)
    (hd : 48 ≤ s.character ∧ s.character ≤ 57)
    (h2 : scan_integer (fuel + 1) 0 { s with symbol := SYM_EOF, integer := [] } = .ok (some s2)) :
    get_symbol (fuel + 1) s =
      (do
        let literal ← atoi s2.integer
        if s2.integer_is_signed ≠ 0 then
          if literal > INT32_MIN then .error EXITCODE_SCANNERERROR
          else
            pure (some { s2 with
              literal := literal, symbol := SYM_INTEGER,
              number_of_scanned_symbols := add32 s2.number_of_scanned_symbols 1 })
        else
          pure (some { s2 with
            literal := literal, symbol := SYM_INTEGER,
            number_of_scanned_symbols := add32 s2.number_of_scanned_symbols 1 })) := by
  obtain ⟨hw, hsl, he, hl⟩ := not_whitespace_of_digit { s with symbol := SYM_EOF } hd
  have hdig : is_character_digit { s with symbol := SYM_EOF } ≠ 0 :=
    (is_character_digit_iff _).2 hd
  have hsym : ({ s with symbol := SYM_EOF } : Scanner).symbol ≠ SYM_DIV :=
    show SYM_EOF ≠ SYM_DIV by decide
  unfold get_symbol
  simp only [find_next_character_here fuel _ hw hsl, bind, Except.bind, pure, Except.pure]
  simp only [ne_eq, he, not_false_eq_true, if_true, hsym]
  unfold scan_symbol
  simp only [hl, ne_eq, not_true_eq_false, if_false, hdig, not_false_eq_true, if_true, h2, bind,
    Except.bind, pure, Except.pure]
  cases atoi s2.integer with
  | error e => rfl
  | ok literal =>
    dsimp only
    split_ifs <;> rfl

/-- C18 (amended): for every string of at most 20 decimal digits followed by a
character that is no digit (or by the end of the file), `get_symbol` yields an
INTEGER token whose literal is the string's value and which ends before that
character, when the value is at most `2^32 - 1` (at most `2^31` when
`integer_is_signed` is set); a value beyond `2^32 - 1` ends in `atoi` with the exit
code BADARGUMENTS (1), and with `integer_is_signed` set a value above `2^31` up to
`2^32 - 1` ends with the exit code SCANNERERROR (3). -/
theorem get_symbol_integer_literal (d : Nat) (ds rest : List Nat) (fuel : Nat) (s : Scanner)
    (hd : all_digits (d :: ds)) (hlen : ds.length + 1 ≤ 20)
    (hrest : ∀ c, rest.head? = some c → ¬ (48 ≤ c ∧ c ≤ 57))
    (hc : s.character = d) (hs : s.source = ds ++ rest) (hf : ds.length + 1 ≤ fuel) :
    (decimal_value (d :: ds) ≤ 4294967295 →
      (s.integer_is_signed = 0 ∨ decimal_value (d :: ds) ≤ 2147483648) →
      ∃ s', get_symbol (fuel + 1) s = .ok (some s') ∧ s'.symbol = SYM_INTEGER ∧
        s'.literal = decimal_value (d :: ds) ∧ s'.character = rest.headD CHAR_EOF ∧
        s'.source = rest.tail ∧ s'.line_number = s.line_number) ∧
    (4294967295 < decimal_value (d :: ds) →
      get_symbol (fuel + 1) s = .error EXITCODE_BADARGUMENTS) ∧
    (s.integer_is_signed ≠ 0 → 2147483648 < decimal_value (d :: ds) →
      decimal_value (d :: ds) ≤ 4294967295 →
      get_symbol (fuel + 1) s = .error EXITCODE_SCANNERERROR) := by
  have hdig : 48 ≤ s.character ∧ s.character ≤ 57 := hc ▸ hd d (List.mem_cons_self d ds)
  obtain ⟨s2, h2, hint, hchar, hsrc, hsigned, hline, _⟩ :=
    scan_integer_digits rest hrest ds (fuel + 1) 0 d { s with symbol := SYM_EOF, integer := [] }
      hd hc hs (by omega) (by omega)
  have hint' : s2.integer = d :: ds := hint
  have hsigned' : s2.integer_is_signed = s.integer_is_signed := hsigned
  have hmin : INT32_MIN = 2147483648 := by decide
  have key := get_symbol_integer_eq fuel s s2 hdig h2
  have hat : atoi s2.integer =
      if decimal_value (d :: ds) ≤ 4294967295 then .ok (decimal_value (d :: ds))
      else .error EXITCODE_BADARGUMENTS := by
    rw [hint']
    exact atoi_eq _ hd
  rw [hat, hmin] at key
  refine ⟨?_, ?_, ?_⟩
  · intro hv hsg
    rw [if_pos hv] at key
    refine ⟨{ s2 with
      literal := decimal_value (d :: ds), symbol := SYM_INTEGER,
      number_of_scanned_symbols := add32 s2.number_of_scanned_symbols 1 }, key.trans ?_,
      rfl, rfl, hchar, hsrc, hline⟩
    show (if s2.integer_is_signed ≠ 0 then _ else _) = _
    rw [hsigned']
    by_cases hz : s.integer_is_signed = 0
    · rw [if_neg (not_not.2 hz)]
      rfl
    · have hv2 : decimal_value (d :: ds) ≤ 2147483648 := hsg.resolve_left hz
      rw [if_pos hz, if_neg (by omega)]
      rfl
  · intro hv
    rw [if_neg (by omega)] at key
    exact key
  · intro hz hv1 hv2
    rw [if_pos hv2] at key
    refine key.trans ?_
    show (if s2.integer_is_signed ≠ 0 then _ else _) = _
    rw [hsigned', if_pos hz, if_pos hv1]

/-- Witness for C18: the literal `42` followed by `;`. -/
theorem get_symbol_integer_literal_witness :
    (all_digits [52, 50] ∧ [50].length + 1 ≤ 20 ∧
      (∀ c, [59].head? = some c → ¬ (48 ≤ c ∧ c ≤ 57)) ∧
      (scanner_on [52, 50, 59]).character = 52 ∧
      (scanner_on [52, 50, 59]).source = [50] ++ [59] ∧ [50].length + 1 ≤ 2) ∧
    ∃ s', get_symbol 3 (scanner_on [52, 50, 59]) = .ok (some s') ∧ s'.symbol = SYM_INTEGER ∧
      s'.literal = 42 ∧ s'.character = 59 := by
  have hd : all_digits [52, 50] := by
    intro c hc
    simp only [List.mem_cons, List.mem_singleton, List.not_mem_nil, or_false] at hc
    omega
  have hrest : ∀ c, [59].head? = some c → ¬ (48 ≤ c ∧ c ≤ 57) := by
    intro c hc
    simp only [List.head?_cons, Option.some.injEq] at hc
    omega
  obtain ⟨s', h1, h2, h3, h4, _⟩ :=
    (get_symbol_integer_literal 52 [50] [59] 2 (scanner_on [52, 50, 59]) hd (by decide) hrest
      rfl rfl (by decide)).1 (by decide) (Or.inl rfl)
  exact ⟨⟨hd, by decide, hrest, rfl, rfl, by decide⟩, s', h1, h2, h3.trans (by decide), h4⟩

/-- Counterexample for C18 as stated: the 10-digit literal `4294967296` overflows
`2^32 - 1` and ends with exit code 1 (BADARGUMENTS, from `atoi`), not with the
scanner's exit code 3. -/
theorem get_symbol_integer_overflow_exit_code :
    decimal_value [52, 50, 57, 52, 57, 54, 55, 50, 57, 54] = 4294967296 ∧
    get_symbol 12 (scanner_on [52, 50, 57, 52, 57, 54, 55, 50, 57, 54]) =
      .error EXITCODE_BADARGUMENTS ∧
    EXITCODE_BADARGUMENTS ≠ EXITCODE_SCANNERERROR :=
  ⟨by decide, rfl, by decide⟩

theorem get_symbol_eq_scan_symbol (fuel : Nat) (s : Scanner)
    (hw : is_character_whitespace s = 0) (hsl : s.character ≠ CHAR_SLASH)
    (he : s.character ≠ CHAR_EOF) :
    get_symbol (fuel + 1) s =
      (do
        let r ← scan_symbol (fuel + 1) { s with symbol := SYM_EOF }
        match r with
        | none => pure none
        | some s =>
          pure (some { s with
            number_of_scanned_symbols := add32 s.number_of_scanned_symbols 1 })) := by
  have hsym : ({ s with symbol := SYM_EOF } : Scanner).symbol ≠ SYM_DIV :=
    show SYM_EOF ≠ SYM_DIV by decide
  have he' : ({ s with symbol := SYM_EOF } : Scanner).character ≠ CHAR_EOF := he
  unfold get_symbol
  simp only [find_next_character_here fuel { s with symbol := SYM_EOF } hw hsl, bind,
    Except.bind, pure, Except.pure]
  simp only [ne_eq, he', not_false_eq_true, if_true, hsym]

theorem scan_symbol_character (fuel : Nat) (s : Scanner) (c q : Nat) (rest : List Nat)
    (hq : s.character = CHAR_SINGLEQUOTE) (hs : s.source = c :: q :: rest) (hc : c < 256)
    (hq2 : q < 256) :
    ∃ s', scan_symbol fuel s = .ok (some s') ∧ s'.symbol = SYM_CHARACTER ∧ s'.literal = c ∧
      s'.line_number = s.line_number ∧
      (q = CHAR_SINGLEQUOTE → s'.character = rest.headD CHAR_EOF ∧ s'.source = rest.tail) ∧
      (q ≠ CHAR_SINGLEQUOTE → s'.character = q ∧ s'.source = rest) := by
  have hl : is_character_letter s = 0 := by
    unfold is_character_letter
    simp only [hq]
    decide
  have hd : is_character_digit s = 0 := by
    unfold is_character_digit
    simp only [hq]
    decide
  have e : CHAR_EOF = 4294967295 := by decide
  unfold scan_symbol
  rw [if_neg (not_not.2 hl), if_neg (not_not.2 hd), if_pos hq, get_character_cons s c _ hs]
  dsimp only
  rw [if_neg (by rw [e]; omega), get_character_cons _ q rest rfl]
  dsimp only
  by_cases hqq : q = CHAR_SINGLEQUOTE
  · rw [if_pos hqq]
    obtain ⟨g1, g2, g3, g4, g5, _⟩ := get_character_fields
      { character := q, source := rest, line_number := s.line_number, symbol := s.symbol,
        literal := c, identifier := s.identifier, integer := s.integer, string := s.string,
        integer_is_signed := s.integer_is_signed,
        number_of_read_characters := add32 (add32 s.number_of_read_characters 1) 1,
        number_of_ignored_characters := s.number_of_ignored_characters,
        number_of_comments := s.number_of_comments,
        number_of_scanned_symbols := s.number_of_scanned_symbols }
    exact ⟨_, rfl, rfl, g5, g3, fun _ => ⟨g1, g2⟩, fun h => absurd hqq h⟩
  · rw [if_neg hqq, if_neg (by rw [e]; omega)]
    exact ⟨_, rfl, rfl, rfl, rfl, fun h => absurd h hqq, fun _ => ⟨rfl, rfl⟩⟩

/-- C19 (amended): a character literal is the byte after the opening quote, with no
escape sequences.  For bytes `c` and `q`, scanning quote, `c`, `q` yields a CHARACTER
token with literal `c`; when `q` is the closing quote the whole literal is consumed,
and otherwise (as in quote, backslash, `n`, quote, where the literal is the
backslash, 92) the token ends before `q`. -/
theorem get_symbol_character_literal (c q : Nat) (rest : List Nat) (fuel : Nat) (s : Scanner)
    (hq : s.character = CHAR_SINGLEQUOTE) (hs : s.source = c :: q :: rest) (hc : c < 256)
    (hq2 : q < 256) :
    ∃ s', get_symbol (fuel + 1) s = .ok (some s') ∧ s'.symbol = SYM_CHARACTER ∧
      s'.literal = c ∧ s'.line_number = s.line_number ∧
      (q = CHAR_SINGLEQUOTE → s'.character = rest.headD CHAR_EOF ∧ s'.source = rest.tail) ∧
      (q ≠ CHAR_SINGLEQUOTE → s'.character = q ∧ s'.source = rest) := by
  have hw : is_character_whitespace s = 0 := by
    unfold is_character_whitespace is_character_new_line
    simp only [hq]
    decide
  obtain ⟨s1, h1, h2, h3, h4, h5, h6⟩ :=
    scan_symbol_character (fuel + 1) { s with symbol := SYM_EOF } c q rest hq hs hc hq2
  rw [get_symbol_eq_scan_symbol fuel s hw (by rw [hq]; decide) (by rw [hq]; decide)]
  refine ⟨{ s1 with number_of_scanned_symbols := add32 s1.number_of_scanned_symbols 1 },
    ?_, h2, h3, h4, h5, h6⟩
  show (scan_symbol (fuel + 1) { s with symbol := SYM_EOF } >>= _) = _
  rw [h1]
  rfl

/-- Witness for C19: the literal quote, `a`, quote followed by `;`. -/
theorem get_symbol_character_literal_witness :
    ((scanner_on [39, 97, 39, 59]).character = CHAR_SINGLEQUOTE ∧
      (scanner_on [39, 97, 39, 59]).source = 97 :: 39 :: [59] ∧ 97 < 256 ∧ 39 < 256) ∧
    ∃ s', get_symbol 1 (scanner_on [39, 97, 39, 59]) = .ok (some s') ∧
      s'.symbol = SYM_CHARACTER ∧ s'.literal = 97 ∧ s'.character = 59 := by
  obtain ⟨s', h1, h2, h3, _, h5, _⟩ :=
    get_symbol_character_literal 97 39 [59] 0 (scanner_on [39, 97, 39, 59]) rfl rfl
      (by decide) (by decide)
  exact ⟨⟨rfl, rfl, by decide, by decide⟩, s', h1, h2, h3, (h5 rfl).1⟩

/-- Counterexample for C19 as stated: scanning quote, backslash, `n`, quote yields a
CHARACTER token whose literal is 92 (the backslash), not 10, and the token ends
before the `n`. -/
theorem get_symbol_character_escape :
    ∃ s', get_symbol 1 (scanner_on [39, 92, 110, 39]) = .ok (some s') ∧
      s'.symbol = SYM_CHARACTER ∧ s'.literal = 92 ∧ s'.literal ≠ CHAR_LF ∧
      s'.character = 110 ∧ s'.source = [39] :=
  ⟨_, rfl, rfl, rfl, by decide, rfl, rfl⟩

/-- C20: the comment `/***/` is not skipped.  On the input `/***/x` the procedure
`find_next_character` pairs the second asterisk with the third, misses the
terminator and ends in the scanner error at the end of the file, instead of
resuming at `x`; on `/**/x`, `/****/x` and on a comment with line feed and carriage
return it resumes at `x`, counting the line feed only.  On `/* a **/x */y` it
resumes at `y`, not at `x`. -/
theorem find_next_character_misses_terminator :
    find_next_character 8 (scanner_on [47, 42, 42, 42, 47, 120]) =
      .error EXITCODE_SCANNERERROR ∧
    (∃ s', find_next_character 8 (scanner_on [47, 42, 42, 47, 120]) = .ok (some s') ∧
      s'.character = 120 ∧ s'.source = []) ∧
    (∃ s', find_next_character 8 (scanner_on [47, 42, 42, 42, 42, 47, 120]) = .ok (some s') ∧
      s'.character = 120 ∧ s'.source = []) ∧
    (∃ s', find_next_character 9 (scanner_on [47, 42, 97, 10, 13, 42, 47, 120]) =
        .ok (some s') ∧
      s'.character = 120 ∧ s'.source = [] ∧ s'.line_number = 2) ∧
    (∃ s', find_next_character 16
        (scanner_on [47, 42, 32, 97, 32, 42, 42, 47, 120, 32, 42, 47, 121]) = .ok (some s') ∧
      s'.character = 121 ∧ s'.source = []) ∧
    find_next_character 8 (scanner_on [47, 42, 32, 97]) = .error EXITCODE_SCANNERERROR :=
  ⟨rfl, ⟨_, rfl, rfl, rfl⟩, ⟨_, rfl, rfl, rfl⟩, ⟨_, rfl, rfl, rfl, rfl⟩, ⟨_, rfl, rfl, rfl⟩, rfl⟩

/-! ## Loading a binary -/

theorem compare_elf_headers_eq (header valid_header : Nat → Nat) :
    ∀ (words position : Nat),
      compare_elf_headers header valid_header position words =
        if ∀ i, position ≤ i → i < position + words → header i = valid_header i then 1 else 0 := by
  intro words
  induction words with
  | zero =>
    intro position
    rw [compare_elf_headers, if_pos]
    intro i h1 h2
    omega
  | succ words ih =>
    intro position
    rw [compare_elf_headers]
    by_cases h : header position = valid_header position
    · rw [if_neg (not_not.2 h), ih]
      by_cases hall : ∀ i, position + 1 ≤ i → i < position + 1 + words → header i = valid_header i
      · rw [if_pos hall, if_pos]
        intro i h1 h2
        by_cases e : i = position
        · rw [e]
          exact h
        · exact hall i (by omega) (by omega)
      · rw [if_neg hall, if_neg]
        intro hall'
        exact hall (fun i h1 h2 => hall' i (by omega) (by omega))
    · rw [if_pos h, if_neg]
      intro hall
      exact h (hall position (le_refl _) (by omega))

theorem validate_elf_header_eq_one (header : Nat → Nat) (entry_point binary_length : Nat) :
    (validate_elf_header header entry_point binary_length).1 = 1 ↔
      (∀ i, i < 21 → header i = create_elf_header (header 17) i) ∧
        header 15 ≤ sub32 (sub32 VIRTUALMEMORYSIZE PAGESIZE) (header 17) := by
  have h18 : create_elf_header (header 17) 18 = header 17 := rfl
  unfold validate_elf_header
  by_cases h1 : header 17 = header 18
  · simp only [ne_eq, h1, not_true_eq_false, if_false]
    by_cases h2 : header 15 > sub32 (sub32 VIRTUALMEMORYSIZE PAGESIZE) (header 18)
    · rw [if_pos h2]
      constructor
      · intro h
        cases h
      · intro h
        omega
    · rw [if_neg h2, compare_elf_headers_eq]
      have e : ELF_HEADER_LEN / SIZEOFUINT32 = 21 := by decide
      rw [e]
      by_cases hall : ∀ i, 0 ≤ i → i < 0 + 21 → header i = create_elf_header (header 18) i
      · rw [if_pos hall, if_neg (by decide)]
        exact ⟨fun _ => ⟨fun i hi => hall i (Nat.zero_le _) (by omega), by omega⟩, fun _ => rfl⟩
      · rw [if_neg hall, if_pos rfl]
        constructor
        · intro h
          cases h
        · intro h
          exact absurd (fun i _ hi => h.1 i (by omega)) hall
  · simp only [ne_eq, h1, not_false_eq_true, if_true]
    constructor
    · intro h
      cases h
    · intro h
      have := h.1 18 (by decide)
      rw [h18] at this
      exact absurd this.symm h1

theorem validate_elf_header_cases (header : Nat → Nat) (entry_point binary_length : Nat) :
    ((validate_elf_header header entry_point binary_length).1 = 1 ∧
      validate_elf_header header entry_point binary_length = (1, header 15, header 17)) ∨
    validate_elf_header header entry_point binary_length = (0, entry_point, binary_length) := by
  unfold validate_elf_header
  dsimp only
  split_ifs
  · exact Or.inr rfl
  · exact Or.inr rfl
  · exact Or.inr rfl
  · exact Or.inl ⟨rfl, rfl⟩

theorem validate_elf_header_created (n entry_point binary_length : Nat)
    (h : ELF_ENTRY_POINT + n ≤ VIRTUALMEMORYSIZE - PAGESIZE) :
    validate_elf_header (create_elf_header n) entry_point binary_length =
      (1, ELF_ENTRY_POINT, n) := by
  have h1 : (validate_elf_header (create_elf_header n) entry_point binary_length).1 = 1 := by
    rw [validate_elf_header_eq_one]
    refine ⟨fun i _ => rfl, ?_⟩
    show ELF_ENTRY_POINT ≤ sub32 (sub32 VIRTUALMEMORYSIZE PAGESIZE) n
    have e : sub32 VIRTUALMEMORYSIZE PAGESIZE = 2147479552 := by decide
    rw [e]
    unfold ELF_ENTRY_POINT VIRTUALMEMORYSIZE PAGESIZE at h
    unfold sub32 ELF_ENTRY_POINT
    omega
  rcases validate_elf_header_cases (create_elf_header n) entry_point binary_length with h2 | h2
  · exact h2.2
  · rw [h2] at h1
    cases h1

/-- C16: `validate_elf_header` accepts a header that declares a binary which does
not fit below the top of virtual memory.  The procedure returns 1 exactly when the
header equals `create_elf_header(n)` word for word, `n` being word 17, and its test
`entry > VIRTUALMEMORYSIZE - PAGESIZE - n` fails; acceptance sets `entry_point` and
`binary_length`, rejection leaves both; every binary that fits (so every
`n <= MAX_BINARY_LENGTH`) is accepted.  But the subtraction in the test wraps
around for `n > 2^31 - 4096`: the header created for `n = 2^31` is accepted. -/
theorem validate_elf_header_accepts_oversized :
    (∀ header entry_point binary_length,
      (validate_elf_header header entry_point binary_length).1 = 1 ↔
        (∀ i, i < 21 → header i = create_elf_header (header 17) i) ∧
          header 15 ≤ sub32 (sub32 VIRTUALMEMORYSIZE PAGESIZE) (header 17)) ∧
    (∀ header entry_point binary_length,
      ((validate_elf_header header entry_point binary_length).1 = 1 ∧
        validate_elf_header header entry_point binary_length = (1, header 15, header 17)) ∨
      validate_elf_header header entry_point binary_length =
        (0, entry_point, binary_length)) ∧
    (∀ n entry_point binary_length, ELF_ENTRY_POINT + n ≤ VIRTUALMEMORYSIZE - PAGESIZE →
      validate_elf_header (create_elf_header n) entry_point binary_length =
        (1, ELF_ENTRY_POINT, n)) ∧
    (∀ n entry_point binary_length, n ≤ MAX_BINARY_LENGTH →
      validate_elf_header (create_elf_header n) entry_point binary_length =
        (1, ELF_ENTRY_POINT, n)) ∧
    validate_elf_header (create_elf_header 2147483648) 0 0 = (1, 65536, 2147483648) ∧
    ¬ (ELF_ENTRY_POINT + 2147483648 ≤ VIRTUALMEMORYSIZE - PAGESIZE) :=
  ⟨validate_elf_header_eq_one, validate_elf_header_cases, validate_elf_header_created,
    fun n e b h => validate_elf_header_created n e b (by
      unfold MAX_BINARY_LENGTH at h
      unfold ELF_ENTRY_POINT VIRTUALMEMORYSIZE PAGESIZE
      omega),
    rfl, by decide⟩

/-- C17: `selfie_load` accepts a truncated binary.  For a file with a valid header
that declares 8 bytes, the code length and only 4 bytes of code and data, the
procedure returns with `binary_length = 8` and the second word of the binary not
read; with no byte of code and data it exits with IOERROR (2), and the complete
file is loaded. -/
theorem selfie_load_accepts_truncated :
    (∃ l host, selfie_load (fun h => (3, h)) bytes_read (binary_file 8 8 [19, 0, 0, 0])
        empty_loader = .ok (l, host) ∧
      l.binary_length = 8 ∧ l.code_length = 8 ∧ l.binary 0 = 19 ∧ l.binary 1 = 0) ∧
    selfie_load (fun h => (3, h)) bytes_read (binary_file 8 8 []) empty_loader =
      .error EXITCODE_IOERROR ∧
    (∃ l host, selfie_load (fun h => (3, h)) bytes_read
        (binary_file 8 8 [19, 0, 0, 0, 103, 128, 0, 0]) empty_loader = .ok (l, host) ∧
      l.binary_length = 8 ∧ l.binary 0 = 19 ∧ l.binary 1 = 32871) :=
  ⟨⟨_, _, rfl, rfl, rfl, rfl, rfl⟩, rfl, ⟨_, _, rfl, rfl, rfl, rfl⟩⟩

/-! ## The code emitted for `malloc` -/

/-- C15: the code emitted by `emit_malloc` reports a request of `2^32 - 1` bytes as
successful without growing the break.  The 18 instructions are run under `mipster`
(the `brk` system call is served by `handle_system_call` through `implement_brk`)
in a state in which `_bump` equals the program break `0x12000`; the run is 15
instructions long and ends at the return address.  For `malloc(4294967295)` and
`malloc(4294967293)` the code returns the old `_bump` in `a0`, which is not 0, and
`_bump` and the program break are still `0x12000`: the rounding code of
`emit_round_up` wraps the size to 0.  The same code serves `malloc(5)` by
returning the old `_bump` and advancing `_bump` and the program break by 8, and
returns 0 with both unchanged for `malloc(2147483648)` (not below `sp`) and for
`malloc(4294967292)` (the new break wraps around). -/
theorem emit_malloc_reports_success_without_growth (k : Kernel) :
    (∃ m, mipster_steps k 15 (malloc_machine 4294967295) = .ok (.inr m) ∧
      m.pc = 65792 ∧ m.registers REG_A0 = 73728 ∧ m.program_break = 73728 ∧
      load_virtual_memory m.memory m.pt 69628 = 73728) ∧
    (∃ m, mipster_steps k 15 (malloc_machine 4294967293) = .ok (.inr m) ∧
      m.pc = 65792 ∧ m.registers REG_A0 = 73728 ∧ m.program_break = 73728 ∧
      load_virtual_memory m.memory m.pt 69628 = 73728) ∧
    (∃ m, mipster_steps k 15 (malloc_machine 5) = .ok (.inr m) ∧
      m.pc = 65792 ∧ m.registers REG_A0 = 73728 ∧ m.program_break = 73736 ∧
      load_virtual_memory m.memory m.pt 69628 = 73736) ∧
    (∃ m, mipster_steps k 15 (malloc_machine 2147483648) = .ok (.inr m) ∧
      m.pc = 65792 ∧ m.registers REG_A0 = 0 ∧ m.program_break = 73728 ∧
      load_virtual_memory m.memory m.pt 69628 = 73728) ∧
    (∃ m, mipster_steps k 15 (malloc_machine 4294967292) = .ok (.inr m) ∧
      m.pc = 65792 ∧ m.registers REG_A0 = 0 ∧ m.program_break = 73728 ∧
      load_virtual_memory m.memory m.pt 69628 = 73728) :=
  ⟨⟨_, rfl, rfl, rfl, rfl, rfl⟩, ⟨_, rfl, rfl, rfl, rfl, rfl⟩, ⟨_, rfl, rfl, rfl, rfl, rfl⟩,
    ⟨_, rfl, rfl, rfl, rfl, rfl⟩, ⟨_, rfl, rfl, rfl, rfl, rfl⟩⟩

/-! ## Signed arithmetic -/

theorem signed_less_than_eq (a b : Nat) (ha : a < 4294967296) (hb : b < 4294967296) :
    signed_less_than a b = if signed_value a < signed_value b then 1 else 0 := by
  have h : INT32_MIN = 2147483648 := by decide
  unfold signed_less_than signed_value
  rw [h]
  unfold add32
  split_ifs <;> omega

theorem signed_less_than_zero_right (a : Nat) (ha : a < 4294967296) :
    signed_less_than a 0 ≠ 0 ↔ 2147483648 ≤ a := by
  have h : INT32_MIN = 2147483648 := by decide
  unfold signed_less_than
  rw [h]
  unfold add32
  split_ifs with c <;> simp <;> omega

theorem selfie_abs_eq (a : Nat) (ha : a < 4294967296) :
    selfie_abs a = if 2147483648 ≤ a then 4294967296 - a else a := by
  unfold selfie_abs
  by_cases h : 2147483648 ≤ a
  · rw [if_pos ((signed_less_than_zero_right a ha).2 h), if_pos h]
    unfold neg32
    omega
  · rw [if_neg (fun c => h ((signed_less_than_zero_right a ha).1 c)), if_neg h]

theorem neg32_cast (q : Nat) :
    ((neg32 q : Nat) : Int) = (-(q : Int)) % 4294967296 := by
  unfold neg32
  omega

theorem signed_division_eq (a b : Nat) (ha : a < 4294967296) (hb : b < 4294967296)
    (hm : ¬ (a = 2147483648 ∧ b = 4294967295)) :
    (signed_division a b : Int) =
      (Int.tdiv (signed_value a) (signed_value b)) % 4294967296 := by
  have hmin : INT32_MIN = 2147483648 := by decide
  have sa := selfie_abs_eq a ha
  have sb := selfie_abs_eq b hb
  have za := signed_less_than_zero_right a ha
  have zb := signed_less_than_zero_right b hb
  by_cases na : 2147483648 ≤ a
  · have va : signed_value a = -((4294967296 - a : Nat) : Int) := by
      unfold signed_value; rw [if_neg (by omega)]; omega
    by_cases nb : 2147483648 ≤ b
    · have vb : signed_value b = -((4294967296 - b : Nat) : Int) := by
        unfold signed_value; rw [if_neg (by omega)]; omega
      have key : Int.tdiv (signed_value a) (signed_value b) =
          (((4294967296 - a) / (4294967296 - b) : Nat) : Int) := by
        rw [va, vb, Int.neg_tdiv, Int.tdiv_neg, neg_neg, Int.ofNat_tdiv]
      have hq : (4294967296 - a) / (4294967296 - b) ≤ 4294967296 - a := Nat.div_le_self _ _
      have hq2 : (4294967296 - a) / (4294967296 - b) < 4294967296 := by
        by_cases e : 4294967296 - b = 1
        · have : a ≠ 2147483648 := fun c => hm ⟨c, by omega⟩
          omega
        · have : (4294967296 - a) / (4294967296 - b) ≤ (4294967296 - a) / 2 :=
            Nat.div_le_div_left (by omega) (by decide)
          omega
      have res : signed_division a b = (4294967296 - a) / (4294967296 - b) := by
        unfold signed_division
        rw [hmin]
        by_cases ea : a = 2147483648
        · rw [if_pos ea]
          by_cases eb : b = 2147483648
          · rw [if_pos eb, ea, eb]
          · rw [if_neg eb, if_pos (zb.2 nb), sb, if_pos nb, ea]
        · rw [if_neg ea]
          by_cases eb : b = 2147483648
          · rw [if_pos eb, eb]
            symm
            apply Nat.div_eq_of_lt
            omega
          · rw [if_neg eb, if_pos (za.2 na), if_pos (zb.2 nb), sa, sb, if_pos na, if_pos nb]
      rw [res, key]
      omega
    · have vb : signed_value b = ((b : Nat) : Int) := by
        unfold signed_value; rw [if_pos (by omega)]
      have key : Int.tdiv (signed_value a) (signed_value b) =
          -((((4294967296 - a) / b : Nat) : Int)) := by
        rw [va, vb, Int.neg_tdiv, Int.ofNat_tdiv]
      have hq : (4294967296 - a) / b ≤ 4294967296 - a := Nat.div_le_self _ _
      have res : signed_division a b = neg32 ((4294967296 - a) / b) := by
        unfold signed_division
        rw [hmin]
        by_cases ea : a = 2147483648
        · rw [if_pos ea, if_neg (by omega), if_neg (fun c => nb (zb.1 c)), ea]
        · rw [if_neg ea, if_neg (by omega), if_pos (za.2 na), if_neg (fun c => nb (zb.1 c)),
            sa, if_pos na]
      rw [res, key, neg32_cast _]
  · have va : signed_value a = ((a : Nat) : Int) := by
      unfold signed_value; rw [if_pos (by omega)]
    by_cases nb : 2147483648 ≤ b
    · have vb : signed_value b = -((4294967296 - b : Nat) : Int) := by
        unfold signed_value; rw [if_neg (by omega)]; omega
      have key : Int.tdiv (signed_value a) (signed_value b) =
          -(((a / (4294967296 - b) : Nat) : Int)) := by
        rw [va, vb, Int.tdiv_neg, Int.ofNat_tdiv]
      have hq : a / (4294967296 - b) ≤ a := Nat.div_le_self _ _
      have res : signed_division a b = neg32 (a / (4294967296 - b)) := by
        unfold signed_division
        rw [hmin, if_neg (by omega)]
        by_cases eb : b = 2147483648
        · rw [if_pos eb, eb]
          have : a / (4294967296 - 2147483648) = 0 := Nat.div_eq_of_lt (by omega)
          rw [this]
          rfl
        · rw [if_neg eb, if_neg (fun c => na (za.1 c)), if_pos (zb.2 nb), sb, if_pos nb]
      rw [res, key, neg32_cast _]
    · have vb : signed_value b = ((b : Nat) : Int) := by
        unfold signed_value; rw [if_pos (by omega)]
      have key : Int.tdiv (signed_value a) (signed_value b) = (((a / b : Nat)) : Int) := by
        rw [va, vb, Int.ofNat_tdiv]
      have hq : a / b ≤ a := Nat.div_le_self _ _
      have res : signed_division a b = a / b := by
        unfold signed_division
        rw [hmin, if_neg (by omega), if_neg (by omega), if_neg (fun c => na (za.1 c)),
          if_neg (fun c => nb (zb.1 c))]
      rw [res, key]
      omega

/-- C25: signed semantics re-derived from unsigned arithmetic.  For all machine
words `a` and `b`, `signed_less_than(a, b)` is 1 when the two's-complement value of
`a` is less than that of `b` and 0 otherwise; and when `b` is not 0 and not
(`a = INT32_MIN` and `b = -1`), `signed_division(a, b)` is the machine word of the
quotient of the two's-complement values truncated toward zero. -/
theorem signed_semantics (a b : Nat) (ha : a < 4294967296) (hb : b < 4294967296) :
    signed_less_than a b = (if signed_value a < signed_value b then 1 else 0) ∧
    (b ≠ 0 → ¬ (a = INT32_MIN ∧ b = neg32 1) →
      signed_division a b < 4294967296 ∧
      (signed_division a b : Int) =
        (Int.tdiv (signed_value a) (signed_value b)) % 4294967296) := by
  refine ⟨signed_less_than_eq a b ha hb, fun _ hm => ?_⟩
  have hm' : ¬ (a = 2147483648 ∧ b = 4294967295) := hm
  have e := signed_division_eq a b ha hb hm'
  refine ⟨?_, e⟩
  omega

theorem signed_semantics_witness :
    (4294967289 < 4294967296 ∧ 2 < 4294967296) ∧
    signed_less_than 4294967289 2 = 1 ∧ signed_division 4294967289 2 = 4294967293 ∧
    (signed_division 4294967289 2 : Int) =
      (Int.tdiv (signed_value 4294967289) (signed_value 2)) % 4294967296 :=
  ⟨⟨by decide, by decide⟩, by decide, by decide,
    ((signed_semantics 4294967289 2 (by decide) (by decide)).2 (by decide) (by decide)).2⟩

/-! ## Fuzzing of read values -/

theorem fuzz_interval (fuzz v : Nat) (hf : fuzz < 32) (hv : v < 4294967296) :
    fuzz_lo fuzz v = (if 2 ^ fuzz / 2 ≤ v then v - (2 ^ fuzz - 1) / 2 else 0) ∧
    fuzz_up fuzz v = (if 4294967295 < v + 2 ^ fuzz / 2 then 4294967295
      else if 2 ^ fuzz / 2 ≤ v then v + 2 ^ fuzz / 2 else 2 ^ fuzz - 1) := by
  have hu : UINT32_MAX = 4294967295 := by decide
  have hp : (2 : Nat) ^ fuzz < 4294967296 := by
    calc (2 : Nat) ^ fuzz < 2 ^ 32 := Nat.pow_lt_pow_right (by decide) hf
      _ = 4294967296 := by norm_num
  have hpos : 0 < (2 : Nat) ^ fuzz := Nat.two_pow_pos _
  have hhalf : fuzz = 0 ∨ (2 ^ fuzz - 1) / 2 + 1 = 2 ^ fuzz / 2 := by
    rcases Nat.eq_zero_or_pos fuzz with h | h
    · exact Or.inl h
    · right
      obtain ⟨k, rfl⟩ : ∃ k, fuzz = k + 1 := ⟨fuzz - 1, by omega⟩
      rw [pow_succ]
      have : 0 < 2 ^ k := Nat.two_pow_pos _
      omega
  unfold fuzz_lo fuzz_up
  rw [hu, two_to_the_power_of_eq _ hf, if_neg (show ¬ fuzz ≥ CPUBITWIDTH by
    unfold CPUBITWIDTH; omega), if_neg (show ¬ fuzz ≥ CPUBITWIDTH by unfold CPUBITWIDTH; omega)]
  generalize hP : (2 : Nat) ^ fuzz = P at *
  rcases hhalf with h | h
  · subst h
    simp at hP
    subst hP
    unfold sub32 add32
    constructor <;> split_ifs <;> omega
  · unfold sub32 add32
    constructor <;> split_ifs <;> omega

/-- C26: the fuzzed read interval.  For every `fuzz` in `[0, 32]` and every machine
word `v`: for `fuzz = 32` the interval `[fuzz_lo(v), fuzz_up(v)]` is the whole range;
for `fuzz = 0` it is `[v, v]`; for `0 < fuzz < 32` and `v >= 2^fuzz/2` it is
`[v - 2^fuzz/2 + 1, v + 2^fuzz/2]` with the upper bound clipped to `2^32 - 1`; for
`0 < fuzz < 32` and `v < 2^fuzz/2` it is `[0, 2^fuzz - 1]`, the interval of the same
size that starts at 0.  It always contains `v`. -/
theorem fuzz_interval_contract (fuzz v : Nat) (hf : fuzz ≤ 32) (hv : v < 4294967296) :
    (fuzz = 32 → fuzz_lo fuzz v = 0 ∧ fuzz_up fuzz v = 4294967295) ∧
    (fuzz = 0 → fuzz_lo fuzz v = v ∧ fuzz_up fuzz v = v) ∧
    (0 < fuzz → fuzz < 32 → 2 ^ fuzz / 2 ≤ v →
      fuzz_lo fuzz v + 2 ^ fuzz / 2 = v + 1 ∧
      fuzz_up fuzz v = min (v + 2 ^ fuzz / 2) 4294967295) ∧
    (0 < fuzz → fuzz < 32 → v < 2 ^ fuzz / 2 →
      fuzz_lo fuzz v = 0 ∧ fuzz_up fuzz v = 2 ^ fuzz - 1) ∧
    (fuzz_lo fuzz v ≤ v ∧ v ≤ fuzz_up fuzz v) := by
  rcases Nat.lt_or_ge fuzz 32 with h | h
  · rcases Nat.eq_zero_or_pos fuzz with z | z
    · subst z
      obtain ⟨el, eu⟩ := fuzz_interval 0 v (by decide) hv
      have l : fuzz_lo 0 v = v := by simpa using el
      have u : fuzz_up 0 v = v := by
        rw [eu]
        norm_num
        omega
      rw [l, u]
      exact ⟨fun c => by omega, fun _ => ⟨rfl, rfl⟩, fun c => by omega, fun c => by omega,
        le_refl _, le_refl _⟩
    · obtain ⟨el, eu⟩ := fuzz_interval fuzz v h hv
      have hp : (2 : Nat) ^ fuzz < 4294967296 := by
        calc (2 : Nat) ^ fuzz < 2 ^ 32 := Nat.pow_lt_pow_right (by decide) h
          _ = 4294967296 := by norm_num
      have hhalf : (2 ^ fuzz - 1) / 2 + 1 = 2 ^ fuzz / 2 ∧ 2 ^ fuzz / 2 * 2 = 2 ^ fuzz := by
        obtain ⟨k, rfl⟩ : ∃ k, fuzz = k + 1 := ⟨fuzz - 1, by omega⟩
        rw [pow_succ]
        have : 0 < 2 ^ k := Nat.two_pow_pos _
        omega
      generalize (2 : Nat) ^ fuzz = P at *
      refine ⟨fun c => by omega, fun c => by omega, fun _ _ c3 => ?_, fun _ _ c3 => ?_, ?_⟩
      · rw [el, eu, if_pos c3, if_pos c3]
        constructor
        · omega
        · split_ifs <;> omega
      · rw [el, eu, if_neg (by omega), if_neg (by omega), if_neg (by omega)]
        exact ⟨rfl, rfl⟩
      · rw [el, eu]
        constructor <;> split_ifs <;> omega
  · have e : fuzz = 32 := by omega
    subst e
    have l : fuzz_lo 32 v = 0 := rfl
    have u : fuzz_up 32 v = 4294967295 := rfl
    rw [l, u]
    refine ⟨fun _ => ⟨rfl, rfl⟩, fun c => by omega, fun _ c => by omega, fun _ c => by omega, ?_⟩
    omega

theorem fuzz_interval_contract_witness :
    (3 ≤ 32 ∧ 100 < 4294967296) ∧ fuzz_lo 3 100 = 97 ∧ fuzz_up 3 100 = 104 ∧
    (fuzz_lo 3 100 ≤ 100 ∧ 100 ≤ fuzz_up 3 100) :=
  ⟨⟨by decide, by decide⟩, by decide, by decide,
    (fuzz_interval_contract 3 100 (by decide) (by decide)).2.2.2.2⟩

/-- The interval of C26 for `fuzz = 2` and the small value `v = 0` is `[0, 3]`, not
`[0 - 2 + 1, 0 + 2]` clipped to `[0, 2^32 - 1]`, which is `[0, 2]`. -/
theorem fuzz_interval_small_value :
    fuzz_lo 2 0 = 0 ∧ fuzz_up 2 0 = 3 ∧ fuzz_up 2 0 ≠ min (0 + 2 ^ 2 / 2) 4294967295 := by
  decide

/-! ## The symbol table -/

theorem string_compare_loop_spec (s t : Nat → Nat) (l : Nat)
    (hl : load_character s l = 0) (hl32 : l < 4294967296) :
    ∀ fuel i, i ≤ l → l - i < fuel →
      (∀ j, j < i → load_character s j ≠ 0 ∧ load_character s j = load_character t j) →
      ∃ r, string_compare_loop s t fuel i = some r ∧ (r ≠ 0 ↔ same_string s t) := by
  intro fuel
  induction fuel with
  | zero => intro i _ h; omega
  | succ fuel ih =>
    intro i hi hf hpre
    unfold string_compare_loop
    by_cases hs : load_character s i = 0
    · rw [if_pos hs]
      by_cases ht : load_character t i = 0
      · rw [if_pos ht]
        exact ⟨1, rfl, fun _ => ⟨i, hpre, hs, ht⟩, fun _ => by decide⟩
      · rw [if_neg ht]
        refine ⟨0, rfl, fun c => absurd rfl c, fun ⟨k, hk, hsk, htk⟩ => ?_⟩
        exfalso
        rcases Nat.lt_trichotomy k i with c | c | c
        · exact (hpre k c).1 hsk
        · subst c; exact ht htk
        · exact (hk i c).1 hs
    · rw [if_neg hs]
      have hil : i < l := by
        rcases Nat.lt_or_ge i l with c | c
        · exact c
        · have : i = l := by omega
          subst this
          exact absurd hl hs
      by_cases he : load_character s i = load_character t i
      · rw [if_pos he]
        have e1 : add32 i 1 = i + 1 := by unfold add32; omega
        rw [e1]
        apply ih (i + 1) (by omega) (by omega)
        intro j hj
        rcases Nat.lt_or_ge j i with c | c
        · exact hpre j c
        · have : j = i := by omega
          subst this
          exact ⟨hs, he⟩
      · rw [if_neg he]
        refine ⟨0, rfl, fun c => absurd rfl c, fun ⟨k, hk, hsk, _⟩ => ?_⟩
        exfalso
        rcases Nat.lt_or_ge i k with c | c
        · exact he (hk i c).2
        · rcases Nat.lt_or_ge k i with d | d
          · exact (hpre k d).1 hsk
          · have : k = i := by omega
            subst this
            exact hs hsk

theorem string_compare_spec (s t : Nat → Nat) (fuel l : Nat)
    (hl : load_character s l = 0) (hf : l < fuel) (hl32 : l < 4294967296) :
    ∃ r, string_compare fuel s t = some r ∧ (r ≠ 0 ↔ same_string s t) :=
  string_compare_loop_spec s t l hl hl32 fuel 0 (Nat.zero_le _) (by omega)
    (fun j hj => absurd hj (Nat.not_lt_zero _))

theorem search_symbol_table_spec (name : Nat → Nat) (entry_class fuel l : Nat)
    (hl : load_character name l = 0) (hf : l < fuel) (hl32 : l < 4294967296) :
    ∀ table : List SymbolTableEntry, ∃ r,
      search_symbol_table fuel table name entry_class = some r ∧
      first_match name entry_class table r := by
  intro table
  induction table with
  | nil => exact ⟨none, rfl, fun x hx => absurd hx (List.not_mem_nil x)⟩
  | cons e rest ih =>
    obtain ⟨r, hr, hm⟩ := ih
    obtain ⟨c, hc, hcs⟩ := string_compare_spec name e.string fuel l hl hf hl32
    have skip : ¬ entry_matches name entry_class e →
        (∃ r', (search_symbol_table fuel rest name entry_class = some r') ∧
          first_match name entry_class (e :: rest) r') := by
      intro hne
      refine ⟨r, hr, ?_⟩
      cases r with
      | none =>
        intro x hx
        rcases List.mem_cons.1 hx with h | h
        · subst h; exact hne
        · exact hm x h
      | some f =>
        obtain ⟨before, after, e1, e2, e3⟩ := hm
        refine ⟨e :: before, after, by rw [e1]; rfl, e2, ?_⟩
        intro x hx
        rcases List.mem_cons.1 hx with h | h
        · subst h; exact hne
        · exact e3 x h
    unfold search_symbol_table
    rw [hc]
    by_cases h1 : c ≠ 0
    · by_cases h2 : entry_class = e.entry_class
      · refine ⟨some e, ?_, ⟨[], rest, rfl, ⟨hcs.1 h1, h2.symm⟩, ?_⟩⟩
        · show (if c ≠ 0 then if entry_class = e.entry_class then _ else _ else _) = _
          rw [if_pos h1, if_pos h2]
        · intro x hx
          exact absurd hx (List.not_mem_nil x)
      · obtain ⟨r', hr', hm'⟩ := skip (fun hh => h2 hh.2.symm)
        refine ⟨r', ?_, hm'⟩
        show (if c ≠ 0 then if entry_class = e.entry_class then _ else _ else _) = _
        rw [if_pos h1, if_neg h2]
        exact hr'
    · obtain ⟨r', hr', hm'⟩ := skip (fun hh => h1 (hcs.2 hh.1))
      refine ⟨r', ?_, hm'⟩
      show (if c ≠ 0 then if entry_class = e.entry_class then _ else _ else _) = _
      rw [if_neg h1]
      exact hr'

theorem load_character_first_word (s : Nat → Nat) (i : Nat) (hi : i < 4) :
    load_character s i = s 0 / 2 ^ (8 * i) % 256 := by
  unfold load_character SIZEOFUINT32
  have e1 : i / 4 = 0 := by omega
  have e2 : mul32 (i % 4) 8 = 8 * i := by unfold mul32; omega
  rw [e1, e2, get_bits_eq _ _ _ (by omega) (by decide) (by decide)]
  norm_num

theorem first_word_eq (s t : Nat → Nat) (hs : s 0 < 4294967296) (ht : t 0 < 4294967296)
    (h : ∀ i, i < 4 → load_character s i = load_character t i) : s 0 = t 0 := by
  have h0 := h 0 (by decide)
  have h1 := h 1 (by decide)
  have h2 := h 2 (by decide)
  have h3 := h 3 (by decide)
  rw [load_character_first_word s _ (by decide), load_character_first_word t _ (by decide)]
    at h0 h1 h2 h3
  norm_num at h0 h1 h2 h3
  omega

theorem hash_eq_of_same_string (s t : Nat → Nat) (h : same_string s t)
    (ps : zero_padded s) (pt : zero_padded t) : hash s = hash t := by
  have e : s 0 = t 0 := by
    apply first_word_eq s t ps.1 pt.1
    intro i hi
    obtain ⟨l, hl, hsl, htl⟩ := h
    rcases Nat.lt_trichotomy i l with c | c | c
    · exact (hl i c).2
    · subst c; rw [hsl, htl]
    · rw [ps.2 l i c hi hsl, pt.2 l i c hi htl]
  unfold hash
  rw [e]

theorem create_symbol_table_entry_global (t : SymbolTables) (string : Nat → Nat)
    (line entry_class entry_type value address : Nat) :
    ∃ t', create_symbol_table_entry t GLOBAL_TABLE string line entry_class entry_type value
        address = t' ∧
      t'.local_symbol_table = t.local_symbol_table ∧
      t'.library_symbol_table = t.library_symbol_table ∧
      t'.global_symbol_table = fun b =>
        if b = hash string then
          { pointer := t.number_of_entries + 1, string := string, line_number := line,
            entry_class := entry_class, entry_type := entry_type, value := value,
            address := address, scope := REG_GP } ::
            t.global_symbol_table b
        else t.global_symbol_table b := by
  unfold create_symbol_table_entry
  dsimp only
  rw [if_pos rfl]
  split_ifs <;> exact ⟨_, rfl, rfl, rfl, rfl⟩

theorem global_table_hashed_create (t : SymbolTables) (which_table : Nat)
    (string : Nat → Nat) (line entry_class entry_type value address : Nat)
    (ht : global_table_hashed t) (hs : zero_padded string) :
    global_table_hashed
      (create_symbol_table_entry t which_table string line entry_class entry_type value
        address) := by
  by_cases hg : which_table = GLOBAL_TABLE
  · subst hg
    obtain ⟨t', e, _, _, eg⟩ := create_symbol_table_entry_global t string line entry_class
      entry_type value address
    rw [e]
    intro b x hx
    rw [eg] at hx
    dsimp only at hx
    by_cases hb : b = hash string
    · rw [if_pos hb] at hx
      rcases List.mem_cons.1 hx with h | h
      · subst h; exact ⟨hb.symm, hs⟩
      · exact ht b x h
    · rw [if_neg hb] at hx
      exact ht b x hx
  · unfold create_symbol_table_entry
    rw [if_neg hg]
    split_ifs <;> exact ht

theorem get_scoped_of_search (fuel : Nat) (t : SymbolTables) (name : Nat → Nat)
    (entry_class : Nat) (table : List SymbolTableEntry) (r_first : Option SymbolTableEntry)
    (r : Option SymbolTableEntry)
    (h1 : search_symbol_table fuel table name entry_class = some r_first)
    (h2 : search_symbol_table fuel (t.global_symbol_table (hash name)) name entry_class =
      some r)
    (hsel : (if entry_class = VARIABLE then
        search_symbol_table fuel t.local_symbol_table name VARIABLE
      else if entry_class = PROCEDURE then
        search_symbol_table fuel t.library_symbol_table name PROCEDURE
      else some none) = search_symbol_table fuel table name entry_class) :
    get_scoped_symbol_table_entry fuel t name entry_class =
      some (r_first.or r) := by
  unfold get_scoped_symbol_table_entry
  rw [hsel, h1]
  cases r_first with
  | none => exact h2
  | some e => rfl

/-- C21: the scoped lookup policy.  For every name that ends within `fuel`
characters and every content of the three tables,
`get_scoped_symbol_table_entry(name, VARIABLE)` returns the most recently created
local VARIABLE entry with that name if one exists, and otherwise what the search of
the global table returns; for PROCEDURE it returns the library PROCEDURE entry with
that name if one exists, and otherwise what the search of the global table returns;
an entry of another class never matches.  The search of the global table looks at
the bucket `hash(name)` only and returns the most recently created entry of that
bucket with that name and class, null when the bucket has none.  `hash` reads the
whole first word of the name: when the name and the names in the global table are
zero padded (no byte other than null after the terminator in the first word, as in
zeroed memory) and every entry is in the bucket of its hash, every global entry with
that name is in the bucket searched, so that null is returned only when no entry of
that name and class exists in the tables consulted.  `create_symbol_table_entry`
keeps every entry in the bucket of its hash. -/
theorem scoped_lookup_policy (t : SymbolTables) (name : Nat → Nat) (fuel l : Nat)
    (hl : load_character name l = 0) (hf : l < fuel) (hl32 : l < 4294967296) :
    (∃ r_local r_global,
      first_match name VARIABLE t.local_symbol_table r_local ∧
      first_match name VARIABLE (t.global_symbol_table (hash name)) r_global ∧
      get_scoped_symbol_table_entry fuel t name VARIABLE =
        some (r_local.or r_global)) ∧
    (∃ r_library r_global,
      first_match name PROCEDURE t.library_symbol_table r_library ∧
      first_match name PROCEDURE (t.global_symbol_table (hash name)) r_global ∧
      get_scoped_symbol_table_entry fuel t name PROCEDURE =
        some (r_library.or r_global)) ∧
    (∀ entry_class, entry_class ≠ VARIABLE → entry_class ≠ PROCEDURE →
      ∃ r_global,
        first_match name entry_class (t.global_symbol_table (hash name)) r_global ∧
        get_scoped_symbol_table_entry fuel t name entry_class = some r_global) ∧
    (zero_padded name → global_table_hashed t →
      ∀ b e, e ∈ t.global_symbol_table b → same_string name e.string → b = hash name) ∧
    global_table_hashed reset_symbol_tables ∧
    (∀ which_table string line entry_class entry_type value address,
      zero_padded string → global_table_hashed t →
      global_table_hashed (create_symbol_table_entry t which_table string line entry_class
        entry_type value address)) := by
  refine ⟨?_, ?_, ?_, ?_, ?_, ?_⟩
  · obtain ⟨r1, h1, m1⟩ := search_symbol_table_spec name VARIABLE fuel l hl hf hl32
      t.local_symbol_table
    obtain ⟨r2, h2, m2⟩ := search_symbol_table_spec name VARIABLE fuel l hl hf hl32
      (t.global_symbol_table (hash name))
    exact ⟨r1, r2, m1, m2, get_scoped_of_search fuel t name VARIABLE _ r1 r2 h1 h2
      (by rw [if_pos rfl])⟩
  · obtain ⟨r1, h1, m1⟩ := search_symbol_table_spec name PROCEDURE fuel l hl hf hl32
      t.library_symbol_table
    obtain ⟨r2, h2, m2⟩ := search_symbol_table_spec name PROCEDURE fuel l hl hf hl32
      (t.global_symbol_table (hash name))
    exact ⟨r1, r2, m1, m2, get_scoped_of_search fuel t name PROCEDURE _ r1 r2 h1 h2
      (by rw [if_neg (show PROCEDURE ≠ VARIABLE by decide), if_pos rfl])⟩
  · intro entry_class hv hp
    obtain ⟨r2, h2, m2⟩ := search_symbol_table_spec name entry_class fuel l hl hf hl32
      (t.global_symbol_table (hash name))
    refine ⟨r2, m2, ?_⟩
    unfold get_scoped_symbol_table_entry
    rw [if_neg hv, if_neg hp]
    exact h2
  · intro hp ht b e he hs
    obtain ⟨hb, pe⟩ := ht b e he
    rw [← hb]
    exact (hash_eq_of_same_string name e.string hs hp pe).symm
  · intro b e he
    exact absurd he (List.not_mem_nil e)
  · intro which_table string line entry_class entry_type value address hs ht
    exact global_table_hashed_create t which_table string line entry_class entry_type value
      address ht hs

theorem scoped_lookup_policy_witness :
    (load_character name_x 1 = 0 ∧ 1 < 2 ∧ 1 < 4294967296) ∧
    (∃ r_local r_global,
      first_match name_x VARIABLE tables_with_x.local_symbol_table r_local ∧
      first_match name_x VARIABLE (tables_with_x.global_symbol_table (hash name_x))
        r_global ∧
      get_scoped_symbol_table_entry 2 tables_with_x name_x VARIABLE =
        some (r_local.or r_global)) ∧
    (∃ e, get_scoped_symbol_table_entry 2 tables_with_x name_x VARIABLE = some (some e) ∧
      e.scope = REG_FP ∧ e.line_number = 2) :=
  ⟨⟨by decide, by decide, by decide⟩,
    (scoped_lookup_policy tables_with_x name_x 2 1 (by decide) (by decide) (by decide)).1,
    ⟨_, rfl, rfl, rfl⟩⟩

/-- The lookup of C21 misses a global entry when the name looked up is not zero
padded: after the declaration of the global variable `x`, the lookup of the name `x`
stored as the bytes `x`, 0, 1, 0 returns null, although the global table holds a
VARIABLE entry with the same string. -/
theorem scoped_lookup_misses_unpadded_name :
    get_scoped_symbol_table_entry 2 tables_with_global_x name_x_unpadded VARIABLE =
      some none ∧
    string_compare 2 name_x_unpadded name_x = some 1 ∧
    ∃ e, e ∈ tables_with_global_x.global_symbol_table (hash name_x) ∧
      entry_matches name_x_unpadded VARIABLE e := by
  refine ⟨rfl, rfl, ⟨_, List.mem_cons_self _ _, ⟨1, ?_, by decide, by decide⟩, rfl⟩⟩
  intro i hi
  have : i = 0 := by omega
  subst this
  exact ⟨by decide, by decide⟩

/-! ## Characters in packed strings -/

theorem load_character_eq (s : Nat → Nat) (i : Nat) :
    load_character s i = s (i / 4) / 2 ^ (8 * (i % 4)) % 256 := by
  unfold load_character SIZEOFUINT32
  have e2 : mul32 (i % 4) 8 = 8 * (i % 4) := by unfold mul32; omega
  rw [e2, get_bits_eq _ _ _ (by omega) (by decide) (by decide)]
  norm_num

theorem store_character_word (w c sh : Nat) (hw : w < 4294967296) (hc : c < 256)
    (hsh : sh = 0 ∨ sh = 1 ∨ sh = 2 ∨ sh = 3) :
    ∃ w', add32 (sub32 w (left_shift (w / 2 ^ (8 * sh) % 256) (mul32 sh 8)))
        (left_shift c (mul32 sh 8)) = w' ∧ w' < 4294967296 ∧
      w' / 2 ^ (8 * sh) % 256 = c ∧
      ∀ k, k < 4 → k ≠ sh → w' / 2 ^ (8 * k) % 256 = w / 2 ^ (8 * k) % 256 := by
  refine ⟨_, rfl, add32_lt _ _, ?_⟩
  have m : mul32 sh 8 = 8 * sh := by unfold mul32; omega
  rw [m, left_shift_eq _ _ (by omega), left_shift_eq _ _ (by omega)]
  unfold add32 sub32
  rcases hsh with h | h | h | h <;> subst h <;> norm_num
  all_goals
    constructor
    · omega
    · intro k hk hne
      interval_cases k <;> first | exact absurd rfl hne | (norm_num; omega)

theorem load_store_character (s : Nat → Nat) (i c : Nat) (hs : machine_words s)
    (hc : c < 256) :
    machine_words (store_character s i c) ∧
    (∀ j, load_character (store_character s i c) j =
      if j = i then c else load_character s j) ∧
    (∀ k, k ≠ i / 4 → store_character s i c k = s k) := by
  obtain ⟨w', ew, hw', hload, hother⟩ := store_character_word (s (i / 4)) c (i % 4) (hs _) hc
    (by omega)
  have est : store_character s i c = store_word s (i / 4) w' := by
    unfold store_character SIZEOFUINT32
    rw [load_character_eq, ew]
  rw [est]
  refine ⟨?_, ?_, ?_⟩
  · intro k
    unfold store_word
    split_ifs
    · exact hw'
    · exact hs k
  · intro j
    rw [load_character_eq, load_character_eq]
    unfold store_word
    by_cases hj : j = i
    · subst hj
      rw [if_pos rfl, if_pos rfl]
      exact hload
    · rw [if_neg hj]
      by_cases hw : j / 4 = i / 4
      · rw [if_pos hw, hw]
        exact hother (j % 4) (by omega) (by omega)
      · rw [if_neg hw]
  · intro k hk
    unfold store_word
    rw [if_neg hk]

theorem write_characters_spec (l : List Nat) :
    ∀ (s : Nat → Nat) (i : Nat), machine_words s → (∀ c, c ∈ l → c < 256) →
      machine_words (write_characters s i l) ∧
      ∀ k, load_character (write_characters s i l) k =
        if i ≤ k ∧ k < i + l.length then l.getD (k - i) 0 else load_character s k := by
  induction l with
  | nil =>
    intro s i hs _
    refine ⟨hs, fun k => ?_⟩
    rw [if_neg (by simp)]
    rfl
  | cons c l ih =>
    intro s i hs hc
    obtain ⟨m1, l1, _⟩ := load_store_character s i c hs (hc c (List.mem_cons_self _ _))
    obtain ⟨m2, l2⟩ := ih (store_character s i c) (i + 1) m1
      (fun x hx => hc x (List.mem_cons_of_mem _ hx))
    refine ⟨m2, fun k => ?_⟩
    show load_character (write_characters (store_character s i c) (i + 1) l) k = _
    rw [l2 k, l1 k]
    simp only [List.length_cons]
    by_cases h1 : k = i
    · subst h1
      rw [if_neg (by omega), if_pos rfl, if_pos (by omega)]
      simp
    · rw [if_neg h1]
      by_cases h2 : i + 1 ≤ k ∧ k < i + 1 + l.length
      · rw [if_pos h2, if_pos (by omega)]
        have : k - i = (k - (i + 1)) + 1 := by omega
        rw [this]
        simp
      · rw [if_neg h2, if_neg (by omega)]

theorem write_characters_append (l1 : List Nat) :
    ∀ (s : Nat → Nat) (i : Nat) (l2 : List Nat),
      write_characters (write_characters s i l1) (i + l1.length) l2 =
        write_characters s i (l1 ++ l2) := by
  induction l1 with
  | nil => intro s i l2; rfl
  | cons c l ih =>
    intro s i l2
    show write_characters (write_characters (store_character s i c) (i + 1) l)
      (i + (l.length + 1)) l2 = write_characters (store_character s i c) (i + 1) (l ++ l2)
    rw [← ih (store_character s i c) (i + 1) l2]
    have e : i + (l.length + 1) = i + 1 + l.length := by omega
    rw [e]

theorem digit_character_lt (d : Nat) (hd : d < 16) : digit_character d < 256 := by
  unfold digit_character
  split_ifs <;> omega

theorem itoa_digits_spec (b : Nat) (hb2 : 2 ≤ b) (hb16 : b ≤ 16) :
    ∀ fuel f n (s : Nat → Nat) i, f < fuel → n < 2 ^ f → i + f < 4294967296 →
      itoa_digits fuel n s i b =
        some (write_characters s i ((Nat.digits b n).map digit_character),
          i + (Nat.digits b n).length) ∧ (Nat.digits b n).length ≤ f := by
  intro fuel
  induction fuel with
  | zero => intro f n s i h; omega
  | succ fuel ih =>
    intro f n s i hf hn hi
    unfold itoa_digits
    by_cases h0 : n = 0
    · subst h0
      rw [if_neg (by simp)]
      simp [write_characters]
    · rw [if_pos h0]
      have hf1 : 1 ≤ f := by
        rcases Nat.eq_zero_or_pos f with c | c
        · subst c; simp at hn; omega
        · exact c
      have hdiv : n / b < 2 ^ (f - 1) := by
        have h2 : n / b ≤ n / 2 := Nat.div_le_div_left hb2 (by decide)
        have h3 : (2 : Nat) ^ f = 2 * 2 ^ (f - 1) := by
          obtain ⟨k, rfl⟩ : ∃ k, f = k + 1 := ⟨f - 1, by omega⟩
          rw [pow_succ]; simp; ring
        omega
      have hmod : n % b < b := Nat.mod_lt _ (by omega)
      have e1 : add32 i 1 = i + 1 := by unfold add32; omega
      have ed : (if n % b > 9 then store_character s i (add32 (sub32 (n % b) 10) 65)
          else store_character s i (add32 (n % b) 48)) =
          store_character s i (digit_character (n % b)) := by
        unfold digit_character
        by_cases c : n % b > 9
        · rw [if_pos c, if_pos c]
          have e : add32 (sub32 (n % b) 10) 65 = n % b - 10 + 65 := by
            unfold add32 sub32; omega
          rw [e]
        · rw [if_neg c, if_neg c]
          have e : add32 (n % b) 48 = n % b + 48 := by unfold add32; omega
          rw [e]
      obtain ⟨r, hl⟩ := ih (f - 1) (n / b)
        (store_character s i (digit_character (n % b))) (i + 1) (by omega) hdiv (by omega)
      have hdig : Nat.digits b n = n % b :: Nat.digits b (n / b) :=
        Nat.digits_def' (by omega) (by omega)
      dsimp only
      rw [ed, e1, r, hdig]
      simp only [List.map_cons, List.length_cons, write_characters]
      refine ⟨?_, by omega⟩
      congr 2
      omega

theorem itoa_align_spec (c : Nat) :
    ∀ fuel (s : Nat → Nat) i a, a - i < fuel → a < 4294967296 → i < 4294967296 →
      itoa_align fuel s i a c =
        some (write_characters s i (List.replicate (a - i) c), max i a) := by
  intro fuel
  induction fuel with
  | zero => intro s i a h; omega
  | succ fuel ih =>
    intro s i a hf ha hi
    unfold itoa_align
    by_cases h : i < a
    · rw [if_pos h]
      have e1 : add32 i 1 = i + 1 := by unfold add32; omega
      rw [e1, ih _ _ _ (by omega) ha (by omega)]
      have : a - i = (a - (i + 1)) + 1 := by omega
      rw [this, List.replicate_succ]
      simp only [write_characters]
      congr 2
      omega
    · rw [if_neg h]
      have : a - i = 0 := by omega
      rw [this]
      simp only [List.replicate_zero, write_characters]
      congr 2
      omega

theorem string_length_loop_spec (s : Nat → Nat) (l : Nat) (hl : load_character s l = 0)
    (hnz : ∀ k, k < l → load_character s k ≠ 0) (hl32 : l < 4294967296) :
    ∀ fuel i, i ≤ l → l - i < fuel → string_length_loop s fuel i = some l := by
  intro fuel
  induction fuel with
  | zero => intro i _ h; omega
  | succ fuel ih =>
    intro i hi hf
    unfold string_length_loop
    by_cases h : i = l
    · subst h
      rw [if_neg (by simp [hl])]
    · rw [if_pos (hnz i (by omega))]
      have e1 : add32 i 1 = i + 1 := by unfold add32; omega
      rw [e1]
      exact ih (i + 1) (by omega) (by omega)

theorem string_reverse_loop_spec :
    ∀ fuel (s : Nat → Nat) i j, machine_words s → j < 4294967296 → j + 1 - i < 2 * fuel →
      ∃ r, string_reverse_loop fuel s i j = some r ∧
        ∀ k, load_character r k =
          if i ≤ k ∧ k ≤ j then load_character s (i + j - k) else load_character s k := by
  intro fuel
  induction fuel with
  | zero => intro s i j _ _ h; omega
  | succ fuel ih =>
    intro s i j hs hj hf
    unfold string_reverse_loop
    by_cases h : i < j
    · rw [if_pos h]
      have e1 : add32 i 1 = i + 1 := by unfold add32; omega
      have e2 : sub32 j 1 = j - 1 := by unfold sub32; omega
      have c8 : ∀ k, load_character s k < 256 := by
        intro k
        rw [load_character_eq]
        exact Nat.mod_lt _ (by decide)
      obtain ⟨m1, l1, _⟩ := load_store_character s i (load_character s j) hs (c8 j)
      obtain ⟨m2, l2, _⟩ := load_store_character (store_character s i (load_character s j)) j
        (load_character s i) m1 (c8 i)
      dsimp only
      rw [e1, e2]
      obtain ⟨r, hr, hk⟩ := ih _ (i + 1) (j - 1) m2 (by omega) (by omega)
      refine ⟨r, hr, fun k => ?_⟩
      rw [hk k]
      by_cases c1 : i + 1 ≤ k ∧ k ≤ j - 1
      · rw [if_pos c1, if_pos (by omega), l2, if_neg (by omega), l1, if_neg (by omega)]
        have e : i + 1 + (j - 1) - k = i + j - k := by omega
        rw [e]
      · rw [if_neg c1, l2, l1]
        by_cases c2 : k = j
        · subst c2
          rw [if_pos rfl, if_pos (by omega)]
          have e : i + k - k = i := by omega
          rw [e]
        · rw [if_neg c2]
          by_cases c3 : k = i
          · subst c3
            rw [if_pos rfl, if_pos (by omega)]
            have e : k + j - k = j := by omega
            rw [e]
          · rw [if_neg c3, if_neg (by omega)]
    · rw [if_neg h]
      refine ⟨s, rfl, fun k => ?_⟩
      by_cases c : i ≤ k ∧ k ≤ j
      · rw [if_pos c]
        have e : i + j - k = k := by omega
        rw [e]
      · rw [if_neg c]

/-- The effect of `store_character(s, i, 0)` followed by `string_reverse(s)` on an
array that holds the characters of `l`, none of them null, at the indices below
`i = l.length`. -/
theorem terminate_and_reverse (fuel : Nat) (s : Nat → Nat) (l : List Nat)
    (hs : machine_words s) (hl : ∀ k, k < l.length → load_character s k = l.getD k 0)
    (hnz : ∀ c, c ∈ l → c ≠ 0) (hpos : 0 < l.length) (hf : l.length < fuel)
    (h32 : l.length < 4294967296) :
    ∃ r, string_reverse fuel (store_character s l.length 0) = some r ∧
      holds_string r l.reverse := by
  obtain ⟨m1, l1, _⟩ := load_store_character s l.length 0 hs (by decide)
  have hlen : string_length fuel (store_character s l.length 0) = some l.length := by
    apply string_length_loop_spec _ l.length _ _ h32 fuel 0 (Nat.zero_le _) (by omega)
    · rw [l1, if_pos rfl]
    · intro k hk
      rw [l1, if_neg (by omega), hl k hk]
      apply hnz
      rw [List.getD_eq_getElem _ _ hk]
      exact List.getElem_mem _
  obtain ⟨r, hr, hk⟩ := string_reverse_loop_spec fuel (store_character s l.length 0) 0
    (l.length - 1) m1 (by omega) (by omega)
  refine ⟨r, ?_, ?_, ?_⟩
  · unfold string_reverse
    rw [hlen]
    have e2 : sub32 l.length 1 = l.length - 1 := by unfold sub32; omega
    show string_reverse_loop fuel _ 0 (sub32 l.length 1) = _
    rw [e2]
    exact hr
  · intro k hk'
    rw [List.length_reverse] at hk'
    rw [hk k, if_pos (by omega), l1, if_neg (by omega), hl _ (by omega)]
    rw [List.getD_eq_getElem _ _ (by omega), List.getD_eq_getElem _ _ (by simpa using hk'),
      List.getElem_reverse]
    congr 1
    omega
  · rw [List.length_reverse, hk, if_neg (by omega), l1, if_pos rfl]

theorem pad_left_reverse (c a : Nat) (l : List Nat) :
    (l.reverse ++ List.replicate (a - l.length) c).reverse = pad_left c a l := by
  unfold pad_left
  simp

/-- The part of `itoa` after the digits, for an array that holds the non-empty list
`d` of digit characters, the least significant first. -/
theorem itoa_finish_spec (fuel : Nat) (s : Nat → Nat) (d : List Nat) (b a sign : Nat)
    (hs : machine_words s) (hd : ∀ c, c ∈ d → c ≠ 0 ∧ c < 256) (hpos : 0 < d.length)
    (hlen : d.length ≤ 33) (hf : a + 36 ≤ fuel) (ha : a + 36 < 4294967296) :
    ∃ r, itoa_finish fuel (write_characters s 0 d) d.length b a sign = some r ∧
      holds_string r
        (if b = 10 then pad_left 32 a ((if sign ≠ 0 then [45] else []) ++ d.reverse)
         else if b = 16 then [48, 120] ++ pad_left 48 a d.reverse
         else if b = 8 then [48, 48] ++ pad_left 48 a d.reverse
         else pad_left 48 a d.reverse) := by
  -- the characters stored before the terminating null character, in order
  have key : ∀ (sg pd px : List Nat) (full : List Nat),
      full = d ++ sg ++ pd ++ px →
      (∀ c, c ∈ sg ++ pd ++ px → c ≠ 0 ∧ c < 256) → full.length ≤ a + 35 →
      ∃ r, string_reverse fuel (store_character (write_characters s 0 full) full.length 0) =
          some r ∧ holds_string r full.reverse := by
    intro sg pd px full hfull hc hl
    have hall : ∀ c, c ∈ full → c ≠ 0 ∧ c < 256 := by
      intro c hc'
      rw [hfull] at hc'
      simp only [List.mem_append] at hc'
      rcases hc' with ((h | h) | h) | h
      · exact hd c h
      · exact hc c (by simp [h])
      · exact hc c (by simp [h])
      · exact hc c (by simp [h])
    obtain ⟨mw, cv⟩ := write_characters_spec full s 0 hs (fun c h => (hall c h).2)
    have hp : 0 < full.length := by rw [hfull]; simp; omega
    apply terminate_and_reverse fuel _ full mw _ (fun c h => (hall c h).1) hp (by omega)
      (by omega)
    intro k hk
    rw [cv k, if_pos (by omega)]
    simp
  by_cases h10 : b = 10
  · rw [if_pos h10]
    unfold itoa_finish
    rw [if_pos h10]
    by_cases hsg : sign ≠ 0
    · rw [if_pos hsg]
      dsimp only
      rw [if_pos hsg]
      have e1 : add32 d.length 1 = d.length + 1 := by unfold add32; omega
      rw [e1, itoa_align_spec 32 fuel _ _ a (by omega) (by omega) (by omega)]
      dsimp only
      have w1 : store_character (write_characters s 0 d) d.length 45 =
          write_characters s 0 (d ++ [45]) := by
        rw [← write_characters_append d s 0 [45]]
        simp [write_characters]
      have e0 : d.length + 1 = 0 + (d ++ [45]).length := by simp
      rw [w1, e0, write_characters_append]
      obtain ⟨r, hr, hh⟩ := key [45] (List.replicate (a - (0 + (d ++ [45]).length)) 32) []
        (d ++ [45] ++ List.replicate (a - (0 + (d ++ [45]).length)) 32)
        (by simp) (by
          intro c hc
          simp only [List.append_nil, List.mem_append, List.mem_singleton,
            List.mem_replicate] at hc
          rcases hc with h | h
          · subst h; decide
          · rw [h.2]; decide) (by simp; omega)
      refine ⟨r, ?_, ?_⟩
      · have el : max (0 + (d ++ [45]).length) a =
            (d ++ [45] ++ List.replicate (a - (0 + (d ++ [45]).length)) 32).length := by
          simp; omega
        rw [el]
        exact hr
      · have : (d ++ [45] ++ List.replicate (a - (0 + (d ++ [45]).length)) 32).reverse =
            pad_left 32 a ([45] ++ d.reverse) := by
          rw [← pad_left_reverse]
          simp
        rw [← this]
        exact hh
    · rw [if_neg hsg]
      dsimp only
      rw [if_neg hsg]
      rw [itoa_align_spec 32 fuel _ _ a (by omega) (by omega) (by omega)]
      dsimp only
      have e0 : d.length = 0 + d.length := by simp
      rw [e0, write_characters_append]
      obtain ⟨r, hr, hh⟩ := key [] (List.replicate (a - (0 + d.length)) 32) []
        (d ++ List.replicate (a - (0 + d.length)) 32)
        (by simp) (by
          intro c hc
          simp only [List.append_nil, List.nil_append, List.mem_replicate] at hc
          rw [hc.2]; decide) (by simp; omega)
      refine ⟨r, ?_, ?_⟩
      · have el : max (0 + d.length) a =
            (d ++ List.replicate (a - (0 + d.length)) 32).length := by
          simp; omega
        rw [el]
        exact hr
      · have : (d ++ List.replicate (a - (0 + d.length)) 32).reverse =
            pad_left 32 a ([] ++ d.reverse) := by
          rw [← pad_left_reverse]
          simp
        rw [← this]
        exact hh
  · rw [if_neg h10]
    unfold itoa_finish
    rw [if_neg h10]
    rw [itoa_align_spec 48 fuel _ _ a (by omega) (by omega) (by omega)]
    dsimp only
    have e0 : d.length = 0 + d.length := by simp
    rw [e0, write_characters_append]
    have hm : max (0 + d.length) a = (d ++ List.replicate (a - (0 + d.length)) 48).length := by
      simp; omega
    rw [hm]
    generalize hP : d ++ List.replicate (a - (0 + d.length)) 48 = P
    have hPl : P.length ≤ a + 33 := by rw [← hP]; simp; omega
    have hPr : P.reverse = pad_left 48 a d.reverse := by
      rw [← hP, ← pad_left_reverse]
      simp
    have hPc : ∀ c, c ∈ List.replicate (a - (0 + d.length)) 48 → c ≠ 0 ∧ c < 256 := by
      intro c hc
      rw [(List.mem_replicate.1 hc).2]; decide
    by_cases h8 : b = 8
    · rw [if_pos h8, if_neg (by omega), if_pos h8]
      dsimp only
      have e1 : add32 P.length 1 = P.length + 1 := by unfold add32; omega
      have e2 : add32 P.length 2 = (P ++ [48, 48]).length := by
        unfold add32; simp; omega
      have w : store_character (store_character (write_characters s 0 P) P.length 48)
          (P.length + 1) 48 = write_characters s 0 (P ++ [48, 48]) := by
        have := write_characters_append P s 0 [48, 48]
        rw [← this]
        simp [write_characters]
      rw [e1, e2, w]
      obtain ⟨r, hr, hh⟩ := key [] (List.replicate (a - (0 + d.length)) 48) [48, 48]
        (P ++ [48, 48]) (by rw [← hP]; simp) (by
          intro c hc
          simp only [List.nil_append, List.mem_append] at hc
          rcases hc with h | h
          · exact hPc c h
          · simp at h; subst h; decide) (by simp; omega)
      refine ⟨r, hr, ?_⟩
      have : (P ++ [48, 48]).reverse = [48, 48] ++ pad_left 48 a d.reverse := by
        rw [← hPr]; simp
      rw [← this]
      exact hh
    · rw [if_neg h8]
      by_cases h16 : b = 16
      · rw [if_pos h16, if_pos h16]
        dsimp only
        have e1 : add32 P.length 1 = P.length + 1 := by unfold add32; omega
        have e2 : add32 P.length 2 = (P ++ [120, 48]).length := by
          unfold add32; simp; omega
        have w : store_character (store_character (write_characters s 0 P) P.length 120)
            (P.length + 1) 48 = write_characters s 0 (P ++ [120, 48]) := by
          have := write_characters_append P s 0 [120, 48]
          rw [← this]
          simp [write_characters]
        rw [e1, e2, w]
        obtain ⟨r, hr, hh⟩ := key [] (List.replicate (a - (0 + d.length)) 48) [120, 48]
          (P ++ [120, 48]) (by rw [← hP]; simp) (by
            intro c hc
            simp only [List.nil_append, List.mem_append] at hc
            rcases hc with h | h
            · exact hPc c h
            · simp at h; rcases h with h | h <;> subst h <;> decide) (by simp; omega)
        refine ⟨r, hr, ?_⟩
        have : (P ++ [120, 48]).reverse = [48, 120] ++ pad_left 48 a d.reverse := by
          rw [← hPr]; simp
        rw [← this]
        exact hh
      · rw [if_neg h16, if_neg h16, if_neg h8]
        dsimp only
        obtain ⟨r, hr, hh⟩ := key [] (List.replicate (a - (0 + d.length)) 48) []
          P (by rw [← hP]; simp) (by
            intro c hc
            simp only [List.nil_append, List.append_nil] at hc
            exact hPc c hc) (by omega)
        refine ⟨r, hr, ?_⟩
        rw [← hPr]
        exact hh

theorem digit_characters_ok (b n : Nat) (hb2 : 2 ≤ b) (hb16 : b ≤ 16) :
    ∀ c, c ∈ (Nat.digits b n).map digit_character → c ≠ 0 ∧ c < 256 := by
  intro c hc
  obtain ⟨d, hd, rfl⟩ := List.mem_map.1 hc
  have := Nat.digits_lt_base (by omega : 1 < b) hd
  unfold digit_character
  split_ifs <;> omega

theorem itoa_unsigned (fuel n : Nat) (s : Nat → Nat) (b a sign : Nat)
    (hn : n < 4294967296) (hn0 : n ≠ 0) (hb2 : 2 ≤ b) (hb16 : b ≤ 16)
    (hs : machine_words s) (hf : a + 36 ≤ fuel) (ha : a + 36 < 4294967296) :
    ∃ r, (match itoa_digits fuel n s 0 b with
        | none => none
        | some (s, i) => itoa_finish fuel s i b a sign) = some r ∧
      holds_string r
        (if b = 10 then pad_left 32 a ((if sign ≠ 0 then [45] else []) ++ numeral b n)
         else if b = 16 then [48, 120] ++ pad_left 48 a (numeral b n)
         else if b = 8 then [48, 48] ++ pad_left 48 a (numeral b n)
         else pad_left 48 a (numeral b n)) := by
  obtain ⟨hd, hl⟩ := itoa_digits_spec b hb2 hb16 fuel 32 n s 0 (by omega)
    (by norm_num; exact hn) (by omega)
  have hnum : numeral b n = ((Nat.digits b n).map digit_character).reverse := by
    unfold numeral
    rw [if_neg hn0]
  have hpos : 0 < ((Nat.digits b n).map digit_character).length := by
    rw [List.length_map]
    rcases Nat.eq_zero_or_pos (Nat.digits b n).length with c | c
    · have := (Nat.digits_ne_nil_iff_ne_zero (b := b)).2 hn0
      exact absurd (List.length_eq_zero.1 c) this
    · exact c
  obtain ⟨r, hr, hh⟩ := itoa_finish_spec fuel s ((Nat.digits b n).map digit_character) b a
    sign hs (digit_characters_ok b n hb2 hb16) hpos (by rw [List.length_map]; omega) hf ha
  refine ⟨r, ?_, ?_⟩
  · rw [hd]
    dsimp only
    rw [List.length_map] at hr
    rw [Nat.zero_add]
    exact hr
  · rw [hnum]
    exact hh

/-- C24: integer formatting.  For every machine word `n`, every base `b` among 10,
16, 8 and 2, every alignment `a` and every array `s` of machine words, `itoa(n, s,
b, a)` returns (with fuel for `a + 36` loop iterations) and leaves in `s` the
null-terminated string `itoa_string n b a`: for base 10 the decimal numeral of the
two's-complement value of `n` (with `-` for a negative value, also for
`-2147483648`) padded on the left with spaces to at least `a` characters; for base
16 `0x` followed by the upper-case hexadecimal digits of the unsigned `n` padded
with zeros to at least `a` digits; for base 8 `00` followed by the octal digits
likewise; for base 2 the binary digits likewise; the digit `0` for `n = 0`. -/
theorem itoa_contract (fuel n : Nat) (s : Nat → Nat) (b a : Nat)
    (hn : n < 4294967296) (hb : b = 10 ∨ b = 16 ∨ b = 8 ∨ b = 2)
    (hs : machine_words s) (hf : a + 36 ≤ fuel) (ha : a + 36 < 4294967296) :
    ∃ r, itoa fuel n s b a = some r ∧ holds_string r (itoa_string n b a) := by
  have hb2 : 2 ≤ b := by omega
  have hb16 : b ≤ 16 := by omega
  unfold itoa itoa_string
  by_cases h0 : n = 0
  · subst h0
    rw [if_pos rfl]
    dsimp only
    have hfuel : ∃ k, fuel = k + 1 := ⟨fuel - 1, by omega⟩
    obtain ⟨k, rfl⟩ := hfuel
    have hdig : itoa_digits (k + 1) 0 (store_character s 0 48) 1 b =
        some (store_character s 0 48, 1) := by
      unfold itoa_digits
      rw [if_neg (by simp)]
    rw [hdig]
    dsimp only
    obtain ⟨r, hr, hh⟩ := itoa_finish_spec (k + 1) s [48] b a 0 hs
      (by intro c hc; simp at hc; subst hc; decide) (by decide) (by decide) hf ha
    refine ⟨r, hr, ?_⟩
    have e : numeral b 0 = [48] := by unfold numeral; rw [if_pos rfl]
    have e10 : numeral 10 0 = [48] := by unfold numeral; rw [if_pos rfl]
    have e16 : numeral 16 0 = [48] := by unfold numeral; rw [if_pos rfl]
    have e8 : numeral 8 0 = [48] := by unfold numeral; rw [if_pos rfl]
    rw [if_neg (show ¬ (2147483648 ≤ 0) by decide), e10, e16, e8, e]
    simpa using hh
  · rw [if_neg h0]
    by_cases hneg : 2147483648 ≤ n
    · rw [if_pos ((signed_less_than_zero_right n hn).2 hneg)]
      by_cases h10 : b = 10
      · subst h10
        rw [if_pos rfl, if_pos rfl, if_pos hneg]
        dsimp only
        have en : neg32 n = 4294967296 - n := by unfold neg32; omega
        rw [en]
        obtain ⟨r, hr, hh⟩ := itoa_unsigned fuel (4294967296 - n) s 10 a 1 (by omega)
          (by omega) hb2 hb16 hs hf ha
        refine ⟨r, hr, ?_⟩
        rw [if_pos rfl, if_pos (by decide)] at hh
        exact hh
      · rw [if_neg h10, if_neg h10]
        dsimp only
        obtain ⟨r, hr, hh⟩ := itoa_unsigned fuel n s b a 0 hn h0 hb2 hb16 hs hf ha
        refine ⟨r, hr, ?_⟩
        rw [if_neg h10] at hh
        rcases hb with c | c | c | c
        · exact absurd c h10
        · subst c; simpa using hh
        · subst c; simpa using hh
        · subst c; simpa using hh
    · rw [if_neg (fun c => hneg ((signed_less_than_zero_right n hn).1 c))]
      dsimp only
      obtain ⟨r, hr, hh⟩ := itoa_unsigned fuel n s b a 0 hn h0 hb2 hb16 hs hf ha
      refine ⟨r, hr, ?_⟩
      rw [if_neg hneg]
      rcases hb with c | c | c | c
      · subst c; simpa using hh
      · subst c; simpa using hh
      · subst c; simpa using hh
      · subst c; simpa using hh

theorem zeroed_memory_words : machine_words zeroed_memory := fun _ => by
  unfold zeroed_memory; decide

theorem itoa_contract_witness :
    (85 < 4294967296 ∧ (10 = 10 ∨ 10 = 16 ∨ 10 = 8 ∨ 10 = 2) ∧ machine_words zeroed_memory ∧
      0 + 36 ≤ 36 ∧ 0 + 36 < 4294967296) ∧
    (∃ r, itoa 36 85 zeroed_memory 10 0 = some r ∧ holds_string r (itoa_string 85 10 0)) ∧
    (∃ r, itoa 36 85 zeroed_memory 10 0 = some r ∧ holds_string r [56, 53]) ∧
    (∃ r, itoa 36 85 zeroed_memory 16 0 = some r ∧ holds_string r [48, 120, 53, 53]) ∧
    (∃ r, itoa 36 85 zeroed_memory 8 0 = some r ∧ holds_string r [48, 48, 49, 50, 53]) ∧
    (∃ r, itoa 36 85 zeroed_memory 2 0 = some r ∧
      holds_string r [49, 48, 49, 48, 49, 48, 49]) ∧
    (∃ r, itoa 36 (neg32 85) zeroed_memory 10 0 = some r ∧ holds_string r [45, 56, 53]) :=
  ⟨⟨by decide, by decide, zeroed_memory_words, by decide, by decide⟩,
    itoa_contract 36 85 zeroed_memory 10 0 (by decide) (by decide) zeroed_memory_words
      (by decide) (by decide),
    ⟨_, rfl, by unfold holds_string; decide⟩,
    ⟨_, rfl, by unfold holds_string; decide⟩,
    ⟨_, rfl, by unfold holds_string; decide⟩,
    ⟨_, rfl, by unfold holds_string; decide⟩,
    ⟨_, rfl, by unfold holds_string; decide⟩⟩

/-! ## Emitting instructions -/

theorem lift_ok_bind {α β : Type} (a : α) (f : α → OptionT (Except Nat) β) :
    ((liftM (Except.ok a : Except Nat α) : OptionT (Except Nat) α) >>= f) = f a := rfl

theorem lift_ok {α : Type} (a : α) :
    (liftM (Except.ok a : Except Nat α) : OptionT (Except Nat) α) = pure a := rfl

theorem emit_ok (s : Starc) (f : Compiler → Except Nat Compiler) (c : Compiler)
    (h : f s.compiler = .ok c) : emit s f = .ok { s with compiler := c } := by
  unfold emit
  rw [h]
  rfl

theorem emits_nil (c : Compiler) : emits c c [] :=
  ⟨rfl, rfl, fun i hi => absurd hi (Nat.not_lt_zero i), fun _ _ => rfl⟩

theorem emits_append (c c1 c2 : Compiler) (ws1 ws2 : List Nat) (h1 : emits c c1 ws1)
    (h2 : emits c1 c2 ws2) : emits c c2 (ws1 ++ ws2) := by
  obtain ⟨l1, a1, b1, o1⟩ := h1
  obtain ⟨l2, a2, b2, o2⟩ := h2
  have e : c1.binary_length / 4 = c.binary_length / 4 + ws1.length := by omega
  refine ⟨?_, a2.trans a1, ?_, ?_⟩
  · rw [l2, l1, List.length_append]
    omega
  · intro i hi
    rw [List.length_append] at hi
    by_cases h : i < ws1.length
    · rw [o2 _ (Or.inl (by omega)), b1 i h, List.getD_append _ _ _ _ h]
    · have h' : ws1.length ≤ i := Nat.le_of_not_lt h
      have ei : c.binary_length / 4 + i = c1.binary_length / 4 + (i - ws1.length) := by omega
      rw [ei, b2 _ (by omega), List.getD_append_right _ _ _ _ h']
  · intro i hi
    rw [List.length_append] at hi
    rw [o2 _ (by omega), o1 _ (by omega)]

theorem emit_instruction_emits (c : Compiler) (w : Nat)
    (h : c.binary_length < MAX_CODE_LENGTH) :
    ∃ c', emit_instruction c w = .ok c' ∧ emits c c' [w] ∧
      c'.allocated_temporaries = c.allocated_temporaries := by
  have hs : store_instruction c c.binary_length w =
      .ok { c with binary := fun i => if i = c.binary_length / REGISTERSIZE then w
                                      else c.binary i } := by
    unfold store_instruction
    rw [if_neg (Nat.not_le.2 h)]
  have hl : add32 c.binary_length INSTRUCTIONSIZE = c.binary_length + 4 := by
    unfold MAX_CODE_LENGTH at h
    unfold add32 INSTRUCTIONSIZE
    omega
  unfold emit_instruction
  rw [hs]
  refine ⟨_, rfl, ⟨?_, ?_, ?_, ?_⟩, ?_⟩
  · split <;> exact hl
  · split <;> rfl
  · intro i hi
    have i0 : i = 0 := by simpa using hi
    subst i0
    split <;> simp [REGISTERSIZE]
  · intro i hi
    have hne : i ≠ c.binary_length / 4 := by
      simp only [List.length_singleton] at hi
      omega
    split <;> simp [REGISTERSIZE, hne]
  · split <;> rfl

theorem emit_addi_emits (c : Compiler) (rd rs1 immediate w : Nat)
    (hw : encode_i_format immediate rs1 F3_ADDI rd OP_IMM = .ok w)
    (h : c.binary_length < MAX_CODE_LENGTH) :
    ∃ c', emit_addi c rd rs1 immediate = .ok c' ∧ emits c c' [w] ∧
      c'.allocated_temporaries = c.allocated_temporaries := by
  obtain ⟨c1, he, hm, ht⟩ := emit_instruction_emits c w h
  unfold emit_addi
  rw [hw]
  show ∃ c', (emit_instruction c w >>= _) = Except.ok c' ∧ _
  rw [he]
  exact ⟨_, rfl, hm, ht⟩

theorem emit_lui_emits (c : Compiler) (rd immediate w : Nat)
    (hw : encode_u_format immediate rd OP_LUI = .ok w)
    (h : c.binary_length < MAX_CODE_LENGTH) :
    ∃ c', emit_lui c rd immediate = .ok c' ∧ emits c c' [w] ∧
      c'.allocated_temporaries = c.allocated_temporaries := by
  obtain ⟨c1, he, hm, ht⟩ := emit_instruction_emits c w h
  unfold emit_lui
  rw [hw]
  show ∃ c', (emit_instruction c w >>= _) = Except.ok c' ∧ _
  rw [he]
  exact ⟨_, rfl, hm, ht⟩

theorem emit_sub_emits (c : Compiler) (rd rs1 rs2 : Nat)
    (h : c.binary_length < MAX_CODE_LENGTH) :
    ∃ c', emit_sub c rd rs1 rs2 = .ok c' ∧
      emits c c' [encode_r_format F7_SUB rs2 rs1 F3_SUB rd OP_OP] ∧
      c'.allocated_temporaries = c.allocated_temporaries := by
  obtain ⟨c1, he, hm, ht⟩ := emit_instruction_emits c _ h
  unfold emit_sub
  rw [he]
  exact ⟨_, rfl, hm, ht⟩

theorem talloc_ok (c : Compiler) (h : c.allocated_temporaries < NUMBEROFTEMPORARIES) :
    ∃ c', talloc c = .ok c' ∧ emits c c' [] ∧
      c'.allocated_temporaries = c.allocated_temporaries + 1 := by
  have e : add32 c.allocated_temporaries 1 = c.allocated_temporaries + 1 := by
    unfold NUMBEROFTEMPORARIES at h
    unfold add32
    omega
  unfold talloc
  rw [if_pos h]
  exact ⟨_, rfl, emits_nil c, e⟩

theorem current_temporary_ok (n : Nat) (h1 : 1 ≤ n) (h7 : n ≤ 7) :
    ∃ t, current_temporary n = .ok t ∧ t < 32 ∧ t ≠ REG_ZR := by
  interval_cases n
  · exact ⟨5, rfl, by decide, by decide⟩
  · exact ⟨6, rfl, by decide, by decide⟩
  · exact ⟨7, rfl, by decide, by decide⟩
  · exact ⟨28, rfl, by decide, by decide⟩
  · exact ⟨29, rfl, by decide, by decide⟩
  · exact ⟨30, rfl, by decide, by decide⟩
  · exact ⟨31, rfl, by decide, by decide⟩

theorem code_loaded_word (c c' : Compiler) (ws : List Nat) (m : Machine) (i : Nat)
    (he : emits c c' ws) (hi : i < ws.length)
    (h : code_loaded c' c.binary_length ws.length m) :
    load_virtual_memory m.memory m.pt (add32 m.pc (4 * i)) = ws.getD i 0 := by
  rw [h i hi]
  unfold load_instruction REGISTERSIZE
  have e : (c.binary_length + 4 * i) / 4 = c.binary_length / 4 + i := by omega
  rw [e]
  exact he.2.2.1 i hi

/-! ## Loading integers -/

theorem do_lui_eq (m : Machine) :
    (do_lui m).registers = (if m.rd ≠ REG_ZR then
        store_word m.registers m.rd (left_shift m.imm 12)
      else m.registers) ∧
    (do_lui m).pc = add32 m.pc 4 ∧ (do_lui m).memory = m.memory ∧
      (do_lui m).pt = m.pt := by
  unfold do_lui
  by_cases h : m.rd = REG_ZR <;> simp [h, INSTRUCTIONSIZE]

theorem step_lui (isw : Machine → Except Nat Machine) (m : Machine) (rd imm w : Nat)
    (hd : rd < 32) (hi : in_signed_range imm 20) (hz : rd ≠ REG_ZR)
    (he : encode_u_format imm rd OP_LUI = .ok w)
    (hw : load_virtual_memory m.memory m.pt m.pc = w) :
    ∃ m', step isw m = .ok m' ∧
      m'.registers = store_word m.registers rd (left_shift imm 12) ∧
      m'.pc = add32 m.pc 4 ∧ m'.memory = m.memory ∧ m'.pt = m.pt := by
  obtain ⟨w', he', ei, ed, eo⟩ := u_format_round_trip imm rd OP_LUI hi hd (by decide)
  have hww : w' = w := Except.ok.inj (he'.symm.trans he)
  rw [hww] at ei ed eo
  have hir : (fetch m).ir = w := hw
  have hX : ∃ X : Machine, decode_execute isw (fetch m) = .ok (do_lui X) ∧ X.rd = rd ∧
      X.imm = imm ∧ X.registers = m.registers ∧ X.pc = m.pc ∧
      X.memory = m.memory ∧ X.pt = m.pt := by
    refine ⟨decode_u_format { fetch m with opcode := OP_LUI }, ?_, ?_, ?_, rfl, rfl, rfl, rfl⟩
    · rw [decode_execute_lui isw (fetch m) (by rw [hir]; exact eo)]
    · show get_rd (fetch m).ir = rd
      rw [hir]; exact ed
    · show get_immediate_u_format (fetch m).ir = imm
      rw [hir]; exact ei
  obtain ⟨X, hde, xd, xi, xr, xp, xm, xt⟩ := hX
  obtain ⟨dr, dp, dm, dt⟩ := do_lui_eq X
  obtain ⟨m', hs, r', p', mem', pt'⟩ := step_of_decode_execute isw m _ hde
  refine ⟨m', hs, ?_, by rw [p', dp, xp], by rw [mem', dm, xm], by rw [pt', dt, xt]⟩
  rw [r', dr, xd, xi, xr, if_pos hz]

theorem store_word_same (a : Nat → Nat) (i v : Nat) : store_word a i v i = v := by
  unfold store_word
  rw [if_pos rfl]

theorem run_load_small (isw : Machine → Except Nat Machine) (m : Machine) (t v w : Nat)
    (ht : t < 32) (ht0 : t ≠ REG_ZR) (hv : in_signed_range v 12)
    (he : encode_i_format v REG_ZR F3_ADDI t OP_IMM = .ok w)
    (hz : m.registers REG_ZR = 0)
    (h0 : load_virtual_memory m.memory m.pt m.pc = w) :
    ∃ m', steps isw 1 m = .ok m' ∧ m'.registers t = v ∧ m'.pc = add32 m.pc 4 := by
  obtain ⟨m1, s1, r1, p1, _, _⟩ := step_addi isw m t REG_ZR v w ht (by decide) hv ht0 he h0
  refine ⟨m1, ?_, ?_, p1⟩
  · rw [steps_succ isw 0 m m1 s1]
    rfl
  · rw [r1, store_word_same, hz]
    have := hv.1
    unfold add32
    omega

theorem run_load_two (isw : Machine → Except Nat Machine) (m : Machine)
    (t upper lower w0 w1 : Nat)
    (ht : t < 32) (ht0 : t ≠ REG_ZR) (hu : in_signed_range upper 20)
    (hl : in_signed_range lower 12)
    (e0 : encode_u_format upper t OP_LUI = .ok w0)
    (e1 : encode_i_format lower t F3_ADDI t OP_IMM = .ok w1)
    (h0 : load_virtual_memory m.memory m.pt m.pc = w0)
    (h1 : load_virtual_memory m.memory m.pt (add32 m.pc 4) = w1) :
    ∃ m', steps isw 2 m = .ok m' ∧ m'.registers t = add32 (left_shift upper 12) lower ∧
      m'.pc = add32 m.pc 8 := by
  obtain ⟨m1, s1, r1, p1, me1, pt1⟩ := step_lui isw m t upper w0 ht hu ht0 e0 h0
  have h1' : load_virtual_memory m1.memory m1.pt m1.pc = w1 := by
    rw [me1, pt1, p1]
    exact h1
  obtain ⟨m2, s2, r2, p2, _, _⟩ := step_addi isw m1 t t lower w1 ht ht hl ht0 e1 h1'
  refine ⟨m2, ?_, ?_, ?_⟩
  · rw [steps_succ isw 1 m m1 s1, steps_succ isw 0 m1 m2 s2]
    rfl
  · rw [r2, store_word_same, r1, store_word_same]
  · rw [p2, p1, add32_add32]

theorem run_load_three (isw : Machine → Except Nat Machine) (m : Machine)
    (t upper lower w0 w2 : Nat)
    (ht : t < 32) (ht0 : t ≠ REG_ZR) (hu : in_signed_range upper 20)
    (hl : in_signed_range lower 12)
    (e0 : encode_u_format upper t OP_LUI = .ok w0)
    (e2 : encode_i_format lower t F3_ADDI t OP_IMM = .ok w2)
    (hz : m.registers REG_ZR = 0)
    (h0 : load_virtual_memory m.memory m.pt m.pc = w0)
    (h1 : load_virtual_memory m.memory m.pt (add32 m.pc 4) =
      encode_r_format F7_SUB t REG_ZR F3_SUB t OP_OP)
    (h2 : load_virtual_memory m.memory m.pt (add32 m.pc 8) = w2) :
    ∃ m', steps isw 3 m = .ok m' ∧
      m'.registers t = add32 (sub32 0 (left_shift upper 12)) lower ∧
      m'.pc = add32 m.pc 12 := by
  obtain ⟨m1, s1, r1, p1, me1, pt1⟩ := step_lui isw m t upper w0 ht hu ht0 e0 h0
  have h1' : load_virtual_memory m1.memory m1.pt m1.pc =
      encode_r_format F7_SUB t REG_ZR F3_SUB t OP_OP := by
    rw [me1, pt1, p1]
    exact h1
  obtain ⟨m2, s2, r2, p2, me2, pt2⟩ := step_sub isw m1 t REG_ZR t ht (by decide) ht ht0 h1'
  have h2' : load_virtual_memory m2.memory m2.pt m2.pc = w2 := by
    rw [me2, pt2, p2, me1, pt1, p1, add32_add32]
    exact h2
  obtain ⟨m3, s3, r3, p3, _, _⟩ := step_addi isw m2 t t lower w2 ht ht hl ht0 e2 h2'
  refine ⟨m3, ?_, ?_, ?_⟩
  · rw [steps_succ isw 2 m m1 s1, steps_succ isw 1 m1 m2 s2, steps_succ isw 0 m2 m3 s3]
    rfl
  · rw [r3, store_word_same, r2, store_word_same, r1, store_word_same,
      store_word_ne _ _ _ _ (Ne.symm ht0), hz]
  · rw [p3, p2, p1, add32_add32, add32_add32]

theorem load_integer_small (isw : Machine → Except Nat Machine) (fuel : Nat) (s : Starc)
    (v : Nat) (hv : v < 4294967296) (h12 : v < 2048 ∨ 4294965248 ≤ v)
    (ht : s.compiler.allocated_temporaries < NUMBEROFTEMPORARIES)
    (hl : s.compiler.binary_length + 12 ≤ MAX_CODE_LENGTH) :
    load_integer_correct isw fuel s v := by
  have hr : in_signed_range v 12 :=
    (in_signed_range_iff v 12 (by decide) (by decide)).2 ⟨hv, by norm_num; exact h12⟩
  have hs : is_signed_integer v 12 ≠ 0 := by
    rw [is_signed_integer_eq v 12 (by decide) (by decide), if_pos (by norm_num; exact h12)]
    decide
  obtain ⟨c1, a1, m1, t1⟩ := talloc_ok s.compiler ht
  have ht7 : s.compiler.allocated_temporaries < 7 := ht
  obtain ⟨t, hc, t32, t0⟩ := current_temporary_ok c1.allocated_temporaries (by omega) (by omega)
  have hw := encode_i_format_ok v REG_ZR F3_ADDI t OP_IMM hr
  obtain ⟨c2, a2, m2, t2⟩ := emit_addi_emits c1 t REG_ZR v _ hw (by rw [m1.1]; simp; omega)
  have hem : emits s.compiler c2 [_] := emits_append _ _ _ [] [_] m1 m2
  refine ⟨{ s with compiler := c2 }, t, [_], ?_, rfl, by rw [← t1]; exact t2,
    by rw [t2]; exact hc, ?_, hem, ?_⟩
  · unfold load_integer
    rw [if_pos hs]
    have e1 := emit_ok s talloc c1 a1
    have e2 := emit_ok { s with compiler := c1 } (fun c => emit_addi c t REG_ZR v) c2 a2
    simp only [e1, lift_ok_bind, hc, e2]
    rfl
  · unfold load_integer_code
    rw [if_pos h12, hw]
    rfl
  · intro m hz hpc hcl
    have h0 := code_loaded_word _ _ _ m 0 hem (by simp) hcl
    rw [Nat.mul_zero, add32_zero _ hpc] at h0
    exact run_load_small isw m t v _ t32 t0 hr hw hz h0

theorem load_integer_large (isw : Machine → Except Nat Machine) (fuel : Nat) (s : Starc)
    (v : Nat) (hv : v < 4294967296) (h12 : ¬(v < 2048 ∨ 4294965248 ≤ v))
    (ht : s.compiler.allocated_temporaries < NUMBEROFTEMPORARIES)
    (hl : s.compiler.binary_length + 12 ≤ MAX_CODE_LENGTH) :
    load_integer_correct isw fuel s v := by
  have hs : ¬ is_signed_integer v 12 ≠ 0 := by
    rw [is_signed_integer_eq v 12 (by decide) (by decide), if_neg (by norm_num; omega)]
    decide
  have hs32 : is_signed_integer v 32 ≠ 0 := by
    rw [is_signed_integer_eq v 32 (by decide) (by decide), if_pos (by norm_num; omega)]
    decide
  have hlo : get_bits v 0 12 = v % 4096 := by
    rw [get_bits_zero v 12 (by decide)]
    norm_num
  have hup : get_bits v 12 20 = v / 4096 := by
    rw [get_bits_eq v 12 20 (by decide) (by decide) (by decide)]
    norm_num
    omega
  have hlr : in_signed_range (sign_extend (v % 4096) 12) 12 := by
    rw [in_signed_range_iff _ 12 (by decide) (by decide),
      sign_extend_eq _ 12 (by decide) (by decide)]
    norm_num
    split <;> omega
  obtain ⟨c1, a1, m1, t1⟩ := talloc_ok s.compiler ht
  have ht7 : s.compiler.allocated_temporaries < 7 := ht
  have hl7 : s.compiler.binary_length + 12 ≤ 245760 := hl
  obtain ⟨t, hc, t32, t0⟩ := current_temporary_ok c1.allocated_temporaries (by omega) (by omega)
  have hwl := encode_i_format_ok (sign_extend (v % 4096) 12) t F3_ADDI t OP_IMM hlr
  have e1 := emit_ok s talloc c1 a1
  have b1 : c1.binary_length = s.compiler.binary_length := by
    rw [m1.1]
    rfl
  by_cases hlow : v % 4096 < 2048
  · -- the lower part is not negative
    have hur : in_signed_range (sign_extend (v / 4096) 20) 20 := by
      rw [in_signed_range_iff _ 20 (by decide) (by decide),
        sign_extend_eq _ 20 (by decide) (by decide)]
      norm_num
      split <;> omega
    have hwu := encode_u_format_ok (sign_extend (v / 4096) 20) t OP_LUI hur
    obtain ⟨c2, a2, m2, t2⟩ := emit_lui_emits c1 t _ _ hwu (by unfold MAX_CODE_LENGTH; omega)
    have b2 : c2.binary_length = s.compiler.binary_length + 4 := by
      rw [m2.1, b1]
      rfl
    obtain ⟨c3, a3, m3, t3⟩ := emit_addi_emits c2 t t _ _ hwl (by unfold MAX_CODE_LENGTH; omega)
    have hem : emits s.compiler c3 [_, _] :=
      emits_append _ _ _ [] [_, _] m1 (emits_append _ _ _ [_] [_] m2 m3)
    have e2 := emit_ok { s with compiler := c1 }
      (fun c => emit_lui c t (sign_extend (v / 4096) 20)) c2 a2
    have e3 := emit_ok { s with compiler := c2 }
      (fun c => emit_addi c t t (sign_extend (v % 4096) 12)) c3 a3
    refine ⟨{ s with compiler := c3 }, t, [_, _], ?_, rfl, by rw [t3, t2, t1],
      by rw [t3, t2]; exact hc, ?_, hem, ?_⟩
    · unfold load_integer
      rw [if_neg hs, if_pos hs32]
      have h11 : ¬ v % 4096 ≥ two_to_the_power_of 11 := by
        rw [two_to_the_power_of_eq 11 (by decide)]
        norm_num
        exact hlow
      simp only [hlo, hup, e1, lift_ok_bind, hc, if_neg h11, e2, e3]
      rfl
    · unfold load_integer_code
      rw [if_neg h12]
      simp only [if_pos hlow, hwu, hwl, ok_bind]
      rw [if_neg (by omega)]
      rfl
    · intro m hz hpc hcl
      have h0 := code_loaded_word _ _ _ m 0 hem (by simp) hcl
      rw [Nat.mul_zero, add32_zero _ hpc] at h0
      have h1 := code_loaded_word _ _ _ m 1 hem (by simp) hcl
      obtain ⟨m', hst, hreg, hp⟩ := run_load_two isw m t _ _ _ _ t32 t0 hur hlr hwu hwl h0 h1
      refine ⟨m', hst, ?_, hp⟩
      rw [hreg, left_shift_eq _ 12 (by decide), sign_extend_eq _ 20 (by decide) (by decide),
        sign_extend_eq _ 12 (by decide) (by decide)]
      unfold add32
      norm_num
      rw [if_pos hlow]
      split <;> omega
  · -- the lower part is negative: the upper part is incremented
    have hu1 : add32 (v / 4096) 1 = v / 4096 + 1 := by
      unfold add32
      omega
    have hur : in_signed_range (sign_extend (v / 4096 + 1) 20) 20 := by
      rw [in_signed_range_iff _ 20 (by decide) (by decide),
        sign_extend_eq _ 20 (by decide) (by decide)]
      norm_num
      split <;> omega
    have hwu := encode_u_format_ok (sign_extend (v / 4096 + 1) 20) t OP_LUI hur
    obtain ⟨c2, a2, m2, t2⟩ := emit_lui_emits c1 t _ _ hwu (by unfold MAX_CODE_LENGTH; omega)
    have b2 : c2.binary_length = s.compiler.binary_length + 4 := by
      rw [m2.1, b1]
      rfl
    have e2 := emit_ok { s with compiler := c1 }
      (fun c => emit_lui c t (sign_extend (v / 4096 + 1) 20)) c2 a2
    have h11 : v % 4096 ≥ two_to_the_power_of 11 := by
      rw [two_to_the_power_of_eq 11 (by decide)]
      norm_num
      omega
    have h19 : two_to_the_power_of 19 = 524288 := by decide
    by_cases hov : v / 4096 + 1 = 524288
    · -- the incremented upper part is 2^19
      obtain ⟨c3, a3, m3, t3⟩ := emit_sub_emits c2 t REG_ZR t (by unfold MAX_CODE_LENGTH; omega)
      have b3 : c3.binary_length = s.compiler.binary_length + 8 := by
        rw [m3.1, b2]
        rfl
      obtain ⟨c4, a4, m4, t4⟩ := emit_addi_emits c3 t t _ _ hwl
        (by unfold MAX_CODE_LENGTH; omega)
      have hem : emits s.compiler c4 [_, _, _] :=
        emits_append _ _ _ [] [_, _, _] m1
          (emits_append _ _ _ [_] [_, _] m2 (emits_append _ _ _ [_] [_] m3 m4))
      have e3 := emit_ok { s with compiler := c2 } (fun c => emit_sub c t REG_ZR t) c3 a3
      have e4 := emit_ok { s with compiler := c3 }
        (fun c => emit_addi c t t (sign_extend (v % 4096) 12)) c4 a4
      refine ⟨{ s with compiler := c4 }, t, [_, _, _], ?_, rfl, by rw [t4, t3, t2, t1],
        by rw [t4, t3, t2]; exact hc, ?_, hem, ?_⟩
      · unfold load_integer
        rw [if_neg hs, if_pos hs32]
        simp only [hlo, hup, e1, lift_ok_bind, hc, if_pos h11, hu1, e2, h19, if_pos hov, e3, e4]
        rfl
      · unfold load_integer_code
        rw [if_neg h12]
        simp only [if_neg hlow, hwu, hwl, ok_bind]
        rw [if_pos ⟨by omega, hov⟩]
        rfl
      · intro m hz hpc hcl
        have h0 := code_loaded_word _ _ _ m 0 hem (by simp) hcl
        rw [Nat.mul_zero, add32_zero _ hpc] at h0
        have h1 := code_loaded_word _ _ _ m 1 hem (by simp) hcl
        have h2 := code_loaded_word _ _ _ m 2 hem (by simp) hcl
        obtain ⟨m', hst, hreg, hp⟩ :=
          run_load_three isw m t _ _ _ _ t32 t0 hur hlr hwu hwl hz h0 h1 h2
        refine ⟨m', hst, ?_, hp⟩
        rw [hreg, left_shift_eq _ 12 (by decide), sign_extend_eq _ 20 (by decide) (by decide),
          sign_extend_eq _ 12 (by decide) (by decide)]
        unfold add32 sub32
        norm_num
        rw [if_neg hlow, if_neg (by omega)]
        omega
    · -- no overflow of the upper part
      obtain ⟨c3, a3, m3, t3⟩ := emit_addi_emits c2 t t _ _ hwl
        (by unfold MAX_CODE_LENGTH; omega)
      have hem : emits s.compiler c3 [_, _] :=
        emits_append _ _ _ [] [_, _] m1 (emits_append _ _ _ [_] [_] m2 m3)
      have e3 := emit_ok { s with compiler := c2 }
        (fun c => emit_addi c t t (sign_extend (v % 4096) 12)) c3 a3
      refine ⟨{ s with compiler := c3 }, t, [_, _], ?_, rfl, by rw [t3, t2, t1],
        by rw [t3, t2]; exact hc, ?_, hem, ?_⟩
      · unfold load_integer
        rw [if_neg hs, if_pos hs32]
        simp only [hlo, hup, e1, lift_ok_bind, hc, if_pos h11, hu1, e2, h19, if_neg hov, pure_bind,
          e3]
        rfl
      · unfold load_integer_code
        rw [if_neg h12]
        simp only [if_neg hlow, hwu, hwl, ok_bind]
        rw [if_neg (fun h => hov h.2)]
        rfl
      · intro m hz hpc hcl
        have h0 := code_loaded_word _ _ _ m 0 hem (by simp) hcl
        rw [Nat.mul_zero, add32_zero _ hpc] at h0
        have h1 := code_loaded_word _ _ _ m 1 hem (by simp) hcl
        obtain ⟨m', hst, hreg, hp⟩ := run_load_two isw m t _ _ _ _ t32 t0 hur hlr hwu hwl h0 h1
        refine ⟨m', hst, ?_, hp⟩
        rw [hreg, left_shift_eq _ 12 (by decide), sign_extend_eq _ 20 (by decide) (by decide),
          sign_extend_eq _ 12 (by decide) (by decide)]
        unfold add32
        norm_num
        rw [if_neg hlow]
        split <;> omega

/-- C29: `load_integer` is correct for every machine word.  For every 32-bit value
`v`, in every state of the compiler with a free temporary and room for three
instructions, `v` passes the test `is_signed_integer(v, 32)`, so the branch that
stores a big integer in the data segment is not taken; `load_integer` returns,
leaves the symbol tables and the allocated data memory unchanged, allocates exactly
one temporary `t` and appends one `addi` when `v` is a 12-bit signed integer, and
otherwise `lui` and `addi` with a `sub t,zero,t` in between exactly when the adjusted
upper part is `2^19`; and executing the emitted instructions on any machine with
`x0 = 0` leaves exactly `v` in `t`. -/
theorem load_integer_loads_every_word (isw : Machine → Except Nat Machine) (fuel : Nat)
    (s : Starc) (v : Nat) (hv : v < 4294967296)
    (ht : s.compiler.allocated_temporaries < NUMBEROFTEMPORARIES)
    (hl : s.compiler.binary_length + 12 ≤ MAX_CODE_LENGTH) :
    is_signed_integer v 32 = 1 ∧ load_integer_correct isw fuel s v := by
  refine ⟨?_, ?_⟩
  · rw [is_signed_integer_eq v 32 (by decide) (by decide), if_pos (by norm_num; omega)]
  · by_cases h12 : v < 2048 ∨ 4294965248 ≤ v
    · exact load_integer_small isw fuel s v hv h12 ht hl
    · exact load_integer_large isw fuel s v hv h12 ht hl

/-- Witness for C29: in the initial state of the compiler the hypotheses hold for
`v = 2^31 - 1`, whose adjusted upper part is `2^19`; the three instructions emitted
for it, loaded at address 0 and run, leave `2^31 - 1` in `t0`. -/
theorem load_integer_loads_every_word_witness :
    (2147483647 < 4294967296 ∧
      initial_starc.compiler.allocated_temporaries < NUMBEROFTEMPORARIES ∧
      initial_starc.compiler.binary_length + 12 ≤ MAX_CODE_LENGTH) ∧
    ∃ m', steps (fun m => .ok m) 3 loaded_integer_machine = .ok m' ∧
      m'.registers 5 = 2147483647 := by
  have h := load_integer_loads_every_word (fun m => .ok m) 0 initial_starc 2147483647
    (by decide) (by decide) (by decide)
  obtain ⟨s', t, ws, hload, _, htmp, hcur, hcode, _, hrun⟩ := h.2
  have ht1 : s'.compiler.allocated_temporaries = 1 := htmp
  rw [ht1] at hcur
  have et : 5 = t := Except.ok.inj hcur
  subst et
  have hlen : ws.length = 3 := by
    have e := congrArg (fun r : Except Nat (List Nat) =>
      match r with
      | .ok l => l.length
      | .error _ => 0) hcode
    exact e.symm.trans (by rfl)
  rw [hlen] at hrun
  have hb : starc_binary_of (load_integer 0 initial_starc 2147483647) = s'.compiler.binary := by
    rw [hload]
    rfl
  have hcl : code_loaded s'.compiler initial_starc.compiler.binary_length 3
      loaded_integer_machine := by
    intro i hi
    show starc_binary_of (load_integer 0 initial_starc 2147483647) _ = s'.compiler.binary _
    rw [hb]
    interval_cases i
    · exact congrArg s'.compiler.binary (by decide)
    · exact congrArg s'.compiler.binary (by decide)
    · exact congrArg s'.compiler.binary (by decide)
  obtain ⟨m', hs, hres, _⟩ := hrun loaded_integer_machine rfl (by decide) hcl
  exact ⟨⟨by decide, by decide, by decide⟩, m', hs, hres⟩

/-! ## What an emitter that returns has appended -/

theorem except_bind_inv {α β : Type} (x : Except Nat α) (f : α → Except Nat β) (b : β)
    (h : (x >>= f) = .ok b) : ∃ a, x = .ok a ∧ f a = .ok b := by
  cases x with
  | error e => cases h
  | ok a => exact ⟨a, rfl, h⟩

theorem optionT_bind_inv {α β : Type} (x : OptionT (Except Nat) α)
    (f : α → OptionT (Except Nat) β) (b : β) (h : (x >>= f) = pure b) :
    ∃ a, x = pure a ∧ f a = pure b := by
  cases hx : x with
  | error e =>
    rw [hx] at h
    cases h
  | ok o =>
    cases o with
    | none =>
      rw [hx] at h
      cases h
    | some a =>
      rw [hx] at h
      exact ⟨a, rfl, h⟩

theorem lift_inv {α : Type} (x : Except Nat α) (a : α)
    (h : (liftM x : OptionT (Except Nat) α) = pure a) : x = .ok a := by
  cases x with
  | error e => cases h
  | ok b =>
    have e : some b = some a := Except.ok.inj h
    rw [Option.some.inj e]

theorem emit_inv (s s1 : Starc) (f : Compiler → Except Nat Compiler) (h : emit s f = .ok s1) :
    f s.compiler = .ok s1.compiler ∧ s1 = { s with compiler := s1.compiler } := by
  unfold emit at h
  obtain ⟨c, hc, e⟩ := except_bind_inv _ _ _ h
  have e' : { s with compiler := c } = s1 := Except.ok.inj e
  subst e'
  exact ⟨hc, rfl⟩

theorem emit_instruction_inv (c c' : Compiler) (w : Nat) (h : emit_instruction c w = .ok c') :
    emits c c' [w] ∧ c'.allocated_temporaries = c.allocated_temporaries := by
  by_cases hl : c.binary_length < MAX_CODE_LENGTH
  · obtain ⟨c1, he, hm, ht⟩ := emit_instruction_emits c w hl
    have e : c1 = c' := Except.ok.inj (he.symm.trans h)
    subst e
    exact ⟨hm, ht⟩
  · have hs : store_instruction c c.binary_length w = .error EXITCODE_COMPILERERROR := by
      unfold store_instruction
      rw [if_pos (Nat.le_of_not_lt hl)]
    unfold emit_instruction at h
    rw [hs] at h
    cases h

theorem emit_addi_inv (c c' : Compiler) (rd rs1 immediate : Nat)
    (h : emit_addi c rd rs1 immediate = .ok c') :
    ∃ w, encode_i_format immediate rs1 F3_ADDI rd OP_IMM = .ok w ∧ emits c c' [w] ∧
      c'.allocated_temporaries = c.allocated_temporaries := by
  unfold emit_addi at h
  obtain ⟨w, hw, h⟩ := except_bind_inv _ _ _ h
  obtain ⟨c1, h1, h⟩ := except_bind_inv _ _ _ h
  obtain ⟨hm, ht⟩ := emit_instruction_inv c c1 w h1
  have e : _ = c' := Except.ok.inj h
  subst e
  exact ⟨w, hw, hm, ht⟩

theorem emit_lw_inv (c c' : Compiler) (rd rs1 immediate : Nat)
    (h : emit_lw c rd rs1 immediate = .ok c') :
    ∃ w, encode_i_format immediate rs1 F3_LW rd OP_LW = .ok w ∧ emits c c' [w] ∧
      c'.allocated_temporaries = c.allocated_temporaries := by
  unfold emit_lw at h
  obtain ⟨w, hw, h⟩ := except_bind_inv _ _ _ h
  obtain ⟨c1, h1, h⟩ := except_bind_inv _ _ _ h
  obtain ⟨hm, ht⟩ := emit_instruction_inv c c1 w h1
  have e : _ = c' := Except.ok.inj h
  subst e
  exact ⟨w, hw, hm, ht⟩

theorem emit_sw_inv (c c' : Compiler) (rs1 immediate rs2 : Nat)
    (h : emit_sw c rs1 immediate rs2 = .ok c') :
    ∃ w, encode_s_format immediate rs2 rs1 F3_SW OP_SW = .ok w ∧ emits c c' [w] ∧
      c'.allocated_temporaries = c.allocated_temporaries := by
  unfold emit_sw at h
  obtain ⟨w, hw, h⟩ := except_bind_inv _ _ _ h
  obtain ⟨c1, h1, h⟩ := except_bind_inv _ _ _ h
  obtain ⟨hm, ht⟩ := emit_instruction_inv c c1 w h1
  have e : _ = c' := Except.ok.inj h
  subst e
  exact ⟨w, hw, hm, ht⟩

theorem emit_jal_inv (c c' : Compiler) (rd immediate : Nat)
    (h : emit_jal c rd immediate = .ok c') :
    ∃ w, encode_j_format immediate rd OP_JAL = .ok w ∧ emits c c' [w] ∧
      c'.allocated_temporaries = c.allocated_temporaries := by
  unfold emit_jal at h
  obtain ⟨w, hw, h⟩ := except_bind_inv _ _ _ h
  obtain ⟨c1, h1, h⟩ := except_bind_inv _ _ _ h
  obtain ⟨hm, ht⟩ := emit_instruction_inv c c1 w h1
  have e : _ = c' := Except.ok.inj h
  subst e
  exact ⟨w, hw, hm, ht⟩

theorem emit_jalr_inv (c c' : Compiler) (rd rs1 immediate : Nat)
    (h : emit_jalr c rd rs1 immediate = .ok c') :
    ∃ w, encode_i_format immediate rs1 F3_JALR rd OP_JALR = .ok w ∧ emits c c' [w] ∧
      c'.allocated_temporaries = c.allocated_temporaries := by
  unfold emit_jalr at h
  obtain ⟨w, hw, h⟩ := except_bind_inv _ _ _ h
  obtain ⟨c1, h1, h⟩ := except_bind_inv _ _ _ h
  obtain ⟨hm, ht⟩ := emit_instruction_inv c c1 w h1
  have e : _ = c' := Except.ok.inj h
  subst e
  exact ⟨w, hw, hm, ht⟩

theorem emit_lui_inv (c c' : Compiler) (rd immediate : Nat)
    (h : emit_lui c rd immediate = .ok c') :
    ∃ w, encode_u_format immediate rd OP_LUI = .ok w ∧ emits c c' [w] ∧
      c'.allocated_temporaries = c.allocated_temporaries := by
  unfold emit_lui at h
  obtain ⟨w, hw, h⟩ := except_bind_inv _ _ _ h
  obtain ⟨c1, h1, h⟩ := except_bind_inv _ _ _ h
  obtain ⟨hm, ht⟩ := emit_instruction_inv c c1 w h1
  have e : _ = c' := Except.ok.inj h
  subst e
  exact ⟨w, hw, hm, ht⟩

theorem emit_ecall_inv (c c' : Compiler) (h : emit_ecall c = .ok c') :
    ∃ w, emits c c' [w] ∧ c'.allocated_temporaries = c.allocated_temporaries := by
  unfold emit_ecall at h
  obtain ⟨w, _, h⟩ := except_bind_inv _ _ _ h
  obtain ⟨c1, h1, h⟩ := except_bind_inv _ _ _ h
  obtain ⟨hm, ht⟩ := emit_instruction_inv c c1 w h1
  have e : _ = c' := Except.ok.inj h
  subst e
  exact ⟨w, hm, ht⟩

theorem emit_nop_inv (c c' : Compiler) (h : emit_nop c = .ok c') :
    ∃ w, emits c c' [w] ∧ c'.allocated_temporaries = c.allocated_temporaries := by
  unfold emit_nop at h
  obtain ⟨w, _, h⟩ := except_bind_inv _ _ _ h
  obtain ⟨c1, h1, h⟩ := except_bind_inv _ _ _ h
  obtain ⟨hm, ht⟩ := emit_instruction_inv c c1 w h1
  have e : _ = c' := Except.ok.inj h
  subst e
  exact ⟨w, hm, ht⟩

theorem emit_sub_inv (c c' : Compiler) (rd rs1 rs2 : Nat) (h : emit_sub c rd rs1 rs2 = .ok c') :
    emits c c' [encode_r_format F7_SUB rs2 rs1 F3_SUB rd OP_OP] ∧
      c'.allocated_temporaries = c.allocated_temporaries := by
  unfold emit_sub at h
  obtain ⟨c1, h1, h⟩ := except_bind_inv _ _ _ h
  obtain ⟨hm, ht⟩ := emit_instruction_inv c c1 _ h1
  have e : _ = c' := Except.ok.inj h
  subst e
  exact ⟨hm, ht⟩

theorem emit_add_inv (c c' : Compiler) (rd rs1 rs2 : Nat) (h : emit_add c rd rs1 rs2 = .ok c') :
    emits c c' [encode_r_format F7_ADD rs2 rs1 F3_ADD rd OP_OP] ∧
      c'.allocated_temporaries = c.allocated_temporaries := by
  unfold emit_add at h
  obtain ⟨c1, h1, h⟩ := except_bind_inv _ _ _ h
  obtain ⟨hm, ht⟩ := emit_instruction_inv c c1 _ h1
  have e : _ = c' := Except.ok.inj h
  subst e
  exact ⟨hm, ht⟩

theorem emit_remu_inv (c c' : Compiler) (rd rs1 rs2 : Nat)
    (h : emit_remu c rd rs1 rs2 = .ok c') :
    emits c c' [encode_r_format F7_REMU rs2 rs1 F3_REMU rd OP_OP] ∧
      c'.allocated_temporaries = c.allocated_temporaries := by
  unfold emit_remu at h
  obtain ⟨c1, h1, h⟩ := except_bind_inv _ _ _ h
  obtain ⟨hm, ht⟩ := emit_instruction_inv c c1 _ h1
  have e : _ = c' := Except.ok.inj h
  subst e
  exact ⟨hm, ht⟩

theorem talloc_inv (c c' : Compiler) (h : talloc c = .ok c') :
    emits c c' [] ∧ c'.allocated_temporaries = c.allocated_temporaries + 1 ∧
      c.allocated_temporaries < 7 := by
  by_cases ht : c.allocated_temporaries < NUMBEROFTEMPORARIES
  · obtain ⟨c1, he, hm, h1⟩ := talloc_ok c ht
    have e : c1 = c' := Except.ok.inj (he.symm.trans h)
    subst e
    exact ⟨hm, h1, ht⟩
  · unfold talloc at h
    rw [if_neg ht] at h
    cases h

theorem tfree_inv (c c' : Compiler) (n : Nat) (h : tfree c n = .ok c') : emits c c' [] := by
  unfold tfree at h
  split at h
  · have e : _ = c' := Except.ok.inj h
    subst e
    exact ⟨rfl, rfl, fun i hi => absurd hi (Nat.not_lt_zero i), fun _ _ => rfl⟩
  · cases h

theorem emit_round_up_inv (c c' : Compiler) (reg m : Nat) (h : emit_round_up c reg m = .ok c') :
    ∃ ws, ws.length = 4 ∧ emits c c' ws := by
  unfold emit_round_up at h
  obtain ⟨c1, h1, h⟩ := except_bind_inv _ _ _ h
  obtain ⟨c2, h2, h⟩ := except_bind_inv _ _ _ h
  obtain ⟨t2, _, h⟩ := except_bind_inv _ _ _ h
  obtain ⟨c3, h3, h⟩ := except_bind_inv _ _ _ h
  obtain ⟨t3, _, h⟩ := except_bind_inv _ _ _ h
  obtain ⟨c4, h4, h⟩ := except_bind_inv _ _ _ h
  obtain ⟨t4, _, h⟩ := except_bind_inv _ _ _ h
  obtain ⟨c5, h5, h⟩ := except_bind_inv _ _ _ h
  obtain ⟨m1, _⟩ := talloc_inv _ _ h1
  obtain ⟨w2, _, m2, _⟩ := emit_addi_inv _ _ _ _ _ h2
  obtain ⟨w3, _, m3, _⟩ := emit_addi_inv _ _ _ _ _ h3
  obtain ⟨m4, _⟩ := emit_remu_inv _ _ _ _ _ h4
  obtain ⟨m5, _⟩ := emit_sub_inv _ _ _ _ _ h5
  have m6 := tfree_inv _ _ _ h
  exact ⟨_, by simp, emits_append _ _ _ _ _ m1 (emits_append _ _ _ _ _ m2
    (emits_append _ _ _ _ _ m3 (emits_append _ _ _ _ _ m4 (emits_append _ _ _ _ _ m5 m6))))⟩

/-! ## The program entry -/

theorem emit_lift_inv (s s1 : Starc) (f : Compiler → Except Nat Compiler)
    (h : (liftM (emit s f) : OptionT (Except Nat) Starc) = pure s1) :
    f s.compiler = .ok s1.compiler ∧ s1 = { s with compiler := s1.compiler } :=
  emit_inv s s1 f (lift_inv _ _ h)

theorem load_integer_two (fuel : Nat) (s s1 : Starc) (v : Nat) (h1 : 2048 ≤ v)
    (h2 : v < 2147481600) (h : load_integer fuel s v = pure s1) :
    ∃ ws, ws.length = 2 ∧ emits s.compiler s1.compiler ws := by
  have hs : ¬ is_signed_integer v 12 ≠ 0 := by
    rw [is_signed_integer_eq v 12 (by decide) (by decide), if_neg (by norm_num; omega)]
    decide
  have hs32 : is_signed_integer v 32 ≠ 0 := by
    rw [is_signed_integer_eq v 32 (by decide) (by decide), if_pos (by norm_num; omega)]
    decide
  have hup : get_bits v 12 20 = v / 4096 := by
    rw [get_bits_eq v 12 20 (by decide) (by decide) (by decide)]
    norm_num
    omega
  have hlo : get_bits v 0 12 = v % 4096 := by
    rw [get_bits_zero v 12 (by decide)]
    norm_num
  unfold load_integer at h
  rw [if_neg hs, if_pos hs32] at h
  simp only [hup, hlo] at h
  obtain ⟨s2, e2, h⟩ := optionT_bind_inv _ _ _ h
  obtain ⟨t, _, h⟩ := optionT_bind_inv _ _ _ h
  obtain ⟨a2, _⟩ := emit_lift_inv _ _ _ e2
  obtain ⟨m2, _⟩ := talloc_inv _ _ a2
  split at h
  · rename_i hge
    have h19 : add32 (v / 4096) 1 ≠ two_to_the_power_of 19 := by
      rw [two_to_the_power_of_eq 11 (by decide)] at hge
      rw [two_to_the_power_of_eq 19 (by decide)]
      unfold add32
      norm_num at hge ⊢
      omega
    obtain ⟨s3, e3, h⟩ := optionT_bind_inv _ _ _ h
    rw [if_neg h19] at h
    obtain ⟨s4, e4, h⟩ := optionT_bind_inv _ _ _ h
    have e : s3 = s4 := by
      have e' : some s3 = some s4 := Except.ok.inj e4
      exact Option.some.inj e'
    subst e
    obtain ⟨a3, _⟩ := emit_lift_inv _ _ _ e3
    obtain ⟨a4, _⟩ := emit_lift_inv _ _ _ h
    obtain ⟨w3, _, m3, _⟩ := emit_lui_inv _ _ _ _ a3
    obtain ⟨w4, _, m4, _⟩ := emit_addi_inv _ _ _ _ _ a4
    exact ⟨_, by simp, emits_append _ _ _ _ _ m2 (emits_append _ _ _ _ _ m3 m4)⟩
  · obtain ⟨s3, e3, h⟩ := optionT_bind_inv _ _ _ h
    obtain ⟨a3, _⟩ := emit_lift_inv _ _ _ e3
    obtain ⟨a4, _⟩ := emit_lift_inv _ _ _ h
    obtain ⟨w3, _, m3, _⟩ := emit_lui_inv _ _ _ _ a3
    obtain ⟨w4, _, m4, _⟩ := emit_addi_inv _ _ _ _ _ a4
    exact ⟨_, by simp, emits_append _ _ _ _ _ m2 (emits_append _ _ _ _ _ m3 m4)⟩

theorem help_call_codegen_inv (s : Starc) (entry : Option SymbolTableEntry)
    (procedure : Nat → Nat) (r : Nat × Starc) (h : help_call_codegen s entry procedure = .ok r) :
    ∃ w, emits s.compiler r.2.compiler [w] := by
  unfold help_call_codegen at h
  cases entry with
  | none =>
    simp only at h
    obtain ⟨s1, e1, h⟩ := except_bind_inv _ _ _ h
    obtain ⟨a1, _⟩ := emit_inv _ _ _ e1
    obtain ⟨w, _, m1, _⟩ := emit_jal_inv _ _ _ _ a1
    have e : (UINT32_T, s1) = r := Except.ok.inj h
    subst e
    exact ⟨w, m1⟩
  | some entry =>
    simp only at h
    split at h
    · obtain ⟨s1, e1, h⟩ := except_bind_inv _ _ _ h
      obtain ⟨a1, _⟩ := emit_inv _ _ _ e1
      obtain ⟨w, _, m1, _⟩ := emit_jal_inv _ _ _ _ a1
      have e : (_, s1) = r := Except.ok.inj h
      subst e
      exact ⟨w, m1⟩
    · split at h
      · obtain ⟨s1, e1, h⟩ := except_bind_inv _ _ _ h
        obtain ⟨a1, _⟩ := emit_inv _ _ _ e1
        obtain ⟨w, _, m1, _⟩ := emit_jal_inv _ _ _ _ a1
        have e : (_, _) = r := Except.ok.inj h
        subst e
        exact ⟨w, m1⟩
      · obtain ⟨s1, e1, h⟩ := except_bind_inv _ _ _ h
        obtain ⟨a1, _⟩ := emit_inv _ _ _ e1
        obtain ⟨w, _, m1, _⟩ := emit_jal_inv _ _ _ _ a1
        have e : (_, s1) = r := Except.ok.inj h
        subst e
        exact ⟨w, m1⟩

theorem emit_bootstrapping_main_inv (fuel : Nat) (s s1 : Starc) (gp : Nat) (hgp : 2048 ≤ gp)
    (h : emit_bootstrapping_main fuel s gp = pure s1) :
    ∃ ws, ws.length = 18 ∧ emits s.compiler s1.compiler ws := by
  unfold emit_bootstrapping_main at h
  dsimp only at h
  split at h
  case isFalse =>
    obtain ⟨y, ey, _⟩ := optionT_bind_inv _ _ _ h
    cases ey
  rename_i hlt
  have hlt' : gp < 2147481600 := hlt
  obtain ⟨a1, e1, h⟩ := optionT_bind_inv _ _ _ h
  obtain ⟨t1, _, h⟩ := optionT_bind_inv _ _ _ h
  obtain ⟨a2, e2, h⟩ := optionT_bind_inv _ _ _ h
  obtain ⟨a3, e3, h⟩ := optionT_bind_inv _ _ _ h
  obtain ⟨a4, e4, h⟩ := optionT_bind_inv _ _ _ h
  obtain ⟨a5, e5, h⟩ := optionT_bind_inv _ _ _ h
  obtain ⟨a6, e6, h⟩ := optionT_bind_inv _ _ _ h
  obtain ⟨a7, e7, h⟩ := optionT_bind_inv _ _ _ h
  obtain ⟨a8, e8, h⟩ := optionT_bind_inv _ _ _ h
  obtain ⟨a9, e9, h⟩ := optionT_bind_inv _ _ _ h
  obtain ⟨found, _, h⟩ := optionT_bind_inv _ _ _ h
  obtain ⟨a10, e10, h⟩ := optionT_bind_inv _ _ _ h
  obtain ⟨a11, e11, h⟩ := optionT_bind_inv _ _ _ h
  obtain ⟨a12, e12, h⟩ := optionT_bind_inv _ _ _ h
  obtain ⟨t2, _, h⟩ := optionT_bind_inv _ _ _ h
  obtain ⟨a13, e13, h⟩ := optionT_bind_inv _ _ _ h
  obtain ⟨a14, e14, h⟩ := optionT_bind_inv _ _ _ h
  obtain ⟨t3, _, h⟩ := optionT_bind_inv _ _ _ h
  obtain ⟨a15, e15, h⟩ := optionT_bind_inv _ _ _ h
  obtain ⟨a16, e16, h⟩ := optionT_bind_inv _ _ _ h
  obtain ⟨entry, _, h⟩ := optionT_bind_inv _ _ _ h
  obtain ⟨r, e17, h⟩ := optionT_bind_inv _ _ _ h
  have er : r.2 = s1 := by
    have e' : some r.2 = some s1 := Except.ok.inj h
    exact Option.some.inj e'
  subst er
  obtain ⟨ws1, l1, m1⟩ := load_integer_two fuel s a1 gp hgp hlt' e1
  obtain ⟨w2, _, m2, _⟩ := emit_addi_inv _ _ _ _ _ (emit_lift_inv _ _ _ e2).1
  have m3 := tfree_inv _ _ _ (emit_lift_inv _ _ _ e3).1
  obtain ⟨w4, _, m4, _⟩ := emit_addi_inv _ _ _ _ _ (emit_lift_inv _ _ _ e4).1
  obtain ⟨w5, _, m5, _⟩ := emit_addi_inv _ _ _ _ _ (emit_lift_inv _ _ _ e5).1
  obtain ⟨w6, m6, _⟩ := emit_ecall_inv _ _ (emit_lift_inv _ _ _ e6).1
  obtain ⟨ws7, l7, m7⟩ := emit_round_up_inv _ _ _ _ (emit_lift_inv _ _ _ e7).1
  obtain ⟨w8, _, m8, _⟩ := emit_addi_inv _ _ _ _ _ (emit_lift_inv _ _ _ e8).1
  obtain ⟨w9, m9, _⟩ := emit_ecall_inv _ _ (emit_lift_inv _ _ _ e9).1
  obtain ⟨w10, _, m10, _⟩ := emit_sw_inv _ _ _ _ _ (emit_lift_inv _ _ _ e10).1
  obtain ⟨w11, _, m11, _⟩ := emit_addi_inv _ _ _ _ _ (emit_lift_inv _ _ _ e11).1
  obtain ⟨m12, _⟩ := talloc_inv _ _ (emit_lift_inv _ _ _ e12).1
  obtain ⟨w13, _, m13, _⟩ := emit_addi_inv _ _ _ _ _ (emit_lift_inv _ _ _ e13).1
  obtain ⟨w14, _, m14, _⟩ := emit_addi_inv _ _ _ _ _ (emit_lift_inv _ _ _ e14).1
  obtain ⟨w15, _, m15, _⟩ := emit_sw_inv _ _ _ _ _ (emit_lift_inv _ _ _ e15).1
  have m16 := tfree_inv _ _ _ (emit_lift_inv _ _ _ e16).1
  obtain ⟨w17, m17⟩ := help_call_codegen_inv _ _ _ _ (lift_inv _ _ e17)
  refine ⟨_, ?_, emits_append _ _ _ _ _ m1 (emits_append _ _ _ _ _ m2
    (emits_append _ _ _ _ _ m3 (emits_append _ _ _ _ _ m4 (emits_append _ _ _ _ _ m5
    (emits_append _ _ _ _ _ m6 (emits_append _ _ _ _ _ m7 (emits_append _ _ _ _ _ m8
    (emits_append _ _ _ _ _ m9 (emits_append _ _ _ _ _ m10 (emits_append _ _ _ _ _ m11
    (emits_append _ _ _ _ _ m12 (emits_append _ _ _ _ _ m13 (emits_append _ _ _ _ _ m14
    (emits_append _ _ _ _ _ m15 (emits_append _ _ _ _ _ m16 m17)))))))))))))))⟩
  simp [l1, l7]

theorem emit_bootstrapping_start_inv (s s0 : Starc) (gp : Nat)
    (hsize : s.compiler.binary_length + s.compiler.allocated_memory < 2147483648)
    (h : emit_bootstrapping_start s = .ok (gp, s0)) :
    2048 ≤ gp ∧ s0.compiler.binary_length = 0 ∧
      ∀ i, i < s.compiler.binary_length / 4 → s0.compiler.binary i = s.compiler.binary i := by
  unfold emit_bootstrapping_start at h
  dsimp only at h
  have hg : 2048 ≤ add32 (add32 (add32 ELF_ENTRY_POINT s.compiler.binary_length)
      s.compiler.allocated_memory)
      (add32 (add32 ELF_ENTRY_POINT s.compiler.binary_length) s.compiler.allocated_memory %
        REGISTERSIZE) := by
    unfold add32 ELF_ENTRY_POINT REGISTERSIZE
    omega
  split at h
  · obtain ⟨s1, e1, h⟩ := except_bind_inv _ _ _ h
    have e : (_, _) = (gp, s0) := Except.ok.inj h
    have eg := congrArg Prod.fst e
    have es := congrArg Prod.snd e
    dsimp only at eg es
    subst es
    subst eg
    refine ⟨hg, rfl, ?_⟩
    intro i hi
    show s1.compiler.binary i = s.compiler.binary i
    obtain ⟨a1, _⟩ := emit_inv _ _ _ e1
    obtain ⟨w, m1, _⟩ := emit_nop_inv _ _ a1
    exact m1.2.2.2 i (Or.inl hi)
  · obtain ⟨s1, e1, h⟩ := except_bind_inv _ _ _ h
    have e' : s = s1 := Except.ok.inj e1
    subst e'
    have e : (_, _) = (gp, s0) := Except.ok.inj h
    have eg := congrArg Prod.fst e
    have es := congrArg Prod.snd e
    dsimp only at eg es
    subst es
    subst eg
    exact ⟨hg, rfl, fun i _ => rfl⟩

theorem emit_bootstrapping_entry_inv (fuel : Nat) (s s1 : Starc) (gp : Nat) (hgp : 2048 ≤ gp)
    (h : emit_bootstrapping_entry fuel s gp = pure s1) :
    ∃ ws w_addi w_sw,
      ws.length = (if report_undefined_procedures fuel s = some 0 then 18 else 1) ∧
      encode_i_format (neg32 REGISTERSIZE) REG_SP F3_ADDI REG_SP OP_IMM = .ok w_addi ∧
      encode_s_format 0 REG_A0 REG_SP F3_SW OP_SW = .ok w_sw ∧
      emits s.compiler s1.compiler (ws ++ [w_addi, w_sw]) := by
  unfold emit_bootstrapping_entry at h
  obtain ⟨u, hu, h⟩ := optionT_bind_inv _ _ _ h
  have hu' : report_undefined_procedures fuel s = some u := Except.ok.inj hu
  dsimp only at h
  have hmain : ∃ s2, (∃ ws,
      ws.length = (if report_undefined_procedures fuel s = some 0 then 18 else 1) ∧
        emits s.compiler s2.compiler ws) ∧
      (do
        let s ← (liftM (emit s2 (fun c => emit_addi c REG_SP REG_SP (neg32 REGISTERSIZE))) :
          OptionT (Except Nat) Starc)
        liftM (emit s (fun c => emit_sw c REG_SP 0 REG_A0))) = pure s1 := by
    split at h
    · rename_i hne
      obtain ⟨s2, e2, h⟩ := optionT_bind_inv _ _ _ h
      obtain ⟨w, _, m2, _⟩ := emit_addi_inv _ _ _ _ _ (emit_inv _ _ _ (lift_inv _ _ e2)).1
      refine ⟨s2, ⟨[w], ?_, m2⟩, h⟩
      rw [hu', if_neg (fun e => hne (Option.some.inj e))]
      rfl
    · rename_i heq
      have u0 : u = 0 := not_not.1 heq
      obtain ⟨s2, e2, h⟩ := optionT_bind_inv _ _ _ h
      obtain ⟨ws, l, m2⟩ := emit_bootstrapping_main_inv fuel s s2 gp hgp e2
      refine ⟨s2, ⟨ws, ?_, m2⟩, h⟩
      rw [hu', u0, if_pos rfl, l]
  obtain ⟨s2, ⟨ws, l, m2⟩, h⟩ := hmain
  obtain ⟨s3, e3, h⟩ := optionT_bind_inv _ _ _ h
  obtain ⟨w3, hw3, m3, _⟩ := emit_addi_inv _ _ _ _ _ (emit_lift_inv _ _ _ e3).1
  obtain ⟨w4, hw4, m4, _⟩ := emit_sw_inv _ _ _ _ _ (emit_lift_inv _ _ _ h).1
  exact ⟨ws, w3, w4, l, hw3, hw4,
    emits_append _ _ _ _ _ m2 (emits_append _ _ _ [w3] [w4] m3 m4)⟩

/-- C30: the program entry stub has exactly 20 instructions.  Whenever
`emit_bootstrapping` returns (code and data below 2 GiB, so that the sum that gives
the global pointer does not wrap), it has emitted the program entry from binary
length 0 on: exactly 20 instructions when `report_undefined_procedures` finds no
undefined procedure, and 3 when there is one; the entry ends with the push of the
return register, so that it falls through; and every code slot from that number on
holds what it held before, so that of the 20 slots reserved by `emit_program_entry`
only these are rewritten and the wrapper of `exit` at instruction index 20 is not
overwritten. -/
theorem program_entry_has_twenty_instructions (fuel : Nat) (s s' : Starc)
    (hsize : s.compiler.binary_length + s.compiler.allocated_memory < 2147483648)
    (h : emit_bootstrapping fuel s = pure s') : program_entry_rewritten fuel s s' := by
  unfold emit_bootstrapping at h
  obtain ⟨r, e0, h⟩ := optionT_bind_inv _ _ _ h
  have e0' : emit_bootstrapping_start s = .ok (r.1, r.2) := lift_inv _ _ e0
  obtain ⟨hgp, hb0, hfr⟩ := emit_bootstrapping_start_inv s r.2 r.1 hsize e0'
  obtain ⟨s1, e1, h⟩ := optionT_bind_inv _ _ _ h
  obtain ⟨ws, w_addi, w_sw, l, hw1, hw2, hem⟩ := emit_bootstrapping_entry_inv fuel r.2 s1 r.1 hgp e1
  have es : s'.compiler.binary = s1.compiler.binary := by
    have e' : some _ = some s' := Except.ok.inj h
    rw [← Option.some.inj e']
  obtain ⟨hl, _, hw, ho⟩ := hem
  rw [hb0] at hl hw ho
  have hk : (ws ++ [w_addi, w_sw]).length =
      (if report_undefined_procedures fuel r.2 = some 0 then 20 else 3) := by
    rw [List.length_append, l]
    split <;> rfl
  refine ⟨r.1, r.2, s1, w_addi, w_sw, _, e0', hb0, e1, rfl, ?_, es, hw1, hw2, ?_, ?_, ?_⟩
  · rw [hl, hk]
    omega
  · have h2 := hw (ws.length) (by rw [List.length_append]; simp)
    rw [List.getD_append_right _ _ _ _ (Nat.le_refl _)] at h2
    rw [es, ← hk, List.length_append]
    simpa using h2
  · have h2 := hw (ws.length + 1) (by rw [List.length_append]; simp)
    rw [List.getD_append_right _ _ _ _ (Nat.le_add_right _ _)] at h2
    rw [es, ← hk, List.length_append]
    simpa using h2
  · intro i hi hlt
    rw [es, ho i (Or.inr (by rw [hk]; simpa using hi)), hfr i hlt]

set_option maxRecDepth 1000000 in
/-- Witness for C30: after the compilation of `countdown.c` the hypotheses hold and
`emit_bootstrapping` returns; no procedure is undefined, the 20th instruction of the
binary is the `sw a0,0(sp)` that ends the entry, and the 21st is still the first
instruction of the wrapper of `exit`, `lw a0,0(sp)`. -/
theorem program_entry_has_twenty_instructions_witness :
    (countdown_starc.compiler.binary_length + countdown_starc.compiler.allocated_memory <
        2147483648 ∧
      emit_bootstrapping 1000 countdown_starc =
        pure (starc_of (emit_bootstrapping 1000 countdown_starc))) ∧
    program_entry_rewritten 1000 countdown_starc
      (starc_of (emit_bootstrapping 1000 countdown_starc)) ∧
    (starc_of (emit_bootstrapping 1000 countdown_starc)).compiler.binary 19 = 10559523 ∧
    (starc_of (emit_bootstrapping 1000 countdown_starc)).compiler.binary 20 = 75011 ∧
    countdown_starc.compiler.binary 20 = 75011 := by
  have hs : countdown_starc.compiler.binary_length + countdown_starc.compiler.allocated_memory <
      2147483648 := by
    rw [show countdown_starc.compiler.binary_length +
      countdown_starc.compiler.allocated_memory = 408 from rfl]
    decide
  have hr : emit_bootstrapping 1000 countdown_starc =
      pure (starc_of (emit_bootstrapping 1000 countdown_starc)) := rfl
  exact ⟨⟨hs, hr⟩, program_entry_has_twenty_instructions 1000 countdown_starc _ hs hr,
    rfl, rfl, rfl⟩

/-! ## The limits of the binary -/

theorem store_instruction_limit (c : Compiler) (baddr w : Nat) (h : MAX_CODE_LENGTH ≤ baddr) :
    store_instruction c baddr w = .error EXITCODE_COMPILERERROR := by
  unfold store_instruction
  rw [if_pos h]

theorem store_data_limit (c : Compiler) (baddr d : Nat) :
    (∃ c', store_data c baddr d = .ok c') ↔ baddr < MAX_CODE_LENGTH + MAX_DATA_LENGTH := by
  have e : add32 MAX_CODE_LENGTH MAX_DATA_LENGTH = MAX_CODE_LENGTH + MAX_DATA_LENGTH := by decide
  unfold store_data
  rw [e]
  by_cases h : baddr ≥ MAX_CODE_LENGTH + MAX_DATA_LENGTH
  · rw [if_pos h]
    constructor
    · rintro ⟨c', hc⟩
      cases hc
    · intro h'
      omega
  · rw [if_neg h]
    exact ⟨fun _ => Nat.lt_of_not_le h, fun _ => ⟨_, rfl⟩⟩

theorem emit_data_word_ok (s : Starc) (data offset line : Nat)
    (h : add32 s.compiler.binary_length offset < MAX_CODE_LENGTH + MAX_DATA_LENGTH) :
    ∃ s', emit_data_word s data offset line = .ok s' ∧
      s'.compiler.binary_length = s.compiler.binary_length ∧
      s'.compiler.allocated_memory = s.compiler.allocated_memory ∧
      s'.tables = s.tables ∧ s'.code_length = s.code_length := by
  obtain ⟨c', hc⟩ := (store_data_limit s.compiler (add32 s.compiler.binary_length offset) data).2 h
  have hb : c'.binary_length = s.compiler.binary_length ∧
      c'.allocated_memory = s.compiler.allocated_memory := by
    unfold store_data at hc
    split at hc
    · cases hc
    · have e := Except.ok.inj hc
      rw [← e]
      exact ⟨rfl, rfl⟩
  have he := emit_ok s (fun c => store_data c (add32 c.binary_length offset) data) c' hc
  unfold emit_data_word
  rw [he]
  exact ⟨_, rfl, hb.1, hb.2, rfl, rfl⟩

theorem emit_data_entries_ok (fuel : Nat) (l : List SymbolTableEntry) :
    ∀ s : Starc,
      (∀ e, e ∈ l → e.entry_class ≠ STRING ∧
        ((e.entry_class = VARIABLE ∨ e.entry_class = BIGINT) →
          add32 s.compiler.binary_length e.address < MAX_CODE_LENGTH + MAX_DATA_LENGTH)) →
      ∃ s', emit_data_entries fuel l s = pure s' ∧
        s'.compiler.binary_length = s.compiler.binary_length ∧
        s'.compiler.allocated_memory = s.compiler.allocated_memory ∧
        s'.tables = s.tables ∧ s'.code_length = s.code_length := by
  induction l with
  | nil =>
    intro s _
    exact ⟨s, rfl, rfl, rfl, rfl, rfl⟩
  | cons e next ih =>
    intro s h
    obtain ⟨hs, hv⟩ := h e (List.mem_cons_self _ _)
    have hnext : ∀ s1 : Starc, s1.compiler.binary_length = s.compiler.binary_length →
        s1.compiler.allocated_memory = s.compiler.allocated_memory → s1.tables = s.tables →
        s1.code_length = s.code_length →
        ∃ s', emit_data_entries fuel next s1 = pure s' ∧
          s'.compiler.binary_length = s.compiler.binary_length ∧
          s'.compiler.allocated_memory = s.compiler.allocated_memory ∧
          s'.tables = s.tables ∧ s'.code_length = s.code_length := by
      intro s1 b1 a1 t1 c1
      obtain ⟨s2, h2, b2, a2, t2, c2⟩ := ih s1 (fun x hx => by
        rw [b1]
        exact h x (List.mem_cons_of_mem _ hx))
      exact ⟨s2, h2, b2.trans b1, a2.trans a1, t2.trans t1, c2.trans c1⟩
    rw [emit_data_entries]
    by_cases c1 : e.entry_class = VARIABLE
    · obtain ⟨s1, h1, b1, a1, t1, d1⟩ := emit_data_word_ok s e.value e.address e.line_number
        (hv (Or.inl c1))
      rw [if_pos c1, h1]
      exact hnext s1 b1 a1 t1 d1
    · by_cases c2 : e.entry_class = BIGINT
      · obtain ⟨s1, h1, b1, a1, t1, d1⟩ := emit_data_word_ok s e.value e.address e.line_number
          (hv (Or.inr c2))
        rw [if_neg c1, if_pos c2, h1]
        exact hnext s1 b1 a1 t1 d1
      · rw [if_neg c1, if_neg c2, if_neg hs]
        exact hnext s rfl rfl rfl rfl

theorem emit_data_buckets_ok (fuel : Nat) (n : Nat) :
    ∀ (i : Nat) (s : Starc),
      (∀ b, i ≤ b → b < i + n → ∀ e, e ∈ s.tables.global_symbol_table b →
        e.entry_class ≠ STRING ∧
        ((e.entry_class = VARIABLE ∨ e.entry_class = BIGINT) →
          add32 s.compiler.binary_length e.address < MAX_CODE_LENGTH + MAX_DATA_LENGTH)) →
      ∃ s', emit_data_buckets fuel n i s = pure s' ∧
        s'.compiler.binary_length = s.compiler.binary_length ∧
        s'.compiler.allocated_memory = s.compiler.allocated_memory ∧
        s'.tables = s.tables ∧ s'.code_length = s.code_length := by
  induction n with
  | zero =>
    intro i s _
    exact ⟨s, rfl, rfl, rfl, rfl, rfl⟩
  | succ n ih =>
    intro i s h
    obtain ⟨s1, h1, b1, a1, t1, c1⟩ :=
      emit_data_entries_ok fuel (s.tables.global_symbol_table i) s
        (fun e he => h i (Nat.le_refl _) (by omega) e he)
    obtain ⟨s2, h2, b2, a2, t2, c2⟩ := ih (i + 1) s1 (fun b hb1 hb2 e he => by
      rw [b1]
      rw [t1] at he
      exact h b (by omega) (by omega) e he)
    refine ⟨s2, ?_, b2.trans b1, a2.trans a1, t2.trans t1, c2.trans c1⟩
    rw [emit_data_buckets]
    show (_ >>= fun s => emit_data_buckets fuel n (i + 1) s) = _
    rw [h1]
    exact h2

theorem emit_data_segment_ok (fuel : Nat) (s : Starc)
    (hfit : s.compiler.binary_length + s.compiler.allocated_memory ≤
      MAX_CODE_LENGTH + MAX_DATA_LENGTH)
    (hentries : ∀ b, b < HASH_TABLE_SIZE → ∀ e, e ∈ s.tables.global_symbol_table b →
      data_entry_in_range s.compiler.allocated_memory e) :
    ∃ s', emit_data_segment fuel s = pure s' ∧
      s'.compiler.binary_length = s.compiler.binary_length + s.compiler.allocated_memory ∧
      s'.code_length = s.code_length := by
  have hfit' : s.compiler.binary_length + s.compiler.allocated_memory ≤ 262144 := hfit
  have hl : add32 s.compiler.binary_length s.compiler.allocated_memory =
      s.compiler.binary_length + s.compiler.allocated_memory := by
    unfold add32
    omega
  obtain ⟨s1, h1, b1, _, _, c1⟩ := emit_data_buckets_ok fuel HASH_TABLE_SIZE 0
    { s with compiler := { s.compiler with
        binary_length := add32 s.compiler.binary_length s.compiler.allocated_memory } }
    (fun b _ hb e he => by
      obtain ⟨hs, hv⟩ := hentries b (by omega) e he
      refine ⟨hs, fun hc => ?_⟩
      obtain ⟨k0, kl, ek⟩ := hv hc
      show add32 (add32 s.compiler.binary_length s.compiler.allocated_memory) e.address <
        MAX_CODE_LENGTH + MAX_DATA_LENGTH
      rw [hl]
      show _ < 262144
      unfold neg32 at k0 kl
      unfold add32
      omega)
  refine ⟨{ s1 with compiler := { s1.compiler with allocated_memory := 0 } }, ?_, ?_, c1⟩
  · unfold emit_data_segment
    show (_ >>= fun s => _) = _
    rw [h1]
    rfl
  · show s1.compiler.binary_length = _
    rw [b1]
    exact hl

theorem data_entry_in_range_mono (a b : Nat) (e : SymbolTableEntry) (h : a ≤ b)
    (he : data_entry_in_range a e) : data_entry_in_range b e :=
  ⟨he.1, fun hc => ⟨(he.2 hc).1, Nat.le_trans (he.2 hc).2.1 h, (he.2 hc).2.2⟩⟩

theorem declare_globals_spec (n : Nat) (s : Starc)
    (hn : s.compiler.allocated_memory + 4 * n < 4294967296)
    (h0 : ∀ b, b < HASH_TABLE_SIZE → ∀ e, e ∈ s.tables.global_symbol_table b →
      data_entry_in_range s.compiler.allocated_memory e) :
    (declare_globals n s).compiler.allocated_memory = s.compiler.allocated_memory + 4 * n ∧
    (declare_globals n s).compiler.binary_length = s.compiler.binary_length ∧
    ∀ b, b < HASH_TABLE_SIZE → ∀ e, e ∈ (declare_globals n s).tables.global_symbol_table b →
      data_entry_in_range (declare_globals n s).compiler.allocated_memory e := by
  induction n with
  | zero => exact ⟨rfl, rfl, h0⟩
  | succ n ih =>
    obtain ⟨ha, hb, hi⟩ := ih (by omega)
    have hm : add32 (declare_globals n s).compiler.allocated_memory REGISTERSIZE =
        s.compiler.allocated_memory + 4 * (n + 1) := by
      rw [ha]
      unfold add32 REGISTERSIZE
      omega
    refine ⟨hm, hb, ?_⟩
    intro b hb' e he
    show data_entry_in_range (add32 (declare_globals n s).compiler.allocated_memory REGISTERSIZE) e
    obtain ⟨t', et, _, _, eg⟩ := create_symbol_table_entry_global (declare_globals n s).tables
      (string_words (103 :: decimal_characters 10 (n + 1))) 1 VARIABLE UINT32_T 0
      (neg32 (add32 (declare_globals n s).compiler.allocated_memory REGISTERSIZE))
    have he' : e ∈ t'.global_symbol_table b := by
      rw [← et]
      exact he
    rw [eg] at he'
    dsimp only at he'
    have hold : e ∈ (declare_globals n s).tables.global_symbol_table b →
        data_entry_in_range (add32 (declare_globals n s).compiler.allocated_memory REGISTERSIZE)
          e := fun hx =>
      data_entry_in_range_mono _ _ e (by rw [hm, ha]; omega) (hi b hb' e hx)
    split at he'
    · rcases List.mem_cons.1 he' with hnew | hx
      · rw [hnew, hm]
        refine ⟨(show VARIABLE ≠ STRING by decide), fun _ => ?_⟩
        show 0 < neg32 (neg32 _) ∧ neg32 (neg32 _) ≤ _ ∧ neg32 _ < 4294967296
        unfold neg32
        omega
      · exact hold hx
    · exact hold he'

set_option maxRecDepth 1000000 in
theorem library_entries_in_range :
    ∀ b, b < HASH_TABLE_SIZE →
      ∀ e, e ∈ (starc_of (emit_bootstrapping 100 library_starc)).tables.global_symbol_table b →
        data_entry_in_range 4 e := by
  intro b _ e he
  have e1 : (starc_of (emit_bootstrapping 100 library_starc)).tables.global_symbol_table b =
      if b = hash (string_words main_name) then
        { pointer := 9, string := string_words main_name, line_number := 0,
          entry_class := PROCEDURE, entry_type := UINT32_T, value := 0, address := 0,
          scope := REG_GP } ::
          (if b = hash (string_words bump_name) then
            [{ pointer := 7, string := string_words bump_name, line_number := 1,
               entry_class := VARIABLE, entry_type := UINT32_T, value := 0,
               address := neg32 4, scope := REG_GP }]
          else [])
      else if b = hash (string_words bump_name) then
        [{ pointer := 7, string := string_words bump_name, line_number := 1,
           entry_class := VARIABLE, entry_type := UINT32_T, value := 0,
           address := neg32 4, scope := REG_GP }]
      else [] := rfl
  rw [e1] at he
  have hm : data_entry_in_range 4
      { pointer := 9, string := string_words main_name, line_number := 0,
        entry_class := PROCEDURE, entry_type := UINT32_T, value := 0, address := 0,
        scope := REG_GP } := ⟨by decide, fun h => absurd h (by decide)⟩
  have hb : data_entry_in_range 4
      { pointer := 7, string := string_words bump_name, line_number := 1,
        entry_class := VARIABLE, entry_type := UINT32_T, value := 0,
        address := neg32 4, scope := REG_GP } :=
    ⟨by decide, fun _ => ⟨by decide, by decide, by decide⟩⟩
  split at he
  · rcases List.mem_cons.1 he with h1 | h2
    · rw [h1]
      exact hm
    · split at h2
      · rw [List.mem_singleton.1 h2]
        exact hb
      · cases h2
  · split at he
    · rw [List.mem_singleton.1 he]
      exact hb
    · cases he

set_option maxRecDepth 1000000 in
theorem many_globals_facts :
    many_globals_starc.compiler.allocated_memory = 16388 ∧
    many_globals_starc.compiler.binary_length = 308 ∧
    ∀ b, b < HASH_TABLE_SIZE → ∀ e, e ∈ many_globals_starc.tables.global_symbol_table b →
      data_entry_in_range many_globals_starc.compiler.allocated_memory e := by
  have ha : (starc_of (emit_bootstrapping 100 library_starc)).compiler.allocated_memory = 4 := rfl
  have hb : (starc_of (emit_bootstrapping 100 library_starc)).compiler.binary_length = 308 := rfl
  obtain ⟨h1, h2, h3⟩ := declare_globals_spec 4096 (starc_of (emit_bootstrapping 100 library_starc))
    (by rw [ha]; decide) (by rw [ha]; exact library_entries_in_range)
  rw [ha] at h1
  rw [hb] at h2
  exact ⟨h1, h2, h3⟩

/-- C22: what the code does about the limits of the binary.  An instruction at a code
offset of `MAX_CODE_LENGTH` (240 KiB) or more is a compile error.  A data word is
rejected exactly when its offset in the binary is `MAX_CODE_LENGTH + MAX_DATA_LENGTH`
(256 KiB) or more: the size of the data is not tested.  So in every state in which
code and allocated data together fit into 256 KiB and the global symbol table holds
variables and big integers at offsets within the allocated data (and no strings),
`emit_data_segment` returns with a data segment of `allocated_memory` bytes, also
when that is more than `MAX_DATA_LENGTH`. -/
theorem data_segment_accepted_beyond_data_limit (fuel : Nat) (s : Starc)
    (hfit : s.compiler.binary_length + s.compiler.allocated_memory ≤
      MAX_CODE_LENGTH + MAX_DATA_LENGTH)
    (hentries : ∀ b, b < HASH_TABLE_SIZE → ∀ e, e ∈ s.tables.global_symbol_table b →
      data_entry_in_range s.compiler.allocated_memory e) :
    (∀ c baddr w, MAX_CODE_LENGTH ≤ baddr →
      store_instruction c baddr w = .error EXITCODE_COMPILERERROR) ∧
    (∀ c baddr d, (∃ c', store_data c baddr d = .ok c') ↔
      baddr < MAX_CODE_LENGTH + MAX_DATA_LENGTH) ∧
    ∃ s', emit_data_segment fuel s = pure s' ∧
      s'.compiler.binary_length = s.compiler.binary_length + s.compiler.allocated_memory ∧
      s'.code_length = s.code_length :=
  ⟨store_instruction_limit, store_data_limit, emit_data_segment_ok fuel s hfit hentries⟩

/-- Witness for C22: for a program of 4096 declarations of global variables the
hypotheses hold with 308 bytes of code and 16388 bytes of allocated data, which is
more than `MAX_DATA_LENGTH`, and `emit_data_segment` returns with a binary of 16696
bytes. -/
theorem data_segment_accepted_beyond_data_limit_witness :
    (many_globals_starc.compiler.binary_length + many_globals_starc.compiler.allocated_memory ≤
        MAX_CODE_LENGTH + MAX_DATA_LENGTH ∧
      ∀ b, b < HASH_TABLE_SIZE → ∀ e, e ∈ many_globals_starc.tables.global_symbol_table b →
        data_entry_in_range many_globals_starc.compiler.allocated_memory e) ∧
    MAX_DATA_LENGTH < many_globals_starc.compiler.allocated_memory ∧
    ∃ s', emit_data_segment 0 many_globals_starc = pure s' ∧
      s'.compiler.binary_length = 16696 := by
  obtain ⟨ha, hb, he⟩ := many_globals_facts
  have hfit : many_globals_starc.compiler.binary_length +
      many_globals_starc.compiler.allocated_memory ≤ MAX_CODE_LENGTH + MAX_DATA_LENGTH := by
    rw [ha, hb]
    decide
  obtain ⟨s', h1, h2, _⟩ :=
    (data_segment_accepted_beyond_data_limit 0 many_globals_starc hfit he).2.2
  refine ⟨⟨hfit, he⟩, by rw [ha]; decide, s', h1, ?_⟩
  rw [h2, ha, hb]

/-! ## Address checks of symbolic loads and stores -/

theorem is_safe_address_concrete (m : Machine) (vaddr reg : Nat)
    (htyp : m.engine.reg_typ reg = 0) (hcon : m.engine.reg_los reg = m.engine.reg_ups reg) :
    is_safe_address m vaddr reg = .ok 1 := by
  unfold is_safe_address
  rw [if_neg (by rw [htyp]; decide), if_pos hcon]

theorem store_symbolic_memory_at_pc (m m' : Machine) (vaddr value type lo up trb mrvc : Nat)
    (h : store_symbolic_memory_at m vaddr value type lo up trb mrvc = .ok m') :
    m'.pc = m.pc ∧ (m'.exception = m.exception ∨ m'.exception = EXCEPTION_MAXTRACE) := by
  unfold store_symbolic_memory_at at h
  split at h
  · rw [← Except.ok.inj h]
    exact ⟨rfl, Or.inl rfl⟩
  · split at h
    · dsimp only at h
      split at h
      · split at h
        · rw [← Except.ok.inj h]
          exact ⟨rfl, Or.inl rfl⟩
        · rw [← Except.ok.inj h]
          exact ⟨rfl, Or.inl rfl⟩
      · rw [← Except.ok.inj h]
        exact ⟨rfl, Or.inl rfl⟩
    · unfold throw_exception at h
      split at h
      · split at h
        · cases h
        · rw [← Except.ok.inj h]
          exact ⟨rfl, Or.inr rfl⟩
      · rw [← Except.ok.inj h]
        exact ⟨rfl, Or.inr rfl⟩

theorem store_symbolic_memory_pc (m m' : Machine) (vaddr value type lo up trb : Nat)
    (h : store_symbolic_memory m vaddr value type lo up trb = .ok m') :
    m'.pc = m.pc ∧ (m'.exception = m.exception ∨ m'.exception = EXCEPTION_MAXTRACE) := by
  unfold store_symbolic_memory at h
  split at h
  · exact store_symbolic_memory_at_pc _ _ _ _ _ _ _ _ _ h
  · split at h
    · exact store_symbolic_memory_at_pc _ _ _ _ _ _ _ _ _ h
    · obtain ⟨mrvc, _, h⟩ := except_bind_inv _ _ _ h
      split at h
      · rw [← Except.ok.inj h]
        exact ⟨rfl, Or.inl rfl⟩
      · exact store_symbolic_memory_at_pc _ _ _ _ _ _ _ _ _ h

theorem store_symbolic_memory_at_error (m : Machine) (vaddr value type lo up trb mrvc e : Nat)
    (h : store_symbolic_memory_at m vaddr value type lo up trb mrvc = .error e) :
    e = EXITCODE_MULTIPLEEXCEPTIONERROR := by
  unfold store_symbolic_memory_at at h
  split at h
  · cases h
  · split at h
    · dsimp only at h
      split at h
      · split at h
        · cases h
        · cases h
      · cases h
    · unfold throw_exception at h
      split at h
      · split at h
        · exact (Except.error.inj h).symm
        · cases h
      · cases h

theorem store_symbolic_memory_error (m : Machine) (vaddr value type lo up trb e : Nat)
    (h : store_symbolic_memory m vaddr value type lo up trb = .error e) :
    e = EXITCODE_SYMBOLICEXECUTIONERROR ∨ e = EXITCODE_MULTIPLEEXCEPTIONERROR := by
  unfold store_symbolic_memory at h
  split at h
  · exact Or.inr (store_symbolic_memory_at_error _ _ _ _ _ _ _ _ _ h)
  · split at h
    · exact Or.inr (store_symbolic_memory_at_error _ _ _ _ _ _ _ _ _ h)
    · cases hl : load_symbolic_memory m vaddr with
      | error e' =>
        rw [hl] at h
        have he : e' = EXITCODE_SYMBOLICEXECUTIONERROR := by
          unfold load_symbolic_memory at hl
          dsimp only at hl
          split at hl
          · cases hl
          · exact (Except.error.inj hl).symm
        left
        rw [← he]
        exact (Except.error.inj h).symm
      | ok mrvc =>
        rw [hl] at h
        simp only [ok_bind] at h
        split at h
        · cases h
        · exact Or.inr (store_symbolic_memory_at_error _ _ _ _ _ _ _ _ _ h)

theorem constrain_lw_concrete_base (m : Machine)
    (htyp : m.engine.reg_typ m.rs1 = 0)
    (hcon : m.engine.reg_los m.rs1 = m.engine.reg_ups m.rs1) :
    (is_virtual_address_mapped m.pt (add32 (m.registers m.rs1) m.imm) = 0 →
      ∀ r, throw_exception EXCEPTION_PAGEFAULT
          (get_page_of_virtual_address (add32 (m.registers m.rs1) m.imm)) m = r →
        constrain_lw m = r.map (fun m' => (add32 (m.registers m.rs1) m.imm, m'))) ∧
    (is_virtual_address_mapped m.pt (add32 (m.registers m.rs1) m.imm) ≠ 0 →
      constrain_lw m = .error EXITCODE_SYMBOLICEXECUTIONERROR ∨
      ∃ m', constrain_lw m = .ok (add32 (m.registers m.rs1) m.imm, m') ∧
        m'.pc = add32 m.pc 4 ∧ m'.exception = m.exception ∧ m'.trap = m.trap) := by
  have hs := is_safe_address_concrete m (add32 (m.registers m.rs1) m.imm) m.rs1 htyp hcon
  constructor
  · intro hm r hr
    unfold constrain_lw
    simp only [hs, ok_bind]
    rw [if_pos (by decide), if_neg (by rw [hm]; decide), hr]
    cases r <;> rfl
  · intro hm
    unfold constrain_lw
    simp only [hs, ok_bind]
    rw [if_pos (by decide), if_pos hm]
    by_cases hrd : m.rd ≠ REG_ZR
    · rw [if_pos hrd]
      cases hl : load_symbolic_memory m (add32 (m.registers m.rs1) m.imm) with
      | error e =>
        left
        have he : e = EXITCODE_SYMBOLICEXECUTIONERROR := by
          unfold load_symbolic_memory at hl
          dsimp only at hl
          split at hl
          · cases hl
          · exact (Except.error.inj hl).symm
        rw [he]
        rfl
      | ok mrvc =>
        right
        simp only [ok_bind]
        split
        · exact ⟨_, rfl, rfl, rfl, rfl⟩
        · exact ⟨_, rfl, rfl, rfl, rfl⟩
    · rw [if_neg hrd]
      right
      exact ⟨_, rfl, rfl, rfl, rfl⟩

theorem constrain_sw_concrete_base (m : Machine)
    (htyp : m.engine.reg_typ m.rs1 = 0)
    (hcon : m.engine.reg_los m.rs1 = m.engine.reg_ups m.rs1) :
    (is_virtual_address_mapped m.pt (add32 (m.registers m.rs1) m.imm) = 0 →
      ∀ r, throw_exception EXCEPTION_PAGEFAULT
          (get_page_of_virtual_address (add32 (m.registers m.rs1) m.imm)) m = r →
        constrain_sw m = r.map (fun m' => (add32 (m.registers m.rs1) m.imm, m'))) ∧
    (is_virtual_address_mapped m.pt (add32 (m.registers m.rs1) m.imm) ≠ 0 →
      (∃ e, constrain_sw m = .error e ∧
        (e = EXITCODE_SYMBOLICEXECUTIONERROR ∨ e = EXITCODE_MULTIPLEEXCEPTIONERROR)) ∨
      ∃ m', constrain_sw m = .ok (add32 (m.registers m.rs1) m.imm, m') ∧
        m'.pc = add32 m.pc 4 ∧
        (m'.exception = m.exception ∨ m'.exception = EXCEPTION_MAXTRACE)) := by
  have hs := is_safe_address_concrete m (add32 (m.registers m.rs1) m.imm) m.rs1 htyp hcon
  constructor
  · intro hm r hr
    unfold constrain_sw
    simp only [hs, ok_bind]
    rw [if_pos (by decide), if_neg (by rw [hm]; decide), hr]
    cases r <;> rfl
  · intro hm
    unfold constrain_sw
    simp only [hs, ok_bind]
    rw [if_pos (by decide), if_pos hm]
    cases hst : store_symbolic_memory m (add32 (m.registers m.rs1) m.imm) (m.registers m.rs2)
        (m.engine.reg_typ m.rs2) (m.engine.reg_los m.rs2) (m.engine.reg_ups m.rs2)
        m.engine.mrcc with
    | error e =>
      left
      exact ⟨e, rfl, store_symbolic_memory_error _ _ _ _ _ _ _ _ hst⟩
    | ok m1 =>
      right
      obtain ⟨hp, he⟩ := store_symbolic_memory_pc _ _ _ _ _ _ _ _ hst
      refine ⟨_, rfl, ?_, he⟩
      show add32 m1.pc INSTRUCTIONSIZE = _
      rw [hp]
      rfl

theorem do_lw_invalid (m : Machine)
    (hinv : is_valid_virtual_address (add32 (m.registers m.rs1) m.imm) = 0) :
    do_lw m = (throw_exception EXCEPTION_INVALIDADDRESS (add32 (m.registers m.rs1) m.imm) m).map
      (fun m' => (add32 (m.registers m.rs1) m.imm, m')) := by
  unfold do_lw
  dsimp only
  rw [if_neg (by rw [hinv]; decide)]
  cases throw_exception EXCEPTION_INVALIDADDRESS (add32 (m.registers m.rs1) m.imm) m <;> rfl

theorem do_sw_invalid (m : Machine)
    (hinv : is_valid_virtual_address (add32 (m.registers m.rs1) m.imm) = 0) :
    do_sw m = (throw_exception EXCEPTION_INVALIDADDRESS (add32 (m.registers m.rs1) m.imm) m).map
      (fun m' => (add32 (m.registers m.rs1) m.imm, m')) := by
  unfold do_sw
  dsimp only
  rw [if_neg (by rw [hinv]; decide)]
  cases throw_exception EXCEPTION_INVALIDADDRESS (add32 (m.registers m.rs1) m.imm) m <;> rfl

/-- C27: what symbolic loads and stores do with an invalid address.  Let the base
register hold a concrete value (type 0, equal bounds) and let `vaddr = rs1 + imm` be
misaligned or at least 2 GiB.  Then `do_lw` and `do_sw` raise INVALIDADDRESS, but
`is_safe_address` returns 1, and `constrain_lw` and `constrain_sw` go on to consult
the page table: when the page of `vaddr` is not mapped they raise PAGEFAULT, and
when it is mapped they access the memory and advance `pc` by 4 (or exit on a most
recent value counter beyond the trace counter); the store raises at most MAXTRACE.
In no case do they raise INVALIDADDRESS. -/
theorem symbolic_access_skips_address_check (m : Machine)
    (htyp : m.engine.reg_typ m.rs1 = 0)
    (hcon : m.engine.reg_los m.rs1 = m.engine.reg_ups m.rs1)
    (hinv : is_valid_virtual_address (add32 (m.registers m.rs1) m.imm) = 0) :
    (do_lw m = (throw_exception EXCEPTION_INVALIDADDRESS
        (add32 (m.registers m.rs1) m.imm) m).map
      (fun m' => (add32 (m.registers m.rs1) m.imm, m')) ∧
     do_sw m = (throw_exception EXCEPTION_INVALIDADDRESS
        (add32 (m.registers m.rs1) m.imm) m).map
      (fun m' => (add32 (m.registers m.rs1) m.imm, m'))) ∧
    is_safe_address m (add32 (m.registers m.rs1) m.imm) m.rs1 = .ok 1 ∧
    (is_virtual_address_mapped m.pt (add32 (m.registers m.rs1) m.imm) = 0 →
      ∀ r, throw_exception EXCEPTION_PAGEFAULT
          (get_page_of_virtual_address (add32 (m.registers m.rs1) m.imm)) m = r →
        constrain_lw m = r.map (fun m' => (add32 (m.registers m.rs1) m.imm, m')) ∧
        constrain_sw m = r.map (fun m' => (add32 (m.registers m.rs1) m.imm, m'))) ∧
    (is_virtual_address_mapped m.pt (add32 (m.registers m.rs1) m.imm) ≠ 0 →
      (constrain_lw m = .error EXITCODE_SYMBOLICEXECUTIONERROR ∨
        ∃ m', constrain_lw m = .ok (add32 (m.registers m.rs1) m.imm, m') ∧
          m'.pc = add32 m.pc 4 ∧ m'.exception = m.exception ∧ m'.trap = m.trap) ∧
      ((∃ e, constrain_sw m = .error e ∧
          (e = EXITCODE_SYMBOLICEXECUTIONERROR ∨ e = EXITCODE_MULTIPLEEXCEPTIONERROR)) ∨
        ∃ m', constrain_sw m = .ok (add32 (m.registers m.rs1) m.imm, m') ∧
          m'.pc = add32 m.pc 4 ∧
          (m'.exception = m.exception ∨ m'.exception = EXCEPTION_MAXTRACE))) :=
  ⟨⟨do_lw_invalid m hinv, do_sw_invalid m hinv⟩,
    is_safe_address_concrete m _ m.rs1 htyp hcon,
    fun hm r hr => ⟨(constrain_lw_concrete_base m htyp hcon).1 hm r hr,
      (constrain_sw_concrete_base m htyp hcon).1 hm r hr⟩,
    fun hm => ⟨(constrain_lw_concrete_base m htyp hcon).2 hm,
      (constrain_sw_concrete_base m htyp hcon).2 hm⟩⟩

/-- Witness for C27: with the concrete base `65536` and the immediate 2 the address
`65538` is misaligned and its page is mapped: `constrain_lw` and `constrain_sw` return
with `pc` advanced from `65536` to `65540` and without an exception, where `do_lw`
raises INVALIDADDRESS and leaves `pc`.  With the base `2^31 - 4` and the immediate 4
the page 524288 of the address `2^31` is looked up in the page table and PAGEFAULT
is raised for it. -/
theorem symbolic_access_skips_address_check_witness :
    (misaligned_access_machine.engine.reg_typ misaligned_access_machine.rs1 = 0 ∧
      misaligned_access_machine.engine.reg_los misaligned_access_machine.rs1 =
        misaligned_access_machine.engine.reg_ups misaligned_access_machine.rs1 ∧
      is_valid_virtual_address (add32
        (misaligned_access_machine.registers misaligned_access_machine.rs1)
        misaligned_access_machine.imm) = 0) ∧
    is_safe_address misaligned_access_machine 65538 6 = .ok 1 ∧
    (∃ m', constrain_lw misaligned_access_machine = .ok (65538, m') ∧ m'.pc = 65540 ∧
      m'.exception = EXCEPTION_NOEXCEPTION ∧ m'.trap = 0) ∧
    (∃ m', constrain_sw misaligned_access_machine = .ok (65538, m') ∧ m'.pc = 65540 ∧
      m'.exception = EXCEPTION_NOEXCEPTION ∧ m'.trap = 0) ∧
    (∃ m', do_lw misaligned_access_machine = .ok (65538, m') ∧ m'.pc = 65536 ∧
      m'.exception = EXCEPTION_INVALIDADDRESS ∧ m'.trap = 1) ∧
    (∃ m', constrain_lw out_of_range_access_machine = .ok (2147483648, m') ∧
      m'.pc = 65536 ∧ m'.exception = EXCEPTION_PAGEFAULT ∧ m'.faulting_page = 524288) ∧
    (∃ m', constrain_sw out_of_range_access_machine = .ok (2147483648, m') ∧
      m'.pc = 65536 ∧ m'.exception = EXCEPTION_PAGEFAULT ∧ m'.faulting_page = 524288) :=
  ⟨⟨rfl, rfl, rfl⟩,
    (symbolic_access_skips_address_check misaligned_access_machine rfl rfl rfl).2.1,
    ⟨_, rfl, rfl, rfl, rfl⟩, ⟨_, rfl, rfl, rfl, rfl⟩, ⟨_, rfl, rfl, rfl, rfl⟩,
    ⟨_, rfl, rfl, rfl, rfl⟩, ⟨_, rfl, rfl, rfl, rfl⟩⟩

/-! ## The scenario of `countdown.c` -/

set_option maxRecDepth 1000000 in
/-- C28: compiling `countdown.c` with `selfie_compile` and running the binary under
`mipster` (1 MB of physical memory, the name of the binary as the only argument, on
the host `example_host`) ends with exit code 0.  This holds whatever the system calls
`read`, `write` and `open` and the context switch of the kernel `k` do, also when
they fail: none of them is called, so nothing is written to the standard output of
the guest. -/
theorem countdown_exits_with_zero (k : Kernel) :
    (selfie_compile 1000 [countdown_source] >>= fun s =>
      selfie_run_mipster example_host k 1000 s zero_machine 1 [string_words countdown_name]) =
    pure 0 := by
  rfl

/-! ## Loads, stores and returns of emitted code -/

theorem do_sw_ok (m : Machine)
    (hv : add32 (m.registers m.rs1) m.imm < 2147483648 ∧
      add32 (m.registers m.rs1) m.imm % 4 = 0)
    (hm : m.pt (add32 (m.registers m.rs1) m.imm / 4096) ≠ 0) :
    ∃ r, do_sw m = .ok r ∧ r.2.registers = m.registers ∧ r.2.pc = add32 m.pc 4 ∧
      r.2.memory = store_virtual_memory m.memory m.pt (add32 (m.registers m.rs1) m.imm)
        (m.registers m.rs2) ∧
      r.2.pt = m.pt := by
  unfold do_sw
  dsimp only
  rw [if_pos ((is_valid_virtual_address_eq _).2 hv),
    if_pos ((is_virtual_address_mapped_eq _ _).2 hm)]
  exact ⟨_, rfl, rfl, rfl, rfl, rfl⟩

theorem do_lw_ok (m : Machine) (hd : m.rd ≠ REG_ZR)
    (hv : add32 (m.registers m.rs1) m.imm < 2147483648 ∧
      add32 (m.registers m.rs1) m.imm % 4 = 0)
    (hm : m.pt (add32 (m.registers m.rs1) m.imm / 4096) ≠ 0) :
    ∃ r, do_lw m = .ok r ∧
      r.2.registers = store_word m.registers m.rd
        (load_virtual_memory m.memory m.pt (add32 (m.registers m.rs1) m.imm)) ∧
      r.2.pc = add32 m.pc 4 ∧ r.2.memory = m.memory ∧ r.2.pt = m.pt := by
  unfold do_lw
  dsimp only
  rw [if_pos ((is_valid_virtual_address_eq _).2 hv),
    if_pos ((is_virtual_address_mapped_eq _ _).2 hm), if_pos hd]
  exact ⟨_, rfl, rfl, rfl, rfl, rfl⟩

theorem step_sw (isw : Machine → Except Nat Machine) (m : Machine) (rs1 rs2 imm w : Nat)
    (h1 : rs1 < 32) (h2 : rs2 < 32) (hi : in_signed_range imm 12)
    (he : encode_s_format imm rs2 rs1 F3_SW OP_SW = .ok w)
    (hw : load_virtual_memory m.memory m.pt m.pc = w)
    (hv : add32 (m.registers rs1) imm < 2147483648 ∧ add32 (m.registers rs1) imm % 4 = 0)
    (hm : m.pt (add32 (m.registers rs1) imm / 4096) ≠ 0) :
    ∃ m', step isw m = .ok m' ∧ m'.registers = m.registers ∧ m'.pc = add32 m.pc 4 ∧
      m'.memory = store_virtual_memory m.memory m.pt (add32 (m.registers rs1) imm)
        (m.registers rs2) ∧
      m'.pt = m.pt := by
  obtain ⟨w', he', ei, e2, e1, e3, eo⟩ := s_format_round_trip imm rs2 rs1 F3_SW OP_SW hi h2 h1
    (by decide) (by decide)
  have hww : w' = w := Except.ok.inj (he'.symm.trans he)
  rw [hww] at ei e2 e1 e3 eo
  have hir : (fetch m).ir = w := hw
  have f3 : get_funct3 (fetch m).ir = F3_SW := by rw [hir]; exact e3
  have hX : ∃ X : Machine, decode_execute isw (fetch m) = (do let r ← do_sw X; pure r.2) ∧
      X.rs1 = rs1 ∧ X.rs2 = rs2 ∧ X.imm = imm ∧ X.registers = m.registers ∧ X.pc = m.pc ∧
      X.memory = m.memory ∧ X.pt = m.pt := by
    refine ⟨decode_s_format { fetch m with opcode := OP_SW }, ?_, ?_, ?_, ?_, rfl, rfl, rfl, rfl⟩
    · rw [decode_execute_sw isw (fetch m) (by rw [hir]; exact eo), f3,
        if_pos (show F3_SW = F3_SW from rfl)]
    · show get_rs1 (fetch m).ir = rs1
      rw [hir]; exact e1
    · show get_rs2 (fetch m).ir = rs2
      rw [hir]; exact e2
    · show get_immediate_s_format (fetch m).ir = imm
      rw [hir]; exact ei
  obtain ⟨X, hde, x1, x2, xi, xr, xp, xm, xt⟩ := hX
  obtain ⟨r, hr, rr, rp, rm, rt⟩ := do_sw_ok X (by rw [x1, xi, xr]; exact hv)
    (by rw [x1, xi, xr, xt]; exact hm)
  have hde' : decode_execute isw (fetch m) = .ok r.2 := by
    rw [hde, hr]
    rfl
  obtain ⟨m', hs, r', p', mem', pt'⟩ := step_of_decode_execute isw m _ hde'
  refine ⟨m', hs, by rw [r', rr, xr], by rw [p', rp, xp], ?_, by rw [pt', rt, xt]⟩
  rw [mem', rm, x1, x2, xi, xr, xm, xt]

theorem step_lw (isw : Machine → Except Nat Machine) (m : Machine) (rd rs1 imm w : Nat)
    (hd : rd < 32) (h1 : rs1 < 32) (hi : in_signed_range imm 12) (hz : rd ≠ REG_ZR)
    (he : encode_i_format imm rs1 F3_LW rd OP_LW = .ok w)
    (hw : load_virtual_memory m.memory m.pt m.pc = w)
    (hv : add32 (m.registers rs1) imm < 2147483648 ∧ add32 (m.registers rs1) imm % 4 = 0)
    (hm : m.pt (add32 (m.registers rs1) imm / 4096) ≠ 0) :
    ∃ m', step isw m = .ok m' ∧
      m'.registers = store_word m.registers rd
        (load_virtual_memory m.memory m.pt (add32 (m.registers rs1) imm)) ∧
      m'.pc = add32 m.pc 4 ∧ m'.memory = m.memory ∧ m'.pt = m.pt := by
  obtain ⟨w', he', ei, e1, e3, ed, eo⟩ := i_format_round_trip imm rs1 F3_LW rd OP_LW hi h1
    (by decide) hd (by decide)
  have hww : w' = w := Except.ok.inj (he'.symm.trans he)
  rw [hww] at ei e1 e3 ed eo
  have hir : (fetch m).ir = w := hw
  have f3 : get_funct3 (fetch m).ir = F3_LW := by rw [hir]; exact e3
  have hX : ∃ X : Machine, decode_execute isw (fetch m) = (do let r ← do_lw X; pure r.2) ∧
      X.rd = rd ∧ X.rs1 = rs1 ∧ X.imm = imm ∧ X.registers = m.registers ∧ X.pc = m.pc ∧
      X.memory = m.memory ∧ X.pt = m.pt := by
    refine ⟨decode_i_format { fetch m with opcode := OP_LW }, ?_, ?_, ?_, ?_, rfl, rfl, rfl, rfl⟩
    · rw [decode_execute_lw isw (fetch m) (by rw [hir]; exact eo), f3,
        if_pos (show F3_LW = F3_LW from rfl)]
    · show get_rd (fetch m).ir = rd
      rw [hir]; exact ed
    · show get_rs1 (fetch m).ir = rs1
      rw [hir]; exact e1
    · show get_immediate_i_format (fetch m).ir = imm
      rw [hir]; exact ei
  obtain ⟨X, hde, xd, x1, xi, xr, xp, xm, xt⟩ := hX
  obtain ⟨r, hr, rr, rp, rm, rt⟩ := do_lw_ok X (by rw [xd]; exact hz)
    (by rw [x1, xi, xr]; exact hv) (by rw [x1, xi, xr, xt]; exact hm)
  have hde' : decode_execute isw (fetch m) = .ok r.2 := by
    rw [hde, hr]
    rfl
  obtain ⟨m', hs, r', p', mem', pt'⟩ := step_of_decode_execute isw m _ hde'
  refine ⟨m', hs, ?_, by rw [p', rp, xp], by rw [mem', rm, xm], by rw [pt', rt, xt]⟩
  rw [r', rr, xd, x1, xi, xr, xm, xt]

theorem step_jalr_return (isw : Machine → Except Nat Machine) (m : Machine) (rs1 imm w : Nat)
    (h1 : rs1 < 32) (hi : in_signed_range imm 12)
    (he : encode_i_format imm rs1 F3_JALR REG_ZR OP_JALR = .ok w)
    (hw : load_virtual_memory m.memory m.pt m.pc = w) :
    ∃ m', step isw m = .ok m' ∧ m'.registers = m.registers ∧
      m'.pc = left_shift (right_shift (add32 (m.registers rs1) imm) 1) 1 ∧
      m'.memory = m.memory ∧ m'.pt = m.pt := by
  obtain ⟨w', he', ei, e1, e3, ed, eo⟩ := i_format_round_trip imm rs1 F3_JALR REG_ZR OP_JALR hi
    h1 (by decide) (by decide) (by decide)
  have hww : w' = w := Except.ok.inj (he'.symm.trans he)
  rw [hww] at ei e1 e3 ed eo
  have hir : (fetch m).ir = w := hw
  have f3 : get_funct3 (fetch m).ir = F3_JALR := by rw [hir]; exact e3
  have hX : ∃ X : Machine, decode_execute isw (fetch m) = .ok (do_jalr X) ∧ X.rd = REG_ZR ∧
      X.rs1 = rs1 ∧ X.imm = imm ∧ X.registers = m.registers ∧ X.pc = m.pc ∧
      X.memory = m.memory ∧ X.pt = m.pt := by
    refine ⟨decode_i_format { fetch m with opcode := OP_JALR }, ?_, ?_, ?_, ?_, rfl, rfl, rfl,
      rfl⟩
    · rw [decode_execute_jalr isw (fetch m) (by rw [hir]; exact eo), f3,
        if_pos (show F3_JALR = F3_JALR from rfl)]
    · show get_rd (fetch m).ir = REG_ZR
      rw [hir]; exact ed
    · show get_rs1 (fetch m).ir = rs1
      rw [hir]; exact e1
    · show get_immediate_i_format (fetch m).ir = imm
      rw [hir]; exact ei
  obtain ⟨X, hde, xd, x1, xi, xr, xp, xm, xt⟩ := hX
  have hj : (do_jalr X).registers = X.registers ∧
      (do_jalr X).pc = left_shift (right_shift (add32 (X.registers X.rs1) X.imm) 1) 1 ∧
      (do_jalr X).memory = X.memory ∧ (do_jalr X).pt = X.pt := by
    unfold do_jalr
    simp [xd]
  obtain ⟨m', hs, r', p', mem', pt'⟩ := step_of_decode_execute isw m _ hde
  exact ⟨m', hs, by rw [r', hj.1, xr], by rw [p', hj.2.1, x1, xi, xr],
    by rw [mem', hj.2.2.1, xm], by rw [pt', hj.2.2.2, xt]⟩

theorem emit_sw_emits (c : Compiler) (rs1 immediate rs2 w : Nat)
    (hw : encode_s_format immediate rs2 rs1 F3_SW OP_SW = .ok w)
    (h : c.binary_length < MAX_CODE_LENGTH) :
    ∃ c', emit_sw c rs1 immediate rs2 = .ok c' ∧ emits c c' [w] ∧
      c'.allocated_temporaries = c.allocated_temporaries := by
  obtain ⟨c1, he, hm, ht⟩ := emit_instruction_emits c w h
  unfold emit_sw
  rw [hw]
  show ∃ c', (emit_instruction c w >>= _) = Except.ok c' ∧ _
  rw [he]
  exact ⟨_, rfl, hm, ht⟩

theorem emit_lw_emits (c : Compiler) (rd rs1 immediate w : Nat)
    (hw : encode_i_format immediate rs1 F3_LW rd OP_LW = .ok w)
    (h : c.binary_length < MAX_CODE_LENGTH) :
    ∃ c', emit_lw c rd rs1 immediate = .ok c' ∧ emits c c' [w] ∧
      c'.allocated_temporaries = c.allocated_temporaries := by
  obtain ⟨c1, he, hm, ht⟩ := emit_instruction_emits c w h
  unfold emit_lw
  rw [hw]
  show ∃ c', (emit_instruction c w >>= _) = Except.ok c' ∧ _
  rw [he]
  exact ⟨_, rfl, hm, ht⟩

theorem emit_jalr_emits (c : Compiler) (rd rs1 immediate w : Nat)
    (hw : encode_i_format immediate rs1 F3_JALR rd OP_JALR = .ok w)
    (h : c.binary_length < MAX_CODE_LENGTH) :
    ∃ c', emit_jalr c rd rs1 immediate = .ok c' ∧ emits c c' [w] ∧
      c'.allocated_temporaries = c.allocated_temporaries := by
  obtain ⟨c1, he, hm, ht⟩ := emit_instruction_emits c w h
  unfold emit_jalr
  rw [hw]
  show ∃ c', (emit_instruction c w >>= _) = Except.ok c' ∧ _
  rw [he]
  exact ⟨_, rfl, hm, ht⟩

theorem current_temporary_spec (n : Nat) (h1 : 1 ≤ n) (h7 : n ≤ 7) :
    ∃ t, current_temporary n = .ok t ∧ t < 32 ∧ t ≠ REG_ZR ∧ t ≠ REG_SP := by
  interval_cases n
  · exact ⟨5, rfl, by decide, by decide, by decide⟩
  · exact ⟨6, rfl, by decide, by decide, by decide⟩
  · exact ⟨7, rfl, by decide, by decide, by decide⟩
  · exact ⟨28, rfl, by decide, by decide, by decide⟩
  · exact ⟨29, rfl, by decide, by decide, by decide⟩
  · exact ⟨30, rfl, by decide, by decide, by decide⟩
  · exact ⟨31, rfl, by decide, by decide, by decide⟩

theorem minus_four_in_range : in_signed_range (neg32 REGISTERSIZE) 12 :=
  (in_signed_range_iff _ 12 (by decide) (by decide)).2 ⟨by decide, Or.inr (by decide)⟩

theorem zero_in_signed_range : in_signed_range 0 12 :=
  (in_signed_range_iff 0 12 (by decide) (by decide)).2 ⟨by decide, Or.inl (by decide)⟩

theorem emits_tfree (c c1 c2 : Compiler) (ws : List Nat) (n : Nat) (h : tfree c1 n = .ok c2)
    (he : emits c c1 ws) : emits c c2 ws := by
  have h2 := emits_append _ _ _ _ _ he (tfree_inv _ _ _ h)
  rw [List.append_nil] at h2
  exact h2

/-- The code of `push_temporary`: what is emitted, and what it does when run. -/
theorem push_temporary_pushes (isw : Machine → Except Nat Machine) (c : Compiler)
    (h1 : 1 ≤ c.allocated_temporaries) (h7 : c.allocated_temporaries ≤ 7)
    (hl : c.binary_length + 8 ≤ MAX_CODE_LENGTH) :
    ∃ c' t w_addi w_sw,
      current_temporary c.allocated_temporaries = .ok t ∧
      push_temporary c = .ok c' ∧
      c'.allocated_temporaries + 1 = c.allocated_temporaries ∧
      encode_i_format (neg32 REGISTERSIZE) REG_SP F3_ADDI REG_SP OP_IMM = .ok w_addi ∧
      encode_s_format 0 t REG_SP F3_SW OP_SW = .ok w_sw ∧
      emits c c' [w_addi, w_sw] ∧
      ∀ m : Machine, m.pc < 4294967296 →
        sub32 (m.registers REG_SP) 4 < 2147483648 → sub32 (m.registers REG_SP) 4 % 4 = 0 →
        m.pt (sub32 (m.registers REG_SP) 4 / 4096) ≠ 0 →
        code_loaded c' c.binary_length 2 m →
        ∃ m', steps isw 2 m = .ok m' ∧
          m'.registers = store_word m.registers REG_SP (sub32 (m.registers REG_SP) 4) ∧
          m'.memory = store_virtual_memory m.memory m.pt (sub32 (m.registers REG_SP) 4)
            (m.registers t) ∧
          m'.pt = m.pt ∧ m'.pc = add32 m.pc 8 := by
  have hl' : c.binary_length + 8 ≤ 245760 := hl
  obtain ⟨t, hc, t32, t0, tsp⟩ := current_temporary_spec c.allocated_temporaries h1 h7
  obtain ⟨wa, hwa⟩ : ∃ w, encode_i_format (neg32 REGISTERSIZE) REG_SP F3_ADDI REG_SP OP_IMM =
      .ok w := ⟨_, encode_i_format_ok _ _ _ _ _ minus_four_in_range⟩
  obtain ⟨wsw, hws⟩ : ∃ w, encode_s_format 0 t REG_SP F3_SW OP_SW = .ok w :=
    ⟨_, encode_s_format_ok _ _ _ _ _ zero_in_signed_range⟩
  obtain ⟨c1, a1, m1, t1⟩ := emit_addi_emits c REG_SP REG_SP _ _ hwa
    (by unfold MAX_CODE_LENGTH; omega)
  have b1 : c1.binary_length = c.binary_length + 4 := m1.1
  obtain ⟨c2, a2, m2, t2⟩ := emit_sw_emits c1 REG_SP 0 t _ hws
    (by unfold MAX_CODE_LENGTH; omega)
  obtain ⟨c3, a3, _, t3, b3⟩ := tfree_ok c2 (by omega) (by omega)
  have hem2 : emits c c2 [_, _] := emits_append _ _ _ [_] [_] m1 m2
  have hem := emits_tfree _ _ _ _ _ a3 hem2
  refine ⟨c3, t, _, _, hc, ?_, by omega, hwa, hws, hem, ?_⟩
  · unfold push_temporary
    simp only [a1, ok_bind, t1, hc, a2]
    exact a3
  · intro m hpc hv1 hv2 hmap hcl
    have h0 := code_loaded_word _ _ _ m 0 hem (by simp) hcl
    rw [Nat.mul_zero, add32_zero _ hpc] at h0
    have h1' := code_loaded_word _ _ _ m 1 hem (by simp) hcl
    obtain ⟨ma, s1, r1, p1, me1, pt1⟩ := step_addi isw m REG_SP REG_SP (neg32 REGISTERSIZE) _
      (by decide) (by decide) minus_four_in_range (by decide) hwa h0
    have hsp : add32 (m.registers REG_SP) (neg32 REGISTERSIZE) = sub32 (m.registers REG_SP) 4 := by
      unfold add32 neg32 sub32 REGISTERSIZE
      omega
    rw [hsp] at r1
    have hra : ma.registers REG_SP = sub32 (m.registers REG_SP) 4 := by
      rw [r1, store_word_same]
    have hva : add32 (ma.registers REG_SP) 0 = sub32 (m.registers REG_SP) 4 := by
      rw [hra]
      unfold add32 sub32
      omega
    have hf : load_virtual_memory ma.memory ma.pt ma.pc = wsw := by
      rw [me1, pt1, p1]
      exact h1'
    obtain ⟨mb, s2, r2, p2, me2, pt2⟩ := step_sw isw ma REG_SP t 0 _ (by decide) t32
      zero_in_signed_range hws hf (by rw [hva]; exact ⟨hv1, hv2⟩)
      (by rw [hva, pt1]; exact hmap)
    refine ⟨mb, ?_, by rw [r2, r1], ?_, by rw [pt2, pt1], by rw [p2, p1, add32_add32]⟩
    · rw [steps_succ isw 1 m ma s1, steps_succ isw 0 ma mb s2]
      rfl
    · rw [me2, hva, me1, pt1, r1, store_word_ne _ _ _ _ tsp]

theorem four_in_signed_range : in_signed_range REGISTERSIZE 12 :=
  (in_signed_range_iff _ 12 (by decide) (by decide)).2 ⟨by decide, Or.inl (by decide)⟩

/-- The code of `help_procedure_epilogue`: what is emitted for `p` bytes of
parameters, and what it does when run. -/
theorem help_procedure_epilogue_pops (isw : Machine → Except Nat Machine) (c : Compiler)
    (p : Nat) (hp : p + 4 < 2048) (hl : c.binary_length + 24 ≤ MAX_CODE_LENGTH) :
    ∃ c' ws,
      help_procedure_epilogue c p = .ok c' ∧ emits c c' ws ∧ ws.length = 6 ∧
      encode_i_format (add32 REGISTERSIZE p) REG_SP F3_ADDI REG_SP OP_IMM = .ok (ws.getD 4 0) ∧
      ∀ m : Machine, m.pc < 4294967296 →
        m.registers REG_FP + 4 < 2147483648 → m.registers REG_FP % 4 = 0 →
        m.pt (m.registers REG_FP / 4096) ≠ 0 → m.pt ((m.registers REG_FP + 4) / 4096) ≠ 0 →
        code_loaded c' c.binary_length 6 m →
        ∃ m', steps isw 6 m = .ok m' ∧
          m'.registers REG_SP = m.registers REG_FP + 8 + p ∧
          m'.registers REG_FP = load_virtual_memory m.memory m.pt (m.registers REG_FP) ∧
          m'.registers REG_RA =
            load_virtual_memory m.memory m.pt (m.registers REG_FP + 4) ∧
          m'.pc = left_shift (right_shift (add32
            (load_virtual_memory m.memory m.pt (m.registers REG_FP + 4)) 0) 1) 1 ∧
          m'.memory = m.memory ∧ m'.pt = m.pt := by
  have hl' : c.binary_length + 24 ≤ 245760 := hl
  have hpr : in_signed_range (add32 REGISTERSIZE p) 12 :=
    (in_signed_range_iff _ 12 (by decide) (by decide)).2
      ⟨by unfold add32; omega, Or.inl (by unfold add32 REGISTERSIZE; norm_num; omega)⟩
  obtain ⟨w0, e0⟩ : ∃ w, encode_i_format 0 REG_FP F3_ADDI REG_SP OP_IMM = .ok w :=
    ⟨_, encode_i_format_ok _ _ _ _ _ zero_in_signed_range⟩
  obtain ⟨w1, e1⟩ : ∃ w, encode_i_format 0 REG_SP F3_LW REG_FP OP_LW = .ok w :=
    ⟨_, encode_i_format_ok _ _ _ _ _ zero_in_signed_range⟩
  obtain ⟨w2, e2⟩ : ∃ w, encode_i_format REGISTERSIZE REG_SP F3_ADDI REG_SP OP_IMM = .ok w :=
    ⟨_, encode_i_format_ok _ _ _ _ _ four_in_signed_range⟩
  obtain ⟨w3, e3⟩ : ∃ w, encode_i_format 0 REG_SP F3_LW REG_RA OP_LW = .ok w :=
    ⟨_, encode_i_format_ok _ _ _ _ _ zero_in_signed_range⟩
  obtain ⟨w4, e4⟩ : ∃ w, encode_i_format (add32 REGISTERSIZE p) REG_SP F3_ADDI REG_SP OP_IMM =
      .ok w := ⟨_, encode_i_format_ok _ _ _ _ _ hpr⟩
  obtain ⟨w5, e5⟩ : ∃ w, encode_i_format 0 REG_RA F3_JALR REG_ZR OP_JALR = .ok w :=
    ⟨_, encode_i_format_ok _ _ _ _ _ zero_in_signed_range⟩
  obtain ⟨c1, a1, m1, _⟩ := emit_addi_emits c REG_SP REG_FP 0 w0 e0
    (by unfold MAX_CODE_LENGTH; omega)
  have b1 : c1.binary_length = c.binary_length + 4 := m1.1
  obtain ⟨c2, a2, m2, _⟩ := emit_lw_emits c1 REG_FP REG_SP 0 w1 e1
    (by unfold MAX_CODE_LENGTH; omega)
  have b2 : c2.binary_length = c.binary_length + 8 := by rw [m2.1, b1]; rfl
  obtain ⟨c3, a3, m3, _⟩ := emit_addi_emits c2 REG_SP REG_SP REGISTERSIZE w2 e2
    (by unfold MAX_CODE_LENGTH; omega)
  have b3 : c3.binary_length = c.binary_length + 12 := by rw [m3.1, b2]; rfl
  obtain ⟨c4, a4, m4, _⟩ := emit_lw_emits c3 REG_RA REG_SP 0 w3 e3
    (by unfold MAX_CODE_LENGTH; omega)
  have b4 : c4.binary_length = c.binary_length + 16 := by rw [m4.1, b3]; rfl
  obtain ⟨c5, a5, m5, _⟩ := emit_addi_emits c4 REG_SP REG_SP (add32 REGISTERSIZE p) w4 e4
    (by unfold MAX_CODE_LENGTH; omega)
  have b5 : c5.binary_length = c.binary_length + 20 := by rw [m5.1, b4]; rfl
  obtain ⟨c6, a6, m6, _⟩ := emit_jalr_emits c5 REG_ZR REG_RA 0 w5 e5
    (by unfold MAX_CODE_LENGTH; omega)
  have hem : emits c c6 [w0, w1, w2, w3, w4, w5] :=
    emits_append _ _ _ [w0] [w1, w2, w3, w4, w5] m1
      (emits_append _ _ _ [w1] [w2, w3, w4, w5] m2
        (emits_append _ _ _ [w2] [w3, w4, w5] m3
          (emits_append _ _ _ [w3] [w4, w5] m4 (emits_append _ _ _ [w4] [w5] m5 m6))))
  refine ⟨c6, [w0, w1, w2, w3, w4, w5], ?_, hem, rfl, e4, ?_⟩
  · unfold help_procedure_epilogue
    simp only [a1, ok_bind, a2, a3, a4, a5]
    exact a6
  · intro m hpc hv1 hv2 hm0 hm4 hcl
    have h0 := code_loaded_word _ _ _ m 0 hem (by simp) hcl
    rw [Nat.mul_zero, add32_zero _ hpc] at h0
    have h1 := code_loaded_word _ _ _ m 1 hem (by simp) hcl
    have h2 := code_loaded_word _ _ _ m 2 hem (by simp) hcl
    have h3 := code_loaded_word _ _ _ m 3 hem (by simp) hcl
    have h4 := code_loaded_word _ _ _ m 4 hem (by simp) hcl
    have h5 := code_loaded_word _ _ _ m 5 hem (by simp) hcl
    simp only [List.getD_cons_zero, List.getD_cons_succ] at h0 h1 h2 h3 h4 h5
    -- addi sp,fp,0
    obtain ⟨n1, s1, r1, p1, me1, pt1⟩ := step_addi isw m REG_SP REG_FP 0 w0 (by decide)
      (by decide) zero_in_signed_range (by decide) e0 h0
    have hfp : add32 (m.registers REG_FP) 0 = m.registers REG_FP := by
      unfold add32
      omega
    rw [hfp] at r1
    have sp1 : n1.registers REG_SP = m.registers REG_FP := by rw [r1, store_word_same]
    -- lw fp,0(sp)
    have f1 : load_virtual_memory n1.memory n1.pt n1.pc = w1 := by
      rw [me1, pt1, p1]
      exact h1
    have va1 : add32 (n1.registers REG_SP) 0 = m.registers REG_FP := by rw [sp1, hfp]
    obtain ⟨n2, s2, r2, p2, me2, pt2⟩ := step_lw isw n1 REG_FP REG_SP 0 w1 (by decide)
      (by decide) zero_in_signed_range (by decide) e1 f1
      (by rw [va1]; exact ⟨by omega, hv2⟩) (by rw [va1, pt1]; exact hm0)
    rw [va1, me1, pt1] at r2
    have sp2 : n2.registers REG_SP = m.registers REG_FP := by
      rw [r2, store_word_ne _ _ _ _ (by decide), sp1]
    -- addi sp,sp,4
    have f2 : load_virtual_memory n2.memory n2.pt n2.pc = w2 := by
      rw [me2, pt2, p2, me1, pt1, p1, add32_add32]
      exact h2
    obtain ⟨n3, s3, r3, p3, me3, pt3⟩ := step_addi isw n2 REG_SP REG_SP REGISTERSIZE w2
      (by decide) (by decide) four_in_signed_range (by decide) e2 f2
    have sp3 : n3.registers REG_SP = m.registers REG_FP + 4 := by
      rw [r3, store_word_same, sp2]
      unfold add32 REGISTERSIZE
      omega
    -- lw ra,0(sp)
    have f3 : load_virtual_memory n3.memory n3.pt n3.pc = w3 := by
      rw [me3, pt3, p3, me2, pt2, p2, me1, pt1, p1, add32_add32, add32_add32]
      exact h3
    have va3 : add32 (n3.registers REG_SP) 0 = m.registers REG_FP + 4 := by
      rw [sp3]
      unfold add32
      omega
    obtain ⟨n4, s4, r4, p4, me4, pt4⟩ := step_lw isw n3 REG_RA REG_SP 0 w3 (by decide)
      (by decide) zero_in_signed_range (by decide) e3 f3
      (by rw [va3]; exact ⟨hv1, by omega⟩) (by rw [va3, pt3, pt2, pt1]; exact hm4)
    rw [va3, me3, pt3, me2, pt2, me1, pt1] at r4
    have sp4 : n4.registers REG_SP = m.registers REG_FP + 4 := by
      rw [r4, store_word_ne _ _ _ _ (by decide), sp3]
    -- addi sp,sp,4+p
    have f4 : load_virtual_memory n4.memory n4.pt n4.pc = w4 := by
      rw [me4, pt4, p4, me3, pt3, p3, me2, pt2, p2, me1, pt1, p1, add32_add32, add32_add32,
        add32_add32]
      exact h4
    obtain ⟨n5, s5, r5, p5, me5, pt5⟩ := step_addi isw n4 REG_SP REG_SP (add32 REGISTERSIZE p) w4
      (by decide) (by decide) hpr (by decide) e4 f4
    -- jalr zero,0(ra)
    have f5 : load_virtual_memory n5.memory n5.pt n5.pc = w5 := by
      rw [me5, pt5, p5, me4, pt4, p4, me3, pt3, p3, me2, pt2, p2, me1, pt1, p1, add32_add32,
        add32_add32, add32_add32, add32_add32]
      exact h5
    obtain ⟨n6, s6, r6, p6, me6, pt6⟩ := step_jalr_return isw n5 REG_RA 0 w5 (by decide)
      zero_in_signed_range e5 f5
    have ra5 : n5.registers REG_RA =
        load_virtual_memory m.memory m.pt (m.registers REG_FP + 4) := by
      rw [r5, store_word_ne _ _ _ _ (by decide), r4, store_word_same]
    refine ⟨n6, ?_, ?_, ?_, ?_, ?_, ?_, ?_⟩
    · rw [steps_succ isw 5 m n1 s1, steps_succ isw 4 n1 n2 s2, steps_succ isw 3 n2 n3 s3,
        steps_succ isw 2 n3 n4 s4, steps_succ isw 1 n4 n5 s5, steps_succ isw 0 n5 n6 s6]
      rfl
    · rw [r6, r5, store_word_same, sp4]
      unfold add32 REGISTERSIZE
      omega
    · rw [r6, r5, store_word_ne _ _ _ _ (by decide), r4, store_word_ne _ _ _ _ (by decide), r3,
        store_word_ne _ _ _ _ (by decide), r2, store_word_same]
    · rw [r6, ra5]
    · rw [p6, ra5]
    · rw [me6, me5, me4, me3, me2, me1]
    · rw [pt6, pt5, pt4, pt3, pt2, pt1]

/-! ## Character access in packed strings -/

/-- C40: character access in packed strings.  For every array `s` of machine words,
every index `i` and every character `c < 256`: `load_character` reads `c` at `i` from
`store_character s i c` and what it read from `s` at every other index; only the
word `i / 4` of `s` is modified, and the result is again an array of machine words.
Character `i` is the byte at the bits `8 * (i mod 4)` to `8 * (i mod 4) + 7` of the
word `i / 4` (little-endian), also for `i mod 4 = 3`, where `get_bits` is called with
`i + b = 32` and returns the highest byte. -/
theorem character_access (s : Nat → Nat) (i c : Nat) (hs : machine_words s) (hc : c < 256) :
    load_character (store_character s i c) i = c ∧
    (∀ j, j ≠ i → load_character (store_character s i c) j = load_character s j) ∧
    (∀ k, k ≠ i / 4 → store_character s i c k = s k) ∧
    machine_words (store_character s i c) ∧
    load_character s i = s (i / 4) / 2 ^ (8 * (i % 4)) % 256 ∧
    (i % 4 = 3 → load_character s i = get_bits (s (i / 4)) 24 8 ∧
      get_bits (s (i / 4)) 24 8 = s (i / 4) / 16777216) := by
  obtain ⟨hw, hload, hother⟩ := load_store_character s i c hs hc
  refine ⟨?_, ?_, hother, hw, load_character_eq s i, ?_⟩
  · rw [hload i, if_pos rfl]
  · intro j hj
    rw [hload j, if_neg hj]
  · intro h3
    have e : load_character s i = get_bits (s (i / 4)) 24 8 := by
      unfold load_character SIZEOFUINT32
      rw [h3]
      rfl
    refine ⟨e, ?_⟩
    rw [← e, load_character_eq, h3]
    have := hs (i / 4)
    omega

/-- Witness for C40: the character `a` stored at index 7 of the name `x` is the
highest byte of word 1. -/
theorem character_access_witness :
    (machine_words name_x ∧ 97 < 256) ∧
    load_character (store_character name_x 7 97) 7 = 97 ∧
    store_character name_x 7 97 1 = 1627389952 ∧
    load_character (store_character name_x 7 97) 0 = 120 :=
  ⟨⟨fun k => by unfold name_x; split_ifs <;> decide, by decide⟩,
    (character_access name_x 7 97 (fun k => by unfold name_x; split_ifs <;> decide)
      (by decide)).1,
    by decide, by decide⟩

/-! ## The fit test of the ELF header -/

/-- C39: the fit test of `validate_elf_header` can be passed through wrap-around.
The header created for a binary of `n` bytes (`n` a machine word) is accepted exactly
when the binary fits, `entry_point + n + PAGESIZE <= VIRTUALMEMORYSIZE`, or
`n > VIRTUALMEMORYSIZE - PAGESIZE`: for such `n` the difference
`VIRTUALMEMORYSIZE - PAGESIZE - n` wraps around to a word that is never below the
entry point.  Acceptance sets `binary_length` to `n`. -/
theorem elf_fit_check_wraps_around (n entry_point binary_length : Nat)
    (hn : n < 4294967296) :
    ((validate_elf_header (create_elf_header n) entry_point binary_length).1 = 1 ↔
      (ELF_ENTRY_POINT + n + PAGESIZE ≤ VIRTUALMEMORYSIZE ∨ VIRTUALMEMORYSIZE - PAGESIZE < n)) ∧
    ((validate_elf_header (create_elf_header n) entry_point binary_length).1 = 1 →
      validate_elf_header (create_elf_header n) entry_point binary_length =
        (1, ELF_ENTRY_POINT, n)) := by
  constructor
  · rw [validate_elf_header_eq_one]
    have e17 : create_elf_header n 17 = n := rfl
    have e15 : create_elf_header n 15 = ELF_ENTRY_POINT := rfl
    rw [e17, e15]
    have e : sub32 VIRTUALMEMORYSIZE PAGESIZE = 2147479552 := by decide
    rw [e]
    unfold sub32 ELF_ENTRY_POINT VIRTUALMEMORYSIZE PAGESIZE
    constructor
    · intro h
      have := h.2
      omega
    · intro h
      refine ⟨fun i _ => rfl, ?_⟩
      omega
  · intro h
    rcases validate_elf_header_cases (create_elf_header n) entry_point binary_length with h2 | h2
    · exact h2.2
    · rw [h2] at h
      cases h

/-- Witness for C39: the header created for `2^32 - 1` bytes is accepted, and the
binary does not fit. -/
theorem elf_fit_check_wraps_around_witness :
    4294967295 < 4294967296 ∧
    validate_elf_header (create_elf_header 4294967295) 0 0 = (1, 65536, 4294967295) ∧
    ¬ (ELF_ENTRY_POINT + 4294967295 + PAGESIZE ≤ VIRTUALMEMORYSIZE) :=
  ⟨by decide,
    (elf_fit_check_wraps_around 4294967295 0 0 (by decide)).2
      ((elf_fit_check_wraps_around 4294967295 0 0 (by decide)).1.2 (Or.inr (by decide))),
    by decide⟩

/-! ## The system call `open` on an invalid file name address -/

theorem down_load_string_loop_stuck (m : Machine) (fuel vaddr : Nat) (s : Nat → Nat) (i : Nat)
    (hi : i < MAX_FILENAME_LENGTH / SIZEOFUINT32)
    (hv : is_valid_virtual_address vaddr = 0 ∨ is_virtual_address_mapped m.pt vaddr = 0) :
    down_load_string_loop m fuel vaddr s i = .ok none := by
  induction fuel with
  | zero => rfl
  | succ fuel ih =>
    rw [down_load_string_loop, if_pos hi]
    rcases hv with h | h
    · rw [if_neg (not_not.2 h)]
      exact ih
    · by_cases h1 : is_valid_virtual_address vaddr ≠ 0
      · rw [if_pos h1, if_neg (not_not.2 h)]
        exact ih
      · rw [if_neg h1]
        exact ih

/-- C38: `down_load_string` does not terminate on an invalid file name address.
When `vaddr` is misaligned, at or above 2 GiB, or on an unmapped page, the loop of
`down_load_string` is still running after any number `fuel` of iterations, with
`vaddr` and the index as they were, and `implement_open` does not complete: the
procedure returns 0 only after `MAX_FILENAME_LENGTH / 4` words without a zero byte,
and 1 at the first word with a zero byte. -/
theorem open_hangs_on_invalid_address (open_file : (Nat → Nat) → Nat → Nat → Nat)
    (m : Machine) (fuel : Nat) (s : Nat → Nat)
    (hv : is_valid_virtual_address (m.registers REG_A0) = 0 ∨
      is_virtual_address_mapped m.pt (m.registers REG_A0) = 0) :
    down_load_string m fuel (m.registers REG_A0) s = .ok none ∧
    implement_open open_file fuel m s = .ok none := by
  have h := down_load_string_loop_stuck m fuel (m.registers REG_A0) s 0 (by decide) hv
  refine ⟨h, ?_⟩
  unfold implement_open
  dsimp only
  rw [show down_load_string m fuel (m.registers REG_A0) s = .ok none from h]
  rfl

/-- Witness for C38: with the misaligned address `65537` in `a0` the call is still
running after a million iterations; with the address of the name `x` it returns in
the first iteration with the file descriptor of the host in `a0`. -/
theorem open_hangs_on_invalid_address_witness :
    (is_valid_virtual_address (open_misaligned_machine.registers REG_A0) = 0 ∨
      is_virtual_address_mapped open_misaligned_machine.pt
        (open_misaligned_machine.registers REG_A0) = 0) ∧
    implement_open (fun _ _ _ => 3) 1000000 open_misaligned_machine zeroed_memory = .ok none ∧
    (∃ r, implement_open (fun _ _ _ => 3) 1 open_name_machine zeroed_memory = .ok (some r) ∧
      r.1.registers REG_A0 = 3 ∧ r.1.context_pc = 4 ∧ r.2 0 = 120) :=
  ⟨Or.inl rfl,
    (open_hangs_on_invalid_address (fun _ _ _ => 3) open_misaligned_machine 1000000
      zeroed_memory (Or.inl rfl)).2,
    ⟨_, rfl, rfl, rfl, rfl⟩⟩

/-! ## Interval addition and subtraction -/

theorem uint32_max_eq : UINT32_MAX = 4294967295 := by decide

theorem add32_cases (a b : Nat) (ha : a < 4294967296) (hb : b < 4294967296) :
    (a + b < 4294967296 ∧ add32 a b = a + b) ∨
    (4294967296 ≤ a + b ∧ add32 a b + 4294967296 = a + b) := by
  unfold add32
  omega

theorem sub32_cases (a b : Nat) (ha : a < 4294967296) (hb : b < 4294967296) :
    (b ≤ a ∧ sub32 a b + b = a) ∨ (a < b ∧ sub32 a b + b = a + 4294967296) := by
  unfold sub32
  omega

theorem combined_cardinality_zero (lo1 up1 lo2 up2 : Nat) :
    combined_cardinality lo1 up1 lo2 up2 = 0 ↔
      4294967296 ≤ interval_size lo1 up1 + interval_size lo2 up2 := by
  unfold combined_cardinality cardinality interval_size add32 sub32
  dsimp only
  split_ifs <;> omega

theorem interval_add_contains (lo1 up1 lo2 up2 x y : Nat)
    (h1 : lo1 < 4294967296) (h2 : up1 < 4294967296) (h3 : lo2 < 4294967296)
    (h4 : up2 < 4294967296) (hx : x < 4294967296) (hy : y < 4294967296)
    (hs : interval_size lo1 up1 + interval_size lo2 up2 < 4294967296)
    (cx : interval_contains lo1 up1 x) (cy : interval_contains lo2 up2 y) :
    interval_contains (add32 lo1 lo2) (add32 up1 up2) (add32 x y) ∧
    ¬ (add32 lo1 lo2 = 0 ∧ add32 up1 up2 = 4294967295) := by
  unfold interval_contains at *
  unfold interval_size at hs
  rcases add32_cases lo1 lo2 h1 h3 with a | a <;>
  rcases add32_cases up1 up2 h2 h4 with b | b <;>
  rcases add32_cases x y hx hy with c | c <;>
  rcases sub32_cases up1 lo1 h2 h1 with d | d <;>
  rcases sub32_cases up2 lo2 h4 h3 with e | e <;>
  split_ifs at cx cy ⊢ <;> omega

theorem interval_sub_contains (lo1 up1 lo2 up2 x y : Nat)
    (h1 : lo1 < 4294967296) (h2 : up1 < 4294967296) (h3 : lo2 < 4294967296)
    (h4 : up2 < 4294967296) (hx : x < 4294967296) (hy : y < 4294967296)
    (hs : interval_size lo1 up1 + interval_size lo2 up2 < 4294967296)
    (cx : interval_contains lo1 up1 x) (cy : interval_contains lo2 up2 y) :
    interval_contains (sub32 lo1 up2) (sub32 up1 lo2) (sub32 x y) ∧
    ¬ (sub32 lo1 up2 = 0 ∧ sub32 up1 lo2 = 4294967295) := by
  unfold interval_contains at *
  unfold interval_size at hs
  rcases sub32_cases lo1 up2 h1 h4 with a | a <;>
  rcases sub32_cases up1 lo2 h2 h3 with b | b <;>
  rcases sub32_cases x y hx hy with c | c <;>
  rcases sub32_cases up1 lo1 h2 h1 with d | d <;>
  rcases sub32_cases up2 lo2 h4 h3 with e | e <;>
  split_ifs at cx cy ⊢ <;> omega

theorem sub32_lt (a b : Nat) : sub32 a b < 4294967296 := Nat.mod_lt _ (by decide)

theorem full_interval_contains (x : Nat) (hx : x < 4294967296) :
    interval_contains 0 4294967295 x := by
  unfold interval_contains
  rw [if_pos (by decide)]
  omega

/-- The interval that `constrain_add` gives `rd` for two integer operands; the
procedure exits when the only operand with a constraint has a minuend. -/
theorem constrain_add_integers (m : Machine) (hrd : m.rd ≠ REG_ZR)
    (ht1 : m.engine.reg_typ m.rs1 = 0) (ht2 : m.engine.reg_typ m.rs2 = 0) :
    (((m.engine.reg_hasco m.rs1 ≠ 0 ∧ m.engine.reg_hasco m.rs2 = 0 ∧
          m.engine.reg_hasmn m.rs1 ≠ 0) ∨
        (m.engine.reg_hasco m.rs1 = 0 ∧ m.engine.reg_hasco m.rs2 ≠ 0 ∧
          m.engine.reg_hasmn m.rs2 ≠ 0)) →
      constrain_add m = .error EXITCODE_SYMBOLICEXECUTIONERROR) ∧
    (¬ ((m.engine.reg_hasco m.rs1 ≠ 0 ∧ m.engine.reg_hasco m.rs2 = 0 ∧
          m.engine.reg_hasmn m.rs1 ≠ 0) ∨
        (m.engine.reg_hasco m.rs1 = 0 ∧ m.engine.reg_hasco m.rs2 ≠ 0 ∧
          m.engine.reg_hasmn m.rs2 ≠ 0)) →
      ∃ m', constrain_add m = .ok m' ∧ m'.engine.reg_typ m.rd = 0 ∧
        m'.engine.reg_los m.rd =
          (if combined_cardinality (m.engine.reg_los m.rs1) (m.engine.reg_ups m.rs1)
              (m.engine.reg_los m.rs2) (m.engine.reg_ups m.rs2) = 0 then 0
            else add32 (m.engine.reg_los m.rs1) (m.engine.reg_los m.rs2)) ∧
        m'.engine.reg_ups m.rd =
          (if combined_cardinality (m.engine.reg_los m.rs1) (m.engine.reg_ups m.rs1)
              (m.engine.reg_los m.rs2) (m.engine.reg_ups m.rs2) = 0 then UINT32_MAX
            else add32 (m.engine.reg_ups m.rs1) (m.engine.reg_ups m.rs2))) := by
  unfold constrain_add
  rw [if_pos hrd, if_neg (not_not.2 ht1), if_neg (not_not.2 ht2)]
  by_cases hc : combined_cardinality (m.engine.reg_los m.rs1) (m.engine.reg_ups m.rs1)
      (m.engine.reg_los m.rs2) (m.engine.reg_ups m.rs2) = 0
  all_goals
    simp only [hc, if_true, if_false, set_interval, set_constraint]
    by_cases a : m.engine.reg_hasco m.rs1 = 0 <;> by_cases b : m.engine.reg_hasco m.rs2 = 0 <;>
      by_cases c : m.engine.reg_hasmn m.rs1 = 0 <;> by_cases d : m.engine.reg_hasmn m.rs2 = 0 <;>
      simp [a, b, c, d, store_word]

theorem constrain_sub_integers (m : Machine) (hrd : m.rd ≠ REG_ZR)
    (ht1 : m.engine.reg_typ m.rs1 = 0) (ht2 : m.engine.reg_typ m.rs2 = 0) :
    (((m.engine.reg_hasco m.rs1 ≠ 0 ∧ m.engine.reg_hasco m.rs2 = 0 ∧
          m.engine.reg_hasmn m.rs1 ≠ 0) ∨
        (m.engine.reg_hasco m.rs1 = 0 ∧ m.engine.reg_hasco m.rs2 ≠ 0 ∧
          m.engine.reg_hasmn m.rs2 ≠ 0)) →
      constrain_sub m = .error EXITCODE_SYMBOLICEXECUTIONERROR) ∧
    (¬ ((m.engine.reg_hasco m.rs1 ≠ 0 ∧ m.engine.reg_hasco m.rs2 = 0 ∧
          m.engine.reg_hasmn m.rs1 ≠ 0) ∨
        (m.engine.reg_hasco m.rs1 = 0 ∧ m.engine.reg_hasco m.rs2 ≠ 0 ∧
          m.engine.reg_hasmn m.rs2 ≠ 0)) →
      ∃ m', constrain_sub m = .ok m' ∧ m'.engine.reg_typ m.rd = 0 ∧
        m'.engine.reg_los m.rd =
          (if combined_cardinality (m.engine.reg_los m.rs1) (m.engine.reg_ups m.rs1)
              (m.engine.reg_los m.rs2) (m.engine.reg_ups m.rs2) = 0 then 0
            else sub32 (m.engine.reg_los m.rs1) (m.engine.reg_ups m.rs2)) ∧
        m'.engine.reg_ups m.rd =
          (if combined_cardinality (m.engine.reg_los m.rs1) (m.engine.reg_ups m.rs1)
              (m.engine.reg_los m.rs2) (m.engine.reg_ups m.rs2) = 0 then UINT32_MAX
            else sub32 (m.engine.reg_ups m.rs1) (m.engine.reg_los m.rs2))) := by
  unfold constrain_sub
  rw [if_pos hrd, if_neg (not_not.2 ht1), if_neg (not_not.2 ht2)]
  by_cases hc : combined_cardinality (m.engine.reg_los m.rs1) (m.engine.reg_ups m.rs1)
      (m.engine.reg_los m.rs2) (m.engine.reg_ups m.rs2) = 0
  all_goals
    simp only [hc, if_true, if_false, set_interval, set_constraint]
    by_cases a : m.engine.reg_hasco m.rs1 = 0 <;> by_cases b : m.engine.reg_hasco m.rs2 = 0 <;>
      by_cases c : m.engine.reg_hasmn m.rs1 = 0 <;> by_cases d : m.engine.reg_hasmn m.rs2 = 0 <;>
      simp [a, b, c, d, store_word]

/-- C36: interval addition and subtraction are sound.  Let `rd` not be the zero
register and let `rs1` and `rs2` hold integers (type 0) with the intervals
`[lo1, up1]` and `[lo2, up2]` of machine words, wrapped or not, and let `x` lie in
the first and `y` in the second.  `combined_cardinality` returns 0 exactly when the
sizes of the two intervals sum to at least `2^32`.  `constrain_add` and
`constrain_sub` exit when the only operand with a constraint has a minuend, and
otherwise return with an integer interval for `rd` that contains `(x + y) mod 2^32`
respectively `(x - y) mod 2^32`, and that is the full range `[0, 2^32 - 1]` exactly
when `combined_cardinality` returns 0. -/
theorem interval_addition_subtraction_sound (m : Machine) (x y : Nat)
    (hrd : m.rd ≠ REG_ZR)
    (ht1 : m.engine.reg_typ m.rs1 = 0) (ht2 : m.engine.reg_typ m.rs2 = 0)
    (h1 : m.engine.reg_los m.rs1 < 4294967296) (h2 : m.engine.reg_ups m.rs1 < 4294967296)
    (h3 : m.engine.reg_los m.rs2 < 4294967296) (h4 : m.engine.reg_ups m.rs2 < 4294967296)
    (hx : x < 4294967296) (hy : y < 4294967296)
    (cx : interval_contains (m.engine.reg_los m.rs1) (m.engine.reg_ups m.rs1) x)
    (cy : interval_contains (m.engine.reg_los m.rs2) (m.engine.reg_ups m.rs2) y) :
    (combined_cardinality (m.engine.reg_los m.rs1) (m.engine.reg_ups m.rs1)
        (m.engine.reg_los m.rs2) (m.engine.reg_ups m.rs2) = 0 ↔
      4294967296 ≤ interval_size (m.engine.reg_los m.rs1) (m.engine.reg_ups m.rs1) +
        interval_size (m.engine.reg_los m.rs2) (m.engine.reg_ups m.rs2)) ∧
    (((m.engine.reg_hasco m.rs1 ≠ 0 ∧ m.engine.reg_hasco m.rs2 = 0 ∧
          m.engine.reg_hasmn m.rs1 ≠ 0) ∨
        (m.engine.reg_hasco m.rs1 = 0 ∧ m.engine.reg_hasco m.rs2 ≠ 0 ∧
          m.engine.reg_hasmn m.rs2 ≠ 0)) →
      constrain_add m = .error EXITCODE_SYMBOLICEXECUTIONERROR ∧
      constrain_sub m = .error EXITCODE_SYMBOLICEXECUTIONERROR) ∧
    (¬ ((m.engine.reg_hasco m.rs1 ≠ 0 ∧ m.engine.reg_hasco m.rs2 = 0 ∧
          m.engine.reg_hasmn m.rs1 ≠ 0) ∨
        (m.engine.reg_hasco m.rs1 = 0 ∧ m.engine.reg_hasco m.rs2 ≠ 0 ∧
          m.engine.reg_hasmn m.rs2 ≠ 0)) →
      ∃ ma ms, constrain_add m = .ok ma ∧ constrain_sub m = .ok ms ∧
        ma.engine.reg_typ m.rd = 0 ∧ ms.engine.reg_typ m.rd = 0 ∧
        interval_contains (ma.engine.reg_los m.rd) (ma.engine.reg_ups m.rd) (add32 x y) ∧
        interval_contains (ms.engine.reg_los m.rd) (ms.engine.reg_ups m.rd) (sub32 x y) ∧
        ((ma.engine.reg_los m.rd = 0 ∧ ma.engine.reg_ups m.rd = UINT32_MAX) ↔
          combined_cardinality (m.engine.reg_los m.rs1) (m.engine.reg_ups m.rs1)
            (m.engine.reg_los m.rs2) (m.engine.reg_ups m.rs2) = 0) ∧
        ((ms.engine.reg_los m.rd = 0 ∧ ms.engine.reg_ups m.rd = UINT32_MAX) ↔
          combined_cardinality (m.engine.reg_los m.rs1) (m.engine.reg_ups m.rs1)
            (m.engine.reg_los m.rs2) (m.engine.reg_ups m.rs2) = 0)) := by
  have hcc := combined_cardinality_zero (m.engine.reg_los m.rs1) (m.engine.reg_ups m.rs1)
    (m.engine.reg_los m.rs2) (m.engine.reg_ups m.rs2)
  obtain ⟨ea, ra⟩ := constrain_add_integers m hrd ht1 ht2
  obtain ⟨es, rs⟩ := constrain_sub_integers m hrd ht1 ht2
  refine ⟨hcc, fun h => ⟨ea h, es h⟩, fun h => ?_⟩
  obtain ⟨ma, hma, ta, la, ua⟩ := ra h
  obtain ⟨ms, hms, ts, ls, us⟩ := rs h
  refine ⟨ma, ms, hma, hms, ta, ts, ?_⟩
  rw [la, ua, ls, us]
  by_cases hc : combined_cardinality (m.engine.reg_los m.rs1) (m.engine.reg_ups m.rs1)
      (m.engine.reg_los m.rs2) (m.engine.reg_ups m.rs2) = 0
  · simp only [hc, if_true, and_self, iff_true]
    rw [uint32_max_eq]
    exact ⟨full_interval_contains _ (add32_lt _ _), full_interval_contains _ (sub32_lt _ _),
      trivial⟩
  · simp only [hc, if_false, iff_false]
    have hs : interval_size (m.engine.reg_los m.rs1) (m.engine.reg_ups m.rs1) +
        interval_size (m.engine.reg_los m.rs2) (m.engine.reg_ups m.rs2) < 4294967296 := by
      by_contra hh
      exact hc (hcc.2 (by omega))
    obtain ⟨a1, a2⟩ := interval_add_contains _ _ _ _ x y h1 h2 h3 h4 hx hy hs cx cy
    obtain ⟨s1, s2⟩ := interval_sub_contains _ _ _ _ x y h1 h2 h3 h4 hx hy hs cx cy
    rw [uint32_max_eq]
    exact ⟨a1, s1, a2, s2⟩

/-- Witness for C36: with the wrapped interval `[2^32 - 6, 5]` in `rs1` and `[10, 20]`
in `rs2`, `x = 2` and `y = 15`, the sum gets the interval `[4, 25]` and the
difference the wrapped interval `[2^32 - 26, 2^32 - 5]`. -/
theorem interval_addition_subtraction_sound_witness :
    (interval_contains 4294967290 5 2 ∧ interval_contains 10 20 15) ∧
    (∃ ma, constrain_add interval_operands_machine = .ok ma ∧
      ma.engine.reg_los 5 = 4 ∧ ma.engine.reg_ups 5 = 25 ∧ interval_contains 4 25 (add32 2 15)) ∧
    (∃ ms, constrain_sub interval_operands_machine = .ok ms ∧
      ms.engine.reg_los 5 = 4294967270 ∧ ms.engine.reg_ups 5 = 4294967291 ∧
      interval_contains 4294967270 4294967291 (sub32 2 15)) := by
  have cx : interval_contains 4294967290 5 2 := by
    unfold interval_contains
    decide
  have cy : interval_contains 10 20 15 := by
    unfold interval_contains
    decide
  have h := (interval_addition_subtraction_sound interval_operands_machine 2 15 (by decide) rfl
    rfl (by decide) (by decide) (by decide) (by decide) (by decide) (by decide) cx cy).2.2
    (by decide)
  obtain ⟨ma, ms, hma, hms, _, _, ca, cs, _, _⟩ := h
  have ea : constrain_add interval_operands_machine = .ok ma := hma
  have es : constrain_sub interval_operands_machine = .ok ms := hms
  have ea2 : ∃ m', constrain_add interval_operands_machine = .ok m' ∧
      m'.engine.reg_los 5 = 4 ∧ m'.engine.reg_ups 5 = 25 := ⟨_, rfl, rfl, rfl⟩
  have es2 : ∃ m', constrain_sub interval_operands_machine = .ok m' ∧
      m'.engine.reg_los 5 = 4294967270 ∧ m'.engine.reg_ups 5 = 4294967291 := ⟨_, rfl, rfl, rfl⟩
  obtain ⟨ma2, e1, l1, u1⟩ := ea2
  obtain ⟨ms2, e2, l2, u2⟩ := es2
  have ia : ma = ma2 := Except.ok.inj (ea.symm.trans e1)
  have is : ms = ms2 := Except.ok.inj (es.symm.trans e2)
  subst ia
  subst is
  refine ⟨⟨cx, cy⟩, ⟨ma, ea, l1, u1, ?_⟩, ⟨ms, es, l2, u2, ?_⟩⟩
  · have e : (interval_operands_machine.rd) = 5 := rfl
    rw [e, l1, u1] at ca
    exact ca
  · have e : (interval_operands_machine.rd) = 5 := rfl
    rw [e, l2, u2] at cs
    exact cs

/-! ## Interval multiplication -/

theorem constrain_mul_integers (m : Machine) (hrd : m.rd ≠ REG_ZR) :
    (((m.engine.reg_hasco m.rs1 ≠ 0 ∧
          (m.engine.reg_hasco m.rs2 ≠ 0 ∨ m.engine.reg_hasmn m.rs1 ≠ 0)) ∨
        (m.engine.reg_hasco m.rs1 = 0 ∧ m.engine.reg_hasco m.rs2 ≠ 0 ∧
          m.engine.reg_hasmn m.rs2 ≠ 0)) →
      constrain_mul m = .error EXITCODE_SYMBOLICEXECUTIONERROR) ∧
    (¬ ((m.engine.reg_hasco m.rs1 ≠ 0 ∧
          (m.engine.reg_hasco m.rs2 ≠ 0 ∨ m.engine.reg_hasmn m.rs1 ≠ 0)) ∨
        (m.engine.reg_hasco m.rs1 = 0 ∧ m.engine.reg_hasco m.rs2 ≠ 0 ∧
          m.engine.reg_hasmn m.rs2 ≠ 0)) →
      ∃ m', constrain_mul m = .ok m' ∧ m'.engine.reg_typ m.rd = 0 ∧
        m'.engine.reg_los m.rd = mul32 (m.engine.reg_los m.rs1) (m.engine.reg_los m.rs2) ∧
        m'.engine.reg_ups m.rd = mul32 (m.engine.reg_ups m.rs1) (m.engine.reg_ups m.rs2)) := by
  unfold constrain_mul
  rw [if_pos hrd]
  simp only [set_interval, set_constraint]
  by_cases a : m.engine.reg_hasco m.rs1 = 0 <;> by_cases b : m.engine.reg_hasco m.rs2 = 0 <;>
    by_cases c : m.engine.reg_hasmn m.rs1 = 0 <;> by_cases d : m.engine.reg_hasmn m.rs2 = 0 <;>
    simp [a, b, c, d, store_word]

theorem interval_mul_contains (lo1 up1 lo2 up2 x y : Nat)
    (hu : up1 * up2 < 4294967296)
    (cx : lo1 ≤ x ∧ x ≤ up1) (cy : lo2 ≤ y ∧ y ≤ up2) :
    interval_contains (mul32 lo1 lo2) (mul32 up1 up2) (mul32 x y) := by
  have a : lo1 * lo2 ≤ x * y := Nat.mul_le_mul cx.1 cy.1
  have b : x * y ≤ up1 * up2 := Nat.mul_le_mul cx.2 cy.2
  unfold interval_contains mul32
  rw [Nat.mod_eq_of_lt (by omega), Nat.mod_eq_of_lt hu, Nat.mod_eq_of_lt (by omega),
    if_pos (by omega)]
  exact ⟨a, b⟩

/-- C37: the interval that `constrain_mul` gives the product.  When `rd` is not the
zero register, `constrain_mul` exits when both operands have a constraint or the only
operand with a constraint has a minuend, and otherwise returns with the integer
interval `[lo1 * lo2, up1 * up2]` for `rd`, the products taken modulo `2^32`.  For
intervals that are not wrapped this interval contains `(x * y) mod 2^32` for all `x`
in the first and `y` in the second when `up1 * up2` is below `2^32`; the product of
the upper bounds is not tested for overflow. -/
theorem interval_multiplication (m : Machine) (hrd : m.rd ≠ REG_ZR) :
    (((m.engine.reg_hasco m.rs1 ≠ 0 ∧
          (m.engine.reg_hasco m.rs2 ≠ 0 ∨ m.engine.reg_hasmn m.rs1 ≠ 0)) ∨
        (m.engine.reg_hasco m.rs1 = 0 ∧ m.engine.reg_hasco m.rs2 ≠ 0 ∧
          m.engine.reg_hasmn m.rs2 ≠ 0)) →
      constrain_mul m = .error EXITCODE_SYMBOLICEXECUTIONERROR) ∧
    (¬ ((m.engine.reg_hasco m.rs1 ≠ 0 ∧
          (m.engine.reg_hasco m.rs2 ≠ 0 ∨ m.engine.reg_hasmn m.rs1 ≠ 0)) ∨
        (m.engine.reg_hasco m.rs1 = 0 ∧ m.engine.reg_hasco m.rs2 ≠ 0 ∧
          m.engine.reg_hasmn m.rs2 ≠ 0)) →
      ∃ m', constrain_mul m = .ok m' ∧ m'.engine.reg_typ m.rd = 0 ∧
        m'.engine.reg_los m.rd = mul32 (m.engine.reg_los m.rs1) (m.engine.reg_los m.rs2) ∧
        m'.engine.reg_ups m.rd = mul32 (m.engine.reg_ups m.rs1) (m.engine.reg_ups m.rs2) ∧
        (m.engine.reg_ups m.rs1 * m.engine.reg_ups m.rs2 < 4294967296 →
          ∀ x y, m.engine.reg_los m.rs1 ≤ x ∧ x ≤ m.engine.reg_ups m.rs1 →
            m.engine.reg_los m.rs2 ≤ y ∧ y ≤ m.engine.reg_ups m.rs2 →
            interval_contains (m'.engine.reg_los m.rd) (m'.engine.reg_ups m.rd)
              (mul32 x y))) := by
  obtain ⟨e, r⟩ := constrain_mul_integers m hrd
  refine ⟨e, fun h => ?_⟩
  obtain ⟨m', hm, t, l, u⟩ := r h
  refine ⟨m', hm, t, l, u, fun hu x y cx cy => ?_⟩
  rw [l, u]
  exact interval_mul_contains _ _ _ _ x y hu cx cy

/-- Witness for C37: with the interval `[0, 2]` in `rs1` and the single value
`3 * 2^30` in `rs2`, neither wrapped, `constrain_mul` gives `rd` the interval
`[0, 2^31]`, which does not contain the product `3 * 2^30` of `x = 1` and
`y = 3 * 2^30`. -/
theorem interval_multiplication_witness :
    product_operands_machine.rd ≠ REG_ZR ∧
    (0 ≤ 1 ∧ 1 ≤ 2) ∧ (3221225472 ≤ 3221225472 ∧ 3221225472 ≤ 3221225472) ∧
    (∃ m', constrain_mul product_operands_machine = .ok m' ∧
      m'.engine.reg_los 5 = 0 ∧ m'.engine.reg_ups 5 = 2147483648) ∧
    mul32 1 3221225472 = 3221225472 ∧
    ¬ interval_contains 0 2147483648 (mul32 1 3221225472) := by
  obtain ⟨m', hm, _, l, u, _⟩ :=
    (interval_multiplication product_operands_machine (by decide)).2 (by decide)
  refine ⟨by decide, by decide, by decide, ⟨m', hm, ?_, ?_⟩, by decide, ?_⟩
  · exact l
  · exact u
  · unfold interval_contains
    decide

/-! ## Symbolic stores and their backtracking -/

theorem load_store_virtual_memory (memory pt : Nat → Nat) (vaddr data : Nat) :
    load_virtual_memory (store_virtual_memory memory pt vaddr data) pt vaddr = data := by
  unfold load_virtual_memory store_virtual_memory
  exact store_word_same _ _ _

/-- C34: symbolic stores overwrite or append, within the trace budget.  Let `vaddr`
be a valid, mapped address that is not a register index (`vaddr >= 32`) and whose
slot holds a trace index `mrvc <= tc`, let `tc < MAX_TRACE_LENGTH`, and let no
exception other than MAXTRACE be pending.  Then `store_symbolic_memory` returns, and
the state it returns is: the state as it is when entry `mrvc` holds the same value,
type and bounds; otherwise, when `trb < mrvc`, the state with value, type and bounds
of entry `mrvc` overwritten; otherwise, when `tc + 1 < MAX_TRACE_LENGTH`, the state
with `tc + 1` as trace counter, the entry `tc + 1` holding the value, the type, the
bounds, `vaddr`, the current `pc` and the previous index `mrvc`, and the slot of
`vaddr` holding `tc + 1`; otherwise the state with the exception MAXTRACE raised and
nothing else changed.  In every case the trace counter stays below
`MAX_TRACE_LENGTH`. -/
theorem symbolic_store_overwrites_or_appends (m : Machine) (vaddr value type lo up trb : Nat)
    (_hvalid : is_valid_virtual_address vaddr ≠ 0)
    (_hmapped : is_virtual_address_mapped m.pt vaddr ≠ 0)
    (hv : NUMBEROFREGISTERS ≤ vaddr)
    (hmrvc : load_virtual_memory m.memory m.pt vaddr ≤ m.tc)
    (htc : m.tc < MAX_TRACE_LENGTH)
    (hex : m.exception = EXCEPTION_NOEXCEPTION ∨ m.exception = EXCEPTION_MAXTRACE) :
    ((value = m.values (load_virtual_memory m.memory m.pt vaddr) ∧
        type = m.engine.types (load_virtual_memory m.memory m.pt vaddr) ∧
        lo = m.engine.los (load_virtual_memory m.memory m.pt vaddr) ∧
        up = m.engine.ups (load_virtual_memory m.memory m.pt vaddr)) →
      store_symbolic_memory m vaddr value type lo up trb = .ok m) ∧
    (¬ (value = m.values (load_virtual_memory m.memory m.pt vaddr) ∧
        type = m.engine.types (load_virtual_memory m.memory m.pt vaddr) ∧
        lo = m.engine.los (load_virtual_memory m.memory m.pt vaddr) ∧
        up = m.engine.ups (load_virtual_memory m.memory m.pt vaddr)) →
      (trb < load_virtual_memory m.memory m.pt vaddr →
        store_symbolic_memory m vaddr value type lo up trb = .ok
          { m with
            values := store_word m.values (load_virtual_memory m.memory m.pt vaddr) value,
            engine := { m.engine with
              types := store_word m.engine.types (load_virtual_memory m.memory m.pt vaddr) type,
              los := store_word m.engine.los (load_virtual_memory m.memory m.pt vaddr) lo,
              ups := store_word m.engine.ups (load_virtual_memory m.memory m.pt vaddr) up } }) ∧
      (¬ trb < load_virtual_memory m.memory m.pt vaddr → m.tc + 1 < MAX_TRACE_LENGTH →
        store_symbolic_memory m vaddr value type lo up trb = .ok
          { m with
            tc := m.tc + 1,
            pcs := store_word m.pcs (m.tc + 1) m.pc,
            values := store_word m.values (m.tc + 1) value,
            memory := store_virtual_memory m.memory m.pt vaddr (m.tc + 1),
            engine := { m.engine with
              tcs := store_word m.engine.tcs (m.tc + 1) (load_virtual_memory m.memory m.pt vaddr),
              types := store_word m.engine.types (m.tc + 1) type,
              los := store_word m.engine.los (m.tc + 1) lo,
              ups := store_word m.engine.ups (m.tc + 1) up,
              vaddrs := store_word m.engine.vaddrs (m.tc + 1) vaddr } } ∧
        load_virtual_memory (store_virtual_memory m.memory m.pt vaddr (m.tc + 1)) m.pt vaddr =
          m.tc + 1) ∧
      (¬ trb < load_virtual_memory m.memory m.pt vaddr → ¬ m.tc + 1 < MAX_TRACE_LENGTH →
        store_symbolic_memory m vaddr value type lo up trb = .ok
          { m with exception := EXCEPTION_MAXTRACE, faulting_page := 0, trap := 1 })) ∧
    ∃ m', store_symbolic_memory m vaddr value type lo up trb = .ok m' ∧
      m'.tc < MAX_TRACE_LENGTH := by
  have hv0 : vaddr ≠ 0 := by
    unfold NUMBEROFREGISTERS at hv
    omega
  have hv1 : ¬ vaddr < NUMBEROFREGISTERS := by omega
  have htc' : m.tc < 100000 := htc
  have hadd : add32 m.tc 1 = m.tc + 1 := by
    unfold add32
    omega
  have hload : load_symbolic_memory m vaddr = .ok (load_virtual_memory m.memory m.pt vaddr) := by
    unfold load_symbolic_memory
    dsimp only
    rw [if_pos hmrvc]
  have hstore : store_symbolic_memory m vaddr value type lo up trb =
      if value = m.values (load_virtual_memory m.memory m.pt vaddr) ∧
          type = m.engine.types (load_virtual_memory m.memory m.pt vaddr) ∧
          lo = m.engine.los (load_virtual_memory m.memory m.pt vaddr) ∧
          up = m.engine.ups (load_virtual_memory m.memory m.pt vaddr) then .ok m
      else store_symbolic_memory_at m vaddr value type lo up trb
        (load_virtual_memory m.memory m.pt vaddr) := by
    unfold store_symbolic_memory
    rw [if_neg hv0, if_neg hv1, hload]
    rfl
  have hthrow : throw_exception EXCEPTION_MAXTRACE 0 m =
      .ok { m with exception := EXCEPTION_MAXTRACE, faulting_page := 0, trap := 1 } := by
    unfold throw_exception
    rcases hex with h | h
    · rw [if_neg (not_not.2 h)]
    · rw [if_pos (by rw [h]; decide), if_neg (not_not.2 h)]
  have hover : trb < load_virtual_memory m.memory m.pt vaddr →
      store_symbolic_memory_at m vaddr value type lo up trb
        (load_virtual_memory m.memory m.pt vaddr) = .ok
        { m with
          values := store_word m.values (load_virtual_memory m.memory m.pt vaddr) value,
          engine := { m.engine with
            types := store_word m.engine.types (load_virtual_memory m.memory m.pt vaddr) type,
            los := store_word m.engine.los (load_virtual_memory m.memory m.pt vaddr) lo,
            ups := store_word m.engine.ups (load_virtual_memory m.memory m.pt vaddr) up } } := by
    intro h
    unfold store_symbolic_memory_at
    rw [if_pos h]
  have happ : ¬ trb < load_virtual_memory m.memory m.pt vaddr → m.tc + 1 < MAX_TRACE_LENGTH →
      store_symbolic_memory_at m vaddr value type lo up trb
        (load_virtual_memory m.memory m.pt vaddr) = .ok
        { m with
          tc := m.tc + 1,
          pcs := store_word m.pcs (m.tc + 1) m.pc,
          values := store_word m.values (m.tc + 1) value,
          memory := store_virtual_memory m.memory m.pt vaddr (m.tc + 1),
          engine := { m.engine with
            tcs := store_word m.engine.tcs (m.tc + 1) (load_virtual_memory m.memory m.pt vaddr),
            types := store_word m.engine.types (m.tc + 1) type,
            los := store_word m.engine.los (m.tc + 1) lo,
            ups := store_word m.engine.ups (m.tc + 1) up,
            vaddrs := store_word m.engine.vaddrs (m.tc + 1) vaddr } } := by
    intro h hs
    unfold store_symbolic_memory_at is_trace_space_available
    rw [if_neg h, hadd, if_pos hs, if_pos (by decide)]
    dsimp only
    rw [if_neg hv1]
  have hmax : ¬ trb < load_virtual_memory m.memory m.pt vaddr → ¬ m.tc + 1 < MAX_TRACE_LENGTH →
      store_symbolic_memory_at m vaddr value type lo up trb
        (load_virtual_memory m.memory m.pt vaddr) = .ok
        { m with exception := EXCEPTION_MAXTRACE, faulting_page := 0, trap := 1 } := by
    intro h hs
    unfold store_symbolic_memory_at is_trace_space_available
    rw [if_neg h, hadd, if_neg hs, if_neg (by decide), hthrow]
  refine ⟨fun h => by rw [hstore, if_pos h], fun h => ⟨fun ht => ?_, fun ht hs => ⟨?_, ?_⟩,
    fun ht hs => ?_⟩, ?_⟩
  · rw [hstore, if_neg h]
    exact hover ht
  · rw [hstore, if_neg h]
    exact happ ht hs
  · exact load_store_virtual_memory _ _ _ _
  · rw [hstore, if_neg h]
    exact hmax ht hs
  · rw [hstore]
    by_cases h : value = m.values (load_virtual_memory m.memory m.pt vaddr) ∧
        type = m.engine.types (load_virtual_memory m.memory m.pt vaddr) ∧
        lo = m.engine.los (load_virtual_memory m.memory m.pt vaddr) ∧
        up = m.engine.ups (load_virtual_memory m.memory m.pt vaddr)
    · exact ⟨m, by rw [if_pos h], htc⟩
    · rw [if_neg h]
      by_cases ht : trb < load_virtual_memory m.memory m.pt vaddr
      · exact ⟨_, hover ht, htc⟩
      · by_cases hs : m.tc + 1 < MAX_TRACE_LENGTH
        · exact ⟨_, happ ht hs, hs⟩
        · exact ⟨_, hmax ht hs, htc⟩

set_option maxRecDepth 100000 in
/-- Witness for C34: the value 9 stored at `65536` with `trb = 4` is appended as
entry 6 of the trace, with the previous index 3 and the `pc` of the store, and the
slot of `65536` holds 6; stored with `trb = 2` it overwrites entry 3. -/
theorem symbolic_store_overwrites_or_appends_witness :
    (is_valid_virtual_address 65536 ≠ 0 ∧
      is_virtual_address_mapped symbolic_store_machine.pt 65536 ≠ 0 ∧
      NUMBEROFREGISTERS ≤ 65536 ∧
      load_virtual_memory symbolic_store_machine.memory symbolic_store_machine.pt 65536 ≤
        symbolic_store_machine.tc ∧
      symbolic_store_machine.tc < MAX_TRACE_LENGTH) ∧
    (∃ m', store_symbolic_memory symbolic_store_machine 65536 9 0 9 9 4 = .ok m' ∧
      m'.tc = 6 ∧ m'.values 6 = 9 ∧ m'.engine.tcs 6 = 3 ∧ m'.engine.vaddrs 6 = 65536 ∧
      m'.pcs 6 = 65540 ∧ load_virtual_memory m'.memory m'.pt 65536 = 6 ∧ m'.values 3 = 7) ∧
    (∃ m', store_symbolic_memory symbolic_store_machine 65536 9 0 9 9 2 = .ok m' ∧
      m'.tc = 5 ∧ m'.values 3 = 9 ∧ load_virtual_memory m'.memory m'.pt 65536 = 3) :=
  ⟨⟨by decide, by decide, by decide, by decide, by decide⟩,
    ⟨_, ((symbolic_store_overwrites_or_appends symbolic_store_machine 65536 9 0 9 9 4
      (by decide) (by decide) (by decide) (by decide) (by decide) (Or.inl rfl)).2.1
        (by decide)).2.1 (by decide) (by decide) |>.1, rfl, rfl, rfl, rfl, rfl, rfl, rfl⟩,
    ⟨_, rfl, rfl, rfl, rfl⟩⟩

theorem store_word_restore (a : Nat → Nat) (i v : Nat) :
    store_word (store_word a i v) i (a i) = a := by
  funext j
  unfold store_word
  split_ifs with h
  · rw [h]
  · rfl

/-- C35: backtracking undoes an appended store.  Let `vaddr` be a valid, mapped
address that is not a register index whose slot holds a trace index `mrvc <= tc`,
and let `store_symbolic_memory` append a trace entry for it: entry `mrvc` differs in
value, type or bounds, `trb` is not below `mrvc`, and `tc + 1 < MAX_TRACE_LENGTH`.
Then `backtrack_sw`, executed in the state that the store returns, gives the slot
of `vaddr` the trace index `mrvc` again and the trace counter the value `tc` again;
the whole memory, and with it every other slot, and the page table are as before the
store. -/
theorem backtrack_undoes_appended_store (m : Machine) (vaddr value type lo up trb : Nat)
    (_hvalid : is_valid_virtual_address vaddr ≠ 0)
    (_hmapped : is_virtual_address_mapped m.pt vaddr ≠ 0)
    (hv : NUMBEROFREGISTERS ≤ vaddr)
    (hmrvc : load_virtual_memory m.memory m.pt vaddr ≤ m.tc)
    (hdiff : ¬ (value = m.values (load_virtual_memory m.memory m.pt vaddr) ∧
        type = m.engine.types (load_virtual_memory m.memory m.pt vaddr) ∧
        lo = m.engine.los (load_virtual_memory m.memory m.pt vaddr) ∧
        up = m.engine.ups (load_virtual_memory m.memory m.pt vaddr)))
    (htrb : ¬ trb < load_virtual_memory m.memory m.pt vaddr)
    (hspace : m.tc + 1 < MAX_TRACE_LENGTH) :
    ∃ m', store_symbolic_memory m vaddr value type lo up trb = .ok m' ∧
      m'.tc = m.tc + 1 ∧ m'.engine.vaddrs m'.tc = vaddr ∧
      load_virtual_memory m'.memory m'.pt vaddr = m.tc + 1 ∧
      (backtrack_sw m').tc = m.tc ∧
      load_virtual_memory (backtrack_sw m').memory (backtrack_sw m').pt vaddr =
        load_virtual_memory m.memory m.pt vaddr ∧
      (backtrack_sw m').memory = m.memory ∧ (backtrack_sw m').pt = m.pt := by
  have hv0 : vaddr ≠ 0 := by
    unfold NUMBEROFREGISTERS at hv
    omega
  have hv1 : ¬ vaddr < NUMBEROFREGISTERS := by omega
  have hs' : m.tc + 1 < 100000 := hspace
  have hadd : add32 m.tc 1 = m.tc + 1 := by
    unfold add32
    omega
  have hsub : sub32 (m.tc + 1) 1 = m.tc := by
    unfold sub32
    omega
  have hload : load_symbolic_memory m vaddr = .ok (load_virtual_memory m.memory m.pt vaddr) := by
    unfold load_symbolic_memory
    dsimp only
    rw [if_pos hmrvc]
  have hstore : store_symbolic_memory m vaddr value type lo up trb = .ok
      { m with
        tc := m.tc + 1,
        pcs := store_word m.pcs (m.tc + 1) m.pc,
        values := store_word m.values (m.tc + 1) value,
        memory := store_virtual_memory m.memory m.pt vaddr (m.tc + 1),
        engine := { m.engine with
          tcs := store_word m.engine.tcs (m.tc + 1) (load_virtual_memory m.memory m.pt vaddr),
          types := store_word m.engine.types (m.tc + 1) type,
          los := store_word m.engine.los (m.tc + 1) lo,
          ups := store_word m.engine.ups (m.tc + 1) up,
          vaddrs := store_word m.engine.vaddrs (m.tc + 1) vaddr } } := by
    unfold store_symbolic_memory
    rw [if_neg hv0, if_neg hv1, hload]
    show (if _ then _ else _) = _
    rw [if_neg hdiff]
    unfold store_symbolic_memory_at is_trace_space_available
    rw [if_neg htrb, hadd, if_pos hspace, if_pos (by decide)]
    dsimp only
    rw [if_neg hv1]
  have hmem : store_virtual_memory (store_virtual_memory m.memory m.pt vaddr (m.tc + 1)) m.pt
      vaddr (load_virtual_memory m.memory m.pt vaddr) = m.memory := by
    unfold store_virtual_memory load_virtual_memory
    exact store_word_restore _ _ _
  refine ⟨_, hstore, rfl, ?_, load_store_virtual_memory _ _ _ _, ?_, ?_, ?_, rfl⟩
  · exact store_word_same _ _ _
  · exact hsub
  · show load_virtual_memory (store_virtual_memory
        (store_virtual_memory m.memory m.pt vaddr (m.tc + 1)) m.pt
        (store_word m.engine.vaddrs (m.tc + 1) vaddr (m.tc + 1))
        (store_word m.engine.tcs (m.tc + 1) (load_virtual_memory m.memory m.pt vaddr)
          (m.tc + 1))) m.pt vaddr = _
    rw [store_word_same, store_word_same, hmem]
  · show store_virtual_memory
        (store_virtual_memory m.memory m.pt vaddr (m.tc + 1)) m.pt
        (store_word m.engine.vaddrs (m.tc + 1) vaddr (m.tc + 1))
        (store_word m.engine.tcs (m.tc + 1) (load_virtual_memory m.memory m.pt vaddr)
          (m.tc + 1)) = _
    rw [store_word_same, store_word_same, hmem]

set_option maxRecDepth 100000 in
/-- Witness for C35: the store of 9 at `65536` with `trb = 4` appends entry 6; after
`backtrack_sw` the slot of `65536` holds 3 again and `tc` is 5 again. -/
theorem backtrack_undoes_appended_store_witness :
    (is_valid_virtual_address 65536 ≠ 0 ∧
      is_virtual_address_mapped symbolic_store_machine.pt 65536 ≠ 0 ∧
      NUMBEROFREGISTERS ≤ 65536 ∧
      load_virtual_memory symbolic_store_machine.memory symbolic_store_machine.pt 65536 ≤
        symbolic_store_machine.tc ∧
      ¬ 4 < load_virtual_memory symbolic_store_machine.memory symbolic_store_machine.pt 65536 ∧
      symbolic_store_machine.tc + 1 < MAX_TRACE_LENGTH) ∧
    ∃ m', store_symbolic_memory symbolic_store_machine 65536 9 0 9 9 4 = .ok m' ∧
      m'.tc = 6 ∧ load_virtual_memory m'.memory m'.pt 65536 = 6 ∧
      (backtrack_sw m').tc = 5 ∧
      load_virtual_memory (backtrack_sw m').memory (backtrack_sw m').pt 65536 = 3 ∧
      (backtrack_sw m').memory = symbolic_store_machine.memory := by
  obtain ⟨m', hs, t, _, l, bt, bl, bm, _⟩ :=
    backtrack_undoes_appended_store symbolic_store_machine 65536 9 0 9 9 4 (by decide)
      (by decide) (by decide) (by decide) (by decide) (by decide) (by decide)
  exact ⟨⟨by decide, by decide, by decide, by decide, by decide, by decide⟩,
    m', hs, t, l, bt, bl, bm⟩

/-! ## The case split of `sltu` -/

theorem same_registers_refl (m : Machine) : same_registers m m :=
  ⟨rfl, rfl, rfl, rfl, rfl, rfl, rfl, rfl, rfl, rfl, rfl, rfl⟩

theorem same_registers_trans (m m1 m2 : Machine) (h1 : same_registers m m1)
    (h2 : same_registers m1 m2) : same_registers m m2 := by
  obtain ⟨a1, a2, a3, a4, a5, a6, a7, a8, a9, a10, a11, a12⟩ := h1
  obtain ⟨b1, b2, b3, b4, b5, b6, b7, b8, b9, b10, b11, b12⟩ := h2
  exact ⟨b1.trans a1, b2.trans a2, b3.trans a3, b4.trans a4, b5.trans a5, b6.trans a6,
    b7.trans a7, b8.trans a8, b9.trans a9, b10.trans a10, b11.trans a11, b12.trans a12⟩

theorem throw_exception_same_registers (m m' : Machine) (e p : Nat)
    (h : throw_exception e p m = .ok m') : same_registers m m' := by
  unfold throw_exception at h
  split_ifs at h <;> cases h <;> exact same_registers_refl _

theorem store_symbolic_memory_at_registers (m m' : Machine)
    (vaddr value type lo up trb mrvc : Nat)
    (h : store_symbolic_memory_at m vaddr value type lo up trb mrvc = .ok m') :
    same_registers m m' := by
  unfold store_symbolic_memory_at at h
  dsimp only at h
  split_ifs at h
  · cases h
    exact same_registers_refl _
  · cases h
    exact same_registers_refl _
  · cases h
    exact same_registers_refl _
  · cases h
    exact same_registers_refl _
  · exact throw_exception_same_registers _ _ _ _ h

theorem store_symbolic_memory_registers (m m' : Machine) (vaddr value type lo up trb : Nat)
    (h : store_symbolic_memory m vaddr value type lo up trb = .ok m') :
    same_registers m m' := by
  unfold store_symbolic_memory at h
  split_ifs at h
  · exact store_symbolic_memory_at_registers _ _ _ _ _ _ _ _ _ h
  · exact store_symbolic_memory_at_registers _ _ _ _ _ _ _ _ _ h
  · obtain ⟨mrvc, _, h2⟩ := except_bind_inv _ _ _ h
    split_ifs at h2
    · cases h2
      exact same_registers_refl _
    · exact store_symbolic_memory_at_registers _ _ _ _ _ _ _ _ _ h2

theorem constrain_memory_registers (m m' : Machine) (reg lo up trb : Nat)
    (h : constrain_memory m reg lo up trb = .ok m') : same_registers m m' := by
  unfold constrain_memory store_constrained_memory at h
  dsimp only at h
  split_ifs at h
  all_goals first
    | (cases h; exact same_registers_refl _)
    | exact store_symbolic_memory_registers _ _ _ _ _ _ _ _ h

theorem take_branch_now (m : Machine) (b : Nat) :
    ∃ m', take_branch m b 0 = .ok m' ∧
      m'.registers = store_word m.registers m.rd b ∧
      m'.engine.reg_typ = store_word m.engine.reg_typ m.rd 0 ∧
      m'.engine.reg_los = store_word m.engine.reg_los m.rd b ∧
      m'.engine.reg_ups = store_word m.engine.reg_ups m.rd b ∧
      m'.engine.reg_hasco = store_word m.engine.reg_hasco m.rd 0 ∧
      m'.tc = m.tc ∧ m'.engine.mrcc = m.engine.mrcc ∧ m'.memory = m.memory :=
  ⟨_, rfl, rfl, rfl, rfl, rfl, rfl, rfl, rfl, rfl⟩

theorem create_constraints_no_split (m m' : Machine) (lo1 up1 lo2 up2 trb b : Nat)
    (h : (do
      let m ← constrain_memory m m.rs1 lo1 up1 trb
      let m ← constrain_memory m m.rs2 lo2 up2 trb
      take_branch m b 0) = .ok m') :
    m'.registers = store_word m.registers m.rd b ∧
    m'.engine.reg_typ = store_word m.engine.reg_typ m.rd 0 ∧
    m'.engine.reg_los = store_word m.engine.reg_los m.rd b ∧
    m'.engine.reg_ups = store_word m.engine.reg_ups m.rd b := by
  obtain ⟨m1, e1, h⟩ := except_bind_inv _ _ _ h
  obtain ⟨m2, e2, h⟩ := except_bind_inv _ _ _ h
  have s := same_registers_trans _ _ _ (constrain_memory_registers _ _ _ _ _ _ e1)
    (constrain_memory_registers _ _ _ _ _ _ e2)
  obtain ⟨a1, a2, _, _, a5, a6, a7, _⟩ := s
  obtain ⟨m3, e3, r, t, l, u, _⟩ := take_branch_now m2 b
  have e : m' = m3 := Except.ok.inj (h.symm.trans e3)
  rw [e, r, t, l, u, a1, a2, a5, a6, a7]
  exact ⟨rfl, rfl, rfl, rfl⟩

theorem store_register_memory_registers (m m' : Machine) (reg value : Nat)
    (h : store_register_memory m reg value = .ok m') : same_registers m m' :=
  store_symbolic_memory_registers _ _ _ _ _ _ _ _ h

theorem create_constraints_split (m m' : Machine) (a1 b1 a2 b2 c1 d1 c2 d2 trb : Nat)
    (h : (do
      let m ← constrain_memory m m.rs1 a1 b1 trb
      let m ← constrain_memory m m.rs2 a2 b2 trb
      let m ← store_register_memory m m.rd 0
      let m ← store_register_memory m REG_FP (m.registers REG_FP)
      let m ← store_register_memory m REG_SP (m.registers REG_SP)
      let m ← constrain_memory m m.rs1 c1 d1 trb
      let m ← constrain_memory m m.rs2 c2 d2 trb
      take_branch m 1 0) = .ok m') :
    m'.registers = store_word m.registers m.rd 1 ∧
    m'.engine.reg_typ = store_word m.engine.reg_typ m.rd 0 ∧
    m'.engine.reg_los = store_word m.engine.reg_los m.rd 1 ∧
    m'.engine.reg_ups = store_word m.engine.reg_ups m.rd 1 := by
  obtain ⟨m1, e1, h⟩ := except_bind_inv _ _ _ h
  obtain ⟨m2, e2, h⟩ := except_bind_inv _ _ _ h
  obtain ⟨m3, e3, h⟩ := except_bind_inv _ _ _ h
  obtain ⟨m4, e4, h⟩ := except_bind_inv _ _ _ h
  obtain ⟨m5, e5, h⟩ := except_bind_inv _ _ _ h
  obtain ⟨m6, e6, h⟩ := except_bind_inv _ _ _ h
  obtain ⟨m7, e7, h⟩ := except_bind_inv _ _ _ h
  have s := same_registers_trans _ _ _
    (same_registers_trans _ _ _
      (same_registers_trans _ _ _
        (same_registers_trans _ _ _
          (same_registers_trans _ _ _
            (same_registers_trans _ _ _ (constrain_memory_registers _ _ _ _ _ _ e1)
              (constrain_memory_registers _ _ _ _ _ _ e2))
            (store_register_memory_registers _ _ _ _ e3))
          (store_register_memory_registers _ _ _ _ e4))
        (store_register_memory_registers _ _ _ _ e5))
      (constrain_memory_registers _ _ _ _ _ _ e6))
    (constrain_memory_registers _ _ _ _ _ _ e7)
  obtain ⟨a1, a2, _, _, a5, a6, a7, _⟩ := s
  obtain ⟨m8, e8, r, t, l, u, _⟩ := take_branch_now m7 1
  have e : m' = m8 := Except.ok.inj (h.symm.trans e8)
  rw [e, r, t, l, u, a1, a2, a5, a6, a7]
  exact ⟨rfl, rfl, rfl, rfl⟩

/-- C33: the case split of `sltu` for two intervals `[lo1, up1]` and `[lo2, up2]` of
machine words that are not wrapped around.  `create_constraints` does not call
itself.  When `up1 < lo2` every `x` in the first interval is below every `y` in the
second; the procedure constrains the memory behind `rs1` and `rs2` to the intervals
as they are and sets `rd` to 1 with the interval `[1, 1]`, without recording a case.
When `up2 <= lo1` no `x` is below a `y`, and `rd` is set to 0 in the same way.  When
the intervals overlap and `lo2 = up2`, the procedure constrains `rs1` to
`[lo2, up1]`, records the false case (`rd = 0`, `fp`, `sp`) in the trace, constrains
`rs1` to `[lo1, lo2 - 1]` and sets `rd` to 1; the two intervals are disjoint, their
union is `[lo1, up1]`, no value of the first is below `lo2` and every value of the
second is.  When the intervals overlap, `lo2 < up2` and `lo1 = up1`, the same is
done with `[lo2, lo1]` and `[lo1 + 1, up2]` for `rs2`.  When the intervals overlap
and neither is a singleton the engine exits with EXITCODE_SYMBOLICEXECUTIONERROR. -/
theorem sltu_case_split (fuel : Nat) (m : Machine) (lo1 up1 lo2 up2 trb : Nat)
    (h1 : lo1 ≤ up1) (h2 : lo2 ≤ up2) (hu1 : up1 < 4294967296) (hu2 : up2 < 4294967296) :
    create_constraints (fuel + 1) m lo1 up1 lo2 up2 trb 0 =
      liftM (create_constraints_intervals m lo1 up1 lo2 up2 trb 0) ∧
    (up1 < lo2 →
      (∀ x y, lo1 ≤ x ∧ x ≤ up1 → lo2 ≤ y ∧ y ≤ up2 → x < y) ∧
      create_constraints_intervals m lo1 up1 lo2 up2 trb 0 = (do
        let m ← constrain_memory m m.rs1 lo1 up1 trb
        let m ← constrain_memory m m.rs2 lo2 up2 trb
        take_branch m 1 0) ∧
      ∀ m', create_constraints_intervals m lo1 up1 lo2 up2 trb 0 = .ok m' →
        m'.registers = store_word m.registers m.rd 1 ∧
        m'.engine.reg_typ = store_word m.engine.reg_typ m.rd 0 ∧
        m'.engine.reg_los = store_word m.engine.reg_los m.rd 1 ∧
        m'.engine.reg_ups = store_word m.engine.reg_ups m.rd 1) ∧
    (up2 ≤ lo1 →
      (∀ x y, lo1 ≤ x ∧ x ≤ up1 → lo2 ≤ y ∧ y ≤ up2 → ¬ x < y) ∧
      create_constraints_intervals m lo1 up1 lo2 up2 trb 0 = (do
        let m ← constrain_memory m m.rs1 lo1 up1 trb
        let m ← constrain_memory m m.rs2 lo2 up2 trb
        take_branch m 0 0) ∧
      ∀ m', create_constraints_intervals m lo1 up1 lo2 up2 trb 0 = .ok m' →
        m'.registers = store_word m.registers m.rd 0 ∧
        m'.engine.reg_typ = store_word m.engine.reg_typ m.rd 0 ∧
        m'.engine.reg_los = store_word m.engine.reg_los m.rd 0 ∧
        m'.engine.reg_ups = store_word m.engine.reg_ups m.rd 0) ∧
    (¬ up1 < lo2 → ¬ up2 ≤ lo1 → lo2 = up2 →
      (sub32 lo2 1 = lo2 - 1 ∧ lo1 ≤ lo2 - 1 ∧ lo2 ≤ up1 ∧
        (∀ x, lo1 ≤ x ∧ x ≤ up1 ↔ (lo2 ≤ x ∧ x ≤ up1) ∨ (lo1 ≤ x ∧ x ≤ lo2 - 1)) ∧
        (∀ x, ¬ ((lo2 ≤ x ∧ x ≤ up1) ∧ (lo1 ≤ x ∧ x ≤ lo2 - 1))) ∧
        (∀ x y, lo2 ≤ x ∧ x ≤ up1 → lo2 ≤ y ∧ y ≤ up2 → ¬ x < y) ∧
        (∀ x y, lo1 ≤ x ∧ x ≤ lo2 - 1 → lo2 ≤ y ∧ y ≤ up2 → x < y)) ∧
      create_constraints_intervals m lo1 up1 lo2 up2 trb 0 = (do
        let m ← constrain_memory m m.rs1 lo2 up1 trb
        let m ← constrain_memory m m.rs2 lo2 up2 trb
        let m ← store_register_memory m m.rd 0
        let m ← store_register_memory m REG_FP (m.registers REG_FP)
        let m ← store_register_memory m REG_SP (m.registers REG_SP)
        let m ← constrain_memory m m.rs1 lo1 (sub32 lo2 1) trb
        let m ← constrain_memory m m.rs2 lo2 up2 trb
        take_branch m 1 0) ∧
      ∀ m', create_constraints_intervals m lo1 up1 lo2 up2 trb 0 = .ok m' →
        m'.registers = store_word m.registers m.rd 1 ∧
        m'.engine.reg_typ = store_word m.engine.reg_typ m.rd 0 ∧
        m'.engine.reg_los = store_word m.engine.reg_los m.rd 1 ∧
        m'.engine.reg_ups = store_word m.engine.reg_ups m.rd 1) ∧
    (¬ up1 < lo2 → ¬ up2 ≤ lo1 → lo2 ≠ up2 → lo1 = up1 →
      (add32 lo1 1 = lo1 + 1 ∧ lo2 ≤ lo1 ∧ lo1 + 1 ≤ up2 ∧
        (∀ y, lo2 ≤ y ∧ y ≤ up2 ↔ (lo2 ≤ y ∧ y ≤ lo1) ∨ (lo1 + 1 ≤ y ∧ y ≤ up2)) ∧
        (∀ y, ¬ ((lo2 ≤ y ∧ y ≤ lo1) ∧ (lo1 + 1 ≤ y ∧ y ≤ up2))) ∧
        (∀ x y, lo1 ≤ x ∧ x ≤ up1 → lo2 ≤ y ∧ y ≤ lo1 → ¬ x < y) ∧
        (∀ x y, lo1 ≤ x ∧ x ≤ up1 → lo1 + 1 ≤ y ∧ y ≤ up2 → x < y)) ∧
      create_constraints_intervals m lo1 up1 lo2 up2 trb 0 = (do
        let m ← constrain_memory m m.rs1 lo1 up1 trb
        let m ← constrain_memory m m.rs2 lo2 lo1 trb
        let m ← store_register_memory m m.rd 0
        let m ← store_register_memory m REG_FP (m.registers REG_FP)
        let m ← store_register_memory m REG_SP (m.registers REG_SP)
        let m ← constrain_memory m m.rs1 lo1 up1 trb
        let m ← constrain_memory m m.rs2 (add32 lo1 1) up2 trb
        take_branch m 1 0) ∧
      ∀ m', create_constraints_intervals m lo1 up1 lo2 up2 trb 0 = .ok m' →
        m'.registers = store_word m.registers m.rd 1 ∧
        m'.engine.reg_typ = store_word m.engine.reg_typ m.rd 0 ∧
        m'.engine.reg_los = store_word m.engine.reg_los m.rd 1 ∧
        m'.engine.reg_ups = store_word m.engine.reg_ups m.rd 1) ∧
    (¬ up1 < lo2 → ¬ up2 ≤ lo1 → lo2 ≠ up2 → lo1 ≠ up1 →
      create_constraints_intervals m lo1 up1 lo2 up2 trb 0 =
        .error EXITCODE_SYMBOLICEXECUTIONERROR ∧
      create_constraints (fuel + 1) m lo1 up1 lo2 up2 trb 0 =
        exit_program EXITCODE_SYMBOLICEXECUTIONERROR) := by
  have hA : create_constraints (fuel + 1) m lo1 up1 lo2 up2 trb 0 =
      liftM (create_constraints_intervals m lo1 up1 lo2 up2 trb 0) := by
    rw [create_constraints, if_pos h1, if_pos h2]
  refine ⟨hA, fun c1 => ?_, fun c2 => ?_, fun c1 c2 c3 => ?_, fun c1 c2 c3 c4 => ?_,
    fun c1 c2 c3 c4 => ?_⟩
  · have e : create_constraints_intervals m lo1 up1 lo2 up2 trb 0 = (do
        let m ← constrain_memory m m.rs1 lo1 up1 trb
        let m ← constrain_memory m m.rs2 lo2 up2 trb
        take_branch m 1 0) := by
      unfold create_constraints_intervals
      rw [if_pos c1]
    refine ⟨fun x y hx hy => by omega, e, fun m' hm => ?_⟩
    rw [e] at hm
    exact create_constraints_no_split m m' _ _ _ _ _ 1 hm
  · have c1 : ¬ up1 < lo2 := by omega
    have e : create_constraints_intervals m lo1 up1 lo2 up2 trb 0 = (do
        let m ← constrain_memory m m.rs1 lo1 up1 trb
        let m ← constrain_memory m m.rs2 lo2 up2 trb
        take_branch m 0 0) := by
      unfold create_constraints_intervals
      rw [if_neg c1, if_pos c2]
    refine ⟨fun x y hx hy => by omega, e, fun m' hm => ?_⟩
    rw [e] at hm
    exact create_constraints_no_split m m' _ _ _ _ _ 0 hm
  · have e : create_constraints_intervals m lo1 up1 lo2 up2 trb 0 = (do
        let m ← constrain_memory m m.rs1 lo2 up1 trb
        let m ← constrain_memory m m.rs2 lo2 up2 trb
        let m ← store_register_memory m m.rd 0
        let m ← store_register_memory m REG_FP (m.registers REG_FP)
        let m ← store_register_memory m REG_SP (m.registers REG_SP)
        let m ← constrain_memory m m.rs1 lo1 (sub32 lo2 1) trb
        let m ← constrain_memory m m.rs2 lo2 up2 trb
        take_branch m 1 0) := by
      unfold create_constraints_intervals
      rw [if_neg c1, if_neg c2, if_pos c3]
    refine ⟨⟨?_, by omega, by omega, fun x => by omega, fun x => by omega,
      fun x y hx hy => by omega, fun x y hx hy => by omega⟩, e, fun m' hm => ?_⟩
    · unfold sub32
      omega
    · rw [e] at hm
      exact create_constraints_split m m' _ _ _ _ _ _ _ _ _ hm
  · have e : create_constraints_intervals m lo1 up1 lo2 up2 trb 0 = (do
        let m ← constrain_memory m m.rs1 lo1 up1 trb
        let m ← constrain_memory m m.rs2 lo2 lo1 trb
        let m ← store_register_memory m m.rd 0
        let m ← store_register_memory m REG_FP (m.registers REG_FP)
        let m ← store_register_memory m REG_SP (m.registers REG_SP)
        let m ← constrain_memory m m.rs1 lo1 up1 trb
        let m ← constrain_memory m m.rs2 (add32 lo1 1) up2 trb
        take_branch m 1 0) := by
      unfold create_constraints_intervals
      rw [if_neg c1, if_neg c2, if_neg c3, if_pos c4]
    refine ⟨⟨?_, by omega, by omega, fun x => by omega, fun x => by omega,
      fun x y hx hy => by omega, fun x y hx hy => by omega⟩, e, fun m' hm => ?_⟩
    · unfold add32
      omega
    · rw [e] at hm
      exact create_constraints_split m m' _ _ _ _ _ _ _ _ _ hm
  · have e : create_constraints_intervals m lo1 up1 lo2 up2 trb 0 =
        .error EXITCODE_SYMBOLICEXECUTIONERROR := by
      unfold create_constraints_intervals
      rw [if_neg c1, if_neg c2, if_neg c3, if_neg c4]
    refine ⟨e, ?_⟩
    rw [hA, e]
    rfl

set_option maxRecDepth 100000 in
/-- Witness for C33: `[0, 10]` in `rs1`, constrained to the value at `65536`, and
the singleton 5 in `rs2`.  The false case is recorded as the trace entries 6
(`[5, 10]` for the address `65536`), 7 (`rd = 0`), 8 (`fp`) and 9 (`sp`); the true
case is entry 10 (`[0, 4]` for the address `65536`), and `rd` is set to 1. -/
theorem sltu_case_split_witness :
    ((0 : Nat) ≤ 10 ∧ (5 : Nat) ≤ 5 ∧ (10 : Nat) < 4294967296 ∧ (5 : Nat) < 4294967296) ∧
    create_constraints (0 + 1) sltu_split_machine 0 10 5 5 2 0 =
      liftM (create_constraints_intervals sltu_split_machine 0 10 5 5 2 0) ∧
    ∃ m', create_constraints_intervals sltu_split_machine 0 10 5 5 2 0 = .ok m' ∧
      m'.registers 5 = 1 ∧ m'.tc = 10 ∧ m'.engine.mrcc = 9 ∧
      (m'.engine.vaddrs 6 = 65536 ∧ m'.engine.los 6 = 5 ∧ m'.engine.ups 6 = 10) ∧
      (m'.engine.vaddrs 7 = 5 ∧ m'.values 7 = 0) ∧
      (m'.engine.vaddrs 8 = 8 ∧ m'.values 8 = 2147483600) ∧
      (m'.engine.vaddrs 9 = 2 ∧ m'.values 9 = 2147483000) ∧
      (m'.engine.vaddrs 10 = 65536 ∧ m'.engine.los 10 = 0 ∧ m'.engine.ups 10 = 4) ∧
      load_virtual_memory m'.memory m'.pt 65536 = 10 :=
  ⟨⟨by decide, by decide, by decide, by decide⟩,
    (sltu_case_split 0 sltu_split_machine 0 10 5 5 2 (by decide) (by decide) (by decide)
      (by decide)).1,
    ⟨_, rfl, rfl, rfl, rfl, ⟨rfl, rfl, rfl⟩, ⟨rfl, rfl⟩, ⟨rfl, rfl⟩, ⟨rfl, rfl⟩,
      ⟨rfl, rfl, rfl⟩, rfl⟩⟩

/-! ## Chains of calls and their resolution -/

theorem code_address_in_jal_range (a : Nat) (ha : a ≤ MAX_CODE_LENGTH) : in_signed_range a 21 := by
  unfold MAX_CODE_LENGTH at ha
  rw [in_signed_range_iff a 21 (by decide) (by decide)]
  norm_num
  omega

theorem code_distance_in_jal_range (target a : Nat) (ht : target ≤ MAX_CODE_LENGTH)
    (ha : a < MAX_CODE_LENGTH) : in_signed_range (sub32 target a) 21 := by
  unfold MAX_CODE_LENGTH at ht ha
  rw [in_signed_range_iff _ 21 (by decide) (by decide)]
  norm_num
  unfold sub32
  omega

theorem call_chain_below (c : Compiler) (sites : List Nat) (a : Nat)
    (h : call_chain c (a :: sites)) : ∀ x, x ∈ sites → x < a ∧ x % 4 = 0 := by
  induction sites generalizing a with
  | nil =>
    intro x hx
    cases hx
  | cons b rest ih =>
    intro x hx
    obtain ⟨h1, _, _, _, h5⟩ := h
    have hb : b < a := h1
    rcases List.mem_cons.1 hx with e | e
    · rw [e]
      exact ⟨hb, h5.2.1⟩
    · have := ih b h5 x e
      exact ⟨by omega, this.2⟩

theorem call_chain_head (c : Compiler) (sites : List Nat) (h : call_chain c sites) :
    sites.headD 0 < MAX_CODE_LENGTH ∧ sites.headD 0 % 4 = 0 := by
  cases sites with
  | nil => exact ⟨by decide, by decide⟩
  | cons a rest => exact ⟨h.2.2.1, h.2.1⟩

theorem call_chain_congr (c c1 : Compiler) (sites : List Nat) (h : call_chain c sites)
    (he : ∀ x, x ∈ sites → c1.binary (x / 4) = c.binary (x / 4)) : call_chain c1 sites := by
  induction sites with
  | nil => trivial
  | cons a rest ih =>
    obtain ⟨h1, h2, h3, h4, h5⟩ := h
    refine ⟨h1, h2, h3, ?_, ih h5 (fun x hx => he x (List.mem_cons_of_mem _ hx))⟩
    have e : load_instruction c1 a = load_instruction c a := he a (List.mem_cons_self _ _)
    rw [e]
    exact h4

/-- What `fixlink_relative` does to a chain of calls. -/
theorem fixlink_relative_chain (target : Nat) (ht : target ≤ MAX_CODE_LENGTH)
    (ht2 : target % 2 = 0) (sites : List Nat) :
    ∀ (c : Compiler) (fuel : Nat), call_chain c sites → sites.length < fuel →
      ∃ c', fixlink_relative fuel c (sites.headD 0) target = .ok (some c') ∧
        c' = { c with binary := c'.binary } ∧
        (∀ a, a ∈ sites →
          encode_j_format (sub32 target a) REG_RA OP_JAL = .ok (load_instruction c' a) ∧
          get_immediate_j_format (load_instruction c' a) = sub32 target a ∧
          get_rd (load_instruction c' a) = REG_RA ∧
          get_opcode (load_instruction c' a) = OP_JAL) ∧
        ∀ i, (∀ a, a ∈ sites → i ≠ a / 4) → c'.binary i = c.binary i := by
  induction sites with
  | nil =>
    intro c fuel _ hf
    have hf0 : 0 < fuel := Nat.lt_of_le_of_lt (Nat.zero_le _) hf
    obtain ⟨f, rfl⟩ : ∃ f, fuel = f + 1 := ⟨fuel - 1, by omega⟩
    refine ⟨c, ?_, rfl, fun a ha => absurd ha (List.not_mem_nil _), fun i _ => rfl⟩
    rw [fixlink_relative]
    rfl
  | cons a rest ih =>
    intro c fuel hc hf
    have hlen : (a :: rest).length = rest.length + 1 := rfl
    rw [hlen] at hf
    obtain ⟨f, rfl⟩ : ∃ f, fuel = f + 1 := ⟨fuel - 1, by omega⟩
    have hf' : rest.length < f := by omega
    have hbelow := call_chain_below c rest a hc
    obtain ⟨h1, h2, h3, h4, h5⟩ := hc
    obtain ⟨p1, p2⟩ := call_chain_head c rest h5
    -- the word at `a`
    obtain ⟨w, hw, wi, wd, wo⟩ := j_format_round_trip (rest.headD 0) REG_RA OP_JAL
      (code_address_in_jal_range _ (Nat.le_of_lt p1)) (by decide) (by decide)
    have ew : load_instruction c a = w := Except.ok.inj (h4.symm.trans hw)
    have hprev : get_immediate_j_format (load_instruction c a) = rest.headD 0 := by
      rw [ew, wi]
      omega
    -- the word that replaces it
    obtain ⟨w', hw', wi', wd', wo'⟩ := j_format_round_trip (sub32 target a) REG_RA OP_JAL
      (code_distance_in_jal_range target a ht h3) (by decide) (by decide)
    have heven : sub32 target a % 2 = 0 := by
      unfold sub32
      unfold MAX_CODE_LENGTH at ht h3
      omega
    have hfix : fixup_relative_JFormat c a target =
        .ok { c with binary := fun i => if i = a / REGISTERSIZE then w' else c.binary i } := by
      unfold fixup_relative_JFormat
      dsimp only
      rw [ew, wd, wo, hw']
      show store_instruction c a w' = _
      unfold store_instruction
      rw [if_neg (Nat.not_le.2 h3)]
    have hc1 : call_chain
        { c with binary := fun i => if i = a / REGISTERSIZE then w' else c.binary i } rest := by
      refine call_chain_congr c _ rest h5 (fun x hx => ?_)
      have := hbelow x hx
      show (if x / 4 = a / REGISTERSIZE then w' else c.binary (x / 4)) = _
      rw [if_neg]
      unfold REGISTERSIZE
      omega
    obtain ⟨c', hr, hsame, hsites, hframe⟩ := ih _ f hc1 hf'
    refine ⟨c', ?_, ?_, ?_, ?_⟩
    · show fixlink_relative (f + 1) c a target = _
      rw [fixlink_relative, if_pos (show a ≠ 0 by omega)]
      dsimp only
      rw [hprev, hfix]
      exact hr
    · rw [hsame]
    · intro x hx
      rcases List.mem_cons.1 hx with e | e
      · subst e
        have hb : c'.binary (x / 4) = w' := by
          rw [hframe (x / 4) (fun y hy => by
            have := hbelow y hy
            omega)]
          show (if x / 4 = x / REGISTERSIZE then w' else c.binary (x / 4)) = w'
          exact if_pos rfl
        have hl : load_instruction c' x = w' := hb
        rw [hl]
        exact ⟨hw', by rw [wi']; omega, wd', wo'⟩
      · exact hsites x e
    · intro i hi
      rw [hframe i (fun y hy => hi y (List.mem_cons_of_mem _ hy))]
      show (if i = a / REGISTERSIZE then w' else c.binary i) = c.binary i
      exact if_neg (hi a (List.mem_cons_self _ _))

theorem emit_jal_extends_chain (c : Compiler) (sites : List Nat) (hc : call_chain c sites)
    (hp : sites.headD 0 < c.binary_length) (h4 : c.binary_length % 4 = 0)
    (hl : c.binary_length < MAX_CODE_LENGTH) :
    ∃ c1, emit_jal c REG_RA (sites.headD 0) = .ok c1 ∧
      c1.binary_length = c.binary_length + 4 ∧ call_chain c1 (c.binary_length :: sites) := by
  obtain ⟨p1, _⟩ := call_chain_head c sites hc
  obtain ⟨w, hw, _, _, _⟩ := j_format_round_trip (sites.headD 0) REG_RA OP_JAL
    (code_address_in_jal_range _ (Nat.le_of_lt p1)) (by decide) (by decide)
  obtain ⟨c1, he, hm, _⟩ := emit_instruction_emits c w hl
  have hj : emit_jal c REG_RA (sites.headD 0) = .ok { c1 with ic_jal := add32 c1.ic_jal 1 } := by
    unfold emit_jal
    rw [hw]
    show (emit_instruction c w >>= _) = _
    rw [he]
    rfl
  obtain ⟨m1, _, m3, m4⟩ := hm
  have hall : ∀ x, x ∈ sites → x < c.binary_length ∧ x % 4 = 0 := by
    cases sites with
    | nil =>
      intro x hx
      cases hx
    | cons b rest =>
      intro x hx
      have hb := call_chain_below c rest b hc
      have hbl : b < c.binary_length := hp
      rcases List.mem_cons.1 hx with e | e
      · rw [e]
        exact ⟨hbl, hc.2.1⟩
      · have := hb x e
        exact ⟨by omega, this.2⟩
  refine ⟨_, hj, m1, hp, h4, hl, ?_, ?_⟩
  · have e : load_instruction { c1 with ic_jal := add32 c1.ic_jal 1 } c.binary_length = w := by
      have := m3 0 (by simp)
      simpa [load_instruction, REGISTERSIZE] using this
    rw [e]
    exact hw
  · refine call_chain_congr c _ sites hc (fun x hx => ?_)
    have := hall x hx
    exact m4 (x / 4) (Or.inl (by omega))

/-- C31: chains of calls are resolved completely.  A chain is built by the calls to
a procedure that is not yet defined: `emit_jal(REG_RA, previous)` at the end of the
code, `previous` being the address of the call before (0 for the first call),
extends a chain by the address of the new `jal`.  For every chain `sites`, from the
most recent call back to the first, and every even `target` up to
`MAX_CODE_LENGTH`, `fixlink_relative(sites.head, target)` returns after following
the chain (more than `sites.length` iterations are enough) and leaves at every
address `a` of the chain the instruction `jal ra, target - a`: its immediate is
`target - a`, `rd` and the opcode are as before.  No other word of the binary and
nothing else in the state of the emitter is changed. -/
theorem fixlink_resolves_call_chain (c : Compiler) (sites : List Nat) (target fuel : Nat)
    (hchain : call_chain c sites) (ht : target ≤ MAX_CODE_LENGTH) (ht2 : target % 2 = 0)
    (hfuel : sites.length < fuel) :
    (sites.headD 0 < c.binary_length → c.binary_length % 4 = 0 →
      c.binary_length < MAX_CODE_LENGTH →
      ∃ c1, emit_jal c REG_RA (sites.headD 0) = .ok c1 ∧
        c1.binary_length = c.binary_length + 4 ∧ call_chain c1 (c.binary_length :: sites)) ∧
    ∃ c', fixlink_relative fuel c (sites.headD 0) target = .ok (some c') ∧
      c' = { c with binary := c'.binary } ∧
      (∀ a, a ∈ sites →
        encode_j_format (sub32 target a) REG_RA OP_JAL = .ok (load_instruction c' a) ∧
        get_immediate_j_format (load_instruction c' a) = sub32 target a ∧
        get_rd (load_instruction c' a) = get_rd (load_instruction c a) ∧
        get_opcode (load_instruction c' a) = get_opcode (load_instruction c a)) ∧
      ∀ i, (∀ a, a ∈ sites → i ≠ a / 4) → c'.binary i = c.binary i := by
  refine ⟨fun hp h4 hl => emit_jal_extends_chain c sites hchain hp h4 hl, ?_⟩
  obtain ⟨c', hr, hsame, hsites, hframe⟩ :=
    fixlink_relative_chain target ht ht2 sites c fuel hchain hfuel
  refine ⟨c', hr, hsame, fun a ha => ?_, hframe⟩
  obtain ⟨s1, s2, s3, s4⟩ := hsites a ha
  have hold : get_rd (load_instruction c a) = REG_RA ∧
      get_opcode (load_instruction c a) = OP_JAL := by
    have hword : ∀ l : List Nat, call_chain c l → a ∈ l →
        ∃ p, p < MAX_CODE_LENGTH ∧
          encode_j_format p REG_RA OP_JAL = .ok (load_instruction c a) := by
      intro l
      induction l with
      | nil =>
        intro _ h
        cases h
      | cons b rest ih =>
        intro hc hm
        rcases List.mem_cons.1 hm with e | e
        · rw [e]
          exact ⟨_, (call_chain_head c rest hc.2.2.2.2).1, hc.2.2.2.1⟩
        · exact ih hc.2.2.2.2 e
    obtain ⟨p, hp, he⟩ := hword sites hchain ha
    obtain ⟨w, hw, _, wd, wo⟩ := j_format_round_trip p REG_RA OP_JAL
      (code_address_in_jal_range _ (Nat.le_of_lt hp)) (by decide) (by decide)
    have e : load_instruction c a = w := Except.ok.inj (he.symm.trans hw)
    rw [e]
    exact ⟨wd, wo⟩
  exact ⟨s1, s2, by rw [s3, hold.1], by rw [s4, hold.2]⟩

/-- Witness for C31: three calls at the code addresses 8, 16 and 28, resolved to the
target 40: the immediates become 32, 24 and 12, and the word between the calls is
not touched. -/
theorem fixlink_resolves_call_chain_witness :
    (call_chain chained_calls_compiler [28, 16, 8] ∧ 40 ≤ MAX_CODE_LENGTH ∧ 40 % 2 = 0 ∧
      [28, 16, 8].length < 4) ∧
    ∃ c', fixlink_relative 4 chained_calls_compiler 28 40 = .ok (some c') ∧
      get_immediate_j_format (load_instruction c' 8) = 32 ∧
      get_immediate_j_format (load_instruction c' 16) = 24 ∧
      get_immediate_j_format (load_instruction c' 28) = 12 ∧
      load_instruction c' 12 = load_instruction chained_calls_compiler 12 := by
  have hc : call_chain chained_calls_compiler [28, 16, 8] :=
    ⟨by decide, by decide, by decide, rfl, by decide, by decide, by decide, rfl, by decide,
      by decide, by decide, rfl, trivial⟩
  obtain ⟨c', hr, _, hs, hf⟩ :=
    (fixlink_resolves_call_chain chained_calls_compiler [28, 16, 8] 40 4 hc (by decide)
      (by decide) (by decide)).2
  refine ⟨⟨hc, by decide, by decide, by decide⟩, c', hr, ?_, ?_, ?_, ?_⟩
  · exact (hs 8 (by simp)).2.1
  · exact (hs 16 (by simp)).2.1
  · exact (hs 28 (by simp)).2.1
  · exact hf 3 (fun a ha => by
      simp at ha
      rcases ha with e | e | e <;> rw [e] <;> decide)

/-! ## Prologue and epilogue of a procedure -/

theorem do_add_eq (m : Machine) :
    (do_add m).registers = (if m.rd ≠ REG_ZR then
        store_word m.registers m.rd (add32 (m.registers m.rs1) (m.registers m.rs2))
      else m.registers) ∧
    (do_add m).pc = add32 m.pc 4 ∧ (do_add m).memory = m.memory ∧ (do_add m).pt = m.pt := by
  unfold do_add
  by_cases h : m.rd = REG_ZR <;> simp [h, INSTRUCTIONSIZE]

theorem step_add (isw : Machine → Except Nat Machine) (m : Machine) (rd rs1 rs2 : Nat)
    (hd : rd < 32) (h1 : rs1 < 32) (h2 : rs2 < 32) (hz : rd ≠ REG_ZR)
    (hw : load_virtual_memory m.memory m.pt m.pc =
      encode_r_format F7_ADD rs2 rs1 F3_ADD rd OP_OP) :
    ∃ m', step isw m = .ok m' ∧
      m'.registers = store_word m.registers rd (add32 (m.registers rs1) (m.registers rs2)) ∧
      m'.pc = add32 m.pc 4 ∧ m'.memory = m.memory ∧ m'.pt = m.pt := by
  obtain ⟨e7, e2, e1, e3, ed, eo⟩ := r_format_round_trip F7_ADD rs2 rs1 F3_ADD rd OP_OP
    (by decide) h2 h1 (by decide) hd (by decide)
  have hir : (fetch m).ir = encode_r_format F7_ADD rs2 rs1 F3_ADD rd OP_OP := hw
  have f3 : get_funct3 (fetch m).ir = F3_ADD := by rw [hir]; exact e3
  have f7 : get_funct7 (fetch m).ir = F7_ADD := by rw [hir]; exact e7
  have hX : ∃ X : Machine, decode_execute isw (fetch m) = .ok (do_add X) ∧ X.rd = rd ∧
      X.rs1 = rs1 ∧ X.rs2 = rs2 ∧ X.registers = m.registers ∧ X.pc = m.pc ∧
      X.memory = m.memory ∧ X.pt = m.pt := by
    refine ⟨decode_r_format { fetch m with opcode := OP_OP }, ?_, ?_, ?_, ?_, rfl, rfl, rfl, rfl⟩
    · rw [decode_execute_op isw (fetch m) (by rw [hir]; exact eo), f3, f7,
        if_pos (show F3_ADD = F3_ADD from rfl), if_pos (show F7_ADD = F7_ADD from rfl)]
    · show get_rd (fetch m).ir = rd
      rw [hir]; exact ed
    · show get_rs1 (fetch m).ir = rs1
      rw [hir]; exact e1
    · show get_rs2 (fetch m).ir = rs2
      rw [hir]; exact e2
  obtain ⟨X, hde, xd, x1, x2, xr, xp, xm, xt⟩ := hX
  obtain ⟨dr, dp, dm, dt⟩ := do_add_eq X
  obtain ⟨m', hs, r', p', mem', pt'⟩ := step_of_decode_execute isw m _ hde
  refine ⟨m', hs, ?_, by rw [p', dp, xp], by rw [mem', dm, xm], by rw [pt', dt, xt]⟩
  rw [r', dr, xd, x1, x2, xr, if_pos hz]

theorem emit_add_emits (c : Compiler) (rd rs1 rs2 : Nat)
    (h : c.binary_length < MAX_CODE_LENGTH) :
    ∃ c', emit_add c rd rs1 rs2 = .ok c' ∧
      emits c c' [encode_r_format F7_ADD rs2 rs1 F3_ADD rd OP_OP] ∧
      c'.allocated_temporaries = c.allocated_temporaries := by
  obtain ⟨c1, he, hm, ht⟩ := emit_instruction_emits c _ h
  unfold emit_add
  rw [he]
  exact ⟨_, rfl, hm, ht⟩

theorem encode_i_format_range (imm rs1 funct3 rd opcode w : Nat) (h32 : imm < 4294967296)
    (h : encode_i_format imm rs1 funct3 rd opcode = .ok w) : in_signed_range imm 12 := by
  by_contra hn
  rw [encode_i_format_error imm rs1 funct3 rd opcode h32 hn] at h
  cases h

theorem encode_u_format_range (imm rd opcode w : Nat) (h32 : imm < 4294967296)
    (h : encode_u_format imm rd opcode = .ok w) : in_signed_range imm 20 := by
  by_contra hn
  rw [encode_u_format_error imm rd opcode h32 hn] at h
  cases h

theorem sign_extend_lt (n b : Nat) (hn : n < 4294967296) : sign_extend n b < 4294967296 := by
  unfold sign_extend
  split_ifs
  · exact hn
  · exact Nat.mod_lt _ (by decide)

/-- Running the instructions of `load_integer_code` changes the register `t` and
`pc` only. -/
theorem run_load_integer_code (isw : Machine → Except Nat Machine) (m : Machine)
    (t v : Nat) (ws : List Nat) (ht : t < 32) (ht0 : t ≠ REG_ZR) (hv : v < 4294967296)
    (hws : load_integer_code v t = .ok ws) (hpc : m.pc < 4294967296)
    (hload : ∀ i, i < ws.length →
      load_virtual_memory m.memory m.pt (add32 m.pc (4 * i)) = ws.getD i 0) :
    1 ≤ ws.length ∧ ws.length ≤ 3 ∧
    ∃ m', steps isw ws.length m = .ok m' ∧ m'.memory = m.memory ∧ m'.pt = m.pt ∧
      (∀ r, r ≠ t → m'.registers r = m.registers r) ∧
      m'.pc = add32 m.pc (4 * ws.length) := by
  unfold load_integer_code at hws
  split_ifs at hws with h12
  · obtain ⟨w, hw, h⟩ := except_bind_inv _ _ _ hws
    cases h
    have h0 := hload 0 (by simp)
    rw [Nat.mul_zero, add32_zero _ hpc] at h0
    obtain ⟨m1, s1, r1, p1, me1, pt1⟩ := step_addi isw m t REG_ZR v w ht (by decide)
      (encode_i_format_range _ _ _ _ _ _ hv hw) ht0 hw h0
    refine ⟨by simp, by simp, m1, ?_, me1, pt1, fun r hr => ?_, p1⟩
    · show steps isw 1 m = _
      rw [steps_succ isw 0 m m1 s1]
      rfl
    · rw [r1, store_word_ne _ _ _ _ hr]
  · dsimp only at hws
    obtain ⟨w0, hw0, h⟩ := except_bind_inv _ _ _ hws
    obtain ⟨w1, hw1, h⟩ := except_bind_inv _ _ _ h
    have hl12 : v % 4096 < 4294967296 := by omega
    have hu20 : (if v % 4096 < 2048 then v / 4096 else v / 4096 + 1) < 4294967296 := by
      split_ifs <;> omega
    have r0 := encode_u_format_range _ _ _ _ (sign_extend_lt _ 20 hu20) hw0
    have r1 := encode_i_format_range _ _ _ _ _ _ (sign_extend_lt _ 12 hl12) hw1
    by_cases hc : 2048 ≤ v % 4096 ∧
        (if v % 4096 < 2048 then v / 4096 else v / 4096 + 1) = 524288
    · rw [if_pos hc] at h
      cases h
      have h0 := hload 0 (by simp)
      rw [Nat.mul_zero, add32_zero _ hpc] at h0
      have h1 := hload 1 (by simp)
      have h2 := hload 2 (by simp)
      simp only [List.getD_cons_zero, List.getD_cons_succ] at h0 h1 h2
      obtain ⟨m1, s1, g1, p1, me1, pt1⟩ := step_lui isw m t _ w0 ht r0 ht0 hw0 h0
      have f1 : load_virtual_memory m1.memory m1.pt m1.pc =
          encode_r_format F7_SUB t REG_ZR F3_SUB t OP_OP := by
        rw [me1, pt1, p1]
        exact h1
      obtain ⟨m2, s2, g2, p2, me2, pt2⟩ := step_sub isw m1 t REG_ZR t ht (by decide) ht ht0 f1
      have f2 : load_virtual_memory m2.memory m2.pt m2.pc = w1 := by
        rw [me2, pt2, p2, me1, pt1, p1, add32_add32]
        exact h2
      obtain ⟨m3, s3, g3, p3, me3, pt3⟩ := step_addi isw m2 t t _ w1 ht ht r1 ht0 hw1 f2
      refine ⟨by simp, by simp, m3, ?_, by rw [me3, me2, me1], by rw [pt3, pt2, pt1],
        fun r hr => ?_, by rw [p3, p2, p1, add32_add32, add32_add32]; rfl⟩
      · show steps isw 3 m = _
        rw [steps_succ isw 2 m m1 s1, steps_succ isw 1 m1 m2 s2, steps_succ isw 0 m2 m3 s3]
        rfl
      · rw [g3, store_word_ne _ _ _ _ hr, g2, store_word_ne _ _ _ _ hr, g1,
          store_word_ne _ _ _ _ hr]
    · rw [if_neg hc] at h
      cases h
      have h0 := hload 0 (by simp)
      rw [Nat.mul_zero, add32_zero _ hpc] at h0
      have h1 := hload 1 (by simp)
      simp only [List.getD_cons_zero, List.getD_cons_succ] at h0 h1
      obtain ⟨m1, s1, g1, p1, me1, pt1⟩ := step_lui isw m t _ w0 ht r0 ht0 hw0 h0
      have f1 : load_virtual_memory m1.memory m1.pt m1.pc = w1 := by
        rw [me1, pt1, p1]
        exact h1
      obtain ⟨m2, s2, g2, p2, me2, pt2⟩ := step_addi isw m1 t t _ w1 ht ht r1 ht0 hw1 f1
      refine ⟨by simp, by simp, m2, ?_, by rw [me2, me1], by rw [pt2, pt1],
        fun r hr => ?_, by rw [p2, p1, add32_add32]; rfl⟩
      · show steps isw 2 m = _
        rw [steps_succ isw 1 m m1 s1, steps_succ isw 0 m1 m2 s2]
        rfl
      · rw [g2, store_word_ne _ _ _ _ hr, g1, store_word_ne _ _ _ _ hr]

theorem steps_append (isw : Machine → Except Nat Machine) (a b : Nat) (m m1 : Machine)
    (h : steps isw a m = .ok m1) : steps isw (a + b) m = steps isw b m1 := by
  induction a generalizing m with
  | zero =>
    cases h
    rw [Nat.zero_add]
  | succ a ih =>
    obtain ⟨m2, h2, h3⟩ := except_bind_inv (step isw m) (fun m => steps isw a m) m1 h
    rw [show a + 1 + b = (a + b) + 1 by omega, steps_succ isw (a + b) m m2 h2]
    exact ih m2 h3

theorem load_store_virtual_memory_ne (memory pt : Nat → Nat) (a b v : Nat)
    (h : tlb pt b ≠ tlb pt a) :
    load_virtual_memory (store_virtual_memory memory pt a v) pt b =
      load_virtual_memory memory pt b := by
  unfold load_virtual_memory store_virtual_memory
  exact store_word_ne _ _ _ _ h

/-- Running the first five instructions of the prologue: `ra` and `fp` are pushed
and `fp` becomes the stack pointer. -/
theorem run_prologue_frame (isw : Machine → Except Nat Machine) (m : Machine)
    (w0 w1 w2 w3 w4 : Nat)
    (e0 : encode_i_format (neg32 REGISTERSIZE) REG_SP F3_ADDI REG_SP OP_IMM = .ok w0)
    (e1 : encode_s_format 0 REG_RA REG_SP F3_SW OP_SW = .ok w1)
    (e2 : encode_i_format (neg32 REGISTERSIZE) REG_SP F3_ADDI REG_SP OP_IMM = .ok w2)
    (e3 : encode_s_format 0 REG_FP REG_SP F3_SW OP_SW = .ok w3)
    (e4 : encode_i_format 0 REG_SP F3_ADDI REG_FP OP_IMM = .ok w4)
    (hsp8 : 8 ≤ m.registers REG_SP) (hsp : m.registers REG_SP ≤ 2147483648)
    (hal : m.registers REG_SP % 4 = 0)
    (hm4 : m.pt ((m.registers REG_SP - 4) / 4096) ≠ 0)
    (hm8 : m.pt ((m.registers REG_SP - 8) / 4096) ≠ 0)
    (hcode : ∀ i, i < 5 →
      tlb m.pt (add32 m.pc (4 * i)) ≠ tlb m.pt (m.registers REG_SP - 4) ∧
      tlb m.pt (add32 m.pc (4 * i)) ≠ tlb m.pt (m.registers REG_SP - 8))
    (h0 : load_virtual_memory m.memory m.pt m.pc = w0)
    (h1 : load_virtual_memory m.memory m.pt (add32 m.pc 4) = w1)
    (h2 : load_virtual_memory m.memory m.pt (add32 m.pc 8) = w2)
    (h3 : load_virtual_memory m.memory m.pt (add32 m.pc 12) = w3)
    (h4 : load_virtual_memory m.memory m.pt (add32 m.pc 16) = w4) :
    ∃ m5, steps isw 5 m = .ok m5 ∧
      m5.registers REG_FP = m.registers REG_SP - 8 ∧
      m5.registers REG_SP = m.registers REG_SP - 8 ∧
      m5.memory = store_virtual_memory
        (store_virtual_memory m.memory m.pt (m.registers REG_SP - 4) (m.registers REG_RA))
        m.pt (m.registers REG_SP - 8) (m.registers REG_FP) ∧
      m5.pt = m.pt ∧ m5.pc = add32 m.pc 20 := by
  have s4 : add32 (m.registers REG_SP) (neg32 REGISTERSIZE) = m.registers REG_SP - 4 := by
    unfold add32 neg32 REGISTERSIZE
    omega
  have s8 : add32 (m.registers REG_SP - 4) (neg32 REGISTERSIZE) = m.registers REG_SP - 8 := by
    unfold add32 neg32 REGISTERSIZE
    omega
  have z4 : add32 (m.registers REG_SP - 4) 0 = m.registers REG_SP - 4 := by
    unfold add32
    omega
  have z8 : add32 (m.registers REG_SP - 8) 0 = m.registers REG_SP - 8 := by
    unfold add32
    omega
  -- addi sp,sp,-4
  obtain ⟨n1, t1, r1, p1, me1, pt1⟩ := step_addi isw m REG_SP REG_SP (neg32 REGISTERSIZE) w0
    (by decide) (by decide) minus_four_in_range (by decide) e0 h0
  rw [s4] at r1
  have sp1 : n1.registers REG_SP = m.registers REG_SP - 4 := by rw [r1, store_word_same]
  -- sw ra,0(sp)
  have f1 : load_virtual_memory n1.memory n1.pt n1.pc = w1 := by
    rw [me1, pt1, p1]
    exact h1
  obtain ⟨n2, t2, r2, p2, me2, pt2⟩ := step_sw isw n1 REG_SP REG_RA 0 w1 (by decide)
    (by decide) zero_in_signed_range e1 f1
    (by rw [sp1, z4]; exact ⟨by omega, by omega⟩) (by rw [sp1, z4, pt1]; exact hm4)
  rw [sp1, z4, me1, pt1, r1, store_word_ne _ _ _ _ (show REG_RA ≠ REG_SP by decide)] at me2
  have sp2 : n2.registers REG_SP = m.registers REG_SP - 4 := by rw [r2, sp1]
  -- addi sp,sp,-4
  have f2 : load_virtual_memory n2.memory n2.pt n2.pc = w2 := by
    rw [me2, pt2, pt1, p2, p1, add32_add32,
      load_store_virtual_memory_ne _ _ _ _ _ (hcode 2 (by decide)).1]
    exact h2
  obtain ⟨n3, t3, r3, p3, me3, pt3⟩ := step_addi isw n2 REG_SP REG_SP (neg32 REGISTERSIZE) w2
    (by decide) (by decide) minus_four_in_range (by decide) e2 f2
  rw [sp2, s8] at r3
  have sp3 : n3.registers REG_SP = m.registers REG_SP - 8 := by rw [r3, store_word_same]
  -- sw fp,0(sp)
  have f3 : load_virtual_memory n3.memory n3.pt n3.pc = w3 := by
    rw [me3, me2, pt3, pt2, pt1, p3, p2, p1, add32_add32, add32_add32,
      load_store_virtual_memory_ne _ _ _ _ _ (hcode 3 (by decide)).1]
    exact h3
  obtain ⟨n4, t4, r4, p4, me4, pt4⟩ := step_sw isw n3 REG_SP REG_FP 0 w3 (by decide)
    (by decide) zero_in_signed_range e3 f3
    (by rw [sp3, z8]; exact ⟨by omega, by omega⟩) (by rw [sp3, z8, pt3, pt2, pt1]; exact hm8)
  have fp3 : n3.registers REG_FP = m.registers REG_FP := by
    rw [r3, store_word_ne _ _ _ _ (show REG_FP ≠ REG_SP by decide), r2, r1,
      store_word_ne _ _ _ _ (show REG_FP ≠ REG_SP by decide)]
  rw [sp3, z8, me3, me2, pt3, pt2, pt1, fp3] at me4
  have sp4 : n4.registers REG_SP = m.registers REG_SP - 8 := by rw [r4, sp3]
  -- addi fp,sp,0
  have f4 : load_virtual_memory n4.memory n4.pt n4.pc = w4 := by
    rw [me4, pt4, pt3, pt2, pt1, p4, p3, p2, p1, add32_add32, add32_add32, add32_add32,
      load_store_virtual_memory_ne _ _ _ _ _ (hcode 4 (by decide)).2,
      load_store_virtual_memory_ne _ _ _ _ _ (hcode 4 (by decide)).1]
    exact h4
  obtain ⟨n5, t5, r5, p5, me5, pt5⟩ := step_addi isw n4 REG_FP REG_SP 0 w4
    (by decide) (by decide) zero_in_signed_range (by decide) e4 f4
  rw [sp4, z8] at r5
  refine ⟨n5, ?_, by rw [r5, store_word_same],
    by rw [r5, store_word_ne _ _ _ _ (show REG_SP ≠ REG_FP by decide), sp4],
    by rw [me5, me4], by rw [pt5, pt4, pt3, pt2, pt1],
    by rw [p5, p4, p3, p2, p1, add32_add32, add32_add32, add32_add32, add32_add32]⟩
  rw [steps_succ isw 4 m n1 t1, steps_succ isw 3 n1 n2 t2, steps_succ isw 2 n2 n3 t3,
    steps_succ isw 1 n3 n4 t4, steps_succ isw 0 n4 n5 t5]
  rfl

theorem current_temporary_not_frame (n : Nat) (h1 : 1 ≤ n) (h7 : n ≤ 7) :
    ∃ t, current_temporary n = .ok t ∧ t < 32 ∧ t ≠ REG_ZR ∧ t ≠ REG_SP ∧ t ≠ REG_FP := by
  interval_cases n
  · exact ⟨5, rfl, by decide, by decide, by decide, by decide⟩
  · exact ⟨6, rfl, by decide, by decide, by decide, by decide⟩
  · exact ⟨7, rfl, by decide, by decide, by decide, by decide⟩
  · exact ⟨28, rfl, by decide, by decide, by decide, by decide⟩
  · exact ⟨29, rfl, by decide, by decide, by decide, by decide⟩
  · exact ⟨30, rfl, by decide, by decide, by decide, by decide⟩
  · exact ⟨31, rfl, by decide, by decide, by decide, by decide⟩

/-- The code of `help_procedure_prologue`: it is emitted, and running it saves `ra`
and `fp` in the two words below `sp` and leaves `sp - 8` in `fp`. -/
theorem help_procedure_prologue_saves (isw : Machine → Except Nat Machine) (fuel : Nat)
    (s : Starc) (L : Nat)
    (ht : s.compiler.allocated_temporaries < NUMBEROFTEMPORARIES)
    (hl : s.compiler.binary_length + 36 ≤ MAX_CODE_LENGTH) :
    ∃ s1 k, help_procedure_prologue fuel s L = pure s1 ∧ 5 ≤ k ∧ k ≤ 9 ∧
      s1.compiler.binary_length = s.compiler.binary_length + 4 * k ∧
      ∀ m : Machine, frame_ready m k →
        code_loaded s1.compiler s.compiler.binary_length k m →
        ∃ m1, steps isw k m = .ok m1 ∧
          m1.registers REG_FP = m.registers REG_SP - 8 ∧
          m1.memory = store_virtual_memory
            (store_virtual_memory m.memory m.pt (m.registers REG_SP - 4) (m.registers REG_RA))
            m.pt (m.registers REG_SP - 8) (m.registers REG_FP) ∧
          m1.pt = m.pt ∧ m1.pc = add32 m.pc (4 * k) := by
  have hl' : s.compiler.binary_length + 36 ≤ 245760 := hl
  obtain ⟨w0, e0⟩ : ∃ w, encode_i_format (neg32 REGISTERSIZE) REG_SP F3_ADDI REG_SP OP_IMM =
      .ok w := ⟨_, encode_i_format_ok _ _ _ _ _ minus_four_in_range⟩
  obtain ⟨w1, e1⟩ : ∃ w, encode_s_format 0 REG_RA REG_SP F3_SW OP_SW = .ok w :=
    ⟨_, encode_s_format_ok _ _ _ _ _ zero_in_signed_range⟩
  obtain ⟨w3, e3⟩ : ∃ w, encode_s_format 0 REG_FP REG_SP F3_SW OP_SW = .ok w :=
    ⟨_, encode_s_format_ok _ _ _ _ _ zero_in_signed_range⟩
  obtain ⟨w4, e4⟩ : ∃ w, encode_i_format 0 REG_SP F3_ADDI REG_FP OP_IMM = .ok w :=
    ⟨_, encode_i_format_ok _ _ _ _ _ zero_in_signed_range⟩
  obtain ⟨c1, a1, m1, t1⟩ := emit_addi_emits s.compiler REG_SP REG_SP _ _ e0
    (by unfold MAX_CODE_LENGTH; omega)
  have b1 : c1.binary_length = s.compiler.binary_length + 4 := m1.1
  obtain ⟨c2, a2, m2, t2⟩ := emit_sw_emits c1 REG_SP 0 REG_RA _ e1
    (by unfold MAX_CODE_LENGTH; omega)
  have b2 : c2.binary_length = s.compiler.binary_length + 8 := by rw [m2.1, b1]; rfl
  obtain ⟨c3, a3, m3, t3⟩ := emit_addi_emits c2 REG_SP REG_SP _ _ e0
    (by unfold MAX_CODE_LENGTH; omega)
  have b3 : c3.binary_length = s.compiler.binary_length + 12 := by rw [m3.1, b2]; rfl
  obtain ⟨c4, a4, m4, t4⟩ := emit_sw_emits c3 REG_SP 0 REG_FP _ e3
    (by unfold MAX_CODE_LENGTH; omega)
  have b4 : c4.binary_length = s.compiler.binary_length + 16 := by rw [m4.1, b3]; rfl
  obtain ⟨c5, a5, m5, t5⟩ := emit_addi_emits c4 REG_FP REG_SP 0 _ e4
    (by unfold MAX_CODE_LENGTH; omega)
  have b5 : c5.binary_length = s.compiler.binary_length + 20 := by rw [m5.1, b4]; rfl
  have tc5 : c5.allocated_temporaries = s.compiler.allocated_temporaries := by
    rw [t5, t4, t3, t2, t1]
  have hem5 : emits s.compiler c5 [w0, w1, w0, w3, w4] :=
    emits_append _ _ _ [w0] [w1, w0, w3, w4] m1
      (emits_append _ _ _ [w1] [w0, w3, w4] m2
        (emits_append _ _ _ [w0] [w3, w4] m3 (emits_append _ _ _ [w3] [w4] m4 m5)))
  have x1 := emit_ok s (fun c => emit_addi c REG_SP REG_SP (neg32 REGISTERSIZE)) c1 a1
  have x2 := emit_ok { s with compiler := c1 } (fun c => emit_sw c REG_SP 0 REG_RA) c2 a2
  have x3 := emit_ok { s with compiler := c2 }
    (fun c => emit_addi c REG_SP REG_SP (neg32 REGISTERSIZE)) c3 a3
  have x4 := emit_ok { s with compiler := c3 } (fun c => emit_sw c REG_SP 0 REG_FP) c4 a4
  have x5 := emit_ok { s with compiler := c4 } (fun c => emit_addi c REG_FP REG_SP 0) c5 a5
  -- what the first five instructions do, for any code that starts with them
  have hfive : ∀ (c' : Compiler) (rest : List Nat) (m : Machine),
      emits s.compiler c' ([w0, w1, w0, w3, w4] ++ rest) →
      frame_ready m (5 + rest.length) →
      code_loaded c' s.compiler.binary_length (5 + rest.length) m →
      ∃ n5, steps isw 5 m = .ok n5 ∧
        n5.registers REG_FP = m.registers REG_SP - 8 ∧
        n5.registers REG_SP = m.registers REG_SP - 8 ∧
        n5.memory = store_virtual_memory
          (store_virtual_memory m.memory m.pt (m.registers REG_SP - 4) (m.registers REG_RA))
          m.pt (m.registers REG_SP - 8) (m.registers REG_FP) ∧
        n5.pt = m.pt ∧ n5.pc = add32 m.pc 20 ∧
        ∀ i, i < rest.length →
          load_virtual_memory n5.memory n5.pt (add32 n5.pc (4 * i)) = rest.getD i 0 := by
    intro c' rest m hem hfr hcl
    obtain ⟨hpc, hsp8, hsp, hal, hm4, hm8, _, hcode⟩ := hfr
    have hlen : ([w0, w1, w0, w3, w4] ++ rest).length = 5 + rest.length := by
      simp
      omega
    have hword : ∀ i, i < 5 + rest.length →
        load_virtual_memory m.memory m.pt (add32 m.pc (4 * i)) =
          ([w0, w1, w0, w3, w4] ++ rest).getD i 0 := by
      intro i hi
      exact code_loaded_word _ _ _ m i hem (by rw [hlen]; exact hi) (by rw [hlen]; exact hcl)
    have h0 := hword 0 (by omega)
    rw [Nat.mul_zero, add32_zero _ hpc] at h0
    have h1 := hword 1 (by omega)
    have h2 := hword 2 (by omega)
    have h3 := hword 3 (by omega)
    have h4 := hword 4 (by omega)
    obtain ⟨n5, st, fp5, sp5, me5, pt5, pc5⟩ := run_prologue_frame isw m w0 w1 w0 w3 w4 e0 e1 e0
      e3 e4 hsp8 hsp hal hm4 hm8 (fun i hi => hcode i (by omega)) h0 h1 h2 h3 h4
    refine ⟨n5, st, fp5, sp5, me5, pt5, pc5, fun i hi => ?_⟩
    have hw := hword (5 + i) (by omega)
    rw [me5, pt5, pc5, add32_add32, show 20 + 4 * i = 4 * (5 + i) by omega,
      load_store_virtual_memory_ne _ _ _ _ _ (hcode (5 + i) (by omega)).2,
      load_store_virtual_memory_ne _ _ _ _ _ (hcode (5 + i) (by omega)).1, hw,
      show 5 + i = i + 1 + 1 + 1 + 1 + 1 by omega]
    simp only [List.cons_append, List.nil_append, List.getD_cons_succ]
  by_cases hL0 : L > 0
  · by_cases h12 : is_signed_integer (neg32 L) 12 ≠ 0
    · -- one addi
      have hr : in_signed_range (neg32 L) 12 := by
        rw [is_signed_integer_eq _ 12 (by decide) (by decide)] at h12
        rw [in_signed_range_iff _ 12 (by decide) (by decide)]
        refine ⟨Nat.mod_lt _ (by decide), ?_⟩
        by_contra hn
        rw [if_neg hn] at h12
        exact h12 rfl
      obtain ⟨w5, e5⟩ : ∃ w, encode_i_format (neg32 L) REG_SP F3_ADDI REG_SP OP_IMM = .ok w :=
        ⟨_, encode_i_format_ok _ _ _ _ _ hr⟩
      obtain ⟨c6, a6, m6, _⟩ := emit_addi_emits c5 REG_SP REG_SP _ _ e5
        (by unfold MAX_CODE_LENGTH; omega)
      have hem : emits s.compiler c6 ([w0, w1, w0, w3, w4] ++ [w5]) :=
        emits_append _ _ _ _ _ hem5 m6
      have x6 := emit_ok { s with compiler := c5 }
        (fun c => emit_addi c REG_SP REG_SP (neg32 L)) c6 a6
      refine ⟨{ s with compiler := c6 }, 6, ?_, by omega, by omega, by rw [m6.1, b5]; rfl, ?_⟩
      · unfold help_procedure_prologue
        simp only [x1, x2, x3, x4, x5, lift_ok_bind, if_pos hL0, if_pos h12, x6]
        rfl
      · intro m hfr hcl
        obtain ⟨n5, st, fp5, sp5, me5, pt5, pc5, hrest⟩ := hfive c6 [w5] m hem hfr hcl
        have f5 := hrest 0 (by simp)
        rw [Nat.mul_zero, add32_zero _ (by rw [pc5]; exact add32_lt _ _)] at f5
        obtain ⟨n6, t6, r6, p6, me6, pt6⟩ := step_addi isw n5 REG_SP REG_SP (neg32 L) w5
          (by decide) (by decide) hr (by decide) e5 f5
        refine ⟨n6, ?_, ?_, by rw [me6, me5], by rw [pt6, pt5], by rw [p6, pc5, add32_add32]⟩
        · rw [steps_append isw 5 1 m n5 st, steps_succ isw 0 n5 n6 t6]
          rfl
        · rw [r6, store_word_ne _ _ _ _ (show REG_FP ≠ REG_SP by decide), fp5]
    · -- load_integer and add
      have hv : neg32 L < 4294967296 := Nat.mod_lt _ (by decide)
      have hbig : ¬ (neg32 L < 2048 ∨ 4294965248 ≤ neg32 L) := by
        rw [is_signed_integer_eq _ 12 (by decide) (by decide)] at h12
        intro hn
        apply h12
        rw [if_pos (by norm_num; exact hn)]
        decide
      obtain ⟨s6, t, ws, hli, _, htmp, hcur, hcode, hemw, _⟩ :=
        load_integer_large isw fuel { s with compiler := c5 } (neg32 L) hv hbig
          (by rw [show ({ s with compiler := c5 } : Starc).compiler = c5 from rfl, tc5]; exact ht)
          (by rw [show ({ s with compiler := c5 } : Starc).compiler = c5 from rfl, b5]
              unfold MAX_CODE_LENGTH
              omega)
      have htmp' : s6.compiler.allocated_temporaries = s.compiler.allocated_temporaries + 1 := by
        rw [htmp]
        show c5.allocated_temporaries + 1 = _
        rw [tc5]
      have ht7 : s.compiler.allocated_temporaries < 7 := ht
      obtain ⟨t', hc', t32, t0, tsp, tfp⟩ :=
        current_temporary_not_frame s6.compiler.allocated_temporaries (by omega) (by omega)
      have et : t' = t := Except.ok.inj (hc'.symm.trans hcur)
      subst et
      have hemw' : emits c5 s6.compiler ws := hemw
      have hws3 : 1 ≤ ws.length ∧ ws.length ≤ 3 := by
        unfold load_integer_code at hcode
        rw [if_neg hbig] at hcode
        dsimp only at hcode
        obtain ⟨u0, _, h⟩ := except_bind_inv _ _ _ hcode
        obtain ⟨u1, _, h⟩ := except_bind_inv _ _ _ h
        split_ifs at h <;> cases h <;> simp
      have b6 : s6.compiler.binary_length = s.compiler.binary_length + 20 + 4 * ws.length := by
        rw [hemw'.1, b5]
      obtain ⟨c7, a7, m7, t7⟩ := emit_add_emits s6.compiler REG_SP REG_SP t'
        (by unfold MAX_CODE_LENGTH; omega)
      obtain ⟨c8, a8, b8, _, bin8⟩ := tfree_ok c7 (by rw [t7]; omega) (by rw [t7]; omega)
      have hem7 : emits s.compiler c7 ([w0, w1, w0, w3, w4] ++
          (ws ++ [encode_r_format F7_ADD t' REG_SP F3_ADD REG_SP OP_OP])) :=
        emits_append _ _ _ _ _ hem5 (emits_append _ _ _ _ _ hemw' m7)
      have hem8 := emits_tfree _ _ _ _ _ a8 hem7
      have x7 := emit_ok s6 (fun c => emit_add c REG_SP REG_SP t') c7 a7
      have x8 := emit_ok { s6 with compiler := c7 } (fun c => tfree c 1) c8 a8
      refine ⟨{ s6 with compiler := c8 }, 5 + (ws.length + 1), ?_, by omega, by omega, ?_, ?_⟩
      · unfold help_procedure_prologue
        simp only [x1, x2, x3, x4, x5, lift_ok_bind, if_pos hL0, if_neg h12]
        rw [hli]
        simp only [pure_bind, hc', x7, x8, lift_ok_bind]
        rfl
      · show c8.binary_length = _
        rw [b8, m7.1, b6]
        simp only [List.length_singleton]
        omega
      · intro m hfr hcl
        have hlen : (ws ++ [encode_r_format F7_ADD t' REG_SP F3_ADD REG_SP OP_OP]).length =
            ws.length + 1 := by simp
        obtain ⟨n5, st, fp5, sp5, me5, pt5, pc5, hrest⟩ := hfive c8 _ m hem8
          (by rw [hlen]; exact hfr) (by rw [hlen]; exact hcl)
        rw [hlen] at hrest
        have hp5 : n5.pc < 4294967296 := by rw [pc5]; exact add32_lt _ _
        obtain ⟨_, _, n6, st6, me6, pt6, r6, p6⟩ := run_load_integer_code isw n5 t' (neg32 L)
          ws t32 t0 hv hcode hp5 (fun i hi => by
            rw [hrest i (by omega), List.getD_append _ _ _ _ hi])
        have f6 : load_virtual_memory n6.memory n6.pt n6.pc =
            encode_r_format F7_ADD t' REG_SP F3_ADD REG_SP OP_OP := by
          rw [me6, pt6, p6, hrest ws.length (by omega), List.getD_append_right _ _ _ _ (le_refl _)]
          simp
        obtain ⟨n7, t7', r7, p7, me7, pt7⟩ := step_add isw n6 REG_SP REG_SP t' (by decide)
          (by decide) t32 (by decide) f6
        refine ⟨n7, ?_, ?_, by rw [me7, me6, me5], by rw [pt7, pt6, pt5], ?_⟩
        · rw [steps_append isw 5 (ws.length + 1) m n5 st,
            steps_append isw ws.length 1 n5 n6 st6, steps_succ isw 0 n6 n7 t7']
          rfl
        · rw [r7, store_word_ne _ _ _ _ (show REG_FP ≠ REG_SP by decide), r6 REG_FP (Ne.symm tfp),
            fp5]
        · rw [p7, p6, pc5, add32_add32, add32_add32]
          congr 1
          omega
  · -- no local variables
    refine ⟨{ s with compiler := c5 }, 5, ?_, by omega, by omega, b5, ?_⟩
    · unfold help_procedure_prologue
      simp only [x1, x2, x3, x4, x5, lift_ok_bind, if_neg hL0]
    · intro m hfr hcl
      obtain ⟨n5, st, fp5, _, me5, pt5, pc5, _⟩ := hfive c5 [] m
        (by rw [List.append_nil]; exact hem5) hfr hcl
      exact ⟨n5, st, fp5, me5, pt5, pc5⟩

/-- C32: the epilogue undoes the prologue.  In every state of the compiler with a
free temporary and room for the code, `help_procedure_prologue(L)` emits `k`
instructions, between five and nine, and `help_procedure_epilogue(4 * n)` emits six
for every `n <= 510`.  Let the prologue run on a machine `m0` with a mapped, aligned
stack (`frame_ready`): it ends in a state `m1` at the instruction after it.  Let
`m2` be any state after a body that leaves `fp` and the two saved stack words
unchanged (and their pages mapped), with the epilogue at `pc`.  Then the six
instructions of the epilogue end in a state `m3` in which `fp` and `ra` have their
values at procedure entry, `sp` is its entry value plus `4 * n`, and `pc` is the
entry value of `ra` with bit 0 cleared. -/
theorem epilogue_undoes_prologue (isw : Machine → Except Nat Machine) (fuel : Nat)
    (s : Starc) (L : Nat) (c : Compiler) (n : Nat)
    (ht : s.compiler.allocated_temporaries < NUMBEROFTEMPORARIES)
    (hl : s.compiler.binary_length + 36 ≤ MAX_CODE_LENGTH)
    (hn : n ≤ 510) (hlc : c.binary_length + 24 ≤ MAX_CODE_LENGTH) :
    ∃ s1 c' k, help_procedure_prologue fuel s L = pure s1 ∧
      help_procedure_epilogue c (mul32 n REGISTERSIZE) = .ok c' ∧
      5 ≤ k ∧ k ≤ 9 ∧ s1.compiler.binary_length = s.compiler.binary_length + 4 * k ∧
      c'.binary_length = c.binary_length + 24 ∧
      ∀ m0 : Machine, frame_ready m0 k →
        code_loaded s1.compiler s.compiler.binary_length k m0 →
        ∃ m1, steps isw k m0 = .ok m1 ∧ m1.pc = add32 m0.pc (4 * k) ∧
          ∀ m2 : Machine, m2.pc < 4294967296 →
            m2.registers REG_FP = m1.registers REG_FP →
            load_virtual_memory m2.memory m2.pt (m0.registers REG_SP - 8) =
              load_virtual_memory m1.memory m1.pt (m0.registers REG_SP - 8) →
            load_virtual_memory m2.memory m2.pt (m0.registers REG_SP - 4) =
              load_virtual_memory m1.memory m1.pt (m0.registers REG_SP - 4) →
            m2.pt ((m0.registers REG_SP - 8) / PAGESIZE) ≠ 0 →
            m2.pt ((m0.registers REG_SP - 4) / PAGESIZE) ≠ 0 →
            code_loaded c' c.binary_length 6 m2 →
            ∃ m3, steps isw 6 m2 = .ok m3 ∧
              m3.registers REG_FP = m0.registers REG_FP ∧
              m3.registers REG_RA = m0.registers REG_RA ∧
              m3.registers REG_SP = m0.registers REG_SP + 4 * n ∧
              m3.pc = left_shift (right_shift (add32 (m0.registers REG_RA) 0) 1) 1 ∧
              (m0.registers REG_RA < 4294967296 →
                m3.pc = m0.registers REG_RA - m0.registers REG_RA % 2) := by
  obtain ⟨s1, k, hpro, k5, k9, bl1, hrun⟩ := help_procedure_prologue_saves isw fuel s L ht hl
  have hp : mul32 n REGISTERSIZE = 4 * n := by
    unfold mul32 REGISTERSIZE
    omega
  obtain ⟨c', ws, hepi, hem, hlen, _, hpop⟩ :=
    help_procedure_epilogue_pops isw c (4 * n) (by omega) hlc
  refine ⟨s1, c', k, hpro, by rw [hp]; exact hepi, k5, k9, bl1, by rw [hem.1, hlen], ?_⟩
  intro m0 hfr hcl
  obtain ⟨m1, st1, fp1, me1, pt1, pc1⟩ := hrun m0 hfr hcl
  obtain ⟨_, hsp8, hsp, hal, _, _, hdiff, _⟩ := hfr
  have hsp' : m0.registers REG_SP ≤ 2147483648 := hsp
  refine ⟨m1, st1, pc1, ?_⟩
  intro m2 hpc2 hfp2 hw8 hw4 hm8 hm4 hcl2
  have l8 : load_virtual_memory m1.memory m1.pt (m0.registers REG_SP - 8) =
      m0.registers REG_FP := by
    rw [me1, pt1]
    exact load_store_virtual_memory _ _ _ _
  have l4 : load_virtual_memory m1.memory m1.pt (m0.registers REG_SP - 4) =
      m0.registers REG_RA := by
    rw [me1, pt1, load_store_virtual_memory_ne _ _ _ _ _ hdiff]
    exact load_store_virtual_memory _ _ _ _
  have efp : m2.registers REG_FP = m0.registers REG_SP - 8 := by rw [hfp2, fp1]
  have e4 : m2.registers REG_FP + 4 = m0.registers REG_SP - 4 := by
    rw [efp]
    omega
  obtain ⟨m3, st3, sp3, fp3, ra3, pc3, _, _⟩ := hpop m2 hpc2 (by rw [e4]; omega)
    (by rw [efp]; omega) (by rw [efp]; exact hm8) (by rw [e4]; exact hm4) hcl2
  rw [efp, hw8, l8] at fp3
  rw [e4, hw4, l4] at ra3 pc3
  refine ⟨m3, st3, fp3, ra3, by rw [sp3, efp]; omega, pc3, fun hra => ?_⟩
  rw [pc3, add32_zero _ hra, right_shift_eq _ 1 (by decide), left_shift_eq _ 1 (by decide)]
  norm_num
  omega

set_option maxRecDepth 1000000 in
/-- Witness for C32: the prologue for two local variables and the epilogue for two
parameters, emitted after the library.  In the program with the procedure
`f(a, b)` and the call `f(1, 2)`, `f` is entered after 30 instructions with
`sp = 2147483600`, `ra = 65948` and `fp = 2147483608`, and 14 instructions later its
epilogue has returned to `pc = 65948` with `sp = 2147483600 + 8`, and `ra` and `fp`
as at the entry. -/
theorem epilogue_undoes_prologue_witness :
    (library_starc.compiler.allocated_temporaries < NUMBEROFTEMPORARIES ∧
      library_starc.compiler.binary_length + 36 ≤ MAX_CODE_LENGTH ∧ 2 ≤ 510 ∧
      library_starc.compiler.binary_length + 24 ≤ MAX_CODE_LENGTH) ∧
    ∃ s1 c' k, help_procedure_prologue 0 library_starc 8 = pure s1 ∧
      help_procedure_epilogue library_starc.compiler (mul32 2 REGISTERSIZE) = .ok c' ∧
      5 ≤ k ∧ k ≤ 9 ∧
      s1.compiler.binary_length = library_starc.compiler.binary_length + 4 * k ∧
      c'.binary_length = library_starc.compiler.binary_length + 24 ∧
      show_frame (machine_after two_arguments_source 30) =
        [65844, 2147483600, 65948, 2147483608] ∧
      show_frame (machine_after two_arguments_source 44) =
        [65948, 2147483608, 65948, 2147483608] := by
  have h1 : library_starc.compiler.allocated_temporaries < NUMBEROFTEMPORARIES := by
    rw [show library_starc.compiler.allocated_temporaries = 0 from rfl]
    decide
  have h2 : library_starc.compiler.binary_length + 36 ≤ MAX_CODE_LENGTH := by
    rw [show library_starc.compiler.binary_length = 308 from rfl]
    decide
  have h3 : library_starc.compiler.binary_length + 24 ≤ MAX_CODE_LENGTH := by
    rw [show library_starc.compiler.binary_length = 308 from rfl]
    decide
  obtain ⟨s1, c', k, a, b, c, d, e, f, _⟩ :=
    epilogue_undoes_prologue (fun m => .ok m) 0 library_starc 8 library_starc.compiler 2
      h1 h2 (by decide) h3
  exact ⟨⟨h1, h2, by decide, h3⟩, s1, c', k, a, b, c, d, e, f, rfl, rfl⟩

/-! ## Exits of the replay engine -/

theorem throw_exception_exit (e p : Nat) (m : Machine) (c : Nat)
    (h : throw_exception e p m = .error c) : c = EXITCODE_MULTIPLEEXCEPTIONERROR := by
  unfold throw_exception at h
  split at h
  · split at h
    · exact (Except.error.inj h).symm
    · cases h
  · cases h

theorem unknown_instruction_exit (m : Machine) (c : Nat)
    (h : unknown_instruction m = .error c) :
    c = EXITCODE_UNKNOWNINSTRUCTION ∨ c = EXITCODE_MULTIPLEEXCEPTIONERROR := by
  unfold unknown_instruction at h
  split at h
  · exact Or.inr (throw_exception_exit _ _ _ _ h)
  · exact Or.inl (Except.error.inj h).symm

theorem except_bind_error {α β : Type} (x : Except Nat α) (f : α → Except Nat β) (c : Nat)
    (h : (x >>= f) = .error c) : x = .error c ∨ ∃ a, x = .ok a ∧ f a = .error c := by
  cases x with
  | error e =>
    have hc : e = c := Except.error.inj h
    exact Or.inl (by rw [hc])
  | ok a => exact Or.inr ⟨a, rfl, h⟩

theorem do_divu_exit (m : Machine) (c : Nat) (h : do_divu m = .error c) :
    c = EXITCODE_MULTIPLEEXCEPTIONERROR := by
  unfold do_divu at h
  split at h
  · cases h
  · exact throw_exception_exit _ _ _ _ h

theorem do_remu_exit (m : Machine) (c : Nat) (h : do_remu m = .error c) :
    c = EXITCODE_MULTIPLEEXCEPTIONERROR := by
  unfold do_remu at h
  split at h
  · cases h
  · exact throw_exception_exit _ _ _ _ h

theorem do_lw_exit (m : Machine) (c : Nat)
    (h : (do let r ← do_lw m; pure r.2 : Except Nat Machine) = .error c) :
    c = EXITCODE_MULTIPLEEXCEPTIONERROR := by
  unfold do_lw at h
  dsimp only at h
  split at h
  · split at h
    · cases h
    · rcases except_bind_error _ _ _ h with h1 | ⟨r, _, h2⟩
      · rcases except_bind_error _ _ _ h1 with h3 | ⟨r, _, h4⟩
        · exact throw_exception_exit _ _ _ _ h3
        · cases h4
      · cases h2
  · rcases except_bind_error _ _ _ h with h1 | ⟨r, _, h2⟩
    · rcases except_bind_error _ _ _ h1 with h3 | ⟨r, _, h4⟩
      · exact throw_exception_exit _ _ _ _ h3
      · cases h4
    · cases h2

theorem do_sw_exit (m : Machine) (c : Nat)
    (h : (do let r ← do_sw m; pure r.2 : Except Nat Machine) = .error c) :
    c = EXITCODE_MULTIPLEEXCEPTIONERROR := by
  unfold do_sw at h
  dsimp only at h
  split at h
  · split at h
    · cases h
    · rcases except_bind_error _ _ _ h with h1 | ⟨r, _, h2⟩
      · rcases except_bind_error _ _ _ h1 with h3 | ⟨r, _, h4⟩
        · exact throw_exception_exit _ _ _ _ h3
        · cases h4
      · cases h2
  · rcases except_bind_error _ _ _ h with h1 | ⟨r, _, h2⟩
    · rcases except_bind_error _ _ _ h1 with h3 | ⟨r, _, h4⟩
      · exact throw_exception_exit _ _ _ _ h3
      · cases h4
    · cases h2

theorem do_ecall_exit (isw : Machine → Except Nat Machine) (m : Machine) (c : Nat)
    (h : do_ecall isw m = .error c) :
    c = EXITCODE_MULTIPLEEXCEPTIONERROR ∨ c = EXITCODE_BADARGUMENTS ∨
      ∃ m', isw m' = .error c := by
  unfold do_ecall at h
  dsimp only at h
  split at h
  · cases h
  · split at h
    · split at h
      · exact Or.inr (Or.inl (Except.error.inj h).symm)
      · split at h
        · exact Or.inr (Or.inl (Except.error.inj h).symm)
        · exact Or.inr (Or.inr ⟨_, h⟩)
    · exact Or.inl (throw_exception_exit _ _ _ _ h)

theorem debug_branches_exit (r u : Machine → Machine) (d : Machine → Except Nat Machine)
    (m : Machine) (c : Nat) (h : debug_branches r u d m = .error c) :
    ∃ m', d m' = .error c := by
  unfold debug_branches at h
  split at h
  · exact ⟨_, h⟩
  · split at h
    · cases h
    · split at h
      · split at h
        · exact ⟨_, h⟩
        · cases h
      · cases h

theorem ite_exit_imp {α : Type} (p : Prop) [Decidable p] (a b : Except Nat α) (c : Nat)
    (Q : Prop) (ha : a = .error c → Q) (hb : b = .error c → Q) :
    (if p then a else b) = .error c → Q := by
  intro h
  split at h
  · exact ha h
  · exact hb h

theorem decode_execute_debug_exit (isw : Machine → Except Nat Machine) (m : Machine) (c : Nat)
    (h : decode_execute_debug isw m = .error c) :
    c = EXITCODE_UNKNOWNINSTRUCTION ∨ c = EXITCODE_MULTIPLEEXCEPTIONERROR ∨
      c = EXITCODE_BADARGUMENTS ∨ ∃ m', isw m' = .error c := by
  have hu : ∀ m1, unknown_instruction m1 = .error c →
      c = EXITCODE_UNKNOWNINSTRUCTION ∨ c = EXITCODE_MULTIPLEEXCEPTIONERROR ∨
        c = EXITCODE_BADARGUMENTS ∨ ∃ m', isw m' = .error c := by
    intro m1 h1
    rcases unknown_instruction_exit m1 c h1 with e | e
    · exact Or.inl e
    · exact Or.inr (Or.inl e)
  have hm : c = EXITCODE_MULTIPLEEXCEPTIONERROR →
      c = EXITCODE_UNKNOWNINSTRUCTION ∨ c = EXITCODE_MULTIPLEEXCEPTIONERROR ∨
        c = EXITCODE_BADARGUMENTS ∨ ∃ m', isw m' = .error c := fun e => Or.inr (Or.inl e)
  have he : ∀ m1, do_ecall isw m1 = .error c →
      c = EXITCODE_UNKNOWNINSTRUCTION ∨ c = EXITCODE_MULTIPLEEXCEPTIONERROR ∨
        c = EXITCODE_BADARGUMENTS ∨ ∃ m', isw m' = .error c := by
    intro m1 h1
    rcases do_ecall_exit isw m1 c h1 with e | e | e
    · exact Or.inr (Or.inl e)
    · exact Or.inr (Or.inr (Or.inl e))
    · exact Or.inr (Or.inr (Or.inr e))
  unfold decode_execute_debug at h
  dsimp only at h
  revert h
  repeat' first
    | exact hu _
    | (intro h; cases h)
    | (intro h
       obtain ⟨m1, h1⟩ := debug_branches_exit _ _ _ _ _ h
       first
         | (cases h1; done)
         | exact hm (do_lw_exit _ _ h1)
         | exact hm (do_sw_exit _ _ h1)
         | exact hm (do_divu_exit _ _ h1)
         | exact hm (do_remu_exit _ _ h1)
         | exact he _ h1)
    | apply ite_exit_imp

theorem decode_execute_exit (isw : Machine → Except Nat Machine) (m : Machine) (c : Nat)
    (h : decode_execute isw m = .error c) :
    c = EXITCODE_UNKNOWNINSTRUCTION ∨ c = EXITCODE_MULTIPLEEXCEPTIONERROR ∨
      c = EXITCODE_BADARGUMENTS ∨ ∃ m', isw m' = .error c := by
  have hu : ∀ m1, unknown_instruction m1 = .error c →
      c = EXITCODE_UNKNOWNINSTRUCTION ∨ c = EXITCODE_MULTIPLEEXCEPTIONERROR ∨
        c = EXITCODE_BADARGUMENTS ∨ ∃ m', isw m' = .error c := by
    intro m1 h1
    rcases unknown_instruction_exit m1 c h1 with e | e
    · exact Or.inl e
    · exact Or.inr (Or.inl e)
  have hm : c = EXITCODE_MULTIPLEEXCEPTIONERROR →
      c = EXITCODE_UNKNOWNINSTRUCTION ∨ c = EXITCODE_MULTIPLEEXCEPTIONERROR ∨
        c = EXITCODE_BADARGUMENTS ∨ ∃ m', isw m' = .error c := fun e => Or.inr (Or.inl e)
  have he : ∀ m1, do_ecall isw m1 = .error c →
      c = EXITCODE_UNKNOWNINSTRUCTION ∨ c = EXITCODE_MULTIPLEEXCEPTIONERROR ∨
        c = EXITCODE_BADARGUMENTS ∨ ∃ m', isw m' = .error c := by
    intro m1 h1
    rcases do_ecall_exit isw m1 c h1 with e | e | e
    · exact Or.inr (Or.inl e)
    · exact Or.inr (Or.inr (Or.inl e))
    · exact Or.inr (Or.inr (Or.inr e))
  unfold decode_execute at h
  dsimp only at h
  revert h
  repeat' first
    | exact hu _
    | (intro h; cases h)
    | exact fun h => hm (do_lw_exit _ _ h)
    | exact fun h => hm (do_sw_exit _ _ h)
    | exact fun h => hm (do_divu_exit _ _ h)
    | exact fun h => hm (do_remu_exit _ _ h)
    | exact he _
    | apply ite_exit_imp

theorem decode_execute_with_debug_exit (isw : Machine → Except Nat Machine) (m : Machine)
    (c : Nat) (h : decode_execute_with_debug isw m = .error c) :
    c = EXITCODE_UNKNOWNINSTRUCTION ∨ c = EXITCODE_MULTIPLEEXCEPTIONERROR ∨
      c = EXITCODE_BADARGUMENTS ∨ ∃ m', isw m' = .error c := by
  unfold decode_execute_with_debug at h
  split at h
  · exact decode_execute_debug_exit isw m c h
  · exact decode_execute_exit isw m c h

theorem replay_undo_exit (isw : Machine → Except Nat Machine) (tl : Nat) (m : Machine)
    (c : Nat) (h : replay_undo isw tl m = .error c) :
    c = EXITCODE_UNKNOWNINSTRUCTION ∨ c = EXITCODE_MULTIPLEEXCEPTIONERROR ∨
      c = EXITCODE_BADARGUMENTS ∨ ∃ m', isw m' = .error c := by
  induction tl generalizing m with
  | zero => cases h
  | succ n ih =>
    unfold replay_undo at h
    dsimp only at h
    rcases except_bind_error _ _ _ h with h1 | ⟨m1, _, h2⟩
    · exact decode_execute_with_debug_exit isw _ c h1
    · exact ih m1 h2

theorem replay_redo_exit (isw : Machine → Except Nat Machine) (tl : Nat) (m : Machine)
    (c : Nat) (h : replay_redo isw tl m = .error c) :
    c = EXITCODE_UNKNOWNINSTRUCTION ∨ c = EXITCODE_MULTIPLEEXCEPTIONERROR ∨
      c = EXITCODE_BADARGUMENTS ∨ ∃ m', isw m' = .error c := by
  induction tl generalizing m with
  | zero => cases h
  | succ n ih =>
    unfold replay_redo at h
    rcases except_bind_error _ _ _ h with h1 | ⟨m1, _, h2⟩
    · exact decode_execute_with_debug_exit isw _ c h1
    · exact ih _ h2

theorem replay_trace_exit (isw : Machine → Except Nat Machine) (m : Machine)
    (c : Nat) (h : replay_trace isw m = .error c) :
    c = EXITCODE_UNKNOWNINSTRUCTION ∨ c = EXITCODE_MULTIPLEEXCEPTIONERROR ∨
      c = EXITCODE_BADARGUMENTS ∨ ∃ m', isw m' = .error c := by
  unfold replay_trace at h
  dsimp only at h
  rcases except_bind_error _ _ _ h with h1 | ⟨m1, _, h2⟩
  · exact replay_undo_exit isw _ _ c h1
  · rcases except_bind_error _ _ _ h2 with h3 | ⟨m2, _, h4⟩
    · exact replay_redo_exit isw _ _ c h3
    · cases h4

theorem replay_trace_flags (isw : Machine → Except Nat Machine) (m m1 : Machine)
    (h : replay_trace isw m = .ok m1) :
    m1.record = 1 ∧ m1.redo = 0 ∧ m1.disassemble = 0 := by
  unfold replay_trace at h
  dsimp only at h
  obtain ⟨m2, _, h2⟩ := except_bind_inv _ _ _ h
  obtain ⟨m3, _, h3⟩ := except_bind_inv _ _ _ h2
  rw [← Except.ok.inj h3]
  exact ⟨rfl, rfl, rfl⟩

theorem switches_throw_exception (e p : Nat) (m m' : Machine)
    (h : throw_exception e p m = .ok m') : debugger_switches m' = debugger_switches m := by
  rw [throw_exception_result e p m m' h]
  rfl

theorem switches_unknown_instruction (m m' : Machine) (h : unknown_instruction m = .ok m') :
    debugger_switches m' = debugger_switches m := by
  unfold unknown_instruction at h
  split at h
  · exact switches_throw_exception _ _ _ _ h
  · cases h

theorem switches_do_addi (m : Machine) : debugger_switches (do_addi m) = debugger_switches m := by
  unfold do_addi
  by_cases h : m.rd = REG_ZR <;> simp [h, debugger_switches]

theorem switches_do_add (m : Machine) : debugger_switches (do_add m) = debugger_switches m := by
  unfold do_add
  by_cases h : m.rd = REG_ZR <;> simp [h, debugger_switches]

theorem switches_do_sub (m : Machine) : debugger_switches (do_sub m) = debugger_switches m := by
  unfold do_sub
  by_cases h : m.rd = REG_ZR <;> simp [h, debugger_switches]

theorem switches_do_mul (m : Machine) : debugger_switches (do_mul m) = debugger_switches m := by
  unfold do_mul
  by_cases h : m.rd = REG_ZR <;> simp [h, debugger_switches]

theorem switches_do_sltu (m : Machine) : debugger_switches (do_sltu m) = debugger_switches m := by
  unfold do_sltu
  by_cases h : m.rd = REG_ZR <;> by_cases h2 : m.registers m.rs1 < m.registers m.rs2 <;>
    simp [h, h2, debugger_switches]

theorem switches_do_lui (m : Machine) : debugger_switches (do_lui m) = debugger_switches m := by
  unfold do_lui
  by_cases h : m.rd = REG_ZR <;> simp [h, debugger_switches]

theorem switches_do_beq (m : Machine) : debugger_switches (do_beq m) = debugger_switches m := by
  unfold do_beq
  by_cases h : m.registers m.rs1 = m.registers m.rs2 <;> simp [h, debugger_switches]

theorem switches_do_jal (m : Machine) : debugger_switches (do_jal m) = debugger_switches m := by
  unfold do_jal
  by_cases h : m.rd = REG_ZR <;> by_cases h2 : signed_less_than m.imm 0 = 0 <;>
    simp [h, h2, debugger_switches]

theorem switches_do_jalr (m : Machine) : debugger_switches (do_jalr m) = debugger_switches m := by
  unfold do_jalr
  by_cases h : m.rd = REG_ZR <;> simp [h, debugger_switches]

theorem switches_do_divu (m m' : Machine) (h : do_divu m = .ok m') :
    debugger_switches m' = debugger_switches m := by
  unfold do_divu at h
  split at h
  · rw [← Except.ok.inj h]
    by_cases h1 : m.rd = REG_ZR <;> simp [h1, debugger_switches]
  · exact switches_throw_exception _ _ _ _ h

theorem switches_do_remu (m m' : Machine) (h : do_remu m = .ok m') :
    debugger_switches m' = debugger_switches m := by
  unfold do_remu at h
  split at h
  · rw [← Except.ok.inj h]
    by_cases h1 : m.rd = REG_ZR <;> simp [h1, debugger_switches]
  · exact switches_throw_exception _ _ _ _ h

theorem switches_do_lw (m m' : Machine)
    (h : (do let r ← do_lw m; pure r.2 : Except Nat Machine) = .ok m') :
    debugger_switches m' = debugger_switches m := by
  obtain ⟨r, hr, h2⟩ := except_bind_inv _ _ _ h
  have e : r.2 = m' := Except.ok.inj h2
  rw [← e]
  unfold do_lw at hr
  dsimp only at hr
  split at hr
  · split at hr
    · rw [← Except.ok.inj hr]
      by_cases h1 : m.rd = REG_ZR <;> simp [h1, debugger_switches]
    · obtain ⟨x, hx, h3⟩ := except_bind_inv _ _ _ hr
      rw [← Except.ok.inj h3]
      exact switches_throw_exception _ _ _ _ hx
  · obtain ⟨x, hx, h3⟩ := except_bind_inv _ _ _ hr
    rw [← Except.ok.inj h3]
    exact switches_throw_exception _ _ _ _ hx

theorem switches_do_sw (m m' : Machine)
    (h : (do let r ← do_sw m; pure r.2 : Except Nat Machine) = .ok m') :
    debugger_switches m' = debugger_switches m := by
  obtain ⟨r, hr, h2⟩ := except_bind_inv _ _ _ h
  have e : r.2 = m' := Except.ok.inj h2
  rw [← e]
  unfold do_sw at hr
  dsimp only at hr
  split at hr
  · split at hr
    · rw [← Except.ok.inj hr]
      rfl
    · obtain ⟨x, hx, h3⟩ := except_bind_inv _ _ _ hr
      rw [← Except.ok.inj h3]
      exact switches_throw_exception _ _ _ _ hx
  · obtain ⟨x, hx, h3⟩ := except_bind_inv _ _ _ hr
    rw [← Except.ok.inj h3]
    exact switches_throw_exception _ _ _ _ hx

/-- While redoing, `do_ecall` only restores `a0` from the trace. -/
theorem do_ecall_redo (isw : Machine → Except Nat Machine) (m : Machine) (h : m.redo ≠ 0) :
    ∃ m', do_ecall isw m = .ok m' ∧ debugger_switches m' = debugger_switches m := by
  unfold do_ecall
  dsimp only
  rw [if_pos h]
  exact ⟨_, rfl, rfl⟩

theorem replaying_ite (sw : Nat × Nat × Nat × Nat × Nat) (c : Prop) [Decidable c]
    (a b : Except Nat Machine)
    (ha : (∀ e, a = .error e → e = EXITCODE_MULTIPLEEXCEPTIONERROR) ∧
      ∀ m', a = .ok m' → debugger_switches m' = sw)
    (hb : (∀ e, b = .error e → e = EXITCODE_MULTIPLEEXCEPTIONERROR) ∧
      ∀ m', b = .ok m' → debugger_switches m' = sw) :
    (∀ e, (if c then a else b) = .error e → e = EXITCODE_MULTIPLEEXCEPTIONERROR) ∧
      ∀ m', (if c then a else b) = .ok m' → debugger_switches m' = sw := by
  by_cases h : c
  · rw [if_pos h]; exact ha
  · rw [if_neg h]; exact hb

theorem replaying_ok (sw : Nat × Nat × Nat × Nat × Nat) (x : Machine)
    (h : debugger_switches x = sw) :
    (∀ e, (Except.ok x : Except Nat Machine) = .error e →
        e = EXITCODE_MULTIPLEEXCEPTIONERROR) ∧
      ∀ m', (Except.ok x : Except Nat Machine) = .ok m' → debugger_switches m' = sw :=
  ⟨fun _ h' => (nomatch h'), fun m' h' => by rw [← Except.ok.inj h']; exact h⟩

theorem replaying_unknown (sw : Nat × Nat × Nat × Nat × Nat) (x : Machine)
    (h : debugger_switches x = sw) (hx : x.execute ≠ 0) :
    (∀ e, unknown_instruction x = .error e → e = EXITCODE_MULTIPLEEXCEPTIONERROR) ∧
      ∀ m', unknown_instruction x = .ok m' → debugger_switches m' = sw := by
  constructor
  · intro e he
    unfold unknown_instruction at he
    rw [if_pos hx] at he
    exact throw_exception_exit _ _ _ _ he
  · intro m' hm
    rw [switches_unknown_instruction x m' hm]
    exact h

theorem replaying_debug_branches (sw : Nat × Nat × Nat × Nat × Nat)
    (r u : Machine → Machine) (d : Machine → Except Nat Machine) (x : Machine)
    (h : debugger_switches x = sw) (hrec : x.record = 0)
    (hu : debugger_switches (u x) = debugger_switches x)
    (hd : x.redo ≠ 0 → (∀ e, d x = .error e → e = EXITCODE_MULTIPLEEXCEPTIONERROR) ∧
      ∀ m', d x = .ok m' → debugger_switches m' = debugger_switches x)
    (hur : x.undo ≠ 0 ∨ x.redo ≠ 0) :
    (∀ e, debug_branches r u d x = .error e → e = EXITCODE_MULTIPLEEXCEPTIONERROR) ∧
      ∀ m', debug_branches r u d x = .ok m' → debugger_switches m' = sw := by
  unfold debug_branches
  rw [if_neg (not_not.2 hrec)]
  by_cases h1 : x.undo ≠ 0
  · rw [if_pos h1]
    exact replaying_ok sw _ (hu.trans h)
  · rw [if_neg h1]
    have hredo : x.redo ≠ 0 := hur.resolve_left h1
    obtain ⟨d1, d2⟩ := hd hredo
    refine replaying_ite sw _ _ _ (replaying_ite sw _ _ _ ⟨d1, fun m' hm => (d2 m' hm).trans h⟩
      (replaying_ok sw _ h)) (replaying_ok sw _ h)

/-- One instruction of the replay with `execute` set: the emulator exits at most
for a second exception of another kind, and the switches of the debugger stay. -/
theorem decode_execute_debug_replaying (isw : Machine → Except Nat Machine) (m : Machine)
    (hex : m.execute ≠ 0) (hrec : m.record = 0) (hur : m.undo ≠ 0 ∨ m.redo ≠ 0) :
    (∀ e, decode_execute_debug isw m = .error e → e = EXITCODE_MULTIPLEEXCEPTIONERROR) ∧
      ∀ m', decode_execute_debug isw m = .ok m' →
        debugger_switches m' = debugger_switches m := by
  have hpure : ∀ (f : Machine → Machine) (x : Machine),
      debugger_switches (f x) = debugger_switches x →
      (x.redo ≠ 0 → (∀ e, (Except.ok (f x) : Except Nat Machine) = .error e →
          e = EXITCODE_MULTIPLEEXCEPTIONERROR) ∧
        ∀ m', (Except.ok (f x) : Except Nat Machine) = .ok m' →
          debugger_switches m' = debugger_switches x) :=
    fun f x hf _ => replaying_ok _ _ hf
  have hrecb : (decode_b_format { m with opcode := get_opcode m.ir }).record = 0 := hrec
  unfold decode_execute_debug
  dsimp only
  repeat' first
    | with_reducible apply replaying_ite
    | (with_reducible refine replaying_unknown _ _ ?_ ?_
       · rfl
       · exact hex)
    | (with_reducible refine replaying_debug_branches _ _ _ _ _ ?_ ?_ ?_ ?_ ?_
       · rfl
       · exact hrec
       · rfl
       · first
           | exact hpure do_addi _ (switches_do_addi _)
           | exact hpure do_sub _ (switches_do_sub _)
           | exact hpure do_mul _ (switches_do_mul _)
           | exact hpure do_sltu _ (switches_do_sltu _)
           | exact hpure do_jal _ (switches_do_jal _)
           | exact hpure do_jalr _ (switches_do_jalr _)
           | exact hpure do_lui _ (switches_do_lui _)
           | exact fun _ => ⟨fun e he => do_lw_exit _ e he, fun m' hm => switches_do_lw _ m' hm⟩
           | exact fun _ => ⟨fun e he => do_sw_exit _ e he, fun m' hm => switches_do_sw _ m' hm⟩
           | exact fun _ => ⟨fun e he => do_divu_exit _ e he,
               fun m' hm => switches_do_divu _ m' hm⟩
           | exact fun _ => ⟨fun e he => do_remu_exit _ e he,
               fun m' hm => switches_do_remu _ m' hm⟩
           | (intro hredo
              obtain ⟨m1, h1, h2⟩ := do_ecall_redo isw _ hredo
              rw [h1]
              exact replaying_ok _ _ h2)
       · exact hur)
    | (with_reducible refine replaying_ok _ _ ?_
       first
         | rfl
         | exact (switches_do_add _).trans rfl
         | exact (switches_do_beq _).trans rfl
         | (rw [if_neg (not_not.2 hrecb)]
            first | rfl | exact (switches_do_beq _).trans rfl))

theorem debugger_switches_eq (a b : Machine)
    (h : debugger_switches a = debugger_switches b) :
    a.debug = b.debug ∧ a.execute = b.execute ∧ a.record = b.record ∧ a.undo = b.undo ∧
      a.redo = b.redo := by
  unfold debugger_switches at h
  simp only [Prod.mk.injEq] at h
  exact h

theorem decode_execute_with_debug_replaying (isw : Machine → Except Nat Machine)
    (m : Machine) (hd : m.debug ≠ 0) (hex : m.execute ≠ 0) (hrec : m.record = 0)
    (hur : m.undo ≠ 0 ∨ m.redo ≠ 0) :
    (∀ e, decode_execute_with_debug isw m = .error e →
        e = EXITCODE_MULTIPLEEXCEPTIONERROR) ∧
      ∀ m', decode_execute_with_debug isw m = .ok m' →
        debugger_switches m' = debugger_switches m := by
  unfold decode_execute_with_debug
  rw [if_pos hd]
  exact decode_execute_debug_replaying isw m hex hrec hur

theorem replay_undo_replaying (isw : Machine → Except Nat Machine) (tl : Nat) (m : Machine)
    (hd : m.debug ≠ 0) (hex : m.execute ≠ 0) (hrec : m.record = 0) (hu : m.undo ≠ 0) :
    (∀ e, replay_undo isw tl m = .error e → e = EXITCODE_MULTIPLEEXCEPTIONERROR) ∧
      ∀ m', replay_undo isw tl m = .ok m' → debugger_switches m' = debugger_switches m := by
  induction tl generalizing m with
  | zero =>
    exact ⟨fun e he => (nomatch he), fun m' hm => by rw [← Except.ok.inj hm]⟩
  | succ n ih =>
    obtain ⟨s1, s2⟩ := decode_execute_with_debug_replaying isw
      (fetch ({ ({ m with tc := sub32 m.tc 1 } : Machine) with
        pc := m.pcs (sub32 m.tc 1 % MAX_REPLAY_LENGTH) } : Machine)) hd hex hrec (Or.inl hu)
    constructor
    · intro e he
      unfold replay_undo at he
      dsimp only at he
      rcases except_bind_error _ _ _ he with h1 | ⟨m1, h1, h2⟩
      · exact s1 e h1
      · obtain ⟨f1, f2, f3, f4, _⟩ := debugger_switches_eq _ _ (s2 m1 h1)
        exact (ih m1 (by rw [f1]; exact hd) (by rw [f2]; exact hex) (by rw [f3]; exact hrec)
          (by rw [f4]; exact hu)).1 e h2
    · intro m' hm
      unfold replay_undo at hm
      dsimp only at hm
      obtain ⟨m1, h1, h2⟩ := except_bind_inv _ _ _ hm
      have hs := s2 m1 h1
      obtain ⟨f1, f2, f3, f4, _⟩ := debugger_switches_eq _ _ hs
      exact ((ih m1 (by rw [f1]; exact hd) (by rw [f2]; exact hex) (by rw [f3]; exact hrec)
        (by rw [f4]; exact hu)).2 m' h2).trans hs

theorem replay_redo_replaying (isw : Machine → Except Nat Machine) (tl : Nat) (m : Machine)
    (hd : m.debug ≠ 0) (hex : m.execute ≠ 0) (hrec : m.record = 0) (hr : m.redo ≠ 0) :
    ∀ e, replay_redo isw tl m = .error e → e = EXITCODE_MULTIPLEEXCEPTIONERROR := by
  induction tl generalizing m with
  | zero => exact fun e he => (nomatch he)
  | succ n ih =>
    obtain ⟨s1, s2⟩ := decode_execute_with_debug_replaying isw (fetch m) hd hex hrec (Or.inr hr)
    intro e he
    unfold replay_redo at he
    rcases except_bind_error _ _ _ he with h1 | ⟨m1, h1, h2⟩
    · exact s1 e h1
    · obtain ⟨f1, f2, f3, _, f5⟩ := debugger_switches_eq _ _ (s2 m1 h1)
      exact ih ({ m1 with tc := add32 m1.tc 1 } : Machine)
        (by show m1.debug ≠ 0; rw [f1]; exact hd)
        (by show m1.execute ≠ 0; rw [f2]; exact hex) (by show m1.record = 0; rw [f3]; exact hrec)
        (by show m1.redo ≠ 0; rw [f5]; exact hr) e h2

/-- With `debug` and `execute` set, `replay_trace` ends the emulator at most for a
second exception of another kind. -/
theorem replay_trace_replaying (isw : Machine → Except Nat Machine) (m : Machine)
    (hd : m.debug ≠ 0) (hex : m.execute ≠ 0) :
    ∀ e, replay_trace isw m = .error e → e = EXITCODE_MULTIPLEEXCEPTIONERROR := by
  intro e he
  unfold replay_trace at he
  dsimp only at he
  rcases except_bind_error _ _ _ he with h1 | ⟨m1, h1, h2⟩
  · exact (replay_undo_replaying isw _ ({ m with record := 0, undo := 1 } : Machine) hd hex rfl
      Nat.one_ne_zero).1 e h1
  · obtain ⟨f1, f2, f3, _, _⟩ := debugger_switches_eq _ _
      ((replay_undo_replaying isw _ ({ m with record := 0, undo := 1 } : Machine) hd hex rfl
        Nat.one_ne_zero).2 m1 h1)
    rcases except_bind_error _ _ _ h2 with h3 | ⟨m2, _, h4⟩
    · exact replay_redo_replaying isw _
        ({ m1 with undo := 0, redo := 1, disassemble := 1 } : Machine)
        (by show m1.debug ≠ 0; rw [f1]; exact hd) (by show m1.execute ≠ 0; rw [f2]; exact hex)
        (by show m1.record = 0; rw [f3]) Nat.one_ne_zero e h3
    · cases h4

/-- C11 (amended): for a context whose pending exception is DIVISIONBYZERO,
`handle_exception` with recording off clears the exception, sets the exit code to
`EXITCODE_DIVISIONBYZERO` (8) and returns EXIT.  With recording on it clears the
exception and calls `replay_trace`, and exactly one of two things happens: either
`replay_trace` returns, and then `handle_exception` returns EXIT with the exit code
set to `EXITCODE_NOERROR` (0) on the context as the replay left it, with recording
on again and `redo` and `disassemble` off; or `replay_trace` ends the emulator, and
then so does `handle_exception`, with the exit code of an unknown instruction (9),
of a second exception of another kind (11), of a context switch while recording
(1), or with one that the context switch itself exits with.  With `debug` and
`execute` set, as they are whenever the emulator records, the only such exit is
the one for a second exception of another kind (11). -/
theorem handle_exception_division_by_zero (k : Kernel) (m : Machine)
    (h : m.exception = EXCEPTION_DIVISIONBYZERO) :
    (m.record = 0 →
      handle_exception k m =
        .ok (EXIT, { m with exception := EXCEPTION_NOEXCEPTION,
                            exit_code := EXITCODE_DIVISIONBYZERO })) ∧
    (m.record ≠ 0 →
      (∃ m1,
        replay_trace k.implement_switch { m with exception := EXCEPTION_NOEXCEPTION } =
          .ok m1 ∧
        handle_exception k m = .ok (EXIT, { m1 with exit_code := EXITCODE_NOERROR }) ∧
        m1.record = 1 ∧ m1.redo = 0 ∧ m1.disassemble = 0) ∨
      (∃ c,
        replay_trace k.implement_switch { m with exception := EXCEPTION_NOEXCEPTION } =
          .error c ∧
        handle_exception k m = .error c ∧
        (c = EXITCODE_UNKNOWNINSTRUCTION ∨ c = EXITCODE_MULTIPLEEXCEPTIONERROR ∨
          c = EXITCODE_BADARGUMENTS ∨ ∃ m', k.implement_switch m' = .error c))) ∧
    (m.record ≠ 0 → m.debug ≠ 0 → m.execute ≠ 0 →
      ∀ c, handle_exception k m = .error c → c = EXITCODE_MULTIPLEEXCEPTIONERROR) := by
  have e : handle_exception k m = handle_division_by_zero k m := by
    unfold handle_exception
    rw [h, if_neg (by decide), if_neg (by decide), if_pos rfl]
  have e2 : m.record ≠ 0 → handle_division_by_zero k m =
      (do
        let m1 ← replay_trace k.implement_switch { m with exception := EXCEPTION_NOEXCEPTION }
        pure (EXIT, { m1 with exit_code := EXITCODE_NOERROR })) := by
    intro hr
    unfold handle_division_by_zero
    rw [if_pos hr]
  rw [e]
  refine ⟨?_, ?_, ?_⟩
  · intro hr
    unfold handle_division_by_zero
    rw [if_neg (not_not.2 hr)]
    rfl
  · intro hr
    rw [e2 hr]
    cases hrt : replay_trace k.implement_switch { m with exception := EXCEPTION_NOEXCEPTION } with
    | ok m1 =>
      exact Or.inl ⟨m1, rfl, rfl, replay_trace_flags _ _ _ hrt⟩
    | error c =>
      exact Or.inr ⟨c, rfl, rfl, replay_trace_exit _ _ _ hrt⟩
  · intro hr hd hx c hc
    rw [e2 hr] at hc
    rcases except_bind_error _ _ _ hc with h1 | ⟨m1, _, h2⟩
    · exact replay_trace_replaying k.implement_switch
        ({ m with exception := EXCEPTION_NOEXCEPTION } : Machine) hd hx c h1
    · cases h2

/-- Witness for C11: with recording off, a context with DIVISIONBYZERO pending exits
with code 8 and no exception pending; with recording on and a trace that holds the
dividing instruction, `replay_trace` returns and `handle_exception` returns EXIT
with exit code 0; and in the state of `self_overwritten_machine`, with `debug` and
`execute` set, `handle_exception` ends the emulator with exit code 11. -/
theorem handle_exception_division_by_zero_witness :
    (({ zero_machine with exception := EXCEPTION_DIVISIONBYZERO } : Machine).exception =
        EXCEPTION_DIVISIONBYZERO ∧
      ({ zero_machine with exception := EXCEPTION_DIVISIONBYZERO } : Machine).record = 0 ∧
      handle_exception idle_kernel { zero_machine with exception := EXCEPTION_DIVISIONBYZERO } =
        .ok (EXIT, { zero_machine with exception := EXCEPTION_NOEXCEPTION,
                                       exit_code := EXITCODE_DIVISIONBYZERO })) ∧
    (recorded_division_machine.exception = EXCEPTION_DIVISIONBYZERO ∧
      recorded_division_machine.record ≠ 0 ∧
      ((∃ m1,
        replay_trace idle_kernel.implement_switch
          { recorded_division_machine with exception := EXCEPTION_NOEXCEPTION } = .ok m1 ∧
        handle_exception idle_kernel recorded_division_machine =
          .ok (EXIT, { m1 with exit_code := EXITCODE_NOERROR }) ∧
        m1.record = 1 ∧ m1.redo = 0 ∧ m1.disassemble = 0) ∨
      (∃ c,
        replay_trace idle_kernel.implement_switch
          { recorded_division_machine with exception := EXCEPTION_NOEXCEPTION } = .error c ∧
        handle_exception idle_kernel recorded_division_machine = .error c ∧
        (c = EXITCODE_UNKNOWNINSTRUCTION ∨ c = EXITCODE_MULTIPLEEXCEPTIONERROR ∨
          c = EXITCODE_BADARGUMENTS ∨ ∃ m', idle_kernel.implement_switch m' = .error c))) ∧
      ∃ m', handle_exception idle_kernel recorded_division_machine = .ok (EXIT, m') ∧
        m'.exit_code = EXITCODE_NOERROR ∧ m'.record = 1) ∧
    (self_overwritten_machine.exception = EXCEPTION_DIVISIONBYZERO ∧
      self_overwritten_machine.record ≠ 0 ∧ self_overwritten_machine.debug ≠ 0 ∧
      self_overwritten_machine.execute ≠ 0 ∧
      handle_exception idle_kernel self_overwritten_machine = .error 11 ∧
      (11 : Nat) = EXITCODE_MULTIPLEEXCEPTIONERROR) :=
  ⟨⟨rfl, rfl, (handle_exception_division_by_zero idle_kernel
      { zero_machine with exception := EXCEPTION_DIVISIONBYZERO } rfl).1 rfl⟩,
    ⟨rfl, by decide,
      (handle_exception_division_by_zero idle_kernel recorded_division_machine rfl).2.1
        (by decide),
      _, rfl, rfl, rfl⟩,
    rfl, by decide, by decide, by decide, rfl,
    (handle_exception_division_by_zero idle_kernel self_overwritten_machine rfl).2.2
      (by decide) (by decide) (by decide) 11 rfl⟩

/-- Counterexample for C11 as stated.  With recording on, the replay executes the
recorded division again, which raises DIVISIONBYZERO again, so the exception is not
clear when `handle_exception` returns EXIT with exit code 0.  And for the binary of
`self_overwriting_machine`, run while recording until the division by zero traps,
`handle_exception` does not return: undoing the store that overwrote itself finds
no instruction and raises UNKNOWNINSTRUCTION, `add` is not undone, so the load that
is executed again reads from `0x20000`, which is not mapped, and the page fault in
the presence of the first exception ends the emulator with exit code
`EXITCODE_MULTIPLEEXCEPTIONERROR` (11). -/
theorem handle_exception_division_by_zero_replay_raises :
    (recorded_division_machine.exception = EXCEPTION_DIVISIONBYZERO ∧
      recorded_division_machine.record ≠ 0 ∧
      ∃ m', handle_exception idle_kernel recorded_division_machine = .ok (EXIT, m') ∧
        m'.exception = EXCEPTION_DIVISIONBYZERO ∧
        m'.exception ≠ EXCEPTION_NOEXCEPTION ∧ m'.exit_code = EXITCODE_NOERROR) ∧
    (steps_with_debug idle_kernel.implement_switch 5 self_overwriting_machine =
        .ok self_overwritten_machine ∧
      self_overwritten_machine.exception = EXCEPTION_DIVISIONBYZERO ∧
      self_overwritten_machine.trap = 1 ∧ self_overwritten_machine.record ≠ 0 ∧
      handle_exception idle_kernel self_overwritten_machine =
        .error EXITCODE_MULTIPLEEXCEPTIONERROR ∧
      ∀ r, handle_exception idle_kernel self_overwritten_machine ≠ .ok r) :=
  ⟨⟨rfl, by decide, _, rfl, rfl, by decide, rfl⟩,
    rfl, rfl, rfl, by decide, rfl, fun r hr => nomatch hr⟩

/-! ## The code of a call -/

theorem appends_code_of_emits (c c' : Compiler) (ws : List Nat) (h : emits c c' ws) :
    appends_code c c' ws :=
  ⟨h.1, h.2.2.1, h.2.2.2⟩

theorem appends_code_nil (c : Compiler) : appends_code c c [] :=
  ⟨rfl, fun i hi => absurd hi (Nat.not_lt_zero i), fun _ _ => rfl⟩

theorem appends_code_append (c c1 c2 : Compiler) (ws1 ws2 : List Nat)
    (h1 : appends_code c c1 ws1) (h2 : appends_code c1 c2 ws2) :
    appends_code c c2 (ws1 ++ ws2) := by
  obtain ⟨l1, b1, o1⟩ := h1
  obtain ⟨l2, b2, o2⟩ := h2
  have e : c1.binary_length / 4 = c.binary_length / 4 + ws1.length := by omega
  refine ⟨?_, ?_, ?_⟩
  · rw [l2, l1, List.length_append]
    omega
  · intro i hi
    rw [List.length_append] at hi
    by_cases h : i < ws1.length
    · rw [o2 _ (Or.inl (by omega)), b1 i h, List.getD_append _ _ _ _ h]
    · have h' : ws1.length ≤ i := Nat.le_of_not_lt h
      have ei : c.binary_length / 4 + i = c1.binary_length / 4 + (i - ws1.length) := by omega
      rw [ei, b2 _ (by omega), List.getD_append_right _ _ _ _ h']
  · intro i hi
    rw [List.length_append] at hi
    rw [o2 _ (by omega), o1 _ (by omega)]

theorem appends_code_of_same_binary (c0 c c' : Compiler) (ws : List Nat)
    (hl : c0.binary_length = c.binary_length) (hb : c0.binary = c.binary)
    (h : appends_code c c' ws) : appends_code c0 c' ws := by
  unfold appends_code at h ⊢
  rw [hl, hb]
  exact h

theorem appended_code_word (c c' : Compiler) (ws : List Nat) (m : Machine) (i : Nat)
    (he : appends_code c c' ws) (hi : i < ws.length)
    (h : code_loaded c' c.binary_length ws.length m) :
    load_virtual_memory m.memory m.pt (add32 m.pc (4 * i)) = ws.getD i 0 := by
  rw [h i hi]
  unfold load_instruction REGISTERSIZE
  have e : (c.binary_length + 4 * i) / 4 = c.binary_length / 4 + i := by omega
  rw [e]
  exact he.2.1 i hi

theorem parser_get_symbol_compiler (fuel : Nat) (p b : Starc)
    (h : parser_get_symbol fuel p = pure b) :
    b.compiler.binary_length = p.compiler.binary_length ∧
    b.compiler.binary = p.compiler.binary ∧
    b.compiler.allocated_temporaries = p.compiler.allocated_temporaries := by
  unfold parser_get_symbol at h
  obtain ⟨sc, _, h2⟩ := optionT_bind_inv _ _ _ h
  have e : b = { p with scanner := sc,
                        compiler := { p.compiler with line_number := sc.line_number } } :=
    (Option.some.inj (Except.ok.inj h2)).symm
  rw [e]
  exact ⟨rfl, rfl, rfl⟩

theorem after_push_spec (a : Starc) (h1 : a.compiler.allocated_temporaries = 1)
    (hl : a.compiler.binary_length + 8 ≤ MAX_CODE_LENGTH) :
    ∃ w_addi w_sw,
      encode_i_format (neg32 REGISTERSIZE) REG_SP F3_ADDI REG_SP OP_IMM = .ok w_addi ∧
      encode_s_format 0 REG_T0 REG_SP F3_SW OP_SW = .ok w_sw ∧
      emit a push_temporary = .ok (after_push a) ∧
      (after_push a).scanner = a.scanner ∧
      (after_push a).compiler.allocated_temporaries = 0 ∧
      appends_code a.compiler (after_push a).compiler [w_addi, w_sw] := by
  obtain ⟨c', t, wa, wsw, hc, hpush, htemp, hwa, hws, hem, _⟩ :=
    push_temporary_pushes (fun m => .ok m) a.compiler (by omega) (by omega) hl
  have ht : t = REG_T0 := by
    rw [h1] at hc
    exact (Except.ok.inj hc).symm
  rw [ht] at hws
  have he : emit a push_temporary = .ok { a with compiler := c' } := emit_ok _ _ _ hpush
  have ha : after_push a = { a with compiler := c' } := by
    unfold after_push
    rw [he]
  refine ⟨wa, wsw, hwa, hws, ?_, ?_, ?_, ?_⟩
  · rw [ha]; exact he
  · rw [ha]
  · rw [ha]
    show c'.allocated_temporaries = 0
    omega
  · rw [ha]; exact appends_code_of_emits _ _ _ hem

theorem compile_call_arguments_layout (ce : Starc → OptionT (Except Nat) (Nat × Starc))
    (w_addi w_sw : Nat)
    (hwa : encode_i_format (neg32 REGISTERSIZE) REG_SP F3_ADDI REG_SP OP_IMM = .ok w_addi)
    (hws : encode_s_format 0 REG_T0 REG_SP F3_SW OP_SW = .ok w_sw)
    (fuel : Nat) (p : Starc) (rest : List (Starc × List Nat)) (e : Starc)
    (h : more_arguments ce fuel p rest e) :
    compile_call_arguments ce fuel p = pure e ∧
      appends_code p.compiler e.compiler
        (argument_pushes w_addi w_sw (rest.map Prod.snd)) := by
  induction fuel generalizing p rest with
  | zero => exact absurd h (by unfold more_arguments; exact id)
  | succ fuel ih =>
    cases rest with
    | nil =>
      unfold more_arguments at h
      obtain ⟨hc, he⟩ := h
      rw [he]
      constructor
      · rw [compile_call_arguments]
        rw [if_neg hc]
      · exact appends_code_nil _
    | cons x rest =>
      obtain ⟨a, ws⟩ := x
      unfold more_arguments at h
      obtain ⟨hc, ⟨b, hget, ⟨ty, hce⟩, hem, h1, hl⟩, hmore⟩ := h
      obtain ⟨wa, wsw, hwa', hws', hpush, _, _, hemp⟩ := after_push_spec a h1 hl
      have e1 : wa = w_addi := Except.ok.inj (hwa'.symm.trans hwa)
      have e2 : wsw = w_sw := Except.ok.inj (hws'.symm.trans hws)
      rw [e1, e2] at hemp
      obtain ⟨ih1, ih2⟩ := ih (after_push a) rest hmore
      obtain ⟨g1, g3, _⟩ := parser_get_symbol_compiler fuel p b hget
      constructor
      · rw [compile_call_arguments]
        simp only [hc, if_true, hget, pure_bind, hce, hpush, lift_ok_bind]
        exact ih1
      · have hpa : appends_code p.compiler a.compiler ws :=
          appends_code_of_same_binary p.compiler b.compiler a.compiler ws g1.symm g3.symm hem
        exact appends_code_append _ _ _ _ _ (appends_code_append _ _ _ _ _ hpa hemp) ih2

theorem mk_some_bind {α β : Type} (a : α) (f : α → OptionT (Except Nat) β) :
    ((OptionT.mk (pure (some a)) : OptionT (Except Nat) α) >>= f) = f a := rfl

theorem pure_pair_bind {α β : Type} (a : α) (f : α → OptionT (Except Nat) β) :
    ((pure a : OptionT (Except Nat) α) >>= f) = f a := rfl

/-- The instruction that `help_call_codegen` emits is a `jal` with `ra` as its
destination and `call_offset` as its immediate. -/
theorem help_call_codegen_jal (s : Starc) (entry : Option SymbolTableEntry)
    (procedure : Nat → Nat) (r : Nat × Starc) (h : help_call_codegen s entry procedure = .ok r) :
    ∃ w, encode_j_format (call_offset s entry) REG_RA OP_JAL = .ok w ∧
      emits s.compiler r.2.compiler [w] := by
  unfold help_call_codegen at h
  unfold call_offset
  cases entry with
  | none =>
    simp only at h
    obtain ⟨s1, e1, h⟩ := except_bind_inv _ _ _ h
    obtain ⟨a1, _⟩ := emit_inv _ _ _ e1
    obtain ⟨w, hw, m1, _⟩ := emit_jal_inv _ _ _ _ a1
    have e : (UINT32_T, s1) = r := Except.ok.inj h
    subst e
    exact ⟨w, hw, m1⟩
  | some entry =>
    simp only at h ⊢
    split at h
    · rename_i h0
      obtain ⟨s1, e1, h⟩ := except_bind_inv _ _ _ h
      obtain ⟨a1, _⟩ := emit_inv _ _ _ e1
      obtain ⟨w, hw, m1, _⟩ := emit_jal_inv _ _ _ _ a1
      have e : (_, s1) = r := Except.ok.inj h
      subst e
      rw [if_pos h0]
      exact ⟨w, hw, m1⟩
    · rename_i h0
      rw [if_neg h0]
      split at h
      · rename_i hj
        obtain ⟨s1, e1, h⟩ := except_bind_inv _ _ _ h
        obtain ⟨a1, _⟩ := emit_inv _ _ _ e1
        obtain ⟨w, hw, m1, _⟩ := emit_jal_inv _ _ _ _ a1
        have e : (_, _) = r := Except.ok.inj h
        subst e
        rw [if_pos hj]
        exact ⟨w, hw, m1⟩
      · rename_i hj
        obtain ⟨s1, e1, h⟩ := except_bind_inv _ _ _ h
        obtain ⟨a1, _⟩ := emit_inv _ _ _ e1
        obtain ⟨w, hw, m1, _⟩ := emit_jal_inv _ _ _ _ a1
        have e : (_, s1) = r := Except.ok.inj h
        subst e
        rw [if_neg hj]
        exact ⟨w, hw, m1⟩

/-- The code that `compile_call` emits for a call with arguments: the code of each
argument in the order of the source text, each followed by the two instructions of
the push, and the `jal`. -/
theorem compile_call_layout (ce : Starc → OptionT (Except Nat) (Nat × Starc)) (fuel : Nat)
    (procedure : Nat → Nat) (s s0 a1 e e1 sj sf : Starc) (entry : Option SymbolTableEntry)
    (ws1 : List Nat) (rest : List (Starc × List Nat)) (ty : Nat)
    (hentry : get_scoped_symbol_table_entry fuel s.tables procedure PROCEDURE = some entry)
    (hsave : emit_loop s (save_temporaries fuel) = pure s0)
    (hexp : is_expression s0 ≠ 0)
    (hfirst : compiles_argument ce s0 a1 ws1)
    (hmore : more_arguments ce fuel (after_push a1) rest e)
    (hrp : e.scanner.symbol = SYM_RPARENTHESIS)
    (hget : parser_get_symbol fuel e = pure e1)
    (hcall : help_call_codegen e1 entry procedure = .ok (ty, sj))
    (hrestore : emit_loop sj
      (fun c => restore_temporaries fuel c s.compiler.allocated_temporaries) = pure sf) :
    compile_call fuel ce procedure s =
      pure (ty, { sf with number_of_calls := add32 sf.number_of_calls 1 }) ∧
    ∃ w_addi w_sw w_jal,
      encode_i_format (neg32 REGISTERSIZE) REG_SP F3_ADDI REG_SP OP_IMM = .ok w_addi ∧
      encode_s_format 0 REG_T0 REG_SP F3_SW OP_SW = .ok w_sw ∧
      encode_j_format (call_offset e1 entry) REG_RA OP_JAL = .ok w_jal ∧
      appends_code s0.compiler sj.compiler
        (argument_pushes w_addi w_sw (ws1 :: rest.map Prod.snd) ++ [w_jal]) := by
  obtain ⟨⟨ty1, hce⟩, hem1, h1, hl⟩ := hfirst
  obtain ⟨wa, wsw, hwa, hws, hpush, _, _, hemp⟩ := after_push_spec a1 h1 hl
  obtain ⟨hloop, hemr⟩ := compile_call_arguments_layout ce wa wsw hwa hws fuel
    (after_push a1) rest e hmore
  obtain ⟨wj, hwj, hemj⟩ := help_call_codegen_jal e1 entry procedure (ty, sj) hcall
  obtain ⟨g1, g3, _⟩ := parser_get_symbol_compiler fuel e e1 hget
  constructor
  · unfold compile_call
    simp only [hentry, mk_some_bind, hsave, pure_pair_bind, hexp, ne_eq, not_false_eq_true,
      if_true, hce, hpush, lift_ok_bind, hloop, hrp, hget, hcall, hrestore]
  · refine ⟨wa, wsw, wj, hwa, hws, hwj, ?_⟩
    have h2 : appends_code e.compiler sj.compiler [wj] :=
      appends_code_of_same_binary e.compiler e1.compiler sj.compiler [wj] g1.symm g3.symm
        (appends_code_of_emits _ _ _ hemj)
    exact appends_code_append _ _ _ _ _
      (appends_code_append _ _ _ _ _ (appends_code_append _ _ _ _ _ hem1 hemp) hemr) h2

/-! ## Running the code of a call -/

/-- The two instructions of a push, run on a machine. -/
theorem run_push (isw : Machine → Except Nat Machine) (m : Machine) (w_addi w_sw : Nat)
    (hwa : encode_i_format (neg32 REGISTERSIZE) REG_SP F3_ADDI REG_SP OP_IMM = .ok w_addi)
    (hws : encode_s_format 0 REG_T0 REG_SP F3_SW OP_SW = .ok w_sw)
    (h0 : load_virtual_memory m.memory m.pt m.pc = w_addi)
    (h1 : load_virtual_memory m.memory m.pt (add32 m.pc 4) = w_sw)
    (hlo : 4 ≤ m.registers REG_SP) (hhi : m.registers REG_SP ≤ VIRTUALMEMORYSIZE)
    (hal : m.registers REG_SP % 4 = 0)
    (hmap : m.pt ((m.registers REG_SP - 4) / PAGESIZE) ≠ 0) :
    ∃ m', steps isw 2 m = .ok m' ∧
      m'.registers = store_word m.registers REG_SP (m.registers REG_SP - 4) ∧
      m'.memory = store_virtual_memory m.memory m.pt (m.registers REG_SP - 4)
        (m.registers REG_T0) ∧
      m'.pt = m.pt ∧ m'.pc = add32 m.pc 8 := by
  have hhi' : m.registers REG_SP ≤ 2147483648 := hhi
  obtain ⟨ma, s1, r1, p1, me1, pt1⟩ := step_addi isw m REG_SP REG_SP (neg32 REGISTERSIZE) _
    (by decide) (by decide) minus_four_in_range (by decide) hwa h0
  have hsp : add32 (m.registers REG_SP) (neg32 REGISTERSIZE) = m.registers REG_SP - 4 := by
    unfold add32 neg32 REGISTERSIZE
    omega
  rw [hsp] at r1
  have hra : ma.registers REG_SP = m.registers REG_SP - 4 := by
    rw [r1, store_word_same]
  have hva : add32 (ma.registers REG_SP) 0 = m.registers REG_SP - 4 := by
    rw [hra]
    unfold add32
    omega
  have hf : load_virtual_memory ma.memory ma.pt ma.pc = w_sw := by
    rw [me1, pt1, p1]
    exact h1
  obtain ⟨mb, s2, r2, p2, me2, pt2⟩ := step_sw isw ma REG_SP REG_T0 0 _ (by decide) (by decide)
    zero_in_signed_range hws hf (by rw [hva]; exact ⟨by omega, by omega⟩)
    (by rw [hva, pt1]; exact hmap)
  refine ⟨mb, ?_, by rw [r2, r1], ?_, by rw [pt2, pt1], by rw [p2, p1, add32_add32]⟩
  · rw [steps_succ isw 1 m ma s1, steps_succ isw 0 ma mb s2]
    rfl
  · rw [me2, hva, me1, pt1, r1, store_word_ne _ _ _ _ (show REG_T0 ≠ REG_SP by decide)]

/-- The instruction `jal`, run on a machine: the address of the next instruction is
linked in `rd`, and `pc` moves by the immediate of the instruction word. -/
theorem step_jal (isw : Machine → Except Nat Machine) (m : Machine) (imm rd w : Nat)
    (hi : in_signed_range imm 21) (hd : rd < 32) (hz : rd ≠ REG_ZR)
    (he : encode_j_format imm rd OP_JAL = .ok w)
    (hw : load_virtual_memory m.memory m.pt m.pc = w) :
    ∃ m', step isw m = .ok m' ∧
      m'.registers = store_word m.registers rd (add32 m.pc 4) ∧
      m'.pc = add32 m.pc (imm - imm % 2) ∧ m'.memory = m.memory ∧ m'.pt = m.pt := by
  obtain ⟨w', he', ei, ed, eo⟩ := j_format_round_trip imm rd OP_JAL hi hd (by decide)
  have hww : w' = w := Except.ok.inj (he'.symm.trans he)
  rw [hww] at ei ed eo
  have hir : (fetch m).ir = w := hw
  have hde : decode_execute isw (fetch m) =
      .ok (do_jal (decode_j_format { fetch m with opcode := OP_JAL })) :=
    decode_execute_jal isw (fetch m) (by rw [hir]; exact eo)
  have xd : (decode_j_format { fetch m with opcode := OP_JAL }).rd = rd := by
    show get_rd (fetch m).ir = rd
    rw [hir]; exact ed
  have xi : (decode_j_format { fetch m with opcode := OP_JAL }).imm = imm - imm % 2 := by
    show get_immediate_j_format (fetch m).ir = imm - imm % 2
    rw [hir]; exact ei
  have hj : ∀ X : Machine, X.rd ≠ REG_ZR →
      (do_jal X).registers = store_word X.registers X.rd (add32 X.pc 4) ∧
      (do_jal X).pc = add32 X.pc X.imm ∧
      (do_jal X).memory = X.memory ∧ (do_jal X).pt = X.pt := by
    intro X hX
    unfold do_jal
    dsimp only
    rw [if_pos hX]
    exact ⟨rfl, rfl, rfl, rfl⟩
  obtain ⟨j1, j2, j3, j4⟩ := hj (decode_j_format { fetch m with opcode := OP_JAL })
    (by rw [xd]; exact hz)
  obtain ⟨m', hs, r', p', mem', pt'⟩ := step_of_decode_execute isw m _ hde
  refine ⟨m', hs, ?_, ?_, by rw [mem', j3]; rfl, by rw [pt', j4]; rfl⟩
  · rw [r', j1, xd]
    rfl
  · rw [p', j2, xi]
    rfl

theorem argument_pushes_cons (w_addi w_sw : Nat) (ws : List Nat) (rest : List (List Nat)) :
    argument_pushes w_addi w_sw (ws :: rest) =
      ws ++ ([w_addi, w_sw] ++ argument_pushes w_addi w_sw rest) := by
  rw [argument_pushes, List.append_assoc]

theorem getD_after (ws rest : List Nat) (i : Nat) :
    (ws ++ rest).getD (ws.length + i) 0 = rest.getD i 0 := by
  rw [List.getD_append_right _ _ _ _ (by omega)]
  congr 1
  omega

/-- The code of the arguments of a call, run on a machine: the values of the
arguments are on the stack, each one word below the one before it. -/
theorem run_arguments (isw : Machine → Except Nat Machine) (w_addi w_sw : Nat)
    (hwa : encode_i_format (neg32 REGISTERSIZE) REG_SP F3_ADDI REG_SP OP_IMM = .ok w_addi)
    (hws : encode_s_format 0 REG_T0 REG_SP F3_SW OP_SW = .ok w_sw)
    (tail : List Nat) (codes : List (List Nat)) (vs : List Nat) (m : Machine)
    (hcode : ∀ i, i < (argument_pushes w_addi w_sw codes ++ tail).length →
      load_virtual_memory m.memory m.pt (add32 m.pc (4 * i)) =
        (argument_pushes w_addi w_sw codes ++ tail).getD i 0)
    (hroom : stack_room m (argument_pushes w_addi w_sw codes ++ tail).length codes.length)
    (hev : arguments_evaluated isw w_addi w_sw tail.length codes vs m) :
    ∃ K m', steps isw K m = .ok m' ∧
      m'.pc = add32 m.pc (4 * (argument_pushes w_addi w_sw codes).length) ∧
      m'.registers REG_SP = m.registers REG_SP - 4 * codes.length ∧ m'.pt = m.pt ∧
      (∀ i, i < tail.length →
        load_virtual_memory m'.memory m'.pt (add32 m'.pc (4 * i)) = tail.getD i 0) ∧
      (∀ x, m.registers REG_SP ≤ x →
        (∀ j, 1 ≤ j → j ≤ codes.length →
          tlb m.pt x ≠ tlb m.pt (m.registers REG_SP - 4 * j)) →
        load_virtual_memory m'.memory m'.pt x = load_virtual_memory m.memory m.pt x) ∧
      vs.length = codes.length ∧
      ∀ i, i < codes.length →
        load_virtual_memory m'.memory m'.pt (m.registers REG_SP - 4 * (i + 1)) =
          vs.getD i 0 := by
  induction codes generalizing vs m with
  | nil =>
    cases vs with
    | cons v vs => exact absurd hev (by unfold arguments_evaluated; exact id)
    | nil =>
      obtain ⟨hpc, _⟩ := hroom
      refine ⟨0, m, rfl, ?_, rfl, rfl, ?_, fun x _ _ => rfl, rfl, fun i hi => absurd hi (by simp)⟩
      · show m.pc = add32 m.pc (4 * 0)
        rw [Nat.mul_zero, add32_zero _ hpc]
      · intro i hi
        have := hcode i (by simpa [argument_pushes] using hi)
        simpa [argument_pushes] using this
  | cons ws rest ih =>
    cases vs with
    | nil => exact absurd hev (by unfold arguments_evaluated; exact id)
    | cons v vs =>
      unfold arguments_evaluated at hev
      obtain ⟨k, ma, hk, hpca, hv, hspa, hpta, hfra, hcpa, hnext⟩ := hev
      obtain ⟨hpc, hlo, hhi, hal, hmap, hdis, hcd⟩ := hroom
      rw [argument_pushes_cons] at hcode hcd
      simp only [List.length_append, List.length_cons, List.length_nil] at hcode hcd hlo hmap hdis
      -- the two words of the push
      have c0 : load_virtual_memory ma.memory ma.pt ma.pc = w_addi := by
        have h1 := hcpa 0 (by omega)
        rw [Nat.mul_zero, add32_zero _ (by rw [hpca]; exact add32_lt _ _)] at h1
        rw [h1, hpca, hcode ws.length (by omega)]
        have := getD_after ws ([w_addi, w_sw] ++ argument_pushes w_addi w_sw rest ++ tail) 0
        rw [Nat.add_zero] at this
        rw [List.append_assoc, List.append_assoc] 
        rw [← List.append_assoc [w_addi, w_sw]] 
        rw [this]
        rfl
      have c1 : load_virtual_memory ma.memory ma.pt (add32 ma.pc 4) = w_sw := by
        have h1 := hcpa 1 (by omega)
        rw [h1, hpca, add32_add32,
          show 4 * ws.length + 4 * 1 = 4 * (ws.length + 1) by omega, hcode (ws.length + 1) (by omega)]
        rw [List.append_assoc, List.append_assoc] 
        rw [← List.append_assoc [w_addi, w_sw]] 
        rw [getD_after]
        rfl
      obtain ⟨mp, hp, hrp, hmp, hptp, hpcp⟩ := run_push isw ma w_addi w_sw hwa hws c0 c1
        (by rw [hspa]; omega) (by rw [hspa]; exact hhi) (by rw [hspa]; exact hal)
        (by rw [hspa, hpta]; exact hmap 1 (by omega) (by omega))
      rw [hspa] at hrp hmp
      rw [hpta] at hmp
      have hspp : mp.registers REG_SP = m.registers REG_SP - 4 := by
        rw [hrp, store_word_same]
      have hptp' : mp.pt = m.pt := by rw [hptp, hpta]
      have hpcp' : mp.pc = add32 m.pc (4 * (ws.length + 2)) := by
        rw [hpcp, hpca, add32_add32, show 4 * ws.length + 8 = 4 * (ws.length + 2) by omega]
      have hevp := hnext mp hp
      -- loads in the state after the push
      have hload : ∀ x, tlb m.pt x ≠ tlb m.pt (m.registers REG_SP - 4) →
          load_virtual_memory mp.memory mp.pt x = load_virtual_memory ma.memory ma.pt x := by
        intro x hx
        rw [hmp, hptp', hpta]
        exact load_store_virtual_memory_ne _ _ _ _ _ hx
      have hslot : load_virtual_memory mp.memory mp.pt (m.registers REG_SP - 4) = v := by
        rw [hmp, hptp', load_store_virtual_memory, hv]
      obtain ⟨K, m', hK, hpc', hsp', hpt', htail', hfr', hlen', hvs'⟩ := ih vs mp
        (by
          intro i hi
          simp only [List.length_append] at hi
          rw [hpcp', add32_add32, show 4 * (ws.length + 2) + 4 * i = 4 * (ws.length + 2 + i) by omega]
          rw [hload _ (by
            have := hcd (ws.length + 2 + i) 1 (by omega) (by omega) (by omega)
            rw [Nat.mul_one] at this
            exact this)]
          have h2 := hcpa (2 + i) (by omega)
          rw [hpca, add32_add32,
            show 4 * ws.length + 4 * (2 + i) = 4 * (ws.length + 2 + i) by omega] at h2
          rw [h2, hcode (ws.length + 2 + i) (by omega)]
          rw [List.append_assoc, List.append_assoc, ← List.append_assoc [w_addi, w_sw],
            show ws.length + 2 + i = ws.length + (2 + i) by omega, getD_after]
          rw [List.append_assoc]
          exact getD_after [w_addi, w_sw] _ i)
        (by
          refine ⟨by rw [hpcp']; exact add32_lt _ _, by rw [hspp]; omega, by rw [hspp]; omega,
            by rw [hspp]; omega, ?_, ?_, ?_⟩
          · intro j h1 h2
            rw [hspp, hptp']
            have := hmap (j + 1) (by omega) (by omega)
            rw [show m.registers REG_SP - 4 * (j + 1) = m.registers REG_SP - 4 - 4 * j by omega]
              at this
            exact this
          · intro j j' h1 h2 h3
            rw [hspp, hptp']
            have := hdis (j + 1) (j' + 1) (by omega) (by omega) (by omega)
            rw [show m.registers REG_SP - 4 * (j + 1) = m.registers REG_SP - 4 - 4 * j by omega,
              show m.registers REG_SP - 4 * (j' + 1) = m.registers REG_SP - 4 - 4 * j' by omega]
              at this
            exact this
          · intro i j hi h1 h2
            simp only [List.length_append] at hi
            rw [hspp, hptp', hpcp', add32_add32,
              show 4 * (ws.length + 2) + 4 * i = 4 * (ws.length + 2 + i) by omega]
            have := hcd (ws.length + 2 + i) (j + 1) (by omega) (by omega) (by omega)
            rw [show m.registers REG_SP - 4 * (j + 1) = m.registers REG_SP - 4 - 4 * j by omega]
              at this
            exact this)
        hevp
      refine ⟨k + 2 + K, m', ?_, ?_, ?_, by rw [hpt', hptp'], htail', ?_, ?_, ?_⟩
      · rw [steps_append isw (k + 2) K m mp (by rw [steps_append isw k 2 m ma hk]; exact hp)]
        exact hK
      · rw [hpc', hpcp', add32_add32, argument_pushes_cons]
        congr 1
        simp only [List.length_append, List.length_cons, List.length_nil]
        omega
      · rw [hsp', hspp]
        simp only [List.length_cons]
        omega
      · intro x hx hna
        simp only [List.length_cons] at hna
        rw [hfr' x (by rw [hspp]; omega) (by
          intro j h1 h2
          rw [hptp', hspp]
          have := hna (j + 1) (by omega) (by omega)
          rw [show m.registers REG_SP - 4 * (j + 1) = m.registers REG_SP - 4 - 4 * j by omega]
            at this
          exact this)]
        rw [hload x (by
          have := hna 1 (by omega) (by omega)
          rw [Nat.mul_one] at this
          exact this)]
        exact hfra x hx
      · simp only [List.length_cons]
        omega
      · intro i hi
        simp only [List.length_cons] at hi
        cases i with
        | zero =>
          show load_virtual_memory m'.memory m'.pt (m.registers REG_SP - 4 * (0 + 1)) = v
          rw [show m.registers REG_SP - 4 * (0 + 1) = m.registers REG_SP - 4 by omega]
          rw [hfr' (m.registers REG_SP - 4) (by rw [hspp]) (by
            intro j h1 h2
            rw [hptp', hspp]
            have := hdis 1 (j + 1) (by omega) (by omega) (by omega)
            rw [Nat.mul_one,
              show m.registers REG_SP - 4 * (j + 1) = m.registers REG_SP - 4 - 4 * j by omega]
              at this
            exact this)]
          exact hslot
        | succ i =>
          show load_virtual_memory m'.memory m'.pt (m.registers REG_SP - 4 * (i + 1 + 1)) =
            vs.getD i 0
          have := hvs' i (by omega)
          rw [hspp, show m.registers REG_SP - 4 - 4 * (i + 1) =
            m.registers REG_SP - 4 * (i + 1 + 1) by omega] at this
          exact this

/-! ## The epilogue of the procedure called -/

theorem help_procedure_epilogue_length (c c' : Compiler) (p : Nat)
    (h : help_procedure_epilogue c p = .ok c') : c'.binary_length = c.binary_length + 24 := by
  unfold help_procedure_epilogue at h
  obtain ⟨c1, h1, h⟩ := except_bind_inv _ _ _ h
  obtain ⟨c2, h2, h⟩ := except_bind_inv _ _ _ h
  obtain ⟨c3, h3, h⟩ := except_bind_inv _ _ _ h
  obtain ⟨c4, h4, h⟩ := except_bind_inv _ _ _ h
  obtain ⟨c5, h5, h⟩ := except_bind_inv _ _ _ h
  obtain ⟨_, _, e1, _⟩ := emit_addi_inv _ _ _ _ _ h1
  obtain ⟨_, _, e2, _⟩ := emit_lw_inv _ _ _ _ _ h2
  obtain ⟨_, _, e3, _⟩ := emit_addi_inv _ _ _ _ _ h3
  obtain ⟨_, _, e4, _⟩ := emit_lw_inv _ _ _ _ _ h4
  obtain ⟨_, _, e5, _⟩ := emit_addi_inv _ _ _ _ _ h5
  obtain ⟨_, _, e6, _⟩ := emit_jalr_inv _ _ _ _ _ h
  have l1 := e1.1
  have l2 := e2.1
  have l3 := e3.1
  have l4 := e4.1
  have l5 := e5.1
  have l6 := e6.1
  simp only [List.length_singleton] at l1 l2 l3 l4 l5 l6
  omega

theorem epilogue_last_bind {α : Type} (p : Nat) (x : OptionT (Except Nat) α)
    (f : α → OptionT (Except Nat) Starc)
    (h : ∀ a s', f a = pure s' →
      ∃ sb : Starc, help_procedure_epilogue sb.compiler p = .ok s'.compiler) :
    ∀ s', (x >>= f) = pure s' →
      ∃ sb : Starc, help_procedure_epilogue sb.compiler p = .ok s'.compiler := by
  intro s' hs
  obtain ⟨a, _, ha⟩ := optionT_bind_inv _ _ _ hs
  exact h a s' ha

theorem epilogue_last_ite (p : Nat) (c : Prop) [Decidable c] (a b : OptionT (Except Nat) Starc)
    (ha : ∀ s', a = pure s' →
      ∃ sb : Starc, help_procedure_epilogue sb.compiler p = .ok s'.compiler)
    (hb : ∀ s', b = pure s' →
      ∃ sb : Starc, help_procedure_epilogue sb.compiler p = .ok s'.compiler) :
    ∀ s', (if c then a else b) = pure s' →
      ∃ sb : Starc, help_procedure_epilogue sb.compiler p = .ok s'.compiler := by
  intro s' hs
  split at hs
  · exact ha s' hs
  · exact hb s' hs

theorem epilogue_last_emit (p : Nat) (y : Starc) (g : Starc → Starc)
    (hg : ∀ z, (g z).compiler = z.compiler) :
    ∀ s', ((liftM (emit y (fun c => help_procedure_epilogue c p)) :
        OptionT (Except Nat) Starc) >>= fun z => pure (g z)) = pure s' →
      ∃ sb : Starc, help_procedure_epilogue sb.compiler p = .ok s'.compiler := by
  intro s' hs
  obtain ⟨z, hz, hp⟩ := optionT_bind_inv _ _ _ hs
  obtain ⟨he, _⟩ := emit_lift_inv _ _ _ hz
  have e : g z = s' := Option.some.inj (Except.ok.inj hp)
  rw [← e, hg]
  exact ⟨y, he⟩

/-- The end of `compile_procedure` for the definition of a procedure with at least
one parameter: the number of parameters is what `compile_parameters` has counted
from 1 on, and the last code emitted is `help_procedure_epilogue` for that many
words. -/
theorem compile_procedure_epilogue (fuel : Nat) (s s1 s' : Starc) (procedure : Nat → Nat)
    (type : Nat)
    (hret : compile_procedure fuel s procedure type = pure s')
    (hlp : s.scanner.symbol = SYM_LPARENTHESIS)
    (hg : parser_get_symbol fuel s = pure s1)
    (hne : s1.scanner.symbol ≠ SYM_RPARENTHESIS) :
    ∃ s2 s3 sq n,
      compile_variable fuel s1 0 = pure s2 ∧
      compile_parameters fuel 1 s2 = pure (n, s3) ∧
      expect_symbol fuel
        { s3 with tables :=
            set_parameter_addresses s3.tables s3.tables.local_symbol_table 0 n }
        SYM_RPARENTHESIS = pure sq ∧
      (sq.scanner.symbol = SYM_LBRACE →
        ∃ sb : Starc, help_procedure_epilogue sb.compiler (mul32 n REGISTERSIZE) = .ok s'.compiler) := by
  unfold compile_procedure at hret
  dsimp only at hret
  rw [if_pos hlp] at hret
  obtain ⟨s1', hg', h2⟩ := optionT_bind_inv _ _ _ hret
  clear hret
  have e1 : s1' = s1 := by
    rw [hg] at hg'
    exact (Option.some.inj (Except.ok.inj hg')).symm
  subst e1
  rw [if_pos hne] at h2
  obtain ⟨s2, hv, h3⟩ := optionT_bind_inv _ _ _ h2
  clear h2
  obtain ⟨r3, hp, h4⟩ := optionT_bind_inv _ _ _ h3
  clear h3
  obtain ⟨sq, hx, h5⟩ := optionT_bind_inv _ _ _ h4
  clear h4
  obtain ⟨y, hy, h6⟩ := optionT_bind_inv _ _ _ h5
  clear h5
  have ey : (r3.1, sq) = y := Option.some.inj (Except.ok.inj hy)
  subst ey
  dsimp only at h6
  obtain ⟨entry, _, h7⟩ := optionT_bind_inv _ _ _ h6
  clear h6
  refine ⟨s2, r3.2, sq, r3.1, hv, hp, hx, ?_⟩
  intro hb
  rw [if_neg (by rw [hb]; decide), if_pos hb] at h7
  revert h7
  revert s'
  cases entry with
  | none =>
    dsimp only
    repeat' first
      | exact epilogue_last_emit _ _ _ (fun _ => rfl)
      | apply epilogue_last_ite
      | (apply epilogue_last_bind; intro _)
  | some entry =>
    dsimp only
    repeat' first
      | exact epilogue_last_emit _ _ _ (fun _ => rfl)
      | apply epilogue_last_ite
      | (apply epilogue_last_bind; intro _)

/-- C23 (amended): the arguments of a call are pushed in the order of the source
text, and the epilogue of the procedure called pops as many words as the procedure
has parameters.

Caller.  Let `compile_call` be entered at the first argument of a call, let the
expression compiler (any procedure `ce` in its place) compile the first argument
into the code `ws1` and, after each further comma, the other arguments into the
codes of the list `rest`, each with its value in the one temporary `t0`, and let
the list end at `)`.  Then `compile_call` returns, and between the temporaries it
saves and the ones it restores it has added to the binary exactly: the code of each
argument, in the order of the source text, each followed by the two instructions
`addi sp,sp,-4` and `sw t0,0(sp)`, and then `jal ra,call_offset`.  When this code
runs on a machine with room on its stack, and the code of each argument leaves the
stack pointer, the words at or above it and the code that follows alone, the
machine arrives at the target of the `jal` with the return address in `ra`, the
stack pointer lowered by one word for each argument, and the value of argument `i`
(counted from 0) at `sp + 4 * (n - 1 - i)` for `n` arguments: the last argument is
at the lowest address `sp`, the first at the highest.

Callee.  When `compile_procedure` returns for a procedure with a parameter list,
the number of parameters is what `compile_parameters` has counted from 1 on, and
for a definition the binary ends with the six instructions of
`help_procedure_epilogue` for that number of words, which (for at most 510
parameters) return to `ra` with `sp = fp + 8 + 4 * parameters`, whatever the number
of arguments that a call has pushed. -/
theorem call_pushes_arguments_in_source_order (isw : Machine → Except Nat Machine)
    (ce : Starc → OptionT (Except Nat) (Nat × Starc)) (fuel : Nat)
    (procedure : Nat → Nat) (s s0 a1 e e1 sj sf : Starc) (entry : Option SymbolTableEntry)
    (ws1 : List Nat) (rest : List (Starc × List Nat)) (ty : Nat)
    (fuel_p : Nat) (sc sc1 sc' : Starc) (type : Nat)
    (hentry : get_scoped_symbol_table_entry fuel s.tables procedure PROCEDURE = some entry)
    (hsave : emit_loop s (save_temporaries fuel) = pure s0)
    (hexp : is_expression s0 ≠ 0)
    (hfirst : compiles_argument ce s0 a1 ws1)
    (hmore : more_arguments ce fuel (after_push a1) rest e)
    (hrp : e.scanner.symbol = SYM_RPARENTHESIS)
    (hget : parser_get_symbol fuel e = pure e1)
    (hcall : help_call_codegen e1 entry procedure = .ok (ty, sj))
    (hrestore : emit_loop sj
      (fun c => restore_temporaries fuel c s.compiler.allocated_temporaries) = pure sf)
    (hret : compile_procedure fuel_p sc procedure type = pure sc')
    (hlp : sc.scanner.symbol = SYM_LPARENTHESIS)
    (hg : parser_get_symbol fuel_p sc = pure sc1)
    (hne : sc1.scanner.symbol ≠ SYM_RPARENTHESIS) :
    (compile_call fuel ce procedure s =
        pure (ty, { sf with number_of_calls := add32 sf.number_of_calls 1 }) ∧
      ∃ w_addi w_sw w_jal,
        encode_i_format (neg32 REGISTERSIZE) REG_SP F3_ADDI REG_SP OP_IMM = .ok w_addi ∧
        encode_s_format 0 REG_T0 REG_SP F3_SW OP_SW = .ok w_sw ∧
        encode_j_format (call_offset e1 entry) REG_RA OP_JAL = .ok w_jal ∧
        appends_code s0.compiler sj.compiler
          (argument_pushes w_addi w_sw (ws1 :: rest.map Prod.snd) ++ [w_jal]) ∧
        ∀ (m : Machine) (vs : List Nat), call_offset e1 entry < 4294967296 →
          code_loaded sj.compiler s0.compiler.binary_length
            ((argument_pushes w_addi w_sw (ws1 :: rest.map Prod.snd)).length + 1) m →
          stack_room m ((argument_pushes w_addi w_sw (ws1 :: rest.map Prod.snd)).length + 1)
            (rest.length + 1) →
          arguments_evaluated isw w_addi w_sw 1 (ws1 :: rest.map Prod.snd) vs m →
          ∃ K m', steps isw K m = .ok m' ∧
            m'.pc = add32 m.pc
              (4 * (argument_pushes w_addi w_sw (ws1 :: rest.map Prod.snd)).length +
                (call_offset e1 entry - call_offset e1 entry % 2)) ∧
            m'.registers REG_RA = add32 m.pc
              (4 * (argument_pushes w_addi w_sw (ws1 :: rest.map Prod.snd)).length + 4) ∧
            m'.registers REG_SP = m.registers REG_SP - 4 * (rest.length + 1) ∧
            m'.pt = m.pt ∧ vs.length = rest.length + 1 ∧
            ∀ i, i < rest.length + 1 →
              load_virtual_memory m'.memory m'.pt
                (m'.registers REG_SP + 4 * (rest.length - i)) = vs.getD i 0) ∧
    ∃ sc2 sc3 sq parameters,
      compile_variable fuel_p sc1 0 = pure sc2 ∧
      compile_parameters fuel_p 1 sc2 = pure (parameters, sc3) ∧
      expect_symbol fuel_p
        { sc3 with tables :=
            set_parameter_addresses sc3.tables sc3.tables.local_symbol_table 0 parameters }
        SYM_RPARENTHESIS = pure sq ∧
      (sq.scanner.symbol = SYM_LBRACE →
        ∃ sb : Starc,
          help_procedure_epilogue sb.compiler (mul32 parameters REGISTERSIZE) =
            .ok sc'.compiler ∧
          (parameters ≤ 510 → sc'.compiler.binary_length ≤ MAX_CODE_LENGTH →
            ∃ ws, emits sb.compiler sc'.compiler ws ∧ ws.length = 6 ∧
              ∀ m : Machine, m.pc < 4294967296 →
                m.registers REG_FP + 4 < 2147483648 → m.registers REG_FP % 4 = 0 →
                m.pt (m.registers REG_FP / 4096) ≠ 0 →
                m.pt ((m.registers REG_FP + 4) / 4096) ≠ 0 →
                code_loaded sc'.compiler sb.compiler.binary_length 6 m →
                ∃ m', steps isw 6 m = .ok m' ∧
                  m'.registers REG_SP = m.registers REG_FP + 8 + 4 * parameters ∧
                  m'.registers REG_FP =
                    load_virtual_memory m.memory m.pt (m.registers REG_FP) ∧
                  m'.registers REG_RA =
                    load_virtual_memory m.memory m.pt (m.registers REG_FP + 4) ∧
                  m'.pc = left_shift (right_shift (add32
                    (load_virtual_memory m.memory m.pt (m.registers REG_FP + 4)) 0) 1) 1 ∧
                  m'.memory = m.memory ∧ m'.pt = m.pt)) := by
  constructor
  · obtain ⟨hc, wa, wsw, wj, hwa, hws, hwj, hem⟩ :=
      compile_call_layout ce fuel procedure s s0 a1 e e1 sj sf entry ws1 rest ty
        hentry hsave hexp hfirst hmore hrp hget hcall hrestore
    refine ⟨hc, wa, wsw, wj, hwa, hws, hwj, hem, ?_⟩
    intro m vs himm hcl hroom hev
    have hlen : (argument_pushes wa wsw (ws1 :: rest.map Prod.snd) ++ [wj]).length =
        (argument_pushes wa wsw (ws1 :: rest.map Prod.snd)).length + 1 := by
      rw [List.length_append, List.length_singleton]
    have hn : (ws1 :: rest.map Prod.snd).length = rest.length + 1 := by
      rw [List.length_cons, List.length_map]
    obtain ⟨K, m1, hK, hpc1, hsp1, hpt1, htail, _, hlv, hvs⟩ :=
      run_arguments isw wa wsw hwa hws [wj] (ws1 :: rest.map Prod.snd) vs m
        (by
          intro i hi
          exact appended_code_word _ _ _ m i hem hi (by rw [hlen]; exact hcl))
        (by rw [hlen, hn]; exact hroom)
        hev
    rw [hn] at hsp1 hlv hvs
    have hir : in_signed_range (call_offset e1 entry) 21 := by
      by_contra hc'
      rw [encode_j_format_error _ REG_RA OP_JAL himm hc'] at hwj
      cases hwj
    have hj0 : load_virtual_memory m1.memory m1.pt m1.pc = wj := by
      have := htail 0 (by simp)
      rw [Nat.mul_zero, add32_zero _ (by rw [hpc1]; exact add32_lt _ _)] at this
      exact this
    obtain ⟨m2, hs2, hr2, hp2, hm2, hpt2⟩ := step_jal isw m1 _ REG_RA wj hir (by decide)
      (by decide) hwj hj0
    have hsp2 : m2.registers REG_SP = m.registers REG_SP - 4 * (rest.length + 1) := by
      rw [hr2, store_word_ne _ _ _ _ (show REG_SP ≠ REG_RA by decide), hsp1]
    obtain ⟨_, hlo, _⟩ := hroom
    refine ⟨K + 1, m2, ?_, ?_, ?_, hsp2, by rw [hpt2, hpt1], hlv, ?_⟩
    · rw [steps_append isw K 1 m m1 hK, steps_succ isw 0 m1 m2 hs2]
      rfl
    · rw [hp2, hpc1, add32_add32]
    · rw [hr2, store_word_same, hpc1, add32_add32]
    · intro i hi
      rw [hsp2, hm2, hpt2, ← hvs i hi]
      congr 1
      omega
  · obtain ⟨sc2, sc3, sq, n, hv, hp, hx, hb⟩ :=
      compile_procedure_epilogue fuel_p sc sc1 sc' procedure type hret hlp hg hne
    refine ⟨sc2, sc3, sq, n, hv, hp, hx, ?_⟩
    intro hbrace
    obtain ⟨sb, he⟩ := hb hbrace
    refine ⟨sb, he, ?_⟩
    intro hn hl
    have hlen := help_procedure_epilogue_length _ _ _ he
    have hp4 : mul32 n REGISTERSIZE = 4 * n := by
      unfold mul32 REGISTERSIZE
      omega
    rw [hp4] at he
    obtain ⟨c', ws, hep, hem, hl6, _, hrun⟩ :=
      help_procedure_epilogue_pops isw sb.compiler (4 * n) (by omega) (by omega)
    have ec : c' = sc'.compiler := Except.ok.inj (hep.symm.trans he)
    rw [ec] at hem hrun
    exact ⟨ws, hem, hl6, hrun⟩

theorem emits_word (c c' : Compiler) (w : Nat)
    (h1 : c'.binary_length = c.binary_length + 4)
    (h2 : c'.allocated_memory = c.allocated_memory)
    (h3 : c'.binary = fun i => if i = c.binary_length / 4 then w else c.binary i) :
    emits c c' [w] := by
  refine ⟨by rw [h1]; rfl, h2, ?_, ?_⟩
  · intro i hi
    have hi0 : i = 0 := by simpa using hi
    rw [hi0, h3]
    simp
  · intro i hi
    rw [h3]
    simp only [List.length_singleton] at hi
    exact if_neg (by omega)

set_option maxRecDepth 1000000 in
/-- The call `f(1, 2)` after the library, with the procedure `compile_expression`
for the arguments, and the definition `f(uint32_t a, uint32_t b) { return a; }`:
`compile_call` returns and has emitted `addi t0,zero,1`, the push, `addi t0,zero,2`,
the push and the `jal`; on `call_machine` the code leads in seven instructions to
the `jal` target with `2` at `sp` and `1` at `sp + 4`; and `compile_procedure` ends
the definition with the epilogue for two parameters. -/
theorem call_pushes_arguments_in_source_order_witness :
    (get_scoped_symbol_table_entry 1000 call_starc.tables f_name PROCEDURE = some none ∧
      emit_loop call_starc (save_temporaries 1000) = pure call_starc ∧
      is_expression call_starc ≠ 0 ∧
      compiles_argument (compile_expression 1000) call_starc first_compiled_starc [1049235] ∧
      more_arguments (compile_expression 1000) 1000 (after_push first_compiled_starc)
        [(second_compiled_starc, [2097811])] (after_push second_compiled_starc) ∧
      (after_push second_compiled_starc).scanner.symbol = SYM_RPARENTHESIS ∧
      parser_get_symbol 1000 (after_push second_compiled_starc) = pure call_end_starc ∧
      help_call_codegen call_end_starc none f_name = .ok (UINT32_T, call_done_starc) ∧
      emit_loop call_done_starc
        (fun c => restore_temporaries 1000 c call_starc.compiler.allocated_temporaries) =
          pure call_done_starc ∧
      compile_procedure 1000 procedure_starc f_name UINT32_T = pure procedure_done_starc ∧
      procedure_starc.scanner.symbol = SYM_LPARENTHESIS ∧
      parser_get_symbol 1000 procedure_starc = pure parameters_starc ∧
      parameters_starc.scanner.symbol ≠ SYM_RPARENTHESIS) ∧
    compile_call 1000 (compile_expression 1000) f_name call_starc =
      pure (UINT32_T,
        { call_done_starc with number_of_calls := add32 call_done_starc.number_of_calls 1 }) ∧
    (∃ w_addi w_sw w_jal,
      encode_i_format (neg32 REGISTERSIZE) REG_SP F3_ADDI REG_SP OP_IMM = .ok w_addi ∧
      encode_s_format 0 REG_T0 REG_SP F3_SW OP_SW = .ok w_sw ∧
      encode_j_format 0 REG_RA OP_JAL = .ok w_jal ∧
      appends_code call_starc.compiler call_done_starc.compiler
        [1049235, w_addi, w_sw, 2097811, w_addi, w_sw, w_jal]) ∧
    stack_room call_machine 7 2 ∧
    (∃ K m', steps (fun m => .ok m) K call_machine = .ok m' ∧
      m'.pc = 65868 ∧ m'.registers REG_RA = 65872 ∧
      m'.registers REG_SP = call_machine.registers REG_SP - 8 ∧
      load_virtual_memory m'.memory m'.pt (m'.registers REG_SP) = 2 ∧
      load_virtual_memory m'.memory m'.pt (m'.registers REG_SP + 4) = 1) ∧
    ∃ (sb : Starc) (ws : List Nat),
      help_procedure_epilogue sb.compiler (mul32 2 REGISTERSIZE) =
        .ok procedure_done_starc.compiler ∧
      emits sb.compiler procedure_done_starc.compiler ws ∧ ws.length = 6 := by
  have h1 : get_scoped_symbol_table_entry 1000 call_starc.tables f_name PROCEDURE = some none :=
    rfl
  have h2 : emit_loop call_starc (save_temporaries 1000) = pure call_starc := rfl
  have h3 : is_expression call_starc ≠ 0 := by decide
  have h4 : compiles_argument (compile_expression 1000) call_starc first_compiled_starc
      [1049235] :=
    ⟨⟨UINT32_T, rfl⟩, appends_code_of_emits _ _ _ (emits_word _ _ _ rfl rfl rfl), rfl,
      by rw [show first_compiled_starc.compiler.binary_length = 312 from rfl]; decide⟩
  have h5 : more_arguments (compile_expression 1000) 1000 (after_push first_compiled_starc)
      [(second_compiled_starc, [2097811])] (after_push second_compiled_starc) := by
    unfold more_arguments
    refine ⟨rfl, ⟨second_starc, rfl, ⟨UINT32_T, rfl⟩,
      appends_code_of_emits _ _ _ (emits_word _ _ _ rfl rfl rfl), rfl,
      by rw [show second_compiled_starc.compiler.binary_length = 324 from rfl]; decide⟩, ?_⟩
    unfold more_arguments
    exact ⟨by decide, rfl⟩
  have h6 : (after_push second_compiled_starc).scanner.symbol = SYM_RPARENTHESIS := rfl
  have h7 : parser_get_symbol 1000 (after_push second_compiled_starc) = pure call_end_starc :=
    rfl
  have h8 : help_call_codegen call_end_starc none f_name = .ok (UINT32_T, call_done_starc) :=
    rfl
  have h9 : emit_loop call_done_starc
      (fun c => restore_temporaries 1000 c call_starc.compiler.allocated_temporaries) =
        pure call_done_starc := rfl
  have h10 : compile_procedure 1000 procedure_starc f_name UINT32_T =
      pure procedure_done_starc := rfl
  have h11 : procedure_starc.scanner.symbol = SYM_LPARENTHESIS := rfl
  have h12 : parser_get_symbol 1000 procedure_starc = pure parameters_starc := rfl
  have h13 : parameters_starc.scanner.symbol ≠ SYM_RPARENTHESIS := by decide
  obtain ⟨⟨hc, wa, wsw, wj, hwa, hws, hwj, hem, hrun⟩, sc2, sc3, sq, np, hv, hp, hx, hb⟩ :=
    call_pushes_arguments_in_source_order (fun m => .ok m) (compile_expression 1000) 1000
      f_name call_starc call_starc first_compiled_starc (after_push second_compiled_starc)
      call_end_starc call_done_starc call_done_starc none [1049235]
      [(second_compiled_starc, [2097811])] UINT32_T 1000 procedure_starc parameters_starc
      procedure_done_starc UINT32_T h1 h2 h3 h4 h5 h6 h7 h8 h9 h10 h11 h12 h13
  have hroom : stack_room call_machine 7 2 := by
    refine ⟨by decide, by decide, by decide, by decide, ?_, ?_, ?_⟩
    · intro j hj1 hj2
      interval_cases j <;> decide
    · intro j j' hj1 hj2 hj3
      have e2 : j' = 2 := by omega
      have e1 : j = 1 := by omega
      subst e2 e1
      decide
    · intro i j hi hj1 hj2
      interval_cases j <;> interval_cases i <;> decide
  refine ⟨⟨h1, h2, h3, h4, h5, h6, h7, h8, h9, h10, h11, h12, h13⟩, hc,
    ⟨wa, wsw, wj, hwa, hws, hwj, hem⟩, hroom, ?_, ?_⟩
  · have e1 : steps (fun m => .ok m) 1 call_machine = .ok (call_machine_after 1) := rfl
    have e2 : steps (fun m => .ok m) 2 (call_machine_after 1) = .ok (call_machine_after 3) := rfl
    have e3 : steps (fun m => .ok m) 1 (call_machine_after 3) = .ok (call_machine_after 4) := rfl
    have hev : arguments_evaluated (fun m => .ok m) wa wsw 1 [[1049235], [2097811]] [1, 2]
        call_machine := by
      unfold arguments_evaluated
      refine ⟨1, call_machine_after 1, e1, rfl, rfl, rfl, rfl, fun x _ => rfl, fun i _ => rfl, ?_⟩
      intro mp hmp
      have emp : call_machine_after 3 = mp := Except.ok.inj (e2.symm.trans hmp)
      rw [← emp]
      unfold arguments_evaluated
      refine ⟨1, call_machine_after 4, e3, rfl, rfl, rfl, rfl, fun x _ => rfl, fun i _ => rfl, ?_⟩
      intro mq _
      unfold arguments_evaluated
      trivial
    have hcl : code_loaded call_done_starc.compiler call_starc.compiler.binary_length
        ((argument_pushes wa wsw ([1049235] :: [(second_compiled_starc, [2097811])].map
          Prod.snd)).length + 1) call_machine := by
      intro i hi
      have hi7 : i < 7 := hi
      interval_cases i <;> rfl
    obtain ⟨K, m', hK, hpc, hra, hsp, _, _, hvs⟩ := hrun call_machine [1, 2] (by decide) hcl
      hroom hev
    refine ⟨K, m', hK, hpc, hra, hsp, ?_, ?_⟩
    · exact hvs 1 (by decide)
    · exact hvs 0 (by decide)
  · have e2 : compile_variable 1000 parameters_starc 0 =
        pure (starc_of (compile_variable 1000 parameters_starc 0)) := rfl
    have s2 : starc_of (compile_variable 1000 parameters_starc 0) = sc2 :=
      Option.some.inj (Except.ok.inj (e2.symm.trans hv))
    rw [← s2] at hp
    have e3 : compile_parameters 1000 1 (starc_of (compile_variable 1000 parameters_starc 0)) =
        pure (2, starc_of (compile_parameters 1000 1
          (starc_of (compile_variable 1000 parameters_starc 0)) >>= fun r => pure r.2)) := rfl
    have s3 := Option.some.inj (Except.ok.inj (e3.symm.trans hp))
    have n2 : 2 = np := congrArg Prod.fst s3
    have s3' := congrArg Prod.snd s3
    dsimp only at s3'
    rw [← n2, ← s3'] at hx
    rw [← n2] at hb
    have e4 : expect_symbol 1000
        { starc_of (compile_parameters 1000 1
            (starc_of (compile_variable 1000 parameters_starc 0)) >>= fun r => pure r.2) with
          tables := set_parameter_addresses
            (starc_of (compile_parameters 1000 1
              (starc_of (compile_variable 1000 parameters_starc 0)) >>=
                fun r => pure r.2)).tables
            (starc_of (compile_parameters 1000 1
              (starc_of (compile_variable 1000 parameters_starc 0)) >>=
                fun r => pure r.2)).tables.local_symbol_table 0 2 }
        SYM_RPARENTHESIS = pure (starc_of (expect_symbol 1000
        { starc_of (compile_parameters 1000 1
            (starc_of (compile_variable 1000 parameters_starc 0)) >>= fun r => pure r.2) with
          tables := set_parameter_addresses
            (starc_of (compile_parameters 1000 1
              (starc_of (compile_variable 1000 parameters_starc 0)) >>=
                fun r => pure r.2)).tables
            (starc_of (compile_parameters 1000 1
              (starc_of (compile_variable 1000 parameters_starc 0)) >>=
                fun r => pure r.2)).tables.local_symbol_table 0 2 }
        SYM_RPARENTHESIS)) := rfl
    have s4 := Option.some.inj (Except.ok.inj (e4.symm.trans hx))
    obtain ⟨sb, he, hm⟩ := hb (by rw [← s4]; rfl)
    obtain ⟨ws, hem6, hl6, _⟩ := hm (by decide)
      (by rw [show procedure_done_starc.compiler.binary_length = 364 from rfl]; decide)
    exact ⟨sb, ws, he, hem6, hl6⟩

set_option maxRecDepth 1000000 in
/-- C23, counterexample: the program `uint32_t f(uint32_t a, uint32_t b) { return a; }
uint32_t main() { return f(1, 2); }` is compiled and run.  When `f` is entered
after 30 instructions, at the code address that follows the library, the last
argument `2` is at the lowest address `sp` and the first argument `1` is one word
above it, and 14 instructions later the call has returned to `ra` with `sp` as it
was before the arguments were pushed.  With the call `f(1, 2, 3)` in its place,
`f` is entered after 33 instructions with `3`, `2`, `1` at `sp`, `sp + 4`, `sp + 8`,
and when the call has returned to `ra` after 14 more instructions only two
words have been popped: `sp` is one word below its value before the arguments were
pushed, and the first argument `1` is still on the stack. -/
theorem call_pushes_first_argument_first :
    (machine_after two_arguments_source 23).registers REG_SP = 2147483608 ∧
    show_call (machine_after two_arguments_source 30) =
      [65536 + library_starc.compiler.binary_length, 2147483600, 65948, 2, 1, 0] ∧
    show_call (machine_after two_arguments_source 44) =
      [65948, 2147483608, 65948, 0, 65608, 2147483624] ∧
    (machine_after three_arguments_source 23).registers REG_SP = 2147483608 ∧
    show_call (machine_after three_arguments_source 33) =
      [65536 + library_starc.compiler.binary_length, 2147483596, 65960, 3, 2, 1] ∧
    show_call (machine_after three_arguments_source 47) =
      [65960, 2147483604, 65960, 1, 0, 65608] :=
  ⟨rfl, rfl, rfl, rfl, rfl, rfl⟩

end Selfie
